import Mathlib

/-!
# Embedded InnoDB: a shallow embedding of the transaction system header,
the mini-transaction log writers and parsers, the record converter and the
undo log writers, with the properties that the specification states of them.

Memory is byte addressed: a pointer of the C++ code is a natural number and a
buffer is a function from addresses to bytes.  Machine integers are natural
numbers, reduced modulo the width of their type where the code relies on it.
-/

namespace InnoDB

/-! ## Bytes and memory -/

/-- Byte-addressed memory: the frame of a page, a log buffer, a record buffer. -/
abbrev Mem := Nat → Nat

/-- The byte stored at address `a`. -/
def Mem.byte (m : Mem) (a : Nat) : Nat := m a % 256

/-- Store of one byte, `*(byte *) a = (byte) v`. -/
def Mem.put (m : Mem) (a v : Nat) : Mem := fun x => if x = a then v % 256 else m x

/-- The C library `memcpy(dst, src, len)`, source and destination in
different (or the same, not overlapping) buffers. -/
def memcpy (dstm : Mem) (dst : Nat) (srcm : Mem) (src len : Nat) : Mem :=
  fun x => if dst ≤ x ∧ x < dst + len then srcm (src + (x - dst)) else dstm x

/-- The C library `memset(dst, c, len)`. -/
def memset (m : Mem) (dst c len : Nat) : Mem :=
  fun x => if dst ≤ x ∧ x < dst + len then c % 256 else m x

/-- The bytes of a buffer from `a` on, `len` of them. -/
def Mem.bytes (m : Mem) (a len : Nat) : List Nat := (List.range len).map (fun k => m (a + k))

/-- Copy of a byte string into memory (`memcpy` from a value of the model). -/
def Mem.store (m : Mem) (dst : Nat) (data : List Nat) : Mem :=
  fun x => if dst ≤ x ∧ x < dst + data.length then data.getD (x - dst) 0 else m x

/-! ## Sizes and offsets that the sources take from headers outside `src/` -/

/-- Modelled from the spec: the page size `UNIV_PAGE_SIZE` (innodb0types.h is
not among the sources); the spec gives "Fixed size P (typically 16 KiB)". -/
def UNIV_PAGE_SIZE : Nat := 16384

/-- Modelled from the spec: `ULINT_UNDEFINED`, the all-ones `ulint`
(innodb0types.h is not among the sources); `ulint` is a 64-bit word. -/
def ULINT_UNDEFINED : Nat := 2 ^ 64 - 1

/-- Modelled from the spec: `FIL_PAGE_OFFSET`, the place of the page number in
the 38-byte file header `(checksum_low, page_no, ...)` (fil0types.h is not
among the sources). -/
def FIL_PAGE_OFFSET : Nat := 4

/-- Modelled from the spec: `FIL_PAGE_LSN`, the place of `newest_lsn` in the
file header `(checksum_low, page_no, prev_sibling, next_sibling, newest_lsn,
...)` (fil0types.h is not among the sources). -/
def FIL_PAGE_LSN : Nat := 16

/-- Modelled from the spec: `FIL_PAGE_SPACE_ID`, the last field of the 38-byte
file header (fil0types.h is not among the sources). -/
def FIL_PAGE_SPACE_ID : Nat := 34

/-- Modelled from the spec: `FIL_PAGE_DATA`, the size of the "38-byte file
header" (fil0types.h is not among the sources). -/
def FIL_PAGE_DATA : Nat := 38

/-- Modelled from the spec: `FIL_PAGE_DATA_END`, the size of the "8-byte
trailer" (fil0types.h is not among the sources). -/
def FIL_PAGE_DATA_END : Nat := 8

/-- Modelled from the spec: `FIL_PAGE_END_LSN_OLD_CHKSUM`, the offset from the
page end of the 8-byte trailer `(old_checksum, last4_of_lsn)` (fil0types.h is
not among the sources). -/
def FIL_PAGE_END_LSN_OLD_CHKSUM : Nat := 8

/-- Modelled from the spec: `FSP_EXTENT_SIZE`, the pages of one extent
(fsp0types.h is not among the sources); trx0sys.h speaks of "64
(= FSP_EXTENT_SIZE) consecutive pages". -/
def FSP_EXTENT_SIZE : Nat := 64

/-- Modelled from the spec: `SYS_TABLESPACE`, the id of the system tablespace
(innodb0types.h is not among the sources). -/
def SYS_TABLESPACE : Nat := 0

/-- Modelled from the spec: `FSP_TRX_SYS_PAGE_NO` (fsp0types.h is not among the
sources); the spec has "Page 5 (system tablespace) is the trx-sys page". -/
def FSP_TRX_SYS_PAGE_NO : Nat := 5

/-- Modelled from the spec: `FSEG_PAGE_DATA`, where the data of a page of a
file segment starts (fsp0types.h is not among the sources): right after the
38-byte file header. -/
def FSEG_PAGE_DATA : Nat := FIL_PAGE_DATA

/-! ## Machine-format integers (`mach0data.h`)

`mach0data.h` is not among the sources.  The readers and writers below are
the ones the callers in `mtr0log.cc`, `trx0rec.cc` and `trx0sys.cc` presuppose:
most significant byte first, and the "compressed" form of 1 to 5 bytes for a
32-bit value (callers reserve 5 bytes for one, 9 for a 64-bit value). -/

/-- Modelled from the spec: `mach_write_to_1` (mach0data.h is not among the
sources). -/
def mach_write_to_1 (m : Mem) (b n : Nat) : Mem := m.put b n

/-- Modelled from the spec: `mach_read_from_1` (mach0data.h is not among the
sources). -/
def mach_read_from_1 (m : Mem) (b : Nat) : Nat := m.byte b

/-- Modelled from the spec: `mach_write_to_2`, most significant byte first
(mach0data.h is not among the sources). -/
def mach_write_to_2 (m : Mem) (b n : Nat) : Mem := (m.put b (n / 2 ^ 8)).put (b + 1) n

/-- Modelled from the spec: `mach_read_from_2` (mach0data.h is not among the
sources). -/
def mach_read_from_2 (m : Mem) (b : Nat) : Nat := m.byte b * 2 ^ 8 + m.byte (b + 1)

/-- Modelled from the spec: `mach_write_to_3` (mach0data.h is not among the
sources). -/
def mach_write_to_3 (m : Mem) (b n : Nat) : Mem :=
  ((m.put b (n / 2 ^ 16)).put (b + 1) (n / 2 ^ 8)).put (b + 2) n

/-- Modelled from the spec: `mach_read_from_3` (mach0data.h is not among the
sources). -/
def mach_read_from_3 (m : Mem) (b : Nat) : Nat :=
  m.byte b * 2 ^ 16 + m.byte (b + 1) * 2 ^ 8 + m.byte (b + 2)

/-- Modelled from the spec: `mach_write_to_4` (mach0data.h is not among the
sources). -/
def mach_write_to_4 (m : Mem) (b n : Nat) : Mem :=
  (((m.put b (n / 2 ^ 24)).put (b + 1) (n / 2 ^ 16)).put (b + 2) (n / 2 ^ 8)).put (b + 3) n

/-- Modelled from the spec: `mach_read_from_4` (mach0data.h is not among the
sources). -/
def mach_read_from_4 (m : Mem) (b : Nat) : Nat :=
  m.byte b * 2 ^ 24 + m.byte (b + 1) * 2 ^ 16 + m.byte (b + 2) * 2 ^ 8 + m.byte (b + 3)

/-- Modelled from the spec: `mach_write_to_8`, the upper 32 bits first
(mach0data.h is not among the sources). -/
def mach_write_to_8 (m : Mem) (b n : Nat) : Mem :=
  mach_write_to_4 (mach_write_to_4 m b (n / 2 ^ 32 % 2 ^ 32)) (b + 4) (n % 2 ^ 32)

/-- Modelled from the spec: `mach_read_from_8` (mach0data.h is not among the
sources). -/
def mach_read_from_8 (m : Mem) (b : Nat) : Nat :=
  mach_read_from_4 m b * 2 ^ 32 + mach_read_from_4 m (b + 4)

/-- Modelled from the spec: `mach_get_compressed_size`, the bytes the
compressed form of a 32-bit value takes (mach0data.h is not among the
sources). -/
def mach_get_compressed_size (n : Nat) : Nat :=
  if n < 0x80 then 1
  else if n < 0x4000 then 2
  else if n < 0x200000 then 3
  else if n < 0x10000000 then 4
  else 5

/-- Modelled from the spec: `mach_write_compressed`, which writes a 32-bit
value in 1 to 5 bytes and returns the number of bytes (mach0data.h is not
among the sources).  The flag bits are added, which is the bitwise or of the
code because each branch bounds `n` below the flag. -/
def mach_write_compressed (m : Mem) (b n : Nat) : Mem × Nat :=
  if n < 0x80 then (mach_write_to_1 m b n, 1)
  else if n < 0x4000 then (mach_write_to_2 m b (n + 0x8000), 2)
  else if n < 0x200000 then (mach_write_to_3 m b (n + 0xC00000), 3)
  else if n < 0x10000000 then (mach_write_to_4 m b (n + 0xE0000000), 4)
  else (mach_write_to_4 (mach_write_to_1 m b 0xF0) (b + 1) n, 5)

/-- Modelled from the spec: `mach_read_compressed` (mach0data.h is not among
the sources).  Masking with `2^k - 1` is the remainder modulo `2^k`. -/
def mach_read_compressed (m : Mem) (b : Nat) : Nat :=
  let flag := mach_read_from_1 m b
  if flag < 0x80 then flag
  else if flag < 0xC0 then mach_read_from_2 m b % 0x8000
  else if flag < 0xE0 then mach_read_from_3 m b % 0x400000
  else if flag < 0xF0 then mach_read_from_4 m b % 0x20000000
  else mach_read_from_4 m (b + 1)

/-- Modelled from the spec: `mach_parse_compressed(ptr, end_ptr)`, which reads
a compressed value from a buffer that ends at `end_ptr`; it returns the value
and advances `ptr`, or sets `ptr` to null when the buffer ends first
(mach0data.h is not among the sources).  `none` is the null pointer. -/
def mach_parse_compressed (m : Mem) (ptr end_ptr : Nat) : Option (Nat × Nat) :=
  if ptr ≥ end_ptr then none
  else
    let flag := mach_read_from_1 m ptr
    if flag < 0x80 then some (flag, ptr + 1)
    else if flag < 0xC0 then
      if end_ptr < ptr + 2 then none else some (mach_read_from_2 m ptr % 0x8000, ptr + 2)
    else if flag < 0xE0 then
      if end_ptr < ptr + 3 then none else some (mach_read_from_3 m ptr % 0x400000, ptr + 3)
    else if flag < 0xF0 then
      if end_ptr < ptr + 4 then none else some (mach_read_from_4 m ptr % 0x20000000, ptr + 4)
    else
      if end_ptr < ptr + 5 then none else some (mach_read_from_4 m (ptr + 1), ptr + 5)

/-- Modelled from the spec: `mach_uint64_get_compressed_size` (mach0data.h is
not among the sources). -/
def mach_uint64_get_compressed_size (n : Nat) : Nat :=
  4 + mach_get_compressed_size (n / 2 ^ 32 % 2 ^ 32)

/-- Modelled from the spec: `mach_uint64_write_compressed`, the upper 32 bits
compressed and the lower 32 bits in 4 bytes; returns the size (mach0data.h is
not among the sources). -/
def mach_uint64_write_compressed (m : Mem) (b n : Nat) : Mem × Nat :=
  let r := mach_write_compressed m b (n / 2 ^ 32 % 2 ^ 32)
  (mach_write_to_4 r.1 (b + r.2) (n % 2 ^ 32), r.2 + 4)

/-- Modelled from the spec: `mach_uint64_read_compressed` (mach0data.h is not
among the sources). -/
def mach_uint64_read_compressed (m : Mem) (b : Nat) : Nat :=
  let high := mach_read_compressed m b
  let size := mach_get_compressed_size high
  high * 2 ^ 32 + mach_read_from_4 m (b + size)

/-- Modelled from the spec: `mach_uint64_parse_compressed(ptr, end_ptr, &val)`,
which returns the advanced pointer and the value, or null when the buffer ends
first (mach0data.h is not among the sources). -/
def mach_uint64_parse_compressed (m : Mem) (ptr end_ptr : Nat) : Option (Nat × Nat) :=
  if end_ptr < ptr + 5 then none
  else
    let high := mach_read_compressed m ptr
    let size := mach_get_compressed_size high
    let ptr := ptr + size
    if end_ptr < ptr + 4 then none
    else some (high * 2 ^ 32 + mach_read_from_4 m ptr, ptr + 4)

/-- Modelled from the spec: `mach_uint64_get_much_compressed_size`
(mach0data.h is not among the sources). -/
def mach_uint64_get_much_compressed_size (n : Nat) : Nat :=
  if n / 2 ^ 32 % 2 ^ 32 = 0 then mach_get_compressed_size (n % 2 ^ 32)
  else 1 + mach_get_compressed_size (n / 2 ^ 32 % 2 ^ 32) + mach_get_compressed_size (n % 2 ^ 32)

/-- Modelled from the spec: `mach_uint64_write_much_compressed`: a value below
`2^32` is written compressed; otherwise the byte `0xFF`, the upper and then
the lower 32 bits, each compressed (mach0data.h is not among the sources). -/
def mach_uint64_write_much_compressed (m : Mem) (b n : Nat) : Mem × Nat :=
  if n / 2 ^ 32 % 2 ^ 32 = 0 then mach_write_compressed m b (n % 2 ^ 32)
  else
    let m1 := m.put b 0xFF
    let r := mach_write_compressed m1 (b + 1) (n / 2 ^ 32 % 2 ^ 32)
    let size := 1 + r.2
    let r2 := mach_write_compressed r.1 (b + size) (n % 2 ^ 32)
    (r2.1, size + r2.2)

/-- Modelled from the spec: `mach_uint64_read_much_compressed` (mach0data.h is
not among the sources). -/
def mach_uint64_read_much_compressed (m : Mem) (b : Nat) : Nat :=
  if m.byte b ≠ 0xFF then mach_read_compressed m b
  else
    let high := mach_read_compressed m (b + 1)
    let size := 1 + mach_get_compressed_size high
    high * 2 ^ 32 + mach_read_compressed m (b + size)

/-- Modelled from the spec: `ut_uint64_align_up(n, align_no)`, the smallest
multiple of the power of two `align_no` that is at least `n`, in 64-bit
arithmetic (ut0byte.h is not among the sources). -/
def ut_uint64_align_up (n align_no : Nat) : Nat :=
  (n + align_no - 1) % 2 ^ 64 / align_no * align_no

/-! ## Mini-transactions and their log (`mtr0log.cc`) -/

/-- Modelled from the spec: `MTR_LOG_ALL`, the mode in which a
mini-transaction logs every change (mtr0mtr.h is not among the sources). -/
def MTR_LOG_ALL : Nat := 21

/-- Modelled from the spec: `MTR_LOG_NONE`, the mode in which nothing is
logged (mtr0mtr.h is not among the sources). -/
def MTR_LOG_NONE : Nat := 22

/-- Modelled from the spec: the redo type `MLOG_1BYTE` (mtr0types.h is not
among the sources). -/
def MLOG_1BYTE : Nat := 1

/-- Modelled from the spec: the redo type `MLOG_2BYTES` (mtr0types.h is not
among the sources). -/
def MLOG_2BYTES : Nat := 2

/-- Modelled from the spec: the redo type `MLOG_4BYTES` (mtr0types.h is not
among the sources). -/
def MLOG_4BYTES : Nat := 4

/-- Modelled from the spec: the redo type `MLOG_8BYTES` (mtr0types.h is not
among the sources). -/
def MLOG_8BYTES : Nat := 8

/-- Modelled from the spec: the redo type `MLOG_UNDO_INSERT` (mtr0types.h is
not among the sources). -/
def MLOG_UNDO_INSERT : Nat := 20

/-- Modelled from the spec: the redo type `MLOG_UNDO_ERASE_END` (mtr0types.h
is not among the sources). -/
def MLOG_UNDO_ERASE_END : Nat := 21

/-- Modelled from the spec: `MLOG_BIGGEST_TYPE`, the largest redo type code
(mtr0types.h is not among the sources). -/
def MLOG_BIGGEST_TYPE : Nat := 51

/-- Modelled from the spec: `MLOG_SINGLE_REC_FLAG`, the bit of the type byte
that marks a mini-transaction of a single record (mtr0types.h is not among the
sources). -/
def MLOG_SINGLE_REC_FLAG : Nat := 128

/-- Modelled from the spec: `MLOG_BUF_MARGIN`, the slack `mlog_open` callers
add to the space they reserve (mtr0log.h is not among the sources). -/
def MLOG_BUF_MARGIN : Nat := 256

/-- The mini-transaction `mtr_t`, with the fields the log writers use.  The
dyn array `log` is seen as one byte string: `log` is its storage and `log_len`
the number of bytes in use. -/
structure mtr_t where
  log_mode : Nat
  modifications : Bool
  n_log_recs : Nat
  log : Mem
  log_len : Nat

/-- Modelled from the spec: `mtr_start` "initializes empty memo and empty redo
buffer" (mtr0mtr.h is not among the sources). -/
def mtr_start : mtr_t :=
  { log_mode := MTR_LOG_ALL, modifications := false, n_log_recs := 0, log := fun _ => 0,
    log_len := 0 }

/-- Modelled from the spec: `mtr_get_log_mode` (mtr0mtr.h is not among the
sources). -/
def mtr_get_log_mode (mtr : mtr_t) : Nat := mtr.log_mode

/-- The redo bytes a mini-transaction has logged. -/
def mtr_t.log_bytes (mtr : mtr_t) : List Nat := mtr.log.bytes 0 mtr.log_len

/-- Modelled from the spec: `mlog_open(mtr, size)` opens a buffer of `size`
bytes at the end of the log and returns a pointer to it, or null when the
mini-transaction does not log (mtr0log.h is not among the sources). -/
def mlog_open (mtr : mtr_t) (_size : Nat) : mtr_t × Option Nat :=
  let mtr := { mtr with modifications := true }
  if mtr_get_log_mode mtr = MTR_LOG_NONE then (mtr, none) else (mtr, some mtr.log_len)

/-- Modelled from the spec: `mlog_close(mtr, ptr)` closes the buffer opened by
`mlog_open`: the log ends at `ptr` (mtr0log.h is not among the sources). -/
def mlog_close (mtr : mtr_t) (ptr : Nat) : mtr_t := { mtr with log_len := ptr }

/-- Modelled from the spec: `dyn_push_string(arr, str, len)` appends `len`
bytes to the dyn array (dyn0dyn.h is not among the sources). -/
def dyn_push_string (mtr : mtr_t) (strm : Mem) (str len : Nat) : mtr_t :=
  { mtr with log := memcpy mtr.log mtr.log_len strm str len, log_len := mtr.log_len + len }

/-- The function `mlog_catenate_string` of mtr0log.cc. -/
def mlog_catenate_string (mtr : mtr_t) (strm : Mem) (str len : Nat) : mtr_t :=
  if mtr_get_log_mode mtr = MTR_LOG_NONE then mtr
  else dyn_push_string mtr strm str len

/-- The function `mlog_write_initial_log_record_fast` of mtr0log.cc.  `page`
is the frame that holds `ptr` (`ut_align_down(ptr, UNIV_PAGE_SIZE)`), `creating`
the global `trx_doublewrite_buf_is_being_created`.  Returns the advanced
`log_ptr`.  The message printed for a doublewrite page outside creation is not
modelled. -/
def mlog_write_initial_log_record_fast (creating : Bool) (page : Mem) (type log_ptr : Nat)
    (mtr : mtr_t) : Nat × mtr_t :=
  let space := mach_read_from_4 page FIL_PAGE_SPACE_ID
  let offset := mach_read_from_4 page FIL_PAGE_OFFSET
  if space = SYS_TABLESPACE ∧ offset ≥ FSP_EXTENT_SIZE ∧ offset < 3 * FSP_EXTENT_SIZE
      ∧ creating = true then
    (log_ptr, mtr)
  else
    let log := mach_write_to_1 mtr.log log_ptr type
    let log_ptr := log_ptr + 1
    let r := mach_write_compressed log log_ptr space
    let log_ptr := log_ptr + r.2
    let r := mach_write_compressed r.1 log_ptr offset
    let log_ptr := log_ptr + r.2
    (log_ptr, { mtr with log := r.1, n_log_recs := mtr.n_log_recs + 1 })

/-- The function `mlog_write_initial_log_record` of mtr0log.cc. -/
def mlog_write_initial_log_record (creating : Bool) (page : Mem) (type : Nat) (mtr : mtr_t) :
    mtr_t :=
  match mlog_open mtr 11 with
  | (mtr, none) => mtr
  | (mtr, some log_ptr) =>
    let r := mlog_write_initial_log_record_fast creating page type log_ptr mtr
    mlog_close r.2 r.1

/-- What `mlog_parse_initial_log_record` hands back when it does not return
null: the advanced pointer and the out-parameters. -/
structure initial_log_record where
  ptr : Nat
  type : Nat
  space : Nat
  page_no : Nat
deriving DecidableEq, Repr

/-- The function `mlog_parse_initial_log_record` of mtr0log.cc, on the log
buffer `log`; `none` is the null pointer. -/
def mlog_parse_initial_log_record (log : Mem) (ptr end_ptr : Nat) : Option initial_log_record :=
  if end_ptr < ptr + 1 then none
  else
    let type := (log.byte ptr &&& (2 ^ 64 - 1 - MLOG_SINGLE_REC_FLAG)) % 256
    let ptr := ptr + 1
    if end_ptr < ptr + 2 then none
    else
      match mach_parse_compressed log ptr end_ptr with
      | none => none
      | some (space, ptr) =>
        match mach_parse_compressed log ptr end_ptr with
        | none => none
        | some (page_no, ptr) =>
          some { ptr := ptr, type := type, space := space % 2 ^ 32, page_no := page_no % 2 ^ 32 }

/-- The outcome of a redo parser that may also apply the record to a page:
the returned pointer (`none` is null), the page after the call, and whether
`recv_sys->found_corrupt_log` was set. -/
structure parse_outcome where
  ptr : Option Nat
  page : Option Mem
  found_corrupt_log : Bool

/-- The function `mlog_parse_nbytes` of mtr0log.cc.  The outer `none` is the
failed assertion `ut_a(type <= MLOG_8BYTES)`; `page = none` is a null page. -/
def mlog_parse_nbytes (type : Nat) (log : Mem) (ptr end_ptr : Nat) (page : Option Mem) :
    Option parse_outcome :=
  if ¬ type ≤ MLOG_8BYTES then none
  else if end_ptr < ptr + 2 then some ⟨none, page, false⟩
  else
    let offset := mach_read_from_2 log ptr
    let ptr := ptr + 2
    if offset ≥ UNIV_PAGE_SIZE then some ⟨none, page, true⟩
    else if type = MLOG_8BYTES then
      match mach_uint64_parse_compressed log ptr end_ptr with
      | none => some ⟨none, page, false⟩
      | some (dval, ptr) => some ⟨some ptr, page.map (fun p => mach_write_to_8 p offset dval), false⟩
    else
      match mach_parse_compressed log ptr end_ptr with
      | none => some ⟨none, page, false⟩
      | some (val, ptr) =>
        if type = MLOG_1BYTE then
          if val > 0xFF then some ⟨none, page, true⟩
          else some ⟨some ptr, page.map (fun p => mach_write_to_1 p offset val), false⟩
        else if type = MLOG_2BYTES then
          if val > 0xFFFF then some ⟨none, page, true⟩
          else some ⟨some ptr, page.map (fun p => mach_write_to_2 p offset val), false⟩
        else if type = MLOG_4BYTES then
          some ⟨some ptr, page.map (fun p => mach_write_to_4 p offset val), false⟩
        else some ⟨none, page, true⟩

/-- The function `page_offset` of page0page.h, the offset of a pointer within
its page frame: `ut_align_offset(ptr, UNIV_PAGE_SIZE)`, the pointer modulo the
page size (ut0byte.h is not among the sources).  Frames are aligned, and a
pointer of the model is the offset from the frame. -/
def page_offset (ptr : Nat) : Nat := ptr % UNIV_PAGE_SIZE

/-- The function `mlog_write_ulint` of mtr0log.cc: `ptr` is the offset in the
frame `page`.  `none` is `ut_error` (a type other than 1, 2 or 4 bytes). -/
def mlog_write_ulint (creating : Bool) (page : Mem) (ptr val type : Nat) (mtr : mtr_t) :
    Option (Mem × mtr_t) :=
  let written : Option Mem :=
    if type = MLOG_1BYTE then some (mach_write_to_1 page ptr val)
    else if type = MLOG_2BYTES then some (mach_write_to_2 page ptr val)
    else if type = MLOG_4BYTES then some (mach_write_to_4 page ptr val)
    else none
  match written with
  | none => none
  | some page' =>
    match mlog_open mtr (11 + 2 + 5) with
    | (mtr, none) => some (page', mtr)
    | (mtr, some log_ptr) =>
      let r := mlog_write_initial_log_record_fast creating page' type log_ptr mtr
      let mtr := r.2
      let log_ptr := r.1
      let log := mach_write_to_2 mtr.log log_ptr (page_offset ptr)
      let log_ptr := log_ptr + 2
      let w := mach_write_compressed log log_ptr val
      let log_ptr := log_ptr + w.2
      some (page', mlog_close { mtr with log := w.1 } log_ptr)

/-- The function `mlog_write_uint64` of mtr0log.cc: `ptr` is the offset in the
frame `page`. -/
def mlog_write_uint64 (creating : Bool) (page : Mem) (ptr val : Nat) (mtr : mtr_t) :
    Mem × mtr_t :=
  let page' := mach_write_to_8 page ptr val
  match mlog_open mtr (11 + 2 + 9) with
  | (mtr, none) => (page', mtr)
  | (mtr, some log_ptr) =>
    let r := mlog_write_initial_log_record_fast creating page' MLOG_8BYTES log_ptr mtr
    let mtr := r.2
    let log_ptr := r.1
    let log := mach_write_to_2 mtr.log log_ptr (page_offset ptr)
    let log_ptr := log_ptr + 2
    let w := mach_uint64_write_compressed log log_ptr val
    let log_ptr := log_ptr + w.2
    (page', mlog_close { mtr with log := w.1 } log_ptr)

/-! ## The transaction system header (`trx0sys.h`, `trx0sys.cc`) -/

/-- The constant `TRX_SYS_SPACE` of trx0sys.h. -/
def TRX_SYS_SPACE : Nat := SYS_TABLESPACE

/-- The constant `TRX_SYS_PAGE_NO` of trx0sys.h. -/
def TRX_SYS_PAGE_NO : Nat := FSP_TRX_SYS_PAGE_NO

/-- The constant `TRX_SYS` of trx0sys.h: the offset of the transaction system
header on its page. -/
def TRX_SYS : Nat := FSEG_PAGE_DATA

/-- The constant `TRX_SYS_TRX_ID_STORE` of trx0sys.h. -/
def TRX_SYS_TRX_ID_STORE : Nat := 0

/-- The constant `TRX_SYS_TRX_ID_WRITE_MARGIN` of trx0sys.h. -/
def TRX_SYS_TRX_ID_WRITE_MARGIN : Nat := 256

/-- The constant `TRX_SYS_FILE_FORMAT_TAG` of trx0sys.h. -/
def TRX_SYS_FILE_FORMAT_TAG : Nat := UNIV_PAGE_SIZE - 16

/-- The constant `TRX_SYS_FILE_FORMAT_TAG_MAGIC_N_LOW` of trx0sys.h. -/
def TRX_SYS_FILE_FORMAT_TAG_MAGIC_N_LOW : Nat := 3645922177

/-- The constant `TRX_SYS_FILE_FORMAT_TAG_MAGIC_N_HIGH` of trx0sys.h. -/
def TRX_SYS_FILE_FORMAT_TAG_MAGIC_N_HIGH : Nat := 2745987765

/-- The constant `DICT_TF_FORMAT_51` of dict0mem.h. -/
def DICT_TF_FORMAT_51 : Nat := 0

/-- The constant `DICT_TF_FORMAT_V1` of dict0mem.h. -/
def DICT_TF_FORMAT_V1 : Nat := 1

/-- The constant `DICT_TF_FORMAT_MAX` of dict0mem.h. -/
def DICT_TF_FORMAT_MAX : Nat := DICT_TF_FORMAT_V1

/-- The table `file_format_name_map` of trx0sys.cc. -/
def file_format_name_map : List String :=
  ["Antelope", "Barracuda", "Cheetah", "Dragon", "Elk", "Fox", "Gazelle",
   "Hornet", "Impala", "Jaguar", "Kangaroo", "Leopard", "Moose", "Nautilus",
   "Ocelot", "Porpoise", "Quail", "Rabbit", "Shark", "Tiger", "Urchin",
   "Viper", "Whale", "Xenops", "Yak", "Zebra"]

/-- The constant `FILE_FORMAT_NAME_N` of trx0sys.cc: the number of elements of
the name table. -/
def FILE_FORMAT_NAME_N : Nat := file_format_name_map.length

/-- The type of `file_format_max` in trx0sys.cc: an id and its name. -/
structure file_format_t where
  id : Nat
  name : String
deriving DecidableEq, Repr

/-- The structure `trx_sys_t` of trx0sys.h, with the field the id allocator
uses. -/
structure trx_sys_t where
  max_trx_id : Nat
deriving DecidableEq, Repr

/-- The process-wide state that the functions of trx0sys.cc below read and
write: the frame of the trx-sys page `(TRX_SYS_SPACE, TRX_SYS_PAGE_NO)` in the
buffer pool, the global `trx_sys`, the global `file_format_max`, the global
`trx_doublewrite_buf_is_being_created`, and the redo that committed
mini-transactions have handed to the log, one entry for each. -/
structure sys_state where
  trx_sys_page : Mem
  trx_sys : trx_sys_t
  file_format_max : file_format_t
  trx_doublewrite_buf_is_being_created : Bool
  redo : List (List Nat)

/-- Modelled from the spec: `mtr.commit()` "copies the mtr's redo bytes to the
global log buffer"; "If the mtr logged nothing (pure reader) commit simply
releases latches" (mtr0mtr.cc is not among the sources).  `redo` is the redo
that committed mini-transactions have handed to the log, one entry for
each. -/
def mtr_commit (redo : List (List Nat)) (mtr : mtr_t) : List (List Nat) :=
  if mtr.modifications = true ∧ mtr.n_log_recs ≠ 0 then redo ++ [mtr.log_bytes] else redo

/-- Modelled from the spec: `mtr_read_uint64`, which reads 8 bytes from a
latched page (mtr0log.h is not among the sources). -/
def mtr_read_uint64 (page : Mem) (ptr : Nat) : Nat := mach_read_from_8 page ptr

/-- The function `trx_sys_flush_max_trx_id` of trx0sys.cc.  `trx_sysf_get`
gives the header at offset `TRX_SYS` of the trx-sys page. -/
def trx_sys_flush_max_trx_id (st : sys_state) : sys_state :=
  let mtr := mtr_start
  let sys_header := TRX_SYS
  let r := mlog_write_uint64 st.trx_doublewrite_buf_is_being_created st.trx_sys_page
    (sys_header + TRX_SYS_TRX_ID_STORE) st.trx_sys.max_trx_id mtr
  { st with trx_sys_page := r.1, redo := mtr_commit st.redo r.2 }

/-- The function `trx_sys_get_new_trx_id` of trx0sys.h; `trx_id_t` is a 64-bit
unsigned integer. -/
def trx_sys_get_new_trx_id (st : sys_state) : Nat × sys_state :=
  let st := if st.trx_sys.max_trx_id % TRX_SYS_TRX_ID_WRITE_MARGIN = 0
    then trx_sys_flush_max_trx_id st else st
  let id := st.trx_sys.max_trx_id
  (id, { st with trx_sys := { max_trx_id := (st.trx_sys.max_trx_id + 1) % 2 ^ 64 } })

/-- The function `trx_sys_get_new_trx_no` of trx0sys.h. -/
def trx_sys_get_new_trx_no (st : sys_state) : Nat × sys_state :=
  trx_sys_get_new_trx_id st

/-- The assignment of `trx_sys->max_trx_id` in `trx_sys_init_at_db_start` of
trx0sys.cc, from the header of the trx-sys page as it is at start-up.  The
lists and the purge system that the function also sets up are not modelled. -/
def trx_sys_init_at_db_start (st : sys_state) : sys_state :=
  let sys_header := TRX_SYS
  { st with trx_sys :=
      { max_trx_id :=
          (ut_uint64_align_up (mtr_read_uint64 st.trx_sys_page (sys_header + TRX_SYS_TRX_ID_STORE))
              TRX_SYS_TRX_ID_WRITE_MARGIN
            + 2 * TRX_SYS_TRX_ID_WRITE_MARGIN) % 2 ^ 64 } }

/-- A run of `n` calls of `trx_sys_get_new_trx_id`: the ids handed out, in
order, and the state after the last call. -/
def trx_sys_get_new_trx_ids : Nat → sys_state → List Nat × sys_state
  | 0, st => ([], st)
  | n + 1, st =>
    let r := trx_sys_get_new_trx_id st
    let rs := trx_sys_get_new_trx_ids n r.2
    (r.1 :: rs.1, rs.2)

/-- The function `trx_sys_file_format_id_to_name` of trx0sys.cc. -/
def trx_sys_file_format_id_to_name (id : Nat) : String :=
  if ¬ (id < FILE_FORMAT_NAME_N) then "Unknown"
  else file_format_name_map.getD id ""

/-- The function `trx_sys_file_format_max_write` of trx0sys.cc.  `want_name`
tells whether `name` is not null; the result is the return value, the name
stored through `name`, and the state. -/
def trx_sys_file_format_max_write (st : sys_state) (format_id : Nat) (want_name : Bool) :
    Bool × Option String × sys_state :=
  let mtr := mtr_start
  let st := { st with file_format_max :=
    { id := format_id, name := trx_sys_file_format_id_to_name format_id } }
  let ptr := TRX_SYS_FILE_FORMAT_TAG
  let tag_value_low := (format_id + TRX_SYS_FILE_FORMAT_TAG_MAGIC_N_LOW) % 2 ^ 64
  let name := if want_name = true then some st.file_format_max.name else none
  let r := mlog_write_uint64 st.trx_doublewrite_buf_is_being_created st.trx_sys_page ptr
    ((TRX_SYS_FILE_FORMAT_TAG_MAGIC_N_HIGH <<< 32) % 2 ^ 64 ||| tag_value_low) mtr
  (true, name, { st with trx_sys_page := r.1, redo := mtr_commit st.redo r.2 })

/-- The function `trx_sys_file_format_max_read` of trx0sys.cc: the format id
returned, and the state.  The subtraction is that of 64-bit unsigned
integers. -/
def trx_sys_file_format_max_read (st : sys_state) : Nat × sys_state :=
  let mtr := mtr_start
  let ptr := TRX_SYS_FILE_FORMAT_TAG
  let file_format_id := mach_read_from_8 st.trx_sys_page ptr
  let st := { st with redo := mtr_commit st.redo mtr }
  let format_id := (file_format_id + 2 ^ 64 - TRX_SYS_FILE_FORMAT_TAG_MAGIC_N_LOW) % 2 ^ 64
  if file_format_id ≠ TRX_SYS_FILE_FORMAT_TAG_MAGIC_N_HIGH ∨ format_id ≥ FILE_FORMAT_NAME_N then
    let format_id := DICT_TF_FORMAT_51
    (format_id, (trx_sys_file_format_max_write st format_id false).2.2)
  else (format_id, st)

/-- The function `trx_sys_read_file_format_id` of trx0sys.cc: the return value
and the value stored through `format_id`.  `file` is what the operating system
answers: `none` when the file cannot be opened, `some none` when the page at
offset `TRX_SYS_PAGE_NO * UNIV_PAGE_SIZE` cannot be read, else that page. -/
def trx_sys_read_file_format_id (file : Option (Option Mem)) : Bool × Nat :=
  match file with
  | none => (false, ULINT_UNDEFINED)
  | some none => (false, ULINT_UNDEFINED)
  | some (some page) =>
    let ptr := TRX_SYS_FILE_FORMAT_TAG
    let file_format_id := mach_read_from_8 page ptr
    let format_id := (file_format_id + 2 ^ 64 - TRX_SYS_FILE_FORMAT_TAG_MAGIC_N_LOW) % 2 ^ 64
    if file_format_id ≠ TRX_SYS_FILE_FORMAT_TAG_MAGIC_N_HIGH ∨ format_id ≥ FILE_FORMAT_NAME_N then
      (true, ULINT_UNDEFINED)
    else (true, format_id)

/-! ## Data tuples and the dictionary (`data0data.h`, `dict0mem.h`) -/

/-- Modelled from the spec: `UNIV_SQL_NULL`, the length of an SQL NULL field,
the all-ones 32-bit word (innodb0types.h is not among the sources). -/
def UNIV_SQL_NULL : Nat := 2 ^ 32 - 1

/-- Modelled from the spec: `UNIV_EXTERN_STORAGE_FIELD`; a length that is not
`UNIV_SQL_NULL` but at least this much marks an externally stored field, whose
locally stored length is added to it (innodb0types.h is not among the
sources). -/
def UNIV_EXTERN_STORAGE_FIELD : Nat := UNIV_SQL_NULL - UNIV_PAGE_SIZE

/-- Modelled from the spec: `FIL_NULL`, the page number that means "no page"
(fil0types.h is not among the sources). -/
def FIL_NULL : Nat := 2 ^ 32 - 1

/-- Modelled from the spec: `DATA_NOT_NULL`, the bit of the precise type of a
column that cannot be NULL (data0type.h is not among the sources). -/
def DATA_NOT_NULL : Nat := 256

/-- Modelled from the spec: `DATA_BLOB`, the main type of a BLOB column
(data0type.h is not among the sources). -/
def DATA_BLOB : Nat := 5

/-- Modelled from the spec: `DATA_DECIMAL`, the main type of a decimal column
(data0type.h is not among the sources). -/
def DATA_DECIMAL : Nat := 11

/-- The constant `DICT_CLUSTERED` of dict0mem.h. -/
def DICT_CLUSTERED : Nat := 1

/-- The constant `DICT_TF_COMPACT` of dict0mem.h. -/
def DICT_TF_COMPACT : Nat := 1

/-- Modelled from the spec: the type `dtype_t` of a data field: main type
(8 bits), precise type (24 bits) and length (16 bits) (data0type.h is not
among the sources). -/
structure dtype_t where
  mtype : Nat
  prtype : Nat
  len : Nat
deriving DecidableEq, Repr

/-- Modelled from the spec: the data field `dfield_t`: the bytes `data` points
to, the externally-stored flag, the length (32 bits, `UNIV_SQL_NULL` for SQL
NULL) and the type (data0data.h is not among the sources). -/
structure dfield_t where
  data : List Nat
  ext : Bool
  len : Nat
  type : dtype_t
deriving DecidableEq, Repr

/-- Modelled from the spec: the data tuple `dtuple_t` (data0data.h is not
among the sources). -/
structure dtuple_t where
  info_bits : Nat
  n_fields : Nat
  fields : List dfield_t
deriving DecidableEq, Repr

/-- The structure `dict_col_struct` of dict0mem.h, with the type fields
(`DTYPE_FIELDS`). -/
structure dict_col_t where
  mtype : Nat
  prtype : Nat
  len : Nat
deriving DecidableEq, Repr

/-- The structure `dict_field_struct` of dict0mem.h. -/
structure dict_field_t where
  col : dict_col_t
  prefix_len : Nat
  fixed_len : Nat
deriving DecidableEq, Repr

/-- The structure `dict_table_struct` of dict0mem.h, with the fields used
here. -/
structure dict_table_t where
  id : Nat
  flags : Nat
deriving DecidableEq, Repr

/-- The structure `dict_index_struct` of dict0mem.h, with the fields used
here. -/
structure dict_index_t where
  table : dict_table_t
  type : Nat
  n_uniq : Nat
  n_fields : Nat
  n_nullable : Nat
  fields : List dict_field_t
deriving DecidableEq, Repr

/-- Modelled from the spec: `dfield_get_len` (data0data.h is not among the
sources). -/
def dfield_get_len (field : dfield_t) : Nat := field.len

/-- Modelled from the spec: `dfield_get_type` (data0data.h is not among the
sources). -/
def dfield_get_type (field : dfield_t) : dtype_t := field.type

/-- Modelled from the spec: `dfield_is_null` (data0data.h is not among the
sources). -/
def dfield_is_null (field : dfield_t) : Bool := field.len = UNIV_SQL_NULL

/-- Modelled from the spec: `dfield_is_ext` (data0data.h is not among the
sources). -/
def dfield_is_ext (field : dfield_t) : Bool := field.ext

/-- Modelled from the spec: `dtuple_get_nth_field` (data0data.h is not among
the sources).  A field past the end of the tuple reads as an empty field. -/
def dtuple_get_nth_field (tuple : dtuple_t) (n : Nat) : dfield_t :=
  tuple.fields.getD n { data := [], ext := false, len := 0, type := ⟨0, 0, 0⟩ }

/-- Modelled from the spec: `dtuple_get_n_fields` (data0data.h is not among
the sources). -/
def dtuple_get_n_fields (tuple : dtuple_t) : Nat := tuple.n_fields

/-- Modelled from the spec: `dtuple_get_info_bits` (data0data.h is not among
the sources). -/
def dtuple_get_info_bits (tuple : dtuple_t) : Nat := tuple.info_bits

/-- Modelled from the spec: `dict_index_get_nth_field` (dict0dict.h is not
among the sources).  A field past the end of the index reads as a field of a
zero column. -/
def dict_index_get_nth_field (index : dict_index_t) (pos : Nat) : dict_field_t :=
  index.fields.getD pos { col := ⟨0, 0, 0⟩, prefix_len := 0, fixed_len := 0 }

/-- Modelled from the spec: `dict_field_get_col` (dict0dict.h is not among the
sources). -/
def dict_field_get_col (field : dict_field_t) : dict_col_t := field.col

/-- Modelled from the spec: `dict_index_get_n_fields` (dict0dict.h is not
among the sources). -/
def dict_index_get_n_fields (index : dict_index_t) : Nat := index.n_fields

/-- Modelled from the spec: `dict_index_get_n_unique` (dict0dict.h is not
among the sources). -/
def dict_index_get_n_unique (index : dict_index_t) : Nat := index.n_uniq

/-- Modelled from the spec: `dict_index_is_clust` (dict0dict.h is not among
the sources). -/
def dict_index_is_clust (index : dict_index_t) : Bool := index.type &&& DICT_CLUSTERED ≠ 0

/-- Modelled from the spec: `dict_table_is_comp` (dict0dict.h is not among the
sources). -/
def dict_table_is_comp (table : dict_table_t) : Bool := table.flags &&& DICT_TF_COMPACT ≠ 0

/-- The library `memcpy(dst, data, len)` from the bytes of a data field. -/
def memcpy_data (m : Mem) (dst : Nat) (data : List Nat) (len : Nat) : Mem :=
  fun x => if dst ≤ x ∧ x < dst + len then data.getD (x - dst) 0 else m x

/-! ## Undo log records (`trx0rec.cc`) -/

/-- Modelled from the spec: `TRX_UNDO_PAGE_HDR`, the offset of the undo page
header, right after the file header (trx0undo.h is not among the sources). -/
def TRX_UNDO_PAGE_HDR : Nat := FSEG_PAGE_DATA

/-- Modelled from the spec: `TRX_UNDO_PAGE_TYPE`, the first field of the undo
page header (trx0undo.h is not among the sources). -/
def TRX_UNDO_PAGE_TYPE : Nat := 0

/-- Modelled from the spec: `TRX_UNDO_PAGE_START` (trx0undo.h is not among the
sources). -/
def TRX_UNDO_PAGE_START : Nat := 2

/-- Modelled from the spec: `TRX_UNDO_PAGE_FREE`, the field of the undo page
header that holds the offset of the first free byte (trx0undo.h is not among
the sources). -/
def TRX_UNDO_PAGE_FREE : Nat := 4

/-- Modelled from the spec: `TRX_UNDO_INSERT`, the type of an insert undo log
(trx0undo.h is not among the sources). -/
def TRX_UNDO_INSERT : Nat := 1

/-- Modelled from the spec: `TRX_UNDO_UPDATE`, the type of an update undo log
(trx0undo.h is not among the sources). -/
def TRX_UNDO_UPDATE : Nat := 2

/-- Modelled from the spec: `TRX_UNDO_INSERT_REC`, the type of the undo record
of a fresh insert (trx0rec.h is not among the sources). -/
def TRX_UNDO_INSERT_REC : Nat := 11

/-- Modelled from the spec: `TRX_UNDO_CMPL_INFO_MULT`, the multiplier of the
compiler info in the type byte of an undo record (trx0rec.h is not among the
sources). -/
def TRX_UNDO_CMPL_INFO_MULT : Nat := 16

/-- Modelled from the spec: `TRX_UNDO_UPD_EXTERN`, the bit of the type byte
that tells an update of an externally stored field (trx0rec.h is not among the
sources). -/
def TRX_UNDO_UPD_EXTERN : Nat := 128

/-- Modelled from the spec: `TRX_UNDO_INSERT_OP` (trx0rec.h is not among the
sources). -/
def TRX_UNDO_INSERT_OP : Nat := 1

/-- Modelled from the spec: `TRX_UNDO_MODIFY_OP` (trx0rec.h is not among the
sources). -/
def TRX_UNDO_MODIFY_OP : Nat := 2

/-- Modelled from the spec: `BTR_NO_UNDO_LOG_FLAG` (btr0cur.h is not among the
sources). -/
def BTR_NO_UNDO_LOG_FLAG : Nat := 1

/-- The error code `DB_SUCCESS` of innodb.h. -/
def DB_SUCCESS : Nat := 10

/-- The error code `DB_OUT_OF_FILE_SPACE` of innodb.h. -/
def DB_OUT_OF_FILE_SPACE : Nat := 15

/-- The function `trx_undof_page_add_undo_rec_log` of trx0rec.cc.  `len` is
computed in `ulint` arithmetic. -/
def trx_undof_page_add_undo_rec_log (creating : Bool) (undo_page : Mem)
    (old_free new_free : Nat) (mtr : mtr_t) : mtr_t :=
  match mlog_open mtr (11 + 13 + MLOG_BUF_MARGIN) with
  | (mtr, none) => mtr
  | (mtr, some log_ptr) =>
    let log_end := log_ptr + (11 + 13 + MLOG_BUF_MARGIN)
    let r := mlog_write_initial_log_record_fast creating undo_page MLOG_UNDO_INSERT log_ptr mtr
    let log_ptr := r.1
    let mtr := r.2
    let len := (new_free + 2 ^ 65 - old_free - 4) % 2 ^ 64
    let mtr := { mtr with log := mach_write_to_2 mtr.log log_ptr len }
    let log_ptr := log_ptr + 2
    if log_ptr + len ≤ log_end then
      mlog_close { mtr with log := memcpy mtr.log log_ptr undo_page (old_free + 2) len }
        (log_ptr + len)
    else
      mlog_catenate_string (mlog_close mtr log_ptr) undo_page (old_free + 2) len

/-- The function `trx_undo_parse_add_undo_rec` of trx0rec.cc: the returned
pointer (`none` is null) and the page. -/
def trx_undo_parse_add_undo_rec (log : Mem) (ptr end_ptr : Nat) (page : Option Mem) :
    Option Nat × Option Mem :=
  if end_ptr < ptr + 2 then (none, page)
  else
    let len := mach_read_from_2 log ptr
    let ptr := ptr + 2
    if end_ptr < ptr + len then (none, page)
    else
      match page with
      | none => (some (ptr + len), none)
      | some page =>
        let first_free := mach_read_from_2 page (TRX_UNDO_PAGE_HDR + TRX_UNDO_PAGE_FREE)
        let rec_ := first_free
        let page := mach_write_to_2 page rec_ (first_free + 4 + len)
        let page := mach_write_to_2 page (rec_ + 2 + len) first_free
        let page := mach_write_to_2 page (TRX_UNDO_PAGE_HDR + TRX_UNDO_PAGE_FREE)
          (first_free + 4 + len)
        let page := memcpy page (rec_ + 2) log ptr len
        (some (ptr + len), some page)

/-- The function `trx_undo_left` of trx0rec.cc, in `ulint` arithmetic; `ptr`
is the offset of the pointer in the page. -/
def trx_undo_left (ptr : Nat) : Nat :=
  (UNIV_PAGE_SIZE + 2 ^ 65 - ptr - 10 - FIL_PAGE_DATA_END) % 2 ^ 64

/-- The function `trx_undo_page_set_next_prev_and_add` of trx0rec.cc: the
offset returned, the page and the mini-transaction. -/
def trx_undo_page_set_next_prev_and_add (creating : Bool) (undo_page : Mem) (ptr : Nat)
    (mtr : mtr_t) : Nat × Mem × mtr_t :=
  if trx_undo_left ptr < 2 then (0, undo_page, mtr)
  else
    let ptr_to_first_free := TRX_UNDO_PAGE_HDR + TRX_UNDO_PAGE_FREE
    let first_free := mach_read_from_2 undo_page ptr_to_first_free
    let undo_page := mach_write_to_2 undo_page ptr first_free
    let ptr := ptr + 2
    let end_of_rec := ptr
    let undo_page := mach_write_to_2 undo_page first_free end_of_rec
    let undo_page := mach_write_to_2 undo_page ptr_to_first_free end_of_rec
    (first_free, undo_page,
      trx_undof_page_add_undo_rec_log creating undo_page first_free end_of_rec mtr)

/-- The loop of `trx_undo_page_report_insert` over the fields that determine
the record uniquely, `k` fields from field `i` on: the page, and the pointer
reached, or `none` when the function returns 0. -/
def trx_undo_page_report_insert_fields (clust_entry : dtuple_t) :
    Nat → Nat → Mem → Nat → Mem × Option Nat
  | 0, _, undo_page, ptr => (undo_page, some ptr)
  | k + 1, i, undo_page, ptr =>
    let field := dtuple_get_nth_field clust_entry i
    let flen := dfield_get_len field
    if trx_undo_left ptr < 5 then (undo_page, none)
    else
      let w := mach_write_compressed undo_page ptr flen
      let undo_page := w.1
      let ptr := ptr + w.2
      if flen ≠ UNIV_SQL_NULL then
        if trx_undo_left ptr < flen then (undo_page, none)
        else
          trx_undo_page_report_insert_fields clust_entry k (i + 1)
            (memcpy_data undo_page ptr field.data flen) (ptr + flen)
      else trx_undo_page_report_insert_fields clust_entry k (i + 1) undo_page ptr

/-- The function `trx_undo_page_report_insert` of trx0rec.cc; `undo_no` is
`trx->undo_no`.  Returns the offset, the page and the mini-transaction. -/
def trx_undo_page_report_insert (creating : Bool) (undo_page : Mem) (undo_no : Nat)
    (index : dict_index_t) (clust_entry : dtuple_t) (mtr : mtr_t) : Nat × Mem × mtr_t :=
  let first_free := mach_read_from_2 undo_page (TRX_UNDO_PAGE_HDR + TRX_UNDO_PAGE_FREE)
  let ptr := first_free
  if trx_undo_left ptr < 2 + 1 + 11 + 11 then (0, undo_page, mtr)
  else
    let ptr := ptr + 2
    let undo_page := undo_page.put ptr TRX_UNDO_INSERT_REC
    let ptr := ptr + 1
    let w := mach_uint64_write_much_compressed undo_page ptr undo_no
    let ptr := ptr + w.2
    let w := mach_uint64_write_much_compressed w.1 ptr index.table.id
    let ptr := ptr + w.2
    match trx_undo_page_report_insert_fields clust_entry (dict_index_get_n_unique index) 0
        w.1 ptr with
    | (undo_page, none) => (0, undo_page, mtr)
    | (undo_page, some ptr) => trx_undo_page_set_next_prev_and_add creating undo_page ptr mtr

/-- What `trx_undo_rec_get_pars` hands back: the pointer to the rest of the
record and the out-parameters. -/
structure undo_rec_pars where
  ptr : Nat
  type : Nat
  cmpl_info : Nat
  updated_extern : Bool
  undo_no : Nat
  table_id : Nat
deriving DecidableEq, Repr

/-- The function `trx_undo_rec_get_pars` of trx0rec.cc; `undo_rec` is the
offset of the record in the page. -/
def trx_undo_rec_get_pars (page : Mem) (undo_rec : Nat) : undo_rec_pars :=
  let ptr := undo_rec + 2
  let type_cmpl := mach_read_from_1 page ptr
  let ptr := ptr + 1
  let updated_extern : Bool := type_cmpl &&& TRX_UNDO_UPD_EXTERN ≠ 0
  let type_cmpl := if updated_extern then type_cmpl - TRX_UNDO_UPD_EXTERN else type_cmpl
  let type := type_cmpl &&& (TRX_UNDO_CMPL_INFO_MULT - 1)
  let cmpl_info := type_cmpl / TRX_UNDO_CMPL_INFO_MULT
  let undo_no := mach_uint64_read_much_compressed page ptr
  let ptr := ptr + mach_uint64_get_much_compressed_size undo_no
  let table_id := mach_uint64_read_much_compressed page ptr
  let ptr := ptr + mach_uint64_get_much_compressed_size table_id
  { ptr := ptr, type := type, cmpl_info := cmpl_info, updated_extern := updated_extern,
    undo_no := undo_no, table_id := table_id }

/-- The function `trx_undo_erase_page_end` of trx0rec.cc; the length of the
`memset` is computed in `ulint` arithmetic. -/
def trx_undo_erase_page_end (creating : Bool) (undo_page : Mem) (mtr : mtr_t) : Mem × mtr_t :=
  let first_free := mach_read_from_2 undo_page (TRX_UNDO_PAGE_HDR + TRX_UNDO_PAGE_FREE)
  let undo_page := memset undo_page first_free 0xff
    ((UNIV_PAGE_SIZE - FIL_PAGE_DATA_END + 2 ^ 64 - first_free) % 2 ^ 64)
  (undo_page, mlog_write_initial_log_record creating undo_page MLOG_UNDO_ERASE_END mtr)

/-- Modelled from the spec: the undo log object `trx_undo_t`, with the fields
that `trx_undo_report_row_operation` reads and writes (trx0undo.h is not among
the sources).  `guess_block` is the buffer block last used, named by its page
number. -/
structure trx_undo_t where
  space : Nat
  last_page_no : Nat
  empty : Bool
  top_page_no : Nat
  top_offset : Nat
  top_undo_no : Nat
  guess_block : Option Nat
  del_marks : Bool
deriving DecidableEq, Repr

/-- Modelled from the spec: the rollback segment object `trx_rseg_t`, with its
id (trx0rseg.h is not among the sources). -/
structure trx_rseg_t where
  id : Nat
deriving DecidableEq, Repr

/-- Modelled from the spec: the transaction object `trx_t`, with the fields
that `trx_undo_report_row_operation` reads and writes: "assigned rseg, head of
its insert/update undo chains" and the undo number (trx0trx.h is not among the
sources). -/
structure trx_t where
  id : Nat
  undo_no : Nat
  rseg : trx_rseg_t
  insert_undo : Option trx_undo_t
  update_undo : Option trx_undo_t
deriving DecidableEq, Repr

/-- The parts of the engine that `trx_undo_report_row_operation` calls and
that are taken as parameters.  `trx_undo_assign_undo(trx, type)` (trx0undo.cc
is not among the sources) gives the error code and the undo log it has stored
in the transaction (`none` when it stored none).
`trx_undo_page_report_modify` writes the undo record of an update or delete on
a page, for the record, update vector and compiler info of the call: it gives
the offset (0 when the record does not fit), the page, the mini-transaction,
and whether it set `del_marks` in the update undo log. -/
structure undo_env where
  trx_undo_assign_undo : trx_t → Nat → Nat × Option trx_undo_t
  trx_undo_page_report_modify : Mem → trx_t → mtr_t → Nat × Mem × mtr_t × Bool

/-- The state outside the transaction that `trx_undo_report_row_operation`
reads and writes: the frames of the buffer pool by space id and page number,
the redo handed to the log, the global
`trx_doublewrite_buf_is_being_created`, and the pages that the file space
still has for `trx_undo_add_page`, in the order it hands them out. -/
structure undo_world where
  pool : Nat → Nat → Mem
  redo : List (List Nat)
  creating : Bool
  free_pages : List Nat

/-- Modelled from the spec: `trx_undo_add_page`, "if full, a new page is
linked": the page number of the page added to the undo log, which becomes its
last page, or `FIL_NULL` when the file space has no page left (trx0undo.cc is
not among the sources). -/
def trx_undo_add_page (w : undo_world) (undo : trx_undo_t) : Nat × undo_world × trx_undo_t :=
  match w.free_pages with
  | [] => (FIL_NULL, w, undo)
  | p :: rest =>
    if p = FIL_NULL then (FIL_NULL, { w with free_pages := rest }, undo)
    else (p, { w with free_pages := rest }, { undo with last_page_no := p })

/-- Modelled from the spec: `trx_undo_build_roll_ptr`, the roll pointer
"Packed `(is_insert_flag, rseg_id, undo_page_no, undo_offset)`": one bit, 7
bits, 32 bits and 16 bits (trx0undo.h is not among the sources). -/
def trx_undo_build_roll_ptr (is_insert : Bool) (rseg_id page_no offset : Nat) : Nat :=
  (if is_insert then 1 else 0) * 2 ^ 55 + rseg_id * 2 ^ 48 + page_no * 2 ^ 16 + offset

/-- What `trx_undo_report_row_operation` leaves: the error code returned, the
value of `*roll_ptr`, the transaction and the state outside it. -/
structure undo_report where
  err : Nat
  roll_ptr : Nat
  trx : trx_t
  world : undo_world

/-- The undo log of a transaction that an operation writes to: `insert_undo`
for `TRX_UNDO_INSERT_OP`, else `update_undo`. -/
def trx_t.op_undo (trx : trx_t) (op_type : Nat) : Option trx_undo_t :=
  if op_type = TRX_UNDO_INSERT_OP then trx.insert_undo else trx.update_undo

/-- The assignment through the pointer `undo`, which aliases `trx->insert_undo`
or `trx->update_undo`. -/
def trx_t.set_op_undo (trx : trx_t) (op_type : Nat) (undo : trx_undo_t) : trx_t :=
  if op_type = TRX_UNDO_INSERT_OP then { trx with insert_undo := some undo }
  else { trx with update_undo := some undo }

/-- One pass of the body of the `for (;;)` loop of
`trx_undo_report_row_operation` up to the test of `offset`: the page of the
undo log is fetched and the record is written on it.  Gives the offset, the
frame written and the mini-transaction, and the undo log (in which
`trx_undo_page_report_modify` may have set `del_marks`). -/
def trx_undo_report_row_operation_write (env : undo_env) (w : undo_world) (op_type : Nat)
    (trx : trx_t) (undo : trx_undo_t) (index : dict_index_t) (clust_entry : dtuple_t)
    (page_no : Nat) (mtr : mtr_t) : Nat × Mem × mtr_t × trx_undo_t :=
  let undo_page := w.pool undo.space page_no
  if op_type = TRX_UNDO_INSERT_OP then
    let r := trx_undo_page_report_insert w.creating undo_page trx.undo_no index clust_entry mtr
    (r.1, r.2.1, r.2.2, undo)
  else
    let r := env.trx_undo_page_report_modify undo_page (trx.set_op_undo op_type undo) mtr
    (r.1, r.2.1, r.2.2.1, { undo with del_marks := undo.del_marks || r.2.2.2 })

/-- The success branch of the loop of `trx_undo_report_row_operation`. -/
def trx_undo_report_row_operation_done (w : undo_world) (op_type : Nat) (trx : trx_t)
    (undo : trx_undo_t) (page_no offset : Nat) (undo_page : Mem) (mtr : mtr_t) : undo_report :=
  let w := { w with pool := fun s p => if s = undo.space ∧ p = page_no then undo_page
                                        else w.pool s p,
                    redo := mtr_commit w.redo mtr }
  let undo := { undo with empty := false, top_page_no := page_no, top_offset := offset,
                          top_undo_no := trx.undo_no, guess_block := some page_no }
  let trx := trx.set_op_undo op_type undo
  let trx := { trx with undo_no := (trx.undo_no + 1) % 2 ^ 64 }
  { err := DB_SUCCESS,
    roll_ptr := trx_undo_build_roll_ptr (op_type = TRX_UNDO_INSERT_OP) trx.rseg.id page_no offset,
    trx := trx, world := w }

/-- The `for (;;)` loop of `trx_undo_report_row_operation`.  The first
argument is `w.free_pages`, the pages that `trx_undo_add_page` can still hand
out: every pass that does not return takes one, so the loop ends. -/
def trx_undo_report_row_operation_loop (env : undo_env) (op_type : Nat) (index : dict_index_t)
    (clust_entry : dtuple_t) (roll_ptr : Nat) :
    List Nat → undo_world → trx_t → trx_undo_t → Nat → mtr_t → undo_report
  | [], w, trx, undo, page_no, mtr =>
    let a := trx_undo_report_row_operation_write env w op_type trx undo index clust_entry
      page_no mtr
    if a.1 = 0 then
      let e := trx_undo_erase_page_end w.creating a.2.1 a.2.2.1
      let w := { w with pool := fun s p => if s = undo.space ∧ p = page_no then e.1
                                            else w.pool s p,
                        redo := mtr_commit w.redo e.2, free_pages := [] }
      let mtr := mtr_start
      let r := trx_undo_add_page w a.2.2.2
      { err := DB_OUT_OF_FILE_SPACE, roll_ptr := roll_ptr,
        trx := trx.set_op_undo op_type r.2.2,
        world := { r.2.1 with redo := mtr_commit r.2.1.redo mtr } }
    else trx_undo_report_row_operation_done w op_type trx a.2.2.2 page_no a.1 a.2.1 a.2.2.1
  | p :: rest, w, trx, undo, page_no, mtr =>
    let a := trx_undo_report_row_operation_write env w op_type trx undo index clust_entry
      page_no mtr
    if a.1 = 0 then
      let e := trx_undo_erase_page_end w.creating a.2.1 a.2.2.1
      let w := { w with pool := fun s p => if s = undo.space ∧ p = page_no then e.1
                                            else w.pool s p,
                        redo := mtr_commit w.redo e.2, free_pages := p :: rest }
      let mtr := mtr_start
      let r := trx_undo_add_page w a.2.2.2
      if r.1 = FIL_NULL then
        { err := DB_OUT_OF_FILE_SPACE, roll_ptr := roll_ptr,
          trx := trx.set_op_undo op_type r.2.2,
          world := { r.2.1 with redo := mtr_commit r.2.1.redo mtr } }
      else
        trx_undo_report_row_operation_loop env op_type index clust_entry roll_ptr rest
          r.2.1 trx r.2.2 r.1 mtr
    else trx_undo_report_row_operation_done w op_type trx a.2.2.2 page_no a.1 a.2.1 a.2.2.1

/-- The function `trx_undo_report_row_operation` of trx0rec.cc: `trx` is the
transaction of the query thread `thr`, `roll_ptr` the value of `*roll_ptr` on
entry; the record, the update vector and the compiler info of an update are
in `env.trx_undo_page_report_modify`.  `none` is the failed assertion
`ut_a(dict_index_is_clust(index))`. -/
def trx_undo_report_row_operation (env : undo_env) (w : undo_world) (flags op_type : Nat)
    (trx : trx_t) (index : dict_index_t) (clust_entry : dtuple_t) (roll_ptr : Nat) :
    Option undo_report :=
  if dict_index_is_clust index = false then none
  else if flags &&& BTR_NO_UNDO_LOG_FLAG ≠ 0 then
    some { err := DB_SUCCESS, roll_ptr := 0, trx := trx, world := w }
  else
    let assigned : Nat × trx_t :=
      if op_type = TRX_UNDO_INSERT_OP then
        if trx.insert_undo = none then
          let r := env.trx_undo_assign_undo trx TRX_UNDO_INSERT
          (r.1, { trx with insert_undo := r.2 })
        else (DB_SUCCESS, trx)
      else
        if trx.update_undo = none then
          let r := env.trx_undo_assign_undo trx TRX_UNDO_UPDATE
          (r.1, { trx with update_undo := r.2 })
        else (DB_SUCCESS, trx)
    let err := assigned.1
    let trx := assigned.2
    match trx.op_undo op_type with
    | none => some { err := err, roll_ptr := roll_ptr, trx := trx, world := w }
    | some undo =>
      let page_no := undo.last_page_no
      let mtr := mtr_start
      some (trx_undo_report_row_operation_loop env op_type index clust_entry roll_ptr
        w.free_pages w trx undo page_no mtr)

/-! ## Flushing through the doublewrite buffer (`buf0flu.cc`) -/

/-- The constant `PAGE_HEADER` of page0page.h. -/
def PAGE_HEADER : Nat := FSEG_PAGE_DATA

/-- The constant `PAGE_N_HEAP` of page0page.h. -/
def PAGE_N_HEAP : Nat := 4

/-- The function `page_header_get_field` of page0page.h. -/
def page_header_get_field (page : Mem) (field : Nat) : Nat :=
  mach_read_from_2 page (PAGE_HEADER + field)

/-- The function `page_is_comp` of page0page.h. -/
def page_is_comp (page : Mem) : Nat := page_header_get_field page PAGE_N_HEAP &&& 0x8000

/-- The constant `TRX_SYS_DOUBLEWRITE_BLOCK_SIZE` of trx0sys.h. -/
def TRX_SYS_DOUBLEWRITE_BLOCK_SIZE : Nat := FSP_EXTENT_SIZE

/-- Modelled from the spec: `BUF_BLOCK_FILE_PAGE`, the state of a buffer block
that holds a page of a file (buf0types.h is not among the sources). -/
def BUF_BLOCK_FILE_PAGE : Nat := 5

/-- Modelled from the spec: `OS_FILE_WRITE`, the i/o request type of a write
(os0file.h is not among the sources). -/
def OS_FILE_WRITE : Nat := 11

/-- Modelled from the spec: `OS_AIO_SIMULATED_WAKE_LATER`, the flag of an i/o
request that asks not to wake the simulated aio handler yet (os0file.h is not
among the sources). -/
def OS_AIO_SIMULATED_WAKE_LATER : Nat := 512

/-- Modelled from the spec: `FIL_TABLESPACE`, the purpose of a file space that
holds a tablespace (fil0types.h is not among the sources). -/
def FIL_TABLESPACE : Nat := 501

/-- Modelled from the spec: the buffer block `buf_block_t`, with the fields
that `buf_flush_buffered_writes` uses: the state, the "`(space_id, page_no)`"
that identifies the page, the frame, and the flag
`check_index_page_at_flush` (buf0buf.h is not among the sources). -/
structure buf_block_t where
  state : Nat
  space : Nat
  offset : Nat
  frame : Mem
  check_index_page_at_flush : Bool

/-- The structure `trx_doublewrite_t` of trx0sys.h.  The array `buf_block_arr`
of pointers to the blocks cached in `write_buf` is a list of blocks. -/
structure trx_doublewrite_t where
  block1 : Nat
  block2 : Nat
  first_free : Nat
  write_buf : Mem
  buf_block_arr : List buf_block_t

/-- A call that `buf_flush_buffered_writes` makes to the file and aio layer.
`fil_io` has the arguments of the calls in buf0flu.cc: the request type,
`sync`, the space id, the offset in blocks, the offset in bytes, the length,
the buffer (the memory and the pointer into it) and, as the message, the
block, if one is passed. -/
inductive io_call where
  | fil_io (type : Nat) (sync : Bool) (space_id block_offset byte_offset len : Nat)
      (buf : Mem) (buf_ptr : Nat) (message : Option buf_block_t)
  | fil_flush (space_id : Nat)
  | buf_LRU_stat_inc_io
  | os_aio_simulated_wake_handler_threads
  | os_aio_wait_until_no_pending_writes
  | fil_flush_file_spaces (purpose : Nat)

/-- The parts of the engine that `buf_flush_buffered_writes` calls and that are
taken as parameters: the validators of index pages (page0page.cc is not among
the sources) and `buf_page_in_file` (buf0buf.h is not among the sources). -/
structure flush_env where
  page_simple_validate_new : Mem → Bool
  page_simple_validate_old : Mem → Bool
  buf_page_in_file : buf_block_t → Bool

/-- The process-wide state that `buf_flush_buffered_writes` reads and writes:
the globals `srv_use_doublewrite_buf`, `trx_doublewrite` (`none` is null),
`srv_dblwr_pages_written` and `srv_dblwr_writes`, and the calls made to the
file and aio layer so far, in order. -/
structure flush_state where
  srv_use_doublewrite_buf : Bool
  trx_doublewrite : Option trx_doublewrite_t
  srv_dblwr_pages_written : Nat
  srv_dblwr_writes : Nat
  io : List io_call

/-- The block that entry `i` of `buf_block_arr` points to; an entry past the
end of the list reads as a block that is no file page. -/
def trx_doublewrite_t.block (dw : trx_doublewrite_t) (i : Nat) : buf_block_t :=
  dw.buf_block_arr.getD i
    { state := 0, space := 0, offset := 0, frame := fun _ => 0,
      check_index_page_at_flush := false }

/-- The function `buf_flush_sync_datafiles` of buf0flu.cc. -/
def buf_flush_sync_datafiles (st : flush_state) : flush_state :=
  { st with io := st.io ++ [io_call.os_aio_simulated_wake_handler_threads,
                            io_call.os_aio_wait_until_no_pending_writes,
                            io_call.fil_flush_file_spaces FIL_TABLESPACE] }

/-- The first loop of `buf_flush_buffered_writes`, over `k` blocks from block
`i` on: `false` when a page fails its validation and the server is crashed
(`ut_error`).  The message printed when the LSN fields of a frame differ is
not modelled. -/
def buf_flush_buffered_writes_validate (env : flush_env) (dw : trx_doublewrite_t) :
    Nat → Nat → Bool
  | 0, _ => true
  | k + 1, i =>
    let block := dw.block i
    if block.state ≠ BUF_BLOCK_FILE_PAGE then buf_flush_buffered_writes_validate env dw k (i + 1)
    else if block.check_index_page_at_flush = false then
      buf_flush_buffered_writes_validate env dw k (i + 1)
    else if page_is_comp block.frame ≠ 0 then
      if env.page_simple_validate_new block.frame = false then false
      else buf_flush_buffered_writes_validate env dw k (i + 1)
    else if env.page_simple_validate_old block.frame = false then false
    else buf_flush_buffered_writes_validate env dw k (i + 1)

/-- The last loop of `buf_flush_buffered_writes`, over `k` blocks from block
`i` on, which writes each page to its place: the calls made, and whether an
assertion (`ut_a`) failed.  The message printed when the LSN fields of a frame
differ is not modelled. -/
def buf_flush_buffered_writes_post (env : flush_env) (dw : trx_doublewrite_t) :
    Nat → Nat → List io_call → List io_call × Bool
  | 0, _, io => (io, true)
  | k + 1, i, io =>
    let block := dw.block i
    if env.buf_page_in_file block = false then (io, false)
    else if block.state ≠ BUF_BLOCK_FILE_PAGE then (io, false)
    else
      buf_flush_buffered_writes_post env dw k (i + 1)
        (io ++ [io_call.fil_io (OS_FILE_WRITE ||| OS_AIO_SIMULATED_WAKE_LATER) false
                  block.space block.offset 0 UNIV_PAGE_SIZE block.frame 0 (some block),
                io_call.buf_LRU_stat_inc_io])

/-- The function `buf_flush_buffered_writes` of buf0flu.cc.  `Except.error` is
the state in which the server is crashed by `ut_error` or a failed `ut_a`,
`Except.ok` the state on return.  The two loops that only print a message when
the LSN fields of a page image in `write_buf` differ are not modelled. -/
def buf_flush_buffered_writes (env : flush_env) (st : flush_state) :
    Except flush_state flush_state :=
  match st.trx_doublewrite with
  | none => Except.ok (buf_flush_sync_datafiles st)
  | some dw =>
    if st.srv_use_doublewrite_buf = false then Except.ok (buf_flush_sync_datafiles st)
    else if dw.first_free = 0 then Except.ok st
    else if buf_flush_buffered_writes_validate env dw dw.first_free 0 = false then
      Except.error st
    else
      let st := { st with
        srv_dblwr_pages_written := (st.srv_dblwr_pages_written + dw.first_free) % 2 ^ 64,
        srv_dblwr_writes := (st.srv_dblwr_writes + 1) % 2 ^ 64 }
      let len := min TRX_SYS_DOUBLEWRITE_BLOCK_SIZE dw.first_free * UNIV_PAGE_SIZE
      let write_buf := 0
      let io := st.io ++ [io_call.fil_io OS_FILE_WRITE true TRX_SYS_SPACE dw.block1 0 len
        dw.write_buf write_buf none]
      let io :=
        if dw.first_free ≤ TRX_SYS_DOUBLEWRITE_BLOCK_SIZE then io
        else
          let len := (dw.first_free - TRX_SYS_DOUBLEWRITE_BLOCK_SIZE) * UNIV_PAGE_SIZE
          let write_buf := TRX_SYS_DOUBLEWRITE_BLOCK_SIZE * UNIV_PAGE_SIZE
          io ++ [io_call.fil_io OS_FILE_WRITE true TRX_SYS_SPACE dw.block2 0 len
            dw.write_buf write_buf none]
      let io := io ++ [io_call.fil_flush TRX_SYS_SPACE]
      let r := buf_flush_buffered_writes_post env dw dw.first_free 0 io
      if r.2 = false then Except.error { st with io := r.1 }
      else
        let st := buf_flush_sync_datafiles { st with io := r.1 }
        Except.ok { st with trx_doublewrite := some { dw with first_free := 0 } }

/-! ## Compact physical records (`rem0rec.cc`) -/

/-- Modelled from the spec: `REC_N_NEW_EXTRA_BYTES`, the fixed bytes in front of
the origin of a compact record (rem0rec.h is not among the sources); the layout
comment of rem0rec.cc lists them: 4 info bits, 4 bits of owned count, 13 bits
of heap number, 3 bits of record type, two bytes of next-record pointer. -/
def REC_N_NEW_EXTRA_BYTES : Nat := 5

/-- Modelled from the spec: record type "ordinary" (`000=conventional` in the
layout comment of rem0rec.cc; rem0rec.h is not among the sources). -/
def REC_STATUS_ORDINARY : Nat := 0

/-- Modelled from the spec: record type "node pointer" (`001`). -/
def REC_STATUS_NODE_PTR : Nat := 1

/-- Modelled from the spec: record type "infimum" (`010`). -/
def REC_STATUS_INFIMUM : Nat := 2

/-- Modelled from the spec: record type "supremum" (`011`). -/
def REC_STATUS_SUPREMUM : Nat := 3

/-- Modelled from the spec: `REC_NEW_STATUS`, how far in front of the origin
the byte with the record type is: the two bytes of the next-record pointer lie
between (rem0rec.h is not among the sources). -/
def REC_NEW_STATUS : Nat := 3

/-- Modelled from the spec: `REC_NEW_STATUS_MASK`, the three bits of the record
type. -/
def REC_NEW_STATUS_MASK : Nat := 0x7

/-- Modelled from the spec: `REC_NEW_STATUS_SHIFT`. -/
def REC_NEW_STATUS_SHIFT : Nat := 0

/-- Modelled from the spec: `REC_NEW_INFO_BITS`, how far in front of the origin
the byte with the info bits is, the first of the five header bytes. -/
def REC_NEW_INFO_BITS : Nat := 5

/-- Modelled from the spec: `REC_INFO_BITS_MASK`, the four info bits, above the
four bits of the owned count. -/
def REC_INFO_BITS_MASK : Nat := 0xF0

/-- Modelled from the spec: `REC_INFO_BITS_SHIFT`. -/
def REC_INFO_BITS_SHIFT : Nat := 0

/-- Modelled from the spec: `REC_MAX_N_FIELDS`, the largest number of fields of
a record, a 10-bit number (rem0rec.h is not among the sources). -/
def REC_MAX_N_FIELDS : Nat := 1024 - 1

/-- Modelled from the spec: `REC_NODE_PTR_SIZE`, the bytes of the child page
number of a node pointer. -/
def REC_NODE_PTR_SIZE : Nat := 4

/-- Modelled from the spec: `REC_OFFS_HEADER_SIZE`, the cells of an offsets
array in front of `rec_offs_base`: the allocated size and the number of fields
(rem0rec.h is not among the sources; the debug build has two more). -/
def REC_OFFS_HEADER_SIZE : Nat := 2

/-- Modelled from the spec: `REC_OFFS_COMPACT`, the flag of a compact record in
`rec_offs_base(offsets)[0]`. -/
def REC_OFFS_COMPACT : Nat := 2 ^ 31

/-- Modelled from the spec: `REC_OFFS_SQL_NULL`, the flag of an SQL NULL field
in `rec_offs_base(offsets)[i + 1]`, the high-order bit of the 32-bit offset. -/
def REC_OFFS_SQL_NULL : Nat := 2 ^ 31

/-- Modelled from the spec: `REC_OFFS_EXTERNAL`, the flag of an externally
stored field, the second high-order bit. -/
def REC_OFFS_EXTERNAL : Nat := 2 ^ 30

/-- Modelled from the spec: `REC_OFFS_MASK`, the bits of the offset proper. -/
def REC_OFFS_MASK : Nat := REC_OFFS_EXTERNAL - 1

/-- Modelled from the spec: `UT_BITS_IN_BYTES(b)`, the bytes that hold `b`
bits (ut0ut.h is not among the sources). -/
def UT_BITS_IN_BYTES (b : Nat) : Nat := (b + 7) / 8

/-- Modelled from the spec: `dtype_get_prtype` (data0type.h is not among the
sources). -/
def dtype_get_prtype (type : dtype_t) : Nat := type.prtype

/-- Modelled from the spec: `dtype_get_mtype` (data0type.h is not among the
sources). -/
def dtype_get_mtype (type : dtype_t) : Nat := type.mtype

/-- Modelled from the spec: `dtype_get_len` (data0type.h is not among the
sources). -/
def dtype_get_len (type : dtype_t) : Nat := type.len

/-- Modelled from the spec: `dfield_get_data` (data0data.h is not among the
sources). -/
def dfield_get_data (field : dfield_t) : List Nat := field.data

/-- Modelled from the spec: `dfield_set_data`, which also clears the
externally-stored flag (data0data.h is not among the sources). -/
def dfield_set_data (field : dfield_t) (data : List Nat) (len : Nat) : dfield_t :=
  { field with data := data, ext := false, len := len }

/-- Modelled from the spec: `dfield_set_null` (data0data.h is not among the
sources). -/
def dfield_set_null (field : dfield_t) : dfield_t := dfield_set_data field [] UNIV_SQL_NULL

/-- Modelled from the spec: `dtuple_set_info_bits` (data0data.h is not among
the sources). -/
def dtuple_set_info_bits (tuple : dtuple_t) (info_bits : Nat) : dtuple_t :=
  { tuple with info_bits := info_bits }

/-- The element `fields[i]` of a C array of data fields; past the end it
reads as an empty field. -/
def dfield_array_get (fields : List dfield_t) (i : Nat) : dfield_t :=
  fields.getD i { data := [], ext := false, len := 0, type := ⟨0, 0, 0⟩ }

/-- Modelled from the spec: `dict_index_get_n_unique_in_tree`, the fields that
identify a record in the tree: the unique fields of a clustered index, all
fields of a secondary index (dict0dict.h is not among the sources). -/
def dict_index_get_n_unique_in_tree (index : dict_index_t) : Nat :=
  if dict_index_is_clust index then dict_index_get_n_unique index
  else dict_index_get_n_fields index

/-- Modelled from the spec: `rec_get_bit_field_1` (rem0rec.h is not among the
sources): the bits `mask` of the byte `offs` in front of the origin. -/
def rec_get_bit_field_1 (mem : Mem) (rec_ offs mask shift : Nat) : Nat :=
  (mach_read_from_1 mem (rec_ - offs) &&& mask) >>> shift

/-- Modelled from the spec: `rec_set_bit_field_1` (rem0rec.h is not among the
sources). -/
def rec_set_bit_field_1 (mem : Mem) (rec_ val offs mask shift : Nat) : Mem :=
  mach_write_to_1 mem (rec_ - offs)
    ((mach_read_from_1 mem (rec_ - offs) &&& (2 ^ 64 - 1 - mask)) ||| (val <<< shift))

/-- Modelled from the spec: `rec_get_status`, the record type of a compact
record (rem0rec.h is not among the sources). -/
def rec_get_status (mem : Mem) (rec_ : Nat) : Nat :=
  rec_get_bit_field_1 mem rec_ REC_NEW_STATUS REC_NEW_STATUS_MASK REC_NEW_STATUS_SHIFT

/-- Modelled from the spec: `rec_set_status` (rem0rec.h is not among the
sources). -/
def rec_set_status (mem : Mem) (rec_ bits : Nat) : Mem :=
  rec_set_bit_field_1 mem rec_ bits REC_NEW_STATUS REC_NEW_STATUS_MASK REC_NEW_STATUS_SHIFT

/-- Modelled from the spec: `rec_get_info_bits` for a compact record
(rem0rec.h is not among the sources). -/
def rec_get_info_bits (mem : Mem) (rec_ : Nat) : Nat :=
  rec_get_bit_field_1 mem rec_ REC_NEW_INFO_BITS REC_INFO_BITS_MASK REC_INFO_BITS_SHIFT

/-- Modelled from the spec: `rec_set_info_bits_new` (rem0rec.h is not among
the sources). -/
def rec_set_info_bits_new (mem : Mem) (rec_ bits : Nat) : Mem :=
  rec_set_bit_field_1 mem rec_ bits REC_NEW_INFO_BITS REC_INFO_BITS_MASK REC_INFO_BITS_SHIFT

/-- Modelled from the spec: `rec_set_info_and_status_bits`: the record type
from the low three bits, the info bits from the rest (rem0rec.h is not among
the sources). -/
def rec_set_info_and_status_bits (mem : Mem) (rec_ bits : Nat) : Mem :=
  let mem := rec_set_status mem rec_ (bits &&& REC_NEW_STATUS_MASK)
  rec_set_info_bits_new mem rec_ (bits &&& (2 ^ 64 - 1 - REC_NEW_STATUS_MASK))

/-- The store `a[i] = v` into an array of `ulint`. -/
def ulint_array_set (a : Nat → Nat) (i v : Nat) : Nat → Nat :=
  fun j => if j = i then v else a j

/-- Modelled from the spec: `rec_offs_get_n_alloc`, cell 0 of an offsets array
(rem0rec.h is not among the sources). -/
def rec_offs_get_n_alloc (offsets : Nat → Nat) : Nat := offsets 0

/-- Modelled from the spec: `rec_offs_set_n_alloc`. -/
def rec_offs_set_n_alloc (offsets : Nat → Nat) (n_alloc : Nat) : Nat → Nat :=
  ulint_array_set offsets 0 n_alloc

/-- Modelled from the spec: `rec_offs_n_fields`, cell 1 of an offsets array. -/
def rec_offs_n_fields (offsets : Nat → Nat) : Nat := offsets 1

/-- Modelled from the spec: `rec_offs_set_n_fields`. -/
def rec_offs_set_n_fields (offsets : Nat → Nat) (n_fields : Nat) : Nat → Nat :=
  ulint_array_set offsets 1 n_fields

/-- Modelled from the spec: `rec_offs_base(offsets)[i]`, the cells after the
header of an offsets array. -/
def rec_offs_base (offsets : Nat → Nat) (i : Nat) : Nat := offsets (REC_OFFS_HEADER_SIZE + i)

/-- The store `rec_offs_base(offsets)[i] = v`. -/
def rec_offs_base_set (offsets : Nat → Nat) (i v : Nat) : Nat → Nat :=
  ulint_array_set offsets (REC_OFFS_HEADER_SIZE + i) v

/-- Modelled from the spec: `rec_offs_comp`, nonzero for the offsets of a
compact record (rem0rec.h is not among the sources). -/
def rec_offs_comp (offsets : Nat → Nat) : Nat := rec_offs_base offsets 0 &&& REC_OFFS_COMPACT

/-- Modelled from the spec: `rec_offs_nth_extern`, nonzero when field `n` is
stored externally (rem0rec.h is not among the sources). -/
def rec_offs_nth_extern (offsets : Nat → Nat) (n : Nat) : Nat :=
  rec_offs_base offsets (1 + n) &&& REC_OFFS_EXTERNAL

/-- Modelled from the spec: `rec_offs_nth_sql_null`, nonzero when field `n` is
SQL NULL (rem0rec.h is not among the sources). -/
def rec_offs_nth_sql_null (offsets : Nat → Nat) (n : Nat) : Nat :=
  rec_offs_base offsets (1 + n) &&& REC_OFFS_SQL_NULL

/-- Modelled from the spec: `rec_offs_data_size`, the end offset of the last
field (rem0rec.h is not among the sources). -/
def rec_offs_data_size (offsets : Nat → Nat) : Nat :=
  rec_offs_base offsets (rec_offs_n_fields offsets) &&& REC_OFFS_MASK

/-- Modelled from the spec: `rec_get_nth_field_offs`: the offset of field `n`
from the origin and its length, `UNIV_SQL_NULL` for an SQL NULL field
(rem0rec.h is not among the sources). -/
def rec_get_nth_field_offs (offsets : Nat → Nat) (n : Nat) : Nat × Nat :=
  let offs := if n = 0 then 0 else rec_offs_base offsets n &&& REC_OFFS_MASK
  let length := rec_offs_base offsets (1 + n)
  if length &&& REC_OFFS_SQL_NULL ≠ 0 then (offs, UNIV_SQL_NULL)
  else (offs, ((length &&& REC_OFFS_MASK) + 2 ^ 64 - offs) % 2 ^ 64)

/-- Modelled from the spec: `rec_get_nth_field`: the address of field `n` and
its length (rem0rec.h is not among the sources). -/
def rec_get_nth_field (rec_ : Nat) (offsets : Nat → Nat) (n : Nat) : Nat × Nat :=
  (rec_ + (rec_get_nth_field_offs offsets n).1, (rec_get_nth_field_offs offsets n).2)

/-- The variables of the loops that determine the offsets of a compact
record. -/
structure rec_offs_vars where
  offsets : Nat → Nat
  offs : Nat
  any_ext : Nat
  nulls : Nat
  lens : Nat
  null_mask : Nat

/-- The block `if (!(byte) null_mask) { nulls--; null_mask = 1; }` in front of
the null flag of a nullable field: the byte and the mask of the flag. -/
def rec_null_flag_position (nulls null_mask : Nat) : Nat × Nat :=
  if null_mask % 256 = 0 then (nulls - 1, 1) else (nulls, null_mask)

/-- The body of the loop of `rec_init_offsets_comp_ordinary` for field `i`,
from `if (unlikely(!field->fixed_len))` on: the length of a field that is not
NULL. -/
def rec_init_offsets_comp_ordinary_len (mem : Mem) (index : dict_index_t) (i : Nat)
    (s : rec_offs_vars) : rec_offs_vars :=
  let field := dict_index_get_nth_field index i
  if field.fixed_len = 0 then
    let col := dict_field_get_col field
    let len := mem.byte s.lens
    let s := { s with lens := s.lens - 1 }
    if (col.len > 255 ∨ col.mtype = DATA_BLOB) ∧ len &&& 0x80 ≠ 0 then
      let len := (len <<< 8) ||| mem.byte s.lens
      let s := { s with lens := s.lens - 1, offs := s.offs + (len &&& 0x3fff) }
      if len &&& 0x4000 ≠ 0 then
        { s with any_ext := REC_OFFS_EXTERNAL,
                 offsets := rec_offs_base_set s.offsets (i + 1) (s.offs ||| REC_OFFS_EXTERNAL) }
      else
        { s with offsets := rec_offs_base_set s.offsets (i + 1) s.offs }
    else
      let s := { s with offs := s.offs + len }
      { s with offsets := rec_offs_base_set s.offsets (i + 1) s.offs }
  else
    let s := { s with offs := s.offs + field.fixed_len }
    { s with offsets := rec_offs_base_set s.offsets (i + 1) s.offs }

/-- The body of the loop of `rec_init_offsets_comp_ordinary` for field `i`. -/
def rec_init_offsets_comp_ordinary_body (mem : Mem) (index : dict_index_t) (i : Nat)
    (s : rec_offs_vars) : rec_offs_vars :=
  let field := dict_index_get_nth_field index i
  if (dict_field_get_col field).prtype &&& DATA_NOT_NULL = 0 then
    let p := rec_null_flag_position s.nulls s.null_mask
    let s := { s with nulls := p.1, null_mask := p.2 }
    if mem.byte s.nulls &&& s.null_mask ≠ 0 then
      let s := { s with null_mask := (s.null_mask <<< 1) % 2 ^ 64 }
      { s with offsets := rec_offs_base_set s.offsets (i + 1) (s.offs ||| REC_OFFS_SQL_NULL) }
    else
      rec_init_offsets_comp_ordinary_len mem index i
        { s with null_mask := (s.null_mask <<< 1) % 2 ^ 64 }
  else rec_init_offsets_comp_ordinary_len mem index i s

/-- The loop `do ... while (++i < rec_offs_n_fields(offsets))` of
`rec_init_offsets_comp_ordinary`; the body runs at least once, and the first
argument bounds the further rounds. -/
def rec_init_offsets_comp_ordinary_loop (mem : Mem) (index : dict_index_t) :
    Nat → Nat → rec_offs_vars → rec_offs_vars
  | 0, i, s => rec_init_offsets_comp_ordinary_body mem index i s
  | fuel + 1, i, s =>
    let s := rec_init_offsets_comp_ordinary_body mem index i s
    if i + 1 < rec_offs_n_fields s.offsets then
      rec_init_offsets_comp_ordinary_loop mem index fuel (i + 1) s
    else s

/-- The function `rec_init_offsets_comp_ordinary` of rem0rec.cc: the offsets of
the fields of an ordinary compact record, from its null flags and lengths. -/
def rec_init_offsets_comp_ordinary (mem : Mem) (rec_ extra : Nat) (index : dict_index_t)
    (offsets : Nat → Nat) : Nat → Nat :=
  let nulls := rec_ - (extra + 1)
  let lens := nulls - UT_BITS_IN_BYTES index.n_nullable
  let s := rec_init_offsets_comp_ordinary_loop mem index (rec_offs_n_fields offsets) 0
    { offsets := offsets, offs := 0, any_ext := 0, nulls := nulls, lens := lens, null_mask := 1 }
  rec_offs_base_set s.offsets 0 ((rec_ - (s.lens + 1)) ||| REC_OFFS_COMPACT ||| s.any_ext)

/-- The body of the loop of `rec_init_offsets` for field `i` of a compact
record that is not an ordinary one, from `if (unlikely(!field->fixed_len))`
on; `none` where `ut_a(!(len & 0x4000))` fails. -/
def rec_init_offsets_len (mem : Mem) (index : dict_index_t) (i : Nat)
    (s : rec_offs_vars) : Option rec_offs_vars :=
  let field := dict_index_get_nth_field index i
  if field.fixed_len = 0 then
    let col := dict_field_get_col field
    let len := mem.byte s.lens
    let s := { s with lens := s.lens - 1 }
    if (col.len > 255 ∨ col.mtype = DATA_BLOB) ∧ len &&& 0x80 ≠ 0 then
      let len := (len <<< 8) ||| mem.byte s.lens
      let s := { s with lens := s.lens - 1 }
      if len &&& 0x4000 ≠ 0 then none
      else
        let s := { s with offs := s.offs + (len &&& 0x3fff) }
        some { s with offsets := rec_offs_base_set s.offsets (i + 1) s.offs }
    else
      let s := { s with offs := s.offs + len }
      some { s with offsets := rec_offs_base_set s.offsets (i + 1) s.offs }
  else
    let s := { s with offs := s.offs + field.fixed_len }
    some { s with offsets := rec_offs_base_set s.offsets (i + 1) s.offs }

/-- The body of the loop of `rec_init_offsets` for field `i` of a compact
record that is not an ordinary one. -/
def rec_init_offsets_body (mem : Mem) (index : dict_index_t) (n_node_ptr_field i : Nat)
    (s : rec_offs_vars) : Option rec_offs_vars :=
  if i = n_node_ptr_field then
    let s := { s with offs := s.offs + 4 }
    some { s with offsets := rec_offs_base_set s.offsets (i + 1) s.offs }
  else
    let field := dict_index_get_nth_field index i
    if (dict_field_get_col field).prtype &&& DATA_NOT_NULL = 0 then
      let p := rec_null_flag_position s.nulls s.null_mask
      let s := { s with nulls := p.1, null_mask := p.2 }
      if mem.byte s.nulls &&& s.null_mask ≠ 0 then
        let s := { s with null_mask := (s.null_mask <<< 1) % 2 ^ 64 }
        some { s with
          offsets := rec_offs_base_set s.offsets (i + 1) (s.offs ||| REC_OFFS_SQL_NULL) }
      else
        rec_init_offsets_len mem index i { s with null_mask := (s.null_mask <<< 1) % 2 ^ 64 }
    else rec_init_offsets_len mem index i s

/-- The loop `do ... while (++i < rec_offs_n_fields(offsets))` of
`rec_init_offsets` for a compact record. -/
def rec_init_offsets_loop (mem : Mem) (index : dict_index_t) (n_node_ptr_field : Nat) :
    Nat → Nat → rec_offs_vars → Option rec_offs_vars
  | 0, i, s => rec_init_offsets_body mem index n_node_ptr_field i s
  | fuel + 1, i, s =>
    match rec_init_offsets_body mem index n_node_ptr_field i s with
    | none => none
    | some s =>
      if i + 1 < rec_offs_n_fields s.offsets then
        rec_init_offsets_loop mem index n_node_ptr_field fuel (i + 1) s
      else some s

/-- The function `rec_init_offsets` of rem0rec.cc for the record of a
compact-format table; `none` for a failed assertion, and for the record of an
old-style table, whose offsets this development does not follow. -/
def rec_init_offsets (mem : Mem) (rec_ : Nat) (index : dict_index_t) (offsets : Nat → Nat) :
    Option (Nat → Nat) :=
  if dict_table_is_comp index.table then
    let status := rec_get_status mem rec_
    if status = REC_STATUS_INFIMUM ∨ status = REC_STATUS_SUPREMUM then
      let offsets := rec_offs_base_set offsets 0 (REC_N_NEW_EXTRA_BYTES ||| REC_OFFS_COMPACT)
      some (rec_offs_base_set offsets 1 8)
    else if status = REC_STATUS_ORDINARY then
      some (rec_init_offsets_comp_ordinary mem rec_ REC_N_NEW_EXTRA_BYTES index offsets)
    else
      let n_node_ptr_field :=
        if status = REC_STATUS_NODE_PTR then dict_index_get_n_unique_in_tree index
        else ULINT_UNDEFINED
      let nulls := rec_ - (REC_N_NEW_EXTRA_BYTES + 1)
      let lens := nulls - UT_BITS_IN_BYTES index.n_nullable
      match rec_init_offsets_loop mem index n_node_ptr_field (rec_offs_n_fields offsets) 0
          { offsets := offsets, offs := 0, any_ext := 0, nulls := nulls, lens := lens,
            null_mask := 1 } with
      | none => none
      | some s => some (rec_offs_base_set s.offsets 0 ((rec_ - (s.lens + 1)) ||| REC_OFFS_COMPACT))
  else none

/-- The function `rec_get_offsets_func` of rem0rec.cc for the record of a
compact-format table: the offsets array of the first `n_fields` fields, a new
one (zeroed here) when none is passed or the passed one is too small; `none`
for the `ut_error` of an unknown record type, and for an old-style table. -/
def rec_get_offsets_func (mem : Mem) (rec_ : Nat) (index : dict_index_t)
    (offsets : Option (Nat → Nat)) (n_fields : Nat) : Option (Nat → Nat) :=
  if dict_table_is_comp index.table then
    let status := rec_get_status mem rec_
    let n : Option Nat :=
      if status = REC_STATUS_ORDINARY then some (dict_index_get_n_fields index)
      else if status = REC_STATUS_NODE_PTR then some (dict_index_get_n_unique_in_tree index + 1)
      else if status = REC_STATUS_INFIMUM ∨ status = REC_STATUS_SUPREMUM then some 1
      else none
    match n with
    | none => none
    | some n =>
      let n := if n_fields < n then n_fields else n
      let size := n + (1 + REC_OFFS_HEADER_SIZE)
      let offsets : Nat → Nat :=
        match offsets with
        | none => rec_offs_set_n_alloc (fun _ => 0) size
        | some offsets =>
          if rec_offs_get_n_alloc offsets < size then rec_offs_set_n_alloc (fun _ => 0) size
          else offsets
      let offsets := rec_offs_set_n_fields offsets n
      rec_init_offsets mem rec_ index offsets
  else none

/-- The loop of `rec_get_converted_size_comp_prefix` over the fields from `i`
on: the extra size and the data size. -/
def rec_get_converted_size_comp_prefix_loop (index : dict_index_t) (fields : List dfield_t) :
    Nat → Nat → Nat → Nat → Nat × Nat
  | 0, _, extra_size, data_size => (extra_size, data_size)
  | k + 1, i, extra_size, data_size =>
    let field := dict_index_get_nth_field index i
    let len := dfield_get_len (dfield_array_get fields i)
    let col := dict_field_get_col field
    if dfield_is_null (dfield_array_get fields i) then
      rec_get_converted_size_comp_prefix_loop index fields k (i + 1) extra_size data_size
    else
      let extra_size :=
        if field.fixed_len ≠ 0 then extra_size
        else if dfield_is_ext (dfield_array_get fields i) then extra_size + 2
        else if len < 128 ∨ (col.len < 256 ∧ col.mtype ≠ DATA_BLOB) then extra_size + 1
        else extra_size + 2
      rec_get_converted_size_comp_prefix_loop index fields k (i + 1) extra_size (data_size + len)

/-- The function `rec_get_converted_size_comp_prefix` of rem0rec.cc: the total
size and the extra size (`*extra`) of the compact record of the first
`n_fields` fields. -/
def rec_get_converted_size_comp_prefix (index : dict_index_t) (fields : List dfield_t)
    (n_fields : Nat) : Nat × Nat :=
  let extra_size := REC_N_NEW_EXTRA_BYTES + UT_BITS_IN_BYTES index.n_nullable
  let r := rec_get_converted_size_comp_prefix_loop index fields n_fields 0 extra_size 0
  (r.1 + r.2, r.1)

/-- The function `rec_get_converted_size_comp` of rem0rec.cc: the total size
and the extra size of a compact record; `none` for the `ut_error` of an
unknown record type. -/
def rec_get_converted_size_comp (index : dict_index_t) (status : Nat) (fields : List dfield_t)
    (n_fields : Nat) : Option (Nat × Nat) :=
  if status = REC_STATUS_ORDINARY then
    let r := rec_get_converted_size_comp_prefix index fields n_fields
    some (0 + r.1, r.2)
  else if status = REC_STATUS_NODE_PTR then
    let n_fields := n_fields - 1
    let r := rec_get_converted_size_comp_prefix index fields n_fields
    some (REC_NODE_PTR_SIZE + r.1, r.2)
  else if status = REC_STATUS_INFIMUM ∨ status = REC_STATUS_SUPREMUM then
    some (REC_N_NEW_EXTRA_BYTES + 8, REC_N_NEW_EXTRA_BYTES)
  else none

/-- The variables of the loop of `rec_convert_dtuple_to_rec_comp`, with the
memory it writes. -/
structure rec_comp_vars where
  mem : Mem
  end_ : Nat
  nulls : Nat
  lens : Nat
  null_mask : Nat

/-- The body of the loop of `rec_convert_dtuple_to_rec_comp` for a field that
is not NULL, from `ifield = dict_index_get_nth_field(index, i)` on: the length
bytes and the data. -/
def rec_convert_dtuple_to_rec_comp_data (index : dict_index_t) (field : dfield_t) (i : Nat)
    (s : rec_comp_vars) : rec_comp_vars :=
  let type := dfield_get_type field
  let len := dfield_get_len field
  let ifield := dict_index_get_nth_field index i
  let fixed_len := ifield.fixed_len
  let s :=
    if fixed_len ≠ 0 then s
    else if dfield_is_ext field then
      let s := { s with mem := s.mem.put s.lens (((len >>> 8) % 256) ||| 0xc0),
                        lens := s.lens - 1 }
      { s with mem := s.mem.put s.lens len, lens := s.lens - 1 }
    else if len < 128 ∨ (dtype_get_len type < 256 ∧ dtype_get_mtype type ≠ DATA_BLOB) then
      { s with mem := s.mem.put s.lens len, lens := s.lens - 1 }
    else
      let s := { s with mem := s.mem.put s.lens (((len >>> 8) % 256) ||| 0x80),
                        lens := s.lens - 1 }
      { s with mem := s.mem.put s.lens len, lens := s.lens - 1 }
  { s with mem := memcpy_data s.mem s.end_ (dfield_get_data field) len, end_ := s.end_ + len }

/-- The body of the loop of `rec_convert_dtuple_to_rec_comp` for a field that
is not the child page number of a node pointer: the null flag, then the length
bytes and the data. -/
def rec_convert_dtuple_to_rec_comp_field (index : dict_index_t) (field : dfield_t) (i : Nat)
    (s : rec_comp_vars) : rec_comp_vars :=
  let type := dfield_get_type field
  if dtype_get_prtype type &&& DATA_NOT_NULL = 0 then
    let p := rec_null_flag_position s.nulls s.null_mask
    let s := { s with nulls := p.1, null_mask := p.2 }
    if dfield_is_null field then
      { s with mem := s.mem.put s.nulls (s.mem.byte s.nulls ||| s.null_mask),
               null_mask := (s.null_mask <<< 1) % 2 ^ 64 }
    else
      rec_convert_dtuple_to_rec_comp_data index field i
        { s with null_mask := (s.null_mask <<< 1) % 2 ^ 64 }
  else rec_convert_dtuple_to_rec_comp_data index field i s

/-- The loop `for (i = 0, field = fields; i < n_fields; i++, field++)` of
`rec_convert_dtuple_to_rec_comp`, from field `i` on. -/
def rec_convert_dtuple_to_rec_comp_loop (index : dict_index_t) (fields : List dfield_t)
    (n_node_ptr_field : Nat) : Nat → Nat → rec_comp_vars → rec_comp_vars
  | 0, _, s => s
  | k + 1, i, s =>
    let field := dfield_array_get fields i
    if i = n_node_ptr_field then
      { s with mem := memcpy_data s.mem s.end_ (dfield_get_data field) (dfield_get_len field),
               end_ := s.end_ + 4 }
    else
      rec_convert_dtuple_to_rec_comp_loop index fields n_node_ptr_field k (i + 1)
        (rec_convert_dtuple_to_rec_comp_field index field i s)

/-- The function `rec_convert_dtuple_to_rec_comp` of rem0rec.cc: writes the
null flags and lengths in front of `rec - extra` and the data from `rec` on;
`none` for the `ut_error` of an unknown record type. -/
def rec_convert_dtuple_to_rec_comp (mem : Mem) (rec_ extra : Nat) (index : dict_index_t)
    (status : Nat) (fields : List dfield_t) (n_fields : Nat) : Option rec_comp_vars :=
  let n_node_ptr_field : Option Nat :=
    if status = REC_STATUS_ORDINARY then some ULINT_UNDEFINED
    else if status = REC_STATUS_NODE_PTR then some (n_fields - 1)
    else if status = REC_STATUS_INFIMUM ∨ status = REC_STATUS_SUPREMUM then some ULINT_UNDEFINED
    else none
  match n_node_ptr_field with
  | none => none
  | some n_node_ptr_field =>
    let end_ := rec_
    let nulls := rec_ - (extra + 1)
    let lens := nulls - UT_BITS_IN_BYTES index.n_nullable
    let mem := memset mem (lens + 1) 0 (nulls - lens)
    some (rec_convert_dtuple_to_rec_comp_loop index fields n_node_ptr_field n_fields 0
      { mem := mem, end_ := end_, nulls := nulls, lens := lens, null_mask := 1 })

/-- The function `rec_convert_dtuple_to_rec_new` of rem0rec.cc: the compact
record of a tuple, built from `buf` on; returns the memory and the origin of
the record. -/
def rec_convert_dtuple_to_rec_new (mem : Mem) (buf : Nat) (index : dict_index_t)
    (dtuple : dtuple_t) : Option (Mem × Nat) :=
  let status := dtuple_get_info_bits dtuple &&& REC_NEW_STATUS_MASK
  match rec_get_converted_size_comp index status dtuple.fields dtuple.n_fields with
  | none => none
  | some (_, extra_size) =>
    let rec_ := buf + extra_size
    match rec_convert_dtuple_to_rec_comp mem rec_ REC_N_NEW_EXTRA_BYTES index status
        dtuple.fields dtuple.n_fields with
    | none => none
    | some s => some (rec_set_info_and_status_bits s.mem rec_ (dtuple_get_info_bits dtuple), rec_)

/-- The function `rec_convert_dtuple_to_rec` of rem0rec.cc for the index of a
compact-format table; `none` for an old-style table, whose records this
development does not follow. -/
def rec_convert_dtuple_to_rec (mem : Mem) (buf : Nat) (index : dict_index_t)
    (dtuple : dtuple_t) (_n_ext : Nat) : Option (Mem × Nat) :=
  if dict_table_is_comp index.table then rec_convert_dtuple_to_rec_new mem buf index dtuple
  else none

/-- The loop of `rec_copy_prefix_to_dtuple` over the fields from `i` on. -/
def rec_copy_prefix_to_dtuple_loop (mem : Mem) (rec_ : Nat) (offsets : Nat → Nat) :
    Nat → Nat → List dfield_t → List dfield_t
  | 0, _, fields => fields
  | k + 1, i, fields =>
    let field := dfield_array_get fields i
    let data := (rec_get_nth_field rec_ offsets i).1
    let len := (rec_get_nth_field rec_ offsets i).2
    let field :=
      if len ≠ UNIV_SQL_NULL then dfield_set_data field (mem.bytes data len) len
      else dfield_set_null field
    rec_copy_prefix_to_dtuple_loop mem rec_ offsets k (i + 1) (fields.set i field)

/-- The function `rec_copy_prefix_to_dtuple` of rem0rec.cc: copies the first
`n_fields` fields of a record into the fields of `tuple`. -/
def rec_copy_prefix_to_dtuple (tuple : dtuple_t) (mem : Mem) (rec_ : Nat) (index : dict_index_t)
    (n_fields : Nat) : Option dtuple_t :=
  match rec_get_offsets_func mem rec_ index none n_fields with
  | none => none
  | some offsets =>
    let tuple := dtuple_set_info_bits tuple (rec_get_info_bits mem rec_)
    some { tuple with
      fields := rec_copy_prefix_to_dtuple_loop mem rec_ offsets n_fields 0 tuple.fields }

/-- The loop of `rec_validate` over the fields from `i` on, for the offsets of
a compact record: `none` when a field has a length that is neither below the
page size nor `UNIV_SQL_NULL`, else the sum of the lengths. -/
def rec_validate_loop (rec_ : Nat) (offsets : Nat → Nat) : Nat → Nat → Nat → Option Nat
  | 0, _, len_sum => some len_sum
  | k + 1, i, len_sum =>
    let len := (rec_get_nth_field rec_ offsets i).2
    if ¬ (len < UNIV_PAGE_SIZE ∨ len = UNIV_SQL_NULL) then none
    else if len ≠ UNIV_SQL_NULL then rec_validate_loop rec_ offsets k (i + 1) (len_sum + len)
    else rec_validate_loop rec_ offsets k (i + 1) len_sum

/-- The function `rec_validate` of rem0rec.cc for the offsets of a compact
record; `none` for the offsets of an old-style record, which this development
does not follow. -/
def rec_validate (rec_ : Nat) (offsets : Nat → Nat) : Option Bool :=
  let n_fields := rec_offs_n_fields offsets
  if n_fields = 0 ∨ n_fields > REC_MAX_N_FIELDS then some false
  else if rec_offs_comp offsets = 0 then none
  else
    match rec_validate_loop rec_ offsets n_fields 0 0 with
    | none => some false
    | some len_sum =>
      if len_sum ≠ rec_offs_data_size offsets then some false
      else some true

/-! ### The layout of a compact record, field by field -/

/-- The bytes of data of a field in a record: none for SQL NULL. -/
def dfield_data_size (field : dfield_t) : Nat :=
  if dfield_is_null field then 0 else dfield_get_len field

/-- The offset of field `j` from the origin of the compact record of the data
fields `fields`: the bytes of data of the fields before it. -/
def rec_comp_data_offs (fields : List dfield_t) : Nat → Nat
  | 0 => 0
  | j + 1 => rec_comp_data_offs fields j + dfield_data_size (dfield_array_get fields j)

/-- The length bytes of a field in a compact record: none for SQL NULL and for
a fixed-length field, two for an externally stored field, else one for a
length below 128 or a column of at most 255 bytes that is no BLOB, else
two. -/
def rec_comp_field_lens_size (ifield : dict_field_t) (field : dfield_t) : Nat :=
  if dfield_is_null field then 0
  else if ifield.fixed_len ≠ 0 then 0
  else if dfield_is_ext field then 2
  else if dfield_get_len field < 128
      ∨ ((dict_field_get_col ifield).len < 256 ∧ (dict_field_get_col ifield).mtype ≠ DATA_BLOB)
    then 1
  else 2

/-- The length bytes of the fields before field `j` in the compact record of
the data fields `fields`. -/
def rec_comp_lens_size (index : dict_index_t) (fields : List dfield_t) : Nat → Nat
  | 0 => 0
  | j + 1 => rec_comp_lens_size index fields j
      + rec_comp_field_lens_size (dict_index_get_nth_field index j) (dfield_array_get fields j)

/-- A field of an index on a column that can be NULL. -/
def dict_field_is_nullable (ifield : dict_field_t) : Bool :=
  (dict_field_get_col ifield).prtype &&& DATA_NOT_NULL = 0

/-- The number of nullable fields among the first `j` fields of an index. -/
def dict_index_n_nullable_before (index : dict_index_t) : Nat → Nat
  | 0 => 0
  | j + 1 => dict_index_n_nullable_before index j
      + (if dict_field_is_nullable (dict_index_get_nth_field index j) then 1 else 0)

/-- Validity of a data field for a field of an index, without regard to
external storage: the type of the field is the type of the column; SQL NULL
only in a nullable column; a field that is not NULL has as many bytes of data
as its length says, fewer than 16384; in a fixed-length field exactly the fixed
length; in a variable-length field of a column of at most 255 bytes that is no
BLOB at most 255. -/
def dfield_valid_for (ifield : dict_field_t) (field : dfield_t) : Prop :=
  field.type.mtype = ifield.col.mtype ∧ field.type.prtype = ifield.col.prtype
  ∧ field.type.len = ifield.col.len
  ∧ (field.len = UNIV_SQL_NULL → ifield.col.prtype &&& DATA_NOT_NULL = 0)
  ∧ (field.len ≠ UNIV_SQL_NULL →
      field.data.length = field.len ∧ field.len < 16384
      ∧ (ifield.fixed_len ≠ 0 → field.len = ifield.fixed_len)
      ∧ (ifield.fixed_len = 0 → ifield.col.len ≤ 255 → ifield.col.mtype ≠ DATA_BLOB →
          field.len ≤ 255))

/-- Validity of the externally-stored flag of a data field for a field of an
index, as `rec_convert_dtuple_to_rec_comp` asserts it: only a field that is not
NULL, of variable length, in a column of 256 bytes or more or a BLOB, is stored
externally. -/
def dfield_ext_valid_for (ifield : dict_field_t) (field : dfield_t) : Prop :=
  field.ext = true →
    field.len ≠ UNIV_SQL_NULL ∧ ifield.fixed_len = 0
    ∧ (ifield.col.len ≥ 256 ∨ ifield.col.mtype = DATA_BLOB)

/-- The invariant of the loop of `rec_convert_dtuple_to_rec_comp` in front of
field `i`, for a record whose null flags end at `nulls0`: where the data, the
length bytes and the null flags have got to. -/
def rec_comp_vars_at (index : dict_index_t) (fields : List dfield_t) (nulls0 i : Nat)
    (end_ lens nulls null_mask : Nat) : Prop :=
  end_ = nulls0 + 6 + rec_comp_data_offs fields i
  ∧ lens + rec_comp_lens_size index fields i = nulls0 - UT_BITS_IN_BYTES index.n_nullable
  ∧ ∃ b, b ≤ 8 ∧ null_mask = 2 ^ b ∧ nulls ≤ nulls0
      ∧ (nulls0 - nulls) * 8 + b = dict_index_n_nullable_before index i

/-- The null flag of field `j` is in its place in the record in `m` whose null
flags end at `nulls0`: one bit for each nullable field, eight to a byte,
downwards from `nulls0`. -/
def rec_comp_null_written (index : dict_index_t) (fields : List dfield_t) (nulls0 : Nat)
    (m : Mem) (j : Nat) : Prop :=
  dict_field_is_nullable (dict_index_get_nth_field index j) = true →
    (m.byte (nulls0 - dict_index_n_nullable_before index j / 8)).testBit
        (dict_index_n_nullable_before index j % 8)
      = dfield_is_null (dfield_array_get fields j)

/-- The length bytes of field `j` are in their place in the record in `m`
whose null flags end at `nulls0`: downwards below the null flags, one byte
with the length, or two with the flag `0x80`, the flag `0x40` of external
storage and the high bits of the length in the first. -/
def rec_comp_lens_written (index : dict_index_t) (fields : List dfield_t) (nulls0 : Nat)
    (m : Mem) (j : Nat) : Prop :=
  (rec_comp_field_lens_size (dict_index_get_nth_field index j) (dfield_array_get fields j) = 1 →
    m.byte (nulls0 - UT_BITS_IN_BYTES index.n_nullable - rec_comp_lens_size index fields j)
      = (dfield_array_get fields j).len)
  ∧ (rec_comp_field_lens_size (dict_index_get_nth_field index j) (dfield_array_get fields j) = 2 →
    m.byte (nulls0 - UT_BITS_IN_BYTES index.n_nullable - rec_comp_lens_size index fields j)
      = (dfield_array_get fields j).len / 256
        + (if (dfield_array_get fields j).ext = true then 192 else 128)
    ∧ m.byte (nulls0 - UT_BITS_IN_BYTES index.n_nullable - rec_comp_lens_size index fields j - 1)
      = (dfield_array_get fields j).len % 256)

/-- The data of field `j` is in its place in the record in `m` whose null
flags end at `nulls0`, five header bytes in front of the origin. -/
def rec_comp_data_written (fields : List dfield_t) (nulls0 : Nat) (m : Mem) (j : Nat) : Prop :=
  (dfield_array_get fields j).len ≠ UNIV_SQL_NULL →
    ∀ t, t < (dfield_array_get fields j).len →
      m (nulls0 + 6 + rec_comp_data_offs fields j + t) = (dfield_array_get fields j).data.getD t 0

instance (ifield : dict_field_t) (field : dfield_t) :
    Decidable (dfield_valid_for ifield field) := by
  unfold dfield_valid_for; infer_instance

instance (ifield : dict_field_t) (field : dfield_t) :
    Decidable (dfield_ext_valid_for ifield field) := by
  unfold dfield_ext_valid_for; infer_instance

/-- An index of a compact-format table on one variable-length column of at
most 100 bytes that cannot be NULL and is no BLOB. -/
def short_column_index : dict_index_t :=
  ⟨⟨1, DICT_TF_COMPACT⟩, DICT_CLUSTERED, 1, 1, 0, [⟨⟨1, DATA_NOT_NULL, 100⟩, 0, 0⟩]⟩

/-- A tuple for `short_column_index` whose one field, of one byte, is flagged
as stored externally. -/
def short_column_extern_tuple : dtuple_t :=
  ⟨0, 1, [⟨[65], true, 1, ⟨1, DATA_NOT_NULL, 100⟩⟩]⟩

/-- An index of a compact-format table on three columns: a fixed-length one of
four bytes that cannot be NULL, a nullable variable-length one of at most 300
bytes, and a BLOB that cannot be NULL. -/
def three_column_index : dict_index_t :=
  ⟨⟨1, DICT_TF_COMPACT⟩, DICT_CLUSTERED, 1, 3, 1,
    [⟨⟨6, DATA_NOT_NULL, 4⟩, 0, 4⟩, ⟨⟨1, 0, 300⟩, 0, 0⟩, ⟨⟨DATA_BLOB, DATA_NOT_NULL, 10⟩, 0, 0⟩]⟩

/-- A tuple for `three_column_index`: four bytes, SQL NULL, and an externally
stored field of twenty bytes. -/
def three_column_tuple : dtuple_t :=
  ⟨0, 3, [⟨[0, 0, 0, 7], false, 4, ⟨6, DATA_NOT_NULL, 4⟩⟩,
    ⟨[], false, UNIV_SQL_NULL, ⟨1, 0, 300⟩⟩,
    ⟨List.replicate 20 9, true, 20, ⟨DATA_BLOB, DATA_NOT_NULL, 10⟩⟩]⟩

/-! ### Concrete states -/

/-- A system state at start: an empty trx-sys page, the id counter at 512. -/
def sample_sys_state : sys_state :=
  ⟨fun _ => 0, ⟨512⟩, ⟨0, "Antelope"⟩, false, []⟩

/-- The callees of `trx_undo_report_row_operation`: an assignment that gives
the transaction an empty undo log on page 7 of the system tablespace, and a
report of an update that never fits. -/
def sample_undo_env : undo_env :=
  ⟨fun _ _ => (DB_SUCCESS, some ⟨0, 7, true, 7, 0, 0, none, false⟩),
    fun m _ mtr => (0, m, mtr, false)⟩

/-- A buffer pool whose undo pages are empty from offset 100 on, and a file
space with two pages left. -/
def sample_undo_world : undo_world :=
  ⟨fun _ _ => mach_write_to_2 (fun _ => 0) (TRX_UNDO_PAGE_HDR + TRX_UNDO_PAGE_FREE) 100,
    [], false, [8, 9]⟩

/-- A transaction without undo logs, at undo number 0. -/
def sample_trx : trx_t := ⟨1, 0, ⟨0⟩, none, none⟩

/-- A clustered-index entry of one byte for `short_column_index`. -/
def short_column_tuple : dtuple_t :=
  ⟨0, 1, [⟨[65], false, 1, ⟨1, DATA_NOT_NULL, 100⟩⟩]⟩

/-- Validators that accept every page. -/
def sample_flush_env : flush_env := ⟨fun _ => true, fun _ => true, fun _ => true⟩

/-- A doublewrite buffer that holds the image of one page, page 70 of space
3. -/
def sample_doublewrite : trx_doublewrite_t :=
  ⟨64, 128, 1, fun _ => 0, [⟨BUF_BLOCK_FILE_PAGE, 3, 70, fun _ => 0, false⟩]⟩

/-- A flush state with the doublewrite buffer in use. -/
def sample_flush_state : flush_state := ⟨true, some sample_doublewrite, 0, 0, []⟩

/-! ## Restoring pages from the doublewrite buffer (`trx0sys.cc`) -/

/-- Modelled from the spec: `FSEG_HEADER_SIZE`, the length of a file segment
header, a space id, a page number and a byte offset (fsp0fsp.h is not among the
sources). -/
def FSEG_HEADER_SIZE : Nat := 10

/-- The constant `TRX_SYS_DOUBLEWRITE` of trx0sys.h. -/
def TRX_SYS_DOUBLEWRITE : Nat := UNIV_PAGE_SIZE - 200

/-- The constant `TRX_SYS_DOUBLEWRITE_MAGIC` of trx0sys.h. -/
def TRX_SYS_DOUBLEWRITE_MAGIC : Nat := FSEG_HEADER_SIZE

/-- The constant `TRX_SYS_DOUBLEWRITE_BLOCK1` of trx0sys.h. -/
def TRX_SYS_DOUBLEWRITE_BLOCK1 : Nat := 4 + FSEG_HEADER_SIZE

/-- The constant `TRX_SYS_DOUBLEWRITE_BLOCK2` of trx0sys.h. -/
def TRX_SYS_DOUBLEWRITE_BLOCK2 : Nat := 8 + FSEG_HEADER_SIZE

/-- The constant `TRX_SYS_DOUBLEWRITE_SPACE_ID_STORED` of trx0sys.h. -/
def TRX_SYS_DOUBLEWRITE_SPACE_ID_STORED : Nat := 24 + FSEG_HEADER_SIZE

/-- The constant `TRX_SYS_DOUBLEWRITE_MAGIC_N` of trx0sys.h. -/
def TRX_SYS_DOUBLEWRITE_MAGIC_N : Nat := 536853855

/-- The constant `TRX_SYS_DOUBLEWRITE_SPACE_ID_STORED_N` of trx0sys.h. -/
def TRX_SYS_DOUBLEWRITE_SPACE_ID_STORED_N : Nat := 1783657386

/-- Modelled from the spec: the two synchronous kinds of `IO_request` that
`trx_sys_doublewrite_init_or_restore_pages` passes to the file layer (the
declaration of the enumeration is not among the sources). -/
inductive IO_request where
  | Sync_read
  | Sync_write
deriving DecidableEq, Repr

/-- A call that `trx_sys_doublewrite_init_or_restore_pages` makes to the file
layer.  `io` has the arguments in the order of the declaration in fil0fil.h:
the request, `batched`, the space id, the page number ("offset in number of
blocks"), the byte offset ("remainder of offset in bytes"), the length, and the
buffer (the memory and the pointer into it); the message is null in every
call. -/
inductive fil_call where
  | io (io_request : IO_request) (batched : Bool)
      (space_id page_no byte_offset len : Nat) (buf : Mem) (ptr : Nat)
  | flush_file_spaces (purpose : Nat)

/-- Modelled from the spec: what a synchronous read of the file layer leaves in
the buffer: the `len` bytes of the file of the space from byte
`page_no * UNIV_PAGE_SIZE + byte_offset` on (fil0fil.cc is not among the
sources; fil0fil.h gives the meaning of the arguments).  `file` is the content
of the file of the space. -/
def fil_read (file : Mem) (page_no byte_offset len : Nat) (buf : Mem) (ptr : Nat) : Mem :=
  fun x =>
    if ptr ≤ x ∧ x < ptr + len then file (page_no * UNIV_PAGE_SIZE + byte_offset + (x - ptr))
    else buf x

/-- Modelled from the spec: what a synchronous write of the file layer leaves
in the files: the `len` bytes of the buffer are in the file of the space from
byte `page_no * UNIV_PAGE_SIZE + byte_offset` on (fil0fil.cc is not among the
sources; fil0fil.h gives the meaning of the arguments).  `files` is the content
of the file of every space. -/
def fil_write (files : Nat → Mem) (space_id page_no byte_offset len : Nat) (buf : Mem)
    (ptr : Nat) : Nat → Mem :=
  fun s x =>
    let start := page_no * UNIV_PAGE_SIZE + byte_offset
    if s = space_id ∧ start ≤ x ∧ x < start + len then buf (ptr + (x - start))
    else files s x

/-- The parts of the engine that `trx_sys_doublewrite_init_or_restore_pages`
calls and that are taken as parameters: `tablespace_exists_in_mem` and
`check_adress_in_tablespace` of the file layer (fil0fil.cc is not among the
sources) and `is_corrupted` of the buffer pool (buf0buf.cc is not among the
sources), which is given the `UNIV_PAGE_SIZE` bytes of the page image. -/
structure restore_env where
  tablespace_exists_in_mem : Nat → Bool
  check_adress_in_tablespace : Nat → Nat → Bool
  is_corrupted : List Nat → Bool

/-- What the loop of `trx_sys_doublewrite_init_or_restore_pages` reads and
writes: the content of the file of every space, the buffer `buf`
(`trx_doublewrite->write_buf`) that holds the page copies, the buffer
`read_buf` of one page, and the calls made to the file layer so far, in
order. -/
structure restore_vars where
  files : Nat → Mem
  buf : Mem
  read_buf : Mem
  calls : List fil_call

/-- The method `io` of the file layer, for the two synchronous requests: the
call is recorded and the bytes are moved.  `in_read_buf` tells which of the
two buffers the pointer is in. -/
def restore_vars.io (s : restore_vars) (io_request : IO_request) (batched : Bool)
    (space_id page_no byte_offset len : Nat) (in_read_buf : Bool) (ptr : Nat) :
    restore_vars :=
  let mem := if in_read_buf then s.read_buf else s.buf
  let calls := s.calls ++ [fil_call.io io_request batched space_id page_no byte_offset len mem ptr]
  match io_request with
  | IO_request.Sync_read =>
    let mem := fil_read (s.files space_id) page_no byte_offset len mem ptr
    if in_read_buf then { s with read_buf := mem, calls := calls }
    else { s with buf := mem, calls := calls }
  | IO_request.Sync_write =>
    { s with files := fil_write s.files space_id page_no byte_offset len mem ptr,
             calls := calls }

/-- The number `source_page_no` of the page of the doublewrite area that copy
`i` was read from, as the loop of `trx_sys_doublewrite_init_or_restore_pages`
computes it (`ulint` is a 64-bit unsigned integer). -/
def trx_sys_doublewrite_source_page_no (block1 block2 i : Nat) : Nat :=
  if i < TRX_SYS_DOUBLEWRITE_BLOCK_SIZE then (block1 + i) % 2 ^ 64
  else (block2 + i + 2 ^ 64 - TRX_SYS_DOUBLEWRITE_BLOCK_SIZE) % 2 ^ 64

/-- The test of `trx_sys_doublewrite_init_or_restore_pages` that an address is
a page of one of the two blocks of the doublewrite area. -/
def trx_sys_doublewrite_page_in_blocks (block1 block2 space_id page_no : Nat) : Bool :=
  decide (space_id = TRX_SYS_SPACE
    ∧ ((page_no ≥ block1 ∧ page_no < (block1 + TRX_SYS_DOUBLEWRITE_BLOCK_SIZE) % 2 ^ 64)
      ∨ (page_no ≥ block2 ∧ page_no < (block2 + TRX_SYS_DOUBLEWRITE_BLOCK_SIZE) % 2 ^ 64)))

/-- The body of the loop of `trx_sys_doublewrite_init_or_restore_pages` for
copy `i`, whose page image is at `page = buf + i * UNIV_PAGE_SIZE`.
`must_reset` is the global `trx_doublewrite_must_reset_space_ids`.
`Except.error` is the state in which `log_fatal("Corrupt page")` ends the
operation (Modelled from the spec: "the operation fails"; the logger is not
among the sources), `Except.ok` the state at the end of the iteration.  The
messages printed are not modelled. -/
def trx_sys_doublewrite_restore_page (env : restore_env) (restore_corrupt_pages : Bool)
    (must_reset : Bool) (block1 block2 i : Nat) (s : restore_vars) :
    Except restore_vars restore_vars :=
  let page := i * UNIV_PAGE_SIZE
  let page_no := mach_read_from_4 s.buf (page + FIL_PAGE_OFFSET)
  let r : Nat × restore_vars :=
    if must_reset then
      let s := { s with buf := mach_write_to_4 s.buf (page + FIL_PAGE_SPACE_ID) 0 }
      let source_page_no := trx_sys_doublewrite_source_page_no block1 block2 i
      (0, s.io IO_request.Sync_write false 0 0 source_page_no UNIV_PAGE_SIZE false page)
    else (mach_read_from_4 s.buf (page + FIL_PAGE_SPACE_ID), s)
  let space_id := r.1
  let s := r.2
  if restore_corrupt_pages = false then Except.ok s
  else if env.tablespace_exists_in_mem space_id = false then Except.ok s
  else if env.check_adress_in_tablespace space_id page_no = false then Except.ok s
  else if trx_sys_doublewrite_page_in_blocks block1 block2 space_id page_no then Except.ok s
  else
    let s := s.io IO_request.Sync_read false space_id page_no 0 UNIV_PAGE_SIZE true 0
    if env.is_corrupted (s.read_buf.bytes 0 UNIV_PAGE_SIZE) then
      if env.is_corrupted (s.buf.bytes page UNIV_PAGE_SIZE) then Except.error s
      else Except.ok (s.io IO_request.Sync_write false space_id page_no 0 UNIV_PAGE_SIZE false page)
    else Except.ok s

/-- The loop of `trx_sys_doublewrite_init_or_restore_pages`: `k` iterations
from copy `i` on. -/
def trx_sys_doublewrite_restore_loop (env : restore_env) (restore_corrupt_pages : Bool)
    (must_reset : Bool) (block1 block2 : Nat) : Nat → Nat → restore_vars →
    Except restore_vars restore_vars
  | 0, _, s => Except.ok s
  | k + 1, i, s =>
    match trx_sys_doublewrite_restore_page env restore_corrupt_pages must_reset block1 block2 i s with
    | Except.error s => Except.error s
    | Except.ok s =>
      trx_sys_doublewrite_restore_loop env restore_corrupt_pages must_reset block1 block2 k (i + 1) s

/-- The function `trx_doublewrite_init` of trx0sys.cc: the doublewrite buffer
object made from the header at `doublewrite` on the trx-sys page.  `write_buf`
is the memory that `ut_new` hands out, taken from its aligned start. -/
def trx_doublewrite_init (page : Mem) (doublewrite : Nat) (write_buf : Mem) :
    trx_doublewrite_t :=
  { first_free := 0,
    block1 := mach_read_from_4 page (doublewrite + TRX_SYS_DOUBLEWRITE_BLOCK1),
    block2 := mach_read_from_4 page (doublewrite + TRX_SYS_DOUBLEWRITE_BLOCK2),
    write_buf := write_buf,
    buf_block_arr := [] }

/-- The process-wide state that `trx_sys_doublewrite_init_or_restore_pages`
reads and writes: the content of the file of every space, the globals
`trx_doublewrite` (`none` is null), `trx_doublewrite_must_reset_space_ids` and
`trx_sys_multiple_tablespace_format`, and the calls made to the file layer so
far, in order. -/
structure restore_state where
  files : Nat → Mem
  trx_doublewrite : Option trx_doublewrite_t
  trx_doublewrite_must_reset_space_ids : Bool
  trx_sys_multiple_tablespace_format : Bool
  calls : List fil_call

/-- The part of `trx_sys_doublewrite_init_or_restore_pages` that follows once
the trx-sys page in `read_buf` is found to hold the magic number of a created
doublewrite buffer. -/
def trx_sys_doublewrite_restore_created (env : restore_env)
    (restore_corrupt_pages : Bool) (write_buf : Mem) (st : restore_state) (s : restore_vars) :
    Except restore_state restore_state :=
  let doublewrite := TRX_SYS_DOUBLEWRITE
  let dw := trx_doublewrite_init s.read_buf doublewrite write_buf
  let block1 := dw.block1
  let block2 := dw.block2
  let stored := decide (mach_read_from_4 s.read_buf
    (doublewrite + TRX_SYS_DOUBLEWRITE_SPACE_ID_STORED) = TRX_SYS_DOUBLEWRITE_SPACE_ID_STORED_N)
  let must_reset := if stored then st.trx_doublewrite_must_reset_space_ids else true
  let multiple := if stored then true else st.trx_sys_multiple_tablespace_format
  let s := s.io IO_request.Sync_read false TRX_SYS_SPACE block1 0
    (TRX_SYS_DOUBLEWRITE_BLOCK_SIZE * UNIV_PAGE_SIZE) false 0
  let s := s.io IO_request.Sync_read false TRX_SYS_SPACE block2 0
    (TRX_SYS_DOUBLEWRITE_BLOCK_SIZE * UNIV_PAGE_SIZE) false
    (TRX_SYS_DOUBLEWRITE_BLOCK_SIZE * UNIV_PAGE_SIZE)
  let fin (s : restore_vars) : restore_state :=
    { files := s.files,
      trx_doublewrite := some { dw with write_buf := s.buf },
      trx_doublewrite_must_reset_space_ids := must_reset,
      trx_sys_multiple_tablespace_format := multiple,
      calls := s.calls }
  match trx_sys_doublewrite_restore_loop env restore_corrupt_pages must_reset block1 block2
      (TRX_SYS_DOUBLEWRITE_BLOCK_SIZE * 2) 0 s with
  | Except.error s => Except.error (fin s)
  | Except.ok s =>
    Except.ok { fin s with calls := s.calls ++ [fil_call.flush_file_spaces FIL_TABLESPACE] }

/-- The function `trx_sys_doublewrite_init_or_restore_pages` of trx0sys.cc.
`read_buf` and `write_buf` are the memory that `ut_new` hands out for the
buffer of one page and for `trx_doublewrite->write_buf`, each taken from its
aligned start.  `Except.error` is the state in which `log_fatal` ends the
operation, `Except.ok` the state on return. -/
def trx_sys_doublewrite_init_or_restore_pages (env : restore_env)
    (restore_corrupt_pages : Bool) (read_buf write_buf : Mem) (st : restore_state) :
    Except restore_state restore_state :=
  let s : restore_vars := ⟨st.files, write_buf, read_buf, st.calls⟩
  let s := s.io IO_request.Sync_read false TRX_SYS_SPACE TRX_SYS_PAGE_NO 0 UNIV_PAGE_SIZE true 0
  let doublewrite := TRX_SYS_DOUBLEWRITE
  if mach_read_from_4 s.read_buf (doublewrite + TRX_SYS_DOUBLEWRITE_MAGIC)
      = TRX_SYS_DOUBLEWRITE_MAGIC_N then
    trx_sys_doublewrite_restore_created env restore_corrupt_pages write_buf st s
  else
    Except.ok { st with files := s.files, calls := s.calls }

/-- The space id that the header of copy `i` in `buf` names. -/
def restore_vars.copy_space_id (s : restore_vars) (i : Nat) : Nat :=
  mach_read_from_4 s.buf (i * UNIV_PAGE_SIZE + FIL_PAGE_SPACE_ID)

/-- The page number that the header of copy `i` in `buf` names. -/
def restore_vars.copy_page_no (s : restore_vars) (i : Nat) : Nat :=
  mach_read_from_4 s.buf (i * UNIV_PAGE_SIZE + FIL_PAGE_OFFSET)

/-- The page image of copy `i` in `buf`. -/
def restore_vars.copy (s : restore_vars) (i : Nat) : List Nat :=
  s.buf.bytes (i * UNIV_PAGE_SIZE) UNIV_PAGE_SIZE

/-- The page stored in the files at the home location that the header of copy
`i` names. -/
def restore_vars.home (s : restore_vars) (i : Nat) : List Nat :=
  (s.files (s.copy_space_id i)).bytes (s.copy_page_no i * UNIV_PAGE_SIZE) UNIV_PAGE_SIZE

/-- The conditions on the home location of copy `i` under which the page stored
there is examined: pages are to be restored, the tablespace exists in memory,
the address lies inside it, and the address is no page of the two doublewrite
blocks of the system tablespace. -/
def restore_vars.eligible (env : restore_env) (restore_corrupt_pages : Bool)
    (block1 block2 : Nat) (s : restore_vars) (i : Nat) : Bool :=
  restore_corrupt_pages
    && env.tablespace_exists_in_mem (s.copy_space_id i)
    && env.check_adress_in_tablespace (s.copy_space_id i) (s.copy_page_no i)
    && !trx_sys_doublewrite_page_in_blocks block1 block2 (s.copy_space_id i) (s.copy_page_no i)

/-- The call that writes copy `i` to the home location named in its header. -/
def restore_vars.home_write (s : restore_vars) (i : Nat) : fil_call :=
  fil_call.io IO_request.Sync_write false (s.copy_space_id i) (s.copy_page_no i) 0
    UNIV_PAGE_SIZE s.buf (i * UNIV_PAGE_SIZE)

/-- The call that reads the page stored at the home location that the header
of copy `i` names. -/
def restore_vars.home_read (s : restore_vars) (i : Nat) : fil_call :=
  fil_call.io IO_request.Sync_read false (s.copy_space_id i) (s.copy_page_no i) 0
    UNIV_PAGE_SIZE s.read_buf 0

/-- A call is a write request to the file layer. -/
def fil_call.is_write : fil_call → Bool
  | fil_call.io IO_request.Sync_write _ _ _ _ _ _ _ => true
  | _ => false

/-- A write request to the file layer that is addressed to the page
`(space_id, page_no)`. -/
def fil_call.writes_page (space_id page_no : Nat) : fil_call → Bool
  | fil_call.io IO_request.Sync_write _ sp pn _ _ _ _ => decide (sp = space_id ∧ pn = page_no)
  | _ => false

/-- Files in which the header of the doublewrite buffer on the trx-sys page has
the magic number and names the blocks at pages 512 and 576, and has no mark
that space ids are stored; every other byte of every file is 0. -/
def sample_restore_files : Nat → Mem := fun space_id =>
  if space_id = TRX_SYS_SPACE then
    mach_write_to_4
      (mach_write_to_4
        (mach_write_to_4 (fun _ => 0)
          (TRX_SYS_PAGE_NO * UNIV_PAGE_SIZE + TRX_SYS_DOUBLEWRITE + TRX_SYS_DOUBLEWRITE_MAGIC)
          TRX_SYS_DOUBLEWRITE_MAGIC_N)
        (TRX_SYS_PAGE_NO * UNIV_PAGE_SIZE + TRX_SYS_DOUBLEWRITE + TRX_SYS_DOUBLEWRITE_BLOCK1) 512)
      (TRX_SYS_PAGE_NO * UNIV_PAGE_SIZE + TRX_SYS_DOUBLEWRITE + TRX_SYS_DOUBLEWRITE_BLOCK2) 576
  else fun _ => 0

/-- A state at start-up over `sample_restore_files`, before the doublewrite
buffer object is made. -/
def sample_restore_state : restore_state :=
  ⟨sample_restore_files, none, false, false, []⟩

/-- A file layer in which every tablespace exists and holds every address, and
a buffer pool for which no page is corrupt. -/
def sample_restore_env : restore_env :=
  ⟨fun _ => true, fun _ _ => true, fun _ => false⟩

/-! ## Flushing (`buf0flu.cc`) -/

/-- Modelled from the spec: `FIL_PAGE_SPACE_OR_CHKSUM`, the place of the
checksum, the first field of the 38-byte file header (fil0types.h is not among
the sources). -/
def FIL_PAGE_SPACE_OR_CHKSUM : Nat := 0

/-- Modelled from the spec: `BUF_NO_CHECKSUM_MAGIC`, the value stored in the
checksum fields when checksums are disabled (buf0buf.h is not among the
sources). -/
def BUF_NO_CHECKSUM_MAGIC : Nat := 0xDEADBEEF

/-- The parts of the engine that `buf_flush_init_for_writing` uses and that are
taken as parameters: the setting `srv_use_checksums` and the two checksum
formulas of a page image (buf0buf.cc is not among the sources). -/
structure checksum_env where
  srv_use_checksums : Bool
  buf_calc_page_new_checksum : Mem → Nat
  buf_calc_page_old_checksum : Mem → Nat

/-- The page image just before `buf_flush_init_for_writing` computes the
new-formula checksum: the lsn is in the header and in the trailer. -/
def buf_flush_init_for_writing_lsn (page : Mem) (newest_lsn : Nat) : Mem :=
  let page := mach_write_to_8 page FIL_PAGE_LSN newest_lsn
  mach_write_to_8 page (UNIV_PAGE_SIZE - FIL_PAGE_END_LSN_OLD_CHKSUM) newest_lsn

/-- The page image just before `buf_flush_init_for_writing` computes the
old-formula checksum: the new-formula checksum is stored. -/
def buf_flush_init_for_writing_new (env : checksum_env) (page : Mem) (newest_lsn : Nat) :
    Mem :=
  let page := buf_flush_init_for_writing_lsn page newest_lsn
  mach_write_to_4 page FIL_PAGE_SPACE_OR_CHKSUM
    (if env.srv_use_checksums then env.buf_calc_page_new_checksum page
     else BUF_NO_CHECKSUM_MAGIC)

/-- The function `buf_flush_init_for_writing` of buf0flu.cc; `page` is the page
image, byte 0 of the page first. -/
def buf_flush_init_for_writing (env : checksum_env) (page : Mem) (newest_lsn : Nat) : Mem :=
  let page := buf_flush_init_for_writing_new env page newest_lsn
  mach_write_to_4 page (UNIV_PAGE_SIZE - FIL_PAGE_END_LSN_OLD_CHKSUM)
    (if env.srv_use_checksums then env.buf_calc_page_old_checksum page
     else BUF_NO_CHECKSUM_MAGIC)

/-- The function `memcmp` of the C library on two places of one memory: 0 when
the `n` bytes are equal, else the sign of the first difference. -/
def memcmp (m : Mem) (p q : Nat) : Nat → Int
  | 0 => 0
  | n + 1 =>
    if m.byte p < m.byte q then -1
    else if m.byte q < m.byte p then 1
    else memcmp m (p + 1) (q + 1) n

/-- The test of `buf_flush_buffered_writes` that the lsn fields of a frame do
not match: the `memcmp` of the low 4 bytes of the lsn in the header with the
last 4 bytes of the page is not 0. -/
def buf_flush_lsn_fields_differ (frame : Mem) : Bool :=
  decide (memcmp frame (FIL_PAGE_LSN + 4)
    (UNIV_PAGE_SIZE - FIL_PAGE_END_LSN_OLD_CHKSUM + 4) 4 ≠ 0)

/-- A checksum setting with checksums enabled, and formulas that read the first
data byte and the page number. -/
def sample_checksum_env : checksum_env :=
  ⟨true, fun page => page FIL_PAGE_DATA, fun page => mach_read_from_4 page FIL_PAGE_OFFSET⟩

/-! ### The buffer pool -/

/-- Modelled from the spec: `BUF_IO_NONE`, the io-fix state of a block with no
pending i/o, "`io_fix == NONE`" (buf0buf.h is not among the sources). -/
def BUF_IO_NONE : Nat := 0

/-- Modelled from the spec: `BUF_IO_READ`, the io-fix state of a block that is
being read (buf0buf.h is not among the sources). -/
def BUF_IO_READ : Nat := 1

/-- Modelled from the spec: `BUF_IO_WRITE`, the io-fix state of a block that is
being written (buf0buf.h is not among the sources). -/
def BUF_IO_WRITE : Nat := 2

/-- Modelled from the spec: `BUF_BLOCK_NOT_USED`, the state of a block on the
free list (buf0types.h is not among the sources). -/
def BUF_BLOCK_NOT_USED : Nat := 3

/-- Modelled from the spec: `BUF_BLOCK_READY_FOR_USE`, the state of a block
taken off the free list (buf0types.h is not among the sources). -/
def BUF_BLOCK_READY_FOR_USE : Nat := 4

/-- Modelled from the spec: `BUF_BLOCK_MEMORY`, the state of a block that holds
main memory objects (buf0types.h is not among the sources). -/
def BUF_BLOCK_MEMORY : Nat := 6

/-- Modelled from the spec: `BUF_BLOCK_REMOVE_HASH`, the state of a block that
is being removed from the page hash (buf0types.h is not among the sources). -/
def BUF_BLOCK_REMOVE_HASH : Nat := 7

/-- Modelled from the spec: `BUF_FLUSH_LRU`, the kind of a flush from the end
of the LRU list (buf0types.h is not among the sources). -/
def BUF_FLUSH_LRU : Nat := 0

/-- Modelled from the spec: `BUF_FLUSH_LIST`, the kind of a flush from the end
of the flush list (buf0types.h is not among the sources). -/
def BUF_FLUSH_LIST : Nat := 1

/-- Modelled from the spec: the buffer control block `buf_page_t`, with the
fields that the functions of buf0flu.cc read and write, and with the fields
`frame` and `check_index_page_at_flush` of the `buf_block_t` that holds it
(buf0buf.h is not among the sources). -/
structure buf_page_t where
  space : Nat
  offset : Nat
  state : Nat
  flush_type : Nat
  io_fix : Nat
  buf_fix_count : Nat
  newest_modification : Nat
  oldest_modification : Nat
  old : Bool
  frame : Mem
  check_index_page_at_flush : Bool

/-- The function `buf_flush_ready_for_replace` of buf0flu.cc.
`buf_page_in_file` (buf0buf.h is not among the sources) is taken as a
parameter; the message printed for a block that is no file page is not
modelled. -/
def buf_flush_ready_for_replace (buf_page_in_file : buf_page_t → Bool) (bpage : buf_page_t) :
    Bool :=
  if buf_page_in_file bpage then
    decide (bpage.oldest_modification = 0) && decide (bpage.io_fix = BUF_IO_NONE)
      && decide (bpage.buf_fix_count = 0)
  else false

/-- The function `buf_flush_ready_for_flush` of buf0flu.cc: `none` when the
assertion `ut_a(buf_page_in_file(bpage))` fails. -/
def buf_flush_ready_for_flush (buf_page_in_file : buf_page_t → Bool) (bpage : buf_page_t)
    (flush_type : Nat) : Option Bool :=
  if buf_page_in_file bpage = false then none
  else if bpage.oldest_modification ≠ 0 ∧ bpage.io_fix = BUF_IO_NONE then
    if flush_type ≠ BUF_FLUSH_LRU then some true
    else if bpage.buf_fix_count = 0 then some true
    else some false
  else some false

/-- A control block of a clean file page that nothing has fixed. -/
def sample_clean_page : buf_page_t :=
  ⟨0, 7, BUF_BLOCK_FILE_PAGE, 0, BUF_IO_NONE, 0, 0, 0, false, fun _ => 0, false⟩

/-! ### The flush rate heuristic -/

/-- The constant `BUF_FLUSH_STAT_N_INTERVAL` of buf0flu.cc. -/
def BUF_FLUSH_STAT_N_INTERVAL : Nat := 20

/-- Modelled from the spec: the statistics `buf_flush_stat_t` of one interval,
the redo generated (a 64-bit lsn difference) and the pages flushed from the LRU
list (buf0flu.h is not among the sources). -/
structure buf_flush_stat_t where
  redo : Nat
  n_flushed : Nat
deriving DecidableEq, Repr

/-- The file-level variables of buf0flu.cc that the flush rate heuristic reads
and writes: `buf_flush_stat_arr`, `buf_flush_stat_arr_ind`,
`buf_flush_stat_cur`, `buf_flush_stat_sum` and `buf_lru_flush_page_count`. -/
structure flush_stat_state where
  buf_flush_stat_arr : List buf_flush_stat_t
  buf_flush_stat_arr_ind : Nat
  buf_flush_stat_cur : buf_flush_stat_t
  buf_flush_stat_sum : buf_flush_stat_t
  buf_lru_flush_page_count : Nat
deriving DecidableEq, Repr

/-- The function `buf_flush_stat_update` of buf0flu.cc; `lsn` is what
`log_get_lsn()` returns (log0log.h is not among the sources).  `uint64_t` and
`ulint` are 64-bit unsigned integers. -/
def buf_flush_stat_update (st : flush_stat_state) (lsn : Nat) : flush_stat_state :=
  if st.buf_flush_stat_cur.redo = 0 then
    { st with buf_flush_stat_cur := { st.buf_flush_stat_cur with redo := lsn } }
  else
    let item := st.buf_flush_stat_arr.getD st.buf_flush_stat_arr_ind ⟨0, 0⟩
    let lsn_diff := (lsn + 2 ^ 64 - st.buf_flush_stat_cur.redo) % 2 ^ 64
    let n_flushed :=
      (st.buf_lru_flush_page_count + 2 ^ 64 - st.buf_flush_stat_cur.n_flushed) % 2 ^ 64
    let sum : buf_flush_stat_t :=
      { redo := (st.buf_flush_stat_sum.redo + (lsn_diff + 2 ^ 64 - item.redo) % 2 ^ 64) % 2 ^ 64,
        n_flushed := (st.buf_flush_stat_sum.n_flushed
          + (n_flushed + 2 ^ 64 - item.n_flushed) % 2 ^ 64) % 2 ^ 64 }
    { st with
      buf_flush_stat_sum := sum,
      buf_flush_stat_arr := st.buf_flush_stat_arr.set st.buf_flush_stat_arr_ind
        ⟨lsn_diff, n_flushed⟩,
      buf_flush_stat_arr_ind :=
        (st.buf_flush_stat_arr_ind + 1) % 2 ^ 64 % BUF_FLUSH_STAT_N_INTERVAL,
      buf_flush_stat_cur := ⟨lsn, st.buf_lru_flush_page_count⟩ }

/-- The value of a 64-bit unsigned integer converted to the signed type
`lint`. -/
def ulint_to_lint (n : Nat) : Int := if n < 2 ^ 63 then (n : Int) else (n : Int) - 2 ^ 64

/-- The function `buf_flush_get_desired_flush_rate` of buf0flu.cc.  `n_dirty`
is `UT_LIST_GET_LEN(buf_pool->flush_list)`, `lsn` and `log_capacity` are what
`log_get_lsn()` and `log_get_capacity()` return (log0log.h is not among the
sources).  `uint64_t` and `ulint` are 64-bit unsigned integers, `lint` is the
64-bit signed integer.  `log_capacity` is not 0 (`ut_ad`). -/
def buf_flush_get_desired_flush_rate (st : flush_stat_state) (n_dirty lsn log_capacity : Nat) :
    Nat :=
  let redo_avg := (st.buf_flush_stat_sum.redo / BUF_FLUSH_STAT_N_INTERVAL
    + (lsn + 2 ^ 64 - st.buf_flush_stat_cur.redo) % 2 ^ 64) % 2 ^ 64
  let lru_flush_avg := (st.buf_flush_stat_sum.n_flushed / BUF_FLUSH_STAT_N_INTERVAL
    + (st.buf_lru_flush_page_count + 2 ^ 64 - st.buf_flush_stat_cur.n_flushed) % 2 ^ 64)
    % 2 ^ 64
  let n_flush_req := (n_dirty * redo_avg) % 2 ^ 64 / log_capacity
  let rate := ulint_to_lint ((n_flush_req + 2 ^ 64 - lru_flush_avg) % 2 ^ 64)
  if rate > 0 then rate.toNat else 0

/-- The average `redo_avg` as the specification gives it, over the integers:
`floor(buf_flush_stat_sum.redo / 20) + (current lsn - buf_flush_stat_cur.redo)`. -/
def flush_rate_redo_avg (st : flush_stat_state) (lsn : Nat) : Int :=
  ((st.buf_flush_stat_sum.redo / 20 : Nat) : Int)
    + ((lsn : Int) - (st.buf_flush_stat_cur.redo : Int))

/-- The average `lru_flush_avg` as the specification gives it, over the
integers: `floor(buf_flush_stat_sum.n_flushed / 20)
+ (buf_lru_flush_page_count - buf_flush_stat_cur.n_flushed)`. -/
def flush_rate_lru_flush_avg (st : flush_stat_state) : Int :=
  ((st.buf_flush_stat_sum.n_flushed / 20 : Nat) : Int)
    + ((st.buf_lru_flush_page_count : Int) - (st.buf_flush_stat_cur.n_flushed : Int))

/-- The number of pages wanted as the specification gives it, over the
integers: `floor(n_dirty * redo_avg / log_capacity)`. -/
def flush_rate_n_flush_req (st : flush_stat_state) (n_dirty lsn log_capacity : Nat) : Int :=
  Int.fdiv ((n_dirty : Int) * flush_rate_redo_avg st lsn) (log_capacity : Int)

/-- The flush rate as the specification gives it, over the integers:
`max(0, floor(n_dirty * redo_avg / log_capacity) - lru_flush_avg)`. -/
def flush_rate_formula (st : flush_stat_state) (n_dirty lsn log_capacity : Nat) : Int :=
  max 0 (flush_rate_n_flush_req st n_dirty lsn log_capacity - flush_rate_lru_flush_avg st)

/-- Statistics in which `2 ^ 63 + 5` pages were flushed from the LRU list in
the current interval and no redo was generated. -/
def sample_flush_stat_overflow : flush_stat_state :=
  ⟨[], 0, ⟨100, 0⟩, ⟨0, 0⟩, 2 ^ 63 + 5⟩

/-- Statistics after a window in which 4000 bytes of redo were generated and
40 pages were flushed from the LRU list, 300 bytes and 1 page of them in the
current interval. -/
def sample_flush_stat : flush_stat_state :=
  ⟨[], 0, ⟨1000, 39⟩, ⟨4000, 40⟩, 40⟩

/-! ### The flush list -/

/-- Modelled from the spec: `UT_LIST_ADD_FIRST`, which puts a node at the head
of a two-way list (ut0lst.h is not among the sources).  A list is the sequence
of the addresses of its nodes from the first to the last. -/
def UT_LIST_ADD_FIRST (list : List Nat) (elem : Nat) : List Nat := elem :: list

/-- Modelled from the spec: `UT_LIST_INSERT_AFTER`, which puts a node right
after the node `prev` of a two-way list (ut0lst.h is not among the sources). -/
def UT_LIST_INSERT_AFTER : List Nat → Nat → Nat → List Nat
  | [], _, _ => []
  | x :: xs, prev, elem =>
    if x = prev then x :: elem :: xs else x :: UT_LIST_INSERT_AFTER xs prev elem

/-- Modelled from the spec: `UT_LIST_REMOVE`, which takes a node out of a
two-way list (ut0lst.h is not among the sources). -/
def UT_LIST_REMOVE (list : List Nat) (elem : Nat) : List Nat := list.erase elem

/-- Modelled from the spec: the buffer pool `buf_pool_t`, with the fields that
the functions of buf0flu.cc read and write (buf0buf.h is not among the
sources): the size, the counters `n_flush` and the flags `init_flush` of the
two kinds of flush, the LRU list and the flush list "sorted by oldest
modification LSN" as the sequences of the addresses of their control blocks,
and "a red-black tree mirroring the flush list when recovery is active"
(`none` is null), given as the sequence of its values.  `pages` gives the
control block at an address, `page_hash` is "a page-hash from `(space, page_no)`
to the containing block" (`buf_page_hash_get`). -/
structure buf_pool_t where
  curr_size : Nat
  n_flush : Nat → Nat
  init_flush : Nat → Bool
  LRU : List Nat
  flush_list : List Nat
  flush_rbt : Option (List Nat)
  pages : Nat → buf_page_t
  page_hash : Nat → Nat → Option Nat

/-- The parts of the engine that the flush list functions of buf0flu.cc call
and that are taken as parameters, the red-black tree of ut0rbt.h (not among the
sources): `rbt_insert_prev` is `rbt_insert` followed by `rbt_prev`, the tree
with the value inserted under the comparison function given, and the value of
the node before the new one, if there is one; `rbt_delete` is the tree without
the value. -/
structure rbt_env where
  rbt_insert_prev : (Nat → Nat → Int) → List Nat → Nat → List Nat × Option Nat
  rbt_delete : (Nat → Nat → Int) → List Nat → Nat → List Nat

/-- The value of a 64-bit unsigned integer converted to `int`, the 32-bit
signed integer. -/
def ulint_to_int (n : Nat) : Int :=
  if n % 2 ^ 32 < 2 ^ 31 then ((n % 2 ^ 32 : Nat) : Int) else ((n % 2 ^ 32 : Nat) : Int) - 2 ^ 32

/-- The function `buf_flush_block_cmp` of buf0flu.cc, on the control blocks at
two addresses. -/
def buf_flush_block_cmp (pages : Nat → buf_page_t) (p1 p2 : Nat) : Int :=
  let b1 := pages p1
  let b2 := pages p2
  if b2.oldest_modification > b1.oldest_modification then 1
  else if b2.oldest_modification < b1.oldest_modification then -1
  else
    let ret := ulint_to_int ((b2.space + 2 ^ 64 - b1.space) % 2 ^ 64)
    if ret ≠ 0 then ret else ulint_to_int ((b2.offset + 2 ^ 64 - b1.offset) % 2 ^ 64)

/-- The function `buf_flush_insert_in_flush_rbt` of buf0flu.cc: the tree after
the insertion, and the predecessor (`none` is null). -/
def buf_flush_insert_in_flush_rbt (env : rbt_env) (pool : buf_pool_t) (rbt : List Nat)
    (bpage : Nat) : List Nat × Option Nat :=
  env.rbt_insert_prev (buf_flush_block_cmp pool.pages) rbt bpage

/-- The linear search of `buf_flush_insert_sorted_into_flush_list`: from node
`b` on, what `prev_b` ends as.  `list` is the flush list from `b` to the last
node, `om` is `block->page.oldest_modification`. -/
def buf_flush_insert_sorted_search (pages : Nat → buf_page_t) (om : Nat) :
    List Nat → Option Nat → Option Nat
  | [], prev_b => prev_b
  | b :: list, prev_b =>
    if (pages b).oldest_modification > om then
      buf_flush_insert_sorted_search pages om list (some b)
    else prev_b

/-- The function `buf_flush_insert_sorted_into_flush_list` of buf0flu.cc;
`block` is the address of the control block.  The debug assertions are not
modelled. -/
def buf_flush_insert_sorted_into_flush_list (env : rbt_env) (pool : buf_pool_t) (block : Nat) :
    buf_pool_t :=
  let r : buf_pool_t × Option Nat :=
    match pool.flush_rbt with
    | some rbt =>
      let t := buf_flush_insert_in_flush_rbt env pool rbt block
      ({ pool with flush_rbt := some t.1 }, t.2)
    | none =>
      (pool, buf_flush_insert_sorted_search pool.pages (pool.pages block).oldest_modification
        pool.flush_list none)
  match r.2 with
  | none => { r.1 with flush_list := UT_LIST_ADD_FIRST r.1.flush_list block }
  | some prev_b => { r.1 with flush_list := UT_LIST_INSERT_AFTER r.1.flush_list prev_b block }

/-- The function `buf_flush_insert_into_flush_list` of buf0flu.cc; `block` is
the address of the control block.  The debug assertions are not modelled. -/
def buf_flush_insert_into_flush_list (env : rbt_env) (pool : buf_pool_t) (block : Nat) :
    buf_pool_t :=
  if pool.flush_rbt.isSome then buf_flush_insert_sorted_into_flush_list env pool block
  else { pool with flush_list := UT_LIST_ADD_FIRST pool.flush_list block }

/-- The function `buf_flush_delete_from_flush_rbt` of buf0flu.cc. -/
def buf_flush_delete_from_flush_rbt (env : rbt_env) (pool : buf_pool_t) (rbt : List Nat)
    (bpage : Nat) : List Nat :=
  env.rbt_delete (buf_flush_block_cmp pool.pages) rbt bpage

/-- The function `buf_flush_remove` of buf0flu.cc; `bpage` is the address of
the control block.  `none` is the crash of `ut_error` for a state that is not
in the flush list.  The debug assertions are not modelled. -/
def buf_flush_remove (env : rbt_env) (pool : buf_pool_t) (bpage : Nat) : Option buf_pool_t :=
  let state := (pool.pages bpage).state
  if state = BUF_BLOCK_NOT_USED ∨ state = BUF_BLOCK_READY_FOR_USE
      ∨ state = BUF_BLOCK_MEMORY ∨ state = BUF_BLOCK_REMOVE_HASH then none
  else
    let pool :=
      if state = BUF_BLOCK_FILE_PAGE then
        { pool with flush_list := UT_LIST_REMOVE pool.flush_list bpage }
      else pool
    let pool :=
      match pool.flush_rbt with
      | some rbt => { pool with flush_rbt := some (buf_flush_delete_from_flush_rbt env pool rbt bpage) }
      | none => pool
    some { pool with
      pages := fun p =>
        if p = bpage then { pool.pages bpage with oldest_modification := 0 } else pool.pages p }

/-- The flush list is ordered by non-increasing `oldest_modification` from the
head to the tail. -/
def buf_pool_t.flush_list_sorted (pool : buf_pool_t) : Prop :=
  pool.flush_list.Pairwise
    (fun a b => (pool.pages b).oldest_modification ≤ (pool.pages a).oldest_modification)

/-- A red-black tree that is never consulted. -/
def sample_rbt_env : rbt_env := ⟨fun _ t _ => (t, none), fun _ t _ => t⟩

/-- A pool whose flush list holds the control blocks at the addresses 3, 2 and
1, dirty since the lsns 30, 20 and 10; the control block at address `k` is for
page `k` of space 0 and is dirty since lsn `10 * k`. -/
def sample_buf_pool : buf_pool_t :=
  { curr_size := 1024,
    n_flush := fun _ => 0,
    init_flush := fun _ => false,
    LRU := [1, 2, 3, 4],
    flush_list := [3, 2, 1],
    flush_rbt := none,
    pages := fun k =>
      ⟨0, k, BUF_BLOCK_FILE_PAGE, 0, BUF_IO_NONE, 0, 10 * k, 10 * k, false, fun _ => 0, false⟩,
    page_hash := fun space offset => if space = 0 then some offset else none }

/-! ## Starting and committing a transaction (`trx0trx.cc`) -/

/-- The constant `TRX_SYS_SYSTEM_RSEG_ID` of trx0sys.h. -/
def TRX_SYS_SYSTEM_RSEG_ID : Nat := 0

/-- The constant `TRX_SYS_N_RSEGS` of trx0sys.h. -/
def TRX_SYS_N_RSEGS : Nat := 256

/-- Modelled from the spec: `TRX_NOT_STARTED`, the state "NOT_STARTED" of a
transaction (trx0trx.h is not among the sources). -/
def TRX_NOT_STARTED : Nat := 0

/-- Modelled from the spec: `TRX_ACTIVE`, the state "ACTIVE" of a transaction
(trx0trx.h is not among the sources). -/
def TRX_ACTIVE : Nat := 1

/-- Modelled from the spec: `TRX_COMMITTED_IN_MEMORY`, the state
"COMMITTED_IN_MEMORY" of a transaction (trx0trx.h is not among the sources). -/
def TRX_COMMITTED_IN_MEMORY : Nat := 2

/-- Modelled from the spec: `TRX_PREPARED`, the state "PREPARED" of a
transaction (trx0trx.h is not among the sources). -/
def TRX_PREPARED : Nat := 3

/-- Modelled from the spec: `LSN_MAX`, the largest 64-bit lsn, the initial
value of `trx->no` (the declaration is not among the sources). -/
def LSN_MAX : Nat := 2 ^ 64 - 1

/-- Modelled from the spec: `SRV_UNIX_NOSYNC`, the file flush method that never
syncs (srv0srv.h is not among the sources). -/
def SRV_UNIX_NOSYNC : Nat := 4

/-- Modelled from the spec: `LOG_WAIT_ONE_GROUP`, the wait mode of a log write
that waits for one log group (log0log.h is not among the sources). -/
def LOG_WAIT_ONE_GROUP : Nat := 92

namespace trx0trx

/-- Modelled from the spec: the savepoint `trx_savept_t` (trx0types.h is not
among the sources). -/
structure trx_savept_t where
  least_undo_no : Nat
deriving DecidableEq, Repr

/-- Modelled from the spec: the transaction object `trx_t` as the functions of
trx0trx.cc that start and commit a transaction use it, "state ∈ {NOT_STARTED,
ACTIVE, PREPARED, COMMITTED_IN_MEMORY}, ... assigned rseg, head of its
insert/update undo chains, ... optional read view" (trx0trx.h is not among the
sources).  A pointer is `none` when it is null; undo logs, read views and the
query string are given by their addresses. -/
structure trx_t where
  op_info : String
  is_purge : Bool
  is_recovered : Bool
  conc_state : Nat
  start_time : Nat
  id : Nat
  no : Nat
  commit_lsn : Nat
  flush_log_later : Bool
  must_flush_log_later : Bool
  client_query_str : Option Nat
  rseg : Option trx_rseg_t
  insert_undo : Option Nat
  update_undo : Option Nat
  undo_no : Nat
  last_sql_stat_start : trx_savept_t
  global_read_view : Option Nat
  read_view : Option Nat
deriving DecidableEq, Repr

/-- A call that `trx_commit_off_kernel` or `trx_assign_read_view` makes to a
part of the engine that is not among the sources.  `lock_release_off_kernel`
is recorded with the transaction object as it is at the call,
`trx_undo_set_state_at_finish` with the address of the undo log,
`trx_undo_update_cleanup` with the transaction number, `read_view_close` with
the address of the view, `log_write_up_to` with its three arguments: the lsn,
the wait mode and `flush_to_disk`, and `read_view_open_now` with the id of the
creating transaction. -/
inductive commit_call where
  | mtr_start
  | trx_undo_set_state_at_finish (undo : Nat)
  | trx_undo_update_cleanup (trx_no : Nat)
  | mtr_commit
  | lock_release_off_kernel (trx : trx_t)
  | read_view_close (view : Nat)
  | mem_heap_empty
  | trx_undo_insert_cleanup
  | log_write_up_to (lsn wait : Nat) (flush_to_disk : Bool)
  | trx_roll_free_all_savepoints
  | read_view_open_now (cr_trx_id : Nat)
deriving DecidableEq, Repr

/-- The process-wide state that the functions of trx0trx.cc below read and
write: the state of trx0sys.cc with `trx_sys->max_trx_id`; the lists
`trx_sys->trx_list` (the addresses of the transaction objects, first node
first) and `trx_sys->rseg_list`; `trx_sys->latest_rseg`; the slots of
`trx_sys->rseg_array`; the transaction object at each address; and the calls
made to parts of the engine that are not among the sources, in order. -/
structure trx_state where
  sys : sys_state
  trx_list : List Nat
  rseg_list : List trx_rseg_t
  latest_rseg : Option trx_rseg_t
  rseg_array : Nat → Option trx_rseg_t
  trxs : Nat → trx_t
  calls : List commit_call

/-- The state with the transaction object at address `trx` replaced. -/
def trx_state.set_trx (st : trx_state) (trx : Nat) (t : trx_t) : trx_state :=
  { st with trxs := fun p => if p = trx then t else st.trxs p }

/-- What `trx_commit_off_kernel` takes from parts of the engine that are not
among the sources: the settings `srv_flush_log_at_trx_commit` and
`srv_unix_file_flush_method`, and `mtr.end_lsn`, the lsn at which `mtr_commit`
commits the mini-transaction of the commit. -/
structure commit_env where
  srv_flush_log_at_trx_commit : Nat
  srv_unix_file_flush_method : Nat
  end_lsn : Nat

/-- The function `trx_sys_get_nth_rseg` of trx0sys.h, for a slot
`n < TRX_SYS_N_RSEGS` (`ut_ad`). -/
def trx_sys_get_nth_rseg (st : trx_state) (n : Nat) : Option trx_rseg_t := st.rseg_array n

/-- Modelled from the spec: `UT_LIST_GET_NEXT` on the list of rollback
segments, the node after `rseg` (ut0lst.h is not among the sources). -/
def rseg_list_next : List trx_rseg_t → trx_rseg_t → Option trx_rseg_t
  | [], _ => none
  | x :: xs, rseg => if x = rseg then xs.head? else rseg_list_next xs rseg

/-- The loop of `trx_assign_rseg`, `k` rounds from the rollback segment `rseg`
(`none` is null): the rollback segment it settles on; `none` when a null
pointer is followed or the rounds run out. -/
def trx_assign_rseg_loop (st : trx_state) : Nat → Option trx_rseg_t → Option trx_rseg_t
  | 0, _ => none
  | k + 1, rseg =>
    match rseg with
    | none => none
    | some rseg =>
      let next := match rseg_list_next st.rseg_list rseg with
        | some r => some r
        | none => st.rseg_list.head?
      match next with
      | none => none
      | some r =>
        if r.id = TRX_SYS_SYSTEM_RSEG_ID ∧ st.rseg_list.length > 1 then
          trx_assign_rseg_loop st k (some r)
        else some r

/-- The function `trx_assign_rseg` of trx0trx.cc: the id of the rollback
segment assigned and the state; `none` when a null pointer is followed or the
search does not end within one round over the list. -/
def trx_assign_rseg (st : trx_state) : Option (Nat × trx_state) :=
  match trx_assign_rseg_loop st (st.rseg_list.length + 1) st.latest_rseg with
  | none => none
  | some rseg => some (rseg.id, { st with latest_rseg := some rseg })

/-- The function `trx_start_low` of trx0trx.cc; `trx` is the address of the
transaction object, `now` is what `time(nullptr)` returns.  `none` when
`trx_assign_rseg` gives no rollback segment.  The fields `flush_log_later` and
`must_flush_log_later` are those of a build with `WITH_XOPEN`. -/
def trx_start_low (now : Nat) (st : trx_state) (trx : Nat) (rseg_id : Nat) :
    Option (Bool × trx_state) :=
  let t := st.trxs trx
  if t.is_purge then
    some (true, st.set_trx trx { t with id := 0, conc_state := TRX_ACTIVE, start_time := now })
  else
    match (if rseg_id = ULINT_UNDEFINED then trx_assign_rseg st else some (rseg_id, st)) with
    | none => none
    | some (rseg_id, st) =>
      let rseg := trx_sys_get_nth_rseg st rseg_id
      let r := trx_sys_get_new_trx_id st.sys
      let st := { st with sys := r.2 }
      let t := { t with
        id := r.1, no := LSN_MAX, rseg := rseg, conc_state := TRX_ACTIVE, start_time := now,
        flush_log_later := false, must_flush_log_later := false }
      let st := st.set_trx trx t
      some (true, { st with trx_list := UT_LIST_ADD_FIRST st.trx_list trx })

/-- The state with a call appended to the calls made. -/
def trx_state.call (st : trx_state) (c : commit_call) : trx_state :=
  { st with calls := st.calls ++ [c] }

/-- The part of `trx_commit_off_kernel` that runs when the transaction has an
undo log: the undo log states are set, a transaction number is drawn for an
update undo log, and the mini-transaction is committed; the result is the lsn
and the state.  Modelled from the spec: `trx_undo_update_cleanup`, "link
update-undo into its rseg history list ordered by `trx_no`", leaves the
transaction without update undo log (trx0undo.cc is not among the sources). -/
def trx_commit_undo (env : commit_env) (st : trx_state) (trx : Nat) : Nat × trx_state :=
  let t := st.trxs trx
  if t.insert_undo ≠ none ∨ t.update_undo ≠ none then
    let st := st.call commit_call.mtr_start
    let st := match t.insert_undo with
      | some undo => st.call (commit_call.trx_undo_set_state_at_finish undo)
      | none => st
    let st := match t.update_undo with
      | some undo =>
        let r := trx_sys_get_new_trx_no st.sys
        let st := { st with sys := r.2 }
        let st := st.set_trx trx { st.trxs trx with no := r.1 }
        let st := st.call (commit_call.trx_undo_set_state_at_finish undo)
        let st := st.call (commit_call.trx_undo_update_cleanup r.1)
        st.set_trx trx { st.trxs trx with update_undo := none }
      | none => st
    let st := st.call commit_call.mtr_commit
    (env.end_lsn, st)
  else (0, st)

/-- The part of `trx_commit_off_kernel` that decides the log write of a commit
at `lsn`, for a transaction whose `flush_log_later` is not set: `none` is the
crash of `ut_error`. -/
def trx_commit_log_write (env : commit_env) (st : trx_state) (lsn : Nat) : Option trx_state :=
  if env.srv_flush_log_at_trx_commit = 0 then some st
  else if env.srv_flush_log_at_trx_commit = 1 then
    if env.srv_unix_file_flush_method = SRV_UNIX_NOSYNC then
      some (st.call (commit_call.log_write_up_to lsn LOG_WAIT_ONE_GROUP false))
    else some (st.call (commit_call.log_write_up_to lsn LOG_WAIT_ONE_GROUP true))
  else if env.srv_flush_log_at_trx_commit = 2 then
    some (st.call (commit_call.log_write_up_to lsn LOG_WAIT_ONE_GROUP false))
  else none

/-- The part of `trx_commit_off_kernel` from the assignment that makes the
transaction committed in memory on; `lsn` is the lsn of the mini-transaction of
the commit, 0 when the transaction had no undo log.  `none` is the crash of
`ut_error`.  Modelled from the spec: `trx_undo_insert_cleanup`, "Insert-undo of
a committed trx is freed at commit time", leaves the transaction without insert
undo log (trx0undo.cc is not among the sources). -/
def trx_commit_in_memory (env : commit_env) (lsn : Nat) (st : trx_state) (trx : Nat) :
    Option trx_state :=
  let st := st.set_trx trx { st.trxs trx with conc_state := TRX_COMMITTED_IN_MEMORY }
  let st := st.set_trx trx { st.trxs trx with is_recovered := false }
  let st := st.call (commit_call.lock_release_off_kernel (st.trxs trx))
  let st := match (st.trxs trx).global_read_view with
    | some view =>
      let st := st.call (commit_call.read_view_close view)
      let st := st.call commit_call.mem_heap_empty
      st.set_trx trx { st.trxs trx with global_read_view := none }
    | none => st
  let st := st.set_trx trx { st.trxs trx with read_view := none }
  let logged : Option trx_state :=
    if lsn ≠ 0 then
      let st := match (st.trxs trx).insert_undo with
        | some _ =>
          let st := st.call commit_call.trx_undo_insert_cleanup
          st.set_trx trx { st.trxs trx with insert_undo := none }
        | none => st
      let w : Option trx_state :=
        if (st.trxs trx).flush_log_later then
          some (st.set_trx trx { st.trxs trx with must_flush_log_later := true })
        else trx_commit_log_write env st lsn
      match w with
      | none => none
      | some st => some (st.set_trx trx { st.trxs trx with commit_lsn := lsn })
    else some st
  match logged with
  | none => none
  | some st =>
    let st := st.call commit_call.trx_roll_free_all_savepoints
    let st := st.set_trx trx { st.trxs trx with
      conc_state := TRX_NOT_STARTED, rseg := none, undo_no := 0,
      last_sql_stat_start := { least_undo_no := 0 }, client_query_str := none }
    some { st with trx_list := UT_LIST_REMOVE st.trx_list trx }

/-- The function `trx_commit_off_kernel` of trx0trx.cc, in a build with
`WITH_XOPEN`; `trx` is the address of the transaction object.  `none` is the
crash of `ut_error`.  The debug assertions are not modelled. -/
def trx_commit_off_kernel (env : commit_env) (st : trx_state) (trx : Nat) : Option trx_state :=
  let r := trx_commit_undo env st trx
  trx_commit_in_memory env r.1 r.2 trx

/-- The function `trx_commit` of trx0trx.cc; `trx` is the address of the
transaction object (not null, `ut_a`).  `none` is the crash of `ut_error`. -/
def trx_commit (env : commit_env) (st : trx_state) (trx : Nat) : Option (Nat × trx_state) :=
  let st := st.set_trx trx { st.trxs trx with op_info := "committing" }
  match trx_commit_off_kernel env st trx with
  | none => none
  | some st => some (DB_SUCCESS, st.set_trx trx { st.trxs trx with op_info := "" })

/-- The log writes among the calls made: the arguments of each
`log_write_up_to`, in order. -/
def trx_state.log_writes (st : trx_state) : List (Nat × Nat × Bool) :=
  st.calls.filterMap (fun c =>
    match c with
    | commit_call.log_write_up_to lsn wait flush_to_disk => some (lsn, wait, flush_to_disk)
    | _ => none)

/-- The releases of locks among the calls made: the state that the
transaction passed to each `lock_release_off_kernel` had at the call, in
order. -/
def trx_state.lock_releases (st : trx_state) : List Nat :=
  st.calls.filterMap (fun c =>
    match c with
    | commit_call.lock_release_off_kernel t => some t.conc_state
    | _ => none)

/-- A transaction object that has not been started. -/
def sample_trx_object : trx_t :=
  ⟨"", false, false, TRX_NOT_STARTED, 0, 0, 0, 0, false, false, none, none, none, none, 0, ⟨0⟩,
    none, none⟩

/-- A state with the id counter at 512, no transaction in the list, one
rollback segment in slot 0, and transaction objects that have not been
started. -/
def sample_trx_state : trx_state :=
  ⟨sample_sys_state, [], [⟨0⟩], some ⟨0⟩, fun n => if n = 0 then some ⟨0⟩ else none,
    fun _ => sample_trx_object, []⟩

/-- A state in which the transaction at address 1 is active with id 512 on the
rollback segment of slot 0, has an insert and an update undo log and a read
view, and has made 3 undo records. -/
def sample_trx_state_active : trx_state :=
  ⟨{ sample_sys_state with trx_sys := ⟨513⟩ }, [1], [⟨0⟩], some ⟨0⟩,
    fun n => if n = 0 then some ⟨0⟩ else none,
    fun p => if p = 1 then
        ⟨"", false, true, TRX_ACTIVE, 0, 512, LSN_MAX, 0, false, false, none, some ⟨0⟩, some 100,
          some 200, 3, ⟨2⟩, some 300, some 300⟩
      else sample_trx_object,
    []⟩

/-- Settings that write and flush the log at each commit, and a commit at lsn
9000. -/
def sample_commit_env : commit_env := ⟨1, 0, 9000⟩

/-- Settings that write the log at each commit with the file flush method
`SRV_UNIX_NOSYNC`, and a commit at lsn 9000. -/
def sample_commit_env_nosync : commit_env := ⟨1, SRV_UNIX_NOSYNC, 9000⟩

end trx0trx

/-! ### Flush batches -/

/-- Modelled from the spec: `LOG_WAIT_ALL_GROUPS`, the wait mode of a log write
that waits for all log groups (log0log.h is not among the sources). -/
def LOG_WAIT_ALL_GROUPS : Nat := 93

/-- How a run of a function of the flush batch ends: it returns, or the server
is crashed (a failed `ut_a`, `ut_error`, or a null pointer that is followed),
or the rounds given to a loop run out before the loop ends. -/
inductive flush_run (α : Type) where
  | returns (a : α)
  | crashes
  | unfinished

/-- The parts of the engine that a flush batch uses and that are taken as
parameters: those of `buf_flush_buffered_writes` and of
`buf_flush_init_for_writing`, `fil_space_get_size` (fil0fil.cc is not among the
sources), and the values of `BUF_LRU_OLD_MIN_LEN` (buf0lru.h) and
`BUF_READ_AHEAD_AREA` (buf0rea.h), which are not among the sources. -/
structure batch_env where
  flush : flush_env
  checksum : checksum_env
  fil_space_get_size : Nat → Nat
  BUF_LRU_OLD_MIN_LEN : Nat
  BUF_READ_AHEAD_AREA : Nat

/-- The process-wide state that a flush batch reads and writes: the buffer
pool, the state of `buf_flush_buffered_writes` (the doublewrite buffer and the
calls made to the file layer), the arguments of the calls of `log_write_up_to`
made so far (log0log.cc is not among the sources), and the counters
`srv_buf_pool_flushed` and `buf_lru_flush_page_count`. -/
structure batch_state where
  pool : buf_pool_t
  fs : flush_state
  log_writes : List (Nat × Nat × Bool)
  srv_buf_pool_flushed : Nat
  buf_lru_flush_page_count : Nat

/-- The `buf_block_t` that holds a control block, as
`buf_flush_buffered_writes` sees it. -/
def buf_page_t.block (p : buf_page_t) : buf_block_t :=
  ⟨p.state, p.space, p.offset, p.frame, p.check_index_page_at_flush⟩

/-- The function `buf_page_in_file` on a control block. -/
def batch_env.buf_page_in_file (env : batch_env) (p : buf_page_t) : Bool :=
  env.flush.buf_page_in_file p.block

/-- The pool with the control block at address `bpage` replaced. -/
def buf_pool_t.set_page (pool : buf_pool_t) (bpage : Nat) (p : buf_page_t) : buf_pool_t :=
  { pool with pages := fun q => if q = bpage then p else pool.pages q }

/-- The array `buf_block_arr` with entry `i` set. -/
def buf_block_arr_set (arr : List buf_block_t) (i : Nat) (block : buf_block_t) :
    List buf_block_t :=
  if i < arr.length then arr.set i block
  else arr ++ List.replicate (i - arr.length) ⟨0, 0, 0, fun _ => 0, false⟩ ++ [block]

/-- The function `buf_flush_post_to_doublewrite_buf` of buf0flu.cc, with `k`
passes through `try_again`; `bpage` is the address of the control block. -/
def buf_flush_post_to_doublewrite_buf (env : batch_env) (bpage : Nat) :
    Nat → batch_state → flush_run batch_state
  | 0, _ => flush_run.unfinished
  | k + 1, st =>
    let p := st.pool.pages bpage
    match st.fs.trx_doublewrite with
    | none => flush_run.crashes
    | some dw =>
      if env.buf_page_in_file p = false then flush_run.crashes
      else if dw.first_free ≥ 2 * TRX_SYS_DOUBLEWRITE_BLOCK_SIZE then
        match buf_flush_buffered_writes env.flush st.fs with
        | Except.error _ => flush_run.crashes
        | Except.ok fs => buf_flush_post_to_doublewrite_buf env bpage k { st with fs := fs }
      else if p.state ≠ BUF_BLOCK_FILE_PAGE then flush_run.crashes
      else
        let dw : trx_doublewrite_t :=
          { dw with
            write_buf := memcpy dw.write_buf (UNIV_PAGE_SIZE * dw.first_free) p.frame 0
              UNIV_PAGE_SIZE,
            buf_block_arr := buf_block_arr_set dw.buf_block_arr dw.first_free p.block,
            first_free := (dw.first_free + 1) % 2 ^ 64 }
        let st := { st with fs := { st.fs with trx_doublewrite := some dw } }
        if dw.first_free ≥ 2 * TRX_SYS_DOUBLEWRITE_BLOCK_SIZE then
          match buf_flush_buffered_writes env.flush st.fs with
          | Except.error _ => flush_run.crashes
          | Except.ok fs => flush_run.returns { st with fs := fs }
        else flush_run.returns st

/-- The function `buf_flush_write_block_low` of buf0flu.cc; `bpage` is the
address of the control block.  For a state that the `switch` does not list,
`frame` stays null and the write that follows reads through it, which is given
as a crash.  After a flush of the doublewrite buffer it is empty, so two passes
of `buf_flush_post_to_doublewrite_buf` are enough. -/
def buf_flush_write_block_low (env : batch_env) (st : batch_state) (bpage : Nat) :
    flush_run batch_state :=
  let p := st.pool.pages bpage
  let st := { st with
    log_writes := st.log_writes ++ [(p.newest_modification, LOG_WAIT_ALL_GROUPS, true)] }
  if p.state = BUF_BLOCK_FILE_PAGE then
    let p := { p with
      frame := buf_flush_init_for_writing env.checksum p.frame p.newest_modification }
    let st := { st with pool := st.pool.set_page bpage p }
    if st.fs.srv_use_doublewrite_buf = false ∨ st.fs.trx_doublewrite.isNone then
      flush_run.returns { st with
        fs := { st.fs with
          io := st.fs.io ++ [io_call.fil_io (OS_FILE_WRITE ||| OS_AIO_SIMULATED_WAKE_LATER) false
            p.space p.offset 0 UNIV_PAGE_SIZE p.frame 0 (some p.block)] } }
    else buf_flush_post_to_doublewrite_buf env bpage 2 st
  else flush_run.crashes

/-- The function `buf_flush_page` of buf0flu.cc; `bpage` is the address of the
control block.  The events, mutexes and latches are not modelled. -/
def buf_flush_page (env : batch_env) (st : batch_state) (bpage : Nat) (flush_type : Nat) :
    flush_run batch_state :=
  let p := { st.pool.pages bpage with io_fix := BUF_IO_WRITE, flush_type := flush_type }
  let pool := st.pool.set_page bpage p
  let pool := { pool with
    n_flush := fun t => if t = flush_type then (pool.n_flush flush_type + 1) % 2 ^ 64
      else pool.n_flush t }
  let st := { st with pool := pool }
  if flush_type = BUF_FLUSH_LIST then
    if p.buf_fix_count = 0 then buf_flush_write_block_low env st bpage
    else
      match buf_flush_buffered_writes env.flush st.fs with
      | Except.error _ => flush_run.crashes
      | Except.ok fs => buf_flush_write_block_low env { st with fs := fs } bpage
  else if flush_type = BUF_FLUSH_LRU then buf_flush_write_block_low env st bpage
  else flush_run.crashes

/-- The loop of `buf_flush_try_neighbors`: `k` iterations from page number `i`
on, with `count` pages flushed so far. -/
def buf_flush_try_neighbors_loop (env : batch_env) (space offset flush_type : Nat) :
    Nat → Nat → batch_state → Nat → flush_run (Nat × batch_state)
  | 0, _, st, count => flush_run.returns (count, st)
  | k + 1, i, st, count =>
    match st.pool.page_hash space i with
    | none => buf_flush_try_neighbors_loop env space offset flush_type k (i + 1) st count
    | some bpage =>
      let p := st.pool.pages bpage
      if env.buf_page_in_file p = false then flush_run.crashes
      else if flush_type ≠ BUF_FLUSH_LRU ∨ i = offset ∨ p.old = true then
        match buf_flush_ready_for_flush env.buf_page_in_file p flush_type with
        | none => flush_run.crashes
        | some ready =>
          if ready = true ∧ (i = offset ∨ p.buf_fix_count = 0) then
            match buf_flush_page env st bpage flush_type with
            | flush_run.returns st =>
              buf_flush_try_neighbors_loop env space offset flush_type k (i + 1) st
                ((count + 1) % 2 ^ 64)
            | flush_run.crashes => flush_run.crashes
            | flush_run.unfinished => flush_run.unfinished
          else buf_flush_try_neighbors_loop env space offset flush_type k (i + 1) st count
      else buf_flush_try_neighbors_loop env space offset flush_type k (i + 1) st count

/-- The size `buf_flush_area` of the neighbourhood that
`buf_flush_try_neighbors` searches when the LRU list is long enough. -/
def buf_flush_area (env : batch_env) (pool : buf_pool_t) : Nat :=
  min env.BUF_READ_AHEAD_AREA (pool.curr_size / 16)

/-- The page numbers `low` and `high` between which
`buf_flush_try_neighbors` searches, for the page at `offset` of `space`.
`ulint` is a 64-bit unsigned integer; a division by a `buf_flush_area` of 0 is
`none`. -/
def buf_flush_try_neighbors_range (env : batch_env) (pool : buf_pool_t) (space offset : Nat) :
    Option (Nat × Nat) :=
  let range : Option (Nat × Nat) :=
    if pool.LRU.length < env.BUF_LRU_OLD_MIN_LEN then some (offset, (offset + 1) % 2 ^ 64)
    else
      let area := buf_flush_area env pool
      if area = 0 then none
      else some (offset / area * area % 2 ^ 64, (offset / area + 1) * area % 2 ^ 64)
  match range with
  | none => none
  | some (low, high) =>
    some (low,
      if high > env.fil_space_get_size space then env.fil_space_get_size space else high)

/-- The function `buf_flush_try_neighbors` of buf0flu.cc: the number of pages
flushed and the state.  A division by a `buf_flush_area` of 0 is given as a
crash. -/
def buf_flush_try_neighbors (env : batch_env) (st : batch_state) (space offset flush_type : Nat) :
    flush_run (Nat × batch_state) :=
  match buf_flush_try_neighbors_range env st.pool space offset with
  | none => flush_run.crashes
  | some (low, high) =>
    buf_flush_try_neighbors_loop env space offset flush_type (high - low) low st 0

/-- The search of `buf_flush_batch` for a block that is ready for flushing,
from the last node of a list towards the first; `list` is the list from the
node looked at towards the first node.  The result is the address of the
block found (`none` when the search comes to the start of the list). -/
def buf_flush_batch_search (env : batch_env) (pool : buf_pool_t) (flush_type : Nat) :
    List Nat → flush_run (Option Nat)
  | [] => flush_run.returns none
  | bpage :: list =>
    if env.buf_page_in_file (pool.pages bpage) = false then flush_run.crashes
    else
      match buf_flush_ready_for_flush env.buf_page_in_file (pool.pages bpage) flush_type with
      | none => flush_run.crashes
      | some true => flush_run.returns (some bpage)
      | some false => buf_flush_batch_search env pool flush_type list

/-- The list that a flush batch of a kind takes its blocks from. -/
def buf_pool_t.batch_list (pool : buf_pool_t) (flush_type : Nat) : List Nat :=
  if flush_type = BUF_FLUSH_LRU then pool.LRU else pool.flush_list

/-- The loop of `buf_flush_batch`, `k` rounds with `page_count` pages flushed so
far: the count and the state when the loop is left.  An LRU list that is empty
gives a null pointer that is followed. -/
def buf_flush_batch_loop (env : batch_env) (flush_type min_n lsn_limit : Nat) :
    Nat → batch_state → Nat → flush_run (Nat × batch_state)
  | 0, _, _ => flush_run.unfinished
  | k + 1, st, page_count =>
    if page_count ≥ min_n then flush_run.returns (page_count, st)
    else
      match (st.pool.batch_list flush_type).getLast? with
      | none =>
        if flush_type = BUF_FLUSH_LRU then flush_run.crashes
        else flush_run.returns (page_count, st)
      | some last =>
        if flush_type ≠ BUF_FLUSH_LRU
            ∧ (st.pool.pages last).oldest_modification ≥ lsn_limit then
          flush_run.returns (page_count, st)
        else
          match buf_flush_batch_search env st.pool flush_type
              (st.pool.batch_list flush_type).reverse with
          | flush_run.crashes => flush_run.crashes
          | flush_run.unfinished => flush_run.unfinished
          | flush_run.returns none => flush_run.returns (page_count, st)
          | flush_run.returns (some bpage) =>
            match buf_flush_try_neighbors env st (st.pool.pages bpage).space
                (st.pool.pages bpage).offset flush_type with
            | flush_run.crashes => flush_run.crashes
            | flush_run.unfinished => flush_run.unfinished
            | flush_run.returns r =>
              buf_flush_batch_loop env flush_type min_n lsn_limit k r.2
                ((page_count + r.1) % 2 ^ 64)

/-- The pool with the flag `init_flush` of a kind of flush set. -/
def buf_pool_t.set_init_flush (pool : buf_pool_t) (flush_type : Nat) (b : Bool) : buf_pool_t :=
  { pool with init_flush := fun t => if t = flush_type then b else pool.init_flush t }

/-- The function `buf_flush_batch` of buf0flu.cc, for a `flush_type` that is
`BUF_FLUSH_LRU` or `BUF_FLUSH_LIST`: the count returned and the state.  The
loop is given one round for each node of the list and one more: a round that
goes on has flushed a block of the list, which is not ready for flushing again
while its write is pending.  The events and mutexes are not modelled. -/
def buf_flush_batch (env : batch_env) (st : batch_state) (flush_type min_n lsn_limit : Nat) :
    flush_run (Nat × batch_state) :=
  if st.pool.n_flush flush_type > 0 ∨ st.pool.init_flush flush_type = true then
    flush_run.returns (ULINT_UNDEFINED, st)
  else
    let st := { st with pool := st.pool.set_init_flush flush_type true }
    match buf_flush_batch_loop env flush_type min_n lsn_limit
        ((st.pool.batch_list flush_type).length + 1) st 0 with
    | flush_run.crashes => flush_run.crashes
    | flush_run.unfinished => flush_run.unfinished
    | flush_run.returns r =>
      let page_count := r.1
      let st := { r.2 with pool := r.2.pool.set_init_flush flush_type false }
      match buf_flush_buffered_writes env.flush st.fs with
      | Except.error _ => flush_run.crashes
      | Except.ok fs =>
        let st := { st with
          fs := fs,
          srv_buf_pool_flushed := (st.srv_buf_pool_flushed + page_count) % 2 ^ 64,
          buf_lru_flush_page_count :=
            if flush_type = BUF_FLUSH_LRU then
              (st.buf_lru_flush_page_count + page_count) % 2 ^ 64
            else st.buf_lru_flush_page_count }
        flush_run.returns (page_count, st)

/-- The count that a run returned. -/
def flush_run.count {α : Type} : flush_run (Nat × α) → Option Nat
  | flush_run.returns r => some r.1
  | _ => none

/-- The parts of the engine for a flush batch: every block of state
`BUF_BLOCK_FILE_PAGE` is a file page, index pages are not validated,
checksums are disabled, every space has 1000 pages, and `BUF_LRU_OLD_MIN_LEN`
and `BUF_READ_AHEAD_AREA` are 512 and 64. -/
def sample_batch_env : batch_env :=
  ⟨⟨fun _ => true, fun _ => true, fun b => decide (b.state = BUF_BLOCK_FILE_PAGE)⟩,
    ⟨false, fun _ => 0, fun _ => 0⟩, fun _ => 1000, 512, 64⟩

/-- A state with 1024 blocks in the pool, the blocks at the addresses 0 to 599
in the LRU list, and the blocks at the addresses 3, 2 and 1 in the flush list,
dirty since the lsns 30, 20 and 10; the control block at address `k` is for
page `k` of space 0, and the other blocks are clean.  No flush is running and
the doublewrite buffer is not in use. -/
def sample_batch_state : batch_state :=
  ⟨{ curr_size := 1024,
     n_flush := fun _ => 0,
     init_flush := fun _ => false,
     LRU := List.range 600,
     flush_list := [3, 2, 1],
     flush_rbt := none,
     pages := fun k =>
       ⟨0, k, BUF_BLOCK_FILE_PAGE, 0, BUF_IO_NONE, 0, if 1 ≤ k ∧ k ≤ 3 then 10 * k else 0,
         if 1 ≤ k ∧ k ≤ 3 then 10 * k else 0, false, fun _ => 0, false⟩,
     page_hash := fun space offset => if space = 0 then some offset else none },
    ⟨false, none, 0, 0, []⟩, [], 0, 0⟩

/-- The pool `pool'` is the pool `pool` after pages were flushed: the lists,
the size, the flags `init_flush`, the page hash and the place of every block
are as they were, and a control block that is not as it was is fixed for a
write. -/
def buf_pool_t.flushed_from (pool' pool : buf_pool_t) : Prop :=
  pool'.LRU = pool.LRU ∧ pool'.flush_list = pool.flush_list
    ∧ pool'.curr_size = pool.curr_size ∧ pool'.init_flush = pool.init_flush
    ∧ pool'.page_hash = pool.page_hash
    ∧ ∀ q, (pool'.pages q).space = (pool.pages q).space
        ∧ (pool'.pages q).offset = (pool.pages q).offset
        ∧ (pool'.pages q).state = (pool.pages q).state
        ∧ (pool'.pages q = pool.pages q ∨ (pool'.pages q).io_fix = BUF_IO_WRITE)

/-- The number of pages of one flush neighbourhood: 1 when the LRU list is
shorter than `BUF_LRU_OLD_MIN_LEN`, else `buf_flush_area`. -/
def buf_flush_neighbourhood (env : batch_env) (pool : buf_pool_t) : Nat :=
  if pool.LRU.length < env.BUF_LRU_OLD_MIN_LEN then 1 else buf_flush_area env pool

/-- A block is ready for flushing in a flush of a kind. -/
def buf_pool_t.ready (env : batch_env) (pool : buf_pool_t) (flush_type : Nat) (bpage : Nat) :
    Bool :=
  buf_flush_ready_for_flush env.buf_page_in_file (pool.pages bpage) flush_type == some true

/-- The pool is well formed for a flush batch of a kind: each block of the list
is found in the page hash under its space and page number, and its page number
lies in the neighbourhood that is searched for it. -/
def buf_pool_t.batch_wf (env : batch_env) (pool : buf_pool_t) (flush_type : Nat) : Prop :=
  ∀ bpage, bpage ∈ pool.batch_list flush_type →
    pool.page_hash (pool.pages bpage).space (pool.pages bpage).offset = some bpage
    ∧ ∃ low high,
        buf_flush_try_neighbors_range env pool (pool.pages bpage).space
            (pool.pages bpage).offset = some (low, high)
        ∧ low ≤ (pool.pages bpage).offset ∧ (pool.pages bpage).offset < high


/-! ## Index pages (`page0page.h`) -/

/-- Modelled from the spec: `REC_N_OLD_EXTRA_BYTES`, the fixed bytes in front of
a record of the old format; page0page.h asserts that it is
`REC_N_NEW_EXTRA_BYTES + 1` (rem0rec.h is not among the sources). -/
def REC_N_OLD_EXTRA_BYTES : Nat := REC_N_NEW_EXTRA_BYTES + 1

/-- The constant `PAGE_DATA` of page0page.h. -/
def PAGE_DATA : Nat := PAGE_HEADER + 36 + 2 * FSEG_HEADER_SIZE

/-- The constant `PAGE_OLD_INFIMUM` of page0page.h. -/
def PAGE_OLD_INFIMUM : Nat := PAGE_DATA + 1 + REC_N_OLD_EXTRA_BYTES

/-- The constant `PAGE_OLD_SUPREMUM` of page0page.h. -/
def PAGE_OLD_SUPREMUM : Nat := PAGE_DATA + 2 + 2 * REC_N_OLD_EXTRA_BYTES + 8

/-- The constant `PAGE_OLD_SUPREMUM_END` of page0page.h. -/
def PAGE_OLD_SUPREMUM_END : Nat := PAGE_OLD_SUPREMUM + 9

/-- The constant `PAGE_NEW_INFIMUM` of page0page.h. -/
def PAGE_NEW_INFIMUM : Nat := PAGE_DATA + REC_N_NEW_EXTRA_BYTES

/-- The constant `PAGE_NEW_SUPREMUM` of page0page.h. -/
def PAGE_NEW_SUPREMUM : Nat := PAGE_DATA + 2 * REC_N_NEW_EXTRA_BYTES + 8

/-- The constant `PAGE_NEW_SUPREMUM_END` of page0page.h. -/
def PAGE_NEW_SUPREMUM_END : Nat := PAGE_NEW_SUPREMUM + 8

/-- The constant `PAGE_DIR` of page0page.h. -/
def PAGE_DIR : Nat := FIL_PAGE_DATA_END

/-- The constant `PAGE_DIR_SLOT_SIZE` of page0page.h. -/
def PAGE_DIR_SLOT_SIZE : Nat := 2

/-- The function `page_get_free_space_of_empty` of page0page.h; `comp` is
nonzero for the compact page layout. -/
def page_get_free_space_of_empty (comp : Nat) : Nat :=
  if comp ≠ 0 then
    UNIV_PAGE_SIZE - PAGE_NEW_SUPREMUM_END - PAGE_DIR - 2 * PAGE_DIR_SLOT_SIZE
  else
    UNIV_PAGE_SIZE - PAGE_OLD_SUPREMUM_END - PAGE_DIR - 2 * PAGE_DIR_SLOT_SIZE

/-- The function `page_rec_needs_ext` of page0page.h.  The constant
`REC_MAX_DATA_SIZE` is not among the sources and is a parameter; the test on it
is compiled in when `UNIV_PAGE_SIZE > REC_MAX_DATA_SIZE`.  The debug assertion
on `rec_size` is not modelled. -/
def page_rec_needs_ext (REC_MAX_DATA_SIZE rec_size comp : Nat) : Bool :=
  if UNIV_PAGE_SIZE > REC_MAX_DATA_SIZE ∧ rec_size ≥ REC_MAX_DATA_SIZE then true
  else decide (rec_size ≥ page_get_free_space_of_empty comp / 2)

/-! ## Two-way lists -/

/-- Modelled from the spec: `UT_LIST_ADD_LAST`, which puts a node at the end of
a two-way list (ut0lst.h is not among the sources). -/
def UT_LIST_ADD_LAST (list : List Nat) (elem : Nat) : List Nat := list ++ [elem]

/-- Modelled from the spec: `UT_LIST_GET_PREV`, the node before the node `elem`
of a two-way list, `none` (null) for the first node (ut0lst.h is not among the
sources). -/
def UT_LIST_GET_PREV : List Nat → Nat → Option Nat
  | [], _ => none
  | x :: xs, elem =>
    if x = elem then none
    else
      match xs with
      | [] => none
      | y :: _ => if y = elem then some x else UT_LIST_GET_PREV xs elem

/-- Modelled from the spec: `UT_LIST_GET_LAST`, the last node of a two-way
list, `none` (null) for an empty list (ut0lst.h is not among the sources). -/
def UT_LIST_GET_LAST (list : List Nat) : Option Nat := list.getLast?

/-! ## Assigning rollback segments (`trx0trx.cc`) -/

namespace trx0trx

/-- The rollback segments of `trx_sys->rseg_list` other than the system
rollback segment, in list order. -/
def trx_state.user_rsegs (st : trx_state) : List trx_rseg_t :=
  st.rseg_list.filter (fun r => decide (r.id ≠ TRX_SYS_SYSTEM_RSEG_ID))

/-- Successive calls of `trx_assign_rseg`, `n` of them: the ids returned, in
order, and the state after the last call; `none` when a call is `none`. -/
def trx_assign_rseg_calls : Nat → trx_state → Option (List Nat × trx_state)
  | 0, st => some ([], st)
  | n + 1, st =>
    match trx_assign_rseg st with
    | none => none
    | some (id, st) =>
      match trx_assign_rseg_calls n st with
      | none => none
      | some (ids, st) => some (id :: ids, st)

/-- A state with the system rollback segment and the rollback segments 1, 2
and 3 in the list, the last assigned one being segment 2. -/
def sample_trx_state_rsegs : trx_state :=
  { sample_trx_state with
    rseg_list := [⟨0⟩, ⟨1⟩, ⟨2⟩, ⟨3⟩], latest_rseg := some ⟨2⟩,
    rseg_array := fun n => if n < 4 then some ⟨n⟩ else none }

/-! ## Read views of a transaction (`trx0trx.cc`) -/

/-- The function `trx_assign_read_view` of trx0trx.cc; `trx` is the address of
the transaction object.  `read_view_open_now` is not among the sources: the
address of the view that it opens for a creating transaction id is a
parameter, and the call is recorded.  The debug assertion is not modelled. -/
def trx_assign_read_view (read_view_open_now : Nat → Nat) (st : trx_state) (trx : Nat) :
    Option Nat × trx_state :=
  match (st.trxs trx).read_view with
  | some view => (some view, st)
  | none =>
    let view := read_view_open_now (st.trxs trx).id
    let st := st.call (commit_call.read_view_open_now (st.trxs trx).id)
    let st := st.set_trx trx { st.trxs trx with read_view := some view }
    let st := st.set_trx trx { st.trxs trx with global_read_view := (st.trxs trx).read_view }
    ((st.trxs trx).read_view, st)

/-- The read views opened among the calls made: the creating transaction id of
each `read_view_open_now`, in order. -/
def trx_state.views_opened (st : trx_state) : List Nat :=
  st.calls.filterMap (fun c =>
    match c with
    | commit_call.read_view_open_now id => some id
    | _ => none)

/-! ## The list of transactions (`trx0trx.cc`, `trx0sys.h`) -/

/-- The loop of `trx_list_insert_ordered`: what `trx2` ends as, from the node
`trx2` on; `list` is the transaction list from `trx2` to the last node, `id` is
`trx->id`. -/
def trx_list_insert_ordered_search (trxs : Nat → trx_t) (id : Nat) : List Nat → Option Nat
  | [] => none
  | trx2 :: list =>
    if id ≥ (trxs trx2).id then some trx2
    else trx_list_insert_ordered_search trxs id list

/-- The function `trx_list_insert_ordered` of trx0trx.cc; `trx` is the address
of the transaction object.  The debug assertions are not modelled. -/
def trx_list_insert_ordered (st : trx_state) (trx : Nat) : trx_state :=
  match trx_list_insert_ordered_search st.trxs (st.trxs trx).id st.trx_list with
  | some trx2 =>
    match UT_LIST_GET_PREV st.trx_list trx2 with
    | none => { st with trx_list := UT_LIST_ADD_FIRST st.trx_list trx }
    | some trx2 => { st with trx_list := UT_LIST_INSERT_AFTER st.trx_list trx2 trx }
  | none => { st with trx_list := UT_LIST_ADD_LAST st.trx_list trx }

/-- The function `trx_list_get_min_trx_id` of trx0sys.h. -/
def trx_list_get_min_trx_id (st : trx_state) : Nat :=
  match UT_LIST_GET_LAST st.trx_list with
  | none => st.sys.trx_sys.max_trx_id
  | some trx => (st.trxs trx).id

/-- The transaction list is sorted by strictly decreasing transaction id from
the first node to the last. -/
def trx_state.trx_list_sorted (st : trx_state) : Prop :=
  st.trx_list.Pairwise (fun a b => (st.trxs a).id > (st.trxs b).id)

/-- Every transaction id in the transaction list is below
`trx_sys->max_trx_id`. -/
def trx_state.ids_below_max (st : trx_state) : Prop :=
  ∀ t ∈ st.trx_list, (st.trxs t).id < st.sys.trx_sys.max_trx_id

/-- The states reached from an empty transaction list through
`trx_list_insert_ordered` of a transaction object that is not in the list, with
an id not yet present; through `trx_start_low` of a transaction object that is
not in the list, in a state in which every id in the list is below
`max_trx_id`; and through `trx_commit_off_kernel`, which takes the transaction
out of the list. -/
inductive trx_list_reachable : trx_state → Prop where
  | empty (st : trx_state) (h : st.trx_list = []) : trx_list_reachable st
  | insert_ordered (st : trx_state) (trx : Nat) (h : trx_list_reachable st)
      (hnew : trx ∉ st.trx_list)
      (hid : ∀ t ∈ st.trx_list, (st.trxs t).id ≠ (st.trxs trx).id) :
      trx_list_reachable (trx_list_insert_ordered st trx)
  | start (now : Nat) (st : trx_state) (trx rseg_id : Nat) (st' : trx_state)
      (h : trx_list_reachable st) (hbelow : st.ids_below_max) (hnew : trx ∉ st.trx_list)
      (hs : trx_start_low now st trx rseg_id = some (true, st')) : trx_list_reachable st'
  | commit (env : commit_env) (st : trx_state) (trx : Nat) (st' : trx_state)
      (h : trx_list_reachable st) (hc : trx_commit_off_kernel env st trx = some st') :
      trx_list_reachable st'

/-- The state reached from the state with an empty transaction list by the
insertion of the transaction object at address 2, whose id is set to 7, and the
start of the transaction at address 1. -/
def sample_trx_state_list : trx_state :=
  let st := sample_trx_state.set_trx 2 { sample_trx_object with id := 7 }
  let st := trx_list_insert_ordered st 2
  match trx_start_low 0 st 1 0 with
  | some (_, st) => st
  | none => st

/-! ## The transaction table at start-up (`trx0trx.cc`) -/

/-- Modelled from the spec: `TRX_UNDO_ACTIVE`, the state of an undo log that
"contains an active transaction" (trx0undo.h is not among the sources). -/
def TRX_UNDO_ACTIVE : Nat := 1

/-- Modelled from the spec: `TRX_UNDO_PREPARED`, the state of an undo log that
"contains an undo log of a prepared transaction" (trx0undo.h is not among the
sources). -/
def TRX_UNDO_PREPARED : Nat := 5

/-- Modelled from the spec: `IB_RECOVERY_DEFAULT`, the value of `ib_recovery_t`
for a start without forced recovery (the declaration of the enumeration is not
among the sources). -/
def IB_RECOVERY_DEFAULT : Nat := 0

/-- Modelled from the spec: the undo log object `trx_undo_t`, with the fields
that `trx_lists_init_at_db_start` reads: the id of the transaction, the state
of the log, whether the log is empty, and the undo number of its top record
(trx0undo.h is not among the sources).  The fields `xid`, `dict_operation` and
`table_id`, copied to fields of the transaction that are not modelled, are left
out. -/
structure trx_undo_t where
  trx_id : Nat
  state : Nat
  empty : Bool
  top_undo_no : Nat
deriving DecidableEq, Repr

/-- What `trx_lists_init_at_db_start` reads and does not write: the undo log at
each address, the addresses of the undo logs in `rseg->insert_undo_list` and in
`rseg->update_undo_list` of each rollback segment, first node first, and what
`time(nullptr)` returns. -/
structure recover_env where
  undos : Nat → trx_undo_t
  insert_undo_list : trx_rseg_t → List Nat
  update_undo_list : trx_rseg_t → List Nat
  now : Nat

/-- The state that `trx_lists_init_at_db_start` writes: the process-wide state
of trx0trx.cc, and the heap.  Modelled from the spec: `mem_alloc` hands out
memory not in use; the addresses it hands out are `heap_top`, `heap_top + 1`
and so on (mem0mem.h is not among the sources). -/
structure recover_state where
  st : trx_state
  heap_top : Nat

/-- The function `trx_create` of trx0trx.cc, in a build with `WITH_XOPEN`: the
address of the new transaction object, and the state.  Fields that the function
does not set keep what the memory held. -/
def trx_create (env : recover_env) (rs : recover_state) : Nat × recover_state :=
  let trx := rs.heap_top
  let t := { rs.st.trxs trx with
    op_info := "", is_purge := false, is_recovered := false, conc_state := TRX_NOT_STARTED,
    start_time := env.now, id := 0, no := LSN_MAX, flush_log_later := false,
    must_flush_log_later := false, client_query_str := none, rseg := none, undo_no := 0,
    last_sql_stat_start := { least_undo_no := 0 }, insert_undo := none, update_undo := none,
    global_read_view := none, read_view := none }
  (trx, { st := rs.st.set_trx trx t, heap_top := rs.heap_top + 1 })

/-- The function `trx_get_on_id` of trx0sys.h on the list from a node on: the
address of the first transaction object with the id, `none` (null) when there
is none. -/
def trx_get_on_id_from (trxs : Nat → trx_t) (trx_id : Nat) : List Nat → Option Nat
  | [] => none
  | trx :: list => if trx_id = (trxs trx).id then some trx else trx_get_on_id_from trxs trx_id list

/-- The function `trx_get_on_id` of trx0sys.h. -/
def trx_get_on_id (st : trx_state) (trx_id : Nat) : Option Nat :=
  trx_get_on_id_from st.trxs trx_id st.trx_list

/-- The state and the number that `trx_lists_init_at_db_start` gives to a
transaction made from an undo log in the state `undo_state`. -/
def trx_lists_init_state (recovery undo_state trx_id : Nat) : Nat × Nat :=
  if undo_state ≠ TRX_UNDO_ACTIVE then
    let conc_state :=
      if undo_state = TRX_UNDO_PREPARED then
        if recovery = IB_RECOVERY_DEFAULT then TRX_PREPARED else TRX_ACTIVE
      else TRX_COMMITTED_IN_MEMORY
    (conc_state, trx_id)
  else (TRX_ACTIVE, LSN_MAX)

/-- The body of the first inner loop of `trx_lists_init_at_db_start`, for the
insert undo log at address `undo` of the rollback segment `rseg`;
`undo_no_t` is a 64-bit unsigned integer.  The messages printed are not
modelled. -/
def trx_lists_init_insert_undo (env : recover_env) (recovery : Nat) (rseg : trx_rseg_t)
    (rs : recover_state) (undo : Nat) : recover_state :=
  let u := env.undos undo
  let r := trx_create env rs
  let trx := r.1
  let rs := r.2
  let st := rs.st
  let st := st.set_trx trx { st.trxs trx with
    is_recovered := true, id := u.trx_id, insert_undo := some undo, rseg := some rseg }
  let sn := trx_lists_init_state recovery u.state (st.trxs trx).id
  let st := st.set_trx trx { st.trxs trx with conc_state := sn.1, no := sn.2 }
  let st := if u.empty = false then
      st.set_trx trx { st.trxs trx with undo_no := (u.top_undo_no + 1) % 2 ^ 64 }
    else st
  { rs with st := trx_list_insert_ordered st trx }

/-- The branch of the second inner loop of `trx_lists_init_at_db_start` that
makes a transaction for the update undo log at address `undo` of the rollback
segment `rseg`, no transaction of the list having its id: the address of the
transaction object, and the state.  The messages printed are not modelled. -/
def trx_lists_init_update_undo_create (env : recover_env) (recovery : Nat) (rseg : trx_rseg_t)
    (rs : recover_state) (undo : Nat) : Nat × recover_state :=
  let u := env.undos undo
  let r := trx_create env rs
  let trx := r.1
  let rs := r.2
  let st := rs.st
  let st := st.set_trx trx { st.trxs trx with is_recovered := true, id := u.trx_id }
  let sn := trx_lists_init_state recovery u.state (st.trxs trx).id
  let st := st.set_trx trx { st.trxs trx with conc_state := sn.1, no := sn.2 }
  let st := st.set_trx trx { st.trxs trx with rseg := some rseg }
  (trx, { rs with st := trx_list_insert_ordered st trx })

/-- The end of the body of the second inner loop of
`trx_lists_init_at_db_start`: the update undo log at address `undo` is given to
the transaction at address `trx`, and the undo number of the transaction is
raised. -/
def trx_lists_init_update_undo_set (env : recover_env) (rs : recover_state) (trx undo : Nat) :
    recover_state :=
  let u := env.undos undo
  let st := rs.st
  let st := st.set_trx trx { st.trxs trx with update_undo := some undo }
  let st := if u.empty = false ∧ u.top_undo_no ≥ (st.trxs trx).undo_no then
      st.set_trx trx { st.trxs trx with undo_no := (u.top_undo_no + 1) % 2 ^ 64 }
    else st
  { rs with st := st }

/-- The body of the second inner loop of `trx_lists_init_at_db_start`, for the
update undo log at address `undo` of the rollback segment `rseg`. -/
def trx_lists_init_update_undo (env : recover_env) (recovery : Nat) (rseg : trx_rseg_t)
    (rs : recover_state) (undo : Nat) : recover_state :=
  let u := env.undos undo
  let r : Nat × recover_state :=
    match trx_get_on_id rs.st u.trx_id with
    | some trx => (trx, rs)
    | none => trx_lists_init_update_undo_create env recovery rseg rs undo
  trx_lists_init_update_undo_set env r.2 r.1 undo

/-- The body of the outer loop of `trx_lists_init_at_db_start`, for the
rollback segment `rseg`. -/
def trx_lists_init_rseg (env : recover_env) (recovery : Nat) (rs : recover_state)
    (rseg : trx_rseg_t) : recover_state :=
  let rs := (env.insert_undo_list rseg).foldl (trx_lists_init_insert_undo env recovery rseg) rs
  (env.update_undo_list rseg).foldl (trx_lists_init_update_undo env recovery rseg) rs

/-- The function `trx_lists_init_at_db_start` of trx0trx.cc. -/
def trx_lists_init_at_db_start (env : recover_env) (recovery : Nat) (rs : recover_state) :
    recover_state :=
  let rs := { rs with st := { rs.st with trx_list := [] } }
  rs.st.rseg_list.foldl (trx_lists_init_rseg env recovery) rs

/-- An undo log of the undo logs that `trx_lists_init_at_db_start` goes
through: its rollback segment, whether it is an insert undo log, and its
address. -/
structure undo_log_ref where
  rseg : trx_rseg_t
  is_insert : Bool
  undo : Nat
deriving DecidableEq, Repr

/-- The undo logs of a rollback segment in the order in which
`trx_lists_init_at_db_start` goes through them: the insert undo logs, then the
update undo logs. -/
def recover_env.rseg_logs (env : recover_env) (rseg : trx_rseg_t) : List undo_log_ref :=
  (env.insert_undo_list rseg).map (fun undo => ⟨rseg, true, undo⟩)
    ++ (env.update_undo_list rseg).map (fun undo => ⟨rseg, false, undo⟩)

/-- The undo logs of every rollback segment in the order in which
`trx_lists_init_at_db_start` goes through them. -/
def recover_env.logs (env : recover_env) (rseg_list : List trx_rseg_t) : List undo_log_ref :=
  rseg_list.flatMap env.rseg_logs

/-- The undo logs of a transaction id among undo logs. -/
def recover_env.logs_of (env : recover_env) (logs : List undo_log_ref) (trx_id : Nat) :
    List undo_log_ref :=
  logs.filter (fun l => decide ((env.undos l.undo).trx_id = trx_id))

/-- One more than the largest `top_undo_no` among the undo logs that are not
empty, 0 when all are empty. -/
def recover_env.undo_no_of (env : recover_env) (logs : List undo_log_ref) : Nat :=
  logs.foldl (fun n l =>
    if (env.undos l.undo).empty = false then max n ((env.undos l.undo).top_undo_no + 1) else n) 0

/-- No insert undo log comes after an undo log of the same transaction id: a
transaction has one insert undo log at most, and its update undo logs are in
the same rollback segment or in a later one. -/
def recover_env.insert_logs_first (env : recover_env) (logs : List undo_log_ref) : Prop :=
  ∀ (p q : Nat), q < p → ∀ (l l' : undo_log_ref), logs[p]? = some l → logs[q]? = some l' →
    l.is_insert = true →
    (env.undos l'.undo).trx_id ≠ (env.undos l.undo).trx_id

/-- What `trx_lists_init_at_db_start` does for one undo log. -/
def trx_lists_init_log (env : recover_env) (recovery : Nat) (rs : recover_state)
    (l : undo_log_ref) : recover_state :=
  if l.is_insert = true then trx_lists_init_insert_undo env recovery l.rseg rs l.undo
  else trx_lists_init_update_undo env recovery l.rseg rs l.undo

/-- The transaction object `t` is as the claim says of a transaction made from
the undo log `l`: it has the id of the undo log, `is_recovered` is set, its
rollback segment is that of the undo log, its state is `TRX_ACTIVE` when the
state of the undo log is `TRX_UNDO_ACTIVE`, `TRX_PREPARED` when it is
`TRX_UNDO_PREPARED` and recovery is `IB_RECOVERY_DEFAULT` (`TRX_ACTIVE` under
forced recovery), and `TRX_COMMITTED_IN_MEMORY` for every other state; its
number is `LSN_MAX` for an active undo log and the id otherwise. -/
def recover_env.made_from (env : recover_env) (recovery : Nat) (l : undo_log_ref)
    (t : trx_t) : Prop :=
  t.id = (env.undos l.undo).trx_id
    ∧ t.is_recovered = true
    ∧ t.rseg = some l.rseg
    ∧ t.conc_state
        = (if (env.undos l.undo).state = TRX_UNDO_ACTIVE then TRX_ACTIVE
          else if (env.undos l.undo).state = TRX_UNDO_PREPARED then
            (if recovery = IB_RECOVERY_DEFAULT then TRX_PREPARED else TRX_ACTIVE)
          else TRX_COMMITTED_IN_MEMORY)
    ∧ t.no = (if (env.undos l.undo).state = TRX_UNDO_ACTIVE then LSN_MAX
        else (env.undos l.undo).trx_id)

/-- The transaction table is the one rebuilt from the undo logs `logs`: the
transaction objects of the list are below `heap_top`, no node is repeated, no
two have the same id, every undo log has a transaction with its id in the
list, and every transaction of the list is made from the first undo log with
its id and has the undo number that belongs to the undo logs with its id. -/
def recover_env.rebuilt (env : recover_env) (recovery : Nat) (logs : List undo_log_ref)
    (rs : recover_state) : Prop :=
  (∀ t ∈ rs.st.trx_list, t < rs.heap_top)
    ∧ rs.st.trx_list.Nodup
    ∧ (∀ t1 ∈ rs.st.trx_list, ∀ t2 ∈ rs.st.trx_list,
        (rs.st.trxs t1).id = (rs.st.trxs t2).id → t1 = t2)
    ∧ (∀ l ∈ logs, ∃ t ∈ rs.st.trx_list, (rs.st.trxs t).id = (env.undos l.undo).trx_id)
    ∧ (∀ t ∈ rs.st.trx_list, ∃ l, (env.logs_of logs (rs.st.trxs t).id).head? = some l
        ∧ env.made_from recovery l (rs.st.trxs t)
        ∧ (rs.st.trxs t).undo_no = env.undo_no_of (env.logs_of logs (rs.st.trxs t).id))

/-- Undo logs of the rollback segment 0: the insert undo log at address 10 of
the active transaction 7, with the top undo number 4; the update undo log at
address 20 of the same transaction, with the top undo number 9; and the empty
update undo log at address 21 of the prepared transaction 5. -/
def sample_recover_env : recover_env :=
  { undos := fun a =>
      if a = 10 then ⟨7, TRX_UNDO_ACTIVE, false, 4⟩
      else if a = 20 then ⟨7, TRX_UNDO_ACTIVE, false, 9⟩
      else ⟨5, TRX_UNDO_PREPARED, true, 0⟩,
    insert_undo_list := fun rseg => if rseg.id = 0 then [10] else [],
    update_undo_list := fun rseg => if rseg.id = 0 then [20, 21] else [],
    now := 0 }

/-- The state at start-up with one rollback segment, the heap handing out the
addresses from 100 on. -/
def sample_recover_state : recover_state := ⟨sample_trx_state, 100⟩

end trx0trx

/-! ## File format names (`trx0sys.cc`) -/

/-- The bytes of a string of ASCII characters, as a C string holds them before
its terminating NUL. -/
def cstr (s : String) : List Nat := s.toList.map Char.toNat

/-- The function `isspace` of the C library in the "C" locale: space, and the
control characters from horizontal tab to carriage return. -/
def isspace (c : Nat) : Bool := c == 32 || (9 ≤ c && c ≤ 13)

/-- The function `isdigit` of the C library. -/
def isdigit (c : Nat) : Bool := 48 ≤ c && c ≤ 57

/-- The function `tolower` of the C library in the "C" locale. -/
def tolower (c : Nat) : Nat := if 65 ≤ c ∧ c ≤ 90 then c + 32 else c

/-- The value of a sequence of decimal digits. -/
def strtoul_digits (digits : List Nat) : Nat :=
  digits.foldl (fun acc c => acc * 10 + (c - 48)) 0

/-- The function `strtoul` of the C library with base 10 on a machine with a
64-bit `unsigned long`, as the C standard describes it (it is no code of this
repository): white space is skipped, then an optional sign and the longest run
of decimal digits are taken; without a digit nothing is converted, the value
is 0 and `*endptr` is the start of the string; a value out of range gives
`ULONG_MAX`; after a minus sign the value is negated in the unsigned type.  The
string is given by the bytes before its terminating NUL; the result is the
value and the rest of the string at `*endptr`. -/
def strtoul (nptr : List Nat) : Nat × List Nat :=
  let s := nptr.dropWhile isspace
  let neg : Bool := s.head? == some 45
  let s := if s.head? = some 45 ∨ s.head? = some 43 then s.tail else s
  let digits := s.takeWhile isdigit
  if digits = [] then (0, nptr)
  else
    let v := strtoul_digits digits
    let endp := s.dropWhile isdigit
    if v > 2 ^ 64 - 1 then (2 ^ 64 - 1, endp)
    else if neg then ((2 ^ 64 - v) % 2 ^ 64, endp)
    else (v, endp)

/-- The function `strcasecmp` of POSIX in the "C" locale (it is no code of this
repository): the difference of the first two bytes that differ after
`tolower`, the end of a string counting as 0; the strings are given by the
bytes before their terminating NUL. -/
def strcasecmp : List Nat → List Nat → Int
  | [], [] => 0
  | [], b :: _ => 0 - (tolower b : Int)
  | a :: _, [] => (tolower a : Int)
  | a :: s1, b :: s2 =>
    if tolower a = tolower b then strcasecmp s1 s2 else (tolower a : Int) - (tolower b : Int)

/-- The loop of `trx_sys_file_format_name_to_id` over the format ids from
`format_id` to `DICT_TF_FORMAT_MAX`, `n` of them: the id whose name is
`format_name` but for the letter case, `none` when the loop ends without
one. -/
def trx_sys_file_format_name_to_id_loop (format_name : List Nat) : Nat → Nat → Option Nat
  | 0, _ => none
  | n + 1, format_id =>
    let name := trx_sys_file_format_id_to_name format_id
    if strcasecmp format_name (cstr name) = 0 then some format_id
    else trx_sys_file_format_name_to_id_loop format_name n (format_id + 1)

/-- The function `trx_sys_file_format_name_to_id` of trx0sys.cc; `format_name`
is given by the bytes before its terminating NUL (it is not null, `ut_a`). -/
def trx_sys_file_format_name_to_id (format_name : List Nat) : Nat :=
  let r := strtoul format_name
  let format_id := r.1
  let endp := r.2
  if endp = [] ∧ format_name ≠ [] then
    if format_id ≤ DICT_TF_FORMAT_MAX then format_id else DICT_TF_FORMAT_MAX + 1
  else
    match trx_sys_file_format_name_to_id_loop format_name (DICT_TF_FORMAT_MAX + 1) 0 with
    | some format_id => format_id
    | none => DICT_TF_FORMAT_MAX + 1

/-- A string is entirely a decimal number: it is not empty and every byte is a
decimal digit. -/
def is_decimal_number (s : List Nat) : Prop := s ≠ [] ∧ ∀ c ∈ s, isdigit c = true

/-- A string is a number as `strtoul` takes it: white space, an optional sign,
and one or more decimal digits, in this order and nothing else. -/
def is_strtoul_number (s : List Nat) : Prop :=
  ∃ ws sign digits, s = ws ++ sign ++ digits
    ∧ (∀ c ∈ ws, isspace c = true)
    ∧ (sign = [] ∨ sign = [43] ∨ sign = [45])
    ∧ is_decimal_number digits

/-- The value that `strtoul` gives to a number with the sign `sign` and the
digits `digits`. -/
def strtoul_value (sign digits : List Nat) : Nat :=
  if strtoul_digits digits > 2 ^ 64 - 1 then 2 ^ 64 - 1
  else if sign = [45] then (2 ^ 64 - strtoul_digits digits) % 2 ^ 64
  else strtoul_digits digits

/-- A string is the name of the file format `id` but for the letter case. -/
def is_format_name (id : Nat) (s : List Nat) : Prop :=
  s.map tolower = (cstr (trx_sys_file_format_id_to_name id)).map tolower

/-! ## The records of an index page (`page0page.h`) -/

/-- The constant `PAGE_N_RECS` of page0page.h. -/
def PAGE_N_RECS : Nat := 16

/-- The function `page_get_n_recs` of page0page.h. -/
def page_get_n_recs (page : Mem) : Nat := page_header_get_field page PAGE_N_RECS

/-- The function `page_get_infimum_offset` of page0page.h. -/
def page_get_infimum_offset (page : Mem) : Nat :=
  if page_is_comp page ≠ 0 then PAGE_NEW_INFIMUM else PAGE_OLD_INFIMUM

/-- The function `page_get_supremum_offset` of page0page.h. -/
def page_get_supremum_offset (page : Mem) : Nat :=
  if page_is_comp page ≠ 0 then PAGE_NEW_SUPREMUM else PAGE_OLD_SUPREMUM

/-- The function `page_rec_is_user_rec_low` of page0page.h. -/
def page_rec_is_user_rec_low (offset : Nat) : Bool :=
  decide (offset ≠ PAGE_NEW_SUPREMUM) && decide (offset ≠ PAGE_NEW_INFIMUM)
    && decide (offset ≠ PAGE_OLD_INFIMUM) && decide (offset ≠ PAGE_OLD_SUPREMUM)

/-- The function `page_rec_is_supremum_low` of page0page.h. -/
def page_rec_is_supremum_low (offset : Nat) : Bool :=
  decide (offset = PAGE_NEW_SUPREMUM) || decide (offset = PAGE_OLD_SUPREMUM)

/-- The function `page_rec_is_infimum_low` of page0page.h. -/
def page_rec_is_infimum_low (offset : Nat) : Bool :=
  decide (offset = PAGE_NEW_INFIMUM) || decide (offset = PAGE_OLD_INFIMUM)

/-- The functions that read the record links of a page and are not among the
sources: `rec_get_next_offs(rec, comp)` of rem0rec.h, the offset of the record
after `rec` in the page (`comp` is the flag "nonzero=compact page layout"), and
`page_dir_find_owner_slot(rec)` of page0page.cc, the number of the directory
slot that owns `rec`.  Both read the frame `page`; a record is given by its
offset in the frame. -/
structure page_env where
  rec_get_next_offs : Mem → Nat → Bool → Nat
  page_dir_find_owner_slot : Mem → Nat → Nat

/-- The function `page_rec_get_next_low` of page0page.h.  A record is its
offset in the frame `page`, the null pointer is the offset 0 (no record is at
the offset 0, and the function returns `page + offs` only when `offs` is not
0); `none` is `ut_error`, for a next-record offset outside of the page. -/
def page_rec_get_next_low (env : page_env) (page : Mem) (rec_ comp : Nat) : Option Nat :=
  let offs := env.rec_get_next_offs page rec_ (decide (comp ≠ 0))
  if offs ≥ UNIV_PAGE_SIZE then none
  else if offs = 0 then some 0
  else some offs

/-- The function `page_rec_get_next` of page0page.h. -/
def page_rec_get_next (env : page_env) (page : Mem) (rec_ : Nat) : Option Nat :=
  page_rec_get_next_low env page rec_ (page_is_comp page)

/-- The function `page_dir_get_nth_slot` of page0page.h: the offset in the
frame of the `n`-th directory slot. -/
def page_dir_get_nth_slot (n : Nat) : Nat :=
  UNIV_PAGE_SIZE - PAGE_DIR - (n + 1) * PAGE_DIR_SLOT_SIZE

/-- The function `page_dir_slot_get_rec` of page0page.h: the offset of the
record that the directory slot at the offset `slot` points to. -/
def page_dir_slot_get_rec (page : Mem) (slot : Nat) : Nat := mach_read_from_2 page slot

/-- The loop `while (rec != rec2) { prev_rec = rec2; rec2 =
page_rec_get_next_low(rec2, comp); }` of `page_rec_get_prev_const`, with the
number of rounds it may take as first argument; `none` is a crash (`ut_error`
in `page_rec_get_next_low`, or a null `rec2` that the next round would
dereference) or a loop that is still running after these rounds. -/
def page_rec_get_prev_const_loop (env : page_env) (page : Mem) (comp rec_ : Nat) :
    Nat → Nat → Nat → Option Nat
  | 0, _, _ => none
  | n + 1, rec2, prev_rec =>
    if rec_ ≠ rec2 then
      if rec2 = 0 then none
      else
        match page_rec_get_next_low env page rec2 comp with
        | none => none
        | some next => page_rec_get_prev_const_loop env page comp rec_ n next rec2
    else some prev_rec

/-- The function `page_rec_get_prev_const` of page0page.h; `none` is a crash
(the assertions `ut_a(slot_no != 0)` and `ut_a(prev_rec)`, or one in the loop).
The records of a page are at different offsets below `UNIV_PAGE_SIZE`, so the
loop is given `UNIV_PAGE_SIZE` rounds. -/
def page_rec_get_prev_const (env : page_env) (page : Mem) (rec_ : Nat) : Option Nat :=
  let slot_no := env.page_dir_find_owner_slot page rec_
  if slot_no = 0 then none
  else
    let slot := page_dir_get_nth_slot (slot_no - 1)
    let rec2 := page_dir_slot_get_rec page slot
    let found :=
      if page_is_comp page ≠ 0 then
        page_rec_get_prev_const_loop env page 1 rec_ UNIV_PAGE_SIZE rec2 0
      else
        page_rec_get_prev_const_loop env page 0 rec_ UNIV_PAGE_SIZE rec2 0
    match found with
    | none => none
    | some prev_rec => if prev_rec = 0 then none else some prev_rec

/-- The function `page_rec_get_prev` of page0page.h. -/
def page_rec_get_prev (env : page_env) (page : Mem) (rec_ : Nat) : Option Nat :=
  page_rec_get_prev_const env page rec_

/-- The records of the page are linked in the order `l`: each record of `l` but
the last has the next one as its next record. -/
def page_recs_linked (env : page_env) (page : Mem) (l : List Nat) : Prop :=
  List.Chain' (fun a b => page_rec_get_next env page a = some b) l

/-- The user records of the page `page` are `recs`, in this order: the records
are linked from the infimum through `recs` to the supremum, no record is there
twice, the records of `recs` are user records in the data part of the page
(`page_rec_check` asserts `page_offset(rec) >= PAGE_DATA` of a record), their
number is the one in the page header, and the directory slot before the one
that owns the supremum points to the infimum or to a user record. -/
def page_has_recs (env : page_env) (page : Mem) (recs : List Nat) : Prop :=
  page_recs_linked env page
      (page_get_infimum_offset page :: recs ++ [page_get_supremum_offset page])
    ∧ (page_get_infimum_offset page :: recs ++ [page_get_supremum_offset page]).Nodup
    ∧ (∀ r ∈ recs, PAGE_DATA ≤ r ∧ page_rec_is_user_rec_low r = true)
    ∧ page_get_n_recs page = recs.length
    ∧ env.page_dir_find_owner_slot page (page_get_supremum_offset page) ≠ 0
    ∧ page_dir_slot_get_rec page (page_dir_get_nth_slot
          (env.page_dir_find_owner_slot page (page_get_supremum_offset page) - 1))
        ∈ page_get_infimum_offset page :: recs

/-! ## The persistent cursor (`btr0pcur.cc`) -/

namespace btr0pcur

/-- Modelled from the spec: the enumeration `Btree_cursor_pos` of the relative
positions that btr0pcur.cc names (btr0pcur.h is not among the sources). -/
inductive Btree_cursor_pos where
  | ON
  | BEFORE
  | AFTER
  | BEFORE_FIRST_IN_TREE
  | AFTER_LAST_IN_TREE
deriving DecidableEq, Repr

/-- Modelled from the spec: the enumeration `Btr_pcur_positioned` of the
position states that btr0pcur.cc names (btr0pcur.h is not among the
sources). -/
inductive Btr_pcur_positioned where
  | UNSET
  | IS_POSITIONED
  | WAS_POSITIONED
  | IS_POSITIONED_OPTIMISTIC
deriving DecidableEq, Repr

/-- Modelled from the spec: `BTR_SEARCH_LEAF`, the latch mode of a search that
s-latches the leaf page (btr0btr.h is not among the sources; the three latch
modes that btr0pcur.cc names are different numbers). -/
def BTR_SEARCH_LEAF : Nat := 1

/-- Modelled from the spec: `BTR_MODIFY_LEAF`, the latch mode of a search that
x-latches the leaf page (btr0btr.h is not among the sources). -/
def BTR_MODIFY_LEAF : Nat := 2

/-- Modelled from the spec: `BTR_NO_LATCHES`, the latch mode of a cursor that
holds no latch (btr0btr.h is not among the sources). -/
def BTR_NO_LATCHES : Nat := 3

/-- The search mode `PAGE_CUR_G`; innodb.h gives the value with `IB_CUR_G`,
which "must match" the one of page0cur.h. -/
def PAGE_CUR_G : Nat := 1

/-- The search mode `PAGE_CUR_GE` (`IB_CUR_GE` of innodb.h). -/
def PAGE_CUR_GE : Nat := 2

/-- The search mode `PAGE_CUR_L` (`IB_CUR_L` of innodb.h). -/
def PAGE_CUR_L : Nat := 3

/-- The search mode `PAGE_CUR_LE` (`IB_CUR_LE` of innodb.h). -/
def PAGE_CUR_LE : Nat := 4

/-- Modelled from the spec: the buffer block, with the frame of the page it
holds and the `modify_clock`, "a counter bumped on every mutation of that
block" (buf0buf.h is not among the sources). -/
structure buf_block_t where
  frame : Mem
  modify_clock : Nat

/-- Modelled from the spec: the page cursor `page_cur_t`: the record under the
cursor, as its offset in the frame, and the address of the block of the page
(page0cur.h is not among the sources). -/
structure page_cur_t where
  m_rec : Nat
  m_block : Nat
deriving DecidableEq, Repr

/-- Modelled from the spec: the tree cursor `btr_cur_t`, with its page cursor
(btr0cur.h is not among the sources). -/
structure btr_cur_t where
  m_page_cur : page_cur_t
deriving DecidableEq, Repr

/-- Modelled from the spec: the persistent cursor `btr_pcur_t`, with the fields
that btr0pcur.cc reads and writes (btr0pcur.h is not among the sources).  The
stored record `m_old_rec` is `none` for the null pointer and otherwise the
bytes of the copy that it points to in `m_old_rec_buf`; the null block is the
address 0. -/
structure btr_pcur_t where
  m_btr_cur : btr_cur_t
  m_latch_mode : Nat
  m_old_stored : Bool
  m_old_rec : Option (List Nat)
  m_old_n_fields : Nat
  m_rel_pos : Btree_cursor_pos
  m_block_when_stored : Nat
  m_modify_clock : Nat
  m_pos_state : Btr_pcur_positioned
  m_search_mode : Nat
deriving DecidableEq, Repr

/-- A call that `restore_position` makes to look for a page or a position in
the index. -/
inductive pcur_call where
  | btr_cur_open_at_index_side (from_left : Bool) (latch_mode : Nat)
  | try_get (rw_latch guess modify_clock : Nat)
  | open_with_no_init (tuple : dtuple_t) (search_mode latch_mode : Nat)
deriving DecidableEq, Repr

/-- The buffer pool and the functions that the persistent cursor calls and that
are not among the sources, as they are during one call:
`blocks` gives the block at an address;
`btr_page_get_next(page, mtr)` and `btr_page_get_prev(page, mtr)` read the
numbers of the sibling pages from a frame;
`dict_index_copy_rec_order_prefix(index, rec, &n_fields, buf, buf_size)` gives
the bytes of the copy of the ordering-field prefix of the record at an offset
of a frame, and the number of fields of the copy;
`dict_index_build_data_tuple(index, rec, n_fields, heap)` builds the tuple of
the first `n_fields` fields of a stored record;
`cmp_dtuple_rec(cmp_ctx, tuple, rec, offsets)` compares a tuple with the record
at an offset of a frame;
`try_get(req)` of the buffer pool says whether the guessed block could be
latched with its modify clock unchanged;
`btr_cur_open_at_index_side(from_left, index, latch_mode, btr_cur, level, mtr)`
gives the tree cursor placed at an end of the index;
`open_with_no_init(index, tuple, search_mode, latch_mode, 0, mtr, loc)` gives
the persistent cursor after the search. -/
structure pcur_env where
  page : page_env
  blocks : Nat → buf_block_t
  btr_page_get_next : Mem → Nat
  btr_page_get_prev : Mem → Nat
  dict_index_copy_rec_order_prefix : Mem → Nat → List Nat × Nat
  dict_index_build_data_tuple : List Nat → Nat → dtuple_t
  cmp_dtuple_rec : dtuple_t → Mem → Nat → Int
  try_get : Nat → Nat → Nat → Bool
  btr_cur_open_at_index_side : Bool → Nat → btr_cur_t → btr_cur_t
  open_with_no_init : dtuple_t → Nat → Nat → btr_pcur_t → btr_pcur_t

/-- Modelled from the spec: the method `get_block` of the cursor, the block of
its page cursor (btr0pcur.h is not among the sources). -/
def get_block (c : btr_pcur_t) : Nat := c.m_btr_cur.m_page_cur.m_block

/-- Modelled from the spec: the method `get_rec` of the cursor, the record of
its page cursor (btr0pcur.h is not among the sources). -/
def get_rec (c : btr_pcur_t) : Nat := c.m_btr_cur.m_page_cur.m_rec

/-- The frame of the page under the cursor, `page_align(rec)`. -/
def get_page (env : pcur_env) (c : btr_pcur_t) : Mem := (env.blocks (get_block c)).frame

/-- Modelled from the spec: the method `is_on_user_rec` of the cursor, which
tests the record under the cursor with `page_rec_is_user_rec` of page0page.h
(btr0pcur.h is not among the sources). -/
def is_on_user_rec (c : btr_pcur_t) : Bool := page_rec_is_user_rec_low (page_offset (get_rec c))

/-- The record whose prefix `store_position` copies on a page with user
records, and the relative position it stores with it; `none` is a crash in
`page_rec_get_prev` or `page_rec_get_next`, or a null record, which the copy
would dereference. -/
def store_position_rec (env : pcur_env) (page : Mem) (rec_ offs : Nat) :
    Option (Nat × Btree_cursor_pos) :=
  if page_rec_is_supremum_low offs = true then
    match page_rec_get_prev env.page page rec_ with
    | none => none
    | some r => if r = 0 then none else some (r, Btree_cursor_pos.AFTER)
  else if page_rec_is_infimum_low offs = true then
    match page_rec_get_next env.page page rec_ with
    | none => none
    | some r => if r = 0 then none else some (r, Btree_cursor_pos.BEFORE)
  else some (rec_, Btree_cursor_pos.ON)

/-- The method `btr_pcur_t::store_position` of btr0pcur.cc; `none` is a crash
(a failed `ut_a`, or one in `store_position_rec`).  The debug assertions
(`ut_ad`) are not modelled. -/
def store_position (env : pcur_env) (c : btr_pcur_t) : Option btr_pcur_t :=
  if c.m_pos_state ≠ Btr_pcur_positioned.IS_POSITIONED then none
  else
    let block := get_block c
    let rec_ := get_rec c
    let page := get_page env c
    let offs := page_offset rec_
    if c.m_latch_mode = BTR_NO_LATCHES then none
    else if page_get_n_recs page = 0 then
      if env.btr_page_get_next page ≠ FIL_NULL then none
      else if env.btr_page_get_prev page ≠ FIL_NULL then none
      else
        some { c with
          m_old_stored := true,
          m_rel_pos :=
            if page_rec_is_supremum_low offs = true then Btree_cursor_pos.AFTER_LAST_IN_TREE
            else Btree_cursor_pos.BEFORE_FIRST_IN_TREE }
    else
      match store_position_rec env page rec_ offs with
      | none => none
      | some (r, rel_pos) =>
        some { c with
          m_rel_pos := rel_pos,
          m_old_stored := true,
          m_old_rec := some (env.dict_index_copy_rec_order_prefix page r).1,
          m_old_n_fields := (env.dict_index_copy_rec_order_prefix page r).2,
          m_block_when_stored := block,
          m_modify_clock := (env.blocks block).modify_clock }

/-- The search mode that `restore_position` derives from the stored relative
position. -/
def restore_search_mode (rel_pos : Btree_cursor_pos) : Nat :=
  if rel_pos = Btree_cursor_pos.ON then PAGE_CUR_LE
  else if rel_pos = Btree_cursor_pos.AFTER then PAGE_CUR_G
  else PAGE_CUR_L

/-- The second half of `btr_pcur_t::restore_position`, from the comment "If
optimistic restoration did not succeed, open the cursor anew" on; `calls` are
the calls made before it. -/
def restore_position_search (env : pcur_env) (latch_mode : Nat) (c : btr_pcur_t)
    (old_rec : List Nat) (calls : List pcur_call) :
    Option (Bool × btr_pcur_t × List pcur_call) :=
  let tuple := env.dict_index_build_data_tuple old_rec c.m_old_n_fields
  let old_search_mode := c.m_search_mode
  let search_mode := restore_search_mode c.m_rel_pos
  let c1 := env.open_with_no_init tuple search_mode latch_mode c
  let c2 := { c1 with m_search_mode := old_search_mode }
  let calls2 := calls ++ [pcur_call.open_with_no_init tuple search_mode latch_mode]
  if c2.m_rel_pos = Btree_cursor_pos.ON ∧ is_on_user_rec c2 = true
      ∧ env.cmp_dtuple_rec tuple (get_page env c2) (get_rec c2) = 0 then
    some (true,
      { c2 with
        m_block_when_stored := get_block c2,
        m_modify_clock := (env.blocks (get_block c2)).modify_clock,
        m_old_stored := true },
      calls2)
  else
    match store_position env c2 with
    | none => none
    | some c3 => some (false, c3, calls2)

/-- The method `btr_pcur_t::restore_position` of btr0pcur.cc: the value
returned, the cursor after the call, and the calls made to look for the
position; `none` is a crash (`ut_error`, a failed `ut_a`, or one in
`store_position`). -/
def restore_position (env : pcur_env) (latch_mode : Nat) (c : btr_pcur_t) :
    Option (Bool × btr_pcur_t × List pcur_call) :=
  if c.m_old_stored = false
      ∨ (c.m_pos_state ≠ Btr_pcur_positioned.WAS_POSITIONED
          ∧ c.m_pos_state ≠ Btr_pcur_positioned.IS_POSITIONED) then none
  else if c.m_rel_pos = Btree_cursor_pos.AFTER_LAST_IN_TREE
      ∨ c.m_rel_pos = Btree_cursor_pos.BEFORE_FIRST_IN_TREE then
    let from_left := decide (c.m_rel_pos = Btree_cursor_pos.BEFORE_FIRST_IN_TREE)
    let c1 := { c with
      m_btr_cur := env.btr_cur_open_at_index_side from_left latch_mode c.m_btr_cur }
    some (false, { c1 with m_block_when_stored := get_block c1 },
      [pcur_call.btr_cur_open_at_index_side from_left latch_mode])
  else
    match c.m_old_rec with
    | none => none
    | some old_rec =>
      if c.m_old_n_fields = 0 then none
      else if latch_mode = BTR_SEARCH_LEAF ∨ latch_mode = BTR_MODIFY_LEAF then
        let calls := [pcur_call.try_get latch_mode c.m_block_when_stored c.m_modify_clock]
        if env.try_get latch_mode c.m_block_when_stored c.m_modify_clock = true then
          let c1 := { c with m_pos_state := Btr_pcur_positioned.IS_POSITIONED }
          if c1.m_rel_pos = Btree_cursor_pos.ON then
            some (true, { c1 with m_latch_mode := latch_mode }, calls)
          else if is_on_user_rec c1 = true then
            some (false,
              { c1 with m_pos_state := Btr_pcur_positioned.IS_POSITIONED_OPTIMISTIC }, calls)
          else some (false, c1, calls)
        else restore_position_search env latch_mode c old_rec calls
      else restore_position_search env latch_mode c old_rec []

end btr0pcur

namespace btr0pcur

/-- The tuple that `restore_position` builds from the stored record, `none`
when the cursor stores no record. -/
def stored_tuple (env : pcur_env) (c : btr_pcur_t) : Option dtuple_t :=
  c.m_old_rec.map (fun old_rec => env.dict_index_build_data_tuple old_rec c.m_old_n_fields)

/-- A user record of the index compares equal to the tuple; `recs` are the
places (block and offset in its frame) of the user records of the index. -/
def record_exists (env : pcur_env) (recs : List page_cur_t) (tuple : dtuple_t) : Bool :=
  recs.any (fun p => decide (env.cmp_dtuple_rec tuple (env.blocks p.m_block).frame p.m_rec = 0))

/-- The optimistic restoration of `restore_position` is tried and succeeds: the
latch mode is `BTR_SEARCH_LEAF` or `BTR_MODIFY_LEAF`, and `try_get` gets the
block of the stored position with its modify clock unchanged. -/
def restores_optimistically (env : pcur_env) (latch_mode : Nat) (c : btr_pcur_t) : Bool :=
  (decide (latch_mode = BTR_SEARCH_LEAF) || decide (latch_mode = BTR_MODIFY_LEAF))
    && env.try_get latch_mode c.m_block_when_stored c.m_modify_clock

/-- What an unchanged modify clock means for a position stored on a user
record: when the optimistic restoration succeeds, the record under the cursor
is still a user record of the index, and it compares equal to the tuple of
the stored record (the build with `UNIV_DEBUG` asserts the comparison). -/
def optimistic_keeps_record (env : pcur_env) (recs : List page_cur_t) (latch_mode : Nat)
    (c : btr_pcur_t) (tuple : dtuple_t) : Prop :=
  c.m_rel_pos = Btree_cursor_pos.ON → restores_optimistically env latch_mode c = true →
    c.m_btr_cur.m_page_cur ∈ recs ∧ is_on_user_rec c = true
      ∧ env.cmp_dtuple_rec tuple (get_page env c) (get_rec c) = 0

/-- What the search mode `PAGE_CUR_LE` means for a tuple that is in the index:
a user record that the search ends on is a record of the index, and when a
record of the index compares equal to the tuple, the search, which ends on the
greatest record that is not greater than the tuple, ends on a user record that
compares equal to it. -/
def search_le_finds (env : pcur_env) (recs : List page_cur_t) (latch_mode : Nat)
    (c : btr_pcur_t) (tuple : dtuple_t) : Prop :=
  (is_on_user_rec (env.open_with_no_init tuple PAGE_CUR_LE latch_mode c) = true →
      (env.open_with_no_init tuple PAGE_CUR_LE latch_mode c).m_btr_cur.m_page_cur ∈ recs)
    ∧ (record_exists env recs tuple = true →
        is_on_user_rec (env.open_with_no_init tuple PAGE_CUR_LE latch_mode c) = true
          ∧ env.cmp_dtuple_rec tuple
              (get_page env (env.open_with_no_init tuple PAGE_CUR_LE latch_mode c))
              (get_rec (env.open_with_no_init tuple PAGE_CUR_LE latch_mode c)) = 0)

/-- What `open_with_no_init` does to the fields of the cursor that
`restore_position` reads after it: the stored relative position stays, the
cursor is positioned, and it holds the latch mode of the search. -/
def open_with_no_init_sets (env : pcur_env) : Prop :=
  ∀ (tuple : dtuple_t) (search_mode latch_mode : Nat) (c : btr_pcur_t),
    (env.open_with_no_init tuple search_mode latch_mode c).m_rel_pos = c.m_rel_pos
      ∧ (env.open_with_no_init tuple search_mode latch_mode c).m_pos_state
          = Btr_pcur_positioned.IS_POSITIONED
      ∧ (env.open_with_no_init tuple search_mode latch_mode c).m_latch_mode = latch_mode

/-- The cursor is on a record of an index page: the page has a list of user
records, the record under the cursor is the infimum, one of them or the
supremum, and a page without user records has no sibling page (it is the root
of an empty index tree). -/
def on_index_page (env : pcur_env) (c : btr_pcur_t) : Prop :=
  ∃ recs : List Nat, page_has_recs env.page (get_page env c) recs
    ∧ get_rec c ∈ page_get_infimum_offset (get_page env c) :: recs
        ++ [page_get_supremum_offset (get_page env c)]
    ∧ (recs = [] → env.btr_page_get_next (get_page env c) = FIL_NULL
        ∧ env.btr_page_get_prev (get_page env c) = FIL_NULL)

/-- A page of the old format with the two user records at the offsets 140 and
160, whose first bytes are the keys 2 and 5: the header gives 4 records in the
heap and 2 user records, the two bytes before a record hold the offset of the
next record (the infimum at 101, then 140, 160 and the supremum at 116), the
directory has the slot 0 for the infimum and the slot 1 for the supremum, and
the numbers of the sibling pages are `FIL_NULL`. -/
def sample_frame : Mem := fun a =>
  if 8 ≤ a ∧ a < 16 then 255
  else if a = 43 then 4
  else if a = 55 then 2
  else if a = 100 then 140
  else if a = 139 then 160
  else if a = 159 then 116
  else if a = 140 then 2
  else if a = 160 then 5
  else if a = 16375 then 101
  else if a = 16373 then 116
  else 0

/-- A page of the old format without user records, the root of an empty index
tree: the infimum at 101 has the supremum at 116 as next record. -/
def sample_empty_frame : Mem := fun a =>
  if 8 ≤ a ∧ a < 16 then 255
  else if a = 43 then 2
  else if a = 100 then 116
  else if a = 16375 then 101
  else if a = 16373 then 116
  else 0

/-- The blocks of the sample: the block 1 holds `sample_frame` with the modify
clock 7, the block 2 holds `sample_empty_frame` with the modify clock 3. -/
def sample_blocks (b : Nat) : buf_block_t :=
  if b = 1 then ⟨sample_frame, 7⟩
  else if b = 2 then ⟨sample_empty_frame, 3⟩
  else ⟨fun _ => 0, 0⟩

/-- The key of a tuple of the sample: the first byte of its first field. -/
def sample_key (tuple : dtuple_t) : Nat :=
  match tuple.fields with
  | [] => 0
  | f :: _ => f.data.headD 0

/-- The search of the sample, in the index that is the one page of the block 1:
the modes are as the spec gives them for `page_cur_search`, "LE returns the
greatest record ≤ key, GE the smallest ≥ key, strict L/G exclude equality",
with the infimum or the supremum when there is no such record. -/
def sample_search (key search_mode : Nat) : page_cur_t :=
  let recs : List Nat := [140, 160]
  if search_mode = PAGE_CUR_LE then
    ⟨((recs.filter (fun r => decide (sample_frame.byte r ≤ key))).getLast?).getD 101, 1⟩
  else if search_mode = PAGE_CUR_L then
    ⟨((recs.filter (fun r => decide (sample_frame.byte r < key))).getLast?).getD 101, 1⟩
  else if search_mode = PAGE_CUR_G then
    ⟨((recs.filter (fun r => decide (key < sample_frame.byte r))).head?).getD 116, 1⟩
  else
    ⟨((recs.filter (fun r => decide (key ≤ sample_frame.byte r))).head?).getD 116, 1⟩

/-- The sample of the functions that are not among the sources, for records
whose one ordering field is their first byte: the next record of a record is
at the offset in the two bytes before it, the slot 0 owns the infimum and the
slot 1 every other record, the sibling page numbers are the fields at the
offsets 8 and 12 of the frame, `try_get` succeeds when the modify clock of the
block is the one given, and the index is the page of the block 1. -/
def sample_pcur_env : pcur_env :=
  { page :=
      { rec_get_next_offs := fun page rec_ _ => mach_read_from_2 page (rec_ - 2),
        page_dir_find_owner_slot := fun page rec_ =>
          if rec_ = page_get_infimum_offset page then 0 else 1 },
    blocks := sample_blocks,
    btr_page_get_next := fun page => mach_read_from_4 page 12,
    btr_page_get_prev := fun page => mach_read_from_4 page 8,
    dict_index_copy_rec_order_prefix := fun page rec_ => ([page.byte rec_], 1),
    dict_index_build_data_tuple := fun old_rec n_fields =>
      ⟨0, n_fields, [⟨old_rec, false, old_rec.length, ⟨0, 0, 0⟩⟩]⟩,
    cmp_dtuple_rec := fun tuple page rec_ =>
      if sample_key tuple < page.byte rec_ then -1
      else if sample_key tuple = page.byte rec_ then 0
      else 1,
    try_get := fun _ guess modify_clock =>
      decide ((sample_blocks guess).modify_clock = modify_clock),
    btr_cur_open_at_index_side := fun from_left _ _ =>
      ⟨⟨if from_left = true then 101 else 116, 1⟩⟩,
    open_with_no_init := fun tuple search_mode latch_mode c =>
      { c with
        m_btr_cur := ⟨sample_search (sample_key tuple) search_mode⟩,
        m_latch_mode := latch_mode,
        m_search_mode := search_mode,
        m_pos_state := Btr_pcur_positioned.IS_POSITIONED,
        m_old_stored := false } }

/-- The user records of the index of the sample. -/
def sample_index_recs : List page_cur_t := [⟨140, 1⟩, ⟨160, 1⟩]

/-- A cursor of the sample that is positioned, with a latch, on the record
`rec_` of the block `block`, and that has stored nothing. -/
def sample_cursor (rec_ block : Nat) : btr_pcur_t :=
  { m_btr_cur := ⟨⟨rec_, block⟩⟩,
    m_latch_mode := BTR_SEARCH_LEAF,
    m_old_stored := false,
    m_old_rec := none,
    m_old_n_fields := 0,
    m_rel_pos := Btree_cursor_pos.ON,
    m_block_when_stored := 0,
    m_modify_clock := 0,
    m_pos_state := Btr_pcur_positioned.IS_POSITIONED,
    m_search_mode := PAGE_CUR_GE }

/-- A cursor of the sample after its mini-transaction was committed: it was
positioned on the record `rec_` of the block 1, its position was stored with
the relative position `rel_pos`, the key `key` and the modify clock
`modify_clock`, and it holds no latch any more. -/
def sample_stored_cursor (rec_ : Nat) (rel_pos : Btree_cursor_pos) (key modify_clock : Nat) :
    btr_pcur_t :=
  { m_btr_cur := ⟨⟨rec_, 1⟩⟩,
    m_latch_mode := BTR_NO_LATCHES,
    m_old_stored := true,
    m_old_rec := some [key],
    m_old_n_fields := 1,
    m_rel_pos := rel_pos,
    m_block_when_stored := 1,
    m_modify_clock := modify_clock,
    m_pos_state := Btr_pcur_positioned.WAS_POSITIONED,
    m_search_mode := PAGE_CUR_GE }

end btr0pcur

/-! ## Transaction objects of the client (`trx0trx.cc`) -/

namespace trx_client

/-- Modelled from the spec: `TRX_MAGIC_N`, the magic number of a transaction
object that is in use (trx0trx.h is not among the sources). -/
def TRX_MAGIC_N : Nat := 91118598

/-- Modelled from the spec: the transaction object `trx_t`, with the fields
that `trx_free` tests and the macro `TRX_WEIGHT` reads (trx0trx.h is not among
the sources; `trx_create` sets more fields, which are not modelled here).  A
pointer is `none` when it is null and otherwise an address; a list is the list
of the addresses of its nodes. -/
structure trx_t where
  magic_n : Nat
  conc_state : Nat
  n_client_tables_in_use : Nat
  client_n_tables_locked : Nat
  undo_no : Nat
  insert_undo : Option Nat
  update_undo : Option Nat
  undo_no_arr : Option Nat
  signals : List Nat
  reply_signals : List Nat
  wait_lock : Option Nat
  wait_thrs : List Nat
  lock_heap : Option Nat
  trx_locks : List Nat
  dict_operation_lock_mode : Nat
  global_read_view_heap : Option Nat
  global_read_view : Option Nat
  read_view : Option Nat
deriving DecidableEq, Repr

/-- The variables that the allocation and the freeing of the transaction
objects of the client use: the counter `trx_n_transactions` (an `ulint`), the
list `trx_sys->client_trx_list`, the transaction object at each address, the
next address that the memory allocator gives out, and the addresses handed to
`mem_free` and `mem_heap_free`, in order. -/
structure client_state where
  trx_n_transactions : Nat
  client_trx_list : List Nat
  trxs : Nat → trx_t
  heap_top : Nat
  freed : List Nat

/-- The state with the transaction object at address `trx` replaced. -/
def client_state.set_trx (st : client_state) (trx : Nat) (t : trx_t) : client_state :=
  { st with trxs := fun p => if p = trx then t else st.trxs p }

/-- Modelled from the spec: `UT_LIST_GET_LEN`, the number of nodes of a two-way
list (ut0lst.h is not among the sources). -/
def UT_LIST_GET_LEN (list : List Nat) : Nat := list.length

/-- The function `trx_create` of trx0trx.cc, for the fields of the model: the
address of the new object and the state.  `mem_alloc`,
`mem_heap_create_in_buffer` and `mem_heap_create` give the next three
addresses; the zero fields `n_client_tables_in_use` and
`client_n_tables_locked`, the empty lists and the null pointers are as the
function sets them. -/
def trx_create (st : client_state) : Nat × client_state :=
  let trx := st.heap_top
  let t : trx_t :=
    { magic_n := TRX_MAGIC_N,
      conc_state := TRX_NOT_STARTED,
      n_client_tables_in_use := 0,
      client_n_tables_locked := 0,
      undo_no := 0,
      insert_undo := none,
      update_undo := none,
      undo_no_arr := none,
      signals := [],
      reply_signals := [],
      wait_lock := none,
      wait_thrs := [],
      lock_heap := some (st.heap_top + 1),
      trx_locks := [],
      dict_operation_lock_mode := 0,
      global_read_view_heap := some (st.heap_top + 2),
      global_read_view := none,
      read_view := none }
  (trx, { st.set_trx trx t with heap_top := st.heap_top + 3 })

/-- The function `trx_allocate_for_client` of trx0trx.cc; the thread and
process numbers it stores are not modelled. -/
def trx_allocate_for_client (st : client_state) : Nat × client_state :=
  let r := trx_create st
  let trx := r.1
  let st := r.2
  let st := { st with trx_n_transactions := (st.trx_n_transactions + 1) % 2 ^ 64 }
  let st := { st with client_trx_list := UT_LIST_ADD_FIRST st.client_trx_list trx }
  (trx, st)

/-- The list of addresses freed so far, after `mem_heap_free` or
`trx_undo_arr_free` of a pointer that is tested for null first. -/
def free_if_set (freed : List Nat) (p : Option Nat) : List Nat :=
  match p with
  | some a => freed ++ [a]
  | none => freed

/-- The body of the function `trx_free` of trx0trx.cc, on the object `t` that
`trx` points to and the list `freed` of the addresses freed so far: the object
and the list at the end, `none` for a failed `ut_a`.  The message printed for a
transaction with tables in use is not modelled. -/
def trx_free_object (trx : Nat) (t : trx_t) (freed : List Nat) : Option (trx_t × List Nat) :=
  if t.magic_n ≠ TRX_MAGIC_N then none
  else
    let t := { t with magic_n := 11112222 }
    if t.conc_state ≠ TRX_NOT_STARTED then none
    else if t.insert_undo ≠ none then none
    else if t.update_undo ≠ none then none
    else
      let freed := free_if_set freed t.undo_no_arr
      if UT_LIST_GET_LEN t.signals ≠ 0 then none
      else if UT_LIST_GET_LEN t.reply_signals ≠ 0 then none
      else if t.wait_lock ≠ none then none
      else if UT_LIST_GET_LEN t.wait_thrs ≠ 0 then none
      else if t.dict_operation_lock_mode ≠ 0 then none
      else
        let freed := free_if_set freed t.lock_heap
        if UT_LIST_GET_LEN t.trx_locks ≠ 0 then none
        else
          let freed := free_if_set freed t.global_read_view_heap
          let t := { t with global_read_view := none }
          if t.read_view ≠ none then none
          else some (t, freed ++ [trx])

/-- The function `trx_free` of trx0trx.cc; `none` is a failed `ut_a`. -/
def trx_free (st : client_state) (trx : Nat) : Option client_state :=
  match trx_free_object trx (st.trxs trx) st.freed with
  | none => none
  | some r => some { st.set_trx trx r.1 with freed := r.2 }

/-- The function `trx_free_for_client` of trx0trx.cc; `none` is a failed
`ut_a`. -/
def trx_free_for_client (st : client_state) (trx : Nat) : Option client_state :=
  let st := { st with client_trx_list := UT_LIST_REMOVE st.client_trx_list trx }
  match trx_free st trx with
  | none => none
  | some st =>
    if ¬ st.trx_n_transactions > 0 then none
    else some { st with trx_n_transactions := st.trx_n_transactions - 1 }

/-- The states of the client's transaction objects that a run reaches: the
state after `trx_var_init` and `UT_LIST_INIT(trx_sys->client_trx_list)`, with
no transaction; a state after `trx_allocate_for_client`, the counter not
wrapping; a state after any change of the transaction objects that the list
holds (the lock functions, which add locks to `trx_locks` and release them, a
start, a commit); and a state after a `trx_free_for_client` that returns. -/
inductive client_reachable : client_state → Prop where
  | init (trxs : Nat → trx_t) (heap_top : Nat) (freed : List Nat) :
      client_reachable ⟨0, [], trxs, heap_top, freed⟩
  | allocate (st : client_state) :
      client_reachable st → st.trx_n_transactions + 1 < 2 ^ 64 →
      client_reachable (trx_allocate_for_client st).2
  | change (st : client_state) (trxs : Nat → trx_t) :
      client_reachable st → client_reachable { st with trxs := trxs }
  | free (st st' : client_state) (trx : Nat) :
      client_reachable st → trx ∈ st.client_trx_list →
      trx_free_for_client st trx = some st' → client_reachable st'

/-- Modelled from the spec: the macro `TRX_WEIGHT`, the weight of a
transaction, "lower weight = fewer undo entries and held locks": the sum of
`undo_no` and the length of `trx_locks`, in 64-bit unsigned arithmetic
(trx0trx.h is not among the sources). -/
def TRX_WEIGHT (t : trx_t) : Nat := (t.undo_no + UT_LIST_GET_LEN t.trx_locks) % 2 ^ 64

/-- The conversion of a 64-bit unsigned value to `int`, 32 bits in two's
complement: the value modulo `2 ^ 32`, read as a signed number. -/
def uint64_to_int (n : Nat) : Int :=
  if n % 2 ^ 32 < 2 ^ 31 then ((n % 2 ^ 32 : Nat) : Int) else ((n % 2 ^ 32 : Nat) : Int) - 2 ^ 32

/-- The function `trx_weight_cmp` of trx0trx.cc: the difference of the weights
in 64-bit unsigned arithmetic, returned as an `int`. -/
def trx_weight_cmp (a b : trx_t) : Int :=
  uint64_to_int ((TRX_WEIGHT a + 2 ^ 64 - TRX_WEIGHT b) % 2 ^ 64)

/-- The weight of a transaction, as a number: its number of undo entries plus
the number of locks it holds. -/
def weight (t : trx_t) : Nat := t.undo_no + t.trx_locks.length

/-- A state with no transaction object of the client: what the memory holds
is not a transaction object in use. -/
def sample_client_state : client_state :=
  ⟨0, [], fun _ => ⟨0, 0, 0, 0, 0, none, none, none, [], [], none, [], none, [], 0, none, none,
    none⟩, 100, []⟩

/-- A transaction object as `trx_create` builds it, with the undo number
`undo_no` and the locks `trx_locks`. -/
def sample_trx (undo_no : Nat) (trx_locks : List Nat) : trx_t :=
  { ((trx_create sample_client_state).2.trxs 100) with
    undo_no := undo_no, trx_locks := trx_locks }

end trx_client

/-! ## The redo record of a string written to a page (`mtr0log.cc`) -/

/-- Modelled from the spec: `FIL_PAGE_INDEX`, the type of a page that holds a
B-tree node (fil0types.h is not among the sources). -/
def FIL_PAGE_INDEX : Nat := 17855

/-- The condition of the assertion `ut_a(page == nullptr ||
srv_fil->page_get_type(page) != FIL_PAGE_INDEX)` of `mlog_parse_string`;
`page = none` is a null page; `page_get_type` of the file layer, which is not
among the sources, is a parameter. -/
def mlog_parse_string_asserted (page_get_type : Mem → Nat) (page : Option Mem) : Bool :=
  match page with
  | none => true
  | some p => decide (page_get_type p ≠ FIL_PAGE_INDEX)

/-- The function `mlog_parse_string` of mtr0log.cc, on the log buffer `log`.
The outer `none` is the failed assertion at its head. -/
def mlog_parse_string (page_get_type : Mem → Nat) (log : Mem) (ptr end_ptr : Nat)
    (page : Option Mem) : Option parse_outcome :=
  if mlog_parse_string_asserted page_get_type page = false then none
  else if end_ptr < ptr + 4 then some ⟨none, page, false⟩
  else
    let offset := mach_read_from_2 log ptr
    let ptr := ptr + 2
    let len := mach_read_from_2 log ptr
    let ptr := ptr + 2
    if offset ≥ UNIV_PAGE_SIZE ∨ len + offset > UNIV_PAGE_SIZE then some ⟨none, page, true⟩
    else if end_ptr < ptr + len then some ⟨none, page, false⟩
    else some ⟨some (ptr + len), page.map (fun p => memcpy p offset log ptr len), false⟩

/-! ## The space for inserts on an index page (`page0page.h`) -/

/-- The constant `PAGE_HEAP_TOP` of page0page.h. -/
def PAGE_HEAP_TOP : Nat := 2

/-- The constant `PAGE_DIR_SLOT_MIN_N_OWNED` of page0page.h. -/
def PAGE_DIR_SLOT_MIN_N_OWNED : Nat := 4

/-- The function `page_dir_get_n_heap` of page0page.h. -/
def page_dir_get_n_heap (page : Mem) : Nat := page_header_get_field page PAGE_N_HEAP &&& 0x7fff

/-- The function `page_dir_calc_reserved_space` of page0page.h, in `ulint`
arithmetic. -/
def page_dir_calc_reserved_space (n_recs : Nat) : Nat :=
  ((PAGE_DIR_SLOT_SIZE * n_recs + PAGE_DIR_SLOT_MIN_N_OWNED - 1) % 2 ^ 64)
    / PAGE_DIR_SLOT_MIN_N_OWNED

/-- The function `page_get_max_insert_size` of page0page.h, in `ulint`
arithmetic. -/
def page_get_max_insert_size (page : Mem) (n_recs : Nat) : Nat :=
  let occupied :=
    if page_is_comp page ≠ 0 then
      ((page_header_get_field page PAGE_HEAP_TOP + 2 ^ 64 - PAGE_NEW_SUPREMUM_END) % 2 ^ 64
        + page_dir_calc_reserved_space
            ((n_recs + page_dir_get_n_heap page + 2 ^ 64 - 2) % 2 ^ 64)) % 2 ^ 64
    else
      ((page_header_get_field page PAGE_HEAP_TOP + 2 ^ 64 - PAGE_OLD_SUPREMUM_END) % 2 ^ 64
        + page_dir_calc_reserved_space
            ((n_recs + page_dir_get_n_heap page + 2 ^ 64 - 2) % 2 ^ 64)) % 2 ^ 64
  let free_space :=
    if page_is_comp page ≠ 0 then page_get_free_space_of_empty 1
    else page_get_free_space_of_empty 0
  if occupied > free_space then 0
  else free_space - occupied

/-- A page without user records, as it is after its creation: the heap top is
at the end of the supremum record of the format of the page, and the heap
holds two records, the infimum and the supremum. -/
def page_is_empty_heap (page : Mem) : Prop :=
  page_header_get_field page PAGE_HEAP_TOP
      = (if page_is_comp page ≠ 0 then PAGE_NEW_SUPREMUM_END else PAGE_OLD_SUPREMUM_END)
    ∧ page_dir_get_n_heap page = 2

/-- An empty page of the compact format: the header field `PAGE_N_HEAP` has
the flag of the format and the number 2, and the heap top is 120, the end of
the supremum record. -/
def sample_empty_comp_page : Mem := fun a =>
  if a = 41 then 120
  else if a = 42 then 0x80
  else if a = 43 then 2
  else 0

/-! ## The states of the doublewrite buffer (`buf0flu.cc`) -/

/-- The states that the doublewrite buffer is in between the calls of
`buf_flush_post_to_doublewrite_buf` and `buf_flush_buffered_writes`: a state
with the doublewrite buffer in use and `first_free = 0`, as
`trx_doublewrite_init` leaves it; the state in which a call of
`buf_flush_post_to_doublewrite_buf` returns, with any number of passes through
`try_again`; and the state in which a call of `buf_flush_buffered_writes`
returns. -/
inductive doublewrite_reachable (env : batch_env) : batch_state → Prop where
  | init (st : batch_state) (dw : trx_doublewrite_t) :
      st.fs.srv_use_doublewrite_buf = true → st.fs.trx_doublewrite = some dw →
      dw.first_free = 0 → doublewrite_reachable env st
  | post (st st' : batch_state) (bpage k : Nat) :
      doublewrite_reachable env st →
      buf_flush_post_to_doublewrite_buf env bpage k st = flush_run.returns st' →
      doublewrite_reachable env st'
  | flush (st : batch_state) (fs : flush_state) :
      doublewrite_reachable env st →
      buf_flush_buffered_writes env.flush st.fs = Except.ok fs →
      doublewrite_reachable env { st with fs := fs }

/-- The slot of the doublewrite buffer that `buf_flush_post_to_doublewrite_buf`
copies the page to: `first_free`, after the flush that empties a full
buffer. -/
def doublewrite_slot (dw : trx_doublewrite_t) : Nat :=
  if dw.first_free ≥ 2 * TRX_SYS_DOUBLEWRITE_BLOCK_SIZE then 0 else dw.first_free

/-! ### The size of a compact record and its writer -/

/-- The data fields of a tuple that are fields of the index: all of them in an
ordinary record, all but the last, the child page number, in a node pointer
(`n_fields--` in `rec_get_converted_size_comp`, `n_node_ptr_field` in
`rec_convert_dtuple_to_rec_comp`). -/
def rec_comp_n_index_fields (status n_fields : Nat) : Nat :=
  if status = REC_STATUS_NODE_PTR then n_fields - 1 else n_fields

/-- A node pointer for `three_column_index`: the four bytes of the first
column and the child page number 9. -/
def three_column_node_ptr : dtuple_t :=
  ⟨REC_STATUS_NODE_PTR, 2, [⟨[0, 0, 0, 7], false, 4, ⟨6, DATA_NOT_NULL, 4⟩⟩,
    ⟨[0, 0, 0, 9], false, 4, ⟨6, DATA_NOT_NULL, 4⟩⟩]⟩

/-! ### The undo record of an update or a delete marking (`trx0rec.cc`) -/

/-- Modelled from the spec: `TRX_UNDO_UPD_EXIST_REC`, the type of the undo
record of an update of a record that is not delete marked (trx0rec.h is not
among the sources). -/
def TRX_UNDO_UPD_EXIST_REC : Nat := 12

/-- Modelled from the spec: `TRX_UNDO_UPD_DEL_REC`, the type of the undo record
of an update of a delete marked record (trx0rec.h is not among the
sources). -/
def TRX_UNDO_UPD_DEL_REC : Nat := 13

/-- Modelled from the spec: `TRX_UNDO_DEL_MARK_REC`, the type of the undo
record of a delete marking (trx0rec.h is not among the sources). -/
def TRX_UNDO_DEL_MARK_REC : Nat := 14

/-- Modelled from the spec: `UPD_NODE_NO_ORD_CHANGE`, the bit of the compiler
info that tells that no ordering field of an index changes (row0upd.h is not
among the sources). -/
def UPD_NODE_NO_ORD_CHANGE : Nat := 1

/-- Modelled from the spec: `REC_MAX_INDEX_COL_LEN`, "set to 3*256" by the
comment on `DICT_MAX_INDEX_COL_LEN` in dict0mem.h (rem0types.h is not among
the sources). -/
def REC_MAX_INDEX_COL_LEN : Nat := 768

/-- Modelled from the spec: `BTR_EXTERN_FIELD_REF_SIZE`, the size of the
reference to an externally stored column (btr0types.h is not among the
sources). -/
def BTR_EXTERN_FIELD_REF_SIZE : Nat := 20

/-- Modelled from the spec: `DATA_TRX_ID`, the system column of the
transaction id (data0type.h is not among the sources). -/
def DATA_TRX_ID : Nat := 1

/-- Modelled from the spec: `DATA_ROLL_PTR`, the system column of the roll
pointer (data0type.h is not among the sources). -/
def DATA_ROLL_PTR : Nat := 2

/-- Modelled from the spec: `REC_OLD_INFO_BITS`, how far in front of the origin
of an old-style record the byte with the info bits is (rem0rec.h is not among
the sources). -/
def REC_OLD_INFO_BITS : Nat := 6

/-- Modelled from the spec: `REC_INFO_DELETED_FLAG`, the delete mark among the
info bits (rem0rec.h is not among the sources). -/
def REC_INFO_DELETED_FLAG : Nat := 0x20

/-- Modelled from the spec: `rec_get_info_bits(rec, comp)` for either record
format; `rec_get_info_bits` above is the case of the compact format (rem0rec.h
is not among the sources). -/
def rec_get_info_bits_low (mem : Mem) (rec_ : Nat) (comp : Bool) : Nat :=
  rec_get_bit_field_1 mem rec_ (if comp then REC_NEW_INFO_BITS else REC_OLD_INFO_BITS)
    REC_INFO_BITS_MASK REC_INFO_BITS_SHIFT

/-- Modelled from the spec: `rec_get_deleted_flag(rec, comp)`, nonzero for a
delete marked record (rem0rec.h is not among the sources). -/
def rec_get_deleted_flag (mem : Mem) (rec_ : Nat) (comp : Bool) : Nat :=
  rec_get_bit_field_1 mem rec_ (if comp then REC_NEW_INFO_BITS else REC_OLD_INFO_BITS)
    REC_INFO_DELETED_FLAG REC_INFO_BITS_SHIFT

/-- Modelled from the spec: `mach_read_from_6`, most significant byte first
(mach0data.h is not among the sources). -/
def mach_read_from_6 (m : Mem) (b : Nat) : Nat :=
  mach_read_from_2 m b * 2 ^ 32 + mach_read_from_4 m (b + 2)

/-- Modelled from the spec: `mach_read_from_7`, most significant byte first
(mach0data.h is not among the sources). -/
def mach_read_from_7 (m : Mem) (b : Nat) : Nat :=
  mach_read_from_3 m b * 2 ^ 32 + mach_read_from_4 m (b + 3)

/-- The function `trx_read_trx_id` of trx0sys.h. -/
def trx_read_trx_id (m : Mem) (ptr : Nat) : Nat := mach_read_from_6 m ptr

/-- Modelled from the spec: `trx_read_roll_ptr`, the seven bytes of a roll
pointer (trx0undo.h is not among the sources). -/
def trx_read_roll_ptr (m : Mem) (ptr : Nat) : Nat := mach_read_from_7 m ptr

/-- Modelled from the spec: the update vector `upd_t`, with the number of its
fields and the field number `upd_get_nth_field(update, i)->field_no` of each
(row0upd.h is not among the sources). -/
structure upd_t where
  n_fields : Nat
  field_no : Nat → Nat

/-- Modelled from the spec: `upd_get_n_fields`. -/
def upd_get_n_fields (update : upd_t) : Nat := update.n_fields

/-- The lookups in the dictionary and the fetch of a BLOB that
`trx_undo_page_report_modify` calls and that are not among the sources, for
the index and the table of the call: `dict_index_get_sys_col_pos(index, type)`;
`dict_index_get_nth_col(index, pos)->ord_part`; `dict_table_get_n_cols(table)`;
`dict_table_get_nth_col(table, col_no)->ord_part`;
`dict_index_get_nth_col_pos(index, col_no)`; and
`btr_copy_externally_stored_field_prefix(ext_buf, len, field, local_len)` on
the memory of the record, which gives the buffer it has filled and the length
of the prefix. -/
structure undo_modify_env where
  dict_index_get_sys_col_pos : Nat → Nat
  index_col_ord_part : Nat → Bool
  dict_table_get_n_cols : Nat
  table_col_ord_part : Nat → Bool
  dict_index_get_nth_col_pos : Nat → Nat
  btr_copy_externally_stored_field_prefix : Mem → Nat → Nat → Nat → Mem × Nat

/-- The variables of `trx_undo_page_report_modify` while it writes a record:
the undo page, the pointer `ptr` as an offset in the page, whether it has set
`trx->update_undo->del_marks`, and the pointers at which it has evaluated
`trx_undo_left(undo_page, ptr)`, in order. -/
structure undo_modify_vars where
  undo_page : Mem
  ptr : Nat
  del_marks : Bool
  checks : List Nat

/-- An evaluation of `trx_undo_left(undo_page, ptr)` at the current pointer,
noted in `checks`. -/
def undo_modify_vars.check (s : undo_modify_vars) : undo_modify_vars :=
  { s with checks := s.checks ++ [s.ptr] }

/-- What `trx_undo_page_report_modify` hands back: the offset returned (0 when
the record does not fit), the page, the mini-transaction, whether it has set
`del_marks` in the update undo log, and the pointers at which it has evaluated
`trx_undo_left`. -/
structure undo_modify_result where
  ret : Nat
  undo_page : Mem
  mtr : mtr_t
  del_marks : Bool
  checks : List Nat

/-- The statement `return 0` of `trx_undo_page_report_modify`. -/
def undo_modify_vars.no_space (s : undo_modify_vars) (mtr : mtr_t) : undo_modify_result :=
  ⟨0, s.undo_page, mtr, s.del_marks, s.checks⟩

/-- The function `trx_undo_page_fetch_ext` of trx0rec.cc: the buffer `ext_buf`
with the prefix of the column and the reference behind it, and the length
used; `none` for the failed assertion `ut_a(ext_len)`. -/
def trx_undo_page_fetch_ext (env : undo_modify_env) (recm : Mem) (field len : Nat) :
    Option (Mem × Nat) :=
  let r := env.btr_copy_externally_stored_field_prefix recm REC_MAX_INDEX_COL_LEN field len
  let ext_len := r.2
  if ext_len = 0 then none
  else
    some (memcpy r.1 ext_len recm (field + len - BTR_EXTERN_FIELD_REF_SIZE)
        BTR_EXTERN_FIELD_REF_SIZE,
      (ext_len + BTR_EXTERN_FIELD_REF_SIZE) % 2 ^ 64)

/-- What `trx_undo_page_report_modify_ext` leaves: the undo page, the position
in it, and the field to copy: the memory it lies in, its address and its
length. -/
structure undo_ext_field where
  undo_page : Mem
  ptr : Nat
  srcm : Mem
  field : Nat
  len : Nat

/-- The function `trx_undo_page_report_modify_ext` of trx0rec.cc; `ext_buf`
tells whether a buffer is passed (or `nullptr`). -/
def trx_undo_page_report_modify_ext (env : undo_modify_env) (undo_page : Mem) (ptr : Nat)
    (ext_buf : Bool) (recm : Mem) (field len : Nat) : Option undo_ext_field :=
  if ext_buf then
    let w := mach_write_compressed undo_page ptr UNIV_EXTERN_STORAGE_FIELD
    let ptr := ptr + w.2
    let w := mach_write_compressed w.1 ptr len
    let ptr := ptr + w.2
    match trx_undo_page_fetch_ext env recm field len with
    | none => none
    | some f =>
      let w := mach_write_compressed w.1 ptr f.2
      some ⟨w.1, ptr + w.2, f.1, 0, f.2⟩
  else
    let w := mach_write_compressed undo_page ptr ((UNIV_EXTERN_STORAGE_FIELD + len) % 2 ^ 64)
    some ⟨w.1, ptr + w.2, recm, field, len⟩

/-- The statements
`if (flen != UNIV_SQL_NULL) { if (trx_undo_left(undo_page, ptr) < flen) return 0; memcpy(ptr, field, flen); ptr += flen; }`
of `trx_undo_page_report_modify`, with `false` for `return 0`. -/
def trx_undo_page_report_modify_data (srcm : Mem) (field flen : Nat) (s : undo_modify_vars) :
    undo_modify_vars × Bool :=
  if flen ≠ UNIV_SQL_NULL then
    let s := s.check
    if trx_undo_left s.ptr < flen then (s, false)
    else ({ s with undo_page := memcpy s.undo_page s.ptr srcm field flen, ptr := s.ptr + flen },
      true)
  else (s, true)

/-- The type of the undo record that `trx_undo_page_report_modify` chooses,
and `ignore_prefix`. -/
def trx_undo_page_report_modify_type (recm : Mem) (rec_ : Nat) (comp : Bool)
    (update : Option upd_t) : Nat × Bool :=
  match update with
  | none => (TRX_UNDO_DEL_MARK_REC, false)
  | some _ =>
    if rec_get_deleted_flag recm rec_ comp ≠ 0 then (TRX_UNDO_UPD_DEL_REC, true)
    else (TRX_UNDO_UPD_EXIST_REC, false)

/-- The general parameters that `trx_undo_page_report_modify` stores, from
"Reserve 2 bytes for the pointer to the next undo log record" to the roll
pointer; returns the variables and `ignore_prefix`. -/
def trx_undo_page_report_modify_pars (env : undo_modify_env) (trx : trx_t)
    (index : dict_index_t) (recm : Mem) (rec_ : Nat) (offsets : Nat → Nat)
    (update : Option upd_t) (cmpl_info : Nat) (s : undo_modify_vars) :
    undo_modify_vars × Bool :=
  let table := index.table
  let ptr := s.ptr + 2
  let t := trx_undo_page_report_modify_type recm rec_ (dict_table_is_comp table) update
  let type_cmpl := t.1 ||| (cmpl_info * TRX_UNDO_CMPL_INFO_MULT % 2 ^ 64)
  let undo_page := s.undo_page.put ptr type_cmpl
  let ptr := ptr + 1
  let w := mach_uint64_write_much_compressed undo_page ptr trx.undo_no
  let ptr := ptr + w.2
  let w := mach_uint64_write_much_compressed w.1 ptr table.id
  let ptr := ptr + w.2
  let undo_page := w.1.put ptr (rec_get_info_bits_low recm rec_ (dict_table_is_comp table))
  let ptr := ptr + 1
  let field := rec_get_nth_field rec_ offsets (env.dict_index_get_sys_col_pos DATA_TRX_ID)
  let trx_id := trx_read_trx_id recm field.1
  let ignore_prefix := if t.2 then decide (trx_id ≠ trx.id) else t.2
  let w := mach_uint64_write_compressed undo_page ptr trx_id
  let ptr := ptr + w.2
  let field := rec_get_nth_field rec_ offsets (env.dict_index_get_sys_col_pos DATA_ROLL_PTR)
  let roll_ptr := trx_read_roll_ptr recm field.1
  let w := mach_uint64_write_compressed w.1 ptr roll_ptr
  ({ s with undo_page := w.1, ptr := ptr + w.2 }, ignore_prefix)

/-- The loop of `trx_undo_page_report_modify` over the fields that determine
the record uniquely, `k` fields from field `i` on, with `false` for
`return 0`. -/
def trx_undo_page_report_modify_unique (recm : Mem) (rec_ : Nat) (offsets : Nat → Nat) :
    Nat → Nat → undo_modify_vars → undo_modify_vars × Bool
  | 0, _, s => (s, true)
  | k + 1, i, s =>
    let field := rec_get_nth_field rec_ offsets i
    let s := s.check
    if trx_undo_left s.ptr < 5 then (s, false)
    else
      let w := mach_write_compressed s.undo_page s.ptr field.2
      match trx_undo_page_report_modify_data recm field.1 field.2
          { s with undo_page := w.1, ptr := s.ptr + w.2 } with
      | (s, false) => (s, false)
      | (s, true) => trx_undo_page_report_modify_unique recm rec_ offsets k (i + 1) s

/-- The loop of `trx_undo_page_report_modify` over the fields of the update
vector, `k` fields from field `i` on: the old values of the columns to be
updated.  `none` for a failed assertion, `false` for `return 0`. -/
def trx_undo_page_report_modify_upd_fields (env : undo_modify_env) (recm : Mem) (rec_ : Nat)
    (offsets : Nat → Nat) ( ignore_prefix : Bool) (type_cmpl_ptr : Nat) (update : upd_t) :
    Nat → Nat → undo_modify_vars → Option (undo_modify_vars × Bool)
  | 0, _, s => some (s, true)
  | k + 1, i, s =>
    let pos := update.field_no i
    let s := s.check
    if trx_undo_left s.ptr < 5 then some (s, false)
    else
      let w := mach_write_compressed s.undo_page s.ptr pos
      let s := { s with undo_page := w.1, ptr := s.ptr + w.2 }
      let field := rec_get_nth_field rec_ offsets pos
      let s := s.check
      if trx_undo_left s.ptr < 15 then some (s, false)
      else if rec_offs_nth_extern offsets pos ≠ 0 then
        match trx_undo_page_report_modify_ext env s.undo_page s.ptr
            (env.index_col_ord_part pos && ! ignore_prefix
              && decide (field.2 < REC_MAX_INDEX_COL_LEN))
            recm field.1 field.2 with
        | none => none
        | some e =>
          match trx_undo_page_report_modify_data e.srcm e.field e.len
              { s with
                undo_page := e.undo_page.put type_cmpl_ptr
                  (e.undo_page.byte type_cmpl_ptr ||| TRX_UNDO_UPD_EXTERN),
                ptr := e.ptr, del_marks := true } with
          | (s, false) => some (s, false)
          | (s, true) =>
            trx_undo_page_report_modify_upd_fields env recm rec_ offsets ignore_prefix
              type_cmpl_ptr update k (i + 1) s
      else
        let w := mach_write_compressed s.undo_page s.ptr field.2
        match trx_undo_page_report_modify_data recm field.1 field.2
            { s with undo_page := w.1, ptr := s.ptr + w.2 } with
        | (s, false) => some (s, false)
        | (s, true) =>
          trx_undo_page_report_modify_upd_fields env recm rec_ offsets ignore_prefix
            type_cmpl_ptr update k (i + 1) s

/-- The statements `if (update) { ... }` of `trx_undo_page_report_modify`: the
number of updated fields and their old values. -/
def trx_undo_page_report_modify_updated (env : undo_modify_env) (recm : Mem) (rec_ : Nat)
    (offsets : Nat → Nat) ( ignore_prefix : Bool) (type_cmpl_ptr : Nat) (update : Option upd_t)
    (s : undo_modify_vars) : Option (undo_modify_vars × Bool) :=
  match update with
  | none => some (s, true)
  | some update =>
    let s := s.check
    if trx_undo_left s.ptr < 5 then some (s, false)
    else
      let w := mach_write_compressed s.undo_page s.ptr (upd_get_n_fields update)
      trx_undo_page_report_modify_upd_fields env recm rec_ offsets ignore_prefix type_cmpl_ptr
        update (upd_get_n_fields update) 0 { s with undo_page := w.1, ptr := s.ptr + w.2 }

/-- The loop of `trx_undo_page_report_modify` over the columns of the table,
`k` columns from `col_no` on: the values of the columns that are ordering
fields of an index. -/
def trx_undo_page_report_modify_ord_cols (env : undo_modify_env) (recm : Mem) (rec_ : Nat)
    (offsets : Nat → Nat) ( ignore_prefix : Bool) :
    Nat → Nat → undo_modify_vars → Option (undo_modify_vars × Bool)
  | 0, _, s => some (s, true)
  | k + 1, col_no, s =>
    if env.table_col_ord_part col_no then
      let s := s.check
      if trx_undo_left s.ptr < 5 + 15 then some (s, false)
      else
        let pos := env.dict_index_get_nth_col_pos col_no
        let w := mach_write_compressed s.undo_page s.ptr pos
        let s := { s with undo_page := w.1, ptr := s.ptr + w.2 }
        let field := rec_get_nth_field rec_ offsets pos
        if rec_offs_nth_extern offsets pos ≠ 0 then
          match trx_undo_page_report_modify_ext env s.undo_page s.ptr
              (decide (field.2 < REC_MAX_INDEX_COL_LEN) && ! ignore_prefix)
              recm field.1 field.2 with
          | none => none
          | some e =>
            match trx_undo_page_report_modify_data e.srcm e.field e.len
                { s with undo_page := e.undo_page, ptr := e.ptr } with
            | (s, false) => some (s, false)
            | (s, true) =>
              trx_undo_page_report_modify_ord_cols env recm rec_ offsets ignore_prefix k
                (col_no + 1) s
        else
          let w := mach_write_compressed s.undo_page s.ptr field.2
          match trx_undo_page_report_modify_data recm field.1 field.2
              { s with undo_page := w.1, ptr := s.ptr + w.2 } with
          | (s, false) => some (s, false)
          | (s, true) =>
            trx_undo_page_report_modify_ord_cols env recm rec_ offsets ignore_prefix k
              (col_no + 1) s
    else
      trx_undo_page_report_modify_ord_cols env recm rec_ offsets ignore_prefix k (col_no + 1) s

/-- The statements `if (!update || !(cmpl_info & UPD_NODE_NO_ORD_CHANGE)) { ... }`
of `trx_undo_page_report_modify`: the values of all columns that are ordering
fields of an index, behind the two bytes with their size. -/
def trx_undo_page_report_modify_ordering (env : undo_modify_env) (recm : Mem) (rec_ : Nat)
    (offsets : Nat → Nat) ( ignore_prefix : Bool) (update : Option upd_t) (cmpl_info : Nat)
    (s : undo_modify_vars) : Option (undo_modify_vars × Bool) :=
  if update.isNone ∨ cmpl_info &&& UPD_NODE_NO_ORD_CHANGE = 0 then
    let old_ptr := s.ptr
    let s := { s with del_marks := true }
    let s := s.check
    if trx_undo_left s.ptr < 5 then some (s, false)
    else
      match trx_undo_page_report_modify_ord_cols env recm rec_ offsets ignore_prefix
          env.dict_table_get_n_cols 0 { s with ptr := s.ptr + 2 } with
      | none => none
      | some (s, false) => some (s, false)
      | some (s, true) =>
        some ({ s with undo_page := mach_write_to_2 s.undo_page old_ptr (s.ptr - old_ptr) },
          true)
  else some (s, true)

/-- The end of `trx_undo_page_report_modify`, from "Write pointers to the
previous and the next undo log records" on. -/
def trx_undo_page_report_modify_end (creating : Bool) (first_free : Nat) (mtr : mtr_t)
    (s : undo_modify_vars) : undo_modify_result :=
  let s := s.check
  if trx_undo_left s.ptr < 2 then s.no_space mtr
  else
    let undo_page := mach_write_to_2 s.undo_page s.ptr first_free
    let ptr := s.ptr + 2
    let undo_page := mach_write_to_2 undo_page first_free ptr
    let undo_page := mach_write_to_2 undo_page (TRX_UNDO_PAGE_HDR + TRX_UNDO_PAGE_FREE) ptr
    ⟨first_free, undo_page,
      trx_undof_page_add_undo_rec_log creating undo_page first_free ptr mtr,
      s.del_marks, s.checks⟩

/-- The function `trx_undo_page_report_modify` of trx0rec.cc, for the record at
`rec_` in the memory `recm` with its offsets; `none` for a failed assertion
(`ut_a(dict_index_is_clust(index))`, or `ut_a(ext_len)` in
`trx_undo_page_fetch_ext`). -/
def trx_undo_page_report_modify (env : undo_modify_env) (creating : Bool) (undo_page : Mem)
    (trx : trx_t) (index : dict_index_t) (recm : Mem) (rec_ : Nat) (offsets : Nat → Nat)
    (update : Option upd_t) (cmpl_info : Nat) (mtr : mtr_t) : Option undo_modify_result :=
  if dict_index_is_clust index = false then none
  else
    let first_free := mach_read_from_2 undo_page (TRX_UNDO_PAGE_HDR + TRX_UNDO_PAGE_FREE)
    let s : undo_modify_vars := ⟨undo_page, first_free, false, [first_free]⟩
    if trx_undo_left s.ptr < 50 then some (s.no_space mtr)
    else
      let h := trx_undo_page_report_modify_pars env trx index recm rec_ offsets update
        cmpl_info s
      match trx_undo_page_report_modify_unique recm rec_ offsets (dict_index_get_n_unique index)
          0 h.1 with
      | (s, false) => some (s.no_space mtr)
      | (s, true) =>
        match trx_undo_page_report_modify_updated env recm rec_ offsets h.2 (first_free + 2)
            update s with
        | none => none
        | some (s, false) => some (s.no_space mtr)
        | some (s, true) =>
          match trx_undo_page_report_modify_ordering env recm rec_ offsets h.2 update cmpl_info
              s with
          | none => none
          | some (s, false) => some (s.no_space mtr)
          | some (s, true) => some (trx_undo_page_report_modify_end creating first_free mtr s)

/-- What `trx_undo_update_rec_get_sys_cols` hands back: the pointer to the rest
of the record and the out-parameters. -/
structure undo_rec_sys_cols where
  ptr : Nat
  trx_id : Nat
  roll_ptr : Nat
  info_bits : Nat
deriving DecidableEq, Repr

/-- The function `trx_undo_update_rec_get_sys_cols` of trx0rec.cc. -/
def trx_undo_update_rec_get_sys_cols (page : Mem) (ptr : Nat) : undo_rec_sys_cols :=
  let info_bits := mach_read_from_1 page ptr
  let ptr := ptr + 1
  let trx_id := mach_uint64_read_compressed page ptr
  let ptr := ptr + mach_uint64_get_compressed_size trx_id
  let roll_ptr := mach_uint64_read_compressed page ptr
  let ptr := ptr + mach_uint64_get_compressed_size roll_ptr
  ⟨ptr, trx_id, roll_ptr, info_bits⟩

/-- The steps of `trx_undo_page_report_modify` that lead from the variables `s`
to `s'` extend the record on the page: the pointer has moved on, to a place
where `trx_undo_left` does not wrap around; every evaluation of
`trx_undo_left` since `s` was at such a place; and no byte outside
`[s.ptr, s'.ptr)` has changed, but for the byte at `tp`, if one is named. -/
def undo_modify_extends (tp : Option Nat) (s s' : undo_modify_vars) : Prop :=
  s.ptr ≤ s'.ptr ∧ s'.ptr + 10 + FIL_PAGE_DATA_END ≤ UNIV_PAGE_SIZE
  ∧ (∀ p ∈ s'.checks, p ∈ s.checks ∨ p + 10 + FIL_PAGE_DATA_END ≤ UNIV_PAGE_SIZE)
  ∧ (∀ x, (x < s.ptr ∨ s'.ptr ≤ x) → some x ≠ tp → s'.undo_page x = s.undo_page x)

/-- A dictionary for a clustered index on four columns, in the order of the
table: a key, the transaction id, the roll pointer and a BLOB; the key and the
BLOB are ordering fields of some index; the fetch of a BLOB gives a prefix of
three bytes. -/
def sample_undo_modify_env : undo_modify_env :=
  { dict_index_get_sys_col_pos := fun type => type,
    index_col_ord_part := fun pos => decide (pos = 0 ∨ pos = 3),
    dict_table_get_n_cols := 4,
    table_col_ord_part := fun col_no => decide (col_no = 0 ∨ col_no = 3),
    dict_index_get_nth_col_pos := fun col_no => col_no,
    btr_copy_externally_stored_field_prefix := fun _ _ _ _ => (fun x => x + 1, 3) }

/-- The memory of a clustered index record at address 100: 37 bytes of data,
no info bits. -/
def sample_clust_rec : Mem := fun x => if 100 ≤ x ∧ x < 137 then x - 99 else 0

/-- The offsets of the record in `sample_clust_rec`: a key of 4 bytes, the
transaction id of 6 bytes, the roll pointer of 7 bytes, and the 20 bytes of the
reference to an externally stored BLOB. -/
def sample_clust_rec_offsets : Nat → Nat := fun i =>
  if i = 3 then 4 else if i = 4 then 10 else if i = 5 then 17
  else if i = 6 then 37 + REC_OFFS_EXTERNAL else 0

/-- An update vector with one field, the BLOB. -/
def sample_upd : upd_t := ⟨1, fun _ => 3⟩

/-! ### The undo record of an insert, with its evaluations of `trx_undo_left` -/

/-- The loop of `trx_undo_page_report_insert` over the fields that determine
the record uniquely, as `trx_undo_page_report_insert_fields`, with the
pointers at which it evaluates `trx_undo_left` noted in `checks`; `false` for
`return 0`. -/
def trx_undo_page_report_insert_fields_checked (clust_entry : dtuple_t) :
    Nat → Nat → undo_modify_vars → undo_modify_vars × Bool
  | 0, _, s => (s, true)
  | k + 1, i, s =>
    let field := dtuple_get_nth_field clust_entry i
    let flen := dfield_get_len field
    let s := s.check
    if trx_undo_left s.ptr < 5 then (s, false)
    else
      let w := mach_write_compressed s.undo_page s.ptr flen
      let s := { s with undo_page := w.1, ptr := s.ptr + w.2 }
      if flen ≠ UNIV_SQL_NULL then
        let s := s.check
        if trx_undo_left s.ptr < flen then (s, false)
        else
          trx_undo_page_report_insert_fields_checked clust_entry k (i + 1)
            { s with undo_page := memcpy_data s.undo_page s.ptr field.data flen,
                     ptr := s.ptr + flen }
      else trx_undo_page_report_insert_fields_checked clust_entry k (i + 1) s

/-- The function `trx_undo_page_report_insert` of trx0rec.cc, as
`trx_undo_page_report_insert` above, with the pointers at which it and
`trx_undo_page_set_next_prev_and_add` evaluate `trx_undo_left` noted in
`checks`. -/
def trx_undo_page_report_insert_checked (creating : Bool) (undo_page : Mem) (undo_no : Nat)
    (index : dict_index_t) (clust_entry : dtuple_t) (mtr : mtr_t) : undo_modify_result :=
  let first_free := mach_read_from_2 undo_page (TRX_UNDO_PAGE_HDR + TRX_UNDO_PAGE_FREE)
  let s : undo_modify_vars := ⟨undo_page, first_free, false, [first_free]⟩
  if trx_undo_left s.ptr < 2 + 1 + 11 + 11 then s.no_space mtr
  else
    let ptr := s.ptr + 2
    let undo_page := s.undo_page.put ptr TRX_UNDO_INSERT_REC
    let ptr := ptr + 1
    let w := mach_uint64_write_much_compressed undo_page ptr undo_no
    let ptr := ptr + w.2
    let w := mach_uint64_write_much_compressed w.1 ptr index.table.id
    let ptr := ptr + w.2
    match trx_undo_page_report_insert_fields_checked clust_entry
        (dict_index_get_n_unique index) 0 { s with undo_page := w.1, ptr := ptr } with
    | (s, false) => s.no_space mtr
    | (s, true) =>
      let s := s.check
      let r := trx_undo_page_set_next_prev_and_add creating s.undo_page s.ptr mtr
      ⟨r.1, r.2.1, r.2.2, s.del_marks, s.checks⟩

/-- An undo record writer that has turned the page `undo_page` with the first
free offset `first_free` into the result `r` has stayed inside the usable area
of the page: no byte at the offset `UNIV_PAGE_SIZE - FIL_PAGE_DATA_END - 10` or
behind it has changed; every evaluation of `trx_undo_left` was at a pointer
for which the subtraction does not wrap around; an offset returned that is not
0 is the old first free offset, and the new first free offset is at most
`UNIV_PAGE_SIZE - FIL_PAGE_DATA_END - 10`; and when 0 is returned, the field
`TRX_UNDO_PAGE_FREE` and every byte below the old first free offset are as
they were. -/
def undo_writer_stays_inside (undo_page : Mem) (first_free : Nat) (r : undo_modify_result) :
    Prop :=
  (∀ x, UNIV_PAGE_SIZE - FIL_PAGE_DATA_END - 10 ≤ x → r.undo_page x = undo_page x)
  ∧ (∀ p ∈ r.checks, p + 10 + FIL_PAGE_DATA_END ≤ UNIV_PAGE_SIZE
      ∧ trx_undo_left p = UNIV_PAGE_SIZE - p - 10 - FIL_PAGE_DATA_END)
  ∧ (r.ret ≠ 0 →
      r.ret = first_free
      ∧ mach_read_from_2 r.undo_page (TRX_UNDO_PAGE_HDR + TRX_UNDO_PAGE_FREE)
          ≤ UNIV_PAGE_SIZE - FIL_PAGE_DATA_END - 10)
  ∧ (r.ret = 0 →
      mach_read_from_2 r.undo_page (TRX_UNDO_PAGE_HDR + TRX_UNDO_PAGE_FREE)
        = mach_read_from_2 undo_page (TRX_UNDO_PAGE_HDR + TRX_UNDO_PAGE_FREE)
      ∧ r.undo_page (TRX_UNDO_PAGE_HDR + TRX_UNDO_PAGE_FREE)
          = undo_page (TRX_UNDO_PAGE_HDR + TRX_UNDO_PAGE_FREE)
      ∧ r.undo_page (TRX_UNDO_PAGE_HDR + TRX_UNDO_PAGE_FREE + 1)
          = undo_page (TRX_UNDO_PAGE_HDR + TRX_UNDO_PAGE_FREE + 1)
      ∧ ∀ x, x < first_free → r.undo_page x = undo_page x)

/-! ### The flush list during recovery (`buf0flu.cc`) -/

/-- The contract of `buf_flush_insert_in_flush_rbt` as buf0flu.cc documents it
("Insert a block in the flush_rbt and returns a pointer to its predecessor or
nullptr if no predecessor.  The ordering is maintained on the basis of the
<oldest_modification, space, offset> key"), for the tree of ut0rbt.h, which is
not among the sources: the tree `rbt`, the sequence of its values in order,
splits into the values `l1` in front of the new node and the values `l2`
behind it; the tree returned holds the block between them, the predecessor
returned is the last value of `l1`, null when there is none, and under
`buf_flush_block_cmp` no value of `l1` is below the block and no value of `l2`
is above it. -/
def flush_rbt_insert_contract (env : rbt_env) (pool : buf_pool_t) (rbt : List Nat)
    (block : Nat) : Prop :=
  ∃ l1 l2, rbt = l1 ++ l2
    ∧ buf_flush_insert_in_flush_rbt env pool rbt block = (l1 ++ block :: l2, l1.getLast?)
    ∧ (∀ a ∈ l1, 0 ≤ buf_flush_block_cmp pool.pages block a)
    ∧ (∀ b ∈ l2, buf_flush_block_cmp pool.pages block b ≤ 0)

/-- A red-black tree given as the sequence of its values in order: the
insertion puts the value behind the values that are not below it under the
comparison function, and the deletion takes the value out. -/
def sample_sorted_rbt_env : rbt_env :=
  ⟨fun cmp t v =>
    ((t.takeWhile (fun a => decide (0 ≤ cmp v a))) ++ v
        :: t.dropWhile (fun a => decide (0 ≤ cmp v a)),
      (t.takeWhile (fun a => decide (0 ≤ cmp v a))).getLast?),
    fun _ t v => t.erase v⟩

/-- The pool `sample_buf_pool` during recovery: the red-black tree mirrors the
flush list. -/
def sample_recovery_buf_pool : buf_pool_t :=
  { sample_buf_pool with flush_list := [5, 3, 1], flush_rbt := some [5, 3, 1] }

/-! ### The doublewrite buffer with page images in it -/

/-- A doublewrite buffer that holds the images of `n` file pages, the pages 0
to `n - 1` of space 5; every byte of `write_buf` is 255. -/
def sample_doublewrite_with (n : Nat) : trx_doublewrite_t :=
  ⟨64, 128, n, fun _ => 255,
    (List.range n).map (fun j => ⟨BUF_BLOCK_FILE_PAGE, 5, j, fun _ => 255, false⟩)⟩

/-- A state with the doublewrite buffer `sample_doublewrite_with n` in use;
byte `i` of the frame of the control block at address `k` is
`(i + k) % 256`. -/
def sample_doublewrite_state_with (n : Nat) : batch_state :=
  { sample_batch_state with
    pool :=
      { sample_batch_state.pool with
        pages := fun k =>
          { sample_batch_state.pool.pages k with frame := fun i => (i + k) % 256 } },
    fs := ⟨true, some (sample_doublewrite_with n), 0, 0, []⟩ }

/-! ## Lemmas on memory and on the machine-format integers -/

theorem Mem.put_apply (m : Mem) (a v x : Nat) :
    (m.put a v) x = if x = a then v % 256 else m x := rfl

theorem Mem.byte_lt (m : Mem) (a : Nat) : m.byte a < 256 := by
  unfold Mem.byte
  omega

theorem memcpy_apply (dstm : Mem) (dst : Nat) (srcm : Mem) (src len x : Nat) :
    memcpy dstm dst srcm src len x
      = if dst ≤ x ∧ x < dst + len then srcm (src + (x - dst)) else dstm x := rfl

theorem mach_write_to_1_apply (m : Mem) (b n x : Nat) :
    mach_write_to_1 m b n x = if x = b then n % 256 else m x := rfl

theorem mach_write_to_2_apply (m : Mem) (b n x : Nat) :
    mach_write_to_2 m b n x
      = if x = b then n / 2 ^ 8 % 256 else if x = b + 1 then n % 256 else m x := by
  unfold mach_write_to_2 Mem.put
  by_cases h1 : x = b
  · subst h1; simp
  · by_cases h2 : x = b + 1 <;> simp [h1, h2]

theorem mach_write_to_3_apply (m : Mem) (b n x : Nat) :
    mach_write_to_3 m b n x
      = if x = b then n / 2 ^ 16 % 256 else if x = b + 1 then n / 2 ^ 8 % 256
        else if x = b + 2 then n % 256 else m x := by
  unfold mach_write_to_3 Mem.put
  by_cases h1 : x = b
  · subst h1; simp
  · by_cases h2 : x = b + 1
    · subst h2; simp
    · by_cases h3 : x = b + 2 <;> simp [h1, h2, h3]

theorem mach_write_to_4_apply (m : Mem) (b n x : Nat) :
    mach_write_to_4 m b n x
      = if x = b then n / 2 ^ 24 % 256 else if x = b + 1 then n / 2 ^ 16 % 256
        else if x = b + 2 then n / 2 ^ 8 % 256 else if x = b + 3 then n % 256 else m x := by
  unfold mach_write_to_4 Mem.put
  by_cases h1 : x = b
  · subst h1; simp
  · by_cases h2 : x = b + 1
    · subst h2; simp
    · by_cases h3 : x = b + 2
      · subst h3; simp
      · by_cases h4 : x = b + 3 <;> simp [h1, h2, h3, h4]

theorem mach_write_to_1_frame (m : Mem) (b n x : Nat) (h : x ≠ b) :
    mach_write_to_1 m b n x = m x := by
  rw [mach_write_to_1_apply, if_neg h]

theorem mach_write_to_2_frame (m : Mem) (b n x : Nat) (h : x < b ∨ b + 2 ≤ x) :
    mach_write_to_2 m b n x = m x := by
  rw [mach_write_to_2_apply, if_neg (by omega), if_neg (by omega)]

theorem mach_write_to_3_frame (m : Mem) (b n x : Nat) (h : x < b ∨ b + 3 ≤ x) :
    mach_write_to_3 m b n x = m x := by
  rw [mach_write_to_3_apply, if_neg (by omega), if_neg (by omega), if_neg (by omega)]

theorem mach_write_to_4_frame (m : Mem) (b n x : Nat) (h : x < b ∨ b + 4 ≤ x) :
    mach_write_to_4 m b n x = m x := by
  rw [mach_write_to_4_apply, if_neg (by omega), if_neg (by omega), if_neg (by omega),
    if_neg (by omega)]

theorem mach_write_to_8_frame (m : Mem) (b n x : Nat) (h : x < b ∨ b + 8 ≤ x) :
    mach_write_to_8 m b n x = m x := by
  unfold mach_write_to_8
  rw [mach_write_to_4_frame _ _ _ _ (by omega), mach_write_to_4_frame _ _ _ _ (by omega)]

theorem mach_read_from_1_lt (m : Mem) (b : Nat) : mach_read_from_1 m b < 2 ^ 8 := by
  unfold mach_read_from_1 Mem.byte
  omega

theorem mach_read_from_2_lt (m : Mem) (b : Nat) : mach_read_from_2 m b < 2 ^ 16 := by
  unfold mach_read_from_2 Mem.byte
  omega

theorem mach_read_from_4_lt (m : Mem) (b : Nat) : mach_read_from_4 m b < 2 ^ 32 := by
  unfold mach_read_from_4 Mem.byte
  omega

theorem mach_read_from_8_lt (m : Mem) (b : Nat) : mach_read_from_8 m b < 2 ^ 64 := by
  have h1 := mach_read_from_4_lt m b
  have h2 := mach_read_from_4_lt m (b + 4)
  unfold mach_read_from_8
  omega

/-- Reading depends on the bytes read only. -/
theorem mach_read_from_1_congr (m m' : Mem) (b : Nat) (h : m' b = m b) :
    mach_read_from_1 m' b = mach_read_from_1 m b := by
  unfold mach_read_from_1 Mem.byte
  rw [h]

theorem mach_read_from_2_congr (m m' : Mem) (b : Nat)
    (h : ∀ x, b ≤ x → x < b + 2 → m' x = m x) :
    mach_read_from_2 m' b = mach_read_from_2 m b := by
  unfold mach_read_from_2 Mem.byte
  rw [h b (by omega) (by omega), h (b + 1) (by omega) (by omega)]

theorem mach_read_from_3_congr (m m' : Mem) (b : Nat)
    (h : ∀ x, b ≤ x → x < b + 3 → m' x = m x) :
    mach_read_from_3 m' b = mach_read_from_3 m b := by
  unfold mach_read_from_3 Mem.byte
  rw [h b (by omega) (by omega), h (b + 1) (by omega) (by omega),
    h (b + 2) (by omega) (by omega)]

theorem mach_read_from_4_congr (m m' : Mem) (b : Nat)
    (h : ∀ x, b ≤ x → x < b + 4 → m' x = m x) :
    mach_read_from_4 m' b = mach_read_from_4 m b := by
  unfold mach_read_from_4 Mem.byte
  rw [h b (by omega) (by omega), h (b + 1) (by omega) (by omega),
    h (b + 2) (by omega) (by omega), h (b + 3) (by omega) (by omega)]

theorem mach_read_from_8_congr (m m' : Mem) (b : Nat)
    (h : ∀ x, b ≤ x → x < b + 8 → m' x = m x) :
    mach_read_from_8 m' b = mach_read_from_8 m b := by
  unfold mach_read_from_8
  rw [mach_read_from_4_congr m m' b (fun x h1 h2 => h x h1 (by omega)),
    mach_read_from_4_congr m m' (b + 4) (fun x h1 h2 => h x (by omega) (by omega))]

theorem mach_read_write_1 (m : Mem) (b n : Nat) :
    mach_read_from_1 (mach_write_to_1 m b n) b = n % 2 ^ 8 := by
  unfold mach_read_from_1 Mem.byte
  rw [mach_write_to_1_apply]
  simp

theorem mach_read_write_2 (m : Mem) (b n : Nat) :
    mach_read_from_2 (mach_write_to_2 m b n) b = n % 2 ^ 16 := by
  unfold mach_read_from_2 Mem.byte
  rw [mach_write_to_2_apply, mach_write_to_2_apply]
  simp
  omega

theorem mach_read_write_3 (m : Mem) (b n : Nat) :
    mach_read_from_3 (mach_write_to_3 m b n) b = n % 2 ^ 24 := by
  unfold mach_read_from_3 Mem.byte
  rw [mach_write_to_3_apply, mach_write_to_3_apply, mach_write_to_3_apply]
  simp
  omega

theorem mach_read_write_4 (m : Mem) (b n : Nat) :
    mach_read_from_4 (mach_write_to_4 m b n) b = n % 2 ^ 32 := by
  unfold mach_read_from_4 Mem.byte
  rw [mach_write_to_4_apply, mach_write_to_4_apply, mach_write_to_4_apply,
    mach_write_to_4_apply]
  simp
  omega

theorem mach_read_write_8 (m : Mem) (b n : Nat) :
    mach_read_from_8 (mach_write_to_8 m b n) b = n % 2 ^ 64 := by
  unfold mach_read_from_8 mach_write_to_8
  rw [mach_read_write_4]
  rw [mach_read_from_4_congr (mach_write_to_4 m b (n / 2 ^ 32 % 2 ^ 32)) _ b
    (fun x h1 h2 => mach_write_to_4_frame _ _ _ _ (by omega)), mach_read_write_4]
  omega

/-! ## Lemmas on the compressed integers -/

theorem mach_get_compressed_size_pos (n : Nat) : 1 ≤ mach_get_compressed_size n := by
  unfold mach_get_compressed_size
  split_ifs <;> omega

theorem mach_get_compressed_size_le (n : Nat) : mach_get_compressed_size n ≤ 5 := by
  unfold mach_get_compressed_size
  split_ifs <;> omega

theorem mach_write_compressed_size (m : Mem) (b n : Nat) :
    (mach_write_compressed m b n).2 = mach_get_compressed_size n := by
  unfold mach_write_compressed mach_get_compressed_size
  split_ifs <;> rfl

theorem mach_write_compressed_frame (m : Mem) (b n x : Nat)
    (h : x < b ∨ b + mach_get_compressed_size n ≤ x) :
    (mach_write_compressed m b n).1 x = m x := by
  unfold mach_get_compressed_size at h
  unfold mach_write_compressed
  split_ifs at h ⊢
  · exact mach_write_to_1_frame _ _ _ _ (by omega)
  · exact mach_write_to_2_frame _ _ _ _ (by omega)
  · exact mach_write_to_3_frame _ _ _ _ (by omega)
  · exact mach_write_to_4_frame _ _ _ _ (by omega)
  · show mach_write_to_4 (mach_write_to_1 m b 0xF0) (b + 1) n x = m x
    rw [mach_write_to_4_frame _ _ _ _ (by omega), mach_write_to_1_frame _ _ _ _ (by omega)]

/-- The first byte of a compressed value tells its size. -/
theorem mach_write_compressed_flag (m : Mem) (b n : Nat) (hn : n < 2 ^ 32) :
    ((mach_write_compressed m b n).1 b < 0x80 ↔ n < 0x80)
    ∧ ((mach_write_compressed m b n).1 b < 0xC0 ↔ n < 0x4000)
    ∧ ((mach_write_compressed m b n).1 b < 0xE0 ↔ n < 0x200000)
    ∧ ((mach_write_compressed m b n).1 b < 0xF0 ↔ n < 0x10000000)
    ∧ (mach_write_compressed m b n).1 b < 0xF1 := by
  unfold mach_write_compressed
  split_ifs with c1 c2 c3 c4
  · simp only [mach_write_to_1_apply, if_true]
    omega
  · simp only [mach_write_to_2_apply, if_true]
    omega
  · simp only [mach_write_to_3_apply, if_true]
    omega
  · simp only [mach_write_to_4_apply, if_true]
    omega
  · have : mach_write_to_4 (mach_write_to_1 m b 0xF0) (b + 1) n b = 0xF0 := by
      rw [mach_write_to_4_frame _ _ _ _ (by omega), mach_write_to_1_apply]
      simp
    simp only [this]
    omega

/-- Reading back a compressed value, from any memory that holds the bytes
written. -/
theorem mach_read_compressed_written (m m' : Mem) (b n : Nat) (hn : n < 2 ^ 32)
    (h : ∀ x, b ≤ x → x < b + mach_get_compressed_size n →
      m' x = (mach_write_compressed m b n).1 x) :
    mach_read_compressed m' b = n := by
  unfold mach_get_compressed_size at h
  unfold mach_write_compressed at h
  unfold mach_read_compressed mach_read_from_1
  split_ifs at h with c1 c2 c3 c4
  · have h0 := h b (by omega) (by omega)
    simp only [mach_write_to_1_apply, if_true] at h0
    unfold Mem.byte
    rw [h0]
    simp only []
    split_ifs <;> omega
  · have h0 := h b (by omega) (by omega)
    have h1 := h (b + 1) (by omega) (by omega)
    simp only [mach_write_to_2_apply, if_true] at h0 h1
    rw [if_neg (by omega)] at h1
    unfold mach_read_from_2 mach_read_from_3 mach_read_from_4 Mem.byte
    rw [h0, h1]
    simp only []
    split_ifs <;> omega
  · have h0 := h b (by omega) (by omega)
    have h1 := h (b + 1) (by omega) (by omega)
    have h2 := h (b + 2) (by omega) (by omega)
    simp only [mach_write_to_3_apply, if_true] at h0 h1 h2
    rw [if_neg (by omega)] at h1
    rw [if_neg (by omega), if_neg (by omega)] at h2
    unfold mach_read_from_2 mach_read_from_3 mach_read_from_4 Mem.byte
    rw [h0, h1, h2]
    simp only []
    split_ifs <;> omega
  · have h0 := h b (by omega) (by omega)
    have h1 := h (b + 1) (by omega) (by omega)
    have h2 := h (b + 2) (by omega) (by omega)
    have h3 := h (b + 3) (by omega) (by omega)
    simp only [mach_write_to_4_apply, if_true] at h0 h1 h2 h3
    rw [if_neg (by omega)] at h1
    rw [if_neg (by omega), if_neg (by omega)] at h2
    rw [if_neg (by omega), if_neg (by omega), if_neg (by omega)] at h3
    unfold mach_read_from_2 mach_read_from_3 mach_read_from_4 Mem.byte
    rw [h0, h1, h2, h3]
    simp only []
    split_ifs <;> omega
  · have h0 := h b (by omega) (by omega)
    dsimp only at h0
    rw [mach_write_to_4_frame _ _ _ _ (by omega), mach_write_to_1_apply, if_pos rfl] at h0
    have h4 : mach_read_from_4 m' (b + 1) = n := by
      rw [mach_read_from_4_congr (mach_write_to_4 (mach_write_to_1 m b 0xF0) (b + 1) n) m'
        (b + 1) (fun x hx1 hx2 => h x (by omega) (by omega)), mach_read_write_4]
      omega
    unfold Mem.byte
    rw [h0, h4]
    simp

theorem mach_read_write_compressed (m : Mem) (b n : Nat) (hn : n < 2 ^ 32) :
    mach_read_compressed (mach_write_compressed m b n).1 b = n :=
  mach_read_compressed_written m _ b n hn (fun _ _ _ => rfl)

/-- Parsing a compressed value from a buffer that holds all its bytes. -/
theorem mach_parse_compressed_written (m m' : Mem) (b n end_ptr : Nat) (hn : n < 2 ^ 32)
    (h : ∀ x, b ≤ x → x < b + mach_get_compressed_size n →
      m' x = (mach_write_compressed m b n).1 x)
    (hend : b + mach_get_compressed_size n ≤ end_ptr) :
    mach_parse_compressed m' b end_ptr = some (n, b + mach_get_compressed_size n) := by
  have hr := mach_read_compressed_written m m' b n hn h
  obtain ⟨f1, f2, f3, f4, f5⟩ := mach_write_compressed_flag m b n hn
  have hp := mach_get_compressed_size_pos n
  have h0 := h b (by omega) (by omega)
  have hb : m'.byte b = (mach_write_compressed m b n).1 b := by
    unfold Mem.byte
    rw [h0]
    omega
  unfold mach_read_compressed mach_read_from_1 at hr
  unfold mach_parse_compressed mach_read_from_1
  rw [hb] at hr ⊢
  simp only [f1, f2, f3, f4] at hr ⊢
  have hbe : ¬ b ≥ end_ptr := by omega
  unfold mach_get_compressed_size at hend ⊢
  rw [if_neg hbe]
  split_ifs at hr hend ⊢ <;> first | omega | rw [hr]

/-- Parsing a compressed value from a buffer that ends before its last byte
gives the null pointer. -/
theorem mach_parse_compressed_truncated (m m' : Mem) (b n end_ptr : Nat) (hn : n < 2 ^ 32)
    (h : b < end_ptr → m' b = (mach_write_compressed m b n).1 b)
    (hend : end_ptr < b + mach_get_compressed_size n) :
    mach_parse_compressed m' b end_ptr = none := by
  unfold mach_parse_compressed
  by_cases hb : b ≥ end_ptr
  · rw [if_pos hb]
  · rw [if_neg hb]
    have h0 := h (by omega)
    obtain ⟨f1, f2, f3, f4, f5⟩ := mach_write_compressed_flag m b n hn
    have hb : m'.byte b = (mach_write_compressed m b n).1 b := by
      unfold Mem.byte
      rw [h0]
      omega
    unfold mach_read_from_1
    rw [hb]
    simp only [f1, f2, f3, f4]
    unfold mach_get_compressed_size at hend
    split_ifs at hend ⊢ <;> first | rfl | omega

/-! ## Lemmas on the compressed 64-bit integers -/

theorem mach_uint64_write_compressed_size (m : Mem) (b n : Nat) :
    (mach_uint64_write_compressed m b n).2 = mach_uint64_get_compressed_size n := by
  unfold mach_uint64_write_compressed mach_uint64_get_compressed_size
  simp only [mach_write_compressed_size]
  omega

theorem mach_uint64_get_compressed_size_bounds (n : Nat) :
    5 ≤ mach_uint64_get_compressed_size n ∧ mach_uint64_get_compressed_size n ≤ 9 := by
  unfold mach_uint64_get_compressed_size
  have h1 := mach_get_compressed_size_pos (n / 2 ^ 32 % 2 ^ 32)
  have h2 := mach_get_compressed_size_le (n / 2 ^ 32 % 2 ^ 32)
  omega

theorem mach_uint64_write_compressed_frame (m : Mem) (b n x : Nat)
    (h : x < b ∨ b + mach_uint64_get_compressed_size n ≤ x) :
    (mach_uint64_write_compressed m b n).1 x = m x := by
  unfold mach_uint64_get_compressed_size at h
  unfold mach_uint64_write_compressed
  have hp := mach_get_compressed_size_pos (n / 2 ^ 32 % 2 ^ 32)
  simp only [mach_write_compressed_size]
  rw [mach_write_to_4_frame _ _ _ _ (by omega), mach_write_compressed_frame _ _ _ _ (by omega)]

/-- Parsing a compressed 64-bit value from a buffer that holds all its
bytes. -/
theorem mach_uint64_parse_compressed_written (m m' : Mem) (b n end_ptr : Nat)
    (hn : n < 2 ^ 64)
    (h : ∀ x, b ≤ x → x < b + mach_uint64_get_compressed_size n →
      m' x = (mach_uint64_write_compressed m b n).1 x)
    (hend : b + mach_uint64_get_compressed_size n ≤ end_ptr) :
    mach_uint64_parse_compressed m' b end_ptr
      = some (n, b + mach_uint64_get_compressed_size n) := by
  have hb := mach_uint64_get_compressed_size_bounds n
  unfold mach_uint64_get_compressed_size at h hend hb ⊢
  have hhi : mach_read_compressed m' b = n / 2 ^ 32 % 2 ^ 32 := by
    apply mach_read_compressed_written m m' b _ (by omega)
    intro x hx1 hx2
    rw [h x hx1 (by omega)]
    unfold mach_uint64_write_compressed
    simp only [mach_write_compressed_size]
    rw [mach_write_to_4_frame _ _ _ _ (by omega)]
  have hlo : mach_read_from_4 m' (b + mach_get_compressed_size (n / 2 ^ 32 % 2 ^ 32))
      = n % 2 ^ 32 := by
    rw [mach_read_from_4_congr (mach_uint64_write_compressed m b n).1 m' _
      (fun x hx1 hx2 => h x (by omega) (by omega))]
    unfold mach_uint64_write_compressed
    simp only [mach_write_compressed_size]
    rw [mach_read_write_4]
    omega
  unfold mach_uint64_parse_compressed
  simp only [hhi, hlo]
  rw [if_neg (by omega), if_neg (by omega)]
  simp only [Option.some.injEq, Prod.mk.injEq]
  omega

theorem mach_uint64_get_much_compressed_size_bounds (n : Nat) :
    1 ≤ mach_uint64_get_much_compressed_size n ∧ mach_uint64_get_much_compressed_size n ≤ 11 := by
  unfold mach_uint64_get_much_compressed_size
  have h1 := mach_get_compressed_size_pos (n / 2 ^ 32 % 2 ^ 32)
  have h2 := mach_get_compressed_size_le (n / 2 ^ 32 % 2 ^ 32)
  have h3 := mach_get_compressed_size_pos (n % 2 ^ 32)
  have h4 := mach_get_compressed_size_le (n % 2 ^ 32)
  split_ifs <;> omega

theorem mach_uint64_write_much_compressed_size (m : Mem) (b n : Nat) :
    (mach_uint64_write_much_compressed m b n).2 = mach_uint64_get_much_compressed_size n := by
  unfold mach_uint64_write_much_compressed mach_uint64_get_much_compressed_size
  split_ifs
  · exact mach_write_compressed_size _ _ _
  · simp only [mach_write_compressed_size]

theorem mach_uint64_write_much_compressed_frame (m : Mem) (b n x : Nat)
    (h : x < b ∨ b + mach_uint64_get_much_compressed_size n ≤ x) :
    (mach_uint64_write_much_compressed m b n).1 x = m x := by
  unfold mach_uint64_get_much_compressed_size at h
  unfold mach_uint64_write_much_compressed
  have h1 := mach_get_compressed_size_pos (n / 2 ^ 32 % 2 ^ 32)
  have h3 := mach_get_compressed_size_pos (n % 2 ^ 32)
  split_ifs at h ⊢
  · exact mach_write_compressed_frame _ _ _ _ h
  · simp only [mach_write_compressed_size]
    rw [mach_write_compressed_frame _ _ _ _ (by omega),
      mach_write_compressed_frame _ _ _ _ (by omega), Mem.put_apply, if_neg (by omega)]

/-- Reading back a much-compressed 64-bit value, from any memory that holds
the bytes written. -/
theorem mach_uint64_read_much_compressed_written (m m' : Mem) (b n : Nat) (hn : n < 2 ^ 64)
    (h : ∀ x, b ≤ x → x < b + mach_uint64_get_much_compressed_size n →
      m' x = (mach_uint64_write_much_compressed m b n).1 x) :
    mach_uint64_read_much_compressed m' b = n := by
  have hb := mach_uint64_get_much_compressed_size_bounds n
  have h1 := mach_get_compressed_size_pos (n / 2 ^ 32 % 2 ^ 32)
  have h3 := mach_get_compressed_size_pos (n % 2 ^ 32)
  unfold mach_uint64_get_much_compressed_size at h hb
  unfold mach_uint64_write_much_compressed at h
  unfold mach_uint64_read_much_compressed
  split_ifs at h hb with c
  · -- the upper half is zero
    obtain ⟨f1, f2, f3, f4, f5⟩ := mach_write_compressed_flag m b (n % 2 ^ 32) (by omega)
    have h0 := h b (by omega) (by omega)
    have hbyte : m'.byte b ≠ 0xFF := by
      unfold Mem.byte
      rw [h0]
      omega
    rw [if_pos hbyte, mach_read_compressed_written m m' b (n % 2 ^ 32) (by omega) h]
    omega
  · dsimp only at h
    simp only [mach_write_compressed_size] at h
    have h0 := h b (by omega) (by omega)
    rw [mach_write_compressed_frame _ _ _ _ (by omega),
      mach_write_compressed_frame _ _ _ _ (by omega), Mem.put_apply, if_pos rfl] at h0
    have hbyte : ¬ m'.byte b ≠ 0xFF := by
      unfold Mem.byte
      rw [h0]
      decide
    rw [if_neg hbyte]
    have hhi : mach_read_compressed m' (b + 1) = n / 2 ^ 32 % 2 ^ 32 := by
      apply mach_read_compressed_written (m.put b 0xFF) m' (b + 1) _ (by omega)
      intro x hx1 hx2
      rw [h x (by omega) (by omega), mach_write_compressed_frame _ _ _ _ (by omega)]
    have hlo : mach_read_compressed m'
        (b + (1 + mach_get_compressed_size (n / 2 ^ 32 % 2 ^ 32))) = n % 2 ^ 32 := by
      apply mach_read_compressed_written _ m' _ _ (by omega)
      intro x hx1 hx2
      rw [h x (by omega) (by omega)]
    simp only [hhi, hlo]
    omega

theorem mach_uint64_read_write_much_compressed (m : Mem) (b n : Nat) (hn : n < 2 ^ 64) :
    mach_uint64_read_much_compressed (mach_uint64_write_much_compressed m b n).1 b = n :=
  mach_uint64_read_much_compressed_written m _ b n hn (fun _ _ _ => rfl)

theorem and_two_pow_eq (x k : Nat) : x &&& 2 ^ k = if x / 2 ^ k % 2 = 1 then 2 ^ k else 0 := by
  apply Nat.eq_of_testBit_eq
  intro i
  rw [Nat.testBit_and, Nat.testBit_two_pow]
  by_cases h : k = i
  · subst h
    by_cases hx : x / 2 ^ k % 2 = 1
    · rw [if_pos hx, Nat.testBit_two_pow_self]
      simp [Nat.testBit_to_div_mod, hx]
    · rw [if_neg hx]
      simp [Nat.testBit_to_div_mod, hx]
  · split_ifs <;> simp [h, Nat.testBit_two_pow_of_ne h]

theorem or_two_pow_eq (x k : Nat) (h : x < 2 ^ k) : x ||| 2 ^ k = x + 2 ^ k := by
  have := Nat.mul_add_lt_is_or h 1
  rw [Nat.mul_one] at this
  rw [Nat.or_comm, ← this, Nat.add_comm]

theorem or_192_eq (a : Nat) (h : a < 64) : a ||| 0xc0 = a + 192 := by
  have := Nat.mul_add_lt_is_or (show a < 2 ^ 6 by omega) 3
  rw [Nat.or_comm]
  show 2 ^ 6 * 3 ||| a = a + 192
  rw [← this]; omega

theorem or_128_eq (a : Nat) (h : a < 128) : a ||| 0x80 = a + 128 := by
  have := Nat.mul_add_lt_is_or (show a < 2 ^ 7 by omega) 1
  rw [Nat.or_comm]
  show 2 ^ 7 * 1 ||| a = a + 128
  rw [← this]; omega

theorem shl8_or_eq (a b : Nat) (h : b < 256) : (a <<< 8) ||| b = a * 256 + b := by
  have := Nat.mul_add_lt_is_or (show b < 2 ^ 8 by omega) a
  rw [Nat.shiftLeft_eq, Nat.mul_comm, ← this]

theorem and_0x80 (x : Nat) : x &&& 0x80 = if x / 128 % 2 = 1 then 128 else 0 := 
  and_two_pow_eq x 7

theorem and_0x4000 (x : Nat) : x &&& 0x4000 = if x / 16384 % 2 = 1 then 16384 else 0 := 
  and_two_pow_eq x 14

theorem and_0x3fff (x : Nat) : x &&& 0x3fff = x % 16384 :=
  Nat.and_pow_two_sub_one_eq_mod x 14

theorem and_offs_mask (x : Nat) : x &&& REC_OFFS_MASK = x % 2 ^ 30 :=
  Nat.and_pow_two_sub_one_eq_mod x 30

theorem and_offs_sql_null (x : Nat) :
    x &&& REC_OFFS_SQL_NULL = if x / 2 ^ 31 % 2 = 1 then 2 ^ 31 else 0 := and_two_pow_eq x 31

theorem and_offs_external (x : Nat) :
    x &&& REC_OFFS_EXTERNAL = if x / 2 ^ 30 % 2 = 1 then 2 ^ 30 else 0 := and_two_pow_eq x 30

theorem shr8_eq (x : Nat) : x >>> 8 = x / 256 := Nat.shiftRight_eq_div_pow x 8

theorem shl1_eq (x : Nat) : x <<< 1 = x * 2 := by rw [Nat.shiftLeft_eq]

example (x : Nat) (h : x < 2^30) : (x ||| REC_OFFS_EXTERNAL) &&& REC_OFFS_MASK = x := by
  rw [REC_OFFS_EXTERNAL, or_two_pow_eq x 30 h, and_offs_mask]; omega

theorem single_rec_flag_cleared (t : Nat) (ht : t ≤ MLOG_BIGGEST_TYPE) :
    (t % 256 &&& (2 ^ 64 - 1 - MLOG_SINGLE_REC_FLAG)) % 256 = t := by
  have h : ∀ t, t < 52 → (t % 256 &&& (2 ^ 64 - 1 - MLOG_SINGLE_REC_FLAG)) % 256 = t := by
    decide
  exact h t (by unfold MLOG_BIGGEST_TYPE at ht; omega)

/-- The first byte, the end pointer and the log of an initial record. -/
theorem mlog_write_initial_log_record_fast_eq (creating : Bool) (page : Mem)
    (type log_ptr : Nat) (mtr : mtr_t)
    (hdw : ¬ (mach_read_from_4 page FIL_PAGE_SPACE_ID = SYS_TABLESPACE
      ∧ mach_read_from_4 page FIL_PAGE_OFFSET ≥ FSP_EXTENT_SIZE
      ∧ mach_read_from_4 page FIL_PAGE_OFFSET < 3 * FSP_EXTENT_SIZE ∧ creating = true)) :
    mlog_write_initial_log_record_fast creating page type log_ptr mtr
      = (log_ptr + 1 + mach_get_compressed_size (mach_read_from_4 page FIL_PAGE_SPACE_ID)
          + mach_get_compressed_size (mach_read_from_4 page FIL_PAGE_OFFSET),
         { mtr with
           log := (mach_write_compressed
              (mach_write_compressed (mach_write_to_1 mtr.log log_ptr type) (log_ptr + 1)
                (mach_read_from_4 page FIL_PAGE_SPACE_ID)).1
              (log_ptr + 1 + mach_get_compressed_size (mach_read_from_4 page FIL_PAGE_SPACE_ID))
              (mach_read_from_4 page FIL_PAGE_OFFSET)).1
           n_log_recs := mtr.n_log_recs + 1 }) := by
  unfold mlog_write_initial_log_record_fast
  simp only [if_neg hdw, mach_write_compressed_size]

/-- Claim C6: for every record type up to `MLOG_BIGGEST_TYPE` and every page,
whose header carries a 32-bit space id and page number, outside the doublewrite
range while the doublewrite buffer is being created,
`mlog_parse_initial_log_record` applied to the bytes that
`mlog_write_initial_log_record_fast` has written returns that type (the value
without the bit `MLOG_SINGLE_REC_FLAG`), that space id and that page number,
and the pointer just past the bytes written; applied to a buffer that ends
before the header is complete it returns null. -/
theorem C6_initial_log_record_round_trip (creating : Bool) (page : Mem) (type log_ptr : Nat)
    (mtr : mtr_t) (htype : type ≤ MLOG_BIGGEST_TYPE)
    (hdw : ¬ (mach_read_from_4 page FIL_PAGE_SPACE_ID = SYS_TABLESPACE
      ∧ mach_read_from_4 page FIL_PAGE_OFFSET ≥ FSP_EXTENT_SIZE
      ∧ mach_read_from_4 page FIL_PAGE_OFFSET < 3 * FSP_EXTENT_SIZE ∧ creating = true)) :
    let r := mlog_write_initial_log_record_fast creating page type log_ptr mtr
    mlog_parse_initial_log_record r.2.log log_ptr r.1
        = some { ptr := r.1, type := type, space := mach_read_from_4 page FIL_PAGE_SPACE_ID,
                 page_no := mach_read_from_4 page FIL_PAGE_OFFSET }
      ∧ ∀ end_ptr, end_ptr < r.1 →
          mlog_parse_initial_log_record r.2.log log_ptr end_ptr = none := by
  intro r
  have hr : r = _ := mlog_write_initial_log_record_fast_eq creating page type log_ptr mtr hdw
  generalize hsp : mach_read_from_4 page FIL_PAGE_SPACE_ID = space at hr
  generalize hof : mach_read_from_4 page FIL_PAGE_OFFSET = offset at hr
  have hsp32 : space < 2 ^ 32 := hsp ▸ mach_read_from_4_lt page _
  have hof32 : offset < 2 ^ 32 := hof ▸ mach_read_from_4_lt page _
  have hs1 := mach_get_compressed_size_pos space
  have hs2 := mach_get_compressed_size_pos offset
  rw [hr]
  dsimp only
  -- the three parts of the header, as the final log holds them
  have hbyte : ∀ x, x = log_ptr →
      (mach_write_compressed
        (mach_write_compressed (mach_write_to_1 mtr.log log_ptr type) (log_ptr + 1) space).1
        (log_ptr + 1 + mach_get_compressed_size space) offset).1 x = type % 256 := by
    intro x hx
    rw [mach_write_compressed_frame _ _ _ _ (by omega),
      mach_write_compressed_frame _ _ _ _ (by omega), mach_write_to_1_apply, if_pos hx]
  have hspace : ∀ x, log_ptr + 1 ≤ x → x < log_ptr + 1 + mach_get_compressed_size space →
      (mach_write_compressed
        (mach_write_compressed (mach_write_to_1 mtr.log log_ptr type) (log_ptr + 1) space).1
        (log_ptr + 1 + mach_get_compressed_size space) offset).1 x
      = (mach_write_compressed (mach_write_to_1 mtr.log log_ptr type) (log_ptr + 1) space).1 x := by
    intro x h1 h2
    rw [mach_write_compressed_frame _ _ _ _ (by omega)]
  constructor
  · unfold mlog_parse_initial_log_record
    rw [if_neg (by omega)]
    dsimp only
    rw [if_neg (by omega)]
    rw [mach_parse_compressed_written _ _ (log_ptr + 1) space _ hsp32 hspace (by omega)]
    dsimp only
    rw [mach_parse_compressed_written _ _ _ offset _ hof32 (fun _ _ _ => rfl) (by omega)]
    dsimp only
    have hb : Mem.byte (mach_write_compressed
        (mach_write_compressed (mach_write_to_1 mtr.log log_ptr type) (log_ptr + 1) space).1
        (log_ptr + 1 + mach_get_compressed_size space) offset).1 log_ptr = type % 256 := by
      unfold Mem.byte
      rw [hbyte _ rfl]
      omega
    rw [hb, single_rec_flag_cleared type htype]
    simp only [Option.some.injEq, initial_log_record.mk.injEq, true_and]
    omega
  · intro end_ptr hend
    unfold mlog_parse_initial_log_record
    by_cases h1 : end_ptr < log_ptr + 1
    · rw [if_pos h1]
    · rw [if_neg h1]
      dsimp only
      by_cases h2 : end_ptr < log_ptr + 1 + 2
      · rw [if_pos h2]
      · rw [if_neg h2]
        by_cases h3 : end_ptr < log_ptr + 1 + mach_get_compressed_size space
        · rw [mach_parse_compressed_truncated
            (mach_write_to_1 mtr.log log_ptr type) _ (log_ptr + 1) space end_ptr hsp32
            (fun _ => hspace _ (by omega) (by omega)) h3]
        · rw [mach_parse_compressed_written _ _ (log_ptr + 1) space _ hsp32 hspace (by omega)]
          dsimp only
          rw [mach_parse_compressed_truncated _ _ _ offset end_ptr hof32 (fun _ => rfl)
            (by omega)]

theorem C6_initial_log_record_round_trip_witness :
    MLOG_UNDO_INSERT ≤ MLOG_BIGGEST_TYPE
      ∧ ¬ (mach_read_from_4 (mach_write_to_4 (fun _ => 0) FIL_PAGE_OFFSET 70) FIL_PAGE_SPACE_ID
            = SYS_TABLESPACE
          ∧ mach_read_from_4 (mach_write_to_4 (fun _ => 0) FIL_PAGE_OFFSET 70) FIL_PAGE_OFFSET
            ≥ FSP_EXTENT_SIZE
          ∧ mach_read_from_4 (mach_write_to_4 (fun _ => 0) FIL_PAGE_OFFSET 70) FIL_PAGE_OFFSET
            < 3 * FSP_EXTENT_SIZE
          ∧ false = true)
      ∧ mlog_parse_initial_log_record
          (mlog_write_initial_log_record_fast false
            (mach_write_to_4 (fun _ => 0) FIL_PAGE_OFFSET 70) MLOG_UNDO_INSERT 0 mtr_start).2.log
          0
          (mlog_write_initial_log_record_fast false
            (mach_write_to_4 (fun _ => 0) FIL_PAGE_OFFSET 70) MLOG_UNDO_INSERT 0 mtr_start).1
        = some ⟨(mlog_write_initial_log_record_fast false
            (mach_write_to_4 (fun _ => 0) FIL_PAGE_OFFSET 70) MLOG_UNDO_INSERT 0 mtr_start).1,
          MLOG_UNDO_INSERT,
          mach_read_from_4 (mach_write_to_4 (fun _ => 0) FIL_PAGE_OFFSET 70) FIL_PAGE_SPACE_ID,
          mach_read_from_4 (mach_write_to_4 (fun _ => 0) FIL_PAGE_OFFSET 70) FIL_PAGE_OFFSET⟩ :=
  ⟨by decide, by decide,
    (C6_initial_log_record_round_trip false (mach_write_to_4 (fun _ => 0) FIL_PAGE_OFFSET 70)
      MLOG_UNDO_INSERT 0 mtr_start (by decide) (by decide)).1⟩

theorem mlog_open_logging (mtr : mtr_t) (size : Nat) (h : mtr.log_mode ≠ MTR_LOG_NONE) :
    mlog_open mtr size = ({ mtr with modifications := true }, some mtr.log_len) := by
  unfold mlog_open mtr_get_log_mode
  simp only [if_neg h]

/-- Replaying the body `(offset, compressed value)` of a 1, 2 or 4 byte write. -/
theorem mlog_parse_nbytes_body (log0 : Mem) (p offset val type : Nat) (page : Mem)
    (htype : type = MLOG_1BYTE ∨ type = MLOG_2BYTES ∨ type = MLOG_4BYTES)
    (hval : val < 2 ^ (8 * type)) (hoff : offset < UNIV_PAGE_SIZE) :
    mlog_parse_nbytes type
        (mach_write_compressed (mach_write_to_2 log0 p offset) (p + 2) val).1 p
        (p + 2 + mach_get_compressed_size val) (some page)
      = some ⟨some (p + 2 + mach_get_compressed_size val),
          some (if type = MLOG_1BYTE then mach_write_to_1 page offset val
            else if type = MLOG_2BYTES then mach_write_to_2 page offset val
            else mach_write_to_4 page offset val), false⟩ := by
  have hv32 : val < 2 ^ 32 := by
    rcases htype with h | h | h <;> subst h <;> simp only [MLOG_1BYTE, MLOG_2BYTES, MLOG_4BYTES] at hval <;> omega
  have hs := mach_get_compressed_size_pos val
  have hoff16 : offset < 2 ^ 16 := by unfold UNIV_PAGE_SIZE at hoff; omega
  have hread : mach_read_from_2
      (mach_write_compressed (mach_write_to_2 log0 p offset) (p + 2) val).1 p = offset := by
    rw [mach_read_from_2_congr (mach_write_to_2 log0 p offset) _ p
      (fun x h1 h2 => mach_write_compressed_frame _ _ _ _ (by omega)), mach_read_write_2]
    omega
  have hparse := mach_parse_compressed_written (mach_write_to_2 log0 p offset)
    (mach_write_compressed (mach_write_to_2 log0 p offset) (p + 2) val).1 (p + 2) val
    (p + 2 + mach_get_compressed_size val) hv32 (fun _ _ _ => rfl) (le_refl _)
  unfold mlog_parse_nbytes
  rw [hread]
  have ht8 : type ≤ MLOG_8BYTES ∧ type ≠ MLOG_8BYTES := by
    rcases htype with h | h | h <;> subst h <;> decide
  rw [if_neg (by omega), if_neg (by omega)]
  dsimp only
  rw [if_neg (by omega), if_neg ht8.2, hparse]
  dsimp only
  rcases htype with h | h | h
  · subst h
    simp only [MLOG_1BYTE, MLOG_2BYTES, MLOG_4BYTES] at hval ⊢
    simp only [if_true, Option.map_some']
    rw [if_neg (by omega)]
  · subst h
    simp only [MLOG_1BYTE, MLOG_2BYTES, MLOG_4BYTES] at hval ⊢
    simp only [if_true, Option.map_some']
    rw [if_neg (by omega)]
    have : ¬ val > 65535 := by omega
    simp [this]
  · subst h
    simp only [MLOG_1BYTE, MLOG_2BYTES, MLOG_4BYTES] at hval ⊢
    simp

/-- Replaying the body `(offset, compressed value)` of an 8 byte write. -/
theorem mlog_parse_nbytes_body_8 (log0 : Mem) (p offset val : Nat) (page : Mem)
    (hval : val < 2 ^ 64) (hoff : offset < UNIV_PAGE_SIZE) :
    mlog_parse_nbytes MLOG_8BYTES
        (mach_uint64_write_compressed (mach_write_to_2 log0 p offset) (p + 2) val).1 p
        (p + 2 + mach_uint64_get_compressed_size val) (some page)
      = some ⟨some (p + 2 + mach_uint64_get_compressed_size val),
          some (mach_write_to_8 page offset val), false⟩ := by
  have hs := mach_uint64_get_compressed_size_bounds val
  have hoff16 : offset < 2 ^ 16 := by unfold UNIV_PAGE_SIZE at hoff; omega
  have hread : mach_read_from_2
      (mach_uint64_write_compressed (mach_write_to_2 log0 p offset) (p + 2) val).1 p
      = offset := by
    rw [mach_read_from_2_congr (mach_write_to_2 log0 p offset) _ p
      (fun x h1 h2 => mach_uint64_write_compressed_frame _ _ _ _ (by omega)),
      mach_read_write_2]
    omega
  have hparse := mach_uint64_parse_compressed_written (mach_write_to_2 log0 p offset)
    (mach_uint64_write_compressed (mach_write_to_2 log0 p offset) (p + 2) val).1 (p + 2) val
    (p + 2 + mach_uint64_get_compressed_size val) hval (fun _ _ _ => rfl) (le_refl _)
  unfold mlog_parse_nbytes
  rw [hread, if_neg (by decide), if_neg (by omega)]
  dsimp only
  rw [if_neg (by omega), if_pos rfl, hparse]
  simp

/-- Claim C7: with logging enabled, for every position in the page and every
value that fits the width (below `2 ^ 8`, `2 ^ 16`, `2 ^ 32` for `MLOG_1BYTE`,
`MLOG_2BYTES`, `MLOG_4BYTES`; below `2 ^ 64` for `mlog_write_uint64`),
`mlog_parse_nbytes` applied to the body of the record that `mlog_write_ulint`
or `mlog_write_uint64` has appended, the bytes after the initial record header,
and to a copy of the page as it was before the write, succeeds, ends where the
log ends, and leaves the copy equal to the page as the write has left it. -/
theorem C7_logged_write_replays (creating : Bool) (page : Mem) (ptr : Nat) (mtr : mtr_t)
    (hlog : mtr.log_mode ≠ MTR_LOG_NONE) (hptr : ptr < UNIV_PAGE_SIZE) :
    (∀ type val, (type = MLOG_1BYTE ∨ type = MLOG_2BYTES ∨ type = MLOG_4BYTES) →
      val < 2 ^ (8 * type) →
      ∃ page' mtr', mlog_write_ulint creating page ptr val type mtr = some (page', mtr')
        ∧ mlog_parse_nbytes type mtr'.log
            (mlog_write_initial_log_record_fast creating page' type mtr.log_len
              { mtr with modifications := true }).1
            mtr'.log_len (some page)
          = some ⟨some mtr'.log_len, some page', false⟩)
    ∧ (∀ val, val < 2 ^ 64 →
      mlog_parse_nbytes MLOG_8BYTES (mlog_write_uint64 creating page ptr val mtr).2.log
          (mlog_write_initial_log_record_fast creating
            (mlog_write_uint64 creating page ptr val mtr).1 MLOG_8BYTES mtr.log_len
            { mtr with modifications := true }).1
          (mlog_write_uint64 creating page ptr val mtr).2.log_len (some page)
        = some ⟨some (mlog_write_uint64 creating page ptr val mtr).2.log_len,
            some (mlog_write_uint64 creating page ptr val mtr).1, false⟩) := by
  have hpo : page_offset ptr = ptr := Nat.mod_eq_of_lt hptr
  constructor
  · intro type val htype hval
    have hb := mlog_parse_nbytes_body
    unfold mlog_write_ulint
    rw [mlog_open_logging mtr _ hlog, hpo]
    rcases htype with h | h | h
    · subst h
      refine ⟨_, _, rfl, ?_⟩
      simp only [mlog_close, mach_write_compressed_size]
      exact hb _ _ ptr val MLOG_1BYTE page (Or.inl rfl) hval hptr
    · subst h
      refine ⟨_, _, rfl, ?_⟩
      simp only [mlog_close, mach_write_compressed_size]
      exact hb _ _ ptr val MLOG_2BYTES page (Or.inr (Or.inl rfl)) hval hptr
    · subst h
      refine ⟨_, _, rfl, ?_⟩
      simp only [mlog_close, mach_write_compressed_size]
      exact hb _ _ ptr val MLOG_4BYTES page (Or.inr (Or.inr rfl)) hval hptr
  · intro val hval
    unfold mlog_write_uint64
    rw [mlog_open_logging mtr _ hlog, hpo]
    simp only [mlog_close, mach_uint64_write_compressed_size]
    exact mlog_parse_nbytes_body_8 _ _ ptr val page hval hptr

theorem C7_logged_write_replays_witness :
    mtr_start.log_mode ≠ MTR_LOG_NONE ∧ 100 < UNIV_PAGE_SIZE
      ∧ mlog_parse_nbytes MLOG_8BYTES
          (mlog_write_uint64 false (fun _ => 0) 100 (2 ^ 40 + 7) mtr_start).2.log
          (mlog_write_initial_log_record_fast false
            (mlog_write_uint64 false (fun _ => 0) 100 (2 ^ 40 + 7) mtr_start).1 MLOG_8BYTES
            mtr_start.log_len { mtr_start with modifications := true }).1
          (mlog_write_uint64 false (fun _ => 0) 100 (2 ^ 40 + 7) mtr_start).2.log_len
          (some (fun _ => 0))
        = some ⟨some (mlog_write_uint64 false (fun _ => 0) 100 (2 ^ 40 + 7) mtr_start).2.log_len,
            some (mlog_write_uint64 false (fun _ => 0) 100 (2 ^ 40 + 7) mtr_start).1, false⟩ :=
  ⟨by decide, by decide,
    (C7_logged_write_replays false (fun _ => 0) 100 mtr_start (by decide) (by decide)).2
      (2 ^ 40 + 7) (by decide)⟩

theorem mlog_write_uint64_page (creating : Bool) (page : Mem) (ptr val : Nat) (mtr : mtr_t) :
    (mlog_write_uint64 creating page ptr val mtr).1 = mach_write_to_8 page ptr val := by
  unfold mlog_write_uint64 mlog_open
  dsimp only
  split_ifs <;> rfl

/-- The tag that `trx_sys_file_format_max_write` stores, as a number. -/
theorem file_format_tag_value (id : Nat) (hid : id < FILE_FORMAT_NAME_N) :
    (TRX_SYS_FILE_FORMAT_TAG_MAGIC_N_HIGH <<< 32) % 2 ^ 64
        ||| (id + TRX_SYS_FILE_FORMAT_TAG_MAGIC_N_LOW) % 2 ^ 64
      = 2 ^ 32 * TRX_SYS_FILE_FORMAT_TAG_MAGIC_N_HIGH
        + (id + TRX_SYS_FILE_FORMAT_TAG_MAGIC_N_LOW) := by
  have hN : FILE_FORMAT_NAME_N = 26 := rfl
  rw [hN] at hid
  have hlow : id + TRX_SYS_FILE_FORMAT_TAG_MAGIC_N_LOW < 2 ^ 32 := by
    unfold TRX_SYS_FILE_FORMAT_TAG_MAGIC_N_LOW
    omega
  rw [Nat.mul_add_lt_is_or hlow, Nat.shiftLeft_eq]
  have h1 : TRX_SYS_FILE_FORMAT_TAG_MAGIC_N_HIGH * 2 ^ 32 % 2 ^ 64
      = 2 ^ 32 * TRX_SYS_FILE_FORMAT_TAG_MAGIC_N_HIGH := by
    unfold TRX_SYS_FILE_FORMAT_TAG_MAGIC_N_HIGH
    norm_num
  have h2 : (id + TRX_SYS_FILE_FORMAT_TAG_MAGIC_N_LOW) % 2 ^ 64
      = id + TRX_SYS_FILE_FORMAT_TAG_MAGIC_N_LOW := Nat.mod_eq_of_lt (by omega)
  rw [h1, h2]

/-- The page after `trx_sys_file_format_max_write` holds the tag. -/
theorem trx_sys_file_format_max_write_tag (st : sys_state) (id : Nat) (want_name : Bool)
    (hid : id < FILE_FORMAT_NAME_N) :
    mach_read_from_8 (trx_sys_file_format_max_write st id want_name).2.2.trx_sys_page
        TRX_SYS_FILE_FORMAT_TAG
      = 2 ^ 32 * TRX_SYS_FILE_FORMAT_TAG_MAGIC_N_HIGH
        + (id + TRX_SYS_FILE_FORMAT_TAG_MAGIC_N_LOW) := by
  unfold trx_sys_file_format_max_write
  dsimp only
  rw [mlog_write_uint64_page, mach_read_write_8, file_format_tag_value id hid]
  have hN : FILE_FORMAT_NAME_N = 26 := rfl
  rw [hN] at hid
  unfold TRX_SYS_FILE_FORMAT_TAG_MAGIC_N_HIGH TRX_SYS_FILE_FORMAT_TAG_MAGIC_N_LOW
  omega

/-- The reading of a tag that is not the number
`TRX_SYS_FILE_FORMAT_TAG_MAGIC_N_HIGH`: the tag is taken for garbage and
reset. -/
theorem trx_sys_file_format_max_read_reset (st : sys_state)
    (h : mach_read_from_8 st.trx_sys_page TRX_SYS_FILE_FORMAT_TAG
      ≠ TRX_SYS_FILE_FORMAT_TAG_MAGIC_N_HIGH) :
    trx_sys_file_format_max_read st
      = (DICT_TF_FORMAT_51,
          (trx_sys_file_format_max_write { st with redo := mtr_commit st.redo mtr_start }
            DICT_TF_FORMAT_51 false).2.2) := by
  unfold trx_sys_file_format_max_read
  exact if_pos (Or.inl h)

/-- The reading of a tag in a file that is not the number
`TRX_SYS_FILE_FORMAT_TAG_MAGIC_N_HIGH`. -/
theorem trx_sys_read_file_format_id_reset (page : Mem)
    (h : mach_read_from_8 page TRX_SYS_FILE_FORMAT_TAG ≠ TRX_SYS_FILE_FORMAT_TAG_MAGIC_N_HIGH) :
    trx_sys_read_file_format_id (some (some page)) = (true, ULINT_UNDEFINED) := by
  unfold trx_sys_read_file_format_id
  exact if_pos (Or.inl h)

/-- Claim C1, which the code does not keep: for every file format id below 26,
after `trx_sys_file_format_max_write` has written the tag (the magic number
`TRX_SYS_FILE_FORMAT_TAG_MAGIC_N_HIGH` in the upper 32 bits, the id plus
`TRX_SYS_FILE_FORMAT_TAG_MAGIC_N_LOW` in the lower 32 bits),
`trx_sys_file_format_max_read` does not return that id.  It compares the whole
64-bit tag with `TRX_SYS_FILE_FORMAT_TAG_MAGIC_N_HIGH`, finds them different,
returns `DICT_TF_FORMAT_51` and leaves the state that writing the tag of
format 0 leaves; and `trx_sys_read_file_format_id` on a page with the tag
yields `ULINT_UNDEFINED`. -/
theorem C1_file_format_tag_is_reset (st : sys_state) (id : Nat) (want_name : Bool)
    (hid : id < FILE_FORMAT_NAME_N) :
    let st1 := (trx_sys_file_format_max_write st id want_name).2.2
    (trx_sys_file_format_max_read st1).1 = DICT_TF_FORMAT_51
      ∧ (trx_sys_file_format_max_read st1).2
          = (trx_sys_file_format_max_write st1 DICT_TF_FORMAT_51 false).2.2
      ∧ trx_sys_read_file_format_id (some (some st1.trx_sys_page)) = (true, ULINT_UNDEFINED) := by
  intro st1
  have htag := trx_sys_file_format_max_write_tag st id want_name hid
  have hne : mach_read_from_8 st1.trx_sys_page TRX_SYS_FILE_FORMAT_TAG
      ≠ TRX_SYS_FILE_FORMAT_TAG_MAGIC_N_HIGH := by
    show mach_read_from_8 (trx_sys_file_format_max_write st id want_name).2.2.trx_sys_page
      TRX_SYS_FILE_FORMAT_TAG ≠ _
    rw [htag]
    unfold TRX_SYS_FILE_FORMAT_TAG_MAGIC_N_HIGH TRX_SYS_FILE_FORMAT_TAG_MAGIC_N_LOW
    omega
  have hcommit : mtr_commit st1.redo mtr_start = st1.redo := by
    unfold mtr_commit mtr_start
    simp
  rw [trx_sys_file_format_max_read_reset st1 hne, hcommit]
  exact ⟨rfl, rfl, trx_sys_read_file_format_id_reset _ hne⟩

theorem C1_file_format_tag_is_reset_witness :
    DICT_TF_FORMAT_V1 < FILE_FORMAT_NAME_N
      ∧ (trx_sys_file_format_max_read
          (trx_sys_file_format_max_write sample_sys_state DICT_TF_FORMAT_V1 true).2.2).1
        = DICT_TF_FORMAT_51
      ∧ trx_sys_read_file_format_id (some (some
          (trx_sys_file_format_max_write sample_sys_state DICT_TF_FORMAT_V1 true).2.2.trx_sys_page))
        = (true, ULINT_UNDEFINED) :=
  ⟨by decide,
    (C1_file_format_tag_is_reset sample_sys_state DICT_TF_FORMAT_V1 true (by decide)).1,
    (C1_file_format_tag_is_reset sample_sys_state DICT_TF_FORMAT_V1 true (by decide)).2.2⟩

theorem trx_sys_flush_max_trx_id_trx_sys (st : sys_state) :
    (trx_sys_flush_max_trx_id st).trx_sys = st.trx_sys := by
  unfold trx_sys_flush_max_trx_id
  dsimp only

theorem trx_sys_flush_max_trx_id_persists (st : sys_state) :
    mach_read_from_8 (trx_sys_flush_max_trx_id st).trx_sys_page (TRX_SYS + TRX_SYS_TRX_ID_STORE)
      = st.trx_sys.max_trx_id % 2 ^ 64 := by
  unfold trx_sys_flush_max_trx_id
  dsimp only
  rw [mlog_write_uint64_page, mach_read_write_8]

theorem trx_sys_get_new_trx_id_fst (st : sys_state) :
    (trx_sys_get_new_trx_id st).1 = st.trx_sys.max_trx_id := by
  unfold trx_sys_get_new_trx_id
  dsimp only
  split_ifs
  · rw [trx_sys_flush_max_trx_id_trx_sys]
  · rfl

theorem trx_sys_get_new_trx_id_max (st : sys_state) :
    (trx_sys_get_new_trx_id st).2.trx_sys.max_trx_id = (st.trx_sys.max_trx_id + 1) % 2 ^ 64 := by
  unfold trx_sys_get_new_trx_id
  dsimp only
  split_ifs
  · rw [trx_sys_flush_max_trx_id_trx_sys]
  · rfl

/-- The ids of a run that does not wrap around are the successive numbers from
`max_trx_id` on. -/
theorem trx_sys_get_new_trx_ids_eq (n : Nat) (st : sys_state)
    (h : st.trx_sys.max_trx_id + n < 2 ^ 64) :
    (trx_sys_get_new_trx_ids n st).1 = List.range' st.trx_sys.max_trx_id n
      ∧ (trx_sys_get_new_trx_ids n st).2.trx_sys.max_trx_id = st.trx_sys.max_trx_id + n := by
  induction n generalizing st with
  | zero => exact ⟨rfl, rfl⟩
  | succ n ih =>
    have hmax := trx_sys_get_new_trx_id_max st
    have hfst := trx_sys_get_new_trx_id_fst st
    rw [Nat.mod_eq_of_lt (by omega)] at hmax
    obtain ⟨ih1, ih2⟩ := ih (trx_sys_get_new_trx_id st).2 (by omega)
    simp only [trx_sys_get_new_trx_ids]
    rw [ih1, ih2, hmax, hfst]
    constructor
    · rw [List.range'_succ]
    · omega

/-- Claim C3: `trx_sys_get_new_trx_no` is `trx_sys_get_new_trx_id`; a call
returns the current `max_trx_id` and leaves `max_trx_id` one larger; the ids
that `n` successive calls return are the `n` successive numbers from
`max_trx_id` on, so they are strictly increasing and pairwise distinct; and the
commit number taken after an id and `n` further allocations is greater than
that id.  All this for a run that stays below the 64-bit wrap-around. -/
theorem C3_trx_ids_strictly_increase (st : sys_state) (n : Nat)
    (hwrap : st.trx_sys.max_trx_id + n + 1 < 2 ^ 64) :
    trx_sys_get_new_trx_no st = trx_sys_get_new_trx_id st
      ∧ (trx_sys_get_new_trx_id st).1 = st.trx_sys.max_trx_id
      ∧ (trx_sys_get_new_trx_id st).2.trx_sys.max_trx_id = st.trx_sys.max_trx_id + 1
      ∧ (trx_sys_get_new_trx_ids n st).1 = List.range' st.trx_sys.max_trx_id n
      ∧ List.Pairwise (· < ·) (trx_sys_get_new_trx_ids n st).1
      ∧ (trx_sys_get_new_trx_ids n st).1.Nodup
      ∧ (trx_sys_get_new_trx_id st).1
          < (trx_sys_get_new_trx_no
              (trx_sys_get_new_trx_ids n (trx_sys_get_new_trx_id st).2).2).1 := by
  have hmax := trx_sys_get_new_trx_id_max st
  rw [Nat.mod_eq_of_lt (by omega)] at hmax
  obtain ⟨h1, _⟩ := trx_sys_get_new_trx_ids_eq n st (by omega)
  obtain ⟨_, h2⟩ := trx_sys_get_new_trx_ids_eq n (trx_sys_get_new_trx_id st).2 (by omega)
  refine ⟨rfl, trx_sys_get_new_trx_id_fst st, hmax, h1, ?_, ?_, ?_⟩
  · rw [h1]
    exact List.pairwise_lt_range' _ _
  · rw [h1]
    exact List.nodup_range' _ _
  · unfold trx_sys_get_new_trx_no
    rw [trx_sys_get_new_trx_id_fst, trx_sys_get_new_trx_id_fst, h2, hmax]
    omega

theorem C3_trx_ids_strictly_increase_witness :
    sample_sys_state.trx_sys.max_trx_id + 3 + 1 < 2 ^ 64
      ∧ (trx_sys_get_new_trx_ids 3 sample_sys_state).1
        = List.range' sample_sys_state.trx_sys.max_trx_id 3
      ∧ (trx_sys_get_new_trx_id sample_sys_state).1
          < (trx_sys_get_new_trx_no
              (trx_sys_get_new_trx_ids 3 (trx_sys_get_new_trx_id sample_sys_state).2).2).1 :=
  ⟨by decide, (C3_trx_ids_strictly_increase sample_sys_state 3 (by decide)).2.2.2.1,
    (C3_trx_ids_strictly_increase sample_sys_state 3 (by decide)).2.2.2.2.2.2⟩

theorem ut_uint64_align_up_256 (n : Nat) (h : n + 255 < 2 ^ 64) :
    ut_uint64_align_up n TRX_SYS_TRX_ID_WRITE_MARGIN % 256 = 0
      ∧ n ≤ ut_uint64_align_up n TRX_SYS_TRX_ID_WRITE_MARGIN
      ∧ ut_uint64_align_up n TRX_SYS_TRX_ID_WRITE_MARGIN < n + 256
      ∧ (n % 256 = 0 → ut_uint64_align_up n TRX_SYS_TRX_ID_WRITE_MARGIN = n) := by
  unfold ut_uint64_align_up TRX_SYS_TRX_ID_WRITE_MARGIN
  rw [Nat.mod_eq_of_lt (show n + 256 - 1 < 2 ^ 64 by omega)]
  omega

theorem trx_sys_init_at_db_start_page (st : sys_state) :
    (trx_sys_init_at_db_start st).trx_sys_page = st.trx_sys_page := by
  unfold trx_sys_init_at_db_start
  dsimp only

/-- One allocation keeps the relation between the id counter and the value
persisted in the header: either the counter is a multiple of the margin (the
next call persists it), or the persisted value is the last multiple of the
margin below the counter. -/
theorem trx_sys_get_new_trx_id_persisted (st : sys_state)
    (hw : st.trx_sys.max_trx_id + 1 < 2 ^ 64)
    (hinv : st.trx_sys.max_trx_id % 256 = 0
      ∨ (mach_read_from_8 st.trx_sys_page (TRX_SYS + TRX_SYS_TRX_ID_STORE) % 256 = 0
        ∧ mach_read_from_8 st.trx_sys_page (TRX_SYS + TRX_SYS_TRX_ID_STORE)
            < st.trx_sys.max_trx_id
        ∧ st.trx_sys.max_trx_id
            ≤ mach_read_from_8 st.trx_sys_page (TRX_SYS + TRX_SYS_TRX_ID_STORE) + 256)) :
    mach_read_from_8 (trx_sys_get_new_trx_id st).2.trx_sys_page
        (TRX_SYS + TRX_SYS_TRX_ID_STORE) % 256 = 0
      ∧ mach_read_from_8 (trx_sys_get_new_trx_id st).2.trx_sys_page
          (TRX_SYS + TRX_SYS_TRX_ID_STORE) < (trx_sys_get_new_trx_id st).2.trx_sys.max_trx_id
      ∧ (trx_sys_get_new_trx_id st).2.trx_sys.max_trx_id
          ≤ mach_read_from_8 (trx_sys_get_new_trx_id st).2.trx_sys_page
              (TRX_SYS + TRX_SYS_TRX_ID_STORE) + 256 := by
  have hmax := trx_sys_get_new_trx_id_max st
  rw [Nat.mod_eq_of_lt (by omega)] at hmax
  rw [hmax]
  unfold trx_sys_get_new_trx_id
  dsimp only
  by_cases hm : st.trx_sys.max_trx_id % TRX_SYS_TRX_ID_WRITE_MARGIN = 0
  · rw [if_pos hm, trx_sys_flush_max_trx_id_persists,
      Nat.mod_eq_of_lt (show st.trx_sys.max_trx_id < 2 ^ 64 by omega)]
    unfold TRX_SYS_TRX_ID_WRITE_MARGIN at hm
    omega
  · rw [if_neg hm]
    unfold TRX_SYS_TRX_ID_WRITE_MARGIN at hm
    omega

theorem trx_sys_get_new_trx_ids_persisted (n : Nat) (st : sys_state)
    (hw : st.trx_sys.max_trx_id + n + 1 < 2 ^ 64) (hn : 0 < n)
    (hinv : st.trx_sys.max_trx_id % 256 = 0
      ∨ (mach_read_from_8 st.trx_sys_page (TRX_SYS + TRX_SYS_TRX_ID_STORE) % 256 = 0
        ∧ mach_read_from_8 st.trx_sys_page (TRX_SYS + TRX_SYS_TRX_ID_STORE)
            < st.trx_sys.max_trx_id
        ∧ st.trx_sys.max_trx_id
            ≤ mach_read_from_8 st.trx_sys_page (TRX_SYS + TRX_SYS_TRX_ID_STORE) + 256)) :
    mach_read_from_8 (trx_sys_get_new_trx_ids n st).2.trx_sys_page
        (TRX_SYS + TRX_SYS_TRX_ID_STORE) % 256 = 0
      ∧ mach_read_from_8 (trx_sys_get_new_trx_ids n st).2.trx_sys_page
          (TRX_SYS + TRX_SYS_TRX_ID_STORE) < st.trx_sys.max_trx_id + n
      ∧ st.trx_sys.max_trx_id + n
          ≤ mach_read_from_8 (trx_sys_get_new_trx_ids n st).2.trx_sys_page
              (TRX_SYS + TRX_SYS_TRX_ID_STORE) + 256 := by
  induction n generalizing st with
  | zero => omega
  | succ n ih =>
    have hmax := trx_sys_get_new_trx_id_max st
    rw [Nat.mod_eq_of_lt (by omega)] at hmax
    have hstep := trx_sys_get_new_trx_id_persisted st (by omega) hinv
    simp only [trx_sys_get_new_trx_ids]
    by_cases hn0 : n = 0
    · subst hn0
      simp only [trx_sys_get_new_trx_ids]
      rw [hmax] at hstep
      omega
    · have := ih (trx_sys_get_new_trx_id st).2 (by omega) (by omega) (Or.inr hstep)
      rw [hmax] at this
      omega

/-- Claim C2: for every persisted header value and every number `n` of calls
of `trx_sys_get_new_trx_id` in the run that `trx_sys_init_at_db_start` opens
from it, the `max_trx_id` that `trx_sys_init_at_db_start` computes at the next
start, from the value the run has persisted last, is greater than every id the
run has handed out; it is a multiple of `TRX_SYS_TRX_ID_WRITE_MARGIN`, and the
first allocation of the new run persists it.  The run is one that stays below
the 64-bit wrap-around: the header value plus `n` plus five margins is below
`2 ^ 64`. -/
theorem C2_trx_ids_not_reused_after_restart (st : sys_state) (n : Nat)
    (hwrap : mach_read_from_8 st.trx_sys_page (TRX_SYS + TRX_SYS_TRX_ID_STORE) + n + 1280
      < 2 ^ 64) :
    let run := trx_sys_get_new_trx_ids n (trx_sys_init_at_db_start st)
    let next := trx_sys_init_at_db_start run.2
    (∀ id ∈ run.1, id < next.trx_sys.max_trx_id)
      ∧ next.trx_sys.max_trx_id % TRX_SYS_TRX_ID_WRITE_MARGIN = 0
      ∧ mach_read_from_8 (trx_sys_get_new_trx_id next).2.trx_sys_page
          (TRX_SYS + TRX_SYS_TRX_ID_STORE) = next.trx_sys.max_trx_id := by
  intro run next
  -- the first start
  generalize hh : mach_read_from_8 st.trx_sys_page (TRX_SYS + TRX_SYS_TRX_ID_STORE) = h at hwrap
  obtain ⟨a1, a2, a3, _⟩ := ut_uint64_align_up_256 h (by omega)
  have hM0 : (trx_sys_init_at_db_start st).trx_sys.max_trx_id
      = ut_uint64_align_up h TRX_SYS_TRX_ID_WRITE_MARGIN + 512 := by
    unfold trx_sys_init_at_db_start mtr_read_uint64
    dsimp only
    rw [hh, Nat.mod_eq_of_lt (show ut_uint64_align_up h TRX_SYS_TRX_ID_WRITE_MARGIN
      + 2 * TRX_SYS_TRX_ID_WRITE_MARGIN < 2 ^ 64 by unfold TRX_SYS_TRX_ID_WRITE_MARGIN at a3 ⊢; omega)]
    rfl
  have hP0 : mach_read_from_8 (trx_sys_init_at_db_start st).trx_sys_page
      (TRX_SYS + TRX_SYS_TRX_ID_STORE) = h := by
    rw [trx_sys_init_at_db_start_page]
    exact hh
  obtain ⟨hids, hmaxn⟩ := trx_sys_get_new_trx_ids_eq n (trx_sys_init_at_db_start st)
    (by rw [hM0]; omega)
  -- the value persisted when the run ends
  generalize hp : mach_read_from_8 run.2.trx_sys_page (TRX_SYS + TRX_SYS_TRX_ID_STORE) = p
  have hpfacts : (n = 0 ∧ p = h) ∨ (p % 256 = 0
      ∧ p < ut_uint64_align_up h TRX_SYS_TRX_ID_WRITE_MARGIN + 512 + n
      ∧ ut_uint64_align_up h TRX_SYS_TRX_ID_WRITE_MARGIN + 512 + n ≤ p + 256) := by
    by_cases hn0 : n = 0
    · left
      subst hn0
      exact ⟨rfl, by rw [← hp]; exact hP0⟩
    · right
      have := trx_sys_get_new_trx_ids_persisted n (trx_sys_init_at_db_start st)
        (by rw [hM0]; omega) (by omega) (Or.inl (by rw [hM0]; omega))
      rw [hM0] at this
      rw [← hp]
      exact this
  obtain ⟨b1, b2, b3, b4⟩ := ut_uint64_align_up_256 p (by omega)
  have hM1 : next.trx_sys.max_trx_id = ut_uint64_align_up p TRX_SYS_TRX_ID_WRITE_MARGIN + 512 := by
    show (trx_sys_init_at_db_start run.2).trx_sys.max_trx_id = _
    unfold trx_sys_init_at_db_start mtr_read_uint64
    dsimp only
    rw [hp, Nat.mod_eq_of_lt (show ut_uint64_align_up p TRX_SYS_TRX_ID_WRITE_MARGIN
      + 2 * TRX_SYS_TRX_ID_WRITE_MARGIN < 2 ^ 64 by
        unfold TRX_SYS_TRX_ID_WRITE_MARGIN at b3 ⊢
        rcases hpfacts with ⟨_, c⟩ | ⟨_, c2, _⟩ <;> omega)]
    rfl
  refine ⟨?_, ?_, ?_⟩
  · intro id hid
    rw [show run.1 = _ from hids, hM0, List.mem_range'_1] at hid
    rw [hM1]
    rcases hpfacts with ⟨hn0, _⟩ | ⟨c1, c2, c3⟩
    · omega
    · have := b4 c1
      omega
  · rw [hM1]
    show (ut_uint64_align_up p TRX_SYS_TRX_ID_WRITE_MARGIN + 512) % 256 = 0
    omega
  · have hdiv : next.trx_sys.max_trx_id % TRX_SYS_TRX_ID_WRITE_MARGIN = 0 := by
      rw [hM1]
      show (ut_uint64_align_up p TRX_SYS_TRX_ID_WRITE_MARGIN + 512) % 256 = 0
      omega
    unfold trx_sys_get_new_trx_id
    dsimp only
    rw [if_pos hdiv, trx_sys_flush_max_trx_id_persists,
      Nat.mod_eq_of_lt (show next.trx_sys.max_trx_id < 2 ^ 64 by
        rw [hM1]
        rcases hpfacts with ⟨_, c⟩ | ⟨_, c2, _⟩ <;> omega)]

theorem C2_trx_ids_not_reused_after_restart_witness :
    mach_read_from_8 sample_sys_state.trx_sys_page (TRX_SYS + TRX_SYS_TRX_ID_STORE) + 300 + 1280
        < 2 ^ 64
      ∧ (∀ id ∈ (trx_sys_get_new_trx_ids 300 (trx_sys_init_at_db_start sample_sys_state)).1,
          id < (trx_sys_init_at_db_start
            (trx_sys_get_new_trx_ids 300
              (trx_sys_init_at_db_start sample_sys_state)).2).trx_sys.max_trx_id)
      ∧ (trx_sys_init_at_db_start
            (trx_sys_get_new_trx_ids 300
              (trx_sys_init_at_db_start sample_sys_state)).2).trx_sys.max_trx_id
          % TRX_SYS_TRX_ID_WRITE_MARGIN = 0 :=
  ⟨by decide, (C2_trx_ids_not_reused_after_restart sample_sys_state 300 (by decide)).1,
    (C2_trx_ids_not_reused_after_restart sample_sys_state 300 (by decide)).2.1⟩

/-- The log that `trx_undof_page_add_undo_rec_log` appends, when the
mini-transaction logs: in both branches the body is the 2-byte length and the
bytes of the page from `old_free + 2` on. -/
theorem trx_undof_page_add_undo_rec_log_eq (creating : Bool) (undo_page : Mem)
    (old_free new_free : Nat) (mtr : mtr_t) (hlog : mtr.log_mode ≠ MTR_LOG_NONE) :
    let r := mlog_write_initial_log_record_fast creating undo_page MLOG_UNDO_INSERT
      mtr.log_len { mtr with modifications := true }
    let len := (new_free + 2 ^ 65 - old_free - 4) % 2 ^ 64
    (trx_undof_page_add_undo_rec_log creating undo_page old_free new_free mtr).log
        = memcpy (mach_write_to_2 r.2.log r.1 len) (r.1 + 2) undo_page (old_free + 2) len
      ∧ (trx_undof_page_add_undo_rec_log creating undo_page old_free new_free mtr).log_len
        = r.1 + 2 + len := by
  intro r len
  have hmode : r.2.log_mode ≠ MTR_LOG_NONE := by
    show (mlog_write_initial_log_record_fast creating undo_page MLOG_UNDO_INSERT
      mtr.log_len { mtr with modifications := true }).2.log_mode ≠ _
    unfold mlog_write_initial_log_record_fast
    dsimp only
    split_ifs <;> exact hlog
  unfold trx_undof_page_add_undo_rec_log
  rw [mlog_open_logging mtr _ hlog]
  dsimp only
  split_ifs with h
  · exact ⟨rfl, rfl⟩
  · unfold mlog_catenate_string mtr_get_log_mode mlog_close dyn_push_string
    dsimp only
    rw [if_neg hmode]
    exact ⟨rfl, rfl⟩

/-- Replaying the body of an `MLOG_UNDO_INSERT` record: the page `page1` is
the original after the three pointer writes that end an undo record which
starts at `f` and whose last data byte is before `ptr`. -/
theorem trx_undo_parse_add_undo_rec_replay (log0 : Mem) (bs : Nat) (page0 rp : Mem)
    (f ptr : Nat) (hf : f + 2 ≤ ptr) (hptr : ptr < UNIV_PAGE_SIZE)
    (hrp : mach_read_from_2 rp (TRX_UNDO_PAGE_HDR + TRX_UNDO_PAGE_FREE) = f) :
    let e := ptr + 2
    let page1 := mach_write_to_2 (mach_write_to_2 (mach_write_to_2 page0 ptr f) f e)
      (TRX_UNDO_PAGE_HDR + TRX_UNDO_PAGE_FREE) e
    let len := (e + 2 ^ 65 - f - 4) % 2 ^ 64
    let log := memcpy (mach_write_to_2 log0 bs len) (bs + 2) page1 (f + 2) len
    let p := trx_undo_parse_add_undo_rec log bs (bs + 2 + len) (some rp)
    len = e - f - 4
      ∧ p.1 = some (bs + 2 + len)
      ∧ ∃ rp', p.2 = some rp'
          ∧ (∀ x, f ≤ x → x < e → rp' x = page1 x)
          ∧ mach_read_from_2 rp' (TRX_UNDO_PAGE_HDR + TRX_UNDO_PAGE_FREE) = e
          ∧ mach_read_from_2 page1 (TRX_UNDO_PAGE_HDR + TRX_UNDO_PAGE_FREE) = e := by
  intro e page1 len log p
  have hps : UNIV_PAGE_SIZE = 16384 := rfl
  have hlen : len = e - f - 4 := by
    show (ptr + 2 + 2 ^ 65 - f - 4) % 2 ^ 64 = ptr + 2 - f - 4
    omega
  have hlen' : len = ptr - f - 2 := by
    rw [hlen]
    show ptr + 2 - f - 4 = ptr - f - 2
    omega
  have hread : mach_read_from_2 log bs = len := by
    rw [mach_read_from_2_congr (mach_write_to_2 log0 bs len) log bs
      (fun x h1 h2 => by
        show memcpy _ _ _ _ _ x = _
        rw [memcpy_apply, if_neg (by omega)]), mach_read_write_2]
    omega
  have hp : p = (some (bs + 2 + len), some (memcpy
      (mach_write_to_2 (mach_write_to_2 (mach_write_to_2 rp f (f + 4 + len)) (f + 2 + len) f)
        (TRX_UNDO_PAGE_HDR + TRX_UNDO_PAGE_FREE) (f + 4 + len)) (f + 2) log (bs + 2) len)) := by
    show trx_undo_parse_add_undo_rec log bs (bs + 2 + len) (some rp) = _
    unfold trx_undo_parse_add_undo_rec
    rw [if_neg (by omega)]
    dsimp only
    rw [hread, if_neg (by omega), hrp]
  have he : f + 4 + len = e := by
    show f + 4 + len = ptr + 2
    omega
  have hpe : f + 2 + len = ptr := by omega
  rw [he, hpe] at hp
  have hH : TRX_UNDO_PAGE_HDR + TRX_UNDO_PAGE_FREE = 42 := rfl
  -- the bytes of the original page and of the replayed page
  have hpage1 : ∀ x, page1 x = if x = 42 then e / 2 ^ 8 % 256 else if x = 43 then e % 256
      else if x = f then e / 2 ^ 8 % 256 else if x = f + 1 then e % 256
      else if x = ptr then f / 2 ^ 8 % 256 else if x = ptr + 1 then f % 256 else page0 x := by
    intro x
    show mach_write_to_2 (mach_write_to_2 (mach_write_to_2 page0 ptr f) f e)
      (TRX_UNDO_PAGE_HDR + TRX_UNDO_PAGE_FREE) e x = _
    rw [hH]
    simp only [mach_write_to_2_apply]
  have hrp' : ∀ x, (memcpy
      (mach_write_to_2 (mach_write_to_2 (mach_write_to_2 rp f e) ptr f)
        (TRX_UNDO_PAGE_HDR + TRX_UNDO_PAGE_FREE) e) (f + 2) log (bs + 2) len) x
      = if f + 2 ≤ x ∧ x < ptr then page1 x
        else if x = 42 then e / 2 ^ 8 % 256 else if x = 43 then e % 256
        else if x = ptr then f / 2 ^ 8 % 256 else if x = ptr + 1 then f % 256
        else if x = f then e / 2 ^ 8 % 256 else if x = f + 1 then e % 256 else rp x := by
    intro x
    rw [memcpy_apply, hH]
    by_cases hx : f + 2 ≤ x ∧ x < ptr
    · rw [if_pos (by omega), if_pos hx]
      show memcpy _ _ _ _ _ _ = _
      rw [memcpy_apply, if_pos (by omega)]
      congr 1
      omega
    · rw [if_neg (by omega), if_neg hx]
      simp only [mach_write_to_2_apply]
  refine ⟨hlen, by rw [hp], memcpy
      (mach_write_to_2 (mach_write_to_2 (mach_write_to_2 rp f e) ptr f)
        (TRX_UNDO_PAGE_HDR + TRX_UNDO_PAGE_FREE) e) (f + 2) log (bs + 2) len,
    by rw [hp], ?_, ?_, ?_⟩
  · intro x hx1 hx2
    rw [hrp' x]
    by_cases hx : f + 2 ≤ x ∧ x < ptr
    · rw [if_pos hx]
    · rw [if_neg hx, hpage1 x]
      have hx' : x = f ∨ x = f + 1 ∨ x = ptr ∨ x = ptr + 1 := by
        show x = f ∨ x = f + 1 ∨ x = ptr ∨ x = ptr + 1
        have : x < ptr + 2 := hx2
        omega
      split_ifs <;> first | rfl | omega
  · have h42 := hrp' 42
    have h43 := hrp' 43
    have g42 := hpage1 42
    have g43 := hpage1 43
    rw [if_pos rfl] at g42
    rw [if_neg (by omega), if_pos rfl] at g43
    rw [g42] at h42
    rw [g43] at h43
    simp only [if_true, ite_self, if_neg (show (43:Nat) ≠ 42 by omega)] at h42 h43
    rw [hH] at h42 h43 ⊢
    unfold mach_read_from_2 Mem.byte
    rw [h42, h43]
    have : e < 2 ^ 16 := by
      show ptr + 2 < 2 ^ 16
      omega
    omega
  · rw [hH]
    unfold mach_read_from_2 Mem.byte
    rw [hpage1 42, hpage1 43, if_pos rfl, if_neg (by omega), if_pos rfl]
    have : e < 2 ^ 16 := by
      show ptr + 2 < 2 ^ 16
      omega
    omega

/-- The log record of an undo insert, replayed: `page1` is the undo page after
the three pointer writes that finish the record, `rp` the page to recover. -/
theorem trx_undof_page_add_undo_rec_log_replay (creating : Bool) (page0 rp : Mem)
    (f ptr : Nat) (mtr : mtr_t) (hlog : mtr.log_mode ≠ MTR_LOG_NONE)
    (hf : f + 2 ≤ ptr) (hptr : ptr < UNIV_PAGE_SIZE)
    (hrp : mach_read_from_2 rp (TRX_UNDO_PAGE_HDR + TRX_UNDO_PAGE_FREE) = f) :
    let e := ptr + 2
    let page1 := mach_write_to_2 (mach_write_to_2 (mach_write_to_2 page0 ptr f) f e)
      (TRX_UNDO_PAGE_HDR + TRX_UNDO_PAGE_FREE) e
    let mtr1 := trx_undof_page_add_undo_rec_log creating page1 f e mtr
    let body := (mlog_write_initial_log_record_fast creating page1 MLOG_UNDO_INSERT
      mtr.log_len { mtr with modifications := true }).1
    let p := trx_undo_parse_add_undo_rec mtr1.log body mtr1.log_len (some rp)
    mtr1.log_len = body + 2 + (e - f - 4)
      ∧ mach_read_from_2 mtr1.log body = e - f - 4
      ∧ (∀ k, k < e - f - 4 → mtr1.log (body + 2 + k) = page1 (f + 2 + k))
      ∧ p.1 = some mtr1.log_len
      ∧ ∃ rp', p.2 = some rp'
          ∧ (∀ x, f ≤ x → x < e → rp' x = page1 x)
          ∧ mach_read_from_2 rp' (TRX_UNDO_PAGE_HDR + TRX_UNDO_PAGE_FREE) = e
          ∧ mach_read_from_2 page1 (TRX_UNDO_PAGE_HDR + TRX_UNDO_PAGE_FREE) = e := by
  intro e page1 mtr1 body p
  obtain ⟨hl1, hl2⟩ := trx_undof_page_add_undo_rec_log_eq creating page1 f e mtr hlog
  have hrep := trx_undo_parse_add_undo_rec_replay
    (mlog_write_initial_log_record_fast creating page1 MLOG_UNDO_INSERT
      mtr.log_len { mtr with modifications := true }).2.log body page0 rp f ptr hf hptr hrp
  dsimp only at hl1 hl2 hrep
  obtain ⟨hlen, hp1, rp', hp2, hbytes, hfree, hfree1⟩ := hrep
  have hlog1 : mtr1.log = _ := hl1
  have hlen1 : mtr1.log_len = _ := hl2
  have hps : UNIV_PAGE_SIZE = 16384 := rfl
  refine ⟨?_, ?_, ?_, ?_, rp', ?_, hbytes, hfree, hfree1⟩
  · rw [hlen1, hlen]
  · rw [hlog1, mach_read_from_2_congr (mach_write_to_2 _ body _) _ body
      (fun x h1 h2 => by rw [memcpy_apply, if_neg (by omega)]), mach_read_write_2, hlen]
    show (ptr + 2 - f - 4) % 2 ^ 16 = ptr + 2 - f - 4
    omega
  · intro k hk
    rw [hlog1, memcpy_apply, hlen, if_pos (by omega)]
    congr 1
    omega
  · show (trx_undo_parse_add_undo_rec mtr1.log body mtr1.log_len (some rp)).1 = _
    rw [hlog1, hlen1]
    exact hp1
  · show (trx_undo_parse_add_undo_rec mtr1.log body mtr1.log_len (some rp)).2 = _
    rw [hlog1, hlen1]
    exact hp2

/-- Claim C8: for an undo page `page0` with first-free offset `f` and an undo
record written from `f + 2` up to `ptr`, `trx_undo_page_set_next_prev_and_add`
(and the end of `trx_undo_page_report_modify`, which makes the same three
writes and the same call) leaves the page `page1`: the previous pointer `f` at
`ptr`, the next pointer `e = ptr + 2` at `f`, and `TRX_UNDO_PAGE_FREE` set to
`e`; with logging enabled the body that `trx_undof_page_add_undo_rec_log` logs
is the 2-byte length `e - f - 4` and the bytes of `page1` from `f + 2`; and
`trx_undo_parse_add_undo_rec` applied to that body and to a page whose
`TRX_UNDO_PAGE_FREE` is `f` returns the pointer just past the body and a page
that has the bytes of `page1` in `[f, e)` and `TRX_UNDO_PAGE_FREE` set to
`e`. -/
theorem C8_undo_insert_redo_replay (creating : Bool) (page0 rp : Mem) (f ptr : Nat)
    (mtr : mtr_t) (hlog : mtr.log_mode ≠ MTR_LOG_NONE)
    (hf : f + 2 ≤ ptr) (hptr : ptr < UNIV_PAGE_SIZE)
    (hrp : mach_read_from_2 rp (TRX_UNDO_PAGE_HDR + TRX_UNDO_PAGE_FREE) = f) :
    let e := ptr + 2
    let page1 := mach_write_to_2 (mach_write_to_2 (mach_write_to_2 page0 ptr f) f e)
      (TRX_UNDO_PAGE_HDR + TRX_UNDO_PAGE_FREE) e
    let mtr1 := trx_undof_page_add_undo_rec_log creating page1 f e mtr
    let body := (mlog_write_initial_log_record_fast creating page1 MLOG_UNDO_INSERT
      mtr.log_len { mtr with modifications := true }).1
    let p := trx_undo_parse_add_undo_rec mtr1.log body mtr1.log_len (some rp)
    (mach_read_from_2 page0 (TRX_UNDO_PAGE_HDR + TRX_UNDO_PAGE_FREE) = f →
        ¬ trx_undo_left ptr < 2 →
        trx_undo_page_set_next_prev_and_add creating page0 ptr mtr = (f, page1, mtr1))
      ∧ mach_read_from_2 page1 (TRX_UNDO_PAGE_HDR + TRX_UNDO_PAGE_FREE) = e
      ∧ mtr1.log_len = body + 2 + (e - f - 4)
      ∧ mach_read_from_2 mtr1.log body = e - f - 4
      ∧ (∀ k, k < e - f - 4 → mtr1.log (body + 2 + k) = page1 (f + 2 + k))
      ∧ p.1 = some mtr1.log_len
      ∧ ∃ rp', p.2 = some rp'
          ∧ (∀ x, f ≤ x → x < e → rp' x = page1 x)
          ∧ mach_read_from_2 rp' (TRX_UNDO_PAGE_HDR + TRX_UNDO_PAGE_FREE) = e := by
  intro e page1 mtr1 body p
  have h := trx_undof_page_add_undo_rec_log_replay creating page0 rp f ptr mtr hlog hf hptr hrp
  dsimp only at h
  obtain ⟨h1, h2, h3, h4, rp', h5, h6, h7, h8⟩ := h
  refine ⟨?_, h8, h1, h2, h3, h4, rp', h5, h6, h7⟩
  intro hfree hleft
  unfold trx_undo_page_set_next_prev_and_add
  rw [if_neg hleft]
  dsimp only
  rw [hfree]

theorem C8_undo_insert_redo_replay_witness :
    mtr_start.log_mode ≠ MTR_LOG_NONE ∧ 100 + 2 ≤ 120 ∧ 120 < UNIV_PAGE_SIZE
      ∧ mach_read_from_2
          (mach_write_to_2 (fun _ => 0) (TRX_UNDO_PAGE_HDR + TRX_UNDO_PAGE_FREE) 100)
          (TRX_UNDO_PAGE_HDR + TRX_UNDO_PAGE_FREE) = 100
      ∧ ∃ rp', (trx_undo_parse_add_undo_rec
            (trx_undof_page_add_undo_rec_log false
              (mach_write_to_2 (mach_write_to_2 (mach_write_to_2 (fun _ => 7) 120 100) 100 122)
                (TRX_UNDO_PAGE_HDR + TRX_UNDO_PAGE_FREE) 122) 100 122 mtr_start).log
            (mlog_write_initial_log_record_fast false
              (mach_write_to_2 (mach_write_to_2 (mach_write_to_2 (fun _ => 7) 120 100) 100 122)
                (TRX_UNDO_PAGE_HDR + TRX_UNDO_PAGE_FREE) 122) MLOG_UNDO_INSERT
              mtr_start.log_len { mtr_start with modifications := true }).1
            (trx_undof_page_add_undo_rec_log false
              (mach_write_to_2 (mach_write_to_2 (mach_write_to_2 (fun _ => 7) 120 100) 100 122)
                (TRX_UNDO_PAGE_HDR + TRX_UNDO_PAGE_FREE) 122) 100 122 mtr_start).log_len
            (some (mach_write_to_2 (fun _ => 0)
              (TRX_UNDO_PAGE_HDR + TRX_UNDO_PAGE_FREE) 100))).2 = some rp'
          ∧ (∀ x, 100 ≤ x → x < 122 → rp' x
              = mach_write_to_2 (mach_write_to_2 (mach_write_to_2 (fun _ => 7) 120 100) 100 122)
                (TRX_UNDO_PAGE_HDR + TRX_UNDO_PAGE_FREE) 122 x)
          ∧ mach_read_from_2 rp' (TRX_UNDO_PAGE_HDR + TRX_UNDO_PAGE_FREE) = 122 :=
  ⟨by decide, by decide, by decide, by decide,
    (C8_undo_insert_redo_replay false (fun _ => 7)
      (mach_write_to_2 (fun _ => 0) (TRX_UNDO_PAGE_HDR + TRX_UNDO_PAGE_FREE) 100) 100 120
      mtr_start (by decide) (by decide) (by decide) (by decide)).2.2.2.2.2.2⟩

theorem trx_undo_left_eq (ptr : Nat) (h : ptr + 18 ≤ UNIV_PAGE_SIZE) :
    trx_undo_left ptr = UNIV_PAGE_SIZE - 18 - ptr := by
  unfold trx_undo_left FIL_PAGE_DATA_END
  unfold UNIV_PAGE_SIZE at h ⊢
  omega

theorem memcpy_data_apply (m : Mem) (dst : Nat) (data : List Nat) (len x : Nat) :
    memcpy_data m dst data len x
      = if dst ≤ x ∧ x < dst + len then data.getD (x - dst) 0 else m x := rfl

theorem trx_t.set_op_undo_undo_no (trx : trx_t) (op_type : Nat) (undo : trx_undo_t) :
    (trx.set_op_undo op_type undo).undo_no = trx.undo_no := by
  unfold trx_t.set_op_undo
  split_ifs <;> rfl

theorem trx_t.set_op_undo_rseg (trx : trx_t) (op_type : Nat) (undo : trx_undo_t) :
    (trx.set_op_undo op_type undo).rseg = trx.rseg := by
  unfold trx_t.set_op_undo
  split_ifs <;> rfl

theorem trx_t.op_undo_set_op_undo (trx : trx_t) (op_type : Nat) (undo : trx_undo_t) :
    (trx.set_op_undo op_type undo).op_undo op_type = some undo := by
  unfold trx_t.set_op_undo trx_t.op_undo
  split_ifs <;> rfl

/-- The loop of `trx_undo_report_row_operation` ends in one of two ways: out
of file space, with the undo number as it was, or through the success branch
after a pass that wrote a record at a nonzero offset. -/
theorem trx_undo_report_row_operation_loop_cases (env : undo_env) (op_type : Nat)
    (index : dict_index_t) (clust_entry : dtuple_t) (roll_ptr : Nat) :
    ∀ (fp : List Nat) (w : undo_world) (trx : trx_t) (undo : trx_undo_t) (page_no : Nat)
      (mtr : mtr_t),
      ((trx_undo_report_row_operation_loop env op_type index clust_entry roll_ptr
            fp w trx undo page_no mtr).err = DB_OUT_OF_FILE_SPACE
          ∧ (trx_undo_report_row_operation_loop env op_type index clust_entry roll_ptr
            fp w trx undo page_no mtr).trx.undo_no = trx.undo_no
          ∧ (trx_undo_report_row_operation_loop env op_type index clust_entry roll_ptr
            fp w trx undo page_no mtr).roll_ptr = roll_ptr)
        ∨ ∃ (w0 : undo_world) (u0 : trx_undo_t) (pn : Nat) (mtr0 : mtr_t),
            (trx_undo_report_row_operation_write env w0 op_type trx u0 index clust_entry
              pn mtr0).1 ≠ 0
            ∧ trx_undo_report_row_operation_loop env op_type index clust_entry roll_ptr
                fp w trx undo page_no mtr
              = trx_undo_report_row_operation_done w0 op_type trx
                  (trx_undo_report_row_operation_write env w0 op_type trx u0 index clust_entry
                    pn mtr0).2.2.2 pn
                  (trx_undo_report_row_operation_write env w0 op_type trx u0 index clust_entry
                    pn mtr0).1
                  (trx_undo_report_row_operation_write env w0 op_type trx u0 index clust_entry
                    pn mtr0).2.1
                  (trx_undo_report_row_operation_write env w0 op_type trx u0 index clust_entry
                    pn mtr0).2.2.1 := by
  intro fp
  induction fp with
  | nil =>
    intro w trx undo page_no mtr
    rw [trx_undo_report_row_operation_loop]
    dsimp only
    split_ifs with h0
    · exact Or.inl ⟨rfl, trx_t.set_op_undo_undo_no _ _ _, rfl⟩
    · exact Or.inr ⟨w, undo, page_no, mtr, h0, rfl⟩
  | cons p rest ih =>
    intro w trx undo page_no mtr
    rw [trx_undo_report_row_operation_loop]
    dsimp only
    split_ifs with h0 h1
    · exact Or.inl ⟨rfl, trx_t.set_op_undo_undo_no _ _ _, rfl⟩
    · exact ih _ _ _ _ _
    · exact Or.inr ⟨w, undo, page_no, mtr, h0, rfl⟩

/-- A pass of the loop of `trx_undo_report_row_operation` that writes the record
at a nonzero offset goes through the success branch. -/
theorem trx_undo_report_row_operation_loop_success (env : undo_env) (op_type : Nat)
    (index : dict_index_t) (clust_entry : dtuple_t) (roll_ptr : Nat) (fp : List Nat)
    (w : undo_world) (trx : trx_t) (undo : trx_undo_t) (page_no : Nat) (mtr : mtr_t)
    (h : (trx_undo_report_row_operation_write env w op_type trx undo index clust_entry
      page_no mtr).1 ≠ 0) :
    trx_undo_report_row_operation_loop env op_type index clust_entry roll_ptr fp w trx undo
        page_no mtr
      = trx_undo_report_row_operation_done w op_type trx
          (trx_undo_report_row_operation_write env w op_type trx undo index clust_entry
            page_no mtr).2.2.2 page_no
          (trx_undo_report_row_operation_write env w op_type trx undo index clust_entry
            page_no mtr).1
          (trx_undo_report_row_operation_write env w op_type trx undo index clust_entry
            page_no mtr).2.1
          (trx_undo_report_row_operation_write env w op_type trx undo index clust_entry
            page_no mtr).2.2.1 := by
  cases fp with
  | nil =>
    rw [trx_undo_report_row_operation_loop]
    dsimp only
    rw [if_neg h]
  | cons p rest =>
    rw [trx_undo_report_row_operation_loop]
    dsimp only
    rw [if_neg h]

/-- A pass of the loop of `trx_undo_report_row_operation` on which the record
does not fit, when the file space has no page left, ends the loop out of file
space. -/
theorem trx_undo_report_row_operation_loop_no_space (env : undo_env) (op_type : Nat)
    (index : dict_index_t) (clust_entry : dtuple_t) (roll_ptr : Nat)
    (w : undo_world) (trx : trx_t) (undo : trx_undo_t) (page_no : Nat) (mtr : mtr_t)
    (h : (trx_undo_report_row_operation_write env w op_type trx undo index clust_entry
      page_no mtr).1 = 0) :
    (trx_undo_report_row_operation_loop env op_type index clust_entry roll_ptr [] w trx undo
        page_no mtr).err = DB_OUT_OF_FILE_SPACE := by
  rw [trx_undo_report_row_operation_loop]
  dsimp only
  rw [if_pos h]

/-- The write of a pass leaves the undo log in its space. -/
theorem trx_undo_report_row_operation_write_space (env : undo_env) (w : undo_world)
    (op_type : Nat) (trx : trx_t) (undo : trx_undo_t) (index : dict_index_t)
    (clust_entry : dtuple_t) (page_no : Nat) (mtr : mtr_t) :
    (trx_undo_report_row_operation_write env w op_type trx undo index clust_entry
      page_no mtr).2.2.2.space = undo.space := by
  unfold trx_undo_report_row_operation_write
  dsimp only
  split_ifs <;> rfl

/-- Storing the undo log that a transaction has for an operation leaves the
transaction as it is. -/
theorem trx_t.set_op_undo_of_op_undo (trx : trx_t) (op_type : Nat) (undo : trx_undo_t)
    (h : trx.op_undo op_type = some undo) : trx.set_op_undo op_type undo = trx := by
  unfold trx_t.op_undo at h
  unfold trx_t.set_op_undo
  cases trx
  split_ifs with c
  · rw [if_pos c] at h
    simp only at h
    rw [h]
  · rw [if_neg c] at h
    simp only at h
    rw [h]

/-- Claim C4: `trx_undo_report_row_operation` on a clustered index returns;
with `BTR_NO_UNDO_LOG_FLAG` set it returns `DB_SUCCESS` with roll pointer 0 and
the transaction as it was; when it returns `DB_SUCCESS` without that flag, it
has written an undo record: `trx.undo_no` is one larger, and in the undo log of
the operation `top_undo_no` is the previous `trx.undo_no`, `top_offset` is the
nonzero offset that the write of the record returned on the page
`top_page_no`, and `empty` is false; in every other outcome (no undo log could
be assigned, `DB_OUT_OF_FILE_SPACE`) `trx.undo_no` is unchanged.  And it does
write the record: without the flag, when the transaction has an undo log for
the operation, its own or the one that `trx_undo_assign_undo` has just stored,
and the record fits on the last page of that log (the write of the first pass
returns an offset other than 0), the function returns `DB_SUCCESS` with
`trx.undo_no` one larger, with the record on that page at the offset returned,
and with `top_page_no`, `top_offset`, `top_undo_no` and `empty` of the undo log
set to that page, that offset, the previous `trx.undo_no` and false; when the
record does not fit and the file space has no page left, it returns
`DB_OUT_OF_FILE_SPACE`.  `trx_undo_assign_undo` is a parameter that gives an
error code other than `DB_SUCCESS` when it assigns no undo log, and
`trx.undo_no` is below the 64-bit wrap-around. -/
theorem C4_undo_no_counts_undo_records (env : undo_env) (w : undo_world) (flags op_type : Nat)
    (trx : trx_t) (index : dict_index_t) (clust_entry : dtuple_t) (roll_ptr : Nat)
    (hclust : dict_index_is_clust index = true)
    (hassign : ∀ t ty, (env.trx_undo_assign_undo t ty).2 = none →
      (env.trx_undo_assign_undo t ty).1 ≠ DB_SUCCESS)
    (hwrap : trx.undo_no + 1 < 2 ^ 64) :
    ∃ res, trx_undo_report_row_operation env w flags op_type trx index clust_entry roll_ptr
        = some res
      ∧ (flags &&& BTR_NO_UNDO_LOG_FLAG ≠ 0 →
          res.err = DB_SUCCESS ∧ res.roll_ptr = 0 ∧ res.trx = trx)
      ∧ (flags &&& BTR_NO_UNDO_LOG_FLAG = 0 → res.err = DB_SUCCESS →
          res.trx.undo_no = trx.undo_no + 1
          ∧ ∃ undo, res.trx.op_undo op_type = some undo
              ∧ undo.top_undo_no = trx.undo_no ∧ undo.top_offset ≠ 0 ∧ undo.empty = false
              ∧ res.roll_ptr = trx_undo_build_roll_ptr (op_type = TRX_UNDO_INSERT_OP)
                  trx.rseg.id undo.top_page_no undo.top_offset
              ∧ ∃ (w0 : undo_world) (t0 : trx_t) (u0 : trx_undo_t) (mtr0 : mtr_t),
                  t0.undo_no = trx.undo_no
                  ∧ undo.top_offset = (trx_undo_report_row_operation_write env w0 op_type t0 u0
                      index clust_entry undo.top_page_no mtr0).1
                  ∧ res.world.pool undo.space undo.top_page_no
                      = (trx_undo_report_row_operation_write env w0 op_type t0 u0
                          index clust_entry undo.top_page_no mtr0).2.1)
      ∧ (res.err ≠ DB_SUCCESS → res.trx.undo_no = trx.undo_no)
      ∧ (flags &&& BTR_NO_UNDO_LOG_FLAG = 0 →
          ∀ (undo : trx_undo_t) (a : Nat × Mem × mtr_t × trx_undo_t),
            (trx.op_undo op_type = some undo
              ∨ (trx.op_undo op_type = none
                ∧ (env.trx_undo_assign_undo trx
                    (if op_type = TRX_UNDO_INSERT_OP then TRX_UNDO_INSERT
                      else TRX_UNDO_UPDATE)).2 = some undo)) →
            a = trx_undo_report_row_operation_write env w op_type
                  (trx.set_op_undo op_type undo) undo index clust_entry undo.last_page_no
                  mtr_start →
            (a.1 ≠ 0 →
              res.err = DB_SUCCESS
              ∧ res.trx.undo_no = trx.undo_no + 1
              ∧ res.trx.op_undo op_type
                  = some { a.2.2.2 with empty := false, top_page_no := undo.last_page_no,
                                        top_offset := a.1, top_undo_no := trx.undo_no,
                                        guess_block := some undo.last_page_no }
              ∧ res.roll_ptr = trx_undo_build_roll_ptr (op_type = TRX_UNDO_INSERT_OP)
                  trx.rseg.id undo.last_page_no a.1
              ∧ res.world.pool undo.space undo.last_page_no = a.2.1)
            ∧ (a.1 = 0 → w.free_pages = [] → res.err = DB_OUT_OF_FILE_SPACE)) := by
  unfold trx_undo_report_row_operation
  rw [if_neg (by simp [hclust])]
  by_cases hflag : flags &&& BTR_NO_UNDO_LOG_FLAG ≠ 0
  · rw [if_pos hflag]
    exact ⟨_, rfl, fun _ => ⟨rfl, rfl, rfl⟩, fun h => absurd h hflag, fun _ => rfl,
      fun h => absurd h hflag⟩
  rw [if_neg hflag]
  dsimp only
  -- the transaction after the undo log was assigned
  generalize hasg : (if op_type = TRX_UNDO_INSERT_OP then
        if trx.insert_undo = none then
          ((env.trx_undo_assign_undo trx TRX_UNDO_INSERT).1,
            { trx with insert_undo := (env.trx_undo_assign_undo trx TRX_UNDO_INSERT).2 })
        else (DB_SUCCESS, trx)
      else
        if trx.update_undo = none then
          ((env.trx_undo_assign_undo trx TRX_UNDO_UPDATE).1,
            { trx with update_undo := (env.trx_undo_assign_undo trx TRX_UNDO_UPDATE).2 })
        else (DB_SUCCESS, trx)) = asg
  have hasg_no : asg.2.undo_no = trx.undo_no ∧ asg.2.rseg = trx.rseg
      ∧ (asg.2.op_undo op_type = none → asg.1 ≠ DB_SUCCESS) := by
    rw [← hasg]
    unfold trx_t.op_undo
    split_ifs with c1 c2 c2
    · exact ⟨rfl, rfl, fun h => hassign _ _ h⟩
    · exact ⟨rfl, rfl, fun h => absurd h c2⟩
    · exact ⟨rfl, rfl, fun h => hassign _ _ h⟩
    · exact ⟨rfl, rfl, fun h => absurd h c2⟩
  -- the transaction with the undo log of the operation
  have hasg_undo : ∀ undo : trx_undo_t,
      (trx.op_undo op_type = some undo
        ∨ (trx.op_undo op_type = none
          ∧ (env.trx_undo_assign_undo trx
              (if op_type = TRX_UNDO_INSERT_OP then TRX_UNDO_INSERT
                else TRX_UNDO_UPDATE)).2 = some undo)) →
      asg.2 = trx.set_op_undo op_type undo := by
    intro undo hu
    rw [← hasg]
    rcases hu with hu | ⟨hu1, hu2⟩
    · rw [trx_t.set_op_undo_of_op_undo trx op_type undo hu]
      unfold trx_t.op_undo at hu
      by_cases c1 : op_type = TRX_UNDO_INSERT_OP
      · rw [if_pos c1] at hu ⊢
        rw [if_neg (by rw [hu]; simp)]
      · rw [if_neg c1] at hu ⊢
        rw [if_neg (by rw [hu]; simp)]
    · unfold trx_t.op_undo at hu1
      unfold trx_t.set_op_undo
      by_cases c1 : op_type = TRX_UNDO_INSERT_OP
      · rw [if_pos c1] at hu1 hu2 ⊢
        rw [if_pos c1, if_pos hu1, hu2]
      · rw [if_neg c1] at hu1 hu2
        rw [if_neg c1, if_neg c1, if_pos hu1, hu2]
  obtain ⟨hno, hrseg, hnone⟩ := hasg_no
  cases hu : asg.2.op_undo op_type with
  | none =>
    refine ⟨_, rfl, fun h => absurd h hflag, fun _ h => absurd h (hnone hu), fun _ => hno, ?_⟩
    intro _ undo a hundo _
    rw [hasg_undo undo hundo, trx_t.op_undo_set_op_undo] at hu
    cases hu
  | some undo =>
    dsimp only
    refine ⟨_, rfl, fun h => absurd h hflag, ?_, ?_, ?_⟩
    · intro _ hs
      rcases trx_undo_report_row_operation_loop_cases env op_type index clust_entry roll_ptr
        w.free_pages w asg.2 undo undo.last_page_no mtr_start with ⟨h1, _, _⟩ | ⟨w0, u0, pn, mtr0, hne, heq⟩
      · rw [h1] at hs
        exact absurd hs (by decide)
      · rw [heq]
        refine ⟨?_, _, trx_t.op_undo_set_op_undo _ _ _, ?_, hne, rfl, ?_, w0, asg.2, u0, mtr0, hno, rfl, ?_⟩
        · show (_ + 1) % 2 ^ 64 = _
          rw [trx_t.set_op_undo_undo_no, hno, Nat.mod_eq_of_lt hwrap]
        · exact hno
        · show trx_undo_build_roll_ptr _ (trx_t.rseg (trx_t.set_op_undo _ _ _)).id _ _ = _
          rw [trx_t.set_op_undo_rseg, hrseg]
        · show (if _ ∧ _ then _ else _) = _
          rw [if_pos ⟨rfl, rfl⟩]
    · intro hne
      rcases trx_undo_report_row_operation_loop_cases env op_type index clust_entry roll_ptr
        w.free_pages w asg.2 undo undo.last_page_no mtr_start with ⟨_, h2, _⟩ | ⟨w0, u0, pn, mtr0, _, heq⟩
      · rw [h2, hno]
      · rw [heq] at hne
        exact absurd rfl hne
    · intro _ undo2 a hundo ha
      have e2 := hasg_undo undo2 hundo
      rw [e2, trx_t.op_undo_set_op_undo] at hu
      have e3 : undo2 = undo := Option.some.inj hu
      subst e3
      rw [e2]
      subst ha
      constructor
      · intro hne
        rw [trx_undo_report_row_operation_loop_success env op_type index clust_entry roll_ptr
          w.free_pages w _ undo2 undo2.last_page_no mtr_start hne]
        refine ⟨rfl, ?_, ?_, ?_, ?_⟩
        · show (_ + 1) % 2 ^ 64 = _
          rw [trx_t.set_op_undo_undo_no, trx_t.set_op_undo_undo_no, Nat.mod_eq_of_lt hwrap]
        · refine (trx_t.op_undo_set_op_undo _ _ _).trans ?_
          rw [trx_t.set_op_undo_undo_no]
        · show trx_undo_build_roll_ptr _ (trx_t.rseg (trx_t.set_op_undo _ _ _)).id _ _ = _
          rw [trx_t.set_op_undo_rseg, trx_t.set_op_undo_rseg]
        · show (if _ ∧ _ then _ else _) = _
          rw [if_pos ⟨(trx_undo_report_row_operation_write_space _ _ _ _ _ _ _ _ _).symm, rfl⟩]
      · intro h0 hfp
        rw [hfp]
        exact trx_undo_report_row_operation_loop_no_space env op_type index clust_entry
          roll_ptr w _ undo2 undo2.last_page_no mtr_start h0

/-- The theorem `C4_undo_no_counts_undo_records` at an insert by a transaction
at undo number 0 that has no undo log yet: the call returns `DB_SUCCESS`, the
undo number is 1, the record is on page 7 at the offset 100, with the byte of
the column in it, and the undo log has `top_page_no = 7`, `top_offset = 100`,
`top_undo_no = 0` and `empty = false`; and at an update whose record does not
fit, when the file space has no page left: the call returns
`DB_OUT_OF_FILE_SPACE` and the undo number is 0 still. -/
theorem C4_undo_no_counts_undo_records_witness :
    dict_index_is_clust short_column_index = true
      ∧ (∀ t ty, (sample_undo_env.trx_undo_assign_undo t ty).2 = none →
          (sample_undo_env.trx_undo_assign_undo t ty).1 ≠ DB_SUCCESS)
      ∧ sample_trx.undo_no + 1 < 2 ^ 64
      ∧ (∃ res, trx_undo_report_row_operation sample_undo_env sample_undo_world 0
            TRX_UNDO_INSERT_OP sample_trx short_column_index short_column_tuple 0 = some res
          ∧ res.err = DB_SUCCESS
          ∧ res.trx.undo_no = 1
          ∧ res.trx.insert_undo = some ⟨0, 7, false, 7, 100, 0, some 7, false⟩
          ∧ res.world.pool 0 7 106 = 65
          ∧ mach_read_from_2 (res.world.pool 0 7) (TRX_UNDO_PAGE_HDR + TRX_UNDO_PAGE_FREE) = 109)
      ∧ (∃ res, trx_undo_report_row_operation sample_undo_env
            { sample_undo_world with free_pages := [] } 0
            TRX_UNDO_MODIFY_OP sample_trx short_column_index short_column_tuple 0 = some res
          ∧ res.err = DB_OUT_OF_FILE_SPACE
          ∧ res.trx.undo_no = 0) :=
  ⟨by decide, fun _ _ h => by simp [sample_undo_env] at h, by decide,
    (C4_undo_no_counts_undo_records sample_undo_env sample_undo_world 0 TRX_UNDO_INSERT_OP
      sample_trx short_column_index short_column_tuple 0 (by decide)
      (fun _ _ h => by simp [sample_undo_env] at h)
      (by decide)).imp
      (fun res h => by
        obtain ⟨h1, h2, h3, h4, h5⟩ := (h.2.2.2.2 (by decide) ⟨0, 7, true, 7, 0, 0, none, false⟩ _
          (Or.inr ⟨rfl, rfl⟩) rfl).1 (by decide)
        refine ⟨h.1, h1, h2, ?_, ?_, ?_⟩
        · exact h3.trans (by decide)
        · exact (congrFun h5 106).trans (by decide)
        · rw [show res.world.pool 0 7 = _ from h5]
          decide),
    (C4_undo_no_counts_undo_records sample_undo_env { sample_undo_world with free_pages := [] }
      0 TRX_UNDO_MODIFY_OP sample_trx short_column_index short_column_tuple 0 (by decide)
      (fun _ _ h => by simp [sample_undo_env] at h)
      (by decide)).imp
      (fun res h => by
        have h1 := (h.2.2.2.2 (by decide) ⟨0, 7, true, 7, 0, 0, none, false⟩ _
          (Or.inr ⟨rfl, rfl⟩) rfl).2 (by decide) rfl
        exact ⟨h.1, h1, h.2.2.2.1 (by rw [h1]; decide)⟩)⟩


theorem rec_comp_lens_size_succ (index : dict_index_t) (fields : List dfield_t) (j : Nat) :
    rec_comp_lens_size index fields (j + 1) = rec_comp_lens_size index fields j
      + rec_comp_field_lens_size (dict_index_get_nth_field index j) (dfield_array_get fields j) :=
  rfl

theorem rec_comp_data_offs_succ (fields : List dfield_t) (j : Nat) :
    rec_comp_data_offs fields (j + 1)
      = rec_comp_data_offs fields j + dfield_data_size (dfield_array_get fields j) := rfl

theorem dict_index_n_nullable_before_succ (index : dict_index_t) (j : Nat) :
    dict_index_n_nullable_before index (j + 1) = dict_index_n_nullable_before index j
      + (if dict_field_is_nullable (dict_index_get_nth_field index j) then 1 else 0) := rfl

theorem rec_comp_lens_size_le (index : dict_index_t) (fields : List dfield_t) (i k : Nat) :
    rec_comp_lens_size index fields i ≤ rec_comp_lens_size index fields (i + k) := by
  induction k with
  | zero => exact Nat.le_refl _
  | succ k ih => rw [← Nat.add_assoc, rec_comp_lens_size_succ]; omega

theorem dict_index_n_nullable_before_le (index : dict_index_t) (i k : Nat) :
    dict_index_n_nullable_before index i ≤ dict_index_n_nullable_before index (i + k) := by
  induction k with
  | zero => exact Nat.le_refl _
  | succ k ih => rw [← Nat.add_assoc, dict_index_n_nullable_before_succ]; omega

theorem rec_comp_data_offs_le (fields : List dfield_t) (i k : Nat) :
    rec_comp_data_offs fields i ≤ rec_comp_data_offs fields (i + k) := by
  induction k with
  | zero => exact Nat.le_refl _
  | succ k ih => rw [← Nat.add_assoc, rec_comp_data_offs_succ]; omega

theorem rec_comp_field_lens_size_le (ifield : dict_field_t) (field : dfield_t) :
    rec_comp_field_lens_size ifield field ≤ 2 := by
  unfold rec_comp_field_lens_size
  split_ifs <;> omega

theorem two_pow_mod_256 (b : Nat) (hb : b ≤ 8) : 2 ^ b % 256 = 0 ↔ b = 8 := by
  interval_cases b <;> simp

/-- The byte and the mask of the null flag of the nullable field that comes
after `c` others. -/
theorem rec_null_flag_position_eq (nulls0 nulls null_mask b c nb : Nat)
    (hb : b ≤ 8) (hm : null_mask = 2 ^ b) (hn : nulls ≤ nulls0)
    (hc : (nulls0 - nulls) * 8 + b = c) (hcn : c < 8 * nb) (hnb : nb ≤ nulls0) :
    rec_null_flag_position nulls null_mask = (nulls0 - c / 8, 2 ^ (c % 8)) := by
  unfold rec_null_flag_position
  have h8 := two_pow_mod_256 b hb
  rw [hm]
  by_cases hb8 : b = 8
  · rw [if_pos (h8.2 hb8)]
    have e1 : c % 8 = 0 := by omega
    rw [e1]
    refine Prod.ext ?_ rfl
    show nulls - 1 = nulls0 - c / 8
    omega
  · rw [if_neg (fun h => hb8 (h8.1 h))]
    have e1 : c % 8 = b := by omega
    rw [e1]
    refine Prod.ext ?_ rfl
    show nulls = nulls0 - c / 8
    omega

theorem shl1_mod (k : Nat) (hk : k < 8) : (2 ^ k <<< 1) % 2 ^ 64 = 2 ^ (k + 1) := by
  rw [shl1_eq, ← Nat.pow_succ]
  apply Nat.mod_eq_of_lt
  apply Nat.pow_lt_pow_right (by omega) (by omega)

theorem byte_testBit (v k : Nat) (hk : k < 8) : (v % 256).testBit k = v.testBit k := by
  have := Nat.testBit_mod_two_pow v 8 k
  rw [show (2:Nat) ^ 8 = 256 from rfl] at this
  rw [this]; simp [hk]

theorem and_two_pow_ne_zero (x k : Nat) : x &&& 2 ^ k ≠ 0 ↔ x.testBit k = true := by
  rw [and_two_pow_eq, Nat.testBit_to_div_mod]
  have : 2 ^ k ≠ 0 := by positivity
  by_cases h : x / 2 ^ k % 2 = 1
  · simp [h]
  · simp [h]

theorem rec_get_converted_size_comp_prefix_loop_eq (index : dict_index_t)
    (fields : List dfield_t) : ∀ k i e d,
    (rec_get_converted_size_comp_prefix_loop index fields k i e d).1
        + rec_comp_lens_size index fields i = e + rec_comp_lens_size index fields (i + k)
    ∧ (rec_get_converted_size_comp_prefix_loop index fields k i e d).2
        + rec_comp_data_offs fields i = d + rec_comp_data_offs fields (i + k) := by
  intro k
  induction k with
  | zero => intro i e d; simp [rec_get_converted_size_comp_prefix_loop]
  | succ k ih =>
    intro i e d
    rw [rec_get_converted_size_comp_prefix_loop]
    have e1 : i + (k + 1) = (i + 1) + k := by omega
    rw [e1]
    have hL := rec_comp_lens_size_succ index fields i
    have hD := rec_comp_data_offs_succ fields i
    unfold rec_comp_field_lens_size at hL
    unfold dfield_data_size at hD
    dsimp only
    by_cases hnull : dfield_is_null (dfield_array_get fields i) = true
    · rw [if_pos hnull] at hL hD
      rw [if_pos hnull]
      have := ih (i + 1) e d
      omega
    · rw [if_neg hnull] at hL hD
      rw [if_neg hnull]
      have := ih (i + 1)
        (if (dict_index_get_nth_field index i).fixed_len ≠ 0 then e
          else if dfield_is_ext (dfield_array_get fields i) = true then e + 2
          else if dfield_get_len (dfield_array_get fields i) < 128
              ∨ ((dict_field_get_col (dict_index_get_nth_field index i)).len < 256
                ∧ (dict_field_get_col (dict_index_get_nth_field index i)).mtype ≠ DATA_BLOB)
            then e + 1
          else e + 2)
        (d + dfield_get_len (dfield_array_get fields i))
      split_ifs at hL this ⊢ <;> omega

theorem memcpy_data_eq (m : Mem) (dst : Nat) (data : List Nat) (len x : Nat) :
    memcpy_data m dst data len x
      = if dst ≤ x ∧ x < dst + len then data.getD (x - dst) 0 else m x := rfl

theorem Mem.put_eq (m : Mem) (a v x : Nat) :
    Mem.put m a v x = if x = a then v % 256 else m x := rfl

theorem Mem.byte_eq (m : Mem) (a : Nat) : Mem.byte m a = m a % 256 := rfl

/-- The length bytes and the data that `rec_convert_dtuple_to_rec_comp` writes
for a field that is not NULL. -/
theorem rec_convert_dtuple_to_rec_comp_data_spec (index : dict_index_t) (f : dfield_t) (i : Nat)
    (s : rec_comp_vars)
    (hv : dfield_valid_for (dict_index_get_nth_field index i) f)
    (hnn : f.len ≠ UNIV_SQL_NULL)
    (hlo : rec_comp_field_lens_size (dict_index_get_nth_field index i) f ≤ s.lens)
    (hhi : s.lens < s.end_) :
    (rec_convert_dtuple_to_rec_comp_data index f i s).end_ = s.end_ + f.len
    ∧ (rec_convert_dtuple_to_rec_comp_data index f i s).nulls = s.nulls
    ∧ (rec_convert_dtuple_to_rec_comp_data index f i s).null_mask = s.null_mask
    ∧ (rec_convert_dtuple_to_rec_comp_data index f i s).lens
        = s.lens - rec_comp_field_lens_size (dict_index_get_nth_field index i) f
    ∧ (∀ x, (x + rec_comp_field_lens_size (dict_index_get_nth_field index i) f ≤ s.lens
              ∨ s.lens < x) → (x < s.end_ ∨ s.end_ + f.len ≤ x) →
          (rec_convert_dtuple_to_rec_comp_data index f i s).mem x = s.mem x)
    ∧ (rec_comp_field_lens_size (dict_index_get_nth_field index i) f = 1 →
          (rec_convert_dtuple_to_rec_comp_data index f i s).mem.byte s.lens = f.len)
    ∧ (rec_comp_field_lens_size (dict_index_get_nth_field index i) f = 2 →
          (rec_convert_dtuple_to_rec_comp_data index f i s).mem.byte s.lens
            = f.len / 256 + (if f.ext = true then 192 else 128)
          ∧ (rec_convert_dtuple_to_rec_comp_data index f i s).mem.byte (s.lens - 1)
            = f.len % 256)
    ∧ (∀ t, t < f.len →
          (rec_convert_dtuple_to_rec_comp_data index f i s).mem (s.end_ + t) = f.data.getD t 0) := by
  generalize hg : dict_index_get_nth_field index i = g at *
  obtain ⟨hv1, hv2, hv3, hv4, hv5⟩ := hv
  obtain ⟨hdl, hlt, hfix, hsmall⟩ := hv5 hnn
  rcases s with ⟨mem, end_, nulls, lens, mask⟩
  have hnull : dfield_is_null f = false := by simp [dfield_is_null, hnn]
  unfold rec_convert_dtuple_to_rec_comp_data
  unfold rec_comp_field_lens_size at hlo ⊢
  simp only [hg, dfield_get_type, dfield_get_len, dtype_get_len, dtype_get_mtype,
    dfield_get_data, dfield_is_ext, dict_field_get_col, hv1, hv3, hnull, Bool.false_eq_true,
    if_false] at hlo hhi ⊢
  by_cases hfx : g.fixed_len ≠ 0
  · simp only [hfx, if_true, ne_eq, not_false_eq_true]
    refine ⟨trivial, trivial, trivial, by first | trivial | omega, ?_, ?_, ?_, ?_⟩
    · intro x h1 h2
      rw [memcpy_data_eq, if_neg (by omega)]
    · intro h; omega
    · intro h; omega
    · intro t ht
      rw [memcpy_data_eq, if_pos (by omega)]
      congr 1; omega
  · simp only [hfx, if_false] at hlo ⊢
    by_cases hext : f.ext = true
    · simp only [hext, if_true] at hlo ⊢
      refine ⟨trivial, trivial, trivial, by first | trivial | omega, ?_, ?_, ?_, ?_⟩
      · intro x h1 h2
        rw [memcpy_data_eq, if_neg (by omega), Mem.put_eq, if_neg (by omega), Mem.put_eq,
          if_neg (by omega)]
      · intro h; omega
      · intro _
        constructor
        · rw [Mem.byte_eq, memcpy_data_eq, if_neg (by omega), Mem.put_eq, if_neg (by omega),
            Mem.put_eq, if_pos rfl, shr8_eq,
            Nat.mod_eq_of_lt (show f.len / 256 < 256 by omega),
            or_192_eq _ (show f.len / 256 < 64 by omega)]
          omega
        · rw [Mem.byte_eq, memcpy_data_eq, if_neg (by omega), Mem.put_eq, if_pos rfl]
          omega
      · intro t ht
        rw [memcpy_data_eq, if_pos (by omega)]
        congr 1; omega
    · have hext1 : f.ext = false := by simpa using hext
      simp only [hext1, Bool.false_eq_true, if_false] at hlo ⊢
      by_cases hone : f.len < 128 ∨ (g.col.len < 256 ∧ g.col.mtype ≠ DATA_BLOB)
      · simp only [hone, if_true] at hlo ⊢
        have hl255 : f.len ≤ 255 := by
          rcases hone with h | ⟨h1, h2⟩
          · omega
          · exact hsmall (by simpa using hfx) (by omega) h2
        refine ⟨trivial, trivial, trivial, by first | trivial | omega, ?_, ?_, ?_, ?_⟩
        · intro x h1 h2
          rw [memcpy_data_eq, if_neg (by omega), Mem.put_eq, if_neg (by omega)]
        · intro _
          rw [Mem.byte_eq, memcpy_data_eq, if_neg (by omega), Mem.put_eq, if_pos rfl]
          omega
        · intro h; omega
        · intro t ht
          rw [memcpy_data_eq, if_pos (by omega)]
          congr 1; omega
      · simp only [hone, if_false] at hlo ⊢
        refine ⟨trivial, trivial, trivial, by first | trivial | omega, ?_, ?_, ?_, ?_⟩
        · intro x h1 h2
          rw [memcpy_data_eq, if_neg (by omega), Mem.put_eq, if_neg (by omega), Mem.put_eq,
            if_neg (by omega)]
        · intro h; omega
        · intro _
          constructor
          · rw [Mem.byte_eq, memcpy_data_eq, if_neg (by omega), Mem.put_eq, if_neg (by omega),
              Mem.put_eq, if_pos rfl, shr8_eq,
              Nat.mod_eq_of_lt (show f.len / 256 < 256 by omega),
              or_128_eq _ (show f.len / 256 < 128 by omega)]
            omega
          · rw [Mem.byte_eq, memcpy_data_eq, if_neg (by omega), Mem.put_eq, if_pos rfl]
            omega
        · intro t ht
          rw [memcpy_data_eq, if_pos (by omega)]
          congr 1; omega

/-- The data part of the loop body of `rec_convert_dtuple_to_rec_comp` in
terms of the layout of the record. -/
theorem rec_convert_dtuple_to_rec_comp_data_at (index : dict_index_t) (fields : List dfield_t)
    (N0 i : Nat) (s : rec_comp_vars)
    (hv : dfield_valid_for (dict_index_get_nth_field index i) (dfield_array_get fields i))
    (hnn : (dfield_array_get fields i).len ≠ UNIV_SQL_NULL)
    (hgeo : UT_BITS_IN_BYTES index.n_nullable + rec_comp_lens_size index fields (i + 1) ≤ N0)
    (he : s.end_ = N0 + 6 + rec_comp_data_offs fields i)
    (hl : s.lens + rec_comp_lens_size index fields i = N0 - UT_BITS_IN_BYTES index.n_nullable) :
    ∀ s1, rec_convert_dtuple_to_rec_comp_data index (dfield_array_get fields i) i s = s1 →
      s1.end_ = N0 + 6 + rec_comp_data_offs fields (i + 1)
      ∧ s1.lens + rec_comp_lens_size index fields (i + 1)
          = N0 - UT_BITS_IN_BYTES index.n_nullable
      ∧ s1.nulls = s.nulls ∧ s1.null_mask = s.null_mask
      ∧ (∀ x, s.lens < x → x < s.end_ → s1.mem x = s.mem x)
      ∧ rec_comp_lens_written index fields N0 s1.mem i
      ∧ rec_comp_data_written fields N0 s1.mem i := by
  intro s1 hs1
  have hL := rec_comp_lens_size_succ index fields i
  have hD := rec_comp_data_offs_succ fields i
  have hnull : dfield_is_null (dfield_array_get fields i) = false := by
    simp [dfield_is_null, hnn]
  rw [dfield_data_size, hnull] at hD
  simp only [Bool.false_eq_true, if_false, dfield_get_len] at hD
  have hfl := rec_comp_field_lens_size_le (dict_index_get_nth_field index i)
    (dfield_array_get fields i)
  obtain ⟨a1, a2, a3, a4, a5, a6, a7, a8⟩ :=
    rec_convert_dtuple_to_rec_comp_data_spec index (dfield_array_get fields i) i s hv hnn
      (by omega) (by omega)
  rw [hs1] at a1 a2 a3 a4 a5 a6 a7 a8
  have hlens : s.lens
      = N0 - UT_BITS_IN_BYTES index.n_nullable - rec_comp_lens_size index fields i := by omega
  refine ⟨by omega, by omega, a2, a3, ?_, ⟨?_, ?_⟩, ?_⟩
  · intro x h1 h2
    exact a5 x (Or.inr h1) (Or.inl h2)
  · intro h
    rw [← hlens]
    exact a6 h
  · intro h
    rw [← hlens]
    exact a7 h
  · intro _ t ht
    rw [← he]
    exact a8 t ht

theorem or_two_pow_testBit (v k j : Nat) (hj : j < 8) :
    (((v ||| 2 ^ k) % 256) % 256).testBit j = (v.testBit j || decide (k = j)) := by
  rw [byte_testBit _ _ hj, byte_testBit _ _ hj, Nat.testBit_or, Nat.testBit_two_pow]

/-- One round of the loop of `rec_convert_dtuple_to_rec_comp` in terms of the
layout of the record: the variables move on to the next field; only the null
flag, the length bytes and the data of this field are written. -/
theorem rec_convert_dtuple_to_rec_comp_field_at (index : dict_index_t) (fields : List dfield_t)
    (N0 i : Nat) (s : rec_comp_vars)
    (hv : dfield_valid_for (dict_index_get_nth_field index i) (dfield_array_get fields i))
    (hcnt : dict_index_n_nullable_before index (i + 1) ≤ 8 * UT_BITS_IN_BYTES index.n_nullable)
    (hgeo : UT_BITS_IN_BYTES index.n_nullable + rec_comp_lens_size index fields (i + 1) ≤ N0)
    (hs : rec_comp_vars_at index fields N0 i s.end_ s.lens s.nulls s.null_mask)
    (hz : ∀ g, dict_index_n_nullable_before index i ≤ g →
      g < 8 * UT_BITS_IN_BYTES index.n_nullable →
        (s.mem.byte (N0 - g / 8)).testBit (g % 8) = false) :
    ∀ s1, rec_convert_dtuple_to_rec_comp_field index (dfield_array_get fields i) i s = s1 →
      rec_comp_vars_at index fields N0 (i + 1) s1.end_ s1.lens s1.nulls s1.null_mask
      ∧ (∀ x, s.lens < x → x < s.end_ →
          (x ≤ N0 - UT_BITS_IN_BYTES index.n_nullable ∨ N0 < x) → s1.mem x = s.mem x)
      ∧ (∀ g, g < 8 * UT_BITS_IN_BYTES index.n_nullable →
          (g < dict_index_n_nullable_before index i
            ∨ dict_index_n_nullable_before index (i + 1) ≤ g) →
          (s1.mem.byte (N0 - g / 8)).testBit (g % 8) = (s.mem.byte (N0 - g / 8)).testBit (g % 8))
      ∧ rec_comp_null_written index fields N0 s1.mem i
      ∧ rec_comp_lens_written index fields N0 s1.mem i
      ∧ rec_comp_data_written fields N0 s1.mem i := by
  intro s1 hs1
  obtain ⟨he, hl, b, hb, hm, hn, hc⟩ := hs
  have hcs := dict_index_n_nullable_before_succ index i
  have hL := rec_comp_lens_size_succ index fields i
  have hD := rec_comp_data_offs_succ fields i
  have hLle := rec_comp_lens_size_le index fields i 1
  unfold rec_convert_dtuple_to_rec_comp_field at hs1
  simp only [dfield_get_type, dtype_get_prtype, hv.2.1] at hs1
  by_cases hN : (dict_index_get_nth_field index i).col.prtype &&& DATA_NOT_NULL = 0
  · -- a nullable field
    have hnl : dict_field_is_nullable (dict_index_get_nth_field index i) = true := by
      simp [dict_field_is_nullable, dict_field_get_col, hN]
    rw [hnl, if_pos rfl] at hcs
    have hpos := rec_null_flag_position_eq N0 s.nulls s.null_mask b
      (dict_index_n_nullable_before index i) (UT_BITS_IN_BYTES index.n_nullable)
      hb hm hn hc (by omega) (by omega)
    have hc8 : dict_index_n_nullable_before index i % 8 < 8 := Nat.mod_lt _ (by omega)
    rw [if_pos hN, hpos] at hs1
    dsimp only at hs1
    rw [shl1_mod _ hc8] at hs1
    by_cases hnull : (dfield_array_get fields i).len = UNIV_SQL_NULL
    · have hnull1 : dfield_is_null (dfield_array_get fields i) = true := by
        simp [dfield_is_null, hnull]
      rw [if_pos hnull1] at hs1
      rw [dfield_data_size, if_pos hnull1] at hD
      rw [rec_comp_field_lens_size, if_pos hnull1] at hL
      subst hs1
      dsimp only
      refine ⟨⟨by omega, by omega, dict_index_n_nullable_before index i % 8 + 1, by omega, rfl,
        by omega, by omega⟩, ?_, ?_, ?_, ⟨?_, ?_⟩, ?_⟩
      · intro x h1 h2 h3
        rw [Mem.put_eq, if_neg (by omega)]
      · intro g hg1 hg2
        by_cases hx : N0 - g / 8 = N0 - dict_index_n_nullable_before index i / 8
        · rw [hx, Mem.byte_eq, Mem.put_eq, if_pos rfl, or_two_pow_testBit _ _ _ (Nat.mod_lt _ (by omega))]
          have : ¬ dict_index_n_nullable_before index i % 8 = g % 8 := by omega
          simp [this, Mem.byte_eq, byte_testBit _ _ (Nat.mod_lt g (by omega : 8 > 0))]
        · rw [Mem.byte_eq, Mem.put_eq, if_neg hx, Mem.byte_eq]
      · intro _
        rw [Mem.byte_eq, Mem.put_eq, if_pos rfl, or_two_pow_testBit _ _ _ hc8, hnull1]
        simp
      · intro h
        rw [rec_comp_field_lens_size, if_pos hnull1] at h
        omega
      · intro h
        rw [rec_comp_field_lens_size, if_pos hnull1] at h
        omega
      · intro h
        exact absurd hnull h
    · have hnull1 : dfield_is_null (dfield_array_get fields i) = false := by
        simp [dfield_is_null, hnull]
      rw [hnull1] at hs1
      simp only [Bool.false_eq_true, if_false] at hs1
      obtain ⟨a1, a2, a3, a4, a5, a6, a7⟩ :=
        rec_convert_dtuple_to_rec_comp_data_at index fields N0 i
          ⟨s.mem, s.end_, N0 - dict_index_n_nullable_before index i / 8, s.lens,
            2 ^ (dict_index_n_nullable_before index i % 8 + 1)⟩ hv hnull hgeo he hl s1 hs1
      dsimp only at a3 a4 a5
      refine ⟨⟨a1, a2, dict_index_n_nullable_before index i % 8 + 1, by omega, a4,
        by omega, by omega⟩, ?_, ?_, ?_, a6, a7⟩
      · intro x h1 h2 _
        exact a5 x h1 h2
      · intro g hg1 _
        rw [Mem.byte_eq, Mem.byte_eq, a5 _ (by omega) (by omega)]
      · intro _
        rw [Mem.byte_eq, a5 _ (by omega) (by omega), ← Mem.byte_eq, hnull1]
        exact hz _ (Nat.le_refl _) (by omega)
  · -- a field that cannot be NULL
    have hnl : dict_field_is_nullable (dict_index_get_nth_field index i) = false := by
      simp [dict_field_is_nullable, dict_field_get_col, hN]
    rw [hnl] at hcs
    simp only [Bool.false_eq_true, if_false, Nat.add_zero] at hcs
    have hnull : (dfield_array_get fields i).len ≠ UNIV_SQL_NULL := fun h => hN (hv.2.2.2.1 h)
    rw [if_neg hN] at hs1
    obtain ⟨a1, a2, a3, a4, a5, a6, a7⟩ :=
      rec_convert_dtuple_to_rec_comp_data_at index fields N0 i _ hv hnull hgeo he hl s1 hs1
    refine ⟨⟨a1, a2, b, hb, by rw [a4, hm], by omega, by omega⟩, ?_, ?_, ?_, a6, a7⟩
    · intro x h1 h2 _
      exact a5 x h1 h2
    · intro g hg1 _
      rw [Mem.byte_eq, Mem.byte_eq, a5 _ (by omega) (by omega)]
    · intro h
      rw [hnl] at h
      exact absurd h (by simp)

/-- The loop of `rec_convert_dtuple_to_rec_comp` in terms of the layout of the
record: it leaves what lies between the length bytes and the data as it was,
but for the null flags of the fields it goes through, and the null flag, the
length bytes and the data of each of these fields are in their places at the
end. -/
theorem rec_convert_dtuple_to_rec_comp_loop_at (index : dict_index_t) (fields : List dfield_t)
    (N0 n : Nat)
    (hv : ∀ i, i < n →
      dfield_valid_for (dict_index_get_nth_field index i) (dfield_array_get fields i))
    (hcnt : dict_index_n_nullable_before index n ≤ 8 * UT_BITS_IN_BYTES index.n_nullable)
    (hgeo : UT_BITS_IN_BYTES index.n_nullable + rec_comp_lens_size index fields n ≤ N0)
    (hn : n < ULINT_UNDEFINED) :
    ∀ k i s, i + k = n →
      rec_comp_vars_at index fields N0 i s.end_ s.lens s.nulls s.null_mask →
      (∀ g, dict_index_n_nullable_before index i ≤ g →
        g < 8 * UT_BITS_IN_BYTES index.n_nullable →
          (s.mem.byte (N0 - g / 8)).testBit (g % 8) = false) →
      ∀ s', rec_convert_dtuple_to_rec_comp_loop index fields ULINT_UNDEFINED k i s = s' →
        rec_comp_vars_at index fields N0 n s'.end_ s'.lens s'.nulls s'.null_mask
        ∧ (∀ x, s.lens < x → x < s.end_ →
            (x ≤ N0 - UT_BITS_IN_BYTES index.n_nullable ∨ N0 < x) → s'.mem x = s.mem x)
        ∧ (∀ g, g < dict_index_n_nullable_before index i →
            (s'.mem.byte (N0 - g / 8)).testBit (g % 8)
              = (s.mem.byte (N0 - g / 8)).testBit (g % 8))
        ∧ (∀ j, i ≤ j → j < n →
            rec_comp_null_written index fields N0 s'.mem j
            ∧ rec_comp_lens_written index fields N0 s'.mem j
            ∧ rec_comp_data_written fields N0 s'.mem j) := by
  intro k
  induction k with
  | zero =>
    intro i s hik hs _ s' hs'
    rw [rec_convert_dtuple_to_rec_comp_loop] at hs'
    subst hs'
    have : i = n := by omega
    subst this
    exact ⟨hs, fun _ _ _ _ => rfl, fun _ _ => rfl, fun j h1 h2 => absurd h1 (by omega)⟩
  | succ k ih =>
    intro i s hik hs hz s' hs'
    rw [rec_convert_dtuple_to_rec_comp_loop] at hs'
    rw [if_neg (by omega)] at hs'
    have hn1 : n = (i + 1) + k := by omega
    have hcle := dict_index_n_nullable_before_le index (i + 1) k
    have hLle := rec_comp_lens_size_le index fields (i + 1) k
    have hc1 := dict_index_n_nullable_before_le index i 1
    have hL1 := rec_comp_lens_size_le index fields i 1
    have hD1 := rec_comp_data_offs_le fields i 1
    have hfl := rec_comp_field_lens_size_le (dict_index_get_nth_field index i)
      (dfield_array_get fields i)
    have hLs := rec_comp_lens_size_succ index fields i
    have hDs := rec_comp_data_offs_succ fields i
    have hcs := dict_index_n_nullable_before_succ index i
    rw [← hn1] at hcle hLle
    obtain ⟨b1, b2, b3, b4, b5, b6⟩ :=
      rec_convert_dtuple_to_rec_comp_field_at index fields N0 i s (hv i (by omega))
        (by omega) (by omega) hs hz _ rfl
    generalize rec_convert_dtuple_to_rec_comp_field index (dfield_array_get fields i) i s = s1
      at hs' b1 b2 b3 b4 b5 b6
    have hz1 : ∀ g, dict_index_n_nullable_before index (i + 1) ≤ g →
        g < 8 * UT_BITS_IN_BYTES index.n_nullable →
          (s1.mem.byte (N0 - g / 8)).testBit (g % 8) = false := by
      intro g h1 h2
      rw [b3 g h2 (Or.inr h1)]
      exact hz g (by omega) h2
    obtain ⟨c1, c2, c3, c4⟩ := ih (i + 1) s1 (by omega) b1 hz1 s' hs'
    obtain ⟨he, hl, _⟩ := hs
    obtain ⟨he1, hl1, _⟩ := b1
    refine ⟨c1, ?_, ?_, ?_⟩
    · intro x h1 h2 h3
      rw [c2 x (by omega) (by omega) h3]
      exact b2 x h1 h2 h3
    · intro g hg
      rw [c3 g (by omega)]
      exact b3 g (by omega) (Or.inl hg)
    · intro j h1 h2
      by_cases hji : j = i
      · subst hji
        refine ⟨?_, ⟨?_, ?_⟩, ?_⟩
        · intro hnl
          rw [hnl, if_pos rfl] at hcs
          rw [c3 _ (by omega)]
          exact b4 hnl
        · intro h
          rw [h] at hLs
          rw [Mem.byte_eq, c2 _ (by omega) (by omega) (Or.inl (by omega)), ← Mem.byte_eq]
          exact b5.1 h
        · intro h
          rw [h] at hLs
          rw [Mem.byte_eq, c2 _ (by omega) (by omega) (Or.inl (by omega)), ← Mem.byte_eq,
            Mem.byte_eq _ (_ - 1), c2 _ (by omega) (by omega) (Or.inl (by omega)), ← Mem.byte_eq]
          exact b5.2 h
        · intro hnn t ht
          have hnull : dfield_is_null (dfield_array_get fields j) = false := by
            simp [dfield_is_null, hnn]
          rw [dfield_data_size, hnull] at hDs
          simp only [Bool.false_eq_true, if_false, dfield_get_len] at hDs
          rw [c2 _ (by omega) (by omega) (Or.inr (by omega))]
          exact b6 hnn t ht
      · exact c4 j (by omega) h2

theorem rec_comp_data_offs_bound (index : dict_index_t) (fields : List dfield_t) (n : Nat)
    (hv : ∀ i, i < n →
      dfield_valid_for (dict_index_get_nth_field index i) (dfield_array_get fields i)) :
    ∀ j, j ≤ n → rec_comp_data_offs fields j ≤ j * 16383 := by
  intro j
  induction j with
  | zero => intro _; simp [rec_comp_data_offs]
  | succ j ih =>
    intro hj
    have h1 := ih (by omega)
    rw [rec_comp_data_offs_succ, dfield_data_size]
    by_cases hnull : (dfield_array_get fields j).len = UNIV_SQL_NULL
    · have : dfield_is_null (dfield_array_get fields j) = true := by simp [dfield_is_null, hnull]
      rw [if_pos this]; omega
    · have : dfield_is_null (dfield_array_get fields j) = false := by simp [dfield_is_null, hnull]
      rw [this]
      simp only [Bool.false_eq_true, if_false, dfield_get_len]
      have := ((hv j (by omega)).2.2.2.2 hnull).2.1
      omega

/-- The length part of the loop body of `rec_init_offsets_comp_ordinary` reads
back the length bytes of a field that is not NULL. -/
theorem rec_init_offsets_comp_ordinary_len_at (M : Mem) (index : dict_index_t)
    (fields : List dfield_t) (N0 i : Nat) (r : rec_offs_vars)
    (hv : dfield_valid_for (dict_index_get_nth_field index i) (dfield_array_get fields i))
    (hx : dfield_ext_valid_for (dict_index_get_nth_field index i) (dfield_array_get fields i))
    (hnn : (dfield_array_get fields i).len ≠ UNIV_SQL_NULL)
    (hgeo : UT_BITS_IN_BYTES index.n_nullable + rec_comp_lens_size index fields (i + 1) ≤ N0)
    (hD : rec_comp_data_offs fields (i + 1) < 2 ^ 30)
    (hw : rec_comp_lens_written index fields N0 M i)
    (ho : r.offs = rec_comp_data_offs fields i)
    (hl : r.lens + rec_comp_lens_size index fields i = N0 - UT_BITS_IN_BYTES index.n_nullable) :
    ∀ r1, rec_init_offsets_comp_ordinary_len M index i r = r1 →
      r1.offs = rec_comp_data_offs fields (i + 1)
      ∧ r1.lens + rec_comp_lens_size index fields (i + 1)
          = N0 - UT_BITS_IN_BYTES index.n_nullable
      ∧ r1.nulls = r.nulls ∧ r1.null_mask = r.null_mask
      ∧ r1.offsets = rec_offs_base_set r.offsets (i + 1)
          (rec_comp_data_offs fields (i + 1)
            + (if (dfield_array_get fields i).ext = true then 2 ^ 30 else 0)) := by
  intro r1 hr1
  have hLs := rec_comp_lens_size_succ index fields i
  have hDs := rec_comp_data_offs_succ fields i
  have hnull : dfield_is_null (dfield_array_get fields i) = false := by
    simp [dfield_is_null, hnn]
  rw [dfield_data_size, hnull] at hDs
  obtain ⟨w1, w2⟩ := hw
  have hlens : N0 - UT_BITS_IN_BYTES index.n_nullable - rec_comp_lens_size index fields i
      = r.lens := by omega
  rw [hlens] at w1 w2
  unfold rec_comp_field_lens_size at hLs w1 w2
  rw [hnull] at hLs w1 w2
  unfold rec_init_offsets_comp_ordinary_len at hr1
  generalize dict_index_get_nth_field index i = g at *
  generalize dfield_array_get fields i = f at *
  obtain ⟨hv1, hv2, hv3, hv4, hv5⟩ := hv
  obtain ⟨hdl, hlt, hfix, hsmall⟩ := hv5 hnn
  rcases r with ⟨offsets, offs, any_ext, nulls, lens, mask⟩
  simp only [Bool.false_eq_true, if_false, dfield_get_len, dfield_is_ext, dict_field_get_col]
    at hLs hDs w1 w2 hr1 ho hl ⊢
  by_cases hfx : g.fixed_len = 0
  · have hfx1 : ¬ g.fixed_len ≠ 0 := by simpa using hfx
    rw [if_neg hfx1] at hLs w1 w2
    rw [if_pos hfx] at hr1
    by_cases hext : f.ext = true
    · obtain ⟨_, _, hbig⟩ := hx hext
      rw [if_pos hext] at hLs w1 w2
      obtain ⟨w3, w4⟩ := w2 rfl
      rw [if_pos hext] at w3
      have c1 : (g.col.len > 255 ∨ g.col.mtype = DATA_BLOB) ∧ M.byte lens &&& 0x80 ≠ 0 := by
        refine ⟨by omega, ?_⟩
        rw [w3, and_0x80, if_pos (by omega)]
        omega
      have t1 : ((f.len / 256 + 192) * 256 + f.len % 256) % 16384 = f.len := by omega
      have t3 : ((f.len / 256 + 192) * 256 + f.len % 256) / 16384 % 2 = 1 := by omega
      rw [if_pos c1, w3, w4, shl8_or_eq _ (f.len % 256) (by omega), and_0x4000, and_0x3fff,
        if_pos t3, if_pos (by decide : (16384 : Nat) ≠ 0), t1] at hr1
      subst hr1
      refine ⟨by dsimp only; omega, by dsimp only; omega, rfl, rfl, ?_⟩
      dsimp only
      rw [if_pos hext, REC_OFFS_EXTERNAL, or_two_pow_eq _ 30 (by omega), hDs, ho]
    · have hext1 : f.ext = false := by simpa using hext
      rw [if_neg hext] at hLs w1 w2
      by_cases hone : f.len < 128 ∨ (g.col.len < 256 ∧ g.col.mtype ≠ DATA_BLOB)
      · rw [if_pos hone] at hLs w1 w2
        have w3 := w1 rfl
        have hl255 : f.len ≤ 255 := by
          rcases hone with h | ⟨h1, h2⟩
          · omega
          · exact hsmall hfx (by omega) h2
        have c1 : ¬ ((g.col.len > 255 ∨ g.col.mtype = DATA_BLOB) ∧ M.byte lens &&& 0x80 ≠ 0) := by
          rintro ⟨h1, h2⟩
          rw [w3, and_0x80] at h2
          have : f.len < 128 := by
            rcases hone with h | ⟨h3, h4⟩
            · exact h
            · rcases h1 with h5 | h5
              · omega
              · exact absurd h5 h4
          rw [if_neg (by omega)] at h2
          exact h2 rfl
        rw [if_neg c1, w3] at hr1
        subst hr1
        refine ⟨by dsimp only; omega, by dsimp only; omega, rfl, rfl, ?_⟩
        dsimp only
        rw [if_neg hext, hDs, ho]
        rfl
      · rw [if_neg hone] at hLs w1 w2
        obtain ⟨w3, w4⟩ := w2 rfl
        rw [if_neg hext] at w3
        have c1 : (g.col.len > 255 ∨ g.col.mtype = DATA_BLOB) ∧ M.byte lens &&& 0x80 ≠ 0 := by
          constructor
          · by_cases hb : g.col.mtype = DATA_BLOB
            · exact Or.inr hb
            · left
              by_contra hc
              exact hone (Or.inr ⟨by omega, hb⟩)
          · rw [w3, and_0x80, if_pos (by omega)]
            omega
        have t1 : ((f.len / 256 + 128) * 256 + f.len % 256) % 16384 = f.len := by omega
        have t3 : ¬ ((f.len / 256 + 128) * 256 + f.len % 256) / 16384 % 2 = 1 := by omega
        rw [if_pos c1, w3, w4, shl8_or_eq _ (f.len % 256) (by omega), and_0x4000, and_0x3fff,
          if_neg t3, if_neg (by decide : ¬ (0 : Nat) ≠ 0), t1] at hr1
        subst hr1
        refine ⟨by dsimp only; omega, by dsimp only; omega, rfl, rfl, ?_⟩
        dsimp only
        rw [if_neg hext, hDs, ho]
        rfl
  · have hext1 : ¬ f.ext = true := fun h => hfx (hx h).2.1
    rw [if_pos hfx] at hLs
    rw [if_neg hfx] at hr1
    have hfl := hfix hfx
    subst hr1
    refine ⟨by dsimp only; omega, by dsimp only; omega, rfl, rfl, ?_⟩
    dsimp only
    rw [if_neg hext1, hDs, ho, hfl]
    rfl

theorem rec_offs_base_set_apply (offsets : Nat → Nat) (i v c : Nat) :
    rec_offs_base_set offsets i v c = if c = REC_OFFS_HEADER_SIZE + i then v else offsets c := rfl

/-- One round of the loop of `rec_init_offsets_comp_ordinary` over a record
that holds the null flag and the length bytes of field `i`: the end offset of
the field, with the flags of SQL NULL and of external storage. -/
theorem rec_init_offsets_comp_ordinary_body_at (M : Mem) (index : dict_index_t)
    (fields : List dfield_t) (N0 i : Nat) (r : rec_offs_vars)
    (hv : dfield_valid_for (dict_index_get_nth_field index i) (dfield_array_get fields i))
    (hx : dfield_ext_valid_for (dict_index_get_nth_field index i) (dfield_array_get fields i))
    (hcnt : dict_index_n_nullable_before index (i + 1) ≤ 8 * UT_BITS_IN_BYTES index.n_nullable)
    (hgeo : UT_BITS_IN_BYTES index.n_nullable + rec_comp_lens_size index fields (i + 1) ≤ N0)
    (hD : rec_comp_data_offs fields (i + 1) < 2 ^ 30)
    (hwn : rec_comp_null_written index fields N0 M i)
    (hwl : rec_comp_lens_written index fields N0 M i)
    (hs : rec_comp_vars_at index fields N0 i (N0 + 6 + r.offs) r.lens r.nulls r.null_mask) :
    ∀ r1, rec_init_offsets_comp_ordinary_body M index i r = r1 →
      rec_comp_vars_at index fields N0 (i + 1) (N0 + 6 + r1.offs) r1.lens r1.nulls r1.null_mask
      ∧ r1.offsets = rec_offs_base_set r.offsets (i + 1)
          (rec_comp_data_offs fields (i + 1)
            + (if (dfield_array_get fields i).len = UNIV_SQL_NULL then 2 ^ 31 else 0)
            + (if (dfield_array_get fields i).ext = true then 2 ^ 30 else 0)) := by
  intro r1 hr1
  obtain ⟨he, hl, b, hb, hm, hn, hc⟩ := hs
  have ho : r.offs = rec_comp_data_offs fields i := by omega
  have hcs := dict_index_n_nullable_before_succ index i
  have hL := rec_comp_lens_size_succ index fields i
  have hDs := rec_comp_data_offs_succ fields i
  have hLle := rec_comp_lens_size_le index fields i 1
  unfold rec_init_offsets_comp_ordinary_body at hr1
  simp only [dict_field_get_col] at hr1
  by_cases hN : (dict_index_get_nth_field index i).col.prtype &&& DATA_NOT_NULL = 0
  · have hnl : dict_field_is_nullable (dict_index_get_nth_field index i) = true := by
      simp [dict_field_is_nullable, dict_field_get_col, hN]
    rw [hnl, if_pos rfl] at hcs
    have hpos := rec_null_flag_position_eq N0 r.nulls r.null_mask b
      (dict_index_n_nullable_before index i) (UT_BITS_IN_BYTES index.n_nullable)
      hb hm hn hc (by omega) (by omega)
    have hc8 : dict_index_n_nullable_before index i % 8 < 8 := Nat.mod_lt _ (by omega)
    rw [if_pos hN, hpos] at hr1
    dsimp only at hr1
    rw [shl1_mod _ hc8] at hr1
    have htest := and_two_pow_ne_zero
      (M.byte (N0 - dict_index_n_nullable_before index i / 8))
      (dict_index_n_nullable_before index i % 8)
    rw [hwn hnl] at htest
    by_cases hnull : (dfield_array_get fields i).len = UNIV_SQL_NULL
    · have hnull1 : dfield_is_null (dfield_array_get fields i) = true := by
        simp [dfield_is_null, hnull]
      have hext : ¬ (dfield_array_get fields i).ext = true := fun h => (hx h).1 hnull
      rw [if_pos (htest.2 hnull1)] at hr1
      rw [dfield_data_size, if_pos hnull1] at hDs
      rw [rec_comp_field_lens_size, if_pos hnull1] at hL
      subst hr1
      dsimp only
      refine ⟨⟨by omega, by omega, dict_index_n_nullable_before index i % 8 + 1, by omega, rfl,
        by omega, by omega⟩, ?_⟩
      have e : r.offs ||| REC_OFFS_SQL_NULL = rec_comp_data_offs fields (i + 1) + 2 ^ 31 + 0 := by
        rw [REC_OFFS_SQL_NULL, or_two_pow_eq _ 31 (by omega)]
        omega
      rw [if_pos hnull, if_neg hext, e]
    · have hnull1 : dfield_is_null (dfield_array_get fields i) = false := by
        simp [dfield_is_null, hnull]
      have hne : ¬ (M.byte (N0 - dict_index_n_nullable_before index i / 8)
          &&& 2 ^ (dict_index_n_nullable_before index i % 8) ≠ 0) := by
        intro h
        have := htest.1 h
        rw [hnull1] at this
        exact absurd this (by simp)
      rw [if_neg hne] at hr1
      obtain ⟨a1, a2, a3, a4, a5⟩ :=
        rec_init_offsets_comp_ordinary_len_at M index fields N0 i
          ⟨r.offsets, r.offs, r.any_ext, N0 - dict_index_n_nullable_before index i / 8, r.lens,
            2 ^ (dict_index_n_nullable_before index i % 8 + 1)⟩
          hv hx hnull hgeo hD hwl ho hl r1 hr1
      dsimp only at a3 a4 a5
      refine ⟨⟨by omega, a2, dict_index_n_nullable_before index i % 8 + 1, by omega, a4,
        by omega, by omega⟩, ?_⟩
      rw [a5, if_neg hnull]
      simp only [Nat.add_zero]
  · have hnl : dict_field_is_nullable (dict_index_get_nth_field index i) = false := by
      simp [dict_field_is_nullable, dict_field_get_col, hN]
    rw [hnl] at hcs
    simp only [Bool.false_eq_true, if_false, Nat.add_zero] at hcs
    have hnull : (dfield_array_get fields i).len ≠ UNIV_SQL_NULL := fun h => hN (hv.2.2.2.1 h)
    rw [if_neg hN] at hr1
    obtain ⟨a1, a2, a3, a4, a5⟩ :=
      rec_init_offsets_comp_ordinary_len_at M index fields N0 i r
        hv hx hnull hgeo hD hwl ho hl r1 hr1
    refine ⟨⟨by omega, a2, b, hb, by rw [a4, hm], by omega, by omega⟩, ?_⟩
    rw [a5, if_neg hnull]
    simp only [Nat.add_zero]

/-- The loop of `rec_init_offsets_comp_ordinary` over a record that holds the
null flags and the length bytes of the fields: it fills in the end offsets of
the fields from `i` on and leaves the cells in front of them alone. -/
theorem rec_init_offsets_comp_ordinary_loop_at (M : Mem) (index : dict_index_t)
    (fields : List dfield_t) (N0 n : Nat)
    (hv : ∀ i, i < n →
      dfield_valid_for (dict_index_get_nth_field index i) (dfield_array_get fields i))
    (hx : ∀ i, i < n →
      dfield_ext_valid_for (dict_index_get_nth_field index i) (dfield_array_get fields i))
    (hcnt : dict_index_n_nullable_before index n ≤ 8 * UT_BITS_IN_BYTES index.n_nullable)
    (hgeo : UT_BITS_IN_BYTES index.n_nullable + rec_comp_lens_size index fields n ≤ N0)
    (hD : rec_comp_data_offs fields n < 2 ^ 30)
    (hw : ∀ j, j < n →
      rec_comp_null_written index fields N0 M j ∧ rec_comp_lens_written index fields N0 M j) :
    ∀ k fuel i r, i + k + 1 = n → k ≤ fuel →
      rec_comp_vars_at index fields N0 i (N0 + 6 + r.offs) r.lens r.nulls r.null_mask →
      rec_offs_n_fields r.offsets = n →
      ∀ r', rec_init_offsets_comp_ordinary_loop M index fuel i r = r' →
        rec_comp_vars_at index fields N0 n (N0 + 6 + r'.offs) r'.lens r'.nulls r'.null_mask
        ∧ (∀ c, c < REC_OFFS_HEADER_SIZE + (i + 1) → r'.offsets c = r.offsets c)
        ∧ (∀ j, i ≤ j → j < n →
            rec_offs_base r'.offsets (j + 1) = rec_comp_data_offs fields (j + 1)
              + (if (dfield_array_get fields j).len = UNIV_SQL_NULL then 2 ^ 31 else 0)
              + (if (dfield_array_get fields j).ext = true then 2 ^ 30 else 0)) := by
  intro k
  induction k with
  | zero =>
    intro fuel i r hik _ hs hnf r' hr'
    have hin : i + 1 = n := by omega
    have hi : i < n := by omega
    obtain ⟨b1, b2⟩ := rec_init_offsets_comp_ordinary_body_at M index fields N0 i r
      (hv i hi) (hx i hi) (by rw [hin]; exact hcnt) (by rw [hin]; exact hgeo)
      (by rw [hin]; exact hD) (hw i hi).1 (hw i hi).2 hs _ rfl
    have hnf1 : rec_offs_n_fields (rec_init_offsets_comp_ordinary_body M index i r).offsets
        = n := by
      rw [b2, rec_offs_n_fields, rec_offs_base_set_apply, if_neg (by unfold REC_OFFS_HEADER_SIZE; omega)]
      exact hnf
    have hr1 : rec_init_offsets_comp_ordinary_body M index i r = r' := by
      cases fuel with
      | zero => rw [rec_init_offsets_comp_ordinary_loop] at hr'; exact hr'
      | succ fuel =>
        rw [rec_init_offsets_comp_ordinary_loop] at hr'
        rw [hnf1, if_neg (by omega)] at hr'
        exact hr'
    rw [hr1] at b1 b2
    rw [hin] at b1
    refine ⟨b1, ?_, ?_⟩
    · intro c hc
      rw [b2, rec_offs_base_set_apply, if_neg (by omega)]
    · intro j h1 h2
      have : j = i := by omega
      subst this
      rw [rec_offs_base, b2, rec_offs_base_set_apply, if_pos rfl]
  | succ k ih =>
    intro fuel i r hik hfuel hs hnf r' hr'
    have hi : i < n := by omega
    have hn1 : n = (i + 1) + (k + 1) := by omega
    have hcle := dict_index_n_nullable_before_le index (i + 1) (k + 1)
    have hLle := rec_comp_lens_size_le index fields (i + 1) (k + 1)
    have hDle := rec_comp_data_offs_le fields (i + 1) (k + 1)
    rw [← hn1] at hcle hLle hDle
    obtain ⟨b1, b2⟩ := rec_init_offsets_comp_ordinary_body_at M index fields N0 i r
      (hv i hi) (hx i hi) (by omega) (by omega) (by omega) (hw i hi).1 (hw i hi).2 hs _ rfl
    have hnf1 : rec_offs_n_fields (rec_init_offsets_comp_ordinary_body M index i r).offsets
        = n := by
      rw [b2, rec_offs_n_fields, rec_offs_base_set_apply, if_neg (by unfold REC_OFFS_HEADER_SIZE; omega)]
      exact hnf
    cases fuel with
    | zero => omega
    | succ fuel =>
      rw [rec_init_offsets_comp_ordinary_loop] at hr'
      rw [hnf1, if_pos (by omega)] at hr'
      obtain ⟨c1, c2, c3⟩ := ih fuel (i + 1) _ (by omega) (by omega) b1 hnf1 r' hr'
      refine ⟨c1, ?_, ?_⟩
      · intro c hc
        rw [c2 c (by omega), b2, rec_offs_base_set_apply, if_neg (by omega)]
      · intro j h1 h2
        by_cases hji : j = i
        · subst hji
          rw [rec_offs_base, c2 _ (by omega), b2, rec_offs_base_set_apply, if_pos rfl]
        · exact c3 j (by omega) h2

theorem rec_offs_cell_facts (d : Nat) (p q : Prop) [Decidable p] [Decidable q]
    (hd : d < 2 ^ 30) :
    (d + (if p then 2 ^ 31 else 0) + (if q then 2 ^ 30 else 0)) &&& REC_OFFS_MASK = d
    ∧ ((d + (if p then 2 ^ 31 else 0) + (if q then 2 ^ 30 else 0)) &&& REC_OFFS_SQL_NULL ≠ 0 ↔ p)
    ∧ ((d + (if p then 2 ^ 31 else 0) + (if q then 2 ^ 30 else 0)) &&& REC_OFFS_EXTERNAL ≠ 0
        ↔ q) := by
  rw [and_offs_mask, and_offs_sql_null, and_offs_external]
  by_cases hp : p <;> by_cases hq : q
  · simp only [hp, hq, if_true, iff_true]
    refine ⟨by omega, ?_, ?_⟩
    · rw [if_pos (by omega)]; omega
    · rw [if_pos (by omega)]; omega
  · simp only [hp, hq, if_true, if_false, iff_true, iff_false]
    refine ⟨by omega, ?_, ?_⟩
    · rw [if_pos (by omega)]; omega
    · rw [if_neg (by omega)]; omega
  · simp only [hp, hq, if_true, if_false, iff_true, iff_false]
    refine ⟨by omega, ?_, ?_⟩
    · rw [if_neg (by omega)]; omega
    · rw [if_pos (by omega)]; omega
  · simp only [hp, hq, if_false, iff_false]
    refine ⟨by omega, ?_, ?_⟩
    · rw [if_neg (by omega)]; omega
    · rw [if_neg (by omega)]; omega

/-- The record type of a record whose info and status bits were set from info
bits with the status bits of an ordinary record. -/
theorem rec_get_status_set_ordinary (m : Mem) (rec_ bits : Nat) (hrec : 5 ≤ rec_)
    (hbits : bits &&& REC_NEW_STATUS_MASK = REC_STATUS_ORDINARY) :
    rec_get_status (rec_set_info_and_status_bits m rec_ bits) rec_ = REC_STATUS_ORDINARY := by
  unfold rec_get_status rec_get_bit_field_1 rec_set_info_and_status_bits rec_set_info_bits_new
    rec_set_status rec_set_bit_field_1 mach_read_from_1 mach_write_to_1
  rw [hbits]
  unfold REC_NEW_STATUS REC_NEW_INFO_BITS REC_NEW_STATUS_MASK REC_NEW_STATUS_SHIFT
    REC_STATUS_ORDINARY REC_INFO_BITS_SHIFT
  simp only [Nat.shiftLeft_zero, Nat.shiftRight_zero, Nat.or_zero]
  rw [Mem.byte_eq, Mem.put_eq, if_neg (by omega), Mem.put_eq, if_pos rfl]
  rw [show (7 : Nat) = 2 ^ 3 - 1 from rfl, Nat.and_pow_two_sub_one_eq_mod]
  have h : (m.byte (rec_ - 3) &&& (2 ^ 64 - 1 - (2 ^ 3 - 1))) % 2 ^ 3 = 0 := by
    rw [← Nat.and_pow_two_sub_one_eq_mod, Nat.and_assoc]
    rw [show (2 ^ 64 - 1 - (2 ^ 3 - 1)) &&& (2 ^ 3 - 1) = 0 from by decide, Nat.and_zero]
  omega

theorem rec_set_info_and_status_bits_frame (m : Mem) (rec_ bits x : Nat)
    (h3 : x ≠ rec_ - 3) (h5 : x ≠ rec_ - 5) :
    rec_set_info_and_status_bits m rec_ bits x = m x := by
  unfold rec_set_info_and_status_bits rec_set_info_bits_new rec_set_status rec_set_bit_field_1
    mach_write_to_1 REC_NEW_STATUS REC_NEW_INFO_BITS
  rw [Mem.put_eq, if_neg h5, Mem.put_eq, if_neg h3]

/-- The offsets of the first fields of an ordinary compact record, as many as
the index has or fewer: `rec_get_offsets_func` from no array. -/
theorem rec_get_offsets_func_ordinary (M : Mem) (rec_ : Nat) (index : dict_index_t) (nf : Nat)
    (hcomp : dict_table_is_comp index.table = true)
    (hst : rec_get_status M rec_ = REC_STATUS_ORDINARY)
    (hnf : index.n_fields ≤ nf) :
    rec_get_offsets_func M rec_ index none nf
      = some (rec_init_offsets_comp_ordinary M rec_ REC_N_NEW_EXTRA_BYTES index
          (rec_offs_set_n_fields
            (rec_offs_set_n_alloc (fun _ => 0) (index.n_fields + (1 + REC_OFFS_HEADER_SIZE)))
            index.n_fields)) := by
  have h1 : rec_init_offsets M rec_ index
      (rec_offs_set_n_fields
        (rec_offs_set_n_alloc (fun _ => 0) (index.n_fields + (1 + REC_OFFS_HEADER_SIZE)))
        index.n_fields)
      = some (rec_init_offsets_comp_ordinary M rec_ REC_N_NEW_EXTRA_BYTES index
          (rec_offs_set_n_fields
            (rec_offs_set_n_alloc (fun _ => 0) (index.n_fields + (1 + REC_OFFS_HEADER_SIZE)))
            index.n_fields)) := by
    unfold rec_init_offsets
    rw [if_pos hcomp]
    simp only [hst, if_true]
    rw [if_neg (by decide)]
  unfold rec_get_offsets_func
  rw [if_pos hcomp]
  simp only [hst, if_true, dict_index_get_n_fields]
  rw [if_neg (by omega), h1]

/-- The offset and the length of field `i` under offsets whose cells hold the
end offsets of the fields with their flags. -/
theorem rec_get_nth_field_offs_eq (fields : List dfield_t) (offsets : Nat → Nat) (n i : Nat)
    (hi : i < n)
    (hD : rec_comp_data_offs fields n < 2 ^ 30)
    (hlen : (dfield_array_get fields i).len ≠ UNIV_SQL_NULL →
      (dfield_array_get fields i).len < 16384)
    (hcell : ∀ j, j < n →
      rec_offs_base offsets (j + 1) = rec_comp_data_offs fields (j + 1)
        + (if (dfield_array_get fields j).len = UNIV_SQL_NULL then 2 ^ 31 else 0)
        + (if (dfield_array_get fields j).ext = true then 2 ^ 30 else 0)) :
    rec_get_nth_field_offs offsets i
      = (rec_comp_data_offs fields i, (dfield_array_get fields i).len) := by
  have hDi := rec_comp_data_offs_le fields (i + 1) (n - (i + 1))
  rw [show i + 1 + (n - (i + 1)) = n by omega] at hDi
  have hDi1 := rec_comp_data_offs_le fields i 1
  have hDs := rec_comp_data_offs_succ fields i
  obtain ⟨f1, f2, _⟩ := rec_offs_cell_facts (rec_comp_data_offs fields (i + 1))
    ((dfield_array_get fields i).len = UNIV_SQL_NULL) ((dfield_array_get fields i).ext = true)
    (by omega)
  have hoffs : (if i = 0 then 0 else rec_offs_base offsets i &&& REC_OFFS_MASK)
      = rec_comp_data_offs fields i := by
    by_cases h0 : i = 0
    · subst h0; rfl
    · rw [if_neg h0]
      obtain ⟨j, rfl⟩ : ∃ j, i = j + 1 := ⟨i - 1, by omega⟩
      rw [hcell j (by omega)]
      exact (rec_offs_cell_facts (rec_comp_data_offs fields (j + 1))
        ((dfield_array_get fields j).len = UNIV_SQL_NULL)
        ((dfield_array_get fields j).ext = true) (by omega)).1
  unfold rec_get_nth_field_offs
  simp only [hoffs]
  rw [show 1 + i = i + 1 by omega, hcell i hi]
  by_cases hnull : (dfield_array_get fields i).len = UNIV_SQL_NULL
  · rw [if_pos (f2.2 hnull), hnull]
  · rw [if_neg (fun h => hnull (f2.1 h)), f1]
    have hnull1 : dfield_is_null (dfield_array_get fields i) = false := by
      simp [dfield_is_null, hnull]
    rw [dfield_data_size, hnull1] at hDs
    simp only [Bool.false_eq_true, if_false, dfield_get_len] at hDs
    have := hlen hnull
    congr 1
    omega

theorem rec_validate_loop_eq (fields : List dfield_t) (rec_ : Nat) (offsets : Nat → Nat)
    (n : Nat)
    (hfield : ∀ i, i < n → rec_get_nth_field_offs offsets i
      = (rec_comp_data_offs fields i, (dfield_array_get fields i).len))
    (hlen : ∀ i, i < n → (dfield_array_get fields i).len ≠ UNIV_SQL_NULL →
      (dfield_array_get fields i).len < 16384) :
    ∀ k i sum, i + k ≤ n →
      rec_validate_loop rec_ offsets k i sum
        = some (sum + (rec_comp_data_offs fields (i + k) - rec_comp_data_offs fields i)) := by
  intro k
  induction k with
  | zero => intro i sum _; simp [rec_validate_loop]
  | succ k ih =>
    intro i sum hik
    have hDs := rec_comp_data_offs_succ fields i
    have hDle := rec_comp_data_offs_le fields (i + 1) k
    rw [rec_validate_loop]
    simp only [rec_get_nth_field, hfield i (by omega)]
    rw [show i + (k + 1) = i + 1 + k by omega]
    by_cases hnull : (dfield_array_get fields i).len = UNIV_SQL_NULL
    · have hnull1 : dfield_is_null (dfield_array_get fields i) = true := by
        simp [dfield_is_null, hnull]
      rw [dfield_data_size, if_pos hnull1] at hDs
      rw [if_neg (by simp [hnull]), if_neg (by simp [hnull]), ih (i + 1) sum (by omega)]
      congr 1
      omega
    · have hnull1 : dfield_is_null (dfield_array_get fields i) = false := by
        simp [dfield_is_null, hnull]
      rw [dfield_data_size, hnull1] at hDs
      simp only [Bool.false_eq_true, if_false, dfield_get_len] at hDs
      have hl := hlen i (by omega) hnull
      rw [if_neg (by unfold UNIV_PAGE_SIZE; simp; omega), if_pos hnull,
        ih (i + 1) _ (by omega)]
      congr 1
      omega

theorem dfield_array_get_set (fs : List dfield_t) (i j : Nat) (x : dfield_t)
    (hi : i < fs.length) :
    dfield_array_get (fs.set i x) j = if j = i then x else dfield_array_get fs j := by
  unfold dfield_array_get
  rw [List.getD_eq_getElem?_getD, List.getD_eq_getElem?_getD, List.getElem?_set]
  by_cases h : i = j
  · subst h
    simp [hi]
  · rw [if_neg h, if_neg (fun h' => h h'.symm)]

theorem rec_copy_prefix_to_dtuple_loop_get (M : Mem) (rec_ : Nat) (offsets : Nat → Nat) :
    ∀ k i (fs : List dfield_t), i + k ≤ fs.length → ∀ j,
      dfield_array_get (rec_copy_prefix_to_dtuple_loop M rec_ offsets k i fs) j
        = if i ≤ j ∧ j < i + k then
            (if (rec_get_nth_field rec_ offsets j).2 ≠ UNIV_SQL_NULL then
              dfield_set_data (dfield_array_get fs j)
                (M.bytes (rec_get_nth_field rec_ offsets j).1 (rec_get_nth_field rec_ offsets j).2)
                (rec_get_nth_field rec_ offsets j).2
            else dfield_set_null (dfield_array_get fs j))
          else dfield_array_get fs j := by
  intro k
  induction k with
  | zero =>
    intro i fs _ j
    rw [rec_copy_prefix_to_dtuple_loop, if_neg (by omega)]
  | succ k ih =>
    intro i fs hik j
    rw [rec_copy_prefix_to_dtuple_loop]
    rw [ih (i + 1) _ (by rw [List.length_set]; omega) j, dfield_array_get_set _ _ _ _ (by omega)]
    by_cases hji : j = i
    · subst hji
      have c1 : ¬ (j + 1 ≤ j ∧ j < j + 1 + k) := by omega
      have c2 : j ≤ j ∧ j < j + (k + 1) := by omega
      rw [if_neg c1, if_pos rfl, if_pos c2]
    · rw [if_neg hji]
      by_cases h1 : i + 1 ≤ j ∧ j < i + 1 + k
      · have c2 : i ≤ j ∧ j < i + (k + 1) := by omega
        rw [if_pos h1, if_pos c2]
      · have c2 : ¬ (i ≤ j ∧ j < i + (k + 1)) := by omega
        rw [if_neg h1, if_neg c2]

theorem rec_convert_dtuple_to_rec_ordinary (mem : Mem) (buf : Nat) (index : dict_index_t)
    (dtuple : dtuple_t) (n_ext : Nat)
    (hcomp : dict_table_is_comp index.table = true)
    (hstatus : dtuple.info_bits &&& REC_NEW_STATUS_MASK = REC_STATUS_ORDINARY) :
    rec_convert_dtuple_to_rec mem buf index dtuple n_ext
      = some (rec_set_info_and_status_bits
          (rec_convert_dtuple_to_rec_comp_loop index dtuple.fields ULINT_UNDEFINED
            dtuple.n_fields 0
            ⟨memset mem
                ((buf + ( rec_get_converted_size_comp_prefix index dtuple.fields dtuple.n_fields).2)
                  - (REC_N_NEW_EXTRA_BYTES + 1) - UT_BITS_IN_BYTES index.n_nullable + 1) 0
                ((buf + ( rec_get_converted_size_comp_prefix index dtuple.fields
                    dtuple.n_fields).2) - (REC_N_NEW_EXTRA_BYTES + 1)
                  - ((buf + ( rec_get_converted_size_comp_prefix index dtuple.fields
                    dtuple.n_fields).2) - (REC_N_NEW_EXTRA_BYTES + 1)
                    - UT_BITS_IN_BYTES index.n_nullable)),
              buf + ( rec_get_converted_size_comp_prefix index dtuple.fields dtuple.n_fields).2,
              (buf + ( rec_get_converted_size_comp_prefix index dtuple.fields dtuple.n_fields).2)
                - (REC_N_NEW_EXTRA_BYTES + 1),
              (buf + ( rec_get_converted_size_comp_prefix index dtuple.fields dtuple.n_fields).2)
                - (REC_N_NEW_EXTRA_BYTES + 1) - UT_BITS_IN_BYTES index.n_nullable,
              1⟩).mem
          (buf + ( rec_get_converted_size_comp_prefix index dtuple.fields dtuple.n_fields).2)
          dtuple.info_bits,
        buf + ( rec_get_converted_size_comp_prefix index dtuple.fields dtuple.n_fields).2) := by
  unfold rec_convert_dtuple_to_rec rec_convert_dtuple_to_rec_new rec_get_converted_size_comp
    rec_convert_dtuple_to_rec_comp dtuple_get_info_bits
  rw [if_pos hcomp, hstatus]
  simp only [if_true]

/-- The record that `rec_convert_dtuple_to_rec` builds of a valid tuple is an
ordinary compact record whose offsets, by `rec_get_offsets_func`, hold the end
offsets of the fields of the tuple with their flags, and whose data are the
data of the tuple. -/
theorem rec_convert_dtuple_to_rec_decodes (mem : Mem) (buf : Nat) (index : dict_index_t)
    (dtuple : dtuple_t) (n_ext : Nat)
    (hbuf : 0 < buf)
    (hcomp : dict_table_is_comp index.table = true)
    (hn : dtuple.n_fields = index.n_fields)
    (hpos : 0 < index.n_fields) (hmax : index.n_fields ≤ REC_MAX_N_FIELDS)
    (hnullable : dict_index_n_nullable_before index index.n_fields = index.n_nullable)
    (hstatus : dtuple.info_bits &&& REC_NEW_STATUS_MASK = REC_STATUS_ORDINARY)
    (hv : ∀ i, i < index.n_fields →
      dfield_valid_for (dict_index_get_nth_field index i) (dtuple_get_nth_field dtuple i))
    (hx : ∀ i, i < index.n_fields →
      dfield_ext_valid_for (dict_index_get_nth_field index i) (dtuple_get_nth_field dtuple i)) :
    ∃ m rec_ offsets,
      rec_convert_dtuple_to_rec mem buf index dtuple n_ext = some (m, rec_)
      ∧ (∀ nf, index.n_fields ≤ nf → rec_get_offsets_func m rec_ index none nf = some offsets)
      ∧ rec_offs_n_fields offsets = index.n_fields
      ∧ rec_offs_comp offsets ≠ 0
      ∧ rec_comp_data_offs dtuple.fields index.n_fields < 2 ^ 30
      ∧ (∀ j, j < index.n_fields →
          rec_offs_base offsets (j + 1) = rec_comp_data_offs dtuple.fields (j + 1)
            + (if (dfield_array_get dtuple.fields j).len = UNIV_SQL_NULL then 2 ^ 31 else 0)
            + (if (dfield_array_get dtuple.fields j).ext = true then 2 ^ 30 else 0))
      ∧ (∀ j, j < index.n_fields → (dfield_array_get dtuple.fields j).len ≠ UNIV_SQL_NULL →
          ∀ t, t < (dfield_array_get dtuple.fields j).len →
            m (rec_ + rec_comp_data_offs dtuple.fields j + t)
              = (dfield_array_get dtuple.fields j).data.getD t 0) := by
  have hv1 : ∀ i, i < index.n_fields →
      dfield_valid_for (dict_index_get_nth_field index i) (dfield_array_get dtuple.fields i) := hv
  have hx1 : ∀ i, i < index.n_fields →
      dfield_ext_valid_for (dict_index_get_nth_field index i)
        (dfield_array_get dtuple.fields i) := hx
  have hE : ( rec_get_converted_size_comp_prefix index dtuple.fields dtuple.n_fields).2
      = REC_N_NEW_EXTRA_BYTES + UT_BITS_IN_BYTES index.n_nullable
        + rec_comp_lens_size index dtuple.fields index.n_fields := by
    have h := (rec_get_converted_size_comp_prefix_loop_eq index dtuple.fields index.n_fields 0
      (REC_N_NEW_EXTRA_BYTES + UT_BITS_IN_BYTES index.n_nullable) 0).1
    rw [Nat.zero_add] at h
    have h0 : rec_comp_lens_size index dtuple.fields 0 = 0 := rfl
    rw [h0, Nat.add_zero] at h
    rw [hn]
    exact h
  have hconv := rec_convert_dtuple_to_rec_ordinary mem buf index dtuple n_ext hcomp hstatus
  rw [hE, hn] at hconv
  have hDn : rec_comp_data_offs dtuple.fields index.n_fields < 2 ^ 30 := by
    have := rec_comp_data_offs_bound index dtuple.fields index.n_fields hv1 index.n_fields
      (Nat.le_refl _)
    unfold REC_MAX_N_FIELDS at hmax
    have h2 : index.n_fields * 16383 ≤ 1023 * 16383 := Nat.mul_le_mul_right _ hmax
    omega
  have hcnt : dict_index_n_nullable_before index index.n_fields
      ≤ 8 * UT_BITS_IN_BYTES index.n_nullable := by
    rw [hnullable]; unfold UT_BITS_IN_BYTES; omega
  generalize hN0 : buf + UT_BITS_IN_BYTES index.n_nullable
      + rec_comp_lens_size index dtuple.fields index.n_fields - 1 = N0 at *
  have e1 : buf + (REC_N_NEW_EXTRA_BYTES + UT_BITS_IN_BYTES index.n_nullable
      + rec_comp_lens_size index dtuple.fields index.n_fields) - (REC_N_NEW_EXTRA_BYTES + 1)
      = N0 := by unfold REC_N_NEW_EXTRA_BYTES; omega
  have e2 : buf + (REC_N_NEW_EXTRA_BYTES + UT_BITS_IN_BYTES index.n_nullable
      + rec_comp_lens_size index dtuple.fields index.n_fields) = N0 + 6 := by
    unfold REC_N_NEW_EXTRA_BYTES; omega
  have e3 : N0 + 6 - (REC_N_NEW_EXTRA_BYTES + 1) = N0 := by unfold REC_N_NEW_EXTRA_BYTES; omega
  have hgeo : UT_BITS_IN_BYTES index.n_nullable
      + rec_comp_lens_size index dtuple.fields index.n_fields ≤ N0 := by omega
  rw [e1, e2] at hconv
  obtain ⟨S, hS, hconv⟩ : ∃ S, rec_convert_dtuple_to_rec_comp_loop index dtuple.fields
      ULINT_UNDEFINED index.n_fields 0
      ⟨memset mem (N0 - UT_BITS_IN_BYTES index.n_nullable + 1) 0
        (N0 - (N0 - UT_BITS_IN_BYTES index.n_nullable)), N0 + 6, N0,
        N0 - UT_BITS_IN_BYTES index.n_nullable, 1⟩ = S
      ∧ rec_convert_dtuple_to_rec mem buf index dtuple n_ext
        = some (rec_set_info_and_status_bits S.mem (N0 + 6) dtuple.info_bits, N0 + 6) :=
    ⟨_, rfl, hconv⟩
  obtain ⟨w1, _, _, w4⟩ := rec_convert_dtuple_to_rec_comp_loop_at index dtuple.fields N0
    index.n_fields hv1 hcnt hgeo (by unfold ULINT_UNDEFINED REC_MAX_N_FIELDS at *; omega)
    index.n_fields 0
    ⟨memset mem (N0 - UT_BITS_IN_BYTES index.n_nullable + 1) 0
        (N0 - (N0 - UT_BITS_IN_BYTES index.n_nullable)), N0 + 6, N0,
        N0 - UT_BITS_IN_BYTES index.n_nullable, 1⟩
    (by omega)
    ⟨rfl, rfl, 0, by omega, rfl, Nat.le_refl _, by
      show (N0 - N0) * 8 + 0 = 0
      omega⟩
    (by
      intro g _ hg
      show ((memset mem (N0 - UT_BITS_IN_BYTES index.n_nullable + 1) 0
        (N0 - (N0 - UT_BITS_IN_BYTES index.n_nullable))).byte (N0 - g / 8)).testBit (g % 8)
          = false
      rw [Mem.byte_eq]
      unfold memset
      rw [if_pos (by omega)]
      simp)
    S hS
  generalize hM : rec_set_info_and_status_bits S.mem (N0 + 6) dtuple.info_bits = M at hconv
  have hMx : ∀ x, x ≤ N0 ∨ N0 + 6 ≤ x → M x = S.mem x := by
    intro x hx
    rw [← hM]
    exact rec_set_info_and_status_bits_frame _ _ _ _ (by omega) (by omega)
  have hst : rec_get_status M (N0 + 6) = REC_STATUS_ORDINARY := by
    rw [← hM]
    exact rec_get_status_set_ordinary _ _ _ (by omega) hstatus
  have hw : ∀ j, j < index.n_fields →
      rec_comp_null_written index dtuple.fields N0 M j
      ∧ rec_comp_lens_written index dtuple.fields N0 M j := by
    intro j hj
    obtain ⟨a1, a2, _⟩ := w4 j (by omega) hj
    unfold rec_comp_null_written rec_comp_lens_written at *
    simp only [Mem.byte_eq] at a1 a2 ⊢
    rw [hMx _ (Or.inl (by omega)), hMx _ (Or.inl (by omega)), hMx _ (Or.inl (by omega))]
    exact ⟨a1, a2⟩
  have hd : ∀ j, j < index.n_fields → (dfield_array_get dtuple.fields j).len ≠ UNIV_SQL_NULL →
      ∀ t, t < (dfield_array_get dtuple.fields j).len →
        M (N0 + 6 + rec_comp_data_offs dtuple.fields j + t)
          = (dfield_array_get dtuple.fields j).data.getD t 0 := by
    intro j hj hnn t ht
    rw [hMx _ (Or.inr (by omega))]
    exact (w4 j (by omega) hj).2.2 hnn t ht
  have hoff := fun nf hnf => rec_get_offsets_func_ordinary M (N0 + 6) index nf hcomp hst hnf
  generalize hO0 : rec_offs_set_n_fields
    (rec_offs_set_n_alloc (fun _ => 0) (index.n_fields + (1 + REC_OFFS_HEADER_SIZE)))
    index.n_fields = O0 at hoff
  have hO0n : rec_offs_n_fields O0 = index.n_fields := by
    rw [← hO0]; rfl
  obtain ⟨R, hR, hOeq⟩ : ∃ R, rec_init_offsets_comp_ordinary_loop M index
      (rec_offs_n_fields O0) 0 ⟨O0, 0, 0, N0, N0 - UT_BITS_IN_BYTES index.n_nullable, 1⟩ = R
      ∧ rec_init_offsets_comp_ordinary M (N0 + 6) REC_N_NEW_EXTRA_BYTES index O0
        = rec_offs_base_set R.offsets 0
            ((N0 + 6 - (R.lens + 1)) ||| REC_OFFS_COMPACT ||| R.any_ext) := by
    refine ⟨_, rfl, ?_⟩
    unfold rec_init_offsets_comp_ordinary
    rw [e3]
  obtain ⟨_, c2, c3⟩ := rec_init_offsets_comp_ordinary_loop_at M index dtuple.fields N0
    index.n_fields hv1 hx1 hcnt hgeo hDn hw (index.n_fields - 1) (rec_offs_n_fields O0) 0
    ⟨O0, 0, 0, N0, N0 - UT_BITS_IN_BYTES index.n_nullable, 1⟩ (by omega) (by omega)
    ⟨rfl, rfl, 0, by omega, rfl, Nat.le_refl _, by
      show (N0 - N0) * 8 + 0 = 0
      omega⟩
    hO0n R hR
  refine ⟨M, N0 + 6, rec_init_offsets_comp_ordinary M (N0 + 6) REC_N_NEW_EXTRA_BYTES index O0,
    hconv, hoff, ?_, ?_, hDn, ?_, hd⟩
  · rw [hOeq, rec_offs_n_fields, rec_offs_base_set_apply,
      if_neg (by unfold REC_OFFS_HEADER_SIZE; omega),
      c2 1 (by unfold REC_OFFS_HEADER_SIZE; omega)]
    exact hO0n
  · rw [rec_offs_comp, rec_offs_base, hOeq, rec_offs_base_set_apply, if_pos rfl,
      REC_OFFS_COMPACT, and_two_pow_ne_zero, Nat.testBit_or, Nat.testBit_or,
      Nat.testBit_two_pow_self]
    simp
  · intro j hj
    rw [rec_offs_base, hOeq, rec_offs_base_set_apply, if_neg (by omega)]
    exact c3 j (by omega) hj

theorem Mem.bytes_eq_data (m : Mem) (a : Nat) (data : List Nat)
    (h : ∀ t, t < data.length → m (a + t) = data.getD t 0) :
    m.bytes a data.length = data := by
  apply List.ext_getElem
  · simp [Mem.bytes]
  · intro k h1 h2
    simp only [Mem.bytes, List.getElem_map, List.getElem_range]
    rw [h k h2, List.getD_eq_getElem _ _ h2]

/-- Claim C5, with the condition on external storage that the claim leaves
out: for the index of a compact-format table and a data tuple of an ordinary
record that is valid for it (as many fields as the index, at least one and at
most 1023; the types of the fields are the types of the columns; fixed-length
fields of exactly the fixed length; NULL only in nullable fields; lengths below
16384; lengths at most 255 in variable-length columns of at most 255 bytes that
are no BLOBs) and in which only fields that are not NULL, of variable length,
in columns of 256 bytes or more or BLOBs are stored externally,
`rec_convert_dtuple_to_rec` builds a record that `rec_get_offsets_func` decodes
to as many fields as the tuple has; for every field the NULL flag, the flag of
external storage and the length under these offsets are those of the field of
the tuple, and `rec_copy_prefix_to_dtuple` copies out its length and, when it
is not NULL, its data bytes; and `rec_validate` accepts the record. -/
theorem C5_compact_record_round_trip (mem : Mem) (buf : Nat) (index : dict_index_t)
    (dtuple tuple : dtuple_t) (n_ext : Nat)
    (hbuf : 0 < buf)
    (hcomp : dict_table_is_comp index.table = true)
    (hn : dtuple_get_n_fields dtuple = dict_index_get_n_fields index)
    (hpos : 0 < dict_index_get_n_fields index)
    (hmax : dict_index_get_n_fields index ≤ REC_MAX_N_FIELDS)
    (hnullable : dict_index_n_nullable_before index (dict_index_get_n_fields index)
      = index.n_nullable)
    (hstatus : dtuple_get_info_bits dtuple &&& REC_NEW_STATUS_MASK = REC_STATUS_ORDINARY)
    (hv : ∀ i, i < dict_index_get_n_fields index →
      dfield_valid_for (dict_index_get_nth_field index i) (dtuple_get_nth_field dtuple i))
    (hx : ∀ i, i < dict_index_get_n_fields index →
      dfield_ext_valid_for (dict_index_get_nth_field index i) (dtuple_get_nth_field dtuple i))
    (htuple : dict_index_get_n_fields index ≤ tuple.fields.length) :
    ∃ m rec_ offsets copy,
      rec_convert_dtuple_to_rec mem buf index dtuple n_ext = some (m, rec_)
      ∧ rec_get_offsets_func m rec_ index none ULINT_UNDEFINED = some offsets
      ∧ rec_offs_n_fields offsets = dtuple_get_n_fields dtuple
      ∧ rec_copy_prefix_to_dtuple tuple m rec_ index (dict_index_get_n_fields index) = some copy
      ∧ (∀ i, i < dict_index_get_n_fields index →
          (rec_offs_nth_sql_null offsets i ≠ 0
            ↔ dfield_is_null (dtuple_get_nth_field dtuple i) = true)
          ∧ ( rec_offs_nth_extern offsets i ≠ 0
            ↔ dfield_is_ext (dtuple_get_nth_field dtuple i) = true)
          ∧ (rec_get_nth_field rec_ offsets i).2 = dfield_get_len (dtuple_get_nth_field dtuple i)
          ∧ dfield_get_len (dtuple_get_nth_field copy i)
              = dfield_get_len (dtuple_get_nth_field dtuple i)
          ∧ (dfield_is_null (dtuple_get_nth_field dtuple i) = false →
              dfield_get_data (dtuple_get_nth_field copy i)
                = dfield_get_data (dtuple_get_nth_field dtuple i)))
      ∧ rec_validate rec_ offsets = some true := by
  unfold dtuple_get_n_fields dict_index_get_n_fields at *
  unfold dtuple_get_info_bits at hstatus
  obtain ⟨M, rec_, O, hconv, hoff, hnf, hcomp1, hDn, hcell, hdata⟩ :=
    rec_convert_dtuple_to_rec_decodes mem buf index dtuple n_ext hbuf hcomp hn hpos hmax
      hnullable hstatus hv hx
  have hv1 : ∀ i, i < index.n_fields →
      dfield_valid_for (dict_index_get_nth_field index i) (dfield_array_get dtuple.fields i) := hv
  have hlen : ∀ i, i < index.n_fields → (dfield_array_get dtuple.fields i).len ≠ UNIV_SQL_NULL →
      (dfield_array_get dtuple.fields i).len < 16384 :=
    fun i hi hnn => ((hv1 i hi).2.2.2.2 hnn).2.1
  have hfield : ∀ i, i < index.n_fields → rec_get_nth_field_offs O i
      = (rec_comp_data_offs dtuple.fields i, (dfield_array_get dtuple.fields i).len) :=
    fun i hi => rec_get_nth_field_offs_eq dtuple.fields O index.n_fields i hi hDn
      (hlen i hi) hcell
  have hcopy : rec_copy_prefix_to_dtuple tuple M rec_ index index.n_fields
      = some { dtuple_set_info_bits tuple (rec_get_info_bits M rec_) with
          fields := rec_copy_prefix_to_dtuple_loop M rec_ O index.n_fields 0 tuple.fields } := by
    unfold rec_copy_prefix_to_dtuple
    rw [hoff index.n_fields (Nat.le_refl _)]
    rfl
  refine ⟨M, rec_, O, _, hconv,
    hoff ULINT_UNDEFINED (by unfold ULINT_UNDEFINED REC_MAX_N_FIELDS at *; omega),
    by rw [hnf, hn], hcopy, ?_, ?_⟩
  · intro i hi
    have hDi := rec_comp_data_offs_le dtuple.fields (i + 1) (index.n_fields - (i + 1))
    rw [show i + 1 + (index.n_fields - (i + 1)) = index.n_fields by omega] at hDi
    obtain ⟨_, f2, f3⟩ := rec_offs_cell_facts (rec_comp_data_offs dtuple.fields (i + 1))
      ((dfield_array_get dtuple.fields i).len = UNIV_SQL_NULL)
      ((dfield_array_get dtuple.fields i).ext = true) (by omega)
    have hg : dtuple_get_nth_field dtuple i = dfield_array_get dtuple.fields i := rfl
    have hcg : dtuple_get_nth_field
        { dtuple_set_info_bits tuple (rec_get_info_bits M rec_) with
          fields := rec_copy_prefix_to_dtuple_loop M rec_ O index.n_fields 0 tuple.fields } i
        = dfield_array_get
            (rec_copy_prefix_to_dtuple_loop M rec_ O index.n_fields 0 tuple.fields) i := rfl
    have hin : 0 ≤ i ∧ i < 0 + index.n_fields := by omega
    rw [hg, hcg, rec_copy_prefix_to_dtuple_loop_get M rec_ O index.n_fields 0 tuple.fields
      (by omega) i, if_pos hin]
    simp only [rec_get_nth_field, hfield i hi]
    refine ⟨?_, ?_, rfl, ?_, ?_⟩
    · rw [rec_offs_nth_sql_null, show 1 + i = i + 1 by omega, hcell i hi, f2]
      simp [dfield_is_null]
    · rw [ rec_offs_nth_extern, show 1 + i = i + 1 by omega, hcell i hi, f3]
      rfl
    · by_cases hnull : (dfield_array_get dtuple.fields i).len = UNIV_SQL_NULL
      · rw [if_neg (by simp [hnull])]
        simp [dfield_set_null, dfield_set_data, dfield_get_len, hnull]
      · rw [if_pos hnull]
        rfl
    · intro hnn
      have hnull : (dfield_array_get dtuple.fields i).len ≠ UNIV_SQL_NULL := by
        simpa [dfield_is_null] using hnn
      rw [if_pos hnull]
      have hdl := ((hv1 i hi).2.2.2.2 hnull).1
      show M.bytes (rec_ + rec_comp_data_offs dtuple.fields i)
        (dfield_array_get dtuple.fields i).len = (dfield_array_get dtuple.fields i).data
      rw [← hdl]
      apply Mem.bytes_eq_data
      intro t ht
      exact hdata i hi hnull t (by omega)
  · unfold rec_validate
    simp only [hnf]
    rw [if_neg (by omega), if_neg hcomp1,
      rec_validate_loop_eq dtuple.fields rec_ O index.n_fields hfield hlen index.n_fields 0 0
        (by omega)]
    simp only
    have hds : rec_offs_data_size O = rec_comp_data_offs dtuple.fields index.n_fields := by
      rw [rec_offs_data_size, hnf]
      obtain ⟨j, hj⟩ : ∃ j, index.n_fields = j + 1 := ⟨index.n_fields - 1, by omega⟩
      rw [hj, hcell j (by omega)]
      exact (rec_offs_cell_facts (rec_comp_data_offs dtuple.fields (j + 1))
        ((dfield_array_get dtuple.fields j).len = UNIV_SQL_NULL)
        ((dfield_array_get dtuple.fields j).ext = true) (by rw [← hj]; exact hDn)).1
    rw [hds, if_neg]
    rw [Nat.zero_add, Nat.zero_add]
    show ¬ (rec_comp_data_offs dtuple.fields index.n_fields - 0
      ≠ rec_comp_data_offs dtuple.fields index.n_fields)
    simp

/-- Claim C5 as stated fails: the one-byte field of `short_column_extern_tuple`
meets every condition the claim lists for `short_column_index` (one field as
in the index, not NULL, length 1, below 16384 and at most 255), but it is
flagged as stored externally in a column of at most 255 bytes;
`rec_convert_dtuple_to_rec` writes it with two length bytes, and under the
offsets of `rec_get_offsets_func` the field has length 192, not 1, and is not
flagged as stored externally. -/
theorem C5_extern_flag_in_short_column_misread :
    dict_table_is_comp short_column_index.table = true
    ∧ dtuple_get_n_fields short_column_extern_tuple = dict_index_get_n_fields short_column_index
    ∧ dfield_valid_for (dict_index_get_nth_field short_column_index 0)
        (dtuple_get_nth_field short_column_extern_tuple 0)
    ∧ dfield_is_ext (dtuple_get_nth_field short_column_extern_tuple 0) = true
    ∧ dfield_get_len (dtuple_get_nth_field short_column_extern_tuple 0) = 1
    ∧ (rec_convert_dtuple_to_rec (fun _ => 0) 1 short_column_index
          short_column_extern_tuple 0).bind
        (fun p => (rec_get_offsets_func p.1 p.2 short_column_index none ULINT_UNDEFINED).map
          (fun offsets => ((rec_get_nth_field p.2 offsets 0).2, rec_offs_nth_extern offsets 0)))
      = some (192, 0) := by
  refine ⟨by decide, by decide, by decide, by decide, by decide, ?_⟩
  decide

theorem C5_compact_record_round_trip_witness :
    (0 < 1
      ∧ dict_table_is_comp three_column_index.table = true
      ∧ dtuple_get_n_fields three_column_tuple = dict_index_get_n_fields three_column_index
      ∧ 0 < dict_index_get_n_fields three_column_index
      ∧ dict_index_get_n_fields three_column_index ≤ REC_MAX_N_FIELDS
      ∧ dict_index_n_nullable_before three_column_index
          (dict_index_get_n_fields three_column_index) = three_column_index.n_nullable
      ∧ dtuple_get_info_bits three_column_tuple &&& REC_NEW_STATUS_MASK = REC_STATUS_ORDINARY
      ∧ (∀ i, i < dict_index_get_n_fields three_column_index →
          dfield_valid_for (dict_index_get_nth_field three_column_index i)
            (dtuple_get_nth_field three_column_tuple i))
      ∧ (∀ i, i < dict_index_get_n_fields three_column_index →
          dfield_ext_valid_for (dict_index_get_nth_field three_column_index i)
            (dtuple_get_nth_field three_column_tuple i))
      ∧ dict_index_get_n_fields three_column_index ≤ three_column_tuple.fields.length)
    ∧ ∃ m rec_ offsets copy,
      rec_convert_dtuple_to_rec (fun _ => 0) 1 three_column_index three_column_tuple 0
        = some (m, rec_)
      ∧ rec_get_offsets_func m rec_ three_column_index none ULINT_UNDEFINED = some offsets
      ∧ rec_offs_n_fields offsets = dtuple_get_n_fields three_column_tuple
      ∧ rec_copy_prefix_to_dtuple three_column_tuple m rec_ three_column_index
          (dict_index_get_n_fields three_column_index) = some copy
      ∧ (∀ i, i < dict_index_get_n_fields three_column_index →
          (rec_offs_nth_sql_null offsets i ≠ 0
            ↔ dfield_is_null (dtuple_get_nth_field three_column_tuple i) = true)
          ∧ ( rec_offs_nth_extern offsets i ≠ 0
            ↔ dfield_is_ext (dtuple_get_nth_field three_column_tuple i) = true)
          ∧ (rec_get_nth_field rec_ offsets i).2
              = dfield_get_len (dtuple_get_nth_field three_column_tuple i)
          ∧ dfield_get_len (dtuple_get_nth_field copy i)
              = dfield_get_len (dtuple_get_nth_field three_column_tuple i)
          ∧ (dfield_is_null (dtuple_get_nth_field three_column_tuple i) = false →
              dfield_get_data (dtuple_get_nth_field copy i)
                = dfield_get_data (dtuple_get_nth_field three_column_tuple i)))
      ∧ rec_validate rec_ offsets = some true :=
  ⟨⟨by decide, by decide, by decide, by decide, by decide, by decide, by decide, by decide,
      by decide, by decide⟩,
    C5_compact_record_round_trip (fun _ => 0) 1 three_column_index three_column_tuple
      three_column_tuple 0 (by decide) (by decide) (by decide) (by decide) (by decide)
      (by decide) (by decide) (by decide) (by decide) (by decide)⟩

/-- The last loop of `buf_flush_buffered_writes`, when no assertion fails,
writes each block once, in order. -/
theorem buf_flush_buffered_writes_post_ok (env : flush_env) (dw : trx_doublewrite_t) :
    ∀ (k i : Nat) (io : List io_call),
      (buf_flush_buffered_writes_post env dw k i io).2 = true →
      (buf_flush_buffered_writes_post env dw k i io).1
        = io ++ (List.range' i k).flatMap (fun j =>
            [io_call.fil_io (OS_FILE_WRITE ||| OS_AIO_SIMULATED_WAKE_LATER) false
              (dw.block j).space (dw.block j).offset 0 UNIV_PAGE_SIZE (dw.block j).frame 0
              (some (dw.block j)),
             io_call.buf_LRU_stat_inc_io]) := by
  intro k
  induction k with
  | zero =>
    intro i io _
    simp [buf_flush_buffered_writes_post]
  | succ k ih =>
    intro i io h
    rw [buf_flush_buffered_writes_post] at h ⊢
    by_cases c1 : env.buf_page_in_file (dw.block i) = false
    · rw [if_pos c1] at h
      exact absurd h (by simp)
    rw [if_neg c1] at h ⊢
    by_cases c2 : (dw.block i).state ≠ BUF_BLOCK_FILE_PAGE
    · rw [if_pos c2] at h
      exact absurd h (by simp)
    rw [if_neg c2] at h ⊢
    rw [ih _ _ h, List.range'_succ, List.flatMap_cons, List.append_assoc]

/-- The last loop of `buf_flush_buffered_writes` fails no assertion when every
block is a file page. -/
theorem buf_flush_buffered_writes_post_total (env : flush_env) (dw : trx_doublewrite_t) :
    ∀ (k i : Nat) (io : List io_call),
      (∀ j, i ≤ j → j < i + k → (dw.block j).state = BUF_BLOCK_FILE_PAGE
        ∧ env.buf_page_in_file (dw.block j) = true) →
      (buf_flush_buffered_writes_post env dw k i io).2 = true := by
  intro k
  induction k with
  | zero =>
    intro i io _
    rfl
  | succ k ih =>
    intro i io h
    obtain ⟨h1, h2⟩ := h i (le_refl _) (by omega)
    rw [buf_flush_buffered_writes_post]
    rw [if_neg (by simp [h2]), if_neg (by simp [h1])]
    exact ih _ _ (fun j hj1 hj2 => h j (by omega) (by omega))

/-- The first loop of `buf_flush_buffered_writes` passes when every index page
to be checked is valid. -/
theorem buf_flush_buffered_writes_validate_total (env : flush_env) (dw : trx_doublewrite_t) :
    ∀ (k i : Nat),
      (∀ j, i ≤ j → j < i + k → (dw.block j).check_index_page_at_flush = true →
        env.page_simple_validate_new (dw.block j).frame = true
        ∧ env.page_simple_validate_old (dw.block j).frame = true) →
      buf_flush_buffered_writes_validate env dw k i = true := by
  intro k
  induction k with
  | zero =>
    intro i _
    rfl
  | succ k ih =>
    intro i h
    have hi := h i (le_refl _) (by omega)
    have hrest := ih (i + 1) (fun j hj1 hj2 => h j (by omega) (by omega))
    rw [buf_flush_buffered_writes_validate]
    split_ifs with c1 c2 c3 c4 c5
    · exact hrest
    · exact hrest
    · have := (hi (by simpa using c2)).1
      rw [this] at c4
      exact absurd c4 (by simp)
    · exact hrest
    · have := (hi (by simpa using c2)).2
      rw [this] at c5
      exact absurd c5 (by simp)
    · exact hrest

/-- Claim C10: in `buf_flush_buffered_writes` with the doublewrite buffer in
use, when `first_free` is 0 no call is made; when `n = first_free > 0` page
images are buffered and the function returns, the calls it has made are, in
this order: the write of the first `min(n, TRX_SYS_DOUBLEWRITE_BLOCK_SIZE)`
images to block1, the write of the remaining images, if any, to block2, the
flush of the system tablespace, for each of the `n` buffered pages in turn one
write to its own space and page number, and the final wake-up, wait and flush
of the data files; and `first_free` is 0 on return.  It returns whenever every
buffered block is a file page that passes the checks of the function. -/
theorem C10_doublewrite_before_home_writes (env : flush_env) (st : flush_state)
    (dw : trx_doublewrite_t) (hdw : st.trx_doublewrite = some dw)
    (huse : st.srv_use_doublewrite_buf = true) :
    (dw.first_free = 0 → buf_flush_buffered_writes env st = Except.ok st)
      ∧ (0 < dw.first_free →
          (∀ st', buf_flush_buffered_writes env st = Except.ok st' →
            st'.io = st.io
                ++ [io_call.fil_io OS_FILE_WRITE true TRX_SYS_SPACE dw.block1 0
                      (min TRX_SYS_DOUBLEWRITE_BLOCK_SIZE dw.first_free * UNIV_PAGE_SIZE)
                      dw.write_buf 0 none]
                ++ (if dw.first_free ≤ TRX_SYS_DOUBLEWRITE_BLOCK_SIZE then []
                    else [io_call.fil_io OS_FILE_WRITE true TRX_SYS_SPACE dw.block2 0
                      ((dw.first_free - TRX_SYS_DOUBLEWRITE_BLOCK_SIZE) * UNIV_PAGE_SIZE)
                      dw.write_buf (TRX_SYS_DOUBLEWRITE_BLOCK_SIZE * UNIV_PAGE_SIZE) none])
                ++ [io_call.fil_flush TRX_SYS_SPACE]
                ++ (List.range dw.first_free).flatMap (fun j =>
                    [io_call.fil_io (OS_FILE_WRITE ||| OS_AIO_SIMULATED_WAKE_LATER) false
                      (dw.block j).space (dw.block j).offset 0 UNIV_PAGE_SIZE
                      (dw.block j).frame 0 (some (dw.block j)),
                     io_call.buf_LRU_stat_inc_io])
                ++ [io_call.os_aio_simulated_wake_handler_threads,
                    io_call.os_aio_wait_until_no_pending_writes,
                    io_call.fil_flush_file_spaces FIL_TABLESPACE]
              ∧ ∃ dw', st'.trx_doublewrite = some dw' ∧ dw'.first_free = 0)
          ∧ ((∀ j, j < dw.first_free → (dw.block j).state = BUF_BLOCK_FILE_PAGE
                ∧ env.buf_page_in_file (dw.block j) = true
                ∧ ((dw.block j).check_index_page_at_flush = true →
                    env.page_simple_validate_new (dw.block j).frame = true
                    ∧ env.page_simple_validate_old (dw.block j).frame = true)) →
              ∃ st', buf_flush_buffered_writes env st = Except.ok st')) := by
  constructor
  · intro h0
    unfold buf_flush_buffered_writes
    rw [hdw]
    dsimp only
    rw [if_neg (by simp [huse]), if_pos h0]
  · intro hpos
    have hne : dw.first_free ≠ 0 := by omega
    constructor
    · intro st' hst'
      unfold buf_flush_buffered_writes at hst'
      rw [hdw] at hst'
      dsimp only at hst'
      rw [if_neg (by simp [huse]), if_neg hne] at hst'
      split_ifs at hst' with c1 c2 c3 c3
      · have hpost := buf_flush_buffered_writes_post_ok env dw dw.first_free 0 _
          (Bool.of_not_eq_false c3)
        simp only [Except.ok.injEq] at hst'
        rw [← hst']
        refine ⟨?_, _, rfl, rfl⟩
        simp only [buf_flush_sync_datafiles, hpost, if_pos c2, List.range_eq_range',
          List.append_nil]
      · have hpost := buf_flush_buffered_writes_post_ok env dw dw.first_free 0 _
          (Bool.of_not_eq_false c3)
        simp only [Except.ok.injEq] at hst'
        rw [← hst']
        refine ⟨?_, _, rfl, rfl⟩
        simp only [buf_flush_sync_datafiles, hpost, if_neg c2, List.range_eq_range']
    · intro hblocks
      have hv := buf_flush_buffered_writes_validate_total env dw dw.first_free 0
        (fun j _ hj => (hblocks j (by omega)).2.2)
      unfold buf_flush_buffered_writes
      rw [hdw]
      dsimp only
      rw [if_neg (by simp [huse]), if_neg hne, if_neg (by simp [hv])]
      rw [if_neg (by
        rw [buf_flush_buffered_writes_post_total env dw dw.first_free 0 _
          (fun j _ hj => ⟨(hblocks j (by omega)).1, (hblocks j (by omega)).2.1⟩)]
        simp)]
      exact ⟨_, rfl⟩

theorem C10_doublewrite_before_home_writes_witness :
    sample_flush_state.trx_doublewrite = some sample_doublewrite
      ∧ sample_flush_state.srv_use_doublewrite_buf = true
      ∧ ∃ st', buf_flush_buffered_writes sample_flush_env sample_flush_state = Except.ok st' :=
  ⟨rfl, rfl,
    ((C10_doublewrite_before_home_writes sample_flush_env sample_flush_state sample_doublewrite
      rfl rfl).2 (by decide)).2 (by decide)⟩

/-! ## C11: restoring pages from the doublewrite buffer -/

/-- A synchronous read leaves in the buffer, at `ptr`, the bytes of the file at
the address read. -/
theorem fil_read_bytes (file : Mem) (page_no len : Nat) (buf : Mem) (ptr : Nat) :
    (fil_read file page_no 0 len buf ptr).bytes ptr len
      = file.bytes (page_no * UNIV_PAGE_SIZE) len := by
  unfold Mem.bytes
  apply List.map_congr_left
  intro k hk
  have hk1 : k < len := List.mem_range.mp hk
  unfold fil_read
  generalize page_no * UNIV_PAGE_SIZE = a
  rw [if_pos ⟨by omega, by omega⟩]
  congr 1
  omega

/-- A synchronous write at byte offset 0 leaves the bytes of the buffer in the
file at the address written. -/
theorem fil_write_bytes (files : Nat → Mem) (space_id page_no len : Nat) (buf : Mem)
    (ptr : Nat) :
    (fil_write files space_id page_no 0 len buf ptr space_id).bytes
        (page_no * UNIV_PAGE_SIZE) len
      = buf.bytes ptr len := by
  unfold Mem.bytes
  apply List.map_congr_left
  intro k hk
  have hk1 : k < len := List.mem_range.mp hk
  unfold fil_write
  generalize page_no * UNIV_PAGE_SIZE = a
  dsimp only
  rw [if_pos ⟨rfl, by omega, by omega⟩]
  congr 1
  omega

/-- The body of the loop when space ids need no reset and the home location
of the copy is not eligible: nothing is read or written. -/
theorem trx_sys_doublewrite_restore_page_skip (env : restore_env)
    (restore_corrupt_pages : Bool) (block1 block2 i : Nat) (s : restore_vars)
    (h : s.eligible env restore_corrupt_pages block1 block2 i = false) :
    trx_sys_doublewrite_restore_page env restore_corrupt_pages false block1 block2 i s
      = Except.ok s := by
  unfold restore_vars.eligible restore_vars.copy_space_id restore_vars.copy_page_no at h
  unfold trx_sys_doublewrite_restore_page
  simp only [Bool.false_eq_true, if_false]
  by_cases h1 : restore_corrupt_pages = false
  · rw [if_pos h1]
  rw [if_neg h1]
  by_cases h2 : env.tablespace_exists_in_mem
      (mach_read_from_4 s.buf (i * UNIV_PAGE_SIZE + FIL_PAGE_SPACE_ID)) = false
  · rw [if_pos h2]
  rw [if_neg h2]
  by_cases h3 : env.check_adress_in_tablespace
      (mach_read_from_4 s.buf (i * UNIV_PAGE_SIZE + FIL_PAGE_SPACE_ID))
      (mach_read_from_4 s.buf (i * UNIV_PAGE_SIZE + FIL_PAGE_OFFSET)) = false
  · rw [if_pos h3]
  rw [if_neg h3]
  by_cases h4 : trx_sys_doublewrite_page_in_blocks block1 block2
      (mach_read_from_4 s.buf (i * UNIV_PAGE_SIZE + FIL_PAGE_SPACE_ID))
      (mach_read_from_4 s.buf (i * UNIV_PAGE_SIZE + FIL_PAGE_OFFSET)) = true
  · rw [if_pos h4]
  exfalso
  simp only [Bool.not_eq_false] at h1 h2 h3
  simp only [Bool.not_eq_true] at h4
  rw [h1, h2, h3, h4] at h
  exact absurd h (by decide)

/-- The body of the loop when space ids need no reset and the home location
of the copy is eligible: the page stored there is read, and what follows is
decided by whether it and the copy are corrupt. -/
theorem trx_sys_doublewrite_restore_page_eligible (env : restore_env)
    (restore_corrupt_pages : Bool) (block1 block2 i : Nat) (s : restore_vars)
    (h : s.eligible env restore_corrupt_pages block1 block2 i = true) :
    trx_sys_doublewrite_restore_page env restore_corrupt_pages false block1 block2 i s
      = (let s1 : restore_vars :=
          { s with read_buf := fil_read (s.files (s.copy_space_id i)) (s.copy_page_no i) 0
                      UNIV_PAGE_SIZE s.read_buf 0,
                   calls := s.calls ++ [s.home_read i] }
        if env.is_corrupted (s.home i) = true then
          if env.is_corrupted (s.copy i) = true then Except.error s1
          else Except.ok
            { s1 with files := fil_write s.files (s.copy_space_id i) (s.copy_page_no i) 0
                        UNIV_PAGE_SIZE s.buf (i * UNIV_PAGE_SIZE),
                      calls := s.calls ++ [s.home_read i, s.home_write i] }
        else Except.ok s1) := by
  unfold restore_vars.eligible at h
  simp only [Bool.and_eq_true, Bool.not_eq_true', restore_vars.copy_space_id,
    restore_vars.copy_page_no] at h
  obtain ⟨⟨⟨h1, h2⟩, h3⟩, h4⟩ := h
  unfold trx_sys_doublewrite_restore_page
  simp only [Bool.false_eq_true, Bool.true_eq_false, if_false, h1, h2, h3, h4,
    restore_vars.io, if_true, fil_read_bytes, restore_vars.home, restore_vars.copy, restore_vars.copy_space_id,
    restore_vars.copy_page_no, restore_vars.home_read, restore_vars.home_write,
    List.append_assoc, List.singleton_append]

/-- A 4-byte field of a page that a synchronous read has put at the start of a
buffer is the field of the file at the address read. -/
theorem mach_read_from_4_fil_read (file : Mem) (page_no len : Nat) (buf : Mem) (x : Nat)
    (h : x + 4 ≤ len) :
    mach_read_from_4 (fil_read file page_no 0 len buf 0) x
      = mach_read_from_4 file (page_no * UNIV_PAGE_SIZE + x) := by
  generalize ha : page_no * UNIV_PAGE_SIZE = a
  have e : ∀ k, k < 4 → fil_read file page_no 0 len buf 0 (x + k) = file (a + x + k) := by
    intro k hk
    unfold fil_read
    rw [if_pos ⟨by omega, by omega⟩, ha]
    congr 1
    omega
  unfold mach_read_from_4 Mem.byte
  have e0 := e 0 (by omega)
  rw [Nat.add_zero, Nat.add_zero] at e0
  rw [e0, e 1 (by omega), e 2 (by omega), e 3 (by omega)]

/-- The body of the loop when space ids must be reset and pages are not to be
restored: the space id in the header of the copy is set to 0 and the copy is
written to page 0 of space 0 at byte offset `source_page_no`. -/
theorem trx_sys_doublewrite_restore_page_reset (env : restore_env) (block1 block2 i : Nat)
    (s : restore_vars) :
    trx_sys_doublewrite_restore_page env false true block1 block2 i s
      = Except.ok
          { s with
            buf := mach_write_to_4 s.buf (i * UNIV_PAGE_SIZE + FIL_PAGE_SPACE_ID) 0,
            files := fil_write s.files 0 0 (trx_sys_doublewrite_source_page_no block1 block2 i)
              UNIV_PAGE_SIZE (mach_write_to_4 s.buf (i * UNIV_PAGE_SIZE + FIL_PAGE_SPACE_ID) 0)
              (i * UNIV_PAGE_SIZE),
            calls := s.calls ++ [fil_call.io IO_request.Sync_write false 0 0
              (trx_sys_doublewrite_source_page_no block1 block2 i) UNIV_PAGE_SIZE
              (mach_write_to_4 s.buf (i * UNIV_PAGE_SIZE + FIL_PAGE_SPACE_ID) 0)
              (i * UNIV_PAGE_SIZE)] } := by
  unfold trx_sys_doublewrite_restore_page
  simp only [if_true, restore_vars.io, Bool.false_eq_true, if_false]

/-- The loop when space ids must be reset and pages are not to be restored: it
comes to its end, keeps the calls made before, and has made, for every copy it
went over, a write of the copy to page 0 of space 0 at byte offset
`source_page_no`. -/
theorem trx_sys_doublewrite_restore_loop_reset (env : restore_env) (block1 block2 : Nat) :
    ∀ (k i : Nat) (s : restore_vars),
      ∃ s', trx_sys_doublewrite_restore_loop env false true block1 block2 k i s = Except.ok s'
        ∧ (∀ c, c ∈ s.calls → c ∈ s'.calls)
        ∧ ∀ j, i ≤ j → j < i + k →
            ∃ buf, fil_call.io IO_request.Sync_write false 0 0
              (trx_sys_doublewrite_source_page_no block1 block2 j) UNIV_PAGE_SIZE
              buf (j * UNIV_PAGE_SIZE) ∈ s'.calls := by
  intro k
  induction k with
  | zero =>
    intro i s
    exact ⟨s, rfl, fun c hc => hc, fun j h1 h2 => by omega⟩
  | succ k ih =>
    intro i s
    unfold trx_sys_doublewrite_restore_loop
    rw [trx_sys_doublewrite_restore_page_reset]
    dsimp only
    obtain ⟨s', h1, h2, h3⟩ := ih (i + 1)
      { s with
        buf := mach_write_to_4 s.buf (i * UNIV_PAGE_SIZE + FIL_PAGE_SPACE_ID) 0,
        files := fil_write s.files 0 0 (trx_sys_doublewrite_source_page_no block1 block2 i)
          UNIV_PAGE_SIZE (mach_write_to_4 s.buf (i * UNIV_PAGE_SIZE + FIL_PAGE_SPACE_ID) 0)
          (i * UNIV_PAGE_SIZE),
        calls := s.calls ++ [fil_call.io IO_request.Sync_write false 0 0
          (trx_sys_doublewrite_source_page_no block1 block2 i) UNIV_PAGE_SIZE
          (mach_write_to_4 s.buf (i * UNIV_PAGE_SIZE + FIL_PAGE_SPACE_ID) 0)
          (i * UNIV_PAGE_SIZE)] }
    refine ⟨s', h1, fun c hc => h2 c (List.mem_append_left _ hc), ?_⟩
    intro j hj1 hj2
    by_cases hji : j = i
    · subst hji
      exact ⟨_, h2 _ (List.mem_append_right _ (List.mem_singleton.mpr rfl))⟩
    · exact h3 j (by omega) (by omega)

/-- Claim C11, on the path on which the code leaves it: when the header of the
doublewrite buffer on the trx-sys page has its magic number but not the mark
that space ids are stored, `trx_sys_doublewrite_init_or_restore_pages` called
with `restore_corrupt_pages = false` returns, and for each of the
`2 * TRX_SYS_DOUBLEWRITE_BLOCK_SIZE` page copies it has issued a write of the
copy addressed to space 0, page 0, at byte offset `source_page_no`: page 0 of
the system tablespace, the home page of every copy whose header names page 0,
is written over although no page was to be restored. -/
theorem C11_space_id_reset_writes_over_page_zero (env : restore_env)
    (read_buf write_buf : Mem) (st : restore_state)
    (hmagic : mach_read_from_4 (st.files TRX_SYS_SPACE)
        (TRX_SYS_PAGE_NO * UNIV_PAGE_SIZE + (TRX_SYS_DOUBLEWRITE + TRX_SYS_DOUBLEWRITE_MAGIC))
      = TRX_SYS_DOUBLEWRITE_MAGIC_N)
    (hstored : mach_read_from_4 (st.files TRX_SYS_SPACE)
        (TRX_SYS_PAGE_NO * UNIV_PAGE_SIZE
          + (TRX_SYS_DOUBLEWRITE + TRX_SYS_DOUBLEWRITE_SPACE_ID_STORED))
      ≠ TRX_SYS_DOUBLEWRITE_SPACE_ID_STORED_N) :
    ∃ st', trx_sys_doublewrite_init_or_restore_pages env false read_buf write_buf st
        = Except.ok st'
      ∧ st'.trx_doublewrite_must_reset_space_ids = true
      ∧ ∀ i, i < 2 * TRX_SYS_DOUBLEWRITE_BLOCK_SIZE →
          ∃ buf, fil_call.io IO_request.Sync_write false 0 0
            (trx_sys_doublewrite_source_page_no
              (mach_read_from_4 (st.files TRX_SYS_SPACE)
                (TRX_SYS_PAGE_NO * UNIV_PAGE_SIZE
                  + (TRX_SYS_DOUBLEWRITE + TRX_SYS_DOUBLEWRITE_BLOCK1)))
              (mach_read_from_4 (st.files TRX_SYS_SPACE)
                (TRX_SYS_PAGE_NO * UNIV_PAGE_SIZE
                  + (TRX_SYS_DOUBLEWRITE + TRX_SYS_DOUBLEWRITE_BLOCK2))) i)
            UNIV_PAGE_SIZE buf (i * UNIV_PAGE_SIZE) ∈ st'.calls := by
  have hrb : (restore_vars.io ⟨st.files, write_buf, read_buf, st.calls⟩ IO_request.Sync_read
      false TRX_SYS_SPACE TRX_SYS_PAGE_NO 0 UNIV_PAGE_SIZE true 0).read_buf
      = fil_read (st.files TRX_SYS_SPACE) TRX_SYS_PAGE_NO 0 UNIV_PAGE_SIZE read_buf 0 := rfl
  unfold trx_sys_doublewrite_init_or_restore_pages
  dsimp only
  rw [hrb, mach_read_from_4_fil_read _ _ _ _ _ (by decide), if_pos hmagic]
  unfold trx_sys_doublewrite_restore_created
  dsimp only
  rw [hrb, mach_read_from_4_fil_read _ _ _ _ _ (by decide), decide_eq_false hstored]
  have e1 : (if false = true then st.trx_doublewrite_must_reset_space_ids else true) = true :=
    if_neg (by decide)
  have hb1 : (trx_doublewrite_init
      (fil_read (st.files TRX_SYS_SPACE) TRX_SYS_PAGE_NO 0 UNIV_PAGE_SIZE read_buf 0)
      TRX_SYS_DOUBLEWRITE write_buf).block1
      = mach_read_from_4 (st.files TRX_SYS_SPACE)
          (TRX_SYS_PAGE_NO * UNIV_PAGE_SIZE
            + (TRX_SYS_DOUBLEWRITE + TRX_SYS_DOUBLEWRITE_BLOCK1)) :=
    mach_read_from_4_fil_read _ _ _ _ _ (by decide)
  have hb2 : (trx_doublewrite_init
      (fil_read (st.files TRX_SYS_SPACE) TRX_SYS_PAGE_NO 0 UNIV_PAGE_SIZE read_buf 0)
      TRX_SYS_DOUBLEWRITE write_buf).block2
      = mach_read_from_4 (st.files TRX_SYS_SPACE)
          (TRX_SYS_PAGE_NO * UNIV_PAGE_SIZE
            + (TRX_SYS_DOUBLEWRITE + TRX_SYS_DOUBLEWRITE_BLOCK2)) :=
    mach_read_from_4_fil_read _ _ _ _ _ (by decide)
  rw [e1, hb1, hb2]
  obtain ⟨s', h1, _, h3⟩ := trx_sys_doublewrite_restore_loop_reset env
    (mach_read_from_4 (st.files TRX_SYS_SPACE)
      (TRX_SYS_PAGE_NO * UNIV_PAGE_SIZE + (TRX_SYS_DOUBLEWRITE + TRX_SYS_DOUBLEWRITE_BLOCK1)))
    (mach_read_from_4 (st.files TRX_SYS_SPACE)
      (TRX_SYS_PAGE_NO * UNIV_PAGE_SIZE + (TRX_SYS_DOUBLEWRITE + TRX_SYS_DOUBLEWRITE_BLOCK2)))
    (TRX_SYS_DOUBLEWRITE_BLOCK_SIZE * 2) 0
    (((restore_vars.io ⟨st.files, write_buf, read_buf, st.calls⟩ IO_request.Sync_read false
          TRX_SYS_SPACE TRX_SYS_PAGE_NO 0 UNIV_PAGE_SIZE true 0).io
        IO_request.Sync_read false TRX_SYS_SPACE
        (mach_read_from_4 (st.files TRX_SYS_SPACE)
          (TRX_SYS_PAGE_NO * UNIV_PAGE_SIZE + (TRX_SYS_DOUBLEWRITE + TRX_SYS_DOUBLEWRITE_BLOCK1)))
        0 (TRX_SYS_DOUBLEWRITE_BLOCK_SIZE * UNIV_PAGE_SIZE) false 0).io
      IO_request.Sync_read false TRX_SYS_SPACE
      (mach_read_from_4 (st.files TRX_SYS_SPACE)
        (TRX_SYS_PAGE_NO * UNIV_PAGE_SIZE + (TRX_SYS_DOUBLEWRITE + TRX_SYS_DOUBLEWRITE_BLOCK2)))
      0 (TRX_SYS_DOUBLEWRITE_BLOCK_SIZE * UNIV_PAGE_SIZE) false
      (TRX_SYS_DOUBLEWRITE_BLOCK_SIZE * UNIV_PAGE_SIZE))
  rw [h1]
  refine ⟨_, rfl, rfl, ?_⟩
  intro i hi
  obtain ⟨buf, hb⟩ := h3 i (Nat.zero_le _) (by omega)
  exact ⟨buf, List.mem_append_left _ hb⟩

/-- The theorem `C11_space_id_reset_writes_over_page_zero` at files whose
doublewrite header names the blocks at pages 512 and 576 and has no mark that
space ids are stored: called with `restore_corrupt_pages = false`, the function
writes the first copy to space 0, page 0, at byte offset 512. -/
theorem C11_space_id_reset_writes_over_page_zero_witness :
    ∃ st', trx_sys_doublewrite_init_or_restore_pages sample_restore_env false
        (fun _ => 0) (fun _ => 0) sample_restore_state = Except.ok st'
      ∧ ∃ buf, fil_call.io IO_request.Sync_write false 0 0 512 UNIV_PAGE_SIZE buf 0
          ∈ st'.calls := by
  obtain ⟨st', h1, _, h3⟩ := C11_space_id_reset_writes_over_page_zero sample_restore_env
    (fun _ => 0) (fun _ => 0) sample_restore_state (by decide) (by decide)
  refine ⟨st', h1, ?_⟩
  have h := h3 0 (by decide)
  have e : trx_sys_doublewrite_source_page_no
      (mach_read_from_4 (sample_restore_state.files TRX_SYS_SPACE)
        (TRX_SYS_PAGE_NO * UNIV_PAGE_SIZE + (TRX_SYS_DOUBLEWRITE + TRX_SYS_DOUBLEWRITE_BLOCK1)))
      (mach_read_from_4 (sample_restore_state.files TRX_SYS_SPACE)
        (TRX_SYS_PAGE_NO * UNIV_PAGE_SIZE + (TRX_SYS_DOUBLEWRITE + TRX_SYS_DOUBLEWRITE_BLOCK2)))
      0 = 512 := by decide
  rw [e, Nat.zero_mul] at h
  exact h

/-! ## C12: the lsn and checksum fields that `buf_flush_init_for_writing` stores -/

/-- Two 4-byte fields that read as the same number hold the same bytes, so
`memcmp` finds them equal. -/
theorem memcmp_eq_zero_of_read_eq (m : Mem) (p q : Nat)
    (h : mach_read_from_4 m p = mach_read_from_4 m q) : memcmp m p q 4 = 0 := by
  unfold mach_read_from_4 at h
  have a0 := Mem.byte_lt m p
  have a1 := Mem.byte_lt m (p + 1)
  have a2 := Mem.byte_lt m (p + 2)
  have a3 := Mem.byte_lt m (p + 3)
  have b0 := Mem.byte_lt m q
  have b1 := Mem.byte_lt m (q + 1)
  have b2 := Mem.byte_lt m (q + 2)
  have b3 := Mem.byte_lt m (q + 3)
  have e0 : m.byte p = m.byte q := by omega
  have e1 : m.byte (p + 1) = m.byte (q + 1) := by omega
  have e2 : m.byte (p + 2) = m.byte (q + 2) := by omega
  have e3 : m.byte (p + 3) = m.byte (q + 3) := by omega
  have s2 : p + 1 + 1 = p + 2 := rfl
  have s3 : p + 2 + 1 = p + 3 := rfl
  have t2 : q + 1 + 1 = q + 2 := rfl
  have t3 : q + 2 + 1 = q + 3 := rfl
  unfold memcmp
  rw [e0, if_neg (Nat.lt_irrefl _), if_neg (Nat.lt_irrefl _)]
  unfold memcmp
  rw [e1, if_neg (Nat.lt_irrefl _), if_neg (Nat.lt_irrefl _), s2, t2]
  unfold memcmp
  rw [e2, if_neg (Nat.lt_irrefl _), if_neg (Nat.lt_irrefl _), s3, t3]
  unfold memcmp
  rw [e3, if_neg (Nat.lt_irrefl _), if_neg (Nat.lt_irrefl _)]
  rfl

/-- The low 4 bytes of an 8-byte field that `mach_write_to_8` has written. -/
theorem mach_read_low_write_8 (m : Mem) (b n : Nat) :
    mach_read_from_4 (mach_write_to_8 m b n) (b + 4) = n % 2 ^ 32 := by
  unfold mach_write_to_8
  rw [mach_read_write_4]
  omega

/-- The bytes that `buf_flush_init_for_writing` leaves as they were: all but
the checksum field, the lsn field and the trailer. -/
theorem buf_flush_init_for_writing_frame (env : checksum_env) (page : Mem)
    (newest_lsn x : Nat) (h1 : 4 ≤ x) (h2 : x < 16 ∨ 24 ≤ x)
    (h3 : x < 16376 ∨ 16384 ≤ x) :
    buf_flush_init_for_writing env page newest_lsn x = page x := by
  have hP : UNIV_PAGE_SIZE - FIL_PAGE_END_LSN_OLD_CHKSUM = 16376 := rfl
  have hL : FIL_PAGE_LSN = 16 := rfl
  have hC : FIL_PAGE_SPACE_OR_CHKSUM = 0 := rfl
  unfold buf_flush_init_for_writing buf_flush_init_for_writing_new
    buf_flush_init_for_writing_lsn
  dsimp only
  rw [hP, hL, hC, mach_write_to_4_frame _ _ _ _ (by omega),
    mach_write_to_4_frame _ _ _ _ (by omega), mach_write_to_8_frame _ _ _ _ (by omega),
    mach_write_to_8_frame _ _ _ _ (by omega)]

/-- Claim C12: after `buf_flush_init_for_writing(page, lsn)` with a 64-bit
`lsn`, the 8-byte field at `FIL_PAGE_LSN` holds `lsn`, the last 4 bytes of the
page hold the low 32 bits of `lsn`, and the comparison of the low 4 bytes of
the header lsn with the last 4 bytes of the page that
`buf_flush_buffered_writes` makes finds them equal; the checksum field of the
header holds the new-formula checksum of the page as it is once the lsn is
stored, and the first 4 bytes of the trailer hold the old-formula checksum of
the page as it is once the new-formula checksum is stored (each as the 32 bits
that a 4-byte field holds), or `BUF_NO_CHECKSUM_MAGIC` when checksums are
disabled; every other byte is unchanged. -/
theorem C12_init_for_writing_stores_lsn_and_checksums (env : checksum_env) (page : Mem)
    (lsn : Nat) (hlsn : lsn < 2 ^ 64) :
    mach_read_from_8 (buf_flush_init_for_writing env page lsn) FIL_PAGE_LSN = lsn
    ∧ mach_read_from_4 (buf_flush_init_for_writing env page lsn) (UNIV_PAGE_SIZE - 4)
        = lsn % 2 ^ 32
    ∧ buf_flush_lsn_fields_differ (buf_flush_init_for_writing env page lsn) = false
    ∧ mach_read_from_4 (buf_flush_init_for_writing env page lsn) FIL_PAGE_SPACE_OR_CHKSUM
        = (if env.srv_use_checksums = true
            then env.buf_calc_page_new_checksum (buf_flush_init_for_writing_lsn page lsn)
              % 2 ^ 32
            else BUF_NO_CHECKSUM_MAGIC)
    ∧ mach_read_from_4 (buf_flush_init_for_writing env page lsn)
          (UNIV_PAGE_SIZE - FIL_PAGE_END_LSN_OLD_CHKSUM)
        = (if env.srv_use_checksums = true
            then env.buf_calc_page_old_checksum (buf_flush_init_for_writing_new env page lsn)
              % 2 ^ 32
            else BUF_NO_CHECKSUM_MAGIC)
    ∧ ∀ x, FIL_PAGE_SPACE_OR_CHKSUM + 4 ≤ x
        → (x < FIL_PAGE_LSN ∨ FIL_PAGE_LSN + 8 ≤ x)
        → (x < UNIV_PAGE_SIZE - FIL_PAGE_END_LSN_OLD_CHKSUM ∨ UNIV_PAGE_SIZE ≤ x)
        → buf_flush_init_for_writing env page lsn x = page x := by
  have hP : UNIV_PAGE_SIZE - FIL_PAGE_END_LSN_OLD_CHKSUM = 16376 := rfl
  have hP4 : UNIV_PAGE_SIZE - 4 = 16376 + 4 := rfl
  have hU : UNIV_PAGE_SIZE = 16384 := rfl
  have hL : FIL_PAGE_LSN = 16 := rfl
  have hC : FIL_PAGE_SPACE_OR_CHKSUM = 0 := rfl
  have hM : BUF_NO_CHECKSUM_MAGIC % 2 ^ 32 = BUF_NO_CHECKSUM_MAGIC := by decide
  -- the low 4 bytes of the header lsn and the last 4 bytes of the page
  have hlow : mach_read_from_4 (buf_flush_init_for_writing env page lsn) (16 + 4)
      = lsn % 2 ^ 32 := by
    unfold buf_flush_init_for_writing buf_flush_init_for_writing_new
      buf_flush_init_for_writing_lsn
    dsimp only
    rw [hP, hL, hC,
      mach_read_from_4_congr _ _ _ (fun x h1 h2 => mach_write_to_4_frame _ _ _ _ (by omega)),
      mach_read_from_4_congr _ _ _ (fun x h1 h2 => mach_write_to_4_frame _ _ _ _ (by omega)),
      mach_read_from_4_congr _ _ _ (fun x h1 h2 => mach_write_to_8_frame _ _ _ _ (by omega)),
      mach_read_low_write_8]
  have hlast : mach_read_from_4 (buf_flush_init_for_writing env page lsn) (16376 + 4)
      = lsn % 2 ^ 32 := by
    unfold buf_flush_init_for_writing buf_flush_init_for_writing_new
      buf_flush_init_for_writing_lsn
    dsimp only
    rw [hP, hL, hC,
      mach_read_from_4_congr _ _ _ (fun x h1 h2 => mach_write_to_4_frame _ _ _ _ (by omega)),
      mach_read_from_4_congr _ _ _ (fun x h1 h2 => mach_write_to_4_frame _ _ _ _ (by omega)),
      mach_read_low_write_8]
  refine ⟨?_, ?_, ?_, ?_, ?_, ?_⟩
  · unfold buf_flush_init_for_writing buf_flush_init_for_writing_new
      buf_flush_init_for_writing_lsn
    dsimp only
    rw [hP, hL, hC,
      mach_read_from_8_congr _ _ _ (fun x h1 h2 => mach_write_to_4_frame _ _ _ _ (by omega)),
      mach_read_from_8_congr _ _ _ (fun x h1 h2 => mach_write_to_4_frame _ _ _ _ (by omega)),
      mach_read_from_8_congr _ _ _ (fun x h1 h2 => mach_write_to_8_frame _ _ _ _ (by omega)),
      mach_read_write_8]
    omega
  · rw [hP4]
    exact hlast
  · unfold buf_flush_lsn_fields_differ
    rw [hP, hL, memcmp_eq_zero_of_read_eq _ _ _ (hlow.trans hlast.symm)]
    decide
  · unfold buf_flush_init_for_writing
    dsimp only
    rw [hP, hC,
      mach_read_from_4_congr _ _ _ (fun x h1 h2 => mach_write_to_4_frame _ _ _ _ (by omega))]
    unfold buf_flush_init_for_writing_new
    rw [hC, mach_read_write_4]
    cases env.srv_use_checksums
    · rw [if_neg (by decide), if_neg (by decide), hM]
    · rw [if_pos rfl, if_pos rfl]
  · unfold buf_flush_init_for_writing
    dsimp only
    rw [mach_read_write_4]
    cases env.srv_use_checksums
    · rw [if_neg (by decide), if_neg (by decide), hM]
    · rw [if_pos rfl, if_pos rfl]
  · intro x h1 h2 h3
    rw [hC] at h1
    rw [hL] at h2
    rw [hP, hU] at h3
    exact buf_flush_init_for_writing_frame env page lsn x (by omega) (by omega) (by omega)

/-- The theorem `C12_init_for_writing_stores_lsn_and_checksums` at an empty
page and the lsn `2 ^ 32 + 7`: the fields read back as the lsn and its low 32
bits, and the comparison of the lsn fields finds them equal. -/
theorem C12_init_for_writing_stores_lsn_and_checksums_witness :
    mach_read_from_8 (buf_flush_init_for_writing sample_checksum_env (fun _ => 0)
        (2 ^ 32 + 7)) FIL_PAGE_LSN = 2 ^ 32 + 7
      ∧ mach_read_from_4 (buf_flush_init_for_writing sample_checksum_env (fun _ => 0)
          (2 ^ 32 + 7)) (UNIV_PAGE_SIZE - 4) = (2 ^ 32 + 7) % 2 ^ 32
      ∧ buf_flush_lsn_fields_differ (buf_flush_init_for_writing sample_checksum_env
          (fun _ => 0) (2 ^ 32 + 7)) = false :=
  ⟨(C12_init_for_writing_stores_lsn_and_checksums sample_checksum_env (fun _ => 0)
      (2 ^ 32 + 7) (by decide)).1,
    (C12_init_for_writing_stores_lsn_and_checksums sample_checksum_env (fun _ => 0)
      (2 ^ 32 + 7) (by decide)).2.1,
    (C12_init_for_writing_stores_lsn_and_checksums sample_checksum_env (fun _ => 0)
      (2 ^ 32 + 7) (by decide)).2.2.1⟩

/-! ## C13: when a block is ready for replacement -/

/-- Claim C13: for a buffer control block that is a file page,
`buf_flush_ready_for_replace` returns true if and only if
`oldest_modification == 0`, `io_fix == BUF_IO_NONE` and `buf_fix_count == 0`;
for a block that is not a file page it returns false. -/
theorem C13_ready_for_replace_iff (buf_page_in_file : buf_page_t → Bool)
    (bpage : buf_page_t) :
    (buf_page_in_file bpage = true →
      (buf_flush_ready_for_replace buf_page_in_file bpage = true
        ↔ bpage.oldest_modification = 0 ∧ bpage.io_fix = BUF_IO_NONE
          ∧ bpage.buf_fix_count = 0))
    ∧ (buf_page_in_file bpage = false →
      buf_flush_ready_for_replace buf_page_in_file bpage = false) := by
  constructor
  · intro h
    unfold buf_flush_ready_for_replace
    rw [if_pos h]
    simp only [Bool.and_eq_true, decide_eq_true_eq]
    exact and_assoc
  · intro h
    unfold buf_flush_ready_for_replace
    rw [if_neg (by rw [h]; decide)]

/-- The theorem `C13_ready_for_replace_iff` at a clean file page that nothing
has fixed: the block is ready for replacement. -/
theorem C13_ready_for_replace_iff_witness :
    buf_flush_ready_for_replace (fun b => decide (b.state = BUF_BLOCK_FILE_PAGE))
      sample_clean_page = true :=
  ((C13_ready_for_replace_iff (fun b => decide (b.state = BUF_BLOCK_FILE_PAGE))
    sample_clean_page).1 (by decide)).2 (by decide)

/-! ## C16: the flush rate heuristic -/

/-- The floor of a quotient of natural numbers, taken over the integers. -/
theorem fdiv_natCast (m n : Nat) : Int.fdiv (m : Int) (n : Int) = ((m / n : Nat) : Int) := by
  rw [Int.fdiv_eq_ediv _ (Int.ofNat_nonneg n)]
  exact (Int.ofNat_ediv m n).symm

/-- Claim C16: `buf_flush_get_desired_flush_rate` returns
`max(0, floor(n_dirty * redo_avg / log_capacity) - lru_flush_avg)` with
`redo_avg = floor(buf_flush_stat_sum.redo / 20) + (lsn - buf_flush_stat_cur.redo)`
and `lru_flush_avg = floor(buf_flush_stat_sum.n_flushed / 20)
+ (buf_lru_flush_page_count - buf_flush_stat_cur.n_flushed)`, for every state
with `log_capacity > 0` in which nothing exceeds the machine word: the two
averages and the product `n_dirty * redo_avg` fit the 64-bit unsigned word, and
the difference fits the 64-bit signed word in which the code holds it. -/
theorem C16_desired_flush_rate_formula (st : flush_stat_state)
    (n_dirty lsn log_capacity : Nat)
    (_hcap : 0 < log_capacity)
    (hcur : st.buf_flush_stat_cur.redo < 2 ^ 64)
    (hcurn : st.buf_flush_stat_cur.n_flushed < 2 ^ 64)
    (hredo : 0 ≤ flush_rate_redo_avg st lsn ∧ flush_rate_redo_avg st lsn < 2 ^ 64)
    (hlru : 0 ≤ flush_rate_lru_flush_avg st ∧ flush_rate_lru_flush_avg st < 2 ^ 64)
    (hprod : (n_dirty : Int) * flush_rate_redo_avg st lsn < 2 ^ 64)
    (hrate : -(2 ^ 63) ≤ flush_rate_n_flush_req st n_dirty lsn log_capacity
          - flush_rate_lru_flush_avg st
      ∧ flush_rate_n_flush_req st n_dirty lsn log_capacity - flush_rate_lru_flush_avg st
          < 2 ^ 63) :
    ((buf_flush_get_desired_flush_rate st n_dirty lsn log_capacity : Nat) : Int)
      = flush_rate_formula st n_dirty lsn log_capacity := by
  unfold flush_rate_formula
  unfold flush_rate_n_flush_req at hrate ⊢
  unfold buf_flush_get_desired_flush_rate BUF_FLUSH_STAT_N_INTERVAL
  dsimp only
  generalize hR : (st.buf_flush_stat_sum.redo / 20
    + (lsn + 2 ^ 64 - st.buf_flush_stat_cur.redo) % 2 ^ 64) % 2 ^ 64 = R
  generalize hL : (st.buf_flush_stat_sum.n_flushed / 20
    + (st.buf_lru_flush_page_count + 2 ^ 64 - st.buf_flush_stat_cur.n_flushed) % 2 ^ 64)
    % 2 ^ 64 = L
  have hr : flush_rate_redo_avg st lsn = (R : Int) := by
    unfold flush_rate_redo_avg at hredo ⊢
    omega
  have hl : flush_rate_lru_flush_avg st = (L : Int) := by
    unfold flush_rate_lru_flush_avg at hlru ⊢
    omega
  rw [hr] at hprod hrate ⊢
  rw [hl] at hrate ⊢
  have hp : n_dirty * R < 2 ^ 64 := by exact_mod_cast hprod
  rw [Nat.mod_eq_of_lt hp]
  have hq : Int.fdiv ((n_dirty : Int) * (R : Int)) (log_capacity : Int)
      = ((n_dirty * R / log_capacity : Nat) : Int) := by
    rw [← fdiv_natCast]
    push_cast
    rfl
  rw [hq] at hrate ⊢
  generalize n_dirty * R / log_capacity = Q at hrate ⊢
  have hL2 : L < 2 ^ 64 := by omega
  unfold ulint_to_lint
  split_ifs with h1 h2 h2 <;> omega

/-- The theorem `C16_desired_flush_rate_formula` at a state with 10 dirty
pages, a redo average of 500 and an LRU flush average of 3, for a log capacity
of 1000: the rate is `floor(10 * 500 / 1000) - 3 = 2`. -/
theorem C16_desired_flush_rate_formula_witness :
    ((buf_flush_get_desired_flush_rate sample_flush_stat 10 1300 1000 : Nat) : Int)
        = flush_rate_formula sample_flush_stat 10 1300 1000
      ∧ flush_rate_formula sample_flush_stat 10 1300 1000 = 2 :=
  ⟨C16_desired_flush_rate_formula sample_flush_stat 10 1300 1000 (by decide) (by decide)
    (by decide) (by decide) (by decide) (by decide) (by decide), by decide⟩

/-- Past the signed word the rate is off the mark: with an LRU flush average of
`2 ^ 63 + 5` and nothing to flush for the redo, the difference wraps to a
positive `lint` and `2 ^ 63 - 5` is returned where the formula gives 0. -/
theorem buf_flush_get_desired_flush_rate_wraps :
    flush_rate_lru_flush_avg sample_flush_stat_overflow = 2 ^ 63 + 5
      ∧ buf_flush_get_desired_flush_rate sample_flush_stat_overflow 0 100 1 = 2 ^ 63 - 5
      ∧ flush_rate_formula sample_flush_stat_overflow 0 100 1 = 0 := by
  decide

/-! ## C17: the flush list stays sorted -/

/-- The linear search from a node `b0` that is dirty since a later lsn than
the block, over a sorted list without repetition: it ends at a node of the
list, and the insertion after that node gives a sorted list that holds the
nodes of the list and the block. -/
theorem buf_flush_insert_sorted_search_spec (pages : Nat → buf_page_t) (block : Nat) :
    ∀ (l : List Nat) (b0 : Nat), (b0 :: l).Nodup
      → (b0 :: l).Pairwise
          (fun a b => (pages b).oldest_modification ≤ (pages a).oldest_modification)
      → (pages block).oldest_modification < (pages b0).oldest_modification
      → ∃ p, buf_flush_insert_sorted_search pages (pages block).oldest_modification l (some b0)
            = some p
          ∧ p ∈ b0 :: l
          ∧ (UT_LIST_INSERT_AFTER (b0 :: l) p block).Pairwise
              (fun a b => (pages b).oldest_modification ≤ (pages a).oldest_modification)
          ∧ (UT_LIST_INSERT_AFTER (b0 :: l) p block).Perm (block :: b0 :: l) := by
  intro l
  induction l with
  | nil =>
    intro b0 _ _ hb0
    refine ⟨b0, rfl, List.mem_singleton.mpr rfl, ?_, ?_⟩
    · unfold UT_LIST_INSERT_AFTER
      rw [if_pos rfl]
      refine List.pairwise_cons.mpr ⟨?_, List.pairwise_singleton _ _⟩
      intro x hx
      rw [List.mem_singleton.mp hx]
      exact Nat.le_of_lt hb0
    · unfold UT_LIST_INSERT_AFTER
      rw [if_pos rfl]
      exact List.Perm.swap _ _ _
  | cons b rest ih =>
    intro b0 hnd hs hb0
    have hnd1 : (b :: rest).Nodup := (List.nodup_cons.mp hnd).2
    have hb0l : b0 ∉ b :: rest := (List.nodup_cons.mp hnd).1
    have hs0 := (List.pairwise_cons.mp hs).1
    have hs1 := (List.pairwise_cons.mp hs).2
    by_cases hb : (pages b).oldest_modification > (pages block).oldest_modification
    · obtain ⟨p, h1, h2, h3, h4⟩ := ih b hnd1 hs1 hb
      have hne : b0 ≠ p := fun e => hb0l (e ▸ h2)
      have e : UT_LIST_INSERT_AFTER (b0 :: b :: rest) p block
          = b0 :: UT_LIST_INSERT_AFTER (b :: rest) p block := by
        rw [UT_LIST_INSERT_AFTER, if_neg hne]
      refine ⟨p, ?_, List.mem_cons_of_mem _ h2, ?_, ?_⟩
      · rw [buf_flush_insert_sorted_search, if_pos hb]
        exact h1
      · rw [e]
        refine List.pairwise_cons.mpr ⟨?_, h3⟩
        intro x hx
        rcases List.mem_cons.mp ((h4.mem_iff).mp hx) with hx1 | hx1
        · rw [hx1]
          exact Nat.le_of_lt hb0
        · exact hs0 x hx1
      · rw [e]
        exact ((List.Perm.cons b0 h4).trans (List.Perm.swap _ _ _))
    · have e : UT_LIST_INSERT_AFTER (b0 :: b :: rest) b0 block = b0 :: block :: b :: rest := by
        rw [UT_LIST_INSERT_AFTER, if_pos rfl]
      refine ⟨b0, ?_, List.mem_cons_self _ _, ?_, ?_⟩
      · rw [buf_flush_insert_sorted_search, if_neg hb]
      · rw [e]
        refine List.pairwise_cons.mpr ⟨?_, List.pairwise_cons.mpr ⟨?_, hs1⟩⟩
        · intro x hx
          rcases List.mem_cons.mp hx with hx1 | hx1
          · rw [hx1]
            exact Nat.le_of_lt hb0
          · exact hs0 x hx1
        · intro x hx
          have hbb : (pages b).oldest_modification ≤ (pages block).oldest_modification :=
            Nat.le_of_not_lt hb
          rcases List.mem_cons.mp hx with hx1 | hx1
          · rw [hx1]
            exact hbb
          · exact Nat.le_trans ((List.pairwise_cons.mp hs1).1 x hx1) hbb
      · rw [e]
        exact List.Perm.swap _ _ _

/-- A block that is dirty since an lsn no earlier than the head of a sorted
list is dirty since an lsn no earlier than every node of the list. -/
theorem flush_list_le_of_head_le (pages : Nat → buf_page_t) (block : Nat) (l : List Nat)
    (hs : l.Pairwise
      (fun a b => (pages b).oldest_modification ≤ (pages a).oldest_modification))
    (hhead : ∀ h, l.head? = some h →
      (pages h).oldest_modification ≤ (pages block).oldest_modification) :
    ∀ x, x ∈ l → (pages x).oldest_modification ≤ (pages block).oldest_modification := by
  cases l with
  | nil =>
    intro x hx
    exact absurd hx (List.not_mem_nil x)
  | cons b rest =>
    intro x hx
    have hb := hhead b rfl
    rcases List.mem_cons.mp hx with hx1 | hx1
    · rw [hx1]
      exact hb
    · exact Nat.le_trans ((List.pairwise_cons.mp hs).1 x hx1) hb

/-- The function `buf_flush_insert_sorted_into_flush_list` in its linear-search
branch: the flush list stays sorted and holds the nodes it held and the
block; nothing else of the pool changes. -/
theorem buf_flush_insert_sorted_into_flush_list_sorted (env : rbt_env) (pool : buf_pool_t)
    (block : Nat) (hs : pool.flush_list_sorted) (hnd : pool.flush_list.Nodup)
    (hrbt : pool.flush_rbt = none) :
    (buf_flush_insert_sorted_into_flush_list env pool block).flush_list_sorted
      ∧ (buf_flush_insert_sorted_into_flush_list env pool block).flush_list.Perm
          (block :: pool.flush_list)
      ∧ (buf_flush_insert_sorted_into_flush_list env pool block).pages = pool.pages := by
  unfold buf_pool_t.flush_list_sorted at hs ⊢
  unfold buf_flush_insert_sorted_into_flush_list
  rw [hrbt]
  dsimp only
  cases hl : pool.flush_list with
  | nil =>
    rw [buf_flush_insert_sorted_search]
    exact ⟨List.pairwise_singleton _ _, List.Perm.refl _, rfl⟩
  | cons b0 l =>
    rw [hl] at hs hnd
    by_cases hb : (pool.pages b0).oldest_modification > (pool.pages block).oldest_modification
    · obtain ⟨p, h1, _, h3, h4⟩ :=
        buf_flush_insert_sorted_search_spec pool.pages block l b0 hnd hs hb
      rw [buf_flush_insert_sorted_search, if_pos hb, h1]
      exact ⟨h3, h4, rfl⟩
    · rw [buf_flush_insert_sorted_search, if_neg hb]
      refine ⟨?_, List.Perm.refl _, rfl⟩
      dsimp only [UT_LIST_ADD_FIRST]
      refine List.pairwise_cons.mpr ⟨?_, hs⟩
      exact flush_list_le_of_head_le pool.pages block (b0 :: l) hs
        (fun h hh => by
          have e : b0 = h := Option.some.inj hh
          rw [← e]
          exact Nat.le_of_not_lt hb)

/-- The function `buf_flush_insert_into_flush_list` outside recovery, for a
block that is dirty since an lsn no earlier than the head of the flush list:
the flush list stays sorted and holds the nodes it held and the block. -/
theorem buf_flush_insert_into_flush_list_sorted (env : rbt_env) (pool : buf_pool_t)
    (block : Nat) (hs : pool.flush_list_sorted) (hrbt : pool.flush_rbt = none)
    (hhead : ∀ h, pool.flush_list.head? = some h →
      (pool.pages h).oldest_modification ≤ (pool.pages block).oldest_modification) :
    (buf_flush_insert_into_flush_list env pool block).flush_list_sorted
      ∧ (buf_flush_insert_into_flush_list env pool block).flush_list
          = block :: pool.flush_list
      ∧ (buf_flush_insert_into_flush_list env pool block).pages = pool.pages := by
  unfold buf_pool_t.flush_list_sorted at hs ⊢
  unfold buf_flush_insert_into_flush_list
  rw [hrbt]
  rw [if_neg (by decide)]
  refine ⟨?_, rfl, rfl⟩
  dsimp only [UT_LIST_ADD_FIRST]
  exact List.pairwise_cons.mpr ⟨flush_list_le_of_head_le pool.pages block _ hs hhead, hs⟩

/-- The function `buf_flush_remove` on a file page: it returns, the flush list
stays sorted and holds the nodes it held but the page, and the page is clean;
no other control block changes. -/
theorem buf_flush_remove_sorted (env : rbt_env) (pool : buf_pool_t) (bpage : Nat)
    (hs : pool.flush_list_sorted) (hnd : pool.flush_list.Nodup)
    (hstate : (pool.pages bpage).state = BUF_BLOCK_FILE_PAGE) :
    ∃ pool', buf_flush_remove env pool bpage = some pool'
      ∧ pool'.flush_list_sorted
      ∧ (∀ x, x ∈ pool'.flush_list ↔ x ∈ pool.flush_list ∧ x ≠ bpage)
      ∧ pool'.flush_list.Nodup
      ∧ (pool'.pages bpage).oldest_modification = 0
      ∧ ∀ p, p ≠ bpage → pool'.pages p = pool.pages p := by
  have hmem : ∀ x, x ∈ pool.flush_list.erase bpage ↔ x ∈ pool.flush_list ∧ x ≠ bpage := by
    intro x
    rw [hnd.mem_erase_iff]
    exact and_comm
  have hsorted : (pool.flush_list.erase bpage).Pairwise
      (fun a b =>
        ((if b = bpage then { pool.pages bpage with oldest_modification := 0 }
          else pool.pages b) : buf_page_t).oldest_modification
        ≤ ((if a = bpage then { pool.pages bpage with oldest_modification := 0 }
          else pool.pages a) : buf_page_t).oldest_modification) := by
    refine List.Pairwise.imp_of_mem ?_ (hs.sublist (List.erase_sublist _ _))
    intro a b ha hb hab
    rw [if_neg ((hmem a).mp ha).2, if_neg ((hmem b).mp hb).2]
    exact hab
  unfold buf_flush_remove
  dsimp only
  rw [hstate, if_neg (by decide), if_pos rfl]
  cases hr : pool.flush_rbt with
  | none =>
    refine ⟨_, rfl, hsorted, hmem, hnd.erase _, ?_, ?_⟩
    · dsimp only
      rw [if_pos rfl]
    · intro p hp
      dsimp only
      rw [if_neg hp]
  | some rbt =>
    refine ⟨_, rfl, hsorted, hmem, hnd.erase _, ?_, ?_⟩
    · dsimp only
      rw [if_pos rfl]
    · intro p hp
      dsimp only
      rw [if_neg hp]

/-- When `buf_flush_block_cmp` is not negative, the second block is dirty
since an lsn no earlier than the first. -/
theorem buf_flush_block_cmp_nonneg (pages : Nat → buf_page_t) (p1 p2 : Nat)
    (h : 0 ≤ buf_flush_block_cmp pages p1 p2) :
    (pages p1).oldest_modification ≤ (pages p2).oldest_modification := by
  unfold buf_flush_block_cmp at h
  dsimp only at h
  by_cases c1 : (pages p2).oldest_modification > (pages p1).oldest_modification
  · omega
  · rw [if_neg c1] at h
    by_cases c2 : (pages p2).oldest_modification < (pages p1).oldest_modification
    · rw [if_pos c2] at h
      omega
    · omega

/-- When `buf_flush_block_cmp` is not positive, the first block is dirty since
an lsn no earlier than the second. -/
theorem buf_flush_block_cmp_nonpos (pages : Nat → buf_page_t) (p1 p2 : Nat)
    (h : buf_flush_block_cmp pages p1 p2 ≤ 0) :
    (pages p2).oldest_modification ≤ (pages p1).oldest_modification := by
  unfold buf_flush_block_cmp at h
  dsimp only at h
  by_cases c1 : (pages p2).oldest_modification > (pages p1).oldest_modification
  · rw [if_pos c1] at h
    omega
  · omega

/-- The insertion after the last of the nodes `l1` of a list that holds no
node twice puts the node between `l1` and the rest. -/
theorem UT_LIST_INSERT_AFTER_getLast (l1 l2 : List Nat) (p e : Nat)
    (hnd : (l1 ++ l2).Nodup) (hp : l1.getLast? = some p) :
    UT_LIST_INSERT_AFTER (l1 ++ l2) p e = l1 ++ e :: l2 := by
  induction l1 with
  | nil => simp at hp
  | cons x l1 ih =>
    rw [List.cons_append] at hnd ⊢
    have hx := (List.nodup_cons.mp hnd).1
    have hnd2 := (List.nodup_cons.mp hnd).2
    cases l1 with
    | nil =>
      simp only [List.getLast?_singleton, Option.some.injEq] at hp
      subst hp
      rw [UT_LIST_INSERT_AFTER, if_pos rfl]
      rfl
    | cons y l1 =>
      rw [List.getLast?_cons_cons] at hp
      have hne : x ≠ p := by
        intro e1
        apply hx
        rw [e1]
        exact List.mem_append_left _ (List.mem_of_getLast?_eq_some hp)
      rw [UT_LIST_INSERT_AFTER, if_neg hne, ih hnd2 hp]
      rfl

/-- The function `buf_flush_insert_sorted_into_flush_list` during recovery,
when the red-black tree mirrors the flush list and
`buf_flush_insert_in_flush_rbt` keeps its contract: the flush list stays
sorted and holds the nodes it held and the block, and the tree mirrors it
still. -/
theorem buf_flush_insert_sorted_into_flush_list_recovery (env : rbt_env) (pool : buf_pool_t)
    (block : Nat) (rbt : List Nat) (hs : pool.flush_list_sorted) (hnd : pool.flush_list.Nodup)
    (hrbt : pool.flush_rbt = some rbt) (hmirror : rbt = pool.flush_list)
    (hc : flush_rbt_insert_contract env pool rbt block) :
    (buf_flush_insert_sorted_into_flush_list env pool block).flush_list_sorted
      ∧ (buf_flush_insert_sorted_into_flush_list env pool block).flush_list.Perm
          (block :: pool.flush_list)
      ∧ (buf_flush_insert_sorted_into_flush_list env pool block).flush_rbt
          = some (buf_flush_insert_sorted_into_flush_list env pool block).flush_list := by
  obtain ⟨l1, l2, hsplit, hins, h1, h2⟩ := hc
  have hfl : pool.flush_list = l1 ++ l2 := by rw [← hmirror, hsplit]
  have hlist : (buf_flush_insert_sorted_into_flush_list env pool block).flush_list
      = l1 ++ block :: l2
      ∧ (buf_flush_insert_sorted_into_flush_list env pool block).flush_rbt
          = some (l1 ++ block :: l2) := by
    unfold buf_flush_insert_sorted_into_flush_list
    rw [hrbt]
    dsimp only
    rw [hins]
    dsimp only
    cases hl : l1.getLast? with
    | none =>
      have e : l1 = [] := List.getLast?_eq_none_iff.mp hl
      dsimp only
      rw [hfl, e]
      exact ⟨rfl, rfl⟩
    | some p =>
      dsimp only
      rw [hfl, UT_LIST_INSERT_AFTER_getLast l1 l2 p block (by rw [← hfl]; exact hnd) hl]
      exact ⟨rfl, rfl⟩
  have hpages : (buf_flush_insert_sorted_into_flush_list env pool block).pages = pool.pages := by
    unfold buf_flush_insert_sorted_into_flush_list
    rw [hrbt]
    dsimp only
    split <;> rfl
  refine ⟨?_, ?_, ?_⟩
  · unfold buf_pool_t.flush_list_sorted at hs ⊢
    rw [hlist.1, hpages]
    rw [hfl] at hs
    obtain ⟨s1, s2, s3⟩ := List.pairwise_append.mp hs
    refine List.pairwise_append.mpr ⟨s1, List.pairwise_cons.mpr ⟨?_, s2⟩, ?_⟩
    · intro b hb
      exact buf_flush_block_cmp_nonpos pool.pages block b (h2 b hb)
    · intro a ha b hb
      rcases List.mem_cons.mp hb with e | e
      · rw [e]
        exact buf_flush_block_cmp_nonneg pool.pages block a (h1 a ha)
      · exact s3 a ha b e
  · rw [hlist.1, hfl]
    exact List.perm_middle
  · rw [hlist.2, hlist.1]

/-- Claim C17: if the flush list is ordered by non-increasing
`oldest_modification` from head to tail (and, being a list of nodes, holds no
node twice), then it is still so ordered, and holds exactly the previous pages
plus the new one, after `buf_flush_insert_sorted_into_flush_list(block)` in its
linear-search branch (`flush_rbt` absent) for any block, and after
`buf_flush_insert_into_flush_list(block)` whenever the block's
`oldest_modification` is at least the head's; and after
`buf_flush_remove(page)` of a file page it is still so ordered, holds exactly
the other pages, and the page's `oldest_modification` is 0.  For
`buf_flush_insert_into_flush_list` both paths are covered: outside recovery
(`flush_rbt` null) nothing more is assumed; during recovery, where the function
hands over to `buf_flush_insert_sorted_into_flush_list` and that takes the
predecessor from the red-black tree of ut0rbt.h, which is not among the
sources, it is assumed that the tree mirrors the flush list and that
`buf_flush_insert_in_flush_rbt` keeps its documented contract
(`flush_rbt_insert_contract`), and then the tree mirrors the flush list after
the call too. -/
theorem C17_flush_list_stays_sorted (env : rbt_env) (pool : buf_pool_t) (block : Nat)
    (hs : pool.flush_list_sorted) (hnd : pool.flush_list.Nodup) :
    (pool.flush_rbt = none →
      (buf_flush_insert_sorted_into_flush_list env pool block).flush_list_sorted
      ∧ (buf_flush_insert_sorted_into_flush_list env pool block).flush_list.Perm
          (block :: pool.flush_list))
    ∧ ((∀ rbt, pool.flush_rbt = some rbt →
          rbt = pool.flush_list ∧ flush_rbt_insert_contract env pool rbt block) →
        (∀ h, pool.flush_list.head? = some h →
          (pool.pages h).oldest_modification ≤ (pool.pages block).oldest_modification) →
        (buf_flush_insert_into_flush_list env pool block).flush_list_sorted
        ∧ (buf_flush_insert_into_flush_list env pool block).flush_list.Perm
            (block :: pool.flush_list)
        ∧ (∀ rbt, pool.flush_rbt = some rbt →
            (buf_flush_insert_into_flush_list env pool block).flush_rbt
              = some (buf_flush_insert_into_flush_list env pool block).flush_list))
    ∧ ((pool.pages block).state = BUF_BLOCK_FILE_PAGE →
        ∃ pool', buf_flush_remove env pool block = some pool'
          ∧ pool'.flush_list_sorted
          ∧ (∀ x, x ∈ pool'.flush_list ↔ x ∈ pool.flush_list ∧ x ≠ block)
          ∧ (pool'.pages block).oldest_modification = 0) := by
  refine ⟨?_, ?_, ?_⟩
  · intro hrbt
    have h := buf_flush_insert_sorted_into_flush_list_sorted env pool block hs hnd hrbt
    exact ⟨h.1, h.2.1⟩
  · intro hrec hhead
    cases hrbt : pool.flush_rbt with
    | none =>
      have h := buf_flush_insert_into_flush_list_sorted env pool block hs hrbt hhead
      refine ⟨h.1, ?_, ?_⟩
      · rw [h.2.1]
      · intro rbt e
        cases e
    | some rbt =>
      obtain ⟨hmirror, hc⟩ := hrec rbt hrbt
      have h := buf_flush_insert_sorted_into_flush_list_recovery env pool block rbt hs hnd hrbt
        hmirror hc
      have e : buf_flush_insert_into_flush_list env pool block
          = buf_flush_insert_sorted_into_flush_list env pool block := by
        unfold buf_flush_insert_into_flush_list
        rw [hrbt]
        rfl
      rw [e]
      exact ⟨h.1, h.2.1, fun _ _ => h.2.2⟩
  · intro hstate
    obtain ⟨pool', h1, h2, h3, _, h5, _⟩ := buf_flush_remove_sorted env pool block hs hnd hstate
    exact ⟨pool', h1, h2, h3, h5⟩

/-- The theorem `C17_flush_list_stays_sorted` at a pool whose flush list holds
the blocks dirty since the lsns 30, 20 and 10: the sorted insertion of the
block dirty since lsn 40 keeps the list sorted, and the removal of the block
dirty since lsn 20 leaves it clean; and at a pool during recovery, whose flush
list and tree hold the blocks dirty since the lsns 50, 30 and 10: the
insertion of the block dirty since lsn 60 through the tree makes the flush
list and the tree the blocks 6, 5, 3 and 1, in this order. -/
theorem C17_flush_list_stays_sorted_witness :
    (buf_flush_insert_sorted_into_flush_list sample_rbt_env sample_buf_pool 4).flush_list_sorted
      ∧ (∃ pool', buf_flush_remove sample_rbt_env sample_buf_pool 2 = some pool'
          ∧ (pool'.pages 2).oldest_modification = 0)
      ∧ (buf_flush_insert_into_flush_list sample_sorted_rbt_env sample_recovery_buf_pool
            6).flush_list = [6, 5, 3, 1]
      ∧ (buf_flush_insert_into_flush_list sample_sorted_rbt_env sample_recovery_buf_pool
            6).flush_list_sorted
      ∧ (buf_flush_insert_into_flush_list sample_sorted_rbt_env sample_recovery_buf_pool
            6).flush_rbt = some [6, 5, 3, 1] :=
  ⟨((C17_flush_list_stays_sorted sample_rbt_env sample_buf_pool 4
      (by unfold buf_pool_t.flush_list_sorted; decide) (by decide)).1 rfl).1,
    by
      obtain ⟨pool', h1, _, _, h4⟩ := (C17_flush_list_stays_sorted sample_rbt_env
        sample_buf_pool 2 (by unfold buf_pool_t.flush_list_sorted; decide)
        (by decide)).2.2 rfl
      exact ⟨pool', h1, h4⟩,
    by decide,
    ((C17_flush_list_stays_sorted sample_sorted_rbt_env sample_recovery_buf_pool 6
      (by unfold buf_pool_t.flush_list_sorted; decide) (by decide)).2.1
      (fun rbt e => by
        have e2 : rbt = [5, 3, 1] := (Option.some.inj e).symm
        subst e2
        exact ⟨rfl, [], [5, 3, 1], rfl, by decide, by decide, by decide⟩)
      (by decide)).1,
    by decide⟩

/-! ## C19: starting a transaction -/

/-- Claim C19: `trx_start_low(trx, rseg_id)` on a transaction that is no purge
transaction, with a given `rseg_id`, returns true and leaves the state
`TRX_ACTIVE`, `trx.id` equal to the value `max_trx_id` had before the call
(`max_trx_id` is one larger afterwards, short of the end of the 64-bit range),
`trx.no = LSN_MAX`, `trx.rseg` the rollback segment in slot `rseg_id` of the
rseg array, and the transaction at the head of `trx_sys->trx_list`; on a purge
transaction it returns true with state `TRX_ACTIVE` and id 0 and changes
neither `max_trx_id`, `trx_list` nor `trx.rseg`. -/
theorem C19_trx_start_low (now : Nat) (st : trx0trx.trx_state) (trx rseg_id : Nat) :
    ((st.trxs trx).is_purge = false → rseg_id ≠ ULINT_UNDEFINED
      → st.sys.trx_sys.max_trx_id < 2 ^ 64 - 1
      → ∃ st', trx0trx.trx_start_low now st trx rseg_id = some (true, st')
          ∧ (st'.trxs trx).conc_state = TRX_ACTIVE
          ∧ (st'.trxs trx).id = st.sys.trx_sys.max_trx_id
          ∧ st'.sys.trx_sys.max_trx_id = st.sys.trx_sys.max_trx_id + 1
          ∧ (st'.trxs trx).no = LSN_MAX
          ∧ (st'.trxs trx).rseg = trx0trx.trx_sys_get_nth_rseg st rseg_id
          ∧ st'.trx_list = trx :: st.trx_list)
    ∧ ((st.trxs trx).is_purge = true
      → ∃ st', trx0trx.trx_start_low now st trx rseg_id = some (true, st')
          ∧ (st'.trxs trx).conc_state = TRX_ACTIVE
          ∧ (st'.trxs trx).id = 0
          ∧ st'.sys = st.sys
          ∧ st'.trx_list = st.trx_list
          ∧ (st'.trxs trx).rseg = (st.trxs trx).rseg) := by
  constructor
  · intro hp hr hmax
    unfold trx0trx.trx_start_low
    dsimp only
    rw [if_neg (by rw [hp]; decide), if_neg hr]
    dsimp only
    refine ⟨_, rfl, ?_, ?_, ?_, ?_, ?_, ?_⟩
    · simp only [trx0trx.trx_state.set_trx, if_true]
    · simp only [trx0trx.trx_state.set_trx, if_true]
      exact trx_sys_get_new_trx_id_fst st.sys
    · simp only [trx0trx.trx_state.set_trx]
      rw [trx_sys_get_new_trx_id_max, Nat.mod_eq_of_lt (by omega)]
    · simp only [trx0trx.trx_state.set_trx, if_true]
    · simp only [trx0trx.trx_state.set_trx, if_true, trx0trx.trx_sys_get_nth_rseg]
    · simp only [trx0trx.trx_state.set_trx, UT_LIST_ADD_FIRST]
  · intro hp
    unfold trx0trx.trx_start_low
    dsimp only
    rw [if_pos hp]
    refine ⟨_, rfl, ?_, ?_, rfl, rfl, ?_⟩
    · simp only [trx0trx.trx_state.set_trx, if_true]
    · simp only [trx0trx.trx_state.set_trx, if_true]
    · simp only [trx0trx.trx_state.set_trx, if_true]

/-- The theorem `C19_trx_start_low` at a state with the id counter at 512: the
transaction at address 1, started on the rollback segment of slot 0, is active
with id 512 and is the head of the transaction list. -/
theorem C19_trx_start_low_witness :
    ∃ st', trx0trx.trx_start_low 0 trx0trx.sample_trx_state 1 0 = some (true, st')
      ∧ (st'.trxs 1).conc_state = TRX_ACTIVE
      ∧ (st'.trxs 1).id = 512
      ∧ st'.trx_list = [1] := by
  obtain ⟨st', h1, h2, h3, _, _, _, h7⟩ :=
    (C19_trx_start_low 0 trx0trx.sample_trx_state 1 0).1 rfl (by decide) (by decide)
  exact ⟨st', h1, h2, h3, h7⟩

/-! ## C20: the log write of a commit -/

/-- The part of the commit that handles the undo logs makes no log write,
leaves `flush_log_later` as it was, and, for a transaction with an undo log,
gives the lsn of the mini-transaction. -/
theorem trx0trx.trx_commit_undo_log_writes (env : trx0trx.commit_env)
    (st : trx0trx.trx_state) (trx : Nat) :
    (trx0trx.trx_commit_undo env st trx).2.log_writes = st.log_writes
      ∧ ((trx0trx.trx_commit_undo env st trx).2.trxs trx).flush_log_later
          = (st.trxs trx).flush_log_later
      ∧ (((st.trxs trx).insert_undo ≠ none ∨ (st.trxs trx).update_undo ≠ none) →
          (trx0trx.trx_commit_undo env st trx).1 = env.end_lsn) := by
  unfold trx0trx.trx_commit_undo
  dsimp only
  cases hi : (st.trxs trx).insert_undo <;> cases hu : (st.trxs trx).update_undo <;>
    simp [trx0trx.trx_state.call, trx0trx.trx_state.set_trx, trx0trx.trx_state.log_writes,
      List.filterMap_append]

/-- The part of the commit from the assignment of `TRX_COMMITTED_IN_MEMORY`
on, for a commit lsn that is not 0 and a transaction whose `flush_log_later` is
not set: the outcome is that of the part that decides the log write, with its
log writes. -/
theorem trx0trx.trx_commit_in_memory_log_writes (env : trx0trx.commit_env) (lsn : Nat)
    (s : trx0trx.trx_state) (trx : Nat) (hlsn : lsn ≠ 0)
    (hlater : (s.trxs trx).flush_log_later = false) :
    (trx0trx.trx_commit_in_memory env lsn s trx).map trx0trx.trx_state.log_writes
      = if env.srv_flush_log_at_trx_commit = 0 then some s.log_writes
        else if env.srv_flush_log_at_trx_commit = 1 then
          some (s.log_writes ++ [(lsn, LOG_WAIT_ONE_GROUP,
            decide (env.srv_unix_file_flush_method ≠ SRV_UNIX_NOSYNC))])
        else if env.srv_flush_log_at_trx_commit = 2 then
          some (s.log_writes ++ [(lsn, LOG_WAIT_ONE_GROUP, false)])
        else none := by
  cases hg : (s.trxs trx).global_read_view <;> cases hi : (s.trxs trx).insert_undo <;>
    by_cases c0 : env.srv_flush_log_at_trx_commit = 0 <;>
    by_cases c1 : env.srv_flush_log_at_trx_commit = 1 <;>
    by_cases c2 : env.srv_flush_log_at_trx_commit = 2 <;>
    by_cases cn : env.srv_unix_file_flush_method = SRV_UNIX_NOSYNC <;>
    simp [trx0trx.trx_commit_in_memory, trx0trx.trx_commit_log_write,
      trx0trx.trx_state.call, trx0trx.trx_state.set_trx, trx0trx.trx_state.log_writes,
      List.filterMap_append, hg, hi, hlater, hlsn, c0, c1, c2, cn]

/-- Claim C20, amended: when `trx_commit_off_kernel` commits a transaction that
had an undo log, with a commit lsn that is not 0 and `flush_log_later` not set,
the log write it issues is decided by `srv_flush_log_at_trx_commit` and, for
the value 1, by `srv_unix_file_flush_method`: 0 issues no log write; 1 issues a
log write up to the commit lsn, with flush-to-disk requested unless the flush
method is `SRV_UNIX_NOSYNC`; 2 issues a log write up to the commit lsn without
flush-to-disk; any other value is an error. -/
theorem C20_commit_log_write (env : trx0trx.commit_env) (st : trx0trx.trx_state) (trx : Nat)
    (hundo : (st.trxs trx).insert_undo ≠ none ∨ (st.trxs trx).update_undo ≠ none)
    (hlsn : env.end_lsn ≠ 0) (hlater : (st.trxs trx).flush_log_later = false) :
    (env.srv_flush_log_at_trx_commit = 0 →
      (trx0trx.trx_commit_off_kernel env st trx).map trx0trx.trx_state.log_writes
        = some st.log_writes)
    ∧ (env.srv_flush_log_at_trx_commit = 1 →
      (trx0trx.trx_commit_off_kernel env st trx).map trx0trx.trx_state.log_writes
        = some (st.log_writes ++ [(env.end_lsn, LOG_WAIT_ONE_GROUP,
            decide (env.srv_unix_file_flush_method ≠ SRV_UNIX_NOSYNC))]))
    ∧ (env.srv_flush_log_at_trx_commit = 2 →
      (trx0trx.trx_commit_off_kernel env st trx).map trx0trx.trx_state.log_writes
        = some (st.log_writes ++ [(env.end_lsn, LOG_WAIT_ONE_GROUP, false)]))
    ∧ (2 < env.srv_flush_log_at_trx_commit →
      trx0trx.trx_commit_off_kernel env st trx = none) := by
  obtain ⟨h1, h2, h3⟩ := trx0trx.trx_commit_undo_log_writes env st trx
  have h3 := h3 hundo
  rw [hlater] at h2
  have h := trx0trx.trx_commit_in_memory_log_writes env
    (trx0trx.trx_commit_undo env st trx).1 (trx0trx.trx_commit_undo env st trx).2 trx
    (by rw [h3]; exact hlsn) h2
  rw [h1, h3] at h
  have e : trx0trx.trx_commit_off_kernel env st trx
      = trx0trx.trx_commit_in_memory env (trx0trx.trx_commit_undo env st trx).1
          (trx0trx.trx_commit_undo env st trx).2 trx := rfl
  rw [e, h3]
  refine ⟨?_, ?_, ?_, ?_⟩
  · intro c
    rw [h, if_pos c]
  · intro c
    rw [h, if_neg (by omega), if_pos c]
  · intro c
    rw [h, if_neg (by omega), if_neg (by omega), if_pos c]
  · intro c
    rw [if_neg (by omega), if_neg (by omega), if_neg (by omega)] at h
    exact Option.map_eq_none'.mp h

/-- The claim C20 as stated fails: with `srv_flush_log_at_trx_commit = 1` and
the file flush method `SRV_UNIX_NOSYNC`, the commit of a transaction with undo
logs, at lsn 9000 and with `flush_log_later` not set, issues the log write
without flush-to-disk. -/
theorem C20_nosync_commit_writes_without_flush :
    trx0trx.sample_commit_env_nosync.srv_flush_log_at_trx_commit = 1
      ∧ (trx0trx.sample_trx_state_active.trxs 1).update_undo ≠ none
      ∧ (trx0trx.sample_trx_state_active.trxs 1).flush_log_later = false
      ∧ (trx0trx.trx_commit_off_kernel trx0trx.sample_commit_env_nosync
          trx0trx.sample_trx_state_active 1).map trx0trx.trx_state.log_writes
        = some [(9000, LOG_WAIT_ONE_GROUP, false)] := by
  decide

/-- The theorem `C20_commit_log_write` at a commit with
`srv_flush_log_at_trx_commit = 1` and a file flush method that syncs: the log
is written up to lsn 9000 with flush-to-disk requested. -/
theorem C20_commit_log_write_witness :
    (trx0trx.trx_commit_off_kernel trx0trx.sample_commit_env
        trx0trx.sample_trx_state_active 1).map trx0trx.trx_state.log_writes
      = some [(9000, LOG_WAIT_ONE_GROUP, true)] :=
  (C20_commit_log_write trx0trx.sample_commit_env trx0trx.sample_trx_state_active 1
    (by decide) (by decide) (by decide)).2.1 rfl

/-! ## C18: committing a transaction -/

/-- The part of the commit that handles the undo logs: it releases no lock and
leaves the transaction list as it was; a transaction number is drawn exactly
for an update undo log. -/
theorem trx0trx.trx_commit_undo_spec (env : trx0trx.commit_env) (st : trx0trx.trx_state)
    (trx : Nat) :
    (trx0trx.trx_commit_undo env st trx).2.lock_releases = st.lock_releases
      ∧ (trx0trx.trx_commit_undo env st trx).2.trx_list = st.trx_list
      ∧ ((st.trxs trx).update_undo = none →
          ((trx0trx.trx_commit_undo env st trx).2.trxs trx).no = (st.trxs trx).no
          ∧ (trx0trx.trx_commit_undo env st trx).2.sys = st.sys)
      ∧ ((st.trxs trx).update_undo ≠ none →
          ((trx0trx.trx_commit_undo env st trx).2.trxs trx).no
            = (trx_sys_get_new_trx_no st.sys).1
          ∧ (trx0trx.trx_commit_undo env st trx).2.sys = (trx_sys_get_new_trx_no st.sys).2) := by
  cases hi : (st.trxs trx).insert_undo <;> cases hu : (st.trxs trx).update_undo <;>
    simp [trx0trx.trx_commit_undo, trx0trx.trx_state.call, trx0trx.trx_state.set_trx,
      trx0trx.trx_state.lock_releases, List.filterMap_append, hi, hu]

set_option maxHeartbeats 4000000 in
/-- The part of the commit from the assignment of `TRX_COMMITTED_IN_MEMORY`
on, for a valid setting of `srv_flush_log_at_trx_commit`: it returns, the locks
are released once, in the state `TRX_COMMITTED_IN_MEMORY`, and the transaction
is left not started, without rollback segment and read views, and is taken out
of the transaction list. -/
theorem trx0trx.trx_commit_in_memory_spec (env : trx0trx.commit_env) (lsn : Nat)
    (s : trx0trx.trx_state) (trx : Nat) (hset : env.srv_flush_log_at_trx_commit ≤ 2) :
    ∃ s', trx0trx.trx_commit_in_memory env lsn s trx = some s'
      ∧ s'.lock_releases = s.lock_releases ++ [TRX_COMMITTED_IN_MEMORY]
      ∧ s'.trx_list = s.trx_list.erase trx
      ∧ s'.sys = s.sys
      ∧ (s'.trxs trx).conc_state = TRX_NOT_STARTED
      ∧ (s'.trxs trx).rseg = none
      ∧ (s'.trxs trx).undo_no = 0
      ∧ (s'.trxs trx).last_sql_stat_start.least_undo_no = 0
      ∧ (s'.trxs trx).read_view = none
      ∧ (s'.trxs trx).global_read_view = none
      ∧ (s'.trxs trx).is_recovered = false
      ∧ (s'.trxs trx).no = (s.trxs trx).no := by
  have hs : env.srv_flush_log_at_trx_commit = 0 ∨ env.srv_flush_log_at_trx_commit = 1
      ∨ env.srv_flush_log_at_trx_commit = 2 := by omega
  cases hg : (s.trxs trx).global_read_view <;> cases hi : (s.trxs trx).insert_undo <;>
    cases hl : (s.trxs trx).flush_log_later <;>
    by_cases c0 : lsn = 0 <;>
    by_cases cn : env.srv_unix_file_flush_method = SRV_UNIX_NOSYNC <;>
    rcases hs with c | c | c <;>
    simp [trx0trx.trx_commit_in_memory, trx0trx.trx_commit_log_write,
      trx0trx.trx_state.call, trx0trx.trx_state.set_trx, trx0trx.trx_state.lock_releases,
      List.filterMap_append, UT_LIST_REMOVE, hg, hi, hl, c0, cn, c]

/-- Claim C18: `trx_commit_off_kernel` on a transaction in state `TRX_ACTIVE`
or `TRX_PREPARED`, under a valid setting of `srv_flush_log_at_trx_commit`,
returns; the locks are released once, with the state already
`TRX_COMMITTED_IN_MEMORY`; it finishes with the state `TRX_NOT_STARTED`, `rseg`
null, `undo_no` 0, `last_sql_stat_start.least_undo_no` 0, `read_view` and
`global_read_view` null, `is_recovered` false, and the transaction removed from
`trx_sys->trx_list` (a list of nodes, which holds no node twice); a new
transaction number is drawn and assigned to `trx.no` only when the transaction
has an update undo log; and `trx_commit` returns `DB_SUCCESS`. -/
theorem C18_trx_commit_off_kernel (env : trx0trx.commit_env) (st : trx0trx.trx_state)
    (trx : Nat)
    (_hstate : (st.trxs trx).conc_state = TRX_ACTIVE ∨ (st.trxs trx).conc_state = TRX_PREPARED)
    (hset : env.srv_flush_log_at_trx_commit ≤ 2) (hnd : st.trx_list.Nodup) :
    ∃ st', trx0trx.trx_commit_off_kernel env st trx = some st'
      ∧ st'.lock_releases = st.lock_releases ++ [TRX_COMMITTED_IN_MEMORY]
      ∧ (st'.trxs trx).conc_state = TRX_NOT_STARTED
      ∧ (st'.trxs trx).rseg = none
      ∧ (st'.trxs trx).undo_no = 0
      ∧ (st'.trxs trx).last_sql_stat_start.least_undo_no = 0
      ∧ (st'.trxs trx).read_view = none
      ∧ (st'.trxs trx).global_read_view = none
      ∧ (st'.trxs trx).is_recovered = false
      ∧ trx ∉ st'.trx_list
      ∧ (∀ x, x ≠ trx → (x ∈ st'.trx_list ↔ x ∈ st.trx_list))
      ∧ ((st.trxs trx).update_undo = none →
          (st'.trxs trx).no = (st.trxs trx).no
          ∧ st'.sys.trx_sys.max_trx_id = st.sys.trx_sys.max_trx_id)
      ∧ ((st.trxs trx).update_undo ≠ none →
          (st'.trxs trx).no = st.sys.trx_sys.max_trx_id)
      ∧ ∃ st'', trx0trx.trx_commit env st trx = some (DB_SUCCESS, st'') := by
  obtain ⟨u1, u2, u3, u4⟩ := trx0trx.trx_commit_undo_spec env st trx
  obtain ⟨s', m1, m2, m3, m4, m5, m6, m7, m8, m9, m10, m11, m12⟩ :=
    trx0trx.trx_commit_in_memory_spec env (trx0trx.trx_commit_undo env st trx).1
      (trx0trx.trx_commit_undo env st trx).2 trx hset
  refine ⟨s', m1, ?_, m5, m6, m7, m8, m9, m10, m11, ?_, ?_, ?_, ?_, ?_⟩
  · rw [m2, u1]
  · rw [m3, u2]
    exact fun h => (hnd.mem_erase_iff.mp h).1 rfl
  · intro x hx
    rw [m3, u2, hnd.mem_erase_iff]
    exact ⟨fun h => h.2, fun h => ⟨hx, h⟩⟩
  · intro hu
    rw [m12, m4, (u3 hu).1, (u3 hu).2]
    exact ⟨rfl, rfl⟩
  · intro hu
    rw [m12, (u4 hu).1]
    exact trx_sys_get_new_trx_id_fst st.sys
  · obtain ⟨s2, n1, _⟩ := trx0trx.trx_commit_in_memory_spec env
      (trx0trx.trx_commit_undo env
        (st.set_trx trx { st.trxs trx with op_info := "committing" }) trx).1
      (trx0trx.trx_commit_undo env
        (st.set_trx trx { st.trxs trx with op_info := "committing" }) trx).2 trx hset
    have e : trx0trx.trx_commit_off_kernel env
        (st.set_trx trx { st.trxs trx with op_info := "committing" }) trx = some s2 := n1
    exact ⟨_, by unfold trx0trx.trx_commit; dsimp only; rw [e]⟩

/-- The theorem `C18_trx_commit_off_kernel` at the commit of an active
transaction with id 512 that has an insert and an update undo log: the locks
are released in the state `TRX_COMMITTED_IN_MEMORY`, the transaction ends not
started and out of the transaction list, and its number is 513, the value of
`max_trx_id` before the commit. -/
theorem C18_trx_commit_off_kernel_witness :
    ∃ st', trx0trx.trx_commit_off_kernel trx0trx.sample_commit_env
        trx0trx.sample_trx_state_active 1 = some st'
      ∧ st'.lock_releases = [TRX_COMMITTED_IN_MEMORY]
      ∧ (st'.trxs 1).conc_state = TRX_NOT_STARTED
      ∧ 1 ∉ st'.trx_list
      ∧ (st'.trxs 1).no = 513 := by
  obtain ⟨st', h1, h2, h3, _, _, _, _, _, _, h10, _, _, h13, _⟩ :=
    C18_trx_commit_off_kernel trx0trx.sample_commit_env trx0trx.sample_trx_state_active 1
      (Or.inl rfl) (by decide) (by decide)
  exact ⟨st', h1, h2, h3, h10, h13 (by decide)⟩

/-! ## C14 and C15: flush batches -/

/-- Nothing changes in a pool in which no page was flushed. -/
theorem buf_pool_t.flushed_from_refl (pool : buf_pool_t) : pool.flushed_from pool :=
  ⟨rfl, rfl, rfl, rfl, rfl, fun _ => ⟨rfl, rfl, rfl, Or.inl rfl⟩⟩

/-- Flushes after flushes are flushes. -/
theorem buf_pool_t.flushed_from_trans (p1 p2 p3 : buf_pool_t) (h12 : p2.flushed_from p1)
    (h23 : p3.flushed_from p2) : p3.flushed_from p1 := by
  obtain ⟨a1, a2, a3, a4, a5, a6⟩ := h12
  obtain ⟨b1, b2, b3, b4, b5, b6⟩ := h23
  refine ⟨b1.trans a1, b2.trans a2, b3.trans a3, b4.trans a4, b5.trans a5, ?_⟩
  intro q
  obtain ⟨c1, c2, c3, c4⟩ := a6 q
  obtain ⟨d1, d2, d3, d4⟩ := b6 q
  refine ⟨d1.trans c1, d2.trans c2, d3.trans c3, ?_⟩
  rcases d4 with d4 | d4
  · rcases c4 with c4 | c4
    · exact Or.inl (d4.trans c4)
    · exact Or.inr (by rw [d4]; exact c4)
  · exact Or.inr d4

/-- The function `buf_flush_post_to_doublewrite_buf` leaves the pool as it
is. -/
theorem buf_flush_post_to_doublewrite_buf_pool (env : batch_env) (bpage : Nat) :
    ∀ (k : Nat) (st st' : batch_state),
      buf_flush_post_to_doublewrite_buf env bpage k st = flush_run.returns st'
      → st'.pool = st.pool := by
  intro k
  induction k with
  | zero =>
    intro st st' h
    simp [buf_flush_post_to_doublewrite_buf] at h
  | succ k ih =>
    intro st st' h
    unfold buf_flush_post_to_doublewrite_buf at h
    dsimp only at h
    split at h
    · exact absurd h (by simp)
    · split_ifs at h with h1 h2 h3 h4
      · split at h
        · exact absurd h (by simp)
        · have e := ih _ _ h
          exact e
      · split at h
        · exact absurd h (by simp)
        · injection h with h
          rw [← h]
      · injection h with h
        rw [← h]

/-- The function `buf_flush_write_block_low` changes, in the pool, the frame of
the block only. -/
theorem buf_flush_write_block_low_pool (env : batch_env) (st st' : batch_state) (bpage : Nat)
    (h : buf_flush_write_block_low env st bpage = flush_run.returns st') :
    ∃ frame, st'.pool = st.pool.set_page bpage { st.pool.pages bpage with frame := frame } := by
  unfold buf_flush_write_block_low at h
  dsimp only at h
  split_ifs at h with h1 h2
  · injection h with h
    exact ⟨_, by rw [← h]⟩
  · have e := buf_flush_post_to_doublewrite_buf_pool env bpage _ _ _ h
    exact ⟨_, e⟩

/-- The function `buf_flush_page`, when it returns, leaves the block fixed for
a write, in its place and state, and every other block and the lists as they
were. -/
theorem buf_flush_page_flushed (env : batch_env) (st st' : batch_state) (bpage flush_type : Nat)
    (h : buf_flush_page env st bpage flush_type = flush_run.returns st') :
    st'.pool.flushed_from st.pool ∧ (st'.pool.pages bpage).io_fix = BUF_IO_WRITE := by
  have key : ∀ (s : batch_state),
      s.pool = { (st.pool.set_page bpage
          { st.pool.pages bpage with io_fix := BUF_IO_WRITE, flush_type := flush_type }) with
        n_flush := fun t =>
          if t = flush_type then (st.pool.n_flush flush_type + 1) % 2 ^ 64
          else st.pool.n_flush t }
      → buf_flush_write_block_low env s bpage = flush_run.returns st'
      → st'.pool.flushed_from st.pool ∧ (st'.pool.pages bpage).io_fix = BUF_IO_WRITE := by
    intro s hs hw
    obtain ⟨frame, e⟩ := buf_flush_write_block_low_pool env s st' bpage hw
    rw [e, hs]
    refine ⟨⟨rfl, rfl, rfl, rfl, rfl, ?_⟩, ?_⟩
    · intro q
      by_cases hq : q = bpage
      · subst hq
        simp [buf_pool_t.set_page]
      · simp [buf_pool_t.set_page, hq]
    · simp [buf_pool_t.set_page]
  unfold buf_flush_page at h
  dsimp only at h
  split_ifs at h with h1 h2 h3
  · exact key _ rfl h
  · split at h
    · exact absurd h (by simp)
    · exact key _ rfl h
  · exact key _ rfl h

/-- The loop of `buf_flush_try_neighbors`, when it returns, has counted at most
one page for each iteration, and has only flushed pages. -/
theorem buf_flush_try_neighbors_loop_spec (env : batch_env) (space offset flush_type : Nat) :
    ∀ (k i : Nat) (st : batch_state) (count : Nat) (r : Nat × batch_state),
      buf_flush_try_neighbors_loop env space offset flush_type k i st count
          = flush_run.returns r
      → r.1 ≤ count + k ∧ r.2.pool.flushed_from st.pool := by
  intro k
  induction k with
  | zero =>
    intro i st count r h
    unfold buf_flush_try_neighbors_loop at h
    injection h with h
    rw [← h]
    exact ⟨Nat.le_refl _, buf_pool_t.flushed_from_refl _⟩
  | succ k ih =>
    intro i st count r h
    have step : ∀ (s : batch_state) (c : Nat), c ≤ count + 1 → s.pool.flushed_from st.pool
        → buf_flush_try_neighbors_loop env space offset flush_type k (i + 1) s c
            = flush_run.returns r
        → r.1 ≤ count + (k + 1) ∧ r.2.pool.flushed_from st.pool := by
      intro s c hc hf hr
      obtain ⟨a1, a2⟩ := ih (i + 1) s c r hr
      exact ⟨by omega, buf_pool_t.flushed_from_trans _ _ _ hf a2⟩
    unfold buf_flush_try_neighbors_loop at h
    split at h
    · exact step st count (by omega) (buf_pool_t.flushed_from_refl _) h
    · dsimp only at h
      split_ifs at h with h1 h2
      · split at h
        · exact absurd h (by simp)
        · split_ifs at h with h3
          · split at h
            · rename_i s hs
              have hp := buf_flush_page_flushed env st s _ flush_type hs
              exact step s ((count + 1) % 2 ^ 64) (Nat.mod_le _ _) hp.1 h
            · exact absurd h (by simp)
            · exact absurd h (by simp)
          · exact step st count (by omega) (buf_pool_t.flushed_from_refl _) h
      · exact step st count (by omega) (buf_pool_t.flushed_from_refl _) h

/-- The size of a flush neighbourhood is that of the pool before pages were
flushed. -/
theorem buf_flush_neighbourhood_flushed (env : batch_env) (pool pool' : buf_pool_t)
    (h : pool'.flushed_from pool) :
    buf_flush_neighbourhood env pool' = buf_flush_neighbourhood env pool := by
  unfold buf_flush_neighbourhood buf_flush_area
  rw [h.1, h.2.2.1]

/-- The neighbourhood that is searched for a page has at most the pages of one
flush neighbourhood. -/
theorem buf_flush_try_neighbors_range_le (env : batch_env) (pool : buf_pool_t)
    (space offset low high : Nat)
    (h : buf_flush_try_neighbors_range env pool space offset = some (low, high)) :
    high - low ≤ buf_flush_neighbourhood env pool := by
  unfold buf_flush_try_neighbors_range at h
  unfold buf_flush_neighbourhood
  dsimp only at h
  by_cases hl : pool.LRU.length < env.BUF_LRU_OLD_MIN_LEN
  · rw [if_pos hl] at h
    rw [if_pos hl]
    dsimp only at h
    injection h with h
    injection h with h1 h2
    rw [← h1, ← h2]
    have := Nat.mod_le (offset + 1) (2 ^ 64)
    split_ifs <;> omega
  · rw [if_neg hl] at h
    rw [if_neg hl]
    by_cases ha : buf_flush_area env pool = 0
    · rw [if_pos ha] at h
      exact absurd h (by simp)
    · rw [if_neg ha] at h
      dsimp only at h
      injection h with h
      injection h with h1 h2
      rw [← h1, ← h2]
      generalize buf_flush_area env pool = a
      have e : (offset / a + 1) * a % 2 ^ 64 = (offset / a * a % 2 ^ 64 + a) % 2 ^ 64 := by
        rw [Nat.add_mul, Nat.one_mul]
        generalize offset / a * a = y
        omega
      rw [e]
      generalize offset / a * a % 2 ^ 64 = x
      have := Nat.mod_le (x + a) (2 ^ 64)
      split_ifs <;> omega

/-- The neighbourhood that is searched for a page is that of the pool before
pages were flushed. -/
theorem buf_flush_try_neighbors_range_flushed (env : batch_env) (pool pool' : buf_pool_t)
    (space offset : Nat) (h : pool'.flushed_from pool) :
    buf_flush_try_neighbors_range env pool' space offset
      = buf_flush_try_neighbors_range env pool space offset := by
  unfold buf_flush_try_neighbors_range buf_flush_area
  rw [h.1, h.2.2.1]

/-- The function `buf_flush_try_neighbors`, when it returns, has flushed at
most the pages of one neighbourhood. -/
theorem buf_flush_try_neighbors_spec (env : batch_env) (st : batch_state)
    (space offset flush_type : Nat) (r : Nat × batch_state)
    (h : buf_flush_try_neighbors env st space offset flush_type = flush_run.returns r) :
    r.1 ≤ buf_flush_neighbourhood env st.pool ∧ r.2.pool.flushed_from st.pool := by
  unfold buf_flush_try_neighbors at h
  cases hr : buf_flush_try_neighbors_range env st.pool space offset with
  | none =>
    rw [hr] at h
    exact absurd h (by simp)
  | some lh =>
    obtain ⟨low, high⟩ := lh
    rw [hr] at h
    dsimp only at h
    obtain ⟨a1, a2⟩ := buf_flush_try_neighbors_loop_spec env space offset flush_type _ _ _ _ _ h
    have hle := buf_flush_try_neighbors_range_le env st.pool space offset low high hr
    exact ⟨by omega, a2⟩

/-- The loop of `buf_flush_batch`, when it returns: pages were only flushed; a
count that had reached `min_n` is returned as it is; the count is carried past
`min_n - 1` by at most one neighbourhood; and each round adds at most one
neighbourhood. -/
theorem buf_flush_batch_loop_spec (env : batch_env) (flush_type min_n lsn_limit : Nat) :
    ∀ (k : Nat) (st : batch_state) (page_count : Nat) (r : Nat × batch_state),
      buf_flush_batch_loop env flush_type min_n lsn_limit k st page_count = flush_run.returns r
      → r.2.pool.flushed_from st.pool
        ∧ (min_n ≤ page_count → r.1 = page_count)
        ∧ r.1 ≤ max page_count (min_n - 1 + buf_flush_neighbourhood env st.pool)
        ∧ r.1 ≤ page_count + k * buf_flush_neighbourhood env st.pool := by
  intro k
  induction k with
  | zero =>
    intro st page_count r h
    simp [buf_flush_batch_loop] at h
  | succ k ih =>
    intro st page_count r h
    have stop : flush_run.returns (page_count, st) = flush_run.returns r →
        r.2.pool.flushed_from st.pool
        ∧ (min_n ≤ page_count → r.1 = page_count)
        ∧ r.1 ≤ max page_count (min_n - 1 + buf_flush_neighbourhood env st.pool)
        ∧ r.1 ≤ page_count + (k + 1) * buf_flush_neighbourhood env st.pool := by
      intro e
      injection e with e
      rw [← e]
      exact ⟨buf_pool_t.flushed_from_refl _, fun _ => rfl, Nat.le_max_left _ _,
        Nat.le_add_right _ _⟩
    unfold buf_flush_batch_loop at h
    by_cases h1 : page_count ≥ min_n
    · rw [if_pos h1] at h
      exact stop h
    rw [if_neg h1] at h
    cases hl : (st.pool.batch_list flush_type).getLast? with
    | none =>
      rw [hl] at h
      dsimp only at h
      by_cases ht : flush_type = BUF_FLUSH_LRU
      · rw [if_pos ht] at h
        exact absurd h (by simp)
      · rw [if_neg ht] at h
        exact stop h
    | some last =>
      rw [hl] at h
      dsimp only at h
      by_cases h2 : flush_type ≠ BUF_FLUSH_LRU
          ∧ (st.pool.pages last).oldest_modification ≥ lsn_limit
      · rw [if_pos h2] at h
        exact stop h
      rw [if_neg h2] at h
      cases hs : buf_flush_batch_search env st.pool flush_type
          (st.pool.batch_list flush_type).reverse with
      | crashes =>
        rw [hs] at h
        exact absurd h (by simp)
      | unfinished =>
        rw [hs] at h
        exact absurd h (by simp)
      | returns o =>
        rw [hs] at h
        cases o with
        | none => exact stop h
        | some bpage =>
          dsimp only at h
          cases hr1 : buf_flush_try_neighbors env st (st.pool.pages bpage).space
              (st.pool.pages bpage).offset flush_type with
          | crashes =>
            rw [hr1] at h
            exact absurd h (by simp)
          | unfinished =>
            rw [hr1] at h
            exact absurd h (by simp)
          | returns r1 =>
            rw [hr1] at h
            dsimp only at h
            obtain ⟨b1, b2⟩ := buf_flush_try_neighbors_spec env st _ _ flush_type r1 hr1
            obtain ⟨c1, c2, c3, c4⟩ := ih r1.2 ((page_count + r1.1) % 2 ^ 64) r h
            have hn := buf_flush_neighbourhood_flushed env st.pool r1.2.pool b2
            rw [hn] at c3 c4
            have hm := Nat.mod_le (page_count + r1.1) (2 ^ 64)
            refine ⟨buf_pool_t.flushed_from_trans _ _ _ b2 c1, fun hh => by omega, ?_, ?_⟩
            · refine Nat.le_trans c3 (Nat.max_le.mpr ⟨?_, Nat.le_max_right _ _⟩)
              exact Nat.le_trans (by omega) (Nat.le_max_right _ _)
            · rw [Nat.succ_mul]
              omega

/-- A run that returns a count has returned. -/
theorem flush_run.count_eq_some {α : Type} (run : flush_run (Nat × α)) (count : Nat)
    (h : run.count = some count) : ∃ a, run = flush_run.returns (count, a) := by
  cases run with
  | returns r =>
    obtain ⟨c, a⟩ := r
    have e : c = count := Option.some.inj h
    exact ⟨a, by rw [e]⟩
  | crashes => exact absurd h (by simp [flush_run.count])
  | unfinished => exact absurd h (by simp [flush_run.count])

/-- The function `buf_flush_batch` when no batch of the kind is running and it
returns: the count is that of the loop, and `init_flush` of the kind is false
again. -/
theorem buf_flush_batch_not_busy (env : batch_env) (st : batch_state)
    (flush_type min_n lsn_limit : Nat) (r : Nat × batch_state)
    (hn : st.pool.n_flush flush_type = 0) (hi : st.pool.init_flush flush_type = false)
    (h : buf_flush_batch env st flush_type min_n lsn_limit = flush_run.returns r) :
    r.2.pool.init_flush flush_type = false
      ∧ ∃ r1, buf_flush_batch_loop env flush_type min_n lsn_limit
          ((st.pool.batch_list flush_type).length + 1)
          { st with pool := st.pool.set_init_flush flush_type true } 0 = flush_run.returns r1
        ∧ r.1 = r1.1 := by
  unfold buf_flush_batch at h
  rw [if_neg (by rw [hn, hi]; simp)] at h
  dsimp only at h
  split at h
  · exact absurd h (by simp)
  · exact absurd h (by simp)
  · rename_i r1 hr1
    split at h
    · exact absurd h (by simp)
    · injection h with h
      rw [← h]
      refine ⟨?_, r1, hr1, rfl⟩
      simp [buf_pool_t.set_init_flush]

/-- Claim C14, amended: for every buffer-pool state, flush kind, `min_n` and
`lsn_limit`, when no batch of the kind is running and `buf_flush_batch`
returns, the count it returns (the pages for which a write was queued in this
batch, neighbours included) is at most `min_n - 1` plus the number of pages of
one flush neighbourhood, and is 0 when `min_n` is 0: no neighbourhood is
started once the count has reached `min_n`, but the neighbours flushed with the
last page can carry the count past `min_n`. -/
theorem C14_batch_count_bound (env : batch_env) (st : batch_state)
    (flush_type min_n lsn_limit count : Nat)
    (hn : st.pool.n_flush flush_type = 0) (hi : st.pool.init_flush flush_type = false)
    (h : (buf_flush_batch env st flush_type min_n lsn_limit).count = some count) :
    count ≤ min_n - 1 + buf_flush_neighbourhood env st.pool ∧ (min_n = 0 → count = 0) := by
  obtain ⟨st', h⟩ := flush_run.count_eq_some _ _ h
  obtain ⟨_, r1, h1, h2⟩ :=
    buf_flush_batch_not_busy env st flush_type min_n lsn_limit (count, st') hn hi h
  obtain ⟨_, c2, c3, _⟩ := buf_flush_batch_loop_spec env flush_type min_n lsn_limit _ _ _ _ h1
  have e : count = r1.1 := h2
  have hN : buf_flush_neighbourhood env
      ({ st with pool := st.pool.set_init_flush flush_type true } : batch_state).pool
      = buf_flush_neighbourhood env st.pool := rfl
  rw [hN] at c3
  constructor
  · rw [e]
    exact Nat.le_trans c3 (Nat.max_le.mpr ⟨Nat.zero_le _, Nat.le_refl _⟩)
  · intro h0
    rw [e]
    exact c2 (by omega)

set_option maxRecDepth 100000 in
/-- The claim C14 as stated fails: a flush-list batch with `min_n = 1`, on a
pool of 1024 blocks with 600 blocks in the LRU list and the pages 1, 2 and 3 of
space 0 dirty, flushes the last page of the flush list together with its two
dirty neighbours and returns 3. -/
theorem C14_neighbours_carry_count_past_min_n :
    sample_batch_state.pool.n_flush BUF_FLUSH_LIST = 0
      ∧ sample_batch_state.pool.init_flush BUF_FLUSH_LIST = false
      ∧ (buf_flush_batch sample_batch_env sample_batch_state BUF_FLUSH_LIST 1 1000).count
          = some 3
      ∧ ¬ (3 ≤ 1) := by
  decide

set_option maxRecDepth 100000 in
/-- The theorem `C14_batch_count_bound` at the flush-list batch with
`min_n = 1` that returns 3: the count is at most `1 - 1` plus the 64 pages of a
neighbourhood. -/
theorem C14_batch_count_bound_witness :
    (buf_flush_batch sample_batch_env sample_batch_state BUF_FLUSH_LIST 1 1000).count = some 3
      ∧ 3 ≤ 1 - 1 + buf_flush_neighbourhood sample_batch_env sample_batch_state.pool :=
  ⟨by decide,
    (C14_batch_count_bound sample_batch_env sample_batch_state BUF_FLUSH_LIST 1 1000 3
      rfl rfl (by decide)).1⟩

/-! ## C15: a flush batch that finds a batch of its kind running -/

/-- Claim C15: `buf_flush_batch(type, ...)` returns the busy value
`ULINT_UNDEFINED` exactly when on entry `n_flush[type] > 0` or
`init_flush[type]` is set; in that case the state is left as it was: no write
is queued, and `init_flush`, `n_flush`, the LRU and flush lists and the
flushed-page counters are unchanged; in every other case, when it returns, the
count is not the busy value (for a pool in which the pages of the
neighbourhoods of all blocks of the list are fewer than `ULINT_UNDEFINED`) and
`init_flush[type]` is false again. -/
theorem C15_batch_busy (env : batch_env) (st : batch_state)
    (flush_type min_n lsn_limit : Nat) :
    ((st.pool.n_flush flush_type > 0 ∨ st.pool.init_flush flush_type = true) →
      buf_flush_batch env st flush_type min_n lsn_limit
        = flush_run.returns (ULINT_UNDEFINED, st))
    ∧ (¬ (st.pool.n_flush flush_type > 0 ∨ st.pool.init_flush flush_type = true) →
      ∀ r, buf_flush_batch env st flush_type min_n lsn_limit = flush_run.returns r →
        r.2.pool.init_flush flush_type = false
        ∧ (((st.pool.batch_list flush_type).length + 1) * buf_flush_neighbourhood env st.pool
            < ULINT_UNDEFINED → r.1 ≠ ULINT_UNDEFINED)) := by
  constructor
  · intro hb
    unfold buf_flush_batch
    rw [if_pos hb]
  · intro hb r h
    have hn : st.pool.n_flush flush_type = 0 := by omega
    have hi : st.pool.init_flush flush_type = false := by
      cases hx : st.pool.init_flush flush_type
      · rfl
      · exact absurd (Or.inr hx) hb
    obtain ⟨a1, r1, h1, h2⟩ :=
      buf_flush_batch_not_busy env st flush_type min_n lsn_limit r hn hi h
    refine ⟨a1, ?_⟩
    intro hsize
    obtain ⟨_, _, _, c4⟩ := buf_flush_batch_loop_spec env flush_type min_n lsn_limit _ _ _ _ h1
    have hN : buf_flush_neighbourhood env
        ({ st with pool := st.pool.set_init_flush flush_type true } : batch_state).pool
        = buf_flush_neighbourhood env st.pool := rfl
    rw [hN, Nat.zero_add] at c4
    rw [h2]
    omega

/-- The theorem `C15_batch_busy` at a state in which a flush-list batch is
being set up: the batch asked for returns the busy value and leaves the state
as it is. -/
theorem C15_batch_busy_witness :
    buf_flush_batch sample_batch_env
        { sample_batch_state with
          pool := sample_batch_state.pool.set_init_flush BUF_FLUSH_LIST true }
        BUF_FLUSH_LIST 1 1000
      = flush_run.returns (ULINT_UNDEFINED,
          { sample_batch_state with
            pool := sample_batch_state.pool.set_init_flush BUF_FLUSH_LIST true }) :=
  (C15_batch_busy sample_batch_env
    { sample_batch_state with
      pool := sample_batch_state.pool.set_init_flush BUF_FLUSH_LIST true }
    BUF_FLUSH_LIST 1 1000).1 (Or.inr (by decide))

/-! ## The flush batch comes to an end -/

/-- A flush of a doublewrite buffer that is in use and not empty leaves it
empty. -/
theorem buf_flush_buffered_writes_empties (env : flush_env) (st fs : flush_state) (dw : trx_doublewrite_t)
    (hdw : st.trx_doublewrite = some dw) (huse : st.srv_use_doublewrite_buf = true)
    (hne : dw.first_free ≠ 0)
    (hb : buf_flush_buffered_writes env st = Except.ok fs) :
    ∃ dw', fs.trx_doublewrite = some dw' ∧ dw'.first_free = 0 := by
  unfold buf_flush_buffered_writes at hb
  rw [hdw] at hb
  dsimp only at hb
  rw [if_neg (by rw [huse]; decide), if_neg hne] at hb
  by_cases c1 : buf_flush_buffered_writes_validate env dw dw.first_free 0 = false
  · rw [if_pos c1] at hb
    exact absurd hb (by simp)
  rw [if_neg c1] at hb
  split_ifs at hb
  all_goals
    injection hb with hb
    rw [← hb]
    exact ⟨_, rfl, rfl⟩

/-- With the doublewrite buffer in use, two passes of
`buf_flush_post_to_doublewrite_buf` are enough: a flush of the buffer leaves it
empty. -/
theorem buf_flush_post_to_doublewrite_buf_finishes (env : batch_env) (bpage : Nat)
    (st : batch_state) (huse : st.fs.srv_use_doublewrite_buf = true) :
    buf_flush_post_to_doublewrite_buf env bpage 2 st ≠ flush_run.unfinished := by
  unfold buf_flush_post_to_doublewrite_buf
  dsimp only
  cases hdw : st.fs.trx_doublewrite with
  | none => simp
  | some dw =>
    dsimp only
    by_cases h1 : env.buf_page_in_file (st.pool.pages bpage) = false
    · rw [if_pos h1]
      simp
    rw [if_neg h1]
    by_cases h2 : dw.first_free ≥ 2 * TRX_SYS_DOUBLEWRITE_BLOCK_SIZE
    · rw [if_pos h2]
      cases hb : buf_flush_buffered_writes env.flush st.fs with
      | error e => simp
      | ok fs =>
        dsimp only
        -- after the flush the buffer is empty
        have hfs : ∃ dw', fs.trx_doublewrite = some dw' ∧ dw'.first_free = 0 :=
          buf_flush_buffered_writes_empties env.flush st.fs fs dw hdw huse
            (by
              have : 2 * TRX_SYS_DOUBLEWRITE_BLOCK_SIZE = 128 := rfl
              omega) hb
        obtain ⟨dw', e1, e2⟩ := hfs
        unfold buf_flush_post_to_doublewrite_buf
        dsimp only
        rw [e1]
        dsimp only
        rw [if_neg h1, if_neg (by rw [e2]; decide)]
        split_ifs
        · simp
        · split <;> simp
        · simp
    · rw [if_neg h2]
      split_ifs
      · simp
      · split <;> simp
      · simp

/-- The function `buf_flush_write_block_low` comes to an end. -/
theorem buf_flush_write_block_low_finishes (env : batch_env) (st : batch_state) (bpage : Nat) :
    buf_flush_write_block_low env st bpage ≠ flush_run.unfinished := by
  unfold buf_flush_write_block_low
  dsimp only
  split_ifs with h1 h2
  · simp
  · apply buf_flush_post_to_doublewrite_buf_finishes
    dsimp only
    cases hu : st.fs.srv_use_doublewrite_buf
    · exact absurd (Or.inl hu) h2
    · rfl
  · simp

/-- The function `buf_flush_page` comes to an end. -/
theorem buf_flush_page_finishes (env : batch_env) (st : batch_state) (bpage flush_type : Nat) :
    buf_flush_page env st bpage flush_type ≠ flush_run.unfinished := by
  unfold buf_flush_page
  dsimp only
  split_ifs
  · exact buf_flush_write_block_low_finishes env _ bpage
  · split
    · simp
    · exact buf_flush_write_block_low_finishes env _ bpage
  · exact buf_flush_write_block_low_finishes env _ bpage
  · simp

/-- The loop of `buf_flush_try_neighbors` comes to an end. -/
theorem buf_flush_try_neighbors_loop_finishes (env : batch_env)
    (space offset flush_type : Nat) :
    ∀ (k i : Nat) (st : batch_state) (count : Nat),
      buf_flush_try_neighbors_loop env space offset flush_type k i st count
        ≠ flush_run.unfinished := by
  intro k
  induction k with
  | zero =>
    intro i st count
    simp [buf_flush_try_neighbors_loop]
  | succ k ih =>
    intro i st count
    unfold buf_flush_try_neighbors_loop
    split
    · exact ih _ _ _
    · dsimp only
      split_ifs
      · simp
      · split
        · simp
        · split_ifs
          · cases hp : buf_flush_page env st _ flush_type with
            | returns s => exact ih _ _ _
            | crashes => simp
            | unfinished => exact absurd hp (buf_flush_page_finishes env st _ flush_type)
          · exact ih _ _ _
      · exact ih _ _ _

/-- The function `buf_flush_try_neighbors` comes to an end. -/
theorem buf_flush_try_neighbors_finishes (env : batch_env) (st : batch_state)
    (space offset flush_type : Nat) :
    buf_flush_try_neighbors env st space offset flush_type ≠ flush_run.unfinished := by
  unfold buf_flush_try_neighbors
  split
  · simp
  · exact buf_flush_try_neighbors_loop_finishes env space offset flush_type _ _ _ _

/-- A block that is ready for flushing after pages were flushed was ready
before. -/
theorem buf_pool_t.ready_of_flushed (env : batch_env) (pool pool' : buf_pool_t)
    (flush_type q : Nat) (h : pool'.flushed_from pool)
    (hr : pool'.ready env flush_type q = true) : pool.ready env flush_type q = true := by
  rcases (h.2.2.2.2.2 q).2.2.2 with e | e
  · unfold buf_pool_t.ready at hr ⊢
    rw [← e]
    exact hr
  · exfalso
    unfold buf_pool_t.ready buf_flush_ready_for_flush at hr
    rw [e] at hr
    have hne : ¬ ((pool'.pages q).oldest_modification ≠ 0 ∧ BUF_IO_WRITE = BUF_IO_NONE) :=
      fun hc => absurd hc.2 (by decide)
    rw [if_neg hne] at hr
    split_ifs at hr <;> exact absurd hr (by decide)

/-- A block that is fixed for a write stays so when pages are flushed. -/
theorem buf_pool_t.io_fix_of_flushed (pool pool' : buf_pool_t) (q : Nat)
    (h : pool'.flushed_from pool) (hw : (pool.pages q).io_fix = BUF_IO_WRITE) :
    (pool'.pages q).io_fix = BUF_IO_WRITE := by
  rcases (h.2.2.2.2.2 q).2.2.2 with e | e
  · rw [e]
    exact hw
  · exact e

/-- One iteration of the loop of `buf_flush_try_neighbors` that does not crash:
the loop goes on in a state in which pages were only flushed, and at the page
number `offset` a block that was ready for flushing is fixed for a write. -/
theorem buf_flush_try_neighbors_loop_step (env : batch_env) (space offset flush_type : Nat)
    (k i : Nat) (st : batch_state) (count : Nat) (r : Nat × batch_state)
    (h : buf_flush_try_neighbors_loop env space offset flush_type (k + 1) i st count
      = flush_run.returns r) :
    ∃ s c, s.pool.flushed_from st.pool
      ∧ buf_flush_try_neighbors_loop env space offset flush_type k (i + 1) s c
          = flush_run.returns r
      ∧ (i = offset → ∀ p, st.pool.page_hash space i = some p
          → st.pool.ready env flush_type p = true
          → (s.pool.pages p).io_fix = BUF_IO_WRITE) := by
  unfold buf_flush_try_neighbors_loop at h
  cases hh : st.pool.page_hash space i with
  | none =>
    rw [hh] at h
    exact ⟨st, count, buf_pool_t.flushed_from_refl _, h, fun _ p hp => by simp at hp⟩
  | some bpage =>
    rw [hh] at h
    dsimp only at h
    by_cases h1 : env.buf_page_in_file (st.pool.pages bpage) = false
    · rw [if_pos h1] at h
      exact absurd h (by simp)
    rw [if_neg h1] at h
    by_cases h2 : flush_type ≠ BUF_FLUSH_LRU ∨ i = offset ∨ (st.pool.pages bpage).old = true
    · rw [if_pos h2] at h
      cases hrd : buf_flush_ready_for_flush env.buf_page_in_file (st.pool.pages bpage)
          flush_type with
      | none =>
        rw [hrd] at h
        exact absurd h (by simp)
      | some ready =>
        rw [hrd] at h
        dsimp only at h
        by_cases h3 : ready = true ∧ (i = offset ∨ (st.pool.pages bpage).buf_fix_count = 0)
        · rw [if_pos h3] at h
          cases hp : buf_flush_page env st bpage flush_type with
          | returns s =>
            rw [hp] at h
            dsimp only at h
            obtain ⟨f1, f2⟩ := buf_flush_page_flushed env st s bpage flush_type hp
            refine ⟨s, _, f1, h, ?_⟩
            intro _ p hp1 _
            have e : bpage = p := Option.some.inj hp1
            rw [← e]
            exact f2
          | crashes =>
            rw [hp] at h
            exact absurd h (by simp)
          | unfinished =>
            rw [hp] at h
            exact absurd h (by simp)
        · rw [if_neg h3] at h
          refine ⟨st, count, buf_pool_t.flushed_from_refl _, h, ?_⟩
          intro hi p hp1 hrdy
          exfalso
          have e : bpage = p := Option.some.inj hp1
          unfold buf_pool_t.ready at hrdy
          rw [← e, hrd] at hrdy
          have hready : ready = true := by simpa using hrdy
          exact h3 ⟨hready, Or.inl hi⟩
    · rw [if_neg h2] at h
      exact ⟨st, count, buf_pool_t.flushed_from_refl _, h,
        fun hi _ _ _ => absurd (Or.inr (Or.inl hi)) h2⟩

/-- The loop of `buf_flush_try_neighbors` that passes the page number `offset`
leaves the block found there fixed for a write, if it was ready for flushing or
fixed for a write already. -/
theorem buf_flush_try_neighbors_loop_flushes (env : batch_env)
    (space offset flush_type p : Nat) :
    ∀ (k i : Nat) (st : batch_state) (count : Nat) (r : Nat × batch_state),
      i ≤ offset → offset < i + k → st.pool.page_hash space offset = some p
      → (st.pool.ready env flush_type p = true ∨ (st.pool.pages p).io_fix = BUF_IO_WRITE)
      → buf_flush_try_neighbors_loop env space offset flush_type k i st count
          = flush_run.returns r
      → (r.2.pool.pages p).io_fix = BUF_IO_WRITE := by
  intro k
  induction k with
  | zero =>
    intro i st count r h1 h2
    omega
  | succ k ih =>
    intro i st count r h1 h2 hh hq h
    obtain ⟨s, c, f1, f2, f3⟩ :=
      buf_flush_try_neighbors_loop_step env space offset flush_type k i st count r h
    have hfin := (buf_flush_try_neighbors_loop_spec env space offset flush_type k (i + 1) s c r
      f2).2
    by_cases hi : i = offset
    · -- the block is flushed in this iteration, or was fixed for a write before
      have hw : (s.pool.pages p).io_fix = BUF_IO_WRITE := by
        rcases hq with hq | hq
        · exact f3 hi p (by rw [hi]; exact hh) hq
        · exact buf_pool_t.io_fix_of_flushed _ _ p f1 hq
      exact buf_pool_t.io_fix_of_flushed _ _ p hfin hw
    · have hq' : s.pool.ready env flush_type p = true
          ∨ (s.pool.pages p).io_fix = BUF_IO_WRITE := by
        rcases hq with hq | hq
        · rcases (f1.2.2.2.2.2 p).2.2.2 with e | e
          · left
            unfold buf_pool_t.ready at hq ⊢
            rw [e]
            exact hq
          · exact Or.inr e
        · exact Or.inr (buf_pool_t.io_fix_of_flushed _ _ p f1 hq)
      exact ih (i + 1) s c r (by omega) (by omega)
        (by rw [f1.2.2.2.2.1]; exact hh) hq' f2

/-- A block that is fixed for a write is not ready for flushing. -/
theorem buf_pool_t.not_ready_of_io_fix (env : batch_env) (pool : buf_pool_t)
    (flush_type q : Nat) (hw : (pool.pages q).io_fix = BUF_IO_WRITE) :
    pool.ready env flush_type q = false := by
  unfold buf_pool_t.ready buf_flush_ready_for_flush
  rw [hw]
  have hne : ¬ ((pool.pages q).oldest_modification ≠ 0 ∧ BUF_IO_WRITE = BUF_IO_NONE) :=
    fun hc => absurd hc.2 (by decide)
  rw [if_neg hne]
  split_ifs <;> decide

/-- The search of `buf_flush_batch` finds a block of the list that is ready for
flushing. -/
theorem buf_flush_batch_search_ready (env : batch_env) (pool : buf_pool_t) (flush_type : Nat) :
    ∀ (list : List Nat) (b : Nat),
      buf_flush_batch_search env pool flush_type list = flush_run.returns (some b)
      → b ∈ list ∧ pool.ready env flush_type b = true := by
  intro list
  induction list with
  | nil =>
    intro b h
    simp [buf_flush_batch_search] at h
  | cons x rest ih =>
    intro b h
    unfold buf_flush_batch_search at h
    by_cases h1 : env.buf_page_in_file (pool.pages x) = false
    · rw [if_pos h1] at h
      exact absurd h (by simp)
    rw [if_neg h1] at h
    cases hr : buf_flush_ready_for_flush env.buf_page_in_file (pool.pages x) flush_type with
    | none =>
      rw [hr] at h
      exact absurd h (by simp)
    | some ready =>
      rw [hr] at h
      cases ready with
      | true =>
        dsimp only at h
        injection h with h
        have e : x = b := Option.some.inj h
        rw [← e]
        refine ⟨List.mem_cons_self _ _, ?_⟩
        unfold buf_pool_t.ready
        rw [hr]
        rfl
      | false =>
        dsimp only at h
        obtain ⟨a1, a2⟩ := ih b h
        exact ⟨List.mem_cons_of_mem _ a1, a2⟩

/-- The search of `buf_flush_batch` comes to an end. -/
theorem buf_flush_batch_search_finishes (env : batch_env) (pool : buf_pool_t)
    (flush_type : Nat) :
    ∀ (list : List Nat),
      buf_flush_batch_search env pool flush_type list ≠ flush_run.unfinished := by
  intro list
  induction list with
  | nil => simp [buf_flush_batch_search]
  | cons x rest ih =>
    unfold buf_flush_batch_search
    split_ifs
    · simp
    · split
      · simp
      · simp
      · exact ih

/-- Fewer elements of a list satisfy a test that holds only where another test
holds, and fails at an element where the other holds. -/
theorem countP_lt_of_imp (P Q : Nat → Bool) :
    ∀ (l : List Nat), (∀ x, x ∈ l → Q x = true → P x = true)
      → ∀ b, b ∈ l → P b = true → Q b = false → l.countP Q < l.countP P := by
  intro l
  induction l with
  | nil =>
    intro _ b hb
    exact absurd hb (List.not_mem_nil b)
  | cons x rest ih =>
    intro himp b hb hP hQ
    have hle : rest.countP Q ≤ rest.countP P := by
      clear ih hb
      induction rest with
      | nil => exact Nat.le_refl _
      | cons y ys ihy =>
        have hy := himp y (List.mem_cons_of_mem _ (List.mem_cons_self _ _))
        have hrest := ihy (fun z hz => himp z (by
          rcases List.mem_cons.mp hz with hz | hz
          · exact hz ▸ List.mem_cons_self _ _
          · exact List.mem_cons_of_mem _ (List.mem_cons_of_mem _ hz)))
        rw [List.countP_cons, List.countP_cons]
        cases hQy : Q y
        · simp only [Bool.false_eq_true, if_false]
          omega
        · rw [hy hQy]
          simp only [if_true]
          omega
    rw [List.countP_cons, List.countP_cons]
    rcases List.mem_cons.mp hb with hb | hb
    · rw [← hb, hP, hQ]
      simp only [Bool.false_eq_true, if_false, if_true]
      omega
    · have hlt := ih (fun z hz => himp z (List.mem_cons_of_mem _ hz)) b hb hP hQ
      cases hQx : Q x
      · simp only [Bool.false_eq_true, if_false]
        omega
      · rw [himp x (List.mem_cons_self _ _) hQx]
        simp only [if_true]
        omega

/-- The list of a batch is that of the pool before pages were flushed. -/
theorem buf_pool_t.batch_list_flushed (pool pool' : buf_pool_t) (flush_type : Nat)
    (h : pool'.flushed_from pool) :
    pool'.batch_list flush_type = pool.batch_list flush_type := by
  unfold buf_pool_t.batch_list
  rw [h.1, h.2.1]

/-- A pool that is well formed for a batch stays so when pages are flushed. -/
theorem buf_pool_t.batch_wf_flushed (env : batch_env) (pool pool' : buf_pool_t)
    (flush_type : Nat) (h : pool'.flushed_from pool) (hwf : pool.batch_wf env flush_type) :
    pool'.batch_wf env flush_type := by
  intro bpage hb
  rw [buf_pool_t.batch_list_flushed pool pool' flush_type h] at hb
  obtain ⟨w1, low, high, w2, w3, w4⟩ := hwf bpage hb
  have hs := (h.2.2.2.2.2 bpage).1
  have ho := (h.2.2.2.2.2 bpage).2.1
  rw [hs, ho, h.2.2.2.2.1, buf_flush_try_neighbors_range_flushed env pool pool' _ _ h]
  exact ⟨w1, low, high, w2, w3, w4⟩

/-- The loop of `buf_flush_batch` on a well-formed pool comes to an end within
one round more than there are blocks ready for flushing in the list: each
round that goes on leaves one of them fixed for a write. -/
theorem buf_flush_batch_loop_finishes (env : batch_env) (flush_type min_n lsn_limit : Nat) :
    ∀ (k : Nat) (st : batch_state) (page_count : Nat),
      st.pool.batch_wf env flush_type
      → (st.pool.batch_list flush_type).countP (st.pool.ready env flush_type) < k
      → buf_flush_batch_loop env flush_type min_n lsn_limit k st page_count
          ≠ flush_run.unfinished := by
  intro k
  induction k with
  | zero =>
    intro st page_count _ h
    omega
  | succ k ih =>
    intro st page_count hwf hk
    unfold buf_flush_batch_loop
    by_cases h1 : page_count ≥ min_n
    · rw [if_pos h1]
      simp
    rw [if_neg h1]
    cases hl : (st.pool.batch_list flush_type).getLast? with
    | none =>
      dsimp only
      split_ifs <;> simp
    | some last =>
      dsimp only
      by_cases h2 : flush_type ≠ BUF_FLUSH_LRU
          ∧ (st.pool.pages last).oldest_modification ≥ lsn_limit
      · rw [if_pos h2]
        simp
      rw [if_neg h2]
      cases hs : buf_flush_batch_search env st.pool flush_type
          (st.pool.batch_list flush_type).reverse with
      | crashes => simp
      | unfinished =>
        exact absurd hs (buf_flush_batch_search_finishes env st.pool flush_type _)
      | returns o =>
        cases o with
        | none => simp
        | some bpage =>
          dsimp only
          obtain ⟨hb, hready⟩ := buf_flush_batch_search_ready env st.pool flush_type _ bpage hs
          have hb' : bpage ∈ st.pool.batch_list flush_type := List.mem_reverse.mp hb
          cases hr1 : buf_flush_try_neighbors env st (st.pool.pages bpage).space
              (st.pool.pages bpage).offset flush_type with
          | crashes => simp
          | unfinished =>
            exact absurd hr1 (buf_flush_try_neighbors_finishes env st _ _ flush_type)
          | returns r1 =>
            dsimp only
            obtain ⟨_, f⟩ := buf_flush_try_neighbors_spec env st _ _ flush_type r1 hr1
            -- the block found is fixed for a write now
            have hw : (r1.2.pool.pages bpage).io_fix = BUF_IO_WRITE := by
              obtain ⟨w1, low, high, w2, w3, w4⟩ := hwf bpage hb'
              unfold buf_flush_try_neighbors at hr1
              rw [w2] at hr1
              dsimp only at hr1
              exact buf_flush_try_neighbors_loop_flushes env _ _ flush_type bpage _ _ _ _ _
                w3 (by omega) w1 (Or.inl hready) hr1
            have hnot := buf_pool_t.not_ready_of_io_fix env r1.2.pool flush_type bpage hw
            have hlt := countP_lt_of_imp (st.pool.ready env flush_type)
              (r1.2.pool.ready env flush_type) (st.pool.batch_list flush_type)
              (fun x _ hx => buf_pool_t.ready_of_flushed env st.pool r1.2.pool flush_type x f hx)
              bpage hb' hready hnot
            apply ih
            · exact buf_pool_t.batch_wf_flushed env st.pool r1.2.pool flush_type f hwf
            · rw [buf_pool_t.batch_list_flushed st.pool r1.2.pool flush_type f]
              omega

/-- The function `buf_flush_batch` on a pool that is well formed for the batch
comes to an end: it returns or the server is crashed, within the rounds given
to its loop. -/
theorem buf_flush_batch_finishes (env : batch_env) (st : batch_state)
    (flush_type min_n lsn_limit : Nat) (hwf : st.pool.batch_wf env flush_type) :
    buf_flush_batch env st flush_type min_n lsn_limit ≠ flush_run.unfinished := by
  unfold buf_flush_batch
  by_cases hb : st.pool.n_flush flush_type > 0 ∨ st.pool.init_flush flush_type = true
  · rw [if_pos hb]
    simp
  rw [if_neg hb]
  dsimp only
  have hfin : buf_flush_batch_loop env flush_type min_n lsn_limit
      (((st.pool.set_init_flush flush_type true).batch_list flush_type).length + 1)
      { st with pool := st.pool.set_init_flush flush_type true } 0 ≠ flush_run.unfinished :=
    buf_flush_batch_loop_finishes env flush_type min_n lsn_limit _ _ _ hwf
      (Nat.lt_succ_of_le (List.countP_le_length _))
  cases hl : buf_flush_batch_loop env flush_type min_n lsn_limit
      (((st.pool.set_init_flush flush_type true).batch_list flush_type).length + 1)
      { st with pool := st.pool.set_init_flush flush_type true } 0 with
  | crashes => simp
  | unfinished => exact absurd hl hfin
  | returns r =>
    dsimp only
    split <;> simp

set_option maxRecDepth 100000 in
/-- The sample pool is well formed for a flush-list batch, so the batch on it
comes to an end. -/
theorem sample_batch_state_finishes :
    sample_batch_state.pool.batch_wf sample_batch_env BUF_FLUSH_LIST
      ∧ buf_flush_batch sample_batch_env sample_batch_state BUF_FLUSH_LIST 1 1000
          ≠ flush_run.unfinished := by
  have hwf : sample_batch_state.pool.batch_wf sample_batch_env BUF_FLUSH_LIST := by
    intro b hb
    have hb' : b = 3 ∨ b = 2 ∨ b = 1 := by
      simpa [buf_pool_t.batch_list, sample_batch_state, BUF_FLUSH_LIST, BUF_FLUSH_LRU] using hb
    rcases hb' with rfl | rfl | rfl <;>
      exact ⟨rfl, 0, 64, by decide, by decide, by decide⟩
  exact ⟨hwf, buf_flush_batch_finishes _ _ _ _ _ hwf⟩


/-! ## Claim C25: records that must be stored externally -/

/-- The free space of an empty page: 16252 bytes in the compact format, 16247
in the old format. -/
theorem page_get_free_space_of_empty_eq (comp : Nat) :
    page_get_free_space_of_empty comp = if comp ≠ 0 then 16252 else 16247 := by
  unfold page_get_free_space_of_empty
  split_ifs <;> decide

/-- Claim C25, amended: for every record size and both page formats,
`page_rec_needs_ext(rec_size, comp)` is true exactly when `rec_size` is at
least `page_get_free_space_of_empty(comp) / 2` in integer division, that is
8126 in the compact format and 8123 in the old format, whenever
`REC_MAX_DATA_SIZE` is not below that bound. -/
theorem C25_page_rec_needs_ext (REC_MAX_DATA_SIZE rec_size comp : Nat)
    (hmax : page_get_free_space_of_empty comp / 2 ≤ REC_MAX_DATA_SIZE) :
    (page_rec_needs_ext REC_MAX_DATA_SIZE rec_size comp = true
      ↔ rec_size ≥ page_get_free_space_of_empty comp / 2)
    ∧ page_get_free_space_of_empty comp / 2 = (if comp ≠ 0 then 8126 else 8123) := by
  constructor
  · unfold page_rec_needs_ext
    by_cases h : UNIV_PAGE_SIZE > REC_MAX_DATA_SIZE ∧ rec_size ≥ REC_MAX_DATA_SIZE
    · rw [if_pos h]
      simp only [true_iff]
      omega
    · rw [if_neg h]
      simp
  · rw [page_get_free_space_of_empty_eq]
    split_ifs <;> rfl

/-- The claim C25 as stated fails: a record of 8126 bytes on a compact page is
exactly half of the free space of an empty page, 16252 bytes, and does not
exceed it, yet `page_rec_needs_ext` is true; so is it for a record of 8123
bytes on a page of the old format, where half of the free space is 8123.5. -/
theorem C25_record_of_half_the_free_space_needs_ext :
    page_get_free_space_of_empty 1 = 16252
      ∧ page_rec_needs_ext 16384 8126 1 = true
      ∧ ¬ (8126 > page_get_free_space_of_empty 1 / 2)
      ∧ page_get_free_space_of_empty 0 = 16247
      ∧ page_rec_needs_ext 16384 8123 0 = true
      ∧ ¬ (8123 > page_get_free_space_of_empty 0 / 2) := by
  decide

/-- The theorem `C25_page_rec_needs_ext` at `REC_MAX_DATA_SIZE` = 16384, a
record of 8125 bytes and the compact format: the record is stored on the
page. -/
theorem C25_page_rec_needs_ext_witness :
    page_rec_needs_ext 16384 8125 1 = false := by
  have h := (C25_page_rec_needs_ext 16384 8125 1 (by decide)).1
  cases hb : page_rec_needs_ext 16384 8125 1 with
  | false => rfl
  | true => exact absurd (h.mp hb) (by decide)


/-! ## Claim C21: rollback segments are assigned round-robin -/

/-- The node after `r` in a list in which `r` stands once, after the nodes
`a`. -/
theorem trx0trx.rseg_list_next_append (a b : List trx_rseg_t) (r : trx_rseg_t) (h : r ∉ a) :
    trx0trx.rseg_list_next (a ++ r :: b) r = b.head? := by
  induction a with
  | nil => simp [trx0trx.rseg_list_next]
  | cons x a ih =>
    have hx : x ≠ r := fun e => h (by simp [e])
    have ha : r ∉ a := fun e => h (by simp [e])
    simp [trx0trx.rseg_list_next, hx, ih ha]

/-- A rollback segment other than the system rollback segment has an id other
than 0, the system rollback segment being in the list. -/
theorem trx0trx.rseg_id_ne_zero (x y : trx_rseg_t) (hx : x.id = TRX_SYS_SYSTEM_RSEG_ID)
    (hxy : y ≠ x) : y.id ≠ TRX_SYS_SYSTEM_RSEG_ID := by
  intro hy
  apply hxy
  cases x
  cases y
  simp_all

/-- One round of the loop of `trx_assign_rseg` that ends it: the next rollback
segment `x` in round-robin order is not the system rollback segment, or it is
the only one. -/
theorem trx0trx.trx_assign_rseg_loop_stop (st : trx0trx.trx_state) (k : Nat)
    (r x : trx_rseg_t)
    (hnext : trx0trx.rseg_list_next st.rseg_list r = some x
      ∨ (trx0trx.rseg_list_next st.rseg_list r = none ∧ st.rseg_list.head? = some x))
    (hstop : ¬ (x.id = TRX_SYS_SYSTEM_RSEG_ID ∧ st.rseg_list.length > 1)) :
    trx0trx.trx_assign_rseg_loop st (k + 1) (some r) = some x := by
  unfold trx0trx.trx_assign_rseg_loop
  rcases hnext with h | ⟨h, h'⟩
  · simp only [h, if_neg hstop]
  · simp only [h, h', if_neg hstop]

/-- One round of the loop of `trx_assign_rseg` that skips the system rollback
segment. -/
theorem trx0trx.trx_assign_rseg_loop_skip (st : trx0trx.trx_state) (k : Nat)
    (r x : trx_rseg_t)
    (hnext : trx0trx.rseg_list_next st.rseg_list r = some x
      ∨ (trx0trx.rseg_list_next st.rseg_list r = none ∧ st.rseg_list.head? = some x))
    (hskip : x.id = TRX_SYS_SYSTEM_RSEG_ID ∧ st.rseg_list.length > 1) :
    trx0trx.trx_assign_rseg_loop st (k + 1) (some r)
      = trx0trx.trx_assign_rseg_loop st k (some x) := by
  conv => lhs; unfold trx0trx.trx_assign_rseg_loop
  rcases hnext with h | ⟨h, h'⟩
  · simp only [h, if_pos hskip]
  · simp only [h, h', if_pos hskip]

/-- The loop of `trx_assign_rseg` from the rollback segment `r`, which stands
in the list between the nodes `a` and `b`, ends within two rounds: with `r`
when it is the only rollback segment, else with the first rollback segment
other than the system rollback segment that follows `r` in the list, the first
node following the last one. -/
theorem trx0trx.trx_assign_rseg_loop_spec (st : trx0trx.trx_state) (a b : List trx_rseg_t)
    (r : trx_rseg_t) (k : Nat) (hl : st.rseg_list = a ++ r :: b) (hnd : st.rseg_list.Nodup) :
    ∃ x, trx0trx.trx_assign_rseg_loop st (k + 2) (some r) = some x
      ∧ x ∈ st.rseg_list
      ∧ (a = [] → b = [] → x = r)
      ∧ (2 ≤ st.rseg_list.length → x.id ≠ TRX_SYS_SYSTEM_RSEG_ID
          ∧ ((b ++ a ++ [r]).filter (fun r => decide (r.id ≠ TRX_SYS_SYSTEM_RSEG_ID))).head?
              = some x) := by
  rw [hl] at hnd
  have hra : r ∉ a := by
    intro h
    have := List.nodup_append.mp hnd
    exact this.2.2 h (by simp) 
  cases b with
  | cons y b' =>
    have hy : trx0trx.rseg_list_next st.rseg_list r = some y := by
      rw [hl, trx0trx.rseg_list_next_append a (y :: b') r hra]; rfl
    have hlen : st.rseg_list.length > 1 := by rw [hl]; simp; omega
    by_cases hs : y.id = TRX_SYS_SYSTEM_RSEG_ID
    · have hl2 : a ++ r :: y :: b' = (a ++ [r]) ++ y :: b' := by simp
      have hya : y ∉ a ++ [r] := by
        rw [hl2] at hnd
        intro h
        exact (List.nodup_append.mp hnd).2.2 h (by simp)
      have hy2 : trx0trx.rseg_list_next st.rseg_list y = b'.head? := by
        rw [hl, hl2, trx0trx.rseg_list_next_append (a ++ [r]) b' y hya]
      rw [trx0trx.trx_assign_rseg_loop_skip st (k + 1) r y (Or.inl hy) ⟨hs, hlen⟩]
      cases b' with
      | cons z b'' =>
        have hz : z ≠ y := by
          intro e
          rw [hl2, e] at hnd
          have := (List.nodup_append.mp hnd).2.1
          simp at this
        have hzs := trx0trx.rseg_id_ne_zero y z hs hz
        refine ⟨z, ?_, ?_, ?_, ?_⟩
        · exact trx0trx.trx_assign_rseg_loop_stop st k y z (Or.inl hy2) (fun h => hzs h.1)
        · simp [hl]
        · intro _ h; cases h
        · intro _
          simp [hs, hzs]
      | nil =>
        cases a with
        | cons w a' =>
          have hw : w ≠ y := by
            intro e
            apply hya
            simp [e]
          have hws := trx0trx.rseg_id_ne_zero y w hs hw
          refine ⟨w, ?_, ?_, ?_, ?_⟩
          · exact trx0trx.trx_assign_rseg_loop_stop st k y w
              (Or.inr ⟨hy2, by rw [hl]; rfl⟩) (fun h => hws h.1)
          · simp [hl]
          · intro h; cases h
          · intro _
            simp [hs, hws]
        | nil =>
          have hr : r ≠ y := by
            intro e
            apply hya
            simp [e]
          have hrs := trx0trx.rseg_id_ne_zero y r hs hr
          refine ⟨r, ?_, ?_, ?_, ?_⟩
          · exact trx0trx.trx_assign_rseg_loop_stop st k y r
              (Or.inr ⟨hy2, by rw [hl]; rfl⟩) (fun h => hrs h.1)
          · simp [hl]
          · intro _ h; cases h
          · intro _
            simp [hs, hrs]
    · refine ⟨y, ?_, ?_, ?_, ?_⟩
      · exact trx0trx.trx_assign_rseg_loop_stop st (k + 1) r y (Or.inl hy) (fun h => hs h.1)
      · simp [hl]
      · intro _ h; cases h
      · intro _
        simp [hs]
  | nil =>
    have hn : trx0trx.rseg_list_next st.rseg_list r = none := by
      rw [hl, trx0trx.rseg_list_next_append a [] r hra]; rfl
    cases a with
    | nil =>
      refine ⟨r, ?_, ?_, ?_, ?_⟩
      · exact trx0trx.trx_assign_rseg_loop_stop st (k + 1) r r
          (Or.inr ⟨hn, by rw [hl]; rfl⟩) (fun h => by rw [hl] at h; simp at h)
      · simp [hl]
      · intro _ _; rfl
      · intro h
        simp [hl] at h
    | cons w a' =>
      have hlen : st.rseg_list.length > 1 := by rw [hl]; simp
      have hh : st.rseg_list.head? = some w := by rw [hl]; rfl
      by_cases hs : w.id = TRX_SYS_SYSTEM_RSEG_ID
      · have hw2 : trx0trx.rseg_list_next st.rseg_list w = (a' ++ [r]).head? := by
          rw [hl]
          have := trx0trx.rseg_list_next_append [] (a' ++ [r]) w (by simp)
          simpa using this
        rw [trx0trx.trx_assign_rseg_loop_skip st (k + 1) r w (Or.inr ⟨hn, hh⟩) ⟨hs, hlen⟩]
        cases a' with
        | cons z a'' =>
          have hz : z ≠ w := by
            intro e
            rw [e] at hnd
            simp at hnd
          have hzs := trx0trx.rseg_id_ne_zero w z hs hz
          refine ⟨z, ?_, ?_, ?_, ?_⟩
          · exact trx0trx.trx_assign_rseg_loop_stop st k w z (Or.inl hw2) (fun h => hzs h.1)
          · simp [hl]
          · intro h; cases h
          · intro _
            simp [hs, hzs]
        | nil =>
          have hr : r ≠ w := by
            intro e
            rw [e] at hnd
            simp at hnd
          have hrs := trx0trx.rseg_id_ne_zero w r hs hr
          refine ⟨r, ?_, ?_, ?_, ?_⟩
          · exact trx0trx.trx_assign_rseg_loop_stop st k w r (Or.inl hw2) (fun h => hrs h.1)
          · simp [hl]
          · intro h; cases h
          · intro _
            simp [hs, hrs]
      · refine ⟨w, ?_, ?_, ?_, ?_⟩
        · exact trx0trx.trx_assign_rseg_loop_stop st (k + 1) r w (Or.inr ⟨hn, hh⟩)
            (fun h => hs h.1)
        · simp [hl]
        · intro h; cases h
        · intro _
          simp [hs]

/-- The head of a list turned so that it starts after the node `r`: the node at
the index after that of `r`, the first node following the last one. -/
theorem head?_rotation {α : Type} (u v : List α) (r : α) :
    (v ++ u ++ [r]).head? = (u ++ r :: v)[(u.length + 1) % (u ++ r :: v).length]? := by
  cases v with
  | nil =>
    have : (u ++ [r]).length = u.length + 1 := by simp
    rw [this, Nat.mod_self, List.head?_eq_getElem?]
    simp
  | cons y v' =>
    have hlt : u.length + 1 < (u ++ r :: y :: v').length := by simp
    rw [Nat.mod_eq_of_lt hlt]
    have : u ++ r :: y :: v' = (u ++ [r]) ++ y :: v' := by simp
    rw [this, List.getElem?_append_right (by simp)]
    simp

/-- One call of `trx_assign_rseg` in a state whose list of rollback segments
has no repeated node and holds `latest_rseg`: the call returns, the segment it
returns is the new `latest_rseg`; it is the only segment of a list of one, and
in a longer list it is not the system rollback segment and follows the old
`latest_rseg` among the other rollback segments, the first following the
last. -/
theorem trx0trx.trx_assign_rseg_spec (st : trx0trx.trx_state) (r : trx_rseg_t)
    (hnd : st.rseg_list.Nodup) (hmem : r ∈ st.rseg_list) (hlatest : st.latest_rseg = some r) :
    ∃ x, trx0trx.trx_assign_rseg st = some (x.id, { st with latest_rseg := some x })
      ∧ x ∈ st.rseg_list
      ∧ (st.rseg_list.length = 1 → x = r)
      ∧ (2 ≤ st.rseg_list.length → x.id ≠ TRX_SYS_SYSTEM_RSEG_ID
          ∧ ∀ i, st.user_rsegs[i]? = some r →
              st.user_rsegs[(i + 1) % st.user_rsegs.length]? = some x) := by
  obtain ⟨a, b, hl⟩ := List.append_of_mem hmem
  have hfuel : st.rseg_list.length + 1 = (a.length + b.length) + 2 := by
    rw [hl]; simp; omega
  obtain ⟨x, hx, hxm, h1, h2⟩ :=
    trx0trx.trx_assign_rseg_loop_spec st a b r (a.length + b.length) hl hnd
  refine ⟨x, ?_, hxm, ?_, ?_⟩
  · unfold trx0trx.trx_assign_rseg
    rw [hlatest, hfuel, hx]
  · intro hlen
    rw [hl] at hlen
    simp at hlen
    have ha : a = [] := List.eq_nil_of_length_eq_zero (by omega)
    have hb : b = [] := List.eq_nil_of_length_eq_zero (by omega)
    exact h1 ha hb
  · intro hlen
    obtain ⟨hid, hhead⟩ := h2 hlen
    refine ⟨hid, ?_⟩
    intro i hi
    have hr : r.id ≠ TRX_SYS_SYSTEM_RSEG_ID := by
      have := List.mem_iff_getElem?.mpr ⟨i, hi⟩
      unfold trx0trx.trx_state.user_rsegs at this
      simpa using (List.mem_filter.mp this).2
    have hns : st.user_rsegs
        = a.filter (fun r => decide (r.id ≠ TRX_SYS_SYSTEM_RSEG_ID))
          ++ r :: b.filter (fun r => decide (r.id ≠ TRX_SYS_SYSTEM_RSEG_ID)) := by
      unfold trx0trx.trx_state.user_rsegs
      rw [hl, List.filter_append, List.filter_cons_of_pos (by simpa using hr)]
    have hnsnd : st.user_rsegs.Nodup := by
      unfold trx0trx.trx_state.user_rsegs
      exact hnd.filter _
    have hi' : st.user_rsegs[(a.filter
        (fun r => decide (r.id ≠ TRX_SYS_SYSTEM_RSEG_ID))).length]? = some r := by
      rw [hns, List.getElem?_append_right (le_refl _)]; simp
    have hilt : i < st.user_rsegs.length := by
      by_contra hc
      rw [List.getElem?_eq_none (by omega)] at hi
      cases hi
    have hie : i = (a.filter (fun r => decide (r.id ≠ TRX_SYS_SYSTEM_RSEG_ID))).length :=
      List.getElem?_inj hilt hnsnd (hi.trans hi'.symm)
    rw [hie]
    rw [List.filter_append, List.filter_append,
      List.filter_cons_of_pos (by simpa using hr), List.filter_nil,
      head?_rotation] at hhead
    rw [hns]
    exact hhead

/-- Successive calls of `trx_assign_rseg` in a state with two or more rollback
segments, the last assigned one being at index `i` among those other than the
system rollback segment: the call number `j` returns the id of the one at
index `(i + 1 + j)` modulo their number. -/
theorem trx0trx.trx_assign_rseg_calls_spec (n : Nat) :
    ∀ (st : trx0trx.trx_state) (r : trx_rseg_t) (i : Nat),
      st.rseg_list.Nodup → r ∈ st.rseg_list → st.latest_rseg = some r →
      2 ≤ st.rseg_list.length → st.user_rsegs[i]? = some r →
      ∃ ids st', trx0trx.trx_assign_rseg_calls n st = some (ids, st')
        ∧ ids.length = n
        ∧ ∀ j, j < n → ∃ y, st.user_rsegs[(i + 1 + j) % st.user_rsegs.length]? = some y
            ∧ ids[j]? = some y.id ∧ y.id ≠ TRX_SYS_SYSTEM_RSEG_ID := by
  induction n with
  | zero =>
    intro st r i _ _ _ _ _
    exact ⟨[], st, rfl, rfl, fun j hj => absurd hj (by omega)⟩
  | succ n ih =>
    intro st r i hnd hmem hlatest hlen hi
    obtain ⟨x, hx, hxm, _, h2⟩ := trx0trx.trx_assign_rseg_spec st r hnd hmem hlatest
    obtain ⟨hid, hnext⟩ := h2 hlen
    have hxi := hnext i hi
    obtain ⟨ids, st', hc, hn, hj⟩ :=
      ih { st with latest_rseg := some x } x ((i + 1) % st.user_rsegs.length)
        hnd hxm rfl hlen hxi
    refine ⟨x.id :: ids, st', ?_, by simp [hn], ?_⟩
    · unfold trx0trx.trx_assign_rseg_calls
      rw [hx]
      simp only [hc]
    · intro j hjn
      cases j with
      | zero => exact ⟨x, hxi, by simp, hid⟩
      | succ j =>
        obtain ⟨y, hy, hyi, hyd⟩ := hj j (by omega)
        refine ⟨y, ?_, by simpa using hyi, hyd⟩
        have e : (i + 1 + (j + 1)) % st.user_rsegs.length
            = ((i + 1) % st.user_rsegs.length + 1 + j) % st.user_rsegs.length := by
          rw [Nat.add_assoc ((i + 1) % st.user_rsegs.length), Nat.mod_add_mod]
          congr 1
          omega
        rw [e]
        exact hy

/-- Claim C21: `trx_assign_rseg`, in a state whose list of rollback segments
has no repeated node and holds `latest_rseg`, returns (it ends within two
rounds of its loop) and `latest_rseg` is then the segment whose id it
returned; with a single segment it returns that segment; with two or more
segments it never returns the id 0 of the system rollback segment, and
successive calls return the other segments cyclically in list order: when the
last assigned one stands at index `i` among them, the call number `j` returns
the one at index `(i + 1 + j)` modulo their number, so that each is returned
once in every run of as many calls as there are such segments. -/
theorem C21_trx_assign_rseg_round_robin (st : trx0trx.trx_state) (r : trx_rseg_t)
    (hnd : st.rseg_list.Nodup) (hmem : r ∈ st.rseg_list) (hlatest : st.latest_rseg = some r) :
    (∃ x, trx0trx.trx_assign_rseg st = some (x.id, { st with latest_rseg := some x })
      ∧ x ∈ st.rseg_list
      ∧ (st.rseg_list.length = 1 → st.rseg_list = [x])
      ∧ (2 ≤ st.rseg_list.length → x.id ≠ TRX_SYS_SYSTEM_RSEG_ID))
    ∧ (2 ≤ st.rseg_list.length → ∀ i n, st.user_rsegs[i]? = some r →
        ∃ ids st', trx0trx.trx_assign_rseg_calls n st = some (ids, st')
          ∧ ids.length = n
          ∧ ∀ j, j < n → ∃ y, st.user_rsegs[(i + 1 + j) % st.user_rsegs.length]? = some y
              ∧ ids[j]? = some y.id ∧ y.id ≠ TRX_SYS_SYSTEM_RSEG_ID) := by
  constructor
  · obtain ⟨x, hx, hxm, h1, h2⟩ := trx0trx.trx_assign_rseg_spec st r hnd hmem hlatest
    refine ⟨x, hx, hxm, ?_, fun h => (h2 h).1⟩
    intro hlen
    have hxr := h1 hlen
    match hst : st.rseg_list, hlen with
    | [s], _ =>
      rw [hst] at hxm
      simp at hxm
      rw [hxm]
  · intro hlen i n hi
    exact trx0trx.trx_assign_rseg_calls_spec n st r i hnd hmem hlatest hlen hi

/-- Five successive calls of `trx_assign_rseg` on the list of the system
rollback segment and the segments 1, 2, 3, segment 2 being the last assigned,
return 3, 1, 2, 3, 1. -/
theorem trx0trx.trx_assign_rseg_calls_sample :
    (trx0trx.trx_assign_rseg_calls 5 trx0trx.sample_trx_state_rsegs).map Prod.fst
      = some [3, 1, 2, 3, 1] := by
  decide

/-- The theorem `C21_trx_assign_rseg_round_robin` on the list of the system
rollback segment and the segments 1, 2, 3, segment 2, at index 1 among the
segments other than the system rollback segment, being the last assigned: the
call number `j` of five successive calls returns the segment at index
`(2 + j) % 3`. -/
theorem C21_trx_assign_rseg_round_robin_witness :
    ∃ ids st', trx0trx.trx_assign_rseg_calls 5 trx0trx.sample_trx_state_rsegs = some (ids, st')
      ∧ ids.length = 5
      ∧ ∀ j, j < 5 → ∃ y, trx0trx.sample_trx_state_rsegs.user_rsegs[(1 + 1 + j)
            % trx0trx.sample_trx_state_rsegs.user_rsegs.length]? = some y
          ∧ ids[j]? = some y.id ∧ y.id ≠ TRX_SYS_SYSTEM_RSEG_ID :=
  (C21_trx_assign_rseg_round_robin trx0trx.sample_trx_state_rsegs ⟨2⟩
    (by decide) (by decide) rfl).2 (by decide) 1 5 (by decide)


/-! ## Claim C26: the read view of a transaction is assigned once -/

/-- The part of the commit that runs when the transaction has an undo log
keeps the transaction list, every other transaction object, and the id of the
transaction. -/
theorem trx0trx.trx_commit_undo_frame (env : trx0trx.commit_env) (st : trx0trx.trx_state)
    (trx : Nat) :
    (trx0trx.trx_commit_undo env st trx).2.trx_list = st.trx_list
      ∧ (∀ p, p ≠ trx → (trx0trx.trx_commit_undo env st trx).2.trxs p = st.trxs p)
      ∧ ((trx0trx.trx_commit_undo env st trx).2.trxs trx).id = (st.trxs trx).id := by
  cases hi : (st.trxs trx).insert_undo <;> cases hu : (st.trxs trx).update_undo <;>
    simp [trx0trx.trx_commit_undo, trx0trx.trx_state.call, trx0trx.trx_state.set_trx, hi, hu] <;>
    (intro p hp; simp [hp])

set_option maxHeartbeats 4000000 in
/-- The part of the commit from the assignment of `TRX_COMMITTED_IN_MEMORY`
on, whenever it returns: the transaction is taken out of the transaction list,
no other transaction object and no transaction id is changed, and the
transaction is left without read views. -/
theorem trx0trx.trx_commit_in_memory_frame (env : trx0trx.commit_env) (lsn : Nat)
    (s : trx0trx.trx_state) (trx : Nat) (s' : trx0trx.trx_state)
    (h : trx0trx.trx_commit_in_memory env lsn s trx = some s') :
    s'.trx_list = s.trx_list.erase trx
      ∧ (∀ p, p ≠ trx → s'.trxs p = s.trxs p)
      ∧ (s'.trxs trx).id = (s.trxs trx).id
      ∧ (s'.trxs trx).read_view = none
      ∧ (s'.trxs trx).global_read_view = none := by
  revert h
  by_cases c0 : lsn = 0
  · cases hg : (s.trxs trx).global_read_view <;>
      simp [trx0trx.trx_commit_in_memory, trx0trx.trx_state.call, trx0trx.trx_state.set_trx,
        UT_LIST_REMOVE, hg, c0] <;>
      (intro h; subst h; simp) <;>
      (intro p hp; simp [hp])
  · cases hl : (s.trxs trx).flush_log_later
    · have hs : env.srv_flush_log_at_trx_commit = 0
          ∨ (env.srv_flush_log_at_trx_commit = 1
              ∧ env.srv_unix_file_flush_method = SRV_UNIX_NOSYNC)
          ∨ (env.srv_flush_log_at_trx_commit = 1
              ∧ env.srv_unix_file_flush_method ≠ SRV_UNIX_NOSYNC)
          ∨ env.srv_flush_log_at_trx_commit = 2
          ∨ (env.srv_flush_log_at_trx_commit ≠ 0 ∧ env.srv_flush_log_at_trx_commit ≠ 1
              ∧ env.srv_flush_log_at_trx_commit ≠ 2) := by
        by_cases cn : env.srv_unix_file_flush_method = SRV_UNIX_NOSYNC
        · simp only [cn, ne_eq, not_true_eq_false, and_false, and_true, false_or]; omega
        · simp only [cn, ne_eq, not_false_eq_true, and_false, and_true, false_or]; omega
      cases hg : (s.trxs trx).global_read_view <;> cases hi : (s.trxs trx).insert_undo <;>
        rcases hs with c | ⟨c, cn⟩ | ⟨c, cn⟩ | c | ⟨e0, e1, e2⟩ <;>
        simp [trx0trx.trx_commit_in_memory, trx0trx.trx_commit_log_write,
          trx0trx.trx_state.call, trx0trx.trx_state.set_trx, UT_LIST_REMOVE,
          hg, hi, hl, c0, *] <;>
        (intro h; subst h; simp) <;>
        (intro p hp; simp [hp])
    · cases hg : (s.trxs trx).global_read_view <;> cases hi : (s.trxs trx).insert_undo <;>
        simp [trx0trx.trx_commit_in_memory, trx0trx.trx_state.call,
          trx0trx.trx_state.set_trx, UT_LIST_REMOVE, hg, hi, hl, c0] <;>
        (intro h; subst h; simp) <;>
        (intro p hp; simp [hp])

/-- The function `trx_commit_off_kernel`, whenever it returns: the transaction
is taken out of the transaction list, no other transaction object and no
transaction id is changed, and the transaction is left without read views. -/
theorem trx0trx.trx_commit_off_kernel_frame (env : trx0trx.commit_env)
    (st : trx0trx.trx_state) (trx : Nat) (st' : trx0trx.trx_state)
    (h : trx0trx.trx_commit_off_kernel env st trx = some st') :
    st'.trx_list = st.trx_list.erase trx
      ∧ (∀ p, p ≠ trx → st'.trxs p = st.trxs p)
      ∧ (st'.trxs trx).id = (st.trxs trx).id
      ∧ (st'.trxs trx).read_view = none
      ∧ (st'.trxs trx).global_read_view = none := by
  obtain ⟨u1, u2, u3⟩ := trx0trx.trx_commit_undo_frame env st trx
  obtain ⟨m1, m2, m3, m4, m5⟩ := trx0trx.trx_commit_in_memory_frame env
    (trx0trx.trx_commit_undo env st trx).1 (trx0trx.trx_commit_undo env st trx).2 trx st' h
  refine ⟨by rw [m1, u1], ?_, by rw [m3, u3], m4, m5⟩
  intro p hp
  rw [m2 p hp, u2 p hp]

/-- Claim C26: `trx_assign_read_view` on a transaction that has a read view
returns that view and opens no new one (the state is unchanged); on a
transaction without read view it opens exactly one view and stores it as both
`read_view` and `global_read_view`; so a call in any later state in which the
transaction still has that read view, whatever `read_view_open_now` would
give then, returns the same view and leaves the state unchanged; and after
`trx_commit_off_kernel` both fields are null. -/
theorem C26_trx_assign_read_view (read_view_open_now : Nat → Nat)
    (st : trx0trx.trx_state) (trx : Nat) :
    (∀ view, (st.trxs trx).read_view = some view →
      trx0trx.trx_assign_read_view read_view_open_now st trx = (some view, st))
    ∧ ((st.trxs trx).read_view = none →
      (trx0trx.trx_assign_read_view read_view_open_now st trx).1
          = some (read_view_open_now (st.trxs trx).id)
        ∧ (trx0trx.trx_assign_read_view read_view_open_now st trx).2.views_opened
          = st.views_opened ++ [(st.trxs trx).id]
        ∧ ((trx0trx.trx_assign_read_view read_view_open_now st trx).2.trxs trx).read_view
          = some (read_view_open_now (st.trxs trx).id)
        ∧ ((trx0trx.trx_assign_read_view read_view_open_now st trx).2.trxs trx).global_read_view
          = some (read_view_open_now (st.trxs trx).id))
    ∧ (∀ (open_later : Nat → Nat) (later : trx0trx.trx_state),
        (later.trxs trx).read_view
            = ((trx0trx.trx_assign_read_view read_view_open_now st trx).2.trxs trx).read_view →
        trx0trx.trx_assign_read_view open_later later trx
          = ((trx0trx.trx_assign_read_view read_view_open_now st trx).1, later))
    ∧ (∀ (env : trx0trx.commit_env) (st' : trx0trx.trx_state),
        trx0trx.trx_commit_off_kernel env st trx = some st' →
        (st'.trxs trx).read_view = none ∧ (st'.trxs trx).global_read_view = none) := by
  refine ⟨?_, ?_, ?_, ?_⟩
  · intro view hv
    unfold trx0trx.trx_assign_read_view
    rw [hv]
  · intro hn
    unfold trx0trx.trx_assign_read_view
    rw [hn]
    simp [trx0trx.trx_state.call, trx0trx.trx_state.set_trx, trx0trx.trx_state.views_opened,
      List.filterMap_append]
  · intro open_later later hl
    cases hv : (st.trxs trx).read_view with
    | some view =>
      have e : trx0trx.trx_assign_read_view read_view_open_now st trx = (some view, st) := by
        unfold trx0trx.trx_assign_read_view
        rw [hv]
      rw [e] at hl ⊢
      rw [hv] at hl
      unfold trx0trx.trx_assign_read_view
      rw [hl]
    | none =>
      have e1 : (trx0trx.trx_assign_read_view read_view_open_now st trx).1
          = some (read_view_open_now (st.trxs trx).id) := by
        unfold trx0trx.trx_assign_read_view
        rw [hv]
        simp [trx0trx.trx_state.call, trx0trx.trx_state.set_trx]
      have e2 : ((trx0trx.trx_assign_read_view read_view_open_now st trx).2.trxs trx).read_view
          = some (read_view_open_now (st.trxs trx).id) := by
        unfold trx0trx.trx_assign_read_view
        rw [hv]
        simp [trx0trx.trx_state.call, trx0trx.trx_state.set_trx]
      rw [e2] at hl
      rw [e1]
      unfold trx0trx.trx_assign_read_view
      rw [hl]
  · intro env st' h
    obtain ⟨_, _, _, m4, m5⟩ := trx0trx.trx_commit_off_kernel_frame env st trx st' h
    exact ⟨m4, m5⟩

/-- The theorem `C26_trx_assign_read_view` on the active transaction at
address 1, which has the read view at address 300: the call returns that view
and leaves the state, and so the views opened, as they are. -/
theorem C26_trx_assign_read_view_witness :
    (trx0trx.trx_assign_read_view (fun _ => 400) trx0trx.sample_trx_state_active 1).1
      = some 300
    ∧ trx0trx.trx_state.views_opened
        (trx0trx.trx_assign_read_view (fun _ => 400) trx0trx.sample_trx_state_active 1).2
      = [] := by
  have h := (C26_trx_assign_read_view (fun _ => 400) trx0trx.sample_trx_state_active 1).1
    300 rfl
  rw [h]
  exact ⟨rfl, rfl⟩


/-! ## Claim C27: the transaction list is sorted by transaction id -/

/-- The search of `trx_list_insert_ordered` passes the nodes whose id is above
that of the transaction. -/
theorem trx0trx.trx_list_insert_ordered_search_append (trxs : Nat → trx0trx.trx_t) (id : Nat)
    (a b : List Nat) (ha : ∀ x ∈ a, id < (trxs x).id) :
    trx0trx.trx_list_insert_ordered_search trxs id (a ++ b)
      = trx0trx.trx_list_insert_ordered_search trxs id b := by
  induction a with
  | nil => rfl
  | cons x a ih =>
    have hx : ¬ id ≥ (trxs x).id := by
      have := ha x (List.mem_cons_self _ _)
      omega
    rw [List.cons_append, trx0trx.trx_list_insert_ordered_search, if_neg hx]
    exact ih (fun y hy => ha y (List.mem_cons_of_mem _ hy))

/-- The node before a node that stands after the nodes `a` is the last node of
`a`. -/
theorem UT_LIST_GET_PREV_append (a b : List Nat) (t : Nat) (h : t ∉ a) :
    UT_LIST_GET_PREV (a ++ t :: b) t = a.getLast? := by
  induction a with
  | nil => simp [UT_LIST_GET_PREV]
  | cons x a ih =>
    have hx : x ≠ t := fun e => h (by simp [e])
    have ha : t ∉ a := fun e => h (by simp [e])
    cases a with
    | nil => simp [UT_LIST_GET_PREV, hx]
    | cons y a' =>
      have hy : y ≠ t := fun e => ha (by simp [e])
      have := ih ha
      rw [List.cons_append] at this
      rw [List.cons_append, List.cons_append]
      conv => lhs; unfold UT_LIST_GET_PREV
      simp only [if_neg hx, if_neg hy]
      rw [this]
      simp

/-- The insertion after a node that stands after the nodes `a`. -/
theorem UT_LIST_INSERT_AFTER_append (a rest : List Nat) (p e : Nat) (h : p ∉ a) :
    UT_LIST_INSERT_AFTER (a ++ p :: rest) p e = a ++ p :: e :: rest := by
  induction a with
  | nil => simp [UT_LIST_INSERT_AFTER]
  | cons x a ih =>
    have hx : x ≠ p := fun e => h (by simp [e])
    have ha : p ∉ a := fun e => h (by simp [e])
    rw [List.cons_append, UT_LIST_INSERT_AFTER, if_neg hx, ih ha]
    rfl

/-- A list splits into the nodes whose id is above a given id and the rest,
which starts with a node whose id is not above it. -/
theorem trx0trx.trx_list_split (trxs : Nat → trx0trx.trx_t) (id : Nat) (l : List Nat) :
    ∃ a b, l = a ++ b ∧ (∀ x ∈ a, id < (trxs x).id)
      ∧ (b = [] ∨ ∃ t b', b = t :: b' ∧ id ≥ (trxs t).id) := by
  induction l with
  | nil => exact ⟨[], [], rfl, fun x hx => absurd hx (List.not_mem_nil x), Or.inl rfl⟩
  | cons x l ih =>
    by_cases hx : id < (trxs x).id
    · obtain ⟨a, b, hl, ha, hb⟩ := ih
      refine ⟨x :: a, b, by rw [hl]; rfl, ?_, hb⟩
      intro y hy
      rcases List.mem_cons.mp hy with e | e
      · rw [e]; exact hx
      · exact ha y e
    · exact ⟨[], x :: l, rfl, fun y hy => absurd hy (List.not_mem_nil y),
        Or.inr ⟨x, l, rfl, by omega⟩⟩

/-- The list that `trx_list_insert_ordered` leaves, for a transaction object
that is not in a list without repeated node: the transaction stands after the
nodes whose id is above its id, and the transaction objects are unchanged. -/
theorem trx0trx.trx_list_insert_ordered_list (st : trx0trx.trx_state) (trx : Nat)
    (hnd : st.trx_list.Nodup) :
    ∃ a b, st.trx_list = a ++ b
      ∧ (trx0trx.trx_list_insert_ordered st trx).trx_list = a ++ trx :: b
      ∧ (trx0trx.trx_list_insert_ordered st trx).trxs = st.trxs
      ∧ (trx0trx.trx_list_insert_ordered st trx).sys = st.sys
      ∧ (∀ x ∈ a, (st.trxs trx).id < (st.trxs x).id)
      ∧ (∀ t ∈ b.head?, (st.trxs trx).id ≥ (st.trxs t).id) := by
  obtain ⟨a, b, hl, ha, hb⟩ := trx0trx.trx_list_split st.trxs (st.trxs trx).id st.trx_list
  refine ⟨a, b, hl, ?_, ?_, ?_, ha, ?_⟩
  · unfold trx0trx.trx_list_insert_ordered
    rw [hl, trx0trx.trx_list_insert_ordered_search_append st.trxs _ a b ha]
    rcases hb with hb | ⟨t, b', hb, ht⟩
    · subst hb
      simp [trx0trx.trx_list_insert_ordered_search, UT_LIST_ADD_LAST]
    · subst hb
      rw [hl] at hnd
      have hta : t ∉ a := fun h => (List.nodup_append.mp hnd).2.2 h (List.mem_cons_self _ _)
      rw [trx0trx.trx_list_insert_ordered_search, if_pos ht]
      simp only
      rw [UT_LIST_GET_PREV_append a b' t hta]
      rcases List.eq_nil_or_concat a with ha0 | ⟨a', p, ha'⟩
      · subst ha0
        simp [UT_LIST_ADD_FIRST]
      · rw [List.concat_eq_append] at ha'
        subst ha'
        have hpa : p ∉ a' := by
          intro h
          have h1 := (List.nodup_append.mp hnd).1
          have h2 := (List.nodup_append.mp h1).2.2 h (List.mem_singleton.mpr rfl)
          exact h2
        have e : a' ++ [p] ++ t :: b' = a' ++ p :: t :: b' := by simp
        have hg : (a' ++ [p]).getLast? = some p := by simp
        rw [hg]
        simp only
        rw [e, UT_LIST_INSERT_AFTER_append a' (t :: b') p trx hpa]
        simp
  · unfold trx0trx.trx_list_insert_ordered
    split
    · split <;> rfl
    · rfl
  · unfold trx0trx.trx_list_insert_ordered
    split
    · split <;> rfl
    · rfl
  · intro t ht
    rcases hb with hb | ⟨t', b', hb, ht'⟩
    · subst hb
      cases ht
    · subst hb
      simp at ht
      rw [← ht]
      exact ht'

/-- A transaction list sorted by strictly decreasing id has no repeated
node. -/
theorem trx0trx.trx_list_sorted_nodup (st : trx0trx.trx_state) (hs : st.trx_list_sorted) :
    st.trx_list.Nodup := by
  unfold trx0trx.trx_state.trx_list_sorted at hs
  exact hs.imp (fun {a b} h e => by rw [e] at h; exact absurd h (Nat.lt_irrefl _))

/-- The function `trx_list_insert_ordered` keeps the transaction list sorted,
for a transaction object that is not in the list and whose id is not in the
list. -/
theorem trx0trx.trx_list_insert_ordered_sorted (st : trx0trx.trx_state) (trx : Nat)
    (hs : st.trx_list_sorted)
    (hid : ∀ t ∈ st.trx_list, (st.trxs t).id ≠ (st.trxs trx).id) :
    (trx0trx.trx_list_insert_ordered st trx).trx_list_sorted := by
  obtain ⟨a, b, hl, hl', ht, _, ha, hb⟩ :=
    trx0trx.trx_list_insert_ordered_list st trx (trx0trx.trx_list_sorted_nodup st hs)
  unfold trx0trx.trx_state.trx_list_sorted at hs ⊢
  rw [hl', ht]
  rw [hl] at hs hid
  obtain ⟨h1, h2, h3⟩ := List.pairwise_append.mp hs
  refine List.pairwise_append.mpr ⟨h1, List.pairwise_cons.mpr ⟨?_, h2⟩, ?_⟩
  · intro y hy
    cases b with
    | nil => cases hy
    | cons t b' =>
      have h0 := hb t rfl
      have hne := hid t (by simp)
      rcases List.mem_cons.mp hy with e | e
      · rw [e]
        omega
      · have := (List.pairwise_cons.mp h2).1 y e
        omega
  · intro x hx y hy
    rcases List.mem_cons.mp hy with e | e
    · rw [e]
      exact ha x hx
    · exact h3 x hx y e

/-- What `trx_start_low` leaves of the transaction list: for a purge
transaction the list as it was, else the list with the transaction at the
head, whose id is the value that `max_trx_id` had; no other transaction object
is changed. -/
theorem trx0trx.trx_start_low_list (now : Nat) (st : trx0trx.trx_state) (trx rseg_id : Nat)
    (b : Bool) (st' : trx0trx.trx_state)
    (h : trx0trx.trx_start_low now st trx rseg_id = some (b, st')) :
    (∀ p, p ≠ trx → st'.trxs p = st.trxs p)
      ∧ (st'.trx_list = st.trx_list
          ∨ (st'.trx_list = trx :: st.trx_list
              ∧ (st'.trxs trx).id = st.sys.trx_sys.max_trx_id)) := by
  unfold trx0trx.trx_start_low at h
  dsimp only at h
  split_ifs at h with hp hr
  · injection h with h
    injection h with _ h
    subst h
    exact ⟨fun p hp' => by simp [trx0trx.trx_state.set_trx, hp'], Or.inl rfl⟩
  · cases ha : trx0trx.trx_assign_rseg st with
    | none => rw [ha] at h; cases h
    | some r =>
      rw [ha] at h
      unfold trx0trx.trx_assign_rseg at ha
      split at ha
      · cases ha
      · injection ha with ha
        subst ha
        injection h with h
        injection h with _ h
        subst h
        refine ⟨fun p hp' => by simp [trx0trx.trx_state.set_trx, hp'], Or.inr ⟨rfl, ?_⟩⟩
        simp only [trx0trx.trx_state.set_trx, if_true]
        exact trx_sys_get_new_trx_id_fst st.sys
  · injection h with h
    injection h with _ h
    subst h
    refine ⟨fun p hp' => by simp [trx0trx.trx_state.set_trx, hp'], Or.inr ⟨rfl, ?_⟩⟩
    simp only [trx0trx.trx_state.set_trx, if_true]
    exact trx_sys_get_new_trx_id_fst st.sys

/-- The transaction list is sorted in every state reached from an empty list
through `trx_list_insert_ordered`, `trx_start_low` and
`trx_commit_off_kernel`. -/
theorem trx0trx.trx_list_reachable_sorted (st : trx0trx.trx_state)
    (h : trx0trx.trx_list_reachable st) : st.trx_list_sorted := by
  induction h with
  | empty st h =>
    unfold trx0trx.trx_state.trx_list_sorted
    rw [h]
    exact List.Pairwise.nil
  | insert_ordered st trx _ _ hid ih =>
    exact trx0trx.trx_list_insert_ordered_sorted st trx ih hid
  | start now st trx rseg_id st' _ hbelow hnew hs ih =>
    obtain ⟨hp, hl⟩ := trx0trx.trx_start_low_list now st trx rseg_id true st' hs
    unfold trx0trx.trx_state.trx_list_sorted at ih ⊢
    have hmem : ∀ x ∈ st.trx_list, st'.trxs x = st.trxs x :=
      fun x hx => hp x (fun e => hnew (e ▸ hx))
    have hkeep : st.trx_list.Pairwise (fun a b => (st'.trxs a).id > (st'.trxs b).id) := by
      refine List.Pairwise.imp_of_mem ?_ ih
      intro a b ha hb hab
      rw [hmem a ha, hmem b hb]
      exact hab
    rcases hl with hl | ⟨hl, hid⟩
    · rw [hl]
      exact hkeep
    · rw [hl]
      refine List.pairwise_cons.mpr ⟨?_, hkeep⟩
      intro x hx
      rw [hid, hmem x hx]
      exact hbelow x hx
  | commit env st trx st' _ hc ih =>
    obtain ⟨m1, m2, m3, _, _⟩ := trx0trx.trx_commit_off_kernel_frame env st trx st' hc
    have hid : ∀ p, (st'.trxs p).id = (st.trxs p).id := by
      intro p
      by_cases hp : p = trx
      · rw [hp]; exact m3
      · rw [m2 p hp]
    unfold trx0trx.trx_state.trx_list_sorted at ih ⊢
    rw [m1]
    have hsub : (st.trx_list.erase trx).Pairwise (fun a b => (st.trxs a).id > (st.trxs b).id) :=
      ih.sublist (List.erase_sublist _ _)
    refine hsub.imp ?_
    intro a b hab
    rw [hid a, hid b]
    exact hab

/-- In a list sorted by a relation, every node other than the last one stands
in the relation to the last one. -/
theorem pairwise_getLast? {α : Type} (R : α → α → Prop) (l : List α) (t : α)
    (hs : l.Pairwise R) (ht : l.getLast? = some t) : t ∈ l ∧ ∀ x ∈ l, x = t ∨ R x t := by
  induction l with
  | nil => cases ht
  | cons y l ih =>
    cases l with
    | nil =>
      simp at ht
      subst ht
      exact ⟨List.mem_singleton.mpr rfl, fun x hx => Or.inl (List.mem_singleton.mp hx)⟩
    | cons z l' =>
      have ht' : (z :: l').getLast? = some t := by
        rw [List.getLast?_cons_cons] at ht
        exact ht
      obtain ⟨h1, h2⟩ := ih (List.pairwise_cons.mp hs).2 ht'
      refine ⟨List.mem_cons_of_mem _ h1, ?_⟩
      intro x hx
      rcases List.mem_cons.mp hx with e | e
      · right
        rw [e]
        exact (List.pairwise_cons.mp hs).1 t h1
      · exact h2 x e

/-- Claim C27: the transaction list is sorted by strictly decreasing
transaction id from head to tail in every state reached from an empty list
through `trx_list_insert_ordered` (of a transaction object that is not in the
list, with an id not yet present), `trx_start_low` (of a transaction object
that is not in the list, in a state in which every id in the list is below
`max_trx_id`) and the removal done at commit; consequently
`trx_list_get_min_trx_id` returns the smallest id in the list, and
`max_trx_id` when the list is empty. -/
theorem C27_trx_list_sorted (st : trx0trx.trx_state) (h : trx0trx.trx_list_reachable st) :
    st.trx_list.Pairwise (fun a b => (st.trxs a).id > (st.trxs b).id)
      ∧ (st.trx_list = [] → trx0trx.trx_list_get_min_trx_id st = st.sys.trx_sys.max_trx_id)
      ∧ (st.trx_list ≠ [] →
          (∃ t ∈ st.trx_list, (st.trxs t).id = trx0trx.trx_list_get_min_trx_id st)
          ∧ ∀ t ∈ st.trx_list, trx0trx.trx_list_get_min_trx_id st ≤ (st.trxs t).id) := by
  have hs := trx0trx.trx_list_reachable_sorted st h
  refine ⟨hs, ?_, ?_⟩
  · intro he
    unfold trx0trx.trx_list_get_min_trx_id UT_LIST_GET_LAST
    rw [he]
    rfl
  · intro hne
    cases hl : st.trx_list.getLast? with
    | none => exact absurd (List.getLast?_eq_none_iff.mp hl) hne
    | some t =>
      obtain ⟨h1, h2⟩ := pairwise_getLast? _ st.trx_list t hs hl
      have e : trx0trx.trx_list_get_min_trx_id st = (st.trxs t).id := by
        unfold trx0trx.trx_list_get_min_trx_id UT_LIST_GET_LAST
        rw [hl]
      rw [e]
      refine ⟨⟨t, h1, rfl⟩, ?_⟩
      intro x hx
      rcases h2 x hx with e' | e'
      · rw [e']
      · exact Nat.le_of_lt e'

/-- The sample state is reached from the state with an empty list by the
insertion of the transaction with id 7 and the start of a transaction, which
gets the id 512: its list holds the transactions with ids 512 and 7 in this
order. -/
theorem trx0trx.sample_trx_state_list_reachable :
    trx0trx.trx_list_reachable trx0trx.sample_trx_state_list
      ∧ trx0trx.sample_trx_state_list.trx_list = [1, 2]
      ∧ (trx0trx.sample_trx_state_list.trxs 1).id = 512
      ∧ (trx0trx.sample_trx_state_list.trxs 2).id = 7 := by
  refine ⟨?_, by decide, by decide, by decide⟩
  refine trx0trx.trx_list_reachable.start 0
    (trx0trx.trx_list_insert_ordered
      (trx0trx.sample_trx_state.set_trx 2 { trx0trx.sample_trx_object with id := 7 }) 2)
    1 0 _ ?_ ?_ ?_ ?_
  · exact trx0trx.trx_list_reachable.insert_ordered _ 2
      (trx0trx.trx_list_reachable.empty _ rfl) (by decide) (by decide)
  · intro t ht
    have e : t = 2 := by simpa [trx0trx.trx_list_insert_ordered,
      trx0trx.trx_list_insert_ordered_search, trx0trx.sample_trx_state,
      trx0trx.trx_state.set_trx, UT_LIST_ADD_LAST] using ht
    subst e
    decide
  · decide
  · rfl

/-- The theorem `C27_trx_list_sorted` at the sample state, whose list holds
the transactions with ids 512 and 7: `trx_list_get_min_trx_id` returns 7. -/
theorem C27_trx_list_sorted_witness :
    trx0trx.trx_list_get_min_trx_id trx0trx.sample_trx_state_list = 7
      ∧ ∀ t ∈ trx0trx.sample_trx_state_list.trx_list,
          trx0trx.trx_list_get_min_trx_id trx0trx.sample_trx_state_list
            ≤ (trx0trx.sample_trx_state_list.trxs t).id :=
  ⟨by decide,
    ((C27_trx_list_sorted trx0trx.sample_trx_state_list
      trx0trx.sample_trx_state_list_reachable.1).2.2 (by decide)).2⟩


/-! ## Claim C28: file format names and ids -/

/-- Two strings that are equal but for the letter case compare equal. -/
theorem strcasecmp_eq_zero_of_map (a : List Nat) :
    ∀ b : List Nat, a.map tolower = b.map tolower → strcasecmp a b = 0 := by
  induction a with
  | nil =>
    intro b h
    cases b with
    | nil => rfl
    | cons y b => cases h
  | cons x a ih =>
    intro b h
    cases b with
    | nil => cases h
    | cons y b =>
      rw [List.map_cons, List.map_cons] at h
      injection h with h1 h2
      rw [strcasecmp, if_pos h1]
      exact ih b h2

/-- Only the byte 0 becomes 0 in lower case. -/
theorem tolower_eq_zero (c : Nat) (h : tolower c = 0) : c = 0 := by
  unfold tolower at h
  split_ifs at h
  omega

/-- Two strings without the byte 0 that compare equal are equal but for the
letter case. -/
theorem map_eq_of_strcasecmp_eq_zero (a : List Nat) :
    ∀ b : List Nat, 0 ∉ a → 0 ∉ b → strcasecmp a b = 0 → a.map tolower = b.map tolower := by
  induction a with
  | nil =>
    intro b _ hb h
    cases b with
    | nil => rfl
    | cons y b =>
      rw [strcasecmp] at h
      have : tolower y = 0 := by omega
      exact absurd (tolower_eq_zero y this) (fun e => hb (by simp [e]))
  | cons x a ih =>
    intro b ha hb h
    cases b with
    | nil =>
      rw [strcasecmp] at h
      have : tolower x = 0 := by omega
      exact absurd (tolower_eq_zero x this) (fun e => ha (by simp [e]))
    | cons y b =>
      rw [strcasecmp] at h
      by_cases hxy : tolower x = tolower y
      · rw [if_pos hxy] at h
        rw [List.map_cons, List.map_cons, hxy,
          ih b (fun e => ha (List.mem_cons_of_mem _ e)) (fun e => hb (List.mem_cons_of_mem _ e)) h]
      · rw [if_neg hxy] at h
        omega

/-- White space in front of a string that does not start with white space is
dropped by `dropWhile`. -/
theorem dropWhile_isspace_append (ws rest : List Nat) (hws : ∀ c ∈ ws, isspace c = true)
    (hrest : ∀ c ∈ rest.head?, isspace c = false) :
    (ws ++ rest).dropWhile isspace = rest := by
  induction ws with
  | nil =>
    cases rest with
    | nil => rfl
    | cons c rest =>
      have := hrest c rfl
      simp [List.dropWhile, this]
  | cons w ws ih =>
    have hw := hws w (List.mem_cons_self _ _)
    rw [List.cons_append, List.dropWhile_cons, hw]
    simp only [if_true]
    exact ih (fun c hc => hws c (List.mem_cons_of_mem _ hc))

/-- A run of decimal digits is taken whole by `takeWhile` and dropped whole by
`dropWhile`. -/
theorem takeWhile_isdigit_self (digits : List Nat) (h : ∀ c ∈ digits, isdigit c = true) :
    digits.takeWhile isdigit = digits ∧ digits.dropWhile isdigit = [] := by
  induction digits with
  | nil => exact ⟨rfl, rfl⟩
  | cons d digits ih =>
    have hd := h d (List.mem_cons_self _ _)
    obtain ⟨h1, h2⟩ := ih (fun c hc => h c (List.mem_cons_of_mem _ hc))
    rw [List.takeWhile_cons, List.dropWhile_cons, hd]
    simp only [if_true]
    exact ⟨by rw [h1], h2⟩

/-- A decimal digit is no white space and no sign. -/
theorem isdigit_facts (c : Nat) (h : isdigit c = true) :
    isspace c = false ∧ c ≠ 45 ∧ c ≠ 43 := by
  unfold isdigit at h
  unfold isspace
  simp at h
  refine ⟨?_, by omega, by omega⟩
  simp
  omega

/-- What `strtoul` gives for a number as it takes it: its value, and the end
of the string. -/
theorem strtoul_number (ws sign digits : List Nat) (hws : ∀ c ∈ ws, isspace c = true)
    (hsign : sign = [] ∨ sign = [43] ∨ sign = [45]) (hd : is_decimal_number digits) :
    strtoul (ws ++ sign ++ digits) = (strtoul_value sign digits, []) := by
  obtain ⟨hne, hdig⟩ := hd
  obtain ⟨d, ds, hds⟩ := List.exists_cons_of_ne_nil hne
  have hdf := isdigit_facts d (hdig d (by rw [hds]; exact List.mem_cons_self _ _))
  obtain ⟨t1, t2⟩ := takeWhile_isdigit_self digits hdig
  obtain ⟨s1, hs1⟩ : ∃ s1, s1 = sign ++ digits := ⟨_, rfl⟩
  have hhead : ∀ c ∈ s1.head?, isspace c = false := by
    intro c hc
    rw [hs1] at hc
    rcases hsign with e | e | e <;> subst e
    · rw [hds] at hc
      simp at hc
      rw [← hc]
      exact hdf.1
    · simp at hc
      rw [← hc]
      decide
    · simp at hc
      rw [← hc]
      decide
  have hdrop : (ws ++ sign ++ digits).dropWhile isspace = s1 := by
    rw [List.append_assoc, ← hs1]
    exact dropWhile_isspace_append ws s1 hws hhead
  have hs2 : (if s1.head? = some 45 ∨ s1.head? = some 43 then s1.tail else s1) = digits := by
    rw [hs1]
    rcases hsign with e | e | e <;> subst e
    · rw [hds]
      simp
      exact ⟨hdf.2.1, hdf.2.2⟩
    · simp
    · simp
  have hneg : (s1.head? == some 45) = decide (sign = [45]) := by
    rw [hs1]
    rcases hsign with e | e | e <;> subst e
    · rw [hds]
      simp
      exact hdf.2.1
    · simp
    · simp
  unfold strtoul
  simp only [hdrop, hs2, hneg, t1, t2, if_neg hne]
  unfold strtoul_value
  by_cases hv : strtoul_digits digits > 2 ^ 64 - 1
  · rw [if_pos hv, if_pos hv]
  · rw [if_neg hv, if_neg hv]
    by_cases hm : sign = [45]
    · simp [hm]
    · simp [hm]

/-- Where `strtoul` leaves `*endptr`: at the start of the string when there is
no digit to convert, else after the digits. -/
theorem strtoul_endptr (nptr : List Nat) :
    (strtoul nptr).2
      = if ((if (nptr.dropWhile isspace).head? = some 45
                ∨ (nptr.dropWhile isspace).head? = some 43
              then (nptr.dropWhile isspace).tail else nptr.dropWhile isspace).takeWhile isdigit)
            = [] then nptr
        else (if (nptr.dropWhile isspace).head? = some 45
                ∨ (nptr.dropWhile isspace).head? = some 43
              then (nptr.dropWhile isspace).tail else nptr.dropWhile isspace).dropWhile
                isdigit := by
  unfold strtoul
  dsimp only
  split_ifs <;> rfl

/-- A string that `strtoul` converts to its end is a number as `strtoul` takes
it. -/
theorem is_strtoul_number_of_endptr (s : List Nat) (hend : (strtoul s).2 = []) (hne : s ≠ []) :
    is_strtoul_number s := by
  rw [strtoul_endptr] at hend
  obtain ⟨s1, hs1⟩ : ∃ s1, s1 = s.dropWhile isspace := ⟨_, rfl⟩
  rw [← hs1] at hend
  have hs : s = s.takeWhile isspace ++ s1 := by
    rw [hs1, List.takeWhile_append_dropWhile]
  have hws : ∀ c ∈ s.takeWhile isspace, isspace c = true :=
    fun c hc => List.mem_takeWhile_imp hc
  have key : ∀ s2 : List Nat, (if s2.takeWhile isdigit = [] then s else s2.dropWhile isdigit) = []
      → is_decimal_number s2 := by
    intro s2 h
    by_cases hd : s2.takeWhile isdigit = []
    · rw [if_pos hd] at h
      exact absurd h hne
    · rw [if_neg hd] at h
      have e : s2 = s2.takeWhile isdigit := by
        have := List.takeWhile_append_dropWhile isdigit s2
        rw [h, List.append_nil] at this
        exact this.symm
      refine ⟨fun e0 => hd (by rw [e0]; rfl), ?_⟩
      intro c hc
      rw [e] at hc
      exact List.mem_takeWhile_imp hc
  by_cases hc : s1.head? = some 45 ∨ s1.head? = some 43
  · rw [if_pos hc] at hend
    have hd := key s1.tail hend
    cases s1 with
    | nil => simp at hc
    | cons x s2 =>
      simp only [List.head?_cons, Option.some.injEq] at hc
      refine ⟨s.takeWhile isspace, [x], s2, ?_, hws, ?_, hd⟩
      · rw [List.append_assoc]
        exact hs
      · rcases hc with e | e
        · right; right; rw [e]
        · right; left; rw [e]
  · rw [if_neg hc] at hend
    have hd := key s1 hend
    exact ⟨s.takeWhile isspace, [], s1, by rw [List.append_nil]; exact hs, hws, Or.inl rfl, hd⟩

/-- The loop of `trx_sys_file_format_name_to_id` compares the string with
"Antelope" and then with "Barracuda". -/
theorem trx_sys_file_format_name_to_id_loop_eq (s : List Nat) :
    trx_sys_file_format_name_to_id_loop s (DICT_TF_FORMAT_MAX + 1) 0
      = if strcasecmp s (cstr "Antelope") = 0 then some 0
        else if strcasecmp s (cstr "Barracuda") = 0 then some 1 else none := by
  show trx_sys_file_format_name_to_id_loop s 2 0 = _
  have e0 : trx_sys_file_format_id_to_name 0 = "Antelope" := by decide
  have e1 : trx_sys_file_format_id_to_name (0 + 1) = "Barracuda" := by decide
  simp only [trx_sys_file_format_name_to_id_loop, e0, e1]

/-- The function `trx_sys_file_format_name_to_id` on a string that `strtoul`
does not convert to its end, or that is empty: the id of the name. -/
theorem trx_sys_file_format_name_to_id_name (s : List Nat)
    (h : ¬ ((strtoul s).2 = [] ∧ s ≠ [])) :
    trx_sys_file_format_name_to_id s
      = if strcasecmp s (cstr "Antelope") = 0 then 0
        else if strcasecmp s (cstr "Barracuda") = 0 then 1 else DICT_TF_FORMAT_MAX + 1 := by
  unfold trx_sys_file_format_name_to_id
  simp only [if_neg h, trx_sys_file_format_name_to_id_loop_eq]
  split_ifs <;> rfl

/-- The function `trx_sys_file_format_name_to_id` on a number as `strtoul`
takes it: its value when that is a supported format id. -/
theorem trx_sys_file_format_name_to_id_number (ws sign digits : List Nat)
    (hws : ∀ c ∈ ws, isspace c = true) (hsign : sign = [] ∨ sign = [43] ∨ sign = [45])
    (hd : is_decimal_number digits) :
    trx_sys_file_format_name_to_id (ws ++ sign ++ digits)
      = if strtoul_value sign digits ≤ DICT_TF_FORMAT_MAX then strtoul_value sign digits
        else DICT_TF_FORMAT_MAX + 1 := by
  have hne : ws ++ sign ++ digits ≠ [] := by
    intro e
    exact hd.1 (List.append_eq_nil.mp e).2
  unfold trx_sys_file_format_name_to_id
  simp only [strtoul_number ws sign digits hws hsign hd, hne, ne_eq, not_false_eq_true,
    and_self, if_true]

/-- A string that starts with a letter is not converted by `strtoul`. -/
theorem strtoul_endptr_letter (c : Nat) (s : List Nat) (h1 : isspace c = false)
    (h2 : c ≠ 45) (h3 : c ≠ 43) (h4 : isdigit c = false) : (strtoul (c :: s)).2 = c :: s := by
  rw [strtoul_endptr]
  simp [List.dropWhile, List.takeWhile, h1, h2, h3, h4]

/-- A byte that is the letter a or b in lower case is no white space, no sign
and no decimal digit. -/
theorem tolower_letter_facts (c : Nat) (h : tolower c = 97 ∨ tolower c = 98) :
    isspace c = false ∧ c ≠ 45 ∧ c ≠ 43 ∧ isdigit c = false := by
  have hc : c = 65 ∨ c = 97 ∨ c = 66 ∨ c = 98 := by
    unfold tolower at h
    split_ifs at h <;> omega
  rcases hc with e | e | e | e <;> subst e <;> decide

/-- The function `trx_sys_file_format_name_to_id` on the name of a supported
file format, whatever the letter case. -/
theorem trx_sys_file_format_name_to_id_format_name (id : Nat) (s : List Nat)
    (hid : id ≤ DICT_TF_FORMAT_MAX) (h : is_format_name id s) :
    trx_sys_file_format_name_to_id s = id := by
  have hid' : id = 0 ∨ id = 1 := by
    have : DICT_TF_FORMAT_MAX = 1 := rfl
    omega
  unfold is_format_name at h
  have e0 : trx_sys_file_format_id_to_name 0 = "Antelope" := by decide
  have e1 : trx_sys_file_format_id_to_name 1 = "Barracuda" := by decide
  rcases hid' with e | e <;> subst e
  · rw [e0] at h
    cases s with
    | nil => exact absurd h (by decide)
    | cons c s' =>
      have hc : tolower c = 97 := by
        have := congrArg List.head? h
        simpa [cstr] using this
      obtain ⟨f1, f2, f3, f4⟩ := tolower_letter_facts c (Or.inl hc)
      rw [trx_sys_file_format_name_to_id_name _
        (by rw [strtoul_endptr_letter c s' f1 f2 f3 f4]; simp),
        if_pos (strcasecmp_eq_zero_of_map _ _ h)]
  · rw [e1] at h
    cases s with
    | nil => exact absurd h (by decide)
    | cons c s' =>
      have hc : tolower c = 98 := by
        have := congrArg List.head? h
        simpa [cstr] using this
      obtain ⟨f1, f2, f3, f4⟩ := tolower_letter_facts c (Or.inr hc)
      have hn : strcasecmp (c :: s') (cstr "Antelope") ≠ 0 := by
        have : cstr "Antelope" = 65 :: cstr "ntelope" := by decide
        rw [this, strcasecmp, if_neg (by rw [hc]; decide), hc]
        decide
      rw [trx_sys_file_format_name_to_id_name _
        (by rw [strtoul_endptr_letter c s' f1 f2 f3 f4]; simp),
        if_neg hn, if_pos (strcasecmp_eq_zero_of_map _ _ h)]

/-- A string that `strtoul` does not convert to its end is no number as
`strtoul` takes it. -/
theorem not_is_strtoul_number (s : List Nat) (h : (strtoul s).2 ≠ []) :
    ¬ is_strtoul_number s := by
  intro ⟨ws, sign, digits, hs, hws, hsign, hd⟩
  apply h
  rw [hs, strtoul_number ws sign digits hws hsign hd]

/-- Claim C28, amended:
`trx_sys_file_format_name_to_id(trx_sys_file_format_id_to_name(id)) = id` for
every id up to `DICT_TF_FORMAT_MAX`, also when the letter case of the name is
changed; a string that is a number as `strtoul` takes it (optional white
space, an optional sign, one or more decimal digits) yields the value `n` that
`strtoul` gives it when `n <= DICT_TF_FORMAT_MAX`, and `DICT_TF_FORMAT_MAX + 1`
when `n` is larger; so a non-empty string that is entirely a decimal number
`n` yields `n` when `n <= DICT_TF_FORMAT_MAX`; every other string (the empty
string, an unknown name, the name of a format above the maximum, a larger
number) yields `DICT_TF_FORMAT_MAX + 1`; and
`trx_sys_file_format_id_to_name` returns "Unknown" for every id of 26 or
more. -/
theorem C28_file_format_name_to_id :
    (∀ id, id ≤ DICT_TF_FORMAT_MAX →
      trx_sys_file_format_name_to_id (cstr (trx_sys_file_format_id_to_name id)) = id)
    ∧ (∀ id s, id ≤ DICT_TF_FORMAT_MAX → is_format_name id s →
      trx_sys_file_format_name_to_id s = id)
    ∧ (∀ ws sign digits, (∀ c ∈ ws, isspace c = true) →
      (sign = [] ∨ sign = [43] ∨ sign = [45]) → is_decimal_number digits →
      trx_sys_file_format_name_to_id (ws ++ sign ++ digits)
        = if strtoul_value sign digits ≤ DICT_TF_FORMAT_MAX then strtoul_value sign digits
          else DICT_TF_FORMAT_MAX + 1)
    ∧ (∀ s, is_decimal_number s →
      trx_sys_file_format_name_to_id s
        = if strtoul_digits s ≤ DICT_TF_FORMAT_MAX then strtoul_digits s
          else DICT_TF_FORMAT_MAX + 1)
    ∧ (∀ s, 0 ∉ s → ¬ is_strtoul_number s →
      (∀ id, id ≤ DICT_TF_FORMAT_MAX → ¬ is_format_name id s) →
      trx_sys_file_format_name_to_id s = DICT_TF_FORMAT_MAX + 1)
    ∧ (∀ id, 26 ≤ id → trx_sys_file_format_id_to_name id = "Unknown") := by
  refine ⟨?_, ?_, ?_, ?_, ?_, ?_⟩
  · intro id hid
    exact trx_sys_file_format_name_to_id_format_name id _ hid rfl
  · intro id s hid h
    exact trx_sys_file_format_name_to_id_format_name id s hid h
  · intro ws sign digits hws hsign hd
    exact trx_sys_file_format_name_to_id_number ws sign digits hws hsign hd
  · intro s hd
    have h := trx_sys_file_format_name_to_id_number [] [] s
      (fun c hc => absurd hc (List.not_mem_nil c)) (Or.inl rfl) hd
    rw [List.append_nil, List.nil_append] at h
    rw [h]
    have hmax : DICT_TF_FORMAT_MAX = 1 := rfl
    have e : strtoul_value [] s
        = if strtoul_digits s > 2 ^ 64 - 1 then 2 ^ 64 - 1 else strtoul_digits s := by
      unfold strtoul_value
      simp
    rw [e, hmax]
    split_ifs <;> omega
  · intro s h0 hn hf
    have hend : ¬ ((strtoul s).2 = [] ∧ s ≠ []) :=
      fun h => hn (is_strtoul_number_of_endptr s h.1 h.2)
    have h1 : strcasecmp s (cstr "Antelope") ≠ 0 := by
      intro h
      exact hf 0 (by decide) (map_eq_of_strcasecmp_eq_zero s _ h0 (by decide) h)
    have h2 : strcasecmp s (cstr "Barracuda") ≠ 0 := by
      intro h
      exact hf 1 (by decide) (map_eq_of_strcasecmp_eq_zero s _ h0 (by decide) h)
    rw [trx_sys_file_format_name_to_id_name s hend, if_neg h1, if_neg h2]
  · intro id hid
    unfold trx_sys_file_format_id_to_name
    rw [if_pos]
    have : FILE_FORMAT_NAME_N = 26 := by decide
    omega

/-- The claim C28 as stated fails: the string " 1", a space and the digit 1,
is not entirely a decimal number and is no name of a file format, yet
`trx_sys_file_format_name_to_id` yields 1 and not `DICT_TF_FORMAT_MAX + 1`,
`strtoul` skipping the white space; so it is for "+1", `strtoul` taking the
sign. -/
theorem C28_number_after_white_space_or_sign :
    ¬ is_decimal_number (cstr " 1")
      ∧ (∀ id, id ≤ DICT_TF_FORMAT_MAX → ¬ is_format_name id (cstr " 1"))
      ∧ trx_sys_file_format_name_to_id (cstr " 1") = 1
      ∧ ¬ is_decimal_number (cstr "+1")
      ∧ (∀ id, id ≤ DICT_TF_FORMAT_MAX → ¬ is_format_name id (cstr "+1"))
      ∧ trx_sys_file_format_name_to_id (cstr "+1") = 1
      ∧ DICT_TF_FORMAT_MAX + 1 = 2 := by
  have hmax : DICT_TF_FORMAT_MAX = 1 := rfl
  refine ⟨?_, ?_, by decide, ?_, ?_, by decide, by decide⟩
  · intro h
    exact absurd (h.2 32 (by decide)) (by decide)
  · intro id hid
    have : id = 0 ∨ id = 1 := by omega
    rcases this with e | e <;> subst e <;> unfold is_format_name <;> decide
  · intro h
    exact absurd (h.2 43 (by decide)) (by decide)
  · intro id hid
    have : id = 0 ∨ id = 1 := by omega
    rcases this with e | e <;> subst e <;> unfold is_format_name <;> decide

/-- The theorem `C28_file_format_name_to_id` at the name "BARRACUDA" in capital
letters, at the string "0001" and at the name "Cheetah" of an unsupported
format. -/
theorem C28_file_format_name_to_id_witness :
    trx_sys_file_format_name_to_id (cstr "BARRACUDA") = 1
      ∧ trx_sys_file_format_name_to_id (cstr "0001") = 1
      ∧ trx_sys_file_format_name_to_id (cstr "Cheetah") = 2 := by
  obtain ⟨_, h2, _, h4, h5, _⟩ := C28_file_format_name_to_id
  refine ⟨h2 1 _ (by decide) (by unfold is_format_name; decide), ?_, ?_⟩
  · rw [h4 _ ⟨by decide, by decide⟩]
    decide
  · have hnot : ¬ is_strtoul_number (cstr "Cheetah") :=
      not_is_strtoul_number _ (by decide)
    have hnf : ∀ id, id ≤ DICT_TF_FORMAT_MAX → ¬ is_format_name id (cstr "Cheetah") := by
      intro id hid
      have hmax : DICT_TF_FORMAT_MAX = 1 := rfl
      have : id = 0 ∨ id = 1 := by omega
      rcases this with e | e <;> subst e <;> unfold is_format_name <;> decide
    rw [h5 _ (by decide) hnot hnf]
    rfl


/-! ## Claim C30: the write that resets the space id of a doublewrite page -/

/-- A synchronous write leaves the bytes of the buffer in the file from byte
`page_no * UNIV_PAGE_SIZE + byte_offset` on. -/
theorem fil_write_bytes_at (files : Nat → Mem) (space_id page_no byte_offset len : Nat)
    (buf : Mem) (ptr : Nat) :
    (fil_write files space_id page_no byte_offset len buf ptr space_id).bytes
        (page_no * UNIV_PAGE_SIZE + byte_offset) len
      = buf.bytes ptr len := by
  unfold Mem.bytes
  apply List.map_congr_left
  intro k hk
  have hk1 : k < len := List.mem_range.mp hk
  unfold fil_write
  generalize page_no * UNIV_PAGE_SIZE = a
  dsimp only
  rw [if_pos ⟨rfl, by omega, by omega⟩]
  congr 1
  omega

/-- A synchronous write leaves the bytes of the file outside the `len` bytes
written as they are. -/
theorem fil_write_bytes_frame (files : Nat → Mem) (space_id page_no byte_offset len : Nat)
    (buf : Mem) (ptr a n : Nat)
    (h : a + n ≤ page_no * UNIV_PAGE_SIZE + byte_offset
      ∨ page_no * UNIV_PAGE_SIZE + byte_offset + len ≤ a) :
    (fil_write files space_id page_no byte_offset len buf ptr space_id).bytes a n
      = (files space_id).bytes a n := by
  unfold Mem.bytes
  apply List.map_congr_left
  intro k hk
  have hk1 : k < n := List.mem_range.mp hk
  unfold fil_write
  generalize page_no * UNIV_PAGE_SIZE = b at h ⊢
  dsimp only
  rw [if_neg (by omega)]

/-- Claim C30, on what the code does: in the upgrade path, with
`trx_doublewrite_must_reset_space_ids` set and `restore_corrupt_pages` false,
the iteration for the doublewrite page `i`, read from page `source_page_no` of
space 0 (2 or more), sets the space-id field of the page image in the buffer
to 0 and issues one write request, which addresses space 0, page number 0,
byte offset `source_page_no` and a length of one page: the page image is
written over page 0 of the system tablespace from byte `source_page_no` on,
and the doublewrite page `source_page_no` in the file is left as it was. -/
theorem C30_space_id_reset_write_request (env : restore_env) (block1 block2 i : Nat)
    (s : restore_vars) (hsrc : 2 ≤ trx_sys_doublewrite_source_page_no block1 block2 i) :
    ∃ s', trx_sys_doublewrite_restore_page env false true block1 block2 i s = Except.ok s'
      ∧ mach_read_from_4 s'.buf (i * UNIV_PAGE_SIZE + FIL_PAGE_SPACE_ID) = 0
      ∧ s'.calls = s.calls ++ [fil_call.io IO_request.Sync_write false 0 0
          (trx_sys_doublewrite_source_page_no block1 block2 i) UNIV_PAGE_SIZE
          s'.buf (i * UNIV_PAGE_SIZE)]
      ∧ (s'.files 0).bytes
          (0 * UNIV_PAGE_SIZE + trx_sys_doublewrite_source_page_no block1 block2 i)
          UNIV_PAGE_SIZE
        = s'.buf.bytes (i * UNIV_PAGE_SIZE) UNIV_PAGE_SIZE
      ∧ (s'.files 0).bytes
          (trx_sys_doublewrite_source_page_no block1 block2 i * UNIV_PAGE_SIZE) UNIV_PAGE_SIZE
        = (s.files 0).bytes
          (trx_sys_doublewrite_source_page_no block1 block2 i * UNIV_PAGE_SIZE)
          UNIV_PAGE_SIZE := by
  rw [trx_sys_doublewrite_restore_page_reset]
  refine ⟨_, rfl, ?_, rfl, ?_, ?_⟩
  · exact mach_read_write_4 _ _ 0
  · exact fil_write_bytes_at _ 0 0 _ _ _ _
  · apply fil_write_bytes_frame
    right
    have e : UNIV_PAGE_SIZE = 16384 := rfl
    rw [e]
    generalize trx_sys_doublewrite_source_page_no block1 block2 i = src at hsrc ⊢
    omega

/-- The theorem `C30_space_id_reset_write_request` at the first doublewrite
page of files whose doublewrite header names the blocks at pages 512 and 576:
the write request addresses page 0 at byte offset 512, not page 512 at byte
offset 0. -/
theorem C30_space_id_reset_write_request_witness :
    ∃ s', trx_sys_doublewrite_restore_page sample_restore_env false true 512 576 0
        ⟨sample_restore_files, fun _ => 0, fun _ => 0, []⟩ = Except.ok s'
      ∧ s'.calls = [fil_call.io IO_request.Sync_write false 0 0 512 UNIV_PAGE_SIZE s'.buf 0] := by
  obtain ⟨s', h1, _, h3, _, _⟩ := C30_space_id_reset_write_request sample_restore_env 512 576 0
    ⟨sample_restore_files, fun _ => 0, fun _ => 0, []⟩ (by decide)
  exact ⟨s', h1, by simpa using h3⟩


/-! ## Claim C22: the transaction table is rebuilt from the undo logs -/

/-- The state and the number that belong to the state of an undo log, as the
claim words them. -/
theorem trx0trx.trx_lists_init_state_eq (recovery undo_state trx_id : Nat) :
    trx0trx.trx_lists_init_state recovery undo_state trx_id
      = ((if undo_state = trx0trx.TRX_UNDO_ACTIVE then TRX_ACTIVE
          else if undo_state = trx0trx.TRX_UNDO_PREPARED then
            (if recovery = trx0trx.IB_RECOVERY_DEFAULT then TRX_PREPARED else TRX_ACTIVE)
          else TRX_COMMITTED_IN_MEMORY),
         (if undo_state = trx0trx.TRX_UNDO_ACTIVE then LSN_MAX else trx_id)) := by
  unfold trx0trx.trx_lists_init_state
  by_cases h : undo_state = trx0trx.TRX_UNDO_ACTIVE
  · simp [h]
  · simp [h]

/-- What the body of the first inner loop of `trx_lists_init_at_db_start`
does: a transaction object is made from the undo log at the address
`heap_top`, with the undo number of the top record plus one when the undo log
is not empty, else 0, and is put into the list by
`trx_list_insert_ordered`. -/
theorem trx0trx.trx_lists_init_insert_undo_effect (env : trx0trx.recover_env)
    (recovery : Nat) (rseg : trx_rseg_t) (rs : trx0trx.recover_state) (undo : Nat) :
    ∃ st0 : trx0trx.trx_state,
      trx0trx.trx_lists_init_insert_undo env recovery rseg rs undo
          = { st := trx0trx.trx_list_insert_ordered st0 rs.heap_top,
              heap_top := rs.heap_top + 1 }
      ∧ st0.trx_list = rs.st.trx_list
      ∧ (∀ p, p ≠ rs.heap_top → st0.trxs p = rs.st.trxs p)
      ∧ env.made_from recovery ⟨rseg, true, undo⟩ (st0.trxs rs.heap_top)
      ∧ (st0.trxs rs.heap_top).undo_no
          = if (env.undos undo).empty = false then ((env.undos undo).top_undo_no + 1) % 2 ^ 64
            else 0 := by
  unfold trx0trx.trx_lists_init_insert_undo trx0trx.trx_create trx0trx.recover_env.made_from
  cases he : (env.undos undo).empty
  · refine ⟨_, rfl, ?_, ?_, ?_, ?_⟩
    · simp [trx0trx.trx_state.set_trx, trx0trx.trx_lists_init_state_eq, he]
    · intro p hp
      simp [trx0trx.trx_state.set_trx, hp, he]
    · simp [trx0trx.trx_state.set_trx, trx0trx.trx_lists_init_state_eq, he]
    · simp [trx0trx.trx_state.set_trx, trx0trx.trx_lists_init_state_eq, he]
  · refine ⟨_, rfl, ?_, ?_, ?_, ?_⟩
    · simp [trx0trx.trx_state.set_trx, trx0trx.trx_lists_init_state_eq, he]
    · intro p hp
      simp [trx0trx.trx_state.set_trx, hp, he]
    · simp [trx0trx.trx_state.set_trx, trx0trx.trx_lists_init_state_eq, he]
    · simp [trx0trx.trx_state.set_trx, trx0trx.trx_lists_init_state_eq, he]

/-- The function `trx_get_on_id` finds a transaction of the list with the id,
or there is none. -/
theorem trx0trx.trx_get_on_id_from_spec (trxs : Nat → trx0trx.trx_t) (trx_id : Nat)
    (list : List Nat) :
    (∀ t, trx0trx.trx_get_on_id_from trxs trx_id list = some t →
        t ∈ list ∧ (trxs t).id = trx_id)
      ∧ (trx0trx.trx_get_on_id_from trxs trx_id list = none →
        ∀ t ∈ list, (trxs t).id ≠ trx_id) := by
  induction list with
  | nil =>
    refine ⟨?_, ?_⟩
    · intro t h
      cases h
    · intro _ t ht
      exact absurd ht (List.not_mem_nil t)
  | cons x list ih =>
    unfold trx0trx.trx_get_on_id_from
    by_cases hx : trx_id = (trxs x).id
    · rw [if_pos hx]
      refine ⟨?_, fun h => by cases h⟩
      intro t ht
      injection ht with ht
      rw [← ht]
      exact ⟨List.mem_cons_self _ _, hx.symm⟩
    · rw [if_neg hx]
      refine ⟨fun t ht => ⟨List.mem_cons_of_mem _ (ih.1 t ht).1, (ih.1 t ht).2⟩, ?_⟩
      intro h t ht
      rcases List.mem_cons.mp ht with e | e
      · rw [e]
        exact fun e' => hx e'.symm
      · exact ih.2 h t e

/-- What the second inner loop of `trx_lists_init_at_db_start` does to make a
transaction: a transaction object is made from the undo log at the address
`heap_top`, with the undo number 0, and is put into the list by
`trx_list_insert_ordered`. -/
theorem trx0trx.trx_lists_init_update_undo_create_effect (env : trx0trx.recover_env)
    (recovery : Nat) (rseg : trx_rseg_t) (rs : trx0trx.recover_state) (undo : Nat) :
    ∃ st0 : trx0trx.trx_state,
      trx0trx.trx_lists_init_update_undo_create env recovery rseg rs undo
          = (rs.heap_top, { st := trx0trx.trx_list_insert_ordered st0 rs.heap_top,
                            heap_top := rs.heap_top + 1 })
      ∧ st0.trx_list = rs.st.trx_list
      ∧ (∀ p, p ≠ rs.heap_top → st0.trxs p = rs.st.trxs p)
      ∧ env.made_from recovery ⟨rseg, false, undo⟩ (st0.trxs rs.heap_top)
      ∧ (st0.trxs rs.heap_top).undo_no = 0 := by
  unfold trx0trx.trx_lists_init_update_undo_create trx0trx.trx_create
    trx0trx.recover_env.made_from
  refine ⟨_, rfl, ?_, ?_, ?_, ?_⟩
  · simp [trx0trx.trx_state.set_trx]
  · intro p hp
    simp [trx0trx.trx_state.set_trx, hp]
  · simp [trx0trx.trx_state.set_trx, trx0trx.trx_lists_init_state_eq]
  · simp [trx0trx.trx_state.set_trx]

/-- What the end of the body of the second inner loop of
`trx_lists_init_at_db_start` does: the transaction keeps its id, its rollback
segment, its state and its number, and its undo number is raised to one more
than that of the top record of an undo log that is not empty. -/
theorem trx0trx.trx_lists_init_update_undo_set_effect (env : trx0trx.recover_env)
    (rs : trx0trx.recover_state) (trx undo : Nat) :
    (trx0trx.trx_lists_init_update_undo_set env rs trx undo).heap_top = rs.heap_top
      ∧ (trx0trx.trx_lists_init_update_undo_set env rs trx undo).st.trx_list = rs.st.trx_list
      ∧ (∀ p, p ≠ trx →
          (trx0trx.trx_lists_init_update_undo_set env rs trx undo).st.trxs p = rs.st.trxs p)
      ∧ (∀ p, ((trx0trx.trx_lists_init_update_undo_set env rs trx undo).st.trxs p).id
          = (rs.st.trxs p).id)
      ∧ (∀ recovery l, env.made_from recovery l (rs.st.trxs trx) →
          env.made_from recovery l
            ((trx0trx.trx_lists_init_update_undo_set env rs trx undo).st.trxs trx))
      ∧ ((trx0trx.trx_lists_init_update_undo_set env rs trx undo).st.trxs trx).undo_no
          = if (env.undos undo).empty = false
              ∧ (env.undos undo).top_undo_no ≥ (rs.st.trxs trx).undo_no
            then ((env.undos undo).top_undo_no + 1) % 2 ^ 64 else (rs.st.trxs trx).undo_no := by
  unfold trx0trx.trx_lists_init_update_undo_set trx0trx.recover_env.made_from
  by_cases hc : (env.undos undo).empty = false
      ∧ (env.undos undo).top_undo_no ≥ (rs.st.trxs trx).undo_no
  · refine ⟨rfl, ?_, ?_, ?_, ?_, ?_⟩
    · simp [trx0trx.trx_state.set_trx, hc]
    · intro p hp
      simp [trx0trx.trx_state.set_trx, hc, hp]
    · intro p
      by_cases hp : p = trx
      · simp [trx0trx.trx_state.set_trx, hc, hp]
      · simp [trx0trx.trx_state.set_trx, hc, hp]
    · intro recovery l h
      simpa [trx0trx.trx_state.set_trx, hc] using h
    · simp [trx0trx.trx_state.set_trx, hc]
  · refine ⟨rfl, ?_, ?_, ?_, ?_, ?_⟩
    · simp [trx0trx.trx_state.set_trx, hc]
    · intro p hp
      simp [trx0trx.trx_state.set_trx, hc, hp]
    · intro p
      by_cases hp : p = trx
      · simp [trx0trx.trx_state.set_trx, hc, hp]
      · simp [trx0trx.trx_state.set_trx, hc, hp]
    · intro recovery l h
      simpa [trx0trx.trx_state.set_trx, hc] using h
    · simp [trx0trx.trx_state.set_trx, hc]

/-- The undo logs of a transaction id among undo logs and one more. -/
theorem trx0trx.logs_of_append (env : trx0trx.recover_env) (logs : List trx0trx.undo_log_ref)
    (l : trx0trx.undo_log_ref) (trx_id : Nat) :
    env.logs_of (logs ++ [l]) trx_id
      = env.logs_of logs trx_id
        ++ (if (env.undos l.undo).trx_id = trx_id then [l] else []) := by
  unfold trx0trx.recover_env.logs_of
  rw [List.filter_append]
  congr 1
  by_cases h : (env.undos l.undo).trx_id = trx_id
  · simp [h]
  · simp [h]

/-- The undo number that belongs to undo logs and one more. -/
theorem trx0trx.undo_no_of_append (env : trx0trx.recover_env) (logs : List trx0trx.undo_log_ref)
    (l : trx0trx.undo_log_ref) :
    env.undo_no_of (logs ++ [l])
      = if (env.undos l.undo).empty = false then
          max (env.undo_no_of logs) ((env.undos l.undo).top_undo_no + 1)
        else env.undo_no_of logs := by
  unfold trx0trx.recover_env.undo_no_of
  rw [List.foldl_append]
  rfl

/-- No undo log has the id of a transaction id that no transaction of a
rebuilt table has. -/
theorem trx0trx.logs_of_eq_nil (env : trx0trx.recover_env) (recovery : Nat)
    (logs : List trx0trx.undo_log_ref) (rs : trx0trx.recover_state) (trx_id : Nat)
    (hinv : env.rebuilt recovery logs rs)
    (hnew : ∀ t ∈ rs.st.trx_list, (rs.st.trxs t).id ≠ trx_id) :
    env.logs_of logs trx_id = [] := by
  unfold trx0trx.recover_env.logs_of
  rw [List.filter_eq_nil_iff]
  intro l hl hid
  obtain ⟨t, ht, hti⟩ := hinv.2.2.2.1 l hl
  exact hnew t ht (by rw [hti]; simpa using hid)

/-- A rebuilt transaction table stays one when a transaction object is made at
the address `heap_top` from an undo log whose id no transaction of the list
has, and is put into the list. -/
theorem trx0trx.rebuilt_create (env : trx0trx.recover_env) (recovery : Nat)
    (logs : List trx0trx.undo_log_ref) (rs rs' : trx0trx.recover_state)
    (l : trx0trx.undo_log_ref) (a b : List Nat)
    (hl : rs.st.trx_list = a ++ b) (hl' : rs'.st.trx_list = a ++ rs.heap_top :: b)
    (hh : rs'.heap_top = rs.heap_top + 1)
    (hp : ∀ p, p ≠ rs.heap_top → rs'.st.trxs p = rs.st.trxs p)
    (hm : env.made_from recovery l (rs'.st.trxs rs.heap_top))
    (hu : (rs'.st.trxs rs.heap_top).undo_no
      = if (env.undos l.undo).empty = false then (env.undos l.undo).top_undo_no + 1 else 0)
    (hnew : ∀ t ∈ rs.st.trx_list, (rs.st.trxs t).id ≠ (env.undos l.undo).trx_id)
    (hinv : env.rebuilt recovery logs rs) :
    env.rebuilt recovery (logs ++ [l]) rs' := by
  have hnil := trx0trx.logs_of_eq_nil env recovery logs rs _ hinv hnew
  obtain ⟨i1, i2, i3, i4, i5⟩ := hinv
  have hmem : ∀ t, t ∈ rs'.st.trx_list ↔ t = rs.heap_top ∨ t ∈ rs.st.trx_list := by
    intro t
    rw [hl', hl]
    simp only [List.mem_append, List.mem_cons]
    tauto
  have hfresh : rs.heap_top ∉ rs.st.trx_list := fun h => Nat.lt_irrefl _ (i1 _ h)
  have hold : ∀ t ∈ rs.st.trx_list, rs'.st.trxs t = rs.st.trxs t :=
    fun t ht => hp t (fun e => hfresh (e ▸ ht))
  have hidnew : (rs'.st.trxs rs.heap_top).id = (env.undos l.undo).trx_id := hm.1
  refine ⟨?_, ?_, ?_, ?_, ?_⟩
  · intro t ht
    rw [hh]
    rcases (hmem t).mp ht with e | e
    · omega
    · exact Nat.lt_succ_of_lt (i1 t e)
  · rw [hl']
    rw [hl] at i2 hfresh
    have h1 := List.nodup_append.mp i2
    refine List.nodup_append.mpr ⟨h1.1, List.nodup_cons.mpr ⟨?_, h1.2.1⟩, ?_⟩
    · exact fun h => hfresh (List.mem_append_right _ h)
    · intro x hxa hxb
      rcases List.mem_cons.mp hxb with e | e
      · exact hfresh (List.mem_append_left _ (e ▸ hxa))
      · exact h1.2.2 hxa e
  · intro t1 ht1 t2 ht2 hid
    rcases (hmem t1).mp ht1 with e1 | e1 <;> rcases (hmem t2).mp ht2 with e2 | e2
    · rw [e1, e2]
    · rw [e1, hidnew, hold t2 e2] at hid
      exact absurd hid.symm (hnew t2 e2)
    · rw [e2, hidnew, hold t1 e1] at hid
      exact absurd hid (hnew t1 e1)
    · rw [hold t1 e1, hold t2 e2] at hid
      exact i3 t1 e1 t2 e2 hid
  · intro l' hl'm
    rcases List.mem_append.mp hl'm with e | e
    · obtain ⟨t, ht, hti⟩ := i4 l' e
      exact ⟨t, (hmem t).mpr (Or.inr ht), by rw [hold t ht]; exact hti⟩
    · rw [List.mem_singleton.mp e]
      exact ⟨rs.heap_top, (hmem _).mpr (Or.inl rfl), hidnew⟩
  · intro t ht
    rcases (hmem t).mp ht with e | e
    · rw [e, hidnew, trx0trx.logs_of_append, hnil, if_pos rfl]
      refine ⟨l, rfl, hm, ?_⟩
      rw [hu]
      unfold trx0trx.recover_env.undo_no_of
      simp only [List.nil_append, List.foldl_cons, List.foldl_nil]
      split_ifs
      · simp
      · rfl
    · obtain ⟨l0, h1, h2, h3⟩ := i5 t e
      have hne : ¬ (env.undos l.undo).trx_id = (rs.st.trxs t).id := fun h => hnew t e h.symm
      rw [hold t e, trx0trx.logs_of_append, if_neg hne, List.append_nil]
      exact ⟨l0, h1, h2, h3⟩

/-- A rebuilt transaction table stays one when an undo log is given to the
transaction of the list that has its id, whose undo number is raised. -/
theorem trx0trx.rebuilt_update (env : trx0trx.recover_env) (recovery : Nat)
    (logs : List trx0trx.undo_log_ref) (rs rs' : trx0trx.recover_state)
    (l : trx0trx.undo_log_ref) (t0 : Nat)
    (ht0 : t0 ∈ rs.st.trx_list) (hid : (rs.st.trxs t0).id = (env.undos l.undo).trx_id)
    (hl' : rs'.st.trx_list = rs.st.trx_list) (hh : rs'.heap_top = rs.heap_top)
    (hp : ∀ p, p ≠ t0 → rs'.st.trxs p = rs.st.trxs p)
    (hid' : (rs'.st.trxs t0).id = (rs.st.trxs t0).id)
    (hm : ∀ l', env.made_from recovery l' (rs.st.trxs t0) →
      env.made_from recovery l' (rs'.st.trxs t0))
    (hu : (rs'.st.trxs t0).undo_no
      = if (env.undos l.undo).empty = false
          ∧ (env.undos l.undo).top_undo_no ≥ (rs.st.trxs t0).undo_no
        then (env.undos l.undo).top_undo_no + 1 else (rs.st.trxs t0).undo_no)
    (hinv : env.rebuilt recovery logs rs) :
    env.rebuilt recovery (logs ++ [l]) rs' := by
  obtain ⟨i1, i2, i3, i4, i5⟩ := hinv
  have hids : ∀ p, (rs'.st.trxs p).id = (rs.st.trxs p).id := by
    intro p
    by_cases e : p = t0
    · rw [e]; exact hid'
    · rw [hp p e]
  refine ⟨?_, ?_, ?_, ?_, ?_⟩
  · intro t ht
    rw [hh]
    exact i1 t (hl' ▸ ht)
  · rw [hl']
    exact i2
  · intro t1 ht1 t2 ht2 h
    rw [hids, hids] at h
    exact i3 t1 (hl' ▸ ht1) t2 (hl' ▸ ht2) h
  · intro l' hl'm
    rcases List.mem_append.mp hl'm with e | e
    · obtain ⟨t, ht, hti⟩ := i4 l' e
      exact ⟨t, by rw [hl']; exact ht, by rw [hids]; exact hti⟩
    · rw [List.mem_singleton.mp e]
      exact ⟨t0, by rw [hl']; exact ht0, by rw [hids]; exact hid⟩
  · intro t ht
    rw [hl'] at ht
    obtain ⟨l0, h1, h2, h3⟩ := i5 t ht
    rw [hids, trx0trx.logs_of_append]
    by_cases e : t = t0
    · subst e
      rw [if_pos hid.symm]
      have hne : env.logs_of logs (rs.st.trxs t).id ≠ [] := by
        intro h
        rw [h] at h1
        cases h1
      refine ⟨l0, ?_, hm l0 h2, ?_⟩
      · rw [List.head?_append_of_ne_nil _ hne]
        exact h1
      · rw [hu, trx0trx.undo_no_of_append, h3]
        by_cases he : (env.undos l.undo).empty = false
        · simp only [he, true_and, if_true]
          split_ifs with hc
          · omega
          · omega
        · simp [he]
    · have hne : ¬ (env.undos l.undo).trx_id = (rs.st.trxs t).id := by
        intro h
        exact e (i3 t ht t0 ht0 (by rw [hid, h]))
      rw [if_neg hne, List.append_nil, hp t e]
      exact ⟨l0, h1, h2, h3⟩

/-- A rebuilt transaction table stays one when `trx_lists_init_at_db_start`
goes through one more undo log, which is no insert undo log of a transaction
id that an earlier undo log has, and whose top undo number is not the last of
the 64-bit range. -/
theorem trx0trx.rebuilt_step (env : trx0trx.recover_env) (recovery : Nat)
    (logs : List trx0trx.undo_log_ref) (rs : trx0trx.recover_state)
    (l : trx0trx.undo_log_ref) (hinv : env.rebuilt recovery logs rs)
    (hfirst : l.is_insert = true →
      ∀ l' ∈ logs, (env.undos l'.undo).trx_id ≠ (env.undos l.undo).trx_id)
    (htop : (env.undos l.undo).top_undo_no + 1 < 2 ^ 64) :
    env.rebuilt recovery (logs ++ [l]) (trx0trx.trx_lists_init_log env recovery rs l) := by
  have hmod : ((env.undos l.undo).top_undo_no + 1) % 2 ^ 64
      = (env.undos l.undo).top_undo_no + 1 := Nat.mod_eq_of_lt htop
  have htrxs : ∀ (s : trx0trx.trx_state) (t : Nat),
      (trx0trx.trx_list_insert_ordered s t).trxs = s.trxs := by
    intro s t
    unfold trx0trx.trx_list_insert_ordered
    split
    · split <;> rfl
    · rfl
  unfold trx0trx.trx_lists_init_log
  by_cases hi : l.is_insert = true
  · rw [if_pos hi]
    have el : l = ⟨l.rseg, true, l.undo⟩ := by
      cases l
      simp at hi
      simp [hi]
    obtain ⟨st0, hres, hst0l, hst0p, hm, hu⟩ :=
      trx0trx.trx_lists_init_insert_undo_effect env recovery l.rseg rs l.undo
    obtain ⟨a, b, hl, hl', _, _, _, _⟩ :=
      trx0trx.trx_list_insert_ordered_list st0 rs.heap_top (by rw [hst0l]; exact hinv.2.1)
    rw [hres]
    refine trx0trx.rebuilt_create env recovery logs rs _ l a b (by rw [← hst0l]; exact hl) hl'
      rfl ?_ ?_ ?_ ?_ hinv
    · intro p hp
      show (trx0trx.trx_list_insert_ordered st0 rs.heap_top).trxs p = _
      rw [htrxs]
      exact hst0p p hp
    · show env.made_from recovery l
        ((trx0trx.trx_list_insert_ordered st0 rs.heap_top).trxs rs.heap_top)
      rw [htrxs, el]
      exact hm
    · show ((trx0trx.trx_list_insert_ordered st0 rs.heap_top).trxs rs.heap_top).undo_no = _
      rw [htrxs, hu, hmod]
    · intro t ht
      obtain ⟨l0, h1, _, _⟩ := hinv.2.2.2.2 t ht
      have hl0 : l0 ∈ env.logs_of logs (rs.st.trxs t).id := List.mem_of_mem_head? h1
      unfold trx0trx.recover_env.logs_of at hl0
      obtain ⟨hl0m, hl0i⟩ := List.mem_filter.mp hl0
      have := hfirst hi l0 hl0m
      rw [← of_decide_eq_true hl0i]
      exact this
  · rw [if_neg hi]
    have el : l = ⟨l.rseg, false, l.undo⟩ := by
      cases l
      simp at hi
      simp [hi]
    cases hget : trx0trx.trx_get_on_id rs.st (env.undos l.undo).trx_id with
    | none =>
      have hnew := (trx0trx.trx_get_on_id_from_spec rs.st.trxs (env.undos l.undo).trx_id
        rs.st.trx_list).2 hget
      obtain ⟨st0, hres, hst0l, hst0p, hm, hu⟩ :=
        trx0trx.trx_lists_init_update_undo_create_effect env recovery l.rseg rs l.undo
      obtain ⟨a, b, hl, hl', _, _, _, _⟩ :=
        trx0trx.trx_list_insert_ordered_list st0 rs.heap_top (by rw [hst0l]; exact hinv.2.1)
      have e : trx0trx.trx_lists_init_update_undo env recovery l.rseg rs l.undo
          = trx0trx.trx_lists_init_update_undo_set env
              { st := trx0trx.trx_list_insert_ordered st0 rs.heap_top,
                heap_top := rs.heap_top + 1 } rs.heap_top l.undo := by
        simp only [trx0trx.trx_lists_init_update_undo, hget, hres]
      rw [e]
      obtain ⟨s1, s2, s3, _, s5, s6⟩ := trx0trx.trx_lists_init_update_undo_set_effect env
        { st := trx0trx.trx_list_insert_ordered st0 rs.heap_top,
          heap_top := rs.heap_top + 1 } rs.heap_top l.undo
      refine trx0trx.rebuilt_create env recovery logs rs _ l a b
        (by rw [← hst0l]; exact hl) (by rw [s2]; exact hl') s1 ?_ ?_ ?_ hnew hinv
      · intro p hp
        rw [s3 p hp]
        show (trx0trx.trx_list_insert_ordered st0 rs.heap_top).trxs p = _
        rw [htrxs]
        exact hst0p p hp
      · apply s5
        show env.made_from recovery l
          ((trx0trx.trx_list_insert_ordered st0 rs.heap_top).trxs rs.heap_top)
        rw [htrxs, el]
        exact hm
      · rw [s6, hmod]
        have h0 : ((trx0trx.trx_list_insert_ordered st0 rs.heap_top).trxs rs.heap_top).undo_no
            = 0 := by
          rw [htrxs]
          exact hu
        show (if (env.undos l.undo).empty = false ∧ (env.undos l.undo).top_undo_no
            ≥ ((trx0trx.trx_list_insert_ordered st0 rs.heap_top).trxs rs.heap_top).undo_no
          then (env.undos l.undo).top_undo_no + 1
          else ((trx0trx.trx_list_insert_ordered st0 rs.heap_top).trxs rs.heap_top).undo_no) = _
        rw [h0]
        by_cases he : (env.undos l.undo).empty = false
        · simp [he]
        · simp [he]
    | some t0 =>
      obtain ⟨ht0, hid⟩ := (trx0trx.trx_get_on_id_from_spec rs.st.trxs
        (env.undos l.undo).trx_id rs.st.trx_list).1 t0 hget
      have e : trx0trx.trx_lists_init_update_undo env recovery l.rseg rs l.undo
          = trx0trx.trx_lists_init_update_undo_set env rs t0 l.undo := by
        simp only [trx0trx.trx_lists_init_update_undo, hget]
      rw [e]
      obtain ⟨s1, s2, s3, s4, s5, s6⟩ :=
        trx0trx.trx_lists_init_update_undo_set_effect env rs t0 l.undo
      exact trx0trx.rebuilt_update env recovery logs rs _ l t0 ht0 hid s2 s1 s3 (s4 t0)
        (s5 recovery) (by rw [s6, hmod]) hinv

/-- The function `trx_lists_init_at_db_start` goes through the undo logs of
every rollback segment in order, from an empty transaction list. -/
theorem trx0trx.trx_lists_init_at_db_start_eq (env : trx0trx.recover_env) (recovery : Nat)
    (rs : trx0trx.recover_state) :
    trx0trx.trx_lists_init_at_db_start env recovery rs
      = (env.logs rs.st.rseg_list).foldl (trx0trx.trx_lists_init_log env recovery)
          { rs with st := { rs.st with trx_list := [] } } := by
  have hrseg : ∀ (rseg : trx_rseg_t) (r : trx0trx.recover_state),
      trx0trx.trx_lists_init_rseg env recovery r rseg
        = (env.rseg_logs rseg).foldl (trx0trx.trx_lists_init_log env recovery) r := by
    intro rseg r
    unfold trx0trx.trx_lists_init_rseg trx0trx.recover_env.rseg_logs
    rw [List.foldl_append, List.foldl_map, List.foldl_map]
    rfl
  have hall : ∀ (rsegs : List trx_rseg_t) (r : trx0trx.recover_state),
      rsegs.foldl (trx0trx.trx_lists_init_rseg env recovery) r
        = (env.logs rsegs).foldl (trx0trx.trx_lists_init_log env recovery) r := by
    intro rsegs
    induction rsegs with
    | nil => intro r; rfl
    | cons rseg rsegs ih =>
      intro r
      unfold trx0trx.recover_env.logs at ih ⊢
      rw [List.foldl_cons, List.flatMap_cons, List.foldl_append, hrseg, ih]
  unfold trx0trx.trx_lists_init_at_db_start
  exact hall _ _

/-- The transaction table is rebuilt from the undo logs that
`trx_lists_init_at_db_start` has gone through. -/
theorem trx0trx.rebuilt_foldl (env : trx0trx.recover_env) (recovery : Nat) :
    ∀ (rest logs : List trx0trx.undo_log_ref) (rs : trx0trx.recover_state),
      env.rebuilt recovery logs rs → env.insert_logs_first (logs ++ rest) →
      (∀ l ∈ rest, (env.undos l.undo).top_undo_no + 1 < 2 ^ 64) →
      env.rebuilt recovery (logs ++ rest)
        (rest.foldl (trx0trx.trx_lists_init_log env recovery) rs) := by
  intro rest
  induction rest with
  | nil =>
    intro logs rs hinv _ _
    rw [List.append_nil]
    exact hinv
  | cons l rest ih =>
    intro logs rs hinv hfirst htop
    have e : logs ++ l :: rest = (logs ++ [l]) ++ rest := by simp
    rw [e] at hfirst ⊢
    rw [List.foldl_cons]
    apply ih (logs ++ [l]) _ _ hfirst (fun l' hl' => htop l' (List.mem_cons_of_mem _ hl'))
    apply trx0trx.rebuilt_step env recovery logs rs l hinv _ (htop l (List.mem_cons_self _ _))
    intro hi l' hl'
    obtain ⟨q, hq, hql⟩ := List.getElem_of_mem hl'
    have hq' : (logs ++ [l] ++ rest)[q]? = some l' := by
      rw [List.append_assoc, List.getElem?_append_left hq, List.getElem?_eq_getElem hq, hql]
    have hp' : (logs ++ [l] ++ rest)[logs.length]? = some l := by
      rw [List.append_assoc, List.getElem?_append_right (le_refl _)]
      simp
    exact hfirst logs.length q hq l l' hp' hq' hi

/-- The first element of a list that has a property is the head of the
elements that have it. -/
theorem head?_filter_first {α : Type} (pred : α → Bool) :
    ∀ (logs : List α) (p : Nat) (l : α), logs[p]? = some l → pred l = true →
      (∀ q l', q < p → logs[q]? = some l' → pred l' = false) →
      (logs.filter pred).head? = some l := by
  intro logs
  induction logs with
  | nil => intro p l h; cases h
  | cons x logs ih =>
    intro p l h hl hq
    cases p with
    | zero =>
      simp at h
      subst h
      rw [List.filter_cons_of_pos hl]
      rfl
    | succ p =>
      have hx : pred x = false := hq 0 x (Nat.succ_pos _) (by simp)
      rw [List.filter_cons_of_neg (by rw [hx]; decide)]
      apply ih p l (by simpa using h) hl
      intro q l' hqp hql
      exact hq (q + 1) l' (by omega) (by simpa using hql)

/-- Claim C22: `trx_lists_init_at_db_start` rebuilds the transaction table
from the undo logs of every rollback segment, when no insert undo log comes
after an undo log of the same transaction id and no top undo number is the
last of the 64-bit range: the list holds one transaction for each transaction
id of the undo logs; for each insert undo log, and each update undo log whose
transaction id no earlier undo log has, there is one transaction in the list
with that id, `is_recovered` set and `rseg` set to that segment, whose state is
`TRX_ACTIVE` when the undo log state is `TRX_UNDO_ACTIVE`, `TRX_PREPARED` when
it is `TRX_UNDO_PREPARED` and recovery is `IB_RECOVERY_DEFAULT` (`TRX_ACTIVE`
under forced recovery), and `TRX_COMMITTED_IN_MEMORY` for every other undo
state; `trx.no` is `LSN_MAX` for an active undo log and the transaction id
otherwise; and `trx.undo_no` is one more than the largest `top_undo_no` among
the undo logs of the transaction that are not empty, 0 when all are empty. -/
theorem C22_trx_lists_init_at_db_start (env : trx0trx.recover_env) (recovery : Nat)
    (rs : trx0trx.recover_state)
    (hfirst : env.insert_logs_first (env.logs rs.st.rseg_list))
    (htop : ∀ l ∈ env.logs rs.st.rseg_list, (env.undos l.undo).top_undo_no + 1 < 2 ^ 64) :
    (trx0trx.trx_lists_init_at_db_start env recovery rs).st.trx_list.length
        = ((env.logs rs.st.rseg_list).map (fun l => (env.undos l.undo).trx_id)).dedup.length
    ∧ ∀ (p : Nat) (l : trx0trx.undo_log_ref), (env.logs rs.st.rseg_list)[p]? = some l →
        (l.is_insert = true
          ∨ ∀ (q : Nat) (l' : trx0trx.undo_log_ref), q < p →
              (env.logs rs.st.rseg_list)[q]? = some l' →
              (env.undos l'.undo).trx_id ≠ (env.undos l.undo).trx_id) →
        ∃ t ∈ (trx0trx.trx_lists_init_at_db_start env recovery rs).st.trx_list,
          env.made_from recovery l
              ((trx0trx.trx_lists_init_at_db_start env recovery rs).st.trxs t)
            ∧ ((trx0trx.trx_lists_init_at_db_start env recovery rs).st.trxs t).undo_no
                = env.undo_no_of
                    (env.logs_of (env.logs rs.st.rseg_list) (env.undos l.undo).trx_id)
            ∧ ∀ t' ∈ (trx0trx.trx_lists_init_at_db_start env recovery rs).st.trx_list,
                ((trx0trx.trx_lists_init_at_db_start env recovery rs).st.trxs t').id
                    = (env.undos l.undo).trx_id → t' = t := by
  have hinit : env.rebuilt recovery []
      { rs with st := { rs.st with trx_list := [] } } := by
    refine ⟨?_, List.nodup_nil, ?_, ?_, ?_⟩
    · intro t ht
      cases ht
    · intro t ht
      cases ht
    · intro l hl
      cases hl
    · intro t ht
      cases ht
  have hinv := trx0trx.rebuilt_foldl env recovery (env.logs rs.st.rseg_list) []
    { rs with st := { rs.st with trx_list := [] } } hinit
    (by rw [List.nil_append]; exact hfirst) htop
  rw [List.nil_append, ← trx0trx.trx_lists_init_at_db_start_eq] at hinv
  obtain ⟨_, i2, i3, i4, i5⟩ := hinv
  constructor
  · have hnd : ((trx0trx.trx_lists_init_at_db_start env recovery rs).st.trx_list.map
        (fun t => ((trx0trx.trx_lists_init_at_db_start env recovery rs).st.trxs t).id)).Nodup :=
      List.Nodup.map_on i3 i2
    have hperm : ((trx0trx.trx_lists_init_at_db_start env recovery rs).st.trx_list.map
        (fun t => ((trx0trx.trx_lists_init_at_db_start env recovery rs).st.trxs t).id)).Perm
        ((env.logs rs.st.rseg_list).map (fun l => (env.undos l.undo).trx_id)).dedup := by
      rw [List.perm_ext_iff_of_nodup hnd (List.nodup_dedup _)]
      intro x
      rw [List.mem_dedup, List.mem_map, List.mem_map]
      constructor
      · rintro ⟨t, ht, hx⟩
        obtain ⟨l0, h1, _, _⟩ := i5 t ht
        have hl0 := List.mem_of_mem_head? h1
        unfold trx0trx.recover_env.logs_of at hl0
        obtain ⟨hl0m, hl0i⟩ := List.mem_filter.mp hl0
        exact ⟨l0, hl0m, by rw [← hx]; exact of_decide_eq_true hl0i⟩
      · rintro ⟨l, hl, hx⟩
        obtain ⟨t, ht, hti⟩ := i4 l hl
        exact ⟨t, ht, by rw [← hx]; exact hti⟩
    have := hperm.length_eq
    rw [List.length_map] at this
    exact this
  · intro p l hp hcreates
    have hl : l ∈ env.logs rs.st.rseg_list := List.mem_iff_getElem?.mpr ⟨p, hp⟩
    obtain ⟨t, ht, hti⟩ := i4 l hl
    obtain ⟨l0, h1, h2, h3⟩ := i5 t ht
    have hhead : (env.logs_of (env.logs rs.st.rseg_list) (env.undos l.undo).trx_id).head?
        = some l := by
      unfold trx0trx.recover_env.logs_of
      apply head?_filter_first _ _ p l hp (by simp)
      intro q l' hq hql
      have hne : (env.undos l'.undo).trx_id ≠ (env.undos l.undo).trx_id := by
        rcases hcreates with hi | hothers
        · exact hfirst p q hq l l' hp hql hi
        · exact hothers q l' hq hql
      simpa using hne
    rw [hti, hhead] at h1
    injection h1 with h1
    rw [hti] at h3
    refine ⟨t, ht, by rw [h1]; exact h2, h3, ?_⟩
    intro t' ht' hid'
    exact i3 t' ht' t ht (by rw [hid', hti])

/-- The undo logs of the sample: the insert undo log of the transaction 7, its
update undo log, and the update undo log of the transaction 5; the table
rebuilt from them holds the transaction 7 at address 100 and the transaction 5
at address 101, in this order. -/
theorem trx0trx.sample_recover_logs :
    trx0trx.sample_recover_env.logs trx0trx.sample_recover_state.st.rseg_list
        = [⟨⟨0⟩, true, 10⟩, ⟨⟨0⟩, false, 20⟩, ⟨⟨0⟩, false, 21⟩]
      ∧ (trx0trx.trx_lists_init_at_db_start trx0trx.sample_recover_env
          trx0trx.IB_RECOVERY_DEFAULT trx0trx.sample_recover_state).st.trx_list = [100, 101]
      ∧ ((trx0trx.trx_lists_init_at_db_start trx0trx.sample_recover_env
          trx0trx.IB_RECOVERY_DEFAULT trx0trx.sample_recover_state).st.trxs 100).undo_no = 10
      ∧ ((trx0trx.trx_lists_init_at_db_start trx0trx.sample_recover_env
          trx0trx.IB_RECOVERY_DEFAULT trx0trx.sample_recover_state).st.trxs 101).conc_state
          = TRX_PREPARED := by
  decide

/-- The theorem `C22_trx_lists_init_at_db_start` at the sample undo logs: the
table rebuilt holds two transactions, and one of them has the id 7 of the
insert undo log, is active on the rollback segment 0 with the number
`LSN_MAX`, and has the undo number 10, one more than the top undo number 9 of
its update undo log. -/
theorem C22_trx_lists_init_at_db_start_witness :
    (trx0trx.trx_lists_init_at_db_start trx0trx.sample_recover_env
        trx0trx.IB_RECOVERY_DEFAULT trx0trx.sample_recover_state).st.trx_list.length = 2
    ∧ ∃ t ∈ (trx0trx.trx_lists_init_at_db_start trx0trx.sample_recover_env
          trx0trx.IB_RECOVERY_DEFAULT trx0trx.sample_recover_state).st.trx_list,
        ((trx0trx.trx_lists_init_at_db_start trx0trx.sample_recover_env
            trx0trx.IB_RECOVERY_DEFAULT trx0trx.sample_recover_state).st.trxs t).id = 7
        ∧ ((trx0trx.trx_lists_init_at_db_start trx0trx.sample_recover_env
            trx0trx.IB_RECOVERY_DEFAULT trx0trx.sample_recover_state).st.trxs t).conc_state
            = TRX_ACTIVE
        ∧ ((trx0trx.trx_lists_init_at_db_start trx0trx.sample_recover_env
            trx0trx.IB_RECOVERY_DEFAULT trx0trx.sample_recover_state).st.trxs t).no = LSN_MAX
        ∧ ((trx0trx.trx_lists_init_at_db_start trx0trx.sample_recover_env
            trx0trx.IB_RECOVERY_DEFAULT trx0trx.sample_recover_state).st.trxs t).undo_no
            = 10 := by
  have hlogs := trx0trx.sample_recover_logs.1
  have hfirst : trx0trx.sample_recover_env.insert_logs_first
      (trx0trx.sample_recover_env.logs trx0trx.sample_recover_state.st.rseg_list) := by
    rw [hlogs]
    intro p q hq l l' hp hql hi
    have hp0 : p = 0 := by
      match p, hp with
      | 0, _ => rfl
      | 1, hp => simp at hp; rw [← hp] at hi; cases hi
      | 2, hp => simp at hp; rw [← hp] at hi; cases hi
      | n + 3, hp => simp at hp
    omega
  have htop : ∀ l ∈ trx0trx.sample_recover_env.logs trx0trx.sample_recover_state.st.rseg_list,
      (trx0trx.sample_recover_env.undos l.undo).top_undo_no + 1 < 2 ^ 64 := by
    rw [hlogs]
    decide
  obtain ⟨h1, h2⟩ := C22_trx_lists_init_at_db_start trx0trx.sample_recover_env
    trx0trx.IB_RECOVERY_DEFAULT trx0trx.sample_recover_state hfirst htop
  refine ⟨?_, ?_⟩
  · rw [h1, hlogs]
    decide
  · obtain ⟨t, ht, hm, hu, _⟩ := h2 0 ⟨⟨0⟩, true, 10⟩ (by rw [hlogs]; rfl) (Or.inl rfl)
    refine ⟨t, ht, hm.1, hm.2.2.2.1, hm.2.2.2.2, ?_⟩
    rw [hu, hlogs]
    decide

/-! ## Claim C24: what `store_position` stores -/

/-- A list of different numbers below `n` has `n` elements at most. -/
theorem nodup_length_le (l : List Nat) (n : Nat) (hnd : l.Nodup) (h : ∀ x ∈ l, x < n) :
    l.length ≤ n := by
  have hsub : l.toFinset ⊆ Finset.range n := by
    intro x hx
    simp at hx ⊢
    exact h x hx
  have hc := Finset.card_le_card hsub
  rwa [List.toFinset_card_of_nodup hnd, Finset.card_range] at hc

/-- A next record that `page_rec_get_next` returns is inside the page. -/
theorem page_rec_get_next_lt (env : page_env) (page : Mem) (a b : Nat)
    (h : page_rec_get_next env page a = some b) : b < UNIV_PAGE_SIZE := by
  unfold page_rec_get_next page_rec_get_next_low at h
  simp only at h
  split_ifs at h with h1 h2
  · injection h with h; subst h; decide
  · injection h with h; omega

/-- In the loop of `page_rec_get_prev_const`, the flag `comp` is 1 or 0 as the
page is compact or not, and the next record is the one of `page_rec_get_next`. -/
theorem page_rec_get_next_low_flag (env : page_env) (page : Mem) (a : Nat) :
    page_rec_get_next_low env page a (if page_is_comp page ≠ 0 then 1 else 0)
      = page_rec_get_next env page a := by
  unfold page_rec_get_next page_rec_get_next_low
  by_cases h : page_is_comp page = 0
  · simp [h]
  · simp [h]

/-- The offsets of the infimum and of the supremum are inside the page and not
0. -/
theorem page_infimum_supremum_facts (page : Mem) :
    page_get_infimum_offset page < UNIV_PAGE_SIZE ∧ page_get_infimum_offset page ≠ 0
      ∧ page_get_supremum_offset page < UNIV_PAGE_SIZE ∧ page_get_supremum_offset page ≠ 0
      ∧ page_rec_is_supremum_low (page_get_supremum_offset page) = true
      ∧ page_rec_is_infimum_low (page_get_supremum_offset page) = false
      ∧ page_rec_is_infimum_low (page_get_infimum_offset page) = true
      ∧ page_rec_is_supremum_low (page_get_infimum_offset page) = false := by
  unfold page_get_infimum_offset page_get_supremum_offset
  by_cases h : page_is_comp page = 0
  · simp [h]; decide
  · simp [h]; decide

/-- The loop of `page_rec_get_prev_const`, started at a record `rec2` from which
the links lead through `rest` to the record `rec_`, ends at `rec_` with the
record before it, when it is given enough rounds. -/
theorem page_rec_get_prev_const_loop_spec (env : page_env) (page : Mem) (rec_ : Nat) :
    ∀ (rest : List Nat) (fuel rec2 prev_rec : Nat),
      page_recs_linked env page (rec2 :: rest ++ [rec_]) →
      rec_ ∉ rec2 :: rest → (∀ x ∈ rec2 :: rest, x ≠ 0) → rest.length + 2 ≤ fuel →
      page_rec_get_prev_const_loop env page (if page_is_comp page ≠ 0 then 1 else 0) rec_
          fuel rec2 prev_rec
        = (rec2 :: rest).getLast? := by
  intro rest
  induction rest with
  | nil =>
    intro fuel rec2 prev_rec hl hnot hnz hfuel
    obtain ⟨f, rfl⟩ : ∃ f, fuel = f + 2 := ⟨fuel - 2, by simp at hfuel; omega⟩
    simp only [page_recs_linked, List.nil_append, List.cons_append, List.chain'_cons,
      List.chain'_singleton, and_true] at hl
    have h1 : rec_ ≠ rec2 := by simpa using hnot
    have h2 : rec2 ≠ 0 := hnz rec2 (by simp)
    unfold page_rec_get_prev_const_loop
    rw [if_pos h1, if_neg h2, page_rec_get_next_low_flag, hl]
    simp only
    unfold page_rec_get_prev_const_loop
    simp
  | cons x rest ih =>
    intro fuel rec2 prev_rec hl hnot hnz hfuel
    obtain ⟨f, rfl⟩ : ∃ f, fuel = f + 1 := ⟨fuel - 1, by simp at hfuel; omega⟩
    simp only [page_recs_linked, List.cons_append, List.chain'_cons] at hl
    have h1 : rec_ ≠ rec2 := by
      intro e; apply hnot; simp [e]
    have h2 : rec2 ≠ 0 := hnz rec2 (by simp)
    unfold page_rec_get_prev_const_loop
    rw [if_pos h1, if_neg h2, page_rec_get_next_low_flag, hl.1]
    simp only
    rw [ih f x rec2 hl.2 (by intro e; apply hnot; simp at e ⊢; tauto)
      (by intro y hy; exact hnz y (by simp at hy ⊢; tauto)) (by simp at hfuel ⊢; omega)]
    simp [List.getLast?_cons_cons]

/-- In a chain, every element but the first is related to one before it. -/
theorem chain_pred {α : Type} (R : α → α → Prop) :
    ∀ (l : List α) (a : α), List.Chain' R (a :: l) → ∀ x ∈ l, ∃ y, R y x := by
  intro l
  induction l with
  | nil => intro a _ x hx; cases hx
  | cons b t ih =>
    intro a h x hx
    rw [List.chain'_cons] at h
    rcases List.mem_cons.mp hx with rfl | hx
    · exact ⟨a, h.1⟩
    · exact ih b h.2 x hx

/-- The records of a page with the user records `recs` are inside the page and
not at the offset 0. -/
theorem page_has_recs_bounds (env : page_env) (page : Mem) (recs : List Nat)
    (h : page_has_recs env page recs) :
    ∀ x ∈ page_get_infimum_offset page :: recs ++ [page_get_supremum_offset page],
      x < UNIV_PAGE_SIZE ∧ x ≠ 0 := by
  obtain ⟨hl, hnd, hu, hn, hs, hd⟩ := h
  have hf := page_infimum_supremum_facts page
  intro x hx
  simp only [List.cons_append, List.mem_cons, List.mem_append, List.mem_singleton,
    List.not_mem_nil, or_false] at hx
  rcases hx with rfl | hx | rfl
  · exact ⟨hf.1, hf.2.1⟩
  · refine ⟨?_, ?_⟩
    · obtain ⟨y, hy⟩ := chain_pred _ _ _ hl x (List.mem_append_left _ hx)
      exact page_rec_get_next_lt env page _ _ hy
    · have := (hu x hx).1
      unfold PAGE_DATA PAGE_HEADER at this
      intro e
      rw [e] at this
      revert this
      decide
  · exact ⟨hf.2.2.1, hf.2.2.2.1⟩

/-- On a page with the user records `recs`, not empty, `page_rec_get_prev` of
the supremum is the last of them. -/
theorem page_rec_get_prev_supremum (env : page_env) (page : Mem) (recs : List Nat)
    (h : page_has_recs env page recs) (hne : recs ≠ []) :
    ∃ r, recs.getLast? = some r ∧ r ≠ 0
      ∧ page_rec_get_prev env page (page_get_supremum_offset page) = some r := by
  have hb := page_has_recs_bounds env page recs h
  obtain ⟨hl, hnd, hu, hn, hs, hd⟩ := h
  obtain ⟨pre, rest, hsplit⟩ := List.append_of_mem hd
  have hchain : page_get_infimum_offset page :: recs ++ [page_get_supremum_offset page]
      = pre ++ (page_dir_slot_get_rec page (page_dir_get_nth_slot
          (env.page_dir_find_owner_slot page (page_get_supremum_offset page) - 1))
        :: rest ++ [page_get_supremum_offset page]) := by
    rw [hsplit]
    simp
  have hlen : (page_get_infimum_offset page :: recs ++ [page_get_supremum_offset page]).length
      ≤ UNIV_PAGE_SIZE :=
    nodup_length_le _ _ hnd (fun x hx => (hb x hx).1)
  have hl2 : page_recs_linked env page
      (page_dir_slot_get_rec page (page_dir_get_nth_slot
          (env.page_dir_find_owner_slot page (page_get_supremum_offset page) - 1))
        :: rest ++ [page_get_supremum_offset page]) := by
    unfold page_recs_linked at hl ⊢
    rw [hchain] at hl
    exact (List.chain'_append.mp hl).2.1
  have hnot : page_get_supremum_offset page ∉
      page_dir_slot_get_rec page (page_dir_get_nth_slot
          (env.page_dir_find_owner_slot page (page_get_supremum_offset page) - 1)) :: rest := by
    intro hm
    have hm2 : page_get_supremum_offset page ∈ page_get_infimum_offset page :: recs := by
      rw [hsplit]
      exact List.mem_append_right _ hm
    have := (List.nodup_append.mp hnd).2.2
    exact this hm2 (List.mem_singleton_self _)
  have hnz : ∀ x ∈ page_dir_slot_get_rec page (page_dir_get_nth_slot
          (env.page_dir_find_owner_slot page (page_get_supremum_offset page) - 1)) :: rest,
      x ≠ 0 := by
    intro x hx
    refine (hb x ?_).2
    rw [hsplit]
    exact List.mem_append_left _ (List.mem_append_right _ hx)
  have hfuel : rest.length + 2 ≤ UNIV_PAGE_SIZE := by
    rw [hchain] at hlen
    simp at hlen
    omega
  have hloop := page_rec_get_prev_const_loop_spec env page (page_get_supremum_offset page)
    rest UNIV_PAGE_SIZE _ 0 hl2 hnot hnz hfuel
  have hlast : (page_dir_slot_get_rec page (page_dir_get_nth_slot
          (env.page_dir_find_owner_slot page (page_get_supremum_offset page) - 1))
        :: rest).getLast? = recs.getLast? := by
    have e1 : (page_get_infimum_offset page :: recs).getLast? = recs.getLast? := by
      cases recs with
      | nil => exact absurd rfl hne
      | cons a t => simp [List.getLast?_cons_cons]
    rw [← e1, hsplit]
    exact (List.getLast?_append_of_ne_nil pre (List.cons_ne_nil _ _)).symm
  obtain ⟨r, hr⟩ : ∃ r, recs.getLast? = some r := by
    cases hg : recs.getLast? with
    | none => simp at hg; exact absurd hg hne
    | some r => exact ⟨r, rfl⟩
  have hrm : r ∈ recs := List.mem_of_getLast?_eq_some hr
  have hr0 : r ≠ 0 := (hb r (by simp [hrm])).2
  refine ⟨r, hr, hr0, ?_⟩
  unfold page_rec_get_prev page_rec_get_prev_const
  simp only [if_neg hs]
  rw [hlast, hr] at hloop
  by_cases hc : page_is_comp page = 0
  · simp only [hc, ne_eq, not_true_eq_false, if_false] at hloop ⊢
    rw [hloop]
    simp [hr0]
  · simp only [hc, ne_eq, not_false_eq_true, if_true] at hloop ⊢
    rw [hloop]
    simp [hr0]

/-- On a page with the user records `recs`, not empty, `page_rec_get_next` of
the infimum is the first of them. -/
theorem page_rec_get_next_infimum (env : page_env) (page : Mem) (recs : List Nat)
    (h : page_has_recs env page recs) (hne : recs ≠ []) :
    ∃ r, recs.head? = some r ∧ r ≠ 0
      ∧ page_rec_get_next env page (page_get_infimum_offset page) = some r := by
  have hb := page_has_recs_bounds env page recs h
  obtain ⟨hl, hnd, hu, hn, hs, hd⟩ := h
  cases recs with
  | nil => exact absurd rfl hne
  | cons a t =>
    refine ⟨a, rfl, (hb a (by simp)).2, ?_⟩
    unfold page_recs_linked at hl
    simp only [List.cons_append, List.chain'_cons] at hl
    exact hl.1

/-- A user record is neither the supremum nor the infimum. -/
theorem page_rec_is_user_rec_low_facts (r : Nat) (h : page_rec_is_user_rec_low r = true) :
    page_rec_is_supremum_low r = false ∧ page_rec_is_infimum_low r = false := by
  unfold page_rec_is_user_rec_low at h
  unfold page_rec_is_supremum_low page_rec_is_infimum_low
  simp at h ⊢
  tauto

/-- What `store_position` does on a page without user records: it sets
`m_old_stored` and the relative position, and nothing else. -/
theorem btr0pcur.store_position_empty (env : btr0pcur.pcur_env) (c : btr0pcur.btr_pcur_t)
    (hpos : c.m_pos_state = btr0pcur.Btr_pcur_positioned.IS_POSITIONED)
    (hlatch : c.m_latch_mode ≠ btr0pcur.BTR_NO_LATCHES)
    (hpage : page_has_recs env.page (btr0pcur.get_page env c) [])
    (hon : btr0pcur.get_rec c ∈ page_get_infimum_offset (btr0pcur.get_page env c) :: []
        ++ [page_get_supremum_offset (btr0pcur.get_page env c)])
    (hnext : env.btr_page_get_next (btr0pcur.get_page env c) = FIL_NULL)
    (hprev : env.btr_page_get_prev (btr0pcur.get_page env c) = FIL_NULL) :
    btr0pcur.store_position env c
      = some { c with
          m_old_stored := true,
          m_rel_pos :=
            if btr0pcur.get_rec c = page_get_supremum_offset (btr0pcur.get_page env c) then
              btr0pcur.Btree_cursor_pos.AFTER_LAST_IN_TREE
            else btr0pcur.Btree_cursor_pos.BEFORE_FIRST_IN_TREE } := by
  have hb := page_has_recs_bounds env.page _ _ hpage (btr0pcur.get_rec c) hon
  have hf := page_infimum_supremum_facts (btr0pcur.get_page env c)
  have hn : page_get_n_recs (btr0pcur.get_page env c) = 0 := by
    rw [hpage.2.2.2.1]; rfl
  have hoff : page_offset (btr0pcur.get_rec c) = btr0pcur.get_rec c := by
    unfold page_offset
    exact Nat.mod_eq_of_lt hb.1
  have hsup : (page_rec_is_supremum_low (btr0pcur.get_rec c) = true)
      ↔ btr0pcur.get_rec c = page_get_supremum_offset (btr0pcur.get_page env c) := by
    simp only [List.nil_append, List.cons_append, List.mem_cons, List.mem_singleton,
      List.not_mem_nil, or_false] at hon
    rcases hon with e | e
    · rw [e]
      constructor
      · intro h; rw [hf.2.2.2.2.2.2.2] at h; cases h
      · intro h
        exfalso
        have hnd := hpage.2.1
        simp at hnd
        exact hnd h
    · rw [e]; simp [hf.2.2.2.2.1]
  unfold btr0pcur.store_position
  simp only [hpos, ne_eq, not_true_eq_false, if_false, if_neg hlatch, hn, if_true, hnext, hprev,
    hoff]
  by_cases hs : btr0pcur.get_rec c = page_get_supremum_offset (btr0pcur.get_page env c)
  · rw [if_pos (hsup.mpr hs), if_pos hs]
  · rw [if_neg (fun h => hs (hsup.mp h)), if_neg hs]

/-- What `store_position` does on a page with user records: it stores the
relative position, the copy of the prefix of a user record `r`, the block and
its modify clock, where `r` is the record under the cursor for a cursor on a
user record, the last user record for a cursor on the supremum, and the first
one for a cursor on the infimum. -/
theorem btr0pcur.store_position_recs (env : btr0pcur.pcur_env) (c : btr0pcur.btr_pcur_t)
    (recs : List Nat)
    (hpos : c.m_pos_state = btr0pcur.Btr_pcur_positioned.IS_POSITIONED)
    (hlatch : c.m_latch_mode ≠ btr0pcur.BTR_NO_LATCHES)
    (hpage : page_has_recs env.page (btr0pcur.get_page env c) recs)
    (hon : btr0pcur.get_rec c ∈ page_get_infimum_offset (btr0pcur.get_page env c) :: recs
        ++ [page_get_supremum_offset (btr0pcur.get_page env c)])
    (hne : recs ≠ []) :
    ∃ r ∈ recs, ∃ rel_pos,
      btr0pcur.store_position env c
        = some { c with
            m_rel_pos := rel_pos,
            m_old_stored := true,
            m_old_rec :=
              some (env.dict_index_copy_rec_order_prefix (btr0pcur.get_page env c) r).1,
            m_old_n_fields :=
              (env.dict_index_copy_rec_order_prefix (btr0pcur.get_page env c) r).2,
            m_block_when_stored := btr0pcur.get_block c,
            m_modify_clock := (env.blocks (btr0pcur.get_block c)).modify_clock }
      ∧ (btr0pcur.get_rec c ∈ recs →
          rel_pos = btr0pcur.Btree_cursor_pos.ON ∧ r = btr0pcur.get_rec c)
      ∧ (btr0pcur.get_rec c = page_get_supremum_offset (btr0pcur.get_page env c) →
          rel_pos = btr0pcur.Btree_cursor_pos.AFTER ∧ recs.getLast? = some r)
      ∧ (btr0pcur.get_rec c = page_get_infimum_offset (btr0pcur.get_page env c) →
          rel_pos = btr0pcur.Btree_cursor_pos.BEFORE ∧ recs.head? = some r) := by
  have hb := page_has_recs_bounds env.page _ _ hpage (btr0pcur.get_rec c) hon
  have hf := page_infimum_supremum_facts (btr0pcur.get_page env c)
  have hn : page_get_n_recs (btr0pcur.get_page env c) ≠ 0 := by
    rw [hpage.2.2.2.1]
    intro h
    exact hne (List.length_eq_zero.mp h)
  have hoff : page_offset (btr0pcur.get_rec c) = btr0pcur.get_rec c := by
    unfold page_offset
    exact Nat.mod_eq_of_lt hb.1
  have hnd := hpage.2.1
  have hu := hpage.2.2.1
  have hinf_not : page_get_infimum_offset (btr0pcur.get_page env c) ∉ recs := by
    intro h
    have := (hu _ h).2
    have := (page_rec_is_user_rec_low_facts _ this).2
    rw [hf.2.2.2.2.2.2.1] at this
    cases this
  have hsup_not : page_get_supremum_offset (btr0pcur.get_page env c) ∉ recs := by
    intro h
    have := (hu _ h).2
    have := (page_rec_is_user_rec_low_facts _ this).1
    rw [hf.2.2.2.2.1] at this
    cases this
  have hinf_sup : page_get_infimum_offset (btr0pcur.get_page env c)
      ≠ page_get_supremum_offset (btr0pcur.get_page env c) := by
    intro e
    have := hf.2.2.2.2.2.2.2
    rw [e, hf.2.2.2.2.1] at this
    cases this
  simp only [List.cons_append, List.mem_cons, List.mem_append, List.mem_singleton,
    List.not_mem_nil, or_false] at hon
  unfold btr0pcur.store_position
  simp only [hpos, ne_eq, not_true_eq_false, if_false, if_neg hlatch, if_neg hn, hoff]
  rcases hon with e | e | e
  · -- on the infimum
    obtain ⟨r, hr, hr0, hnext⟩ := page_rec_get_next_infimum env.page _ recs hpage hne
    refine ⟨r, List.mem_of_mem_head? hr, btr0pcur.Btree_cursor_pos.BEFORE, ?_, ?_, ?_, ?_⟩
    · unfold btr0pcur.store_position_rec
      rw [e, hf.2.2.2.2.2.2.2, hf.2.2.2.2.2.2.1, hnext]
      simp [hr0]
    · intro h; rw [e] at h; exact absurd h hinf_not
    · intro h; rw [e] at h; exact absurd h hinf_sup
    · intro _; exact ⟨rfl, hr⟩
  · -- on a user record
    have hur := page_rec_is_user_rec_low_facts _ (hu _ e).2
    refine ⟨btr0pcur.get_rec c, e, btr0pcur.Btree_cursor_pos.ON, ?_, ?_, ?_, ?_⟩
    · unfold btr0pcur.store_position_rec
      rw [hur.1, hur.2]
      simp
    · intro _; exact ⟨rfl, rfl⟩
    · intro h; rw [h] at e; exact absurd e hsup_not
    · intro h; rw [h] at e; exact absurd e hinf_not
  · -- on the supremum
    obtain ⟨r, hr, hr0, hprev⟩ := page_rec_get_prev_supremum env.page _ recs hpage hne
    refine ⟨r, List.mem_of_getLast?_eq_some hr, btr0pcur.Btree_cursor_pos.AFTER, ?_, ?_, ?_, ?_⟩
    · unfold btr0pcur.store_position_rec
      rw [e, hf.2.2.2.2.1, hprev]
      simp [hr0]
    · intro h; rw [e] at h; exact absurd h hsup_not
    · intro _; exact ⟨rfl, hr⟩
    · intro h; rw [e] at h; exact absurd h.symm hinf_sup

/-- Claim C24, with the page without user records apart: on a positioned,
latched cursor that is on a record of an index page with the user records
`recs`, `store_position` returns with `old_stored` set, and
on a page with user records the cursor then holds the relative position, the
copy of the ordering-field prefix of a user record `r` with its number of
fields, the current block and the modify clock of that block, where on a user
record the relative position is `ON` and `r` is that record, on the supremum it
is `AFTER` and `r` is the last user record, on the infimum it is `BEFORE` and
`r` is the first user record;
on a page without user records the relative position is `AFTER_LAST_IN_TREE`
on the supremum and `BEFORE_FIRST_IN_TREE` otherwise, and the stored record,
its number of fields, the stored block and the stored modify clock are the
ones the cursor had before the call. -/
theorem C24_store_position (env : btr0pcur.pcur_env) (c : btr0pcur.btr_pcur_t)
    (recs : List Nat)
    (hpos : c.m_pos_state = btr0pcur.Btr_pcur_positioned.IS_POSITIONED)
    (hlatch : c.m_latch_mode ≠ btr0pcur.BTR_NO_LATCHES)
    (hpage : page_has_recs env.page (btr0pcur.get_page env c) recs)
    (hon : btr0pcur.get_rec c ∈ page_get_infimum_offset (btr0pcur.get_page env c) :: recs
        ++ [page_get_supremum_offset (btr0pcur.get_page env c)])
    (hroot : recs = [] → env.btr_page_get_next (btr0pcur.get_page env c) = FIL_NULL
        ∧ env.btr_page_get_prev (btr0pcur.get_page env c) = FIL_NULL) :
    ∃ c', btr0pcur.store_position env c = some c'
      ∧ c'.m_old_stored = true
      ∧ c'.m_btr_cur = c.m_btr_cur
      ∧ (recs ≠ [] →
          c'.m_block_when_stored = btr0pcur.get_block c
          ∧ c'.m_modify_clock = (env.blocks (btr0pcur.get_block c)).modify_clock
          ∧ ∃ r ∈ recs,
              c'.m_old_rec
                  = some (env.dict_index_copy_rec_order_prefix (btr0pcur.get_page env c) r).1
              ∧ c'.m_old_n_fields
                  = (env.dict_index_copy_rec_order_prefix (btr0pcur.get_page env c) r).2
              ∧ (btr0pcur.get_rec c ∈ recs →
                  c'.m_rel_pos = btr0pcur.Btree_cursor_pos.ON ∧ r = btr0pcur.get_rec c)
              ∧ (btr0pcur.get_rec c = page_get_supremum_offset (btr0pcur.get_page env c) →
                  c'.m_rel_pos = btr0pcur.Btree_cursor_pos.AFTER ∧ recs.getLast? = some r)
              ∧ (btr0pcur.get_rec c = page_get_infimum_offset (btr0pcur.get_page env c) →
                  c'.m_rel_pos = btr0pcur.Btree_cursor_pos.BEFORE ∧ recs.head? = some r))
      ∧ (recs = [] →
          c'.m_rel_pos
              = (if btr0pcur.get_rec c = page_get_supremum_offset (btr0pcur.get_page env c)
                  then btr0pcur.Btree_cursor_pos.AFTER_LAST_IN_TREE
                  else btr0pcur.Btree_cursor_pos.BEFORE_FIRST_IN_TREE)
          ∧ c'.m_old_rec = c.m_old_rec
          ∧ c'.m_old_n_fields = c.m_old_n_fields
          ∧ c'.m_block_when_stored = c.m_block_when_stored
          ∧ c'.m_modify_clock = c.m_modify_clock) := by
  by_cases hne : recs = []
  · subst hne
    have h := btr0pcur.store_position_empty env c hpos hlatch hpage hon (hroot rfl).1
      (hroot rfl).2
    exact ⟨_, h, rfl, rfl, fun h => absurd rfl h, fun _ => ⟨rfl, rfl, rfl, rfl, rfl⟩⟩
  · obtain ⟨r, hr, rel_pos, h, h1, h2, h3⟩ :=
      btr0pcur.store_position_recs env c recs hpos hlatch hpage hon hne
    refine ⟨_, h, rfl, rfl, fun _ => ⟨rfl, rfl, r, hr, rfl, rfl, ?_, ?_, ?_⟩,
      fun h => absurd h hne⟩
    · exact h1
    · exact h2
    · exact h3

/-- On the empty page of the sample, a cursor on the supremum that has stored
nothing before is left by `store_position` with `old_stored` set and the
relative position `AFTER_LAST_IN_TREE`, and with no stored record, the null
block as stored block, not the block 2 it is on, and the stored modify clock
0, not the modify clock 3 of that block. -/
theorem C24_empty_page_stores_no_block_and_clock :
    ∃ c', btr0pcur.store_position btr0pcur.sample_pcur_env (btr0pcur.sample_cursor 116 2)
        = some c'
      ∧ page_get_n_recs (btr0pcur.get_page btr0pcur.sample_pcur_env
          (btr0pcur.sample_cursor 116 2)) = 0
      ∧ c'.m_old_stored = true
      ∧ c'.m_rel_pos = btr0pcur.Btree_cursor_pos.AFTER_LAST_IN_TREE
      ∧ c'.m_old_rec = none
      ∧ btr0pcur.get_block (btr0pcur.sample_cursor 116 2) = 2
      ∧ c'.m_block_when_stored = 0
      ∧ (btr0pcur.sample_pcur_env.blocks 2).modify_clock = 3
      ∧ c'.m_modify_clock = 0 := by
  refine ⟨{ btr0pcur.sample_cursor 116 2 with
    m_old_stored := true,
    m_rel_pos := btr0pcur.Btree_cursor_pos.AFTER_LAST_IN_TREE }, ?_, ?_, rfl, rfl, rfl, rfl, rfl,
    rfl, rfl⟩
  · decide
  · decide

/-- The page of the block 1 of the sample has the user records at 140 and
160. -/
theorem btr0pcur.sample_frame_has_recs :
    page_has_recs btr0pcur.sample_pcur_env.page btr0pcur.sample_frame [140, 160] := by
  have hi : page_get_infimum_offset btr0pcur.sample_frame = 101 := by decide
  have hs : page_get_supremum_offset btr0pcur.sample_frame = 116 := by decide
  unfold page_has_recs page_recs_linked
  rw [hi, hs]
  refine ⟨?_, by decide, by decide, by decide, by decide, by decide⟩
  simp only [List.cons_append, List.nil_append, List.chain'_cons, List.chain'_singleton,
    and_true]
  decide

/-- The theorem `C24_store_position` at the page of the sample with the user
records at 140 and 160, for a cursor on the supremum: `store_position` sets
`old_stored`, the relative position `AFTER`, the copy of the prefix of the last
user record, whose key is 5, with its one field, the block 1 and its modify
clock 7. -/
theorem C24_store_position_witness :
    ∃ c', btr0pcur.store_position btr0pcur.sample_pcur_env (btr0pcur.sample_cursor 116 1)
        = some c'
      ∧ c'.m_old_stored = true
      ∧ c'.m_rel_pos = btr0pcur.Btree_cursor_pos.AFTER
      ∧ c'.m_old_rec = some [5]
      ∧ c'.m_old_n_fields = 1
      ∧ c'.m_block_when_stored = 1
      ∧ c'.m_modify_clock = 7 := by
  obtain ⟨c', h, h1, _, h2, _⟩ := C24_store_position btr0pcur.sample_pcur_env
    (btr0pcur.sample_cursor 116 1) [140, 160] rfl (by decide)
    btr0pcur.sample_frame_has_recs (by decide) (by intro h; cases h)
  obtain ⟨hb, hm, r, _, hr1, hr2, _, hs, _⟩ := h2 (by simp)
  obtain ⟨hrel, hlast⟩ := hs (by decide)
  have hr : r = 160 := by
    simp at hlast
    exact hlast.symm
  subst hr
  exact ⟨c', h, h1, hrel, hr1, hr2, hb, hm⟩

/-! ## Claim C23: what `restore_position` returns -/

/-- On a positioned, latched cursor that is on a record of an index page,
`store_position` returns; it sets `old_stored` and does not move the cursor. -/
theorem btr0pcur.store_position_returns (env : btr0pcur.pcur_env) (c : btr0pcur.btr_pcur_t)
    (hpos : c.m_pos_state = btr0pcur.Btr_pcur_positioned.IS_POSITIONED)
    (hlatch : c.m_latch_mode ≠ btr0pcur.BTR_NO_LATCHES)
    (hon : btr0pcur.on_index_page env c) :
    ∃ c', btr0pcur.store_position env c = some c'
      ∧ c'.m_btr_cur = c.m_btr_cur ∧ c'.m_old_stored = true := by
  obtain ⟨recs, hpage, hmem, hroot⟩ := hon
  by_cases hne : recs = []
  · subst hne
    exact ⟨_, btr0pcur.store_position_empty env c hpos hlatch hpage hmem (hroot rfl).1
      (hroot rfl).2, rfl, rfl⟩
  · obtain ⟨r, _, rel_pos, h, _⟩ :=
      btr0pcur.store_position_recs env c recs hpos hlatch hpage hmem hne
    exact ⟨_, h, rfl, rfl⟩

/-- The second half of `restore_position`: the search is made with the mode
that the stored relative position gives, the cursor is left where the search
ended, and the value returned is true exactly for a position stored `ON` whose
record is in the index. -/
theorem btr0pcur.restore_position_search_spec (env : btr0pcur.pcur_env)
    (recs : List btr0pcur.page_cur_t) (latch_mode : Nat) (c : btr0pcur.btr_pcur_t)
    (old_rec : List Nat) (calls : List btr0pcur.pcur_call)
    (hlatch : latch_mode ≠ btr0pcur.BTR_NO_LATCHES)
    (hopen : btr0pcur.open_with_no_init_sets env)
    (hle : btr0pcur.search_le_finds env recs latch_mode c
      (env.dict_index_build_data_tuple old_rec c.m_old_n_fields))
    (hland : btr0pcur.on_index_page env
      (env.open_with_no_init (env.dict_index_build_data_tuple old_rec c.m_old_n_fields)
        (btr0pcur.restore_search_mode c.m_rel_pos) latch_mode c)) :
    ∃ ret c',
      btr0pcur.restore_position_search env latch_mode c old_rec calls
        = some (ret, c', calls ++ [btr0pcur.pcur_call.open_with_no_init
            (env.dict_index_build_data_tuple old_rec c.m_old_n_fields)
            (btr0pcur.restore_search_mode c.m_rel_pos) latch_mode])
      ∧ c'.m_btr_cur
          = (env.open_with_no_init (env.dict_index_build_data_tuple old_rec c.m_old_n_fields)
              (btr0pcur.restore_search_mode c.m_rel_pos) latch_mode c).m_btr_cur
      ∧ c'.m_old_stored = true
      ∧ (ret = true ↔ c.m_rel_pos = btr0pcur.Btree_cursor_pos.ON
          ∧ btr0pcur.record_exists env recs
              (env.dict_index_build_data_tuple old_rec c.m_old_n_fields) = true)
      ∧ (ret = true → c'.m_btr_cur.m_page_cur ∈ recs ∧ btr0pcur.is_on_user_rec c' = true
          ∧ env.cmp_dtuple_rec (env.dict_index_build_data_tuple old_rec c.m_old_n_fields)
              (btr0pcur.get_page env c') (btr0pcur.get_rec c') = 0) := by
  obtain ⟨tuple, htuple⟩ : ∃ t, t = env.dict_index_build_data_tuple old_rec c.m_old_n_fields :=
    ⟨_, rfl⟩
  rw [← htuple] at hle hland ⊢
  obtain ⟨c1, hc1⟩ : ∃ c1, c1 = env.open_with_no_init tuple
      (btr0pcur.restore_search_mode c.m_rel_pos) latch_mode c := ⟨_, rfl⟩
  rw [← hc1] at hland ⊢
  obtain ⟨hrel, hpos, hlm⟩ := hopen tuple (btr0pcur.restore_search_mode c.m_rel_pos) latch_mode c
  rw [← hc1] at hrel hpos hlm
  by_cases hcond : c.m_rel_pos = btr0pcur.Btree_cursor_pos.ON
      ∧ btr0pcur.is_on_user_rec c1 = true
      ∧ env.cmp_dtuple_rec tuple (btr0pcur.get_page env c1) (btr0pcur.get_rec c1) = 0
  · have hmode : btr0pcur.restore_search_mode c.m_rel_pos = btr0pcur.PAGE_CUR_LE := by
      rw [hcond.1]; rfl
    have hmem : c1.m_btr_cur.m_page_cur ∈ recs := by
      have := hle.1
      rw [← hmode, ← hc1] at this
      exact this hcond.2.1
    have hex : btr0pcur.record_exists env recs tuple = true := by
      unfold btr0pcur.record_exists
      rw [List.any_eq_true]
      exact ⟨_, hmem, by simpa using hcond.2.2⟩
    refine ⟨true, { c1 with
        m_search_mode := c.m_search_mode,
        m_block_when_stored := btr0pcur.get_block c1,
        m_modify_clock := (env.blocks (btr0pcur.get_block c1)).modify_clock,
        m_old_stored := true }, ?_, rfl, rfl, ?_, ?_⟩
    · unfold btr0pcur.restore_position_search
      simp only [← htuple, ← hc1]
      rw [if_pos ⟨by rw [hrel]; exact hcond.1, hcond.2.1, hcond.2.2⟩]
      rfl
    · simp [hcond.1, hex]
    · intro _
      exact ⟨hmem, hcond.2.1, hcond.2.2⟩
  · obtain ⟨c3, hc3, hcur, hst⟩ := btr0pcur.store_position_returns env
      { c1 with m_search_mode := c.m_search_mode } hpos (by rw [hlm]; exact hlatch) hland
    refine ⟨false, c3, ?_, hcur, hst, ?_, ?_⟩
    · unfold btr0pcur.restore_position_search
      simp only [← htuple, ← hc1]
      rw [if_neg (by
        intro h
        apply hcond
        refine ⟨?_, h.2.1, h.2.2⟩
        rw [← hrel]
        exact h.1), hc3]
    · constructor
      · intro h; cases h
      · intro h
        exfalso
        apply hcond
        have hmode : btr0pcur.restore_search_mode c.m_rel_pos = btr0pcur.PAGE_CUR_LE := by
          rw [h.1]; rfl
        have := hle.2 h.2
        rw [← hmode, ← hc1] at this
        exact ⟨h.1, this⟩
    · intro h; cases h

/-- Claim C23, with the optimistic restoration of the positions `AFTER` and
`BEFORE` apart: for a cursor with a stored position, `restore_position`
returns, and it returns true if and only if the stored relative position is
`ON` and a record of the index compares equal to the tuple of the stored
record; when it returns true the cursor is on a user record of the index that
compares equal to that tuple; when it returns false the cursor is at the left
or right end of the index for `BEFORE_FIRST_IN_TREE` and `AFTER_LAST_IN_TREE`,
it is where it was, with `try_get` as only call, for `AFTER` and `BEFORE` when
the optimistic restoration succeeds, and it is otherwise where the fresh
search ended, made last and with the mode `PAGE_CUR_LE` for `ON`, `PAGE_CUR_G`
for `AFTER`, `PAGE_CUR_L` for `BEFORE`, the position being stored again.
The functions that search are not among the sources: `open_with_no_init`
leaves the stored relative position, positions the cursor and sets the latch
mode; the search with `PAGE_CUR_LE` finds a record of the index that compares
equal to the tuple when there is one; the search ends on a record of an index
page; a position stored `ON` whose block has an unchanged modify clock is
still on its record. -/
theorem C23_restore_position (env : btr0pcur.pcur_env) (recs : List btr0pcur.page_cur_t)
    (latch_mode : Nat) (c : btr0pcur.btr_pcur_t) (old_rec : List Nat)
    (hstored : c.m_old_stored = true)
    (hstate : c.m_pos_state = btr0pcur.Btr_pcur_positioned.WAS_POSITIONED
      ∨ c.m_pos_state = btr0pcur.Btr_pcur_positioned.IS_POSITIONED)
    (hold : c.m_rel_pos ≠ btr0pcur.Btree_cursor_pos.AFTER_LAST_IN_TREE →
      c.m_rel_pos ≠ btr0pcur.Btree_cursor_pos.BEFORE_FIRST_IN_TREE →
      c.m_old_rec = some old_rec ∧ 0 < c.m_old_n_fields)
    (hlatch : latch_mode ≠ btr0pcur.BTR_NO_LATCHES)
    (hopen : btr0pcur.open_with_no_init_sets env)
    (hopt : btr0pcur.optimistic_keeps_record env recs latch_mode c
      (env.dict_index_build_data_tuple old_rec c.m_old_n_fields))
    (hle : btr0pcur.search_le_finds env recs latch_mode c
      (env.dict_index_build_data_tuple old_rec c.m_old_n_fields))
    (hland : btr0pcur.on_index_page env
      (env.open_with_no_init (env.dict_index_build_data_tuple old_rec c.m_old_n_fields)
        (btr0pcur.restore_search_mode c.m_rel_pos) latch_mode c)) :
    ∃ ret c' calls, btr0pcur.restore_position env latch_mode c = some (ret, c', calls)
      ∧ (ret = true ↔ c.m_rel_pos = btr0pcur.Btree_cursor_pos.ON
          ∧ btr0pcur.record_exists env recs
              (env.dict_index_build_data_tuple old_rec c.m_old_n_fields) = true)
      ∧ (ret = true → c'.m_btr_cur.m_page_cur ∈ recs ∧ btr0pcur.is_on_user_rec c' = true
          ∧ env.cmp_dtuple_rec (env.dict_index_build_data_tuple old_rec c.m_old_n_fields)
              (btr0pcur.get_page env c') (btr0pcur.get_rec c') = 0)
      ∧ (ret = false →
          (c.m_rel_pos = btr0pcur.Btree_cursor_pos.BEFORE_FIRST_IN_TREE →
            c'.m_btr_cur = env.btr_cur_open_at_index_side true latch_mode c.m_btr_cur
              ∧ calls = [btr0pcur.pcur_call.btr_cur_open_at_index_side true latch_mode])
          ∧ (c.m_rel_pos = btr0pcur.Btree_cursor_pos.AFTER_LAST_IN_TREE →
            c'.m_btr_cur = env.btr_cur_open_at_index_side false latch_mode c.m_btr_cur
              ∧ calls = [btr0pcur.pcur_call.btr_cur_open_at_index_side false latch_mode])
          ∧ ((c.m_rel_pos = btr0pcur.Btree_cursor_pos.AFTER
                ∨ c.m_rel_pos = btr0pcur.Btree_cursor_pos.BEFORE) →
              btr0pcur.restores_optimistically env latch_mode c = true →
            c'.m_btr_cur = c.m_btr_cur
              ∧ calls = [btr0pcur.pcur_call.try_get latch_mode c.m_block_when_stored
                  c.m_modify_clock])
          ∧ ∀ search_mode,
              (c.m_rel_pos = btr0pcur.Btree_cursor_pos.ON
                  ∧ search_mode = btr0pcur.PAGE_CUR_LE)
                ∨ (c.m_rel_pos = btr0pcur.Btree_cursor_pos.AFTER
                  ∧ search_mode = btr0pcur.PAGE_CUR_G)
                ∨ (c.m_rel_pos = btr0pcur.Btree_cursor_pos.BEFORE
                  ∧ search_mode = btr0pcur.PAGE_CUR_L) →
              btr0pcur.restores_optimistically env latch_mode c = false →
            c'.m_btr_cur
                = (env.open_with_no_init
                    (env.dict_index_build_data_tuple old_rec c.m_old_n_fields)
                    search_mode latch_mode c).m_btr_cur
              ∧ calls.getLast? = some (btr0pcur.pcur_call.open_with_no_init
                  (env.dict_index_build_data_tuple old_rec c.m_old_n_fields)
                  search_mode latch_mode)
              ∧ c'.m_old_stored = true) := by
  have hfirst : ¬ (c.m_old_stored = false
      ∨ (c.m_pos_state ≠ btr0pcur.Btr_pcur_positioned.WAS_POSITIONED
          ∧ c.m_pos_state ≠ btr0pcur.Btr_pcur_positioned.IS_POSITIONED)) := by
    rw [hstored]
    rcases hstate with h | h <;> simp [h]
  have hmode : ∀ search_mode,
      (c.m_rel_pos = btr0pcur.Btree_cursor_pos.ON ∧ search_mode = btr0pcur.PAGE_CUR_LE)
        ∨ (c.m_rel_pos = btr0pcur.Btree_cursor_pos.AFTER ∧ search_mode = btr0pcur.PAGE_CUR_G)
        ∨ (c.m_rel_pos = btr0pcur.Btree_cursor_pos.BEFORE
          ∧ search_mode = btr0pcur.PAGE_CUR_L) →
      search_mode = btr0pcur.restore_search_mode c.m_rel_pos := by
    intro m hm
    rcases hm with ⟨h1, h2⟩ | ⟨h1, h2⟩ | ⟨h1, h2⟩ <;> rw [h1, h2] <;> rfl
  by_cases hside : c.m_rel_pos = btr0pcur.Btree_cursor_pos.AFTER_LAST_IN_TREE
      ∨ c.m_rel_pos = btr0pcur.Btree_cursor_pos.BEFORE_FIRST_IN_TREE
  · -- the position is an end of the index
    refine ⟨false,
      { c with
        m_btr_cur := env.btr_cur_open_at_index_side
          (decide (c.m_rel_pos = btr0pcur.Btree_cursor_pos.BEFORE_FIRST_IN_TREE)) latch_mode
          c.m_btr_cur,
        m_block_when_stored := (env.btr_cur_open_at_index_side
          (decide (c.m_rel_pos = btr0pcur.Btree_cursor_pos.BEFORE_FIRST_IN_TREE)) latch_mode
          c.m_btr_cur).m_page_cur.m_block },
      [btr0pcur.pcur_call.btr_cur_open_at_index_side
        (decide (c.m_rel_pos = btr0pcur.Btree_cursor_pos.BEFORE_FIRST_IN_TREE)) latch_mode],
      ?_, ?_, ?_, ?_⟩
    · unfold btr0pcur.restore_position
      rw [if_neg hfirst, if_pos hside]
      rfl
    · constructor
      · intro h; cases h
      · intro h
        rcases hside with e | e <;> rw [e] at h <;> cases h.1
    · intro h; cases h
    · intro _
      refine ⟨?_, ?_, ?_, ?_⟩
      · intro e; simp [e]
      · intro e; simp [e]
      · intro e; rcases hside with e2 | e2 <;> rw [e2] at e <;> rcases e with e | e <;> cases e
      · intro m hm
        rcases hside with e2 | e2 <;> rw [e2] at hm <;>
          rcases hm with ⟨h1, _⟩ | ⟨h1, _⟩ | ⟨h1, _⟩ <;> cases h1
  · have hs1 : c.m_rel_pos ≠ btr0pcur.Btree_cursor_pos.AFTER_LAST_IN_TREE :=
      fun h => hside (Or.inl h)
    have hs2 : c.m_rel_pos ≠ btr0pcur.Btree_cursor_pos.BEFORE_FIRST_IN_TREE :=
      fun h => hside (Or.inr h)
    obtain ⟨hrec, hn⟩ := hold hs1 hs2
    have hn0 : c.m_old_n_fields ≠ 0 := by omega
    by_cases hoptim : btr0pcur.restores_optimistically env latch_mode c = true
    · -- the optimistic restoration succeeds
      have hl : latch_mode = btr0pcur.BTR_SEARCH_LEAF ∨ latch_mode = btr0pcur.BTR_MODIFY_LEAF := by
        unfold btr0pcur.restores_optimistically at hoptim
        simp at hoptim
        exact hoptim.1
      have ht : env.try_get latch_mode c.m_block_when_stored c.m_modify_clock = true := by
        unfold btr0pcur.restores_optimistically at hoptim
        simp at hoptim
        exact hoptim.2
      by_cases hon : c.m_rel_pos = btr0pcur.Btree_cursor_pos.ON
      · obtain ⟨h1, h2, h3⟩ := hopt hon hoptim
        refine ⟨true, { c with
          m_pos_state := btr0pcur.Btr_pcur_positioned.IS_POSITIONED,
          m_latch_mode := latch_mode },
          [btr0pcur.pcur_call.try_get latch_mode c.m_block_when_stored c.m_modify_clock],
          ?_, ?_, ?_, ?_⟩
        · unfold btr0pcur.restore_position
          rw [if_neg hfirst, if_neg hside]
          simp only [hrec, if_neg hn0, if_pos hl, ht, if_true, if_pos hon]
        · have hex : btr0pcur.record_exists env recs
              (env.dict_index_build_data_tuple old_rec c.m_old_n_fields) = true := by
            unfold btr0pcur.record_exists
            rw [List.any_eq_true]
            exact ⟨_, h1, by simpa using h3⟩
          simp [hon, hex]
        · intro _
          exact ⟨h1, h2, h3⟩
        · intro h; cases h
      · refine ⟨false,
          (if btr0pcur.is_on_user_rec
              { c with m_pos_state := btr0pcur.Btr_pcur_positioned.IS_POSITIONED } = true then
            { c with m_pos_state := btr0pcur.Btr_pcur_positioned.IS_POSITIONED_OPTIMISTIC }
          else { c with m_pos_state := btr0pcur.Btr_pcur_positioned.IS_POSITIONED }),
          [btr0pcur.pcur_call.try_get latch_mode c.m_block_when_stored c.m_modify_clock],
          ?_, ?_, ?_, ?_⟩
        · unfold btr0pcur.restore_position
          rw [if_neg hfirst, if_neg hside]
          simp only [hrec, if_neg hn0, if_pos hl, ht, if_true, if_neg hon]
          split_ifs <;> rfl
        · constructor
          · intro h; cases h
          · intro h; exact absurd h.1 hon
        · intro h; cases h
        · intro _
          refine ⟨fun e => absurd e hs2, fun e => absurd e hs1, ?_, ?_⟩
          · intro _ _
            refine ⟨?_, rfl⟩
            split_ifs <;> rfl
          · intro m _ h
            rw [hoptim] at h
            cases h
    · -- the cursor is opened anew
      have hoptf : btr0pcur.restores_optimistically env latch_mode c = false := by
        simpa using hoptim
      obtain ⟨calls0, hcalls0⟩ : ∃ calls0 : List btr0pcur.pcur_call,
          btr0pcur.restore_position env latch_mode c
            = btr0pcur.restore_position_search env latch_mode c old_rec calls0 := by
        unfold btr0pcur.restore_position
        rw [if_neg hfirst, if_neg hside]
        simp only [hrec, if_neg hn0]
        by_cases hl : latch_mode = btr0pcur.BTR_SEARCH_LEAF
            ∨ latch_mode = btr0pcur.BTR_MODIFY_LEAF
        · have ht : ¬ env.try_get latch_mode c.m_block_when_stored c.m_modify_clock = true := by
            intro ht
            apply hoptim
            unfold btr0pcur.restores_optimistically
            rw [ht]
            rcases hl with hl | hl <;> simp [hl]
          rw [if_pos hl, if_neg ht]
          exact ⟨_, rfl⟩
        · rw [if_neg hl]
          exact ⟨_, rfl⟩
      obtain ⟨ret, c', hres, hcur, hst, hiff, htrue⟩ :=
        btr0pcur.restore_position_search_spec env recs latch_mode c old_rec calls0 hlatch hopen
          hle hland
      refine ⟨ret, c', _, hcalls0.trans hres, hiff, htrue, ?_⟩
      intro _
      refine ⟨fun e => absurd e hs2, fun e => absurd e hs1, ?_, ?_⟩
      · intro _ h
        exact absurd h hoptim
      · intro m hm _
        rw [hmode m hm]
        exact ⟨hcur, by simp, hst⟩

/-- In the sample, a cursor that stored its position on the supremum, with the
relative position `AFTER` and the prefix of the last user record, whose key is
5, and whose block still has the modify clock 7: `restore_position` with
`BTR_SEARCH_LEAF` returns false, with `try_get` as its only call and the
cursor left on the supremum, and the record with the key 5 is in the index. -/
theorem C23_position_stored_after_restores_false :
    btr0pcur.restore_position btr0pcur.sample_pcur_env btr0pcur.BTR_SEARCH_LEAF
        (btr0pcur.sample_stored_cursor 116 btr0pcur.Btree_cursor_pos.AFTER 5 7)
      = some (false,
          { btr0pcur.sample_stored_cursor 116 btr0pcur.Btree_cursor_pos.AFTER 5 7 with
            m_pos_state := btr0pcur.Btr_pcur_positioned.IS_POSITIONED },
          [btr0pcur.pcur_call.try_get btr0pcur.BTR_SEARCH_LEAF 1 7])
    ∧ btr0pcur.stored_tuple btr0pcur.sample_pcur_env
          (btr0pcur.sample_stored_cursor 116 btr0pcur.Btree_cursor_pos.AFTER 5 7)
        = some (btr0pcur.sample_pcur_env.dict_index_build_data_tuple [5] 1)
    ∧ btr0pcur.record_exists btr0pcur.sample_pcur_env btr0pcur.sample_index_recs
        (btr0pcur.sample_pcur_env.dict_index_build_data_tuple [5] 1) = true := by
  refine ⟨?_, rfl, ?_⟩
  · decide
  · decide

/-- The theorem `C23_restore_position` at the sample, for a cursor that stored
its position on the user record at 140, whose key is 2, when the modify clock
of the block was 6: the block has the modify clock 7 now, the search with
`PAGE_CUR_LE` is made, and `restore_position` returns true with the cursor on
the record at 140 of the block 1. -/
theorem C23_restore_position_witness :
    ∃ c' calls,
      btr0pcur.restore_position btr0pcur.sample_pcur_env btr0pcur.BTR_SEARCH_LEAF
          (btr0pcur.sample_stored_cursor 140 btr0pcur.Btree_cursor_pos.ON 2 6)
        = some (true, c', calls)
      ∧ c'.m_btr_cur.m_page_cur ∈ btr0pcur.sample_index_recs
      ∧ btr0pcur.is_on_user_rec c' = true
      ∧ btr0pcur.sample_pcur_env.cmp_dtuple_rec
          (btr0pcur.sample_pcur_env.dict_index_build_data_tuple [2] 1)
          (btr0pcur.get_page btr0pcur.sample_pcur_env c') (btr0pcur.get_rec c') = 0 := by
  obtain ⟨ret, c', calls, h, hiff, htrue, _⟩ := C23_restore_position btr0pcur.sample_pcur_env
    btr0pcur.sample_index_recs btr0pcur.BTR_SEARCH_LEAF
    (btr0pcur.sample_stored_cursor 140 btr0pcur.Btree_cursor_pos.ON 2 6) [2]
    rfl (Or.inl rfl) (fun _ _ => ⟨rfl, by decide⟩) (by decide)
    (fun _ _ _ _ => ⟨rfl, rfl, rfl⟩)
    (fun _ h => absurd h (by decide))
    ⟨fun _ => by decide, fun _ => by decide⟩
    ⟨[140, 160], btr0pcur.sample_frame_has_recs, by decide, by intro h; cases h⟩
  have hret : ret = true := hiff.mpr ⟨rfl, by decide⟩
  subst hret
  exact ⟨c', calls, h, htrue rfl⟩

/-! ## Claim C31: the bounds that `mlog_parse_nbytes` checks -/

/-- Claim C31, with the types that are no width apart and without the end of
the write: for every type up to `MLOG_8BYTES` and every log buffer,
`mlog_parse_nbytes` returns; when it accepts the record, the type is one of
`MLOG_1BYTE`, `MLOG_2BYTES`, `MLOG_4BYTES` and `MLOG_8BYTES`, the parsed offset
is below `UNIV_PAGE_SIZE`, no corrupt log is reported, and a page that is given
changes only in the bytes from the offset on, as many as the width (which is
the number of the type); when it does not accept the record the page is as it
was; and it reports a corrupt log exactly when the two bytes of the offset are
there and either the offset is not below `UNIV_PAGE_SIZE`, or the type is not
`MLOG_8BYTES`, the value is there, and the value does not fit a 1-byte or a
2-byte record or the type is none of `MLOG_1BYTE`, `MLOG_2BYTES`,
`MLOG_4BYTES`. -/
theorem C31_mlog_parse_nbytes (type : Nat) (log : Mem) (ptr end_ptr : Nat) (page : Option Mem)
    (htype : type ≤ MLOG_8BYTES) :
    ∃ out, mlog_parse_nbytes type log ptr end_ptr page = some out
      ∧ (∀ p, out.ptr = some p →
          (type = MLOG_1BYTE ∨ type = MLOG_2BYTES ∨ type = MLOG_4BYTES ∨ type = MLOG_8BYTES)
          ∧ ptr + 2 ≤ end_ptr
          ∧ mach_read_from_2 log ptr < UNIV_PAGE_SIZE
          ∧ out.found_corrupt_log = false
          ∧ ∀ pg, page = some pg →
              ∃ pg', out.page = some pg'
                ∧ ∀ x, x < mach_read_from_2 log ptr ∨ mach_read_from_2 log ptr + type ≤ x →
                    pg' x = pg x)
      ∧ (out.ptr = none → out.page = page)
      ∧ (out.found_corrupt_log = true ↔
          ptr + 2 ≤ end_ptr
          ∧ (mach_read_from_2 log ptr ≥ UNIV_PAGE_SIZE
            ∨ (type ≠ MLOG_8BYTES
              ∧ ∃ val p, mach_parse_compressed log (ptr + 2) end_ptr = some (val, p)
                ∧ ((type = MLOG_1BYTE ∧ val > 0xFF) ∨ (type = MLOG_2BYTES ∧ val > 0xFFFF)
                  ∨ (type ≠ MLOG_1BYTE ∧ type ≠ MLOG_2BYTES ∧ type ≠ MLOG_4BYTES))))) := by
  unfold mlog_parse_nbytes
  rw [if_neg (by omega)]
  by_cases hend : end_ptr < ptr + 2
  · rw [if_pos hend]
    refine ⟨_, rfl, ?_, ?_, ?_⟩
    · intro p h; cases h
    · intro _; rfl
    · constructor
      · intro h; cases h
      · intro h; omega
  rw [if_neg hend]
  dsimp only
  by_cases hoff : mach_read_from_2 log ptr ≥ UNIV_PAGE_SIZE
  · rw [if_pos hoff]
    refine ⟨_, rfl, ?_, ?_, ?_⟩
    · intro p h; cases h
    · intro _; rfl
    · constructor
      · intro _; exact ⟨by omega, Or.inl hoff⟩
      · intro _; rfl
  rw [if_neg hoff]
  by_cases h8 : type = MLOG_8BYTES
  · rw [if_pos h8]
    cases hp : mach_uint64_parse_compressed log (ptr + 2) end_ptr with
    | none =>
      refine ⟨_, rfl, ?_, ?_, ?_⟩
      · intro p h; cases h
      · intro _; rfl
      · constructor
        · intro h; cases h
        · intro h
          rcases h.2 with h | h
          · exact absurd h hoff
          · exact absurd h8 h.1
    | some r =>
      obtain ⟨dval, p'⟩ := r
      refine ⟨_, rfl, ?_, ?_, ?_⟩
      · intro p _
        refine ⟨Or.inr (Or.inr (Or.inr h8)), by omega, by omega, rfl, ?_⟩
        intro pg hpg
        subst hpg
        refine ⟨_, rfl, ?_⟩
        intro x hx
        rw [h8] at hx
        exact mach_write_to_8_frame _ _ _ _ (by unfold MLOG_8BYTES at hx; omega)
      · intro h; cases h
      · constructor
        · intro h; cases h
        · intro h
          rcases h.2 with h | h
          · exact absurd h hoff
          · exact absurd h8 h.1
  rw [if_neg h8]
  cases hp : mach_parse_compressed log (ptr + 2) end_ptr with
  | none =>
    refine ⟨_, rfl, ?_, ?_, ?_⟩
    · intro p h; cases h
    · intro _; rfl
    · constructor
      · intro h; cases h
      · intro h
        rcases h.2 with h | ⟨_, val, p, h, _⟩
        · exact absurd h hoff
        · cases h
  | some r =>
    obtain ⟨val, p'⟩ := r
    dsimp only
    by_cases h1 : type = MLOG_1BYTE
    · rw [if_pos h1]
      by_cases hv : val > 0xFF
      · rw [if_pos hv]
        refine ⟨_, rfl, ?_, ?_, ?_⟩
        · intro p h; cases h
        · intro _; rfl
        · constructor
          · intro _
            exact ⟨by omega, Or.inr ⟨h8, val, p', rfl, Or.inl ⟨h1, hv⟩⟩⟩
          · intro _; rfl
      · rw [if_neg hv]
        refine ⟨_, rfl, ?_, ?_, ?_⟩
        · intro p _
          refine ⟨Or.inl h1, by omega, by omega, rfl, ?_⟩
          intro pg hpg
          subst hpg
          refine ⟨_, rfl, ?_⟩
          intro x hx
          rw [h1] at hx
          exact mach_write_to_1_frame _ _ _ _ (by unfold MLOG_1BYTE at hx; omega)
        · intro h; cases h
        · constructor
          · intro h; cases h
          · intro h
            exfalso
            rcases h.2 with h | ⟨_, v, p, hvp, h⟩
            · exact hoff h
            · injection hvp with hvp
              injection hvp with e1 e2
              subst e1
              rcases h with h | h | h
              · exact hv h.2
              · rw [h1] at h; exact absurd h.1 (by decide)
              · exact h.1 h1
    rw [if_neg h1]
    by_cases h2 : type = MLOG_2BYTES
    · rw [if_pos h2]
      by_cases hv : val > 0xFFFF
      · rw [if_pos hv]
        refine ⟨_, rfl, ?_, ?_, ?_⟩
        · intro p h; cases h
        · intro _; rfl
        · constructor
          · intro _
            exact ⟨by omega, Or.inr ⟨h8, val, p', rfl, Or.inr (Or.inl ⟨h2, hv⟩)⟩⟩
          · intro _; rfl
      · rw [if_neg hv]
        refine ⟨_, rfl, ?_, ?_, ?_⟩
        · intro p _
          refine ⟨Or.inr (Or.inl h2), by omega, by omega, rfl, ?_⟩
          intro pg hpg
          subst hpg
          refine ⟨_, rfl, ?_⟩
          intro x hx
          rw [h2] at hx
          exact mach_write_to_2_frame _ _ _ _ (by unfold MLOG_2BYTES at hx; omega)
        · intro h; cases h
        · constructor
          · intro h; cases h
          · intro h
            exfalso
            rcases h.2 with h | ⟨_, v, p, hvp, h⟩
            · exact hoff h
            · injection hvp with hvp
              injection hvp with e1 e2
              subst e1
              rcases h with h | h | h
              · exact h1 h.1
              · exact hv h.2
              · exact h.2.1 h2
    rw [if_neg h2]
    by_cases h4 : type = MLOG_4BYTES
    · rw [if_pos h4]
      refine ⟨_, rfl, ?_, ?_, ?_⟩
      · intro p _
        refine ⟨Or.inr (Or.inr (Or.inl h4)), by omega, by omega, rfl, ?_⟩
        intro pg hpg
        subst hpg
        refine ⟨_, rfl, ?_⟩
        intro x hx
        rw [h4] at hx
        exact mach_write_to_4_frame _ _ _ _ (by unfold MLOG_4BYTES at hx; omega)
      · intro h; cases h
      · constructor
        · intro h; cases h
        · intro h
          exfalso
          rcases h.2 with h | ⟨_, v, p, hvp, h⟩
          · exact hoff h
          · rcases h with h | h | h
            · exact h1 h.1
            · exact h2 h.1
            · exact h.2.2 h4
    · rw [if_neg h4]
      refine ⟨_, rfl, ?_, ?_, ?_⟩
      · intro p h; cases h
      · intro _; rfl
      · constructor
        · intro _
          exact ⟨by omega, Or.inr ⟨h8, val, p', rfl, Or.inr (Or.inr ⟨h1, h2, h4⟩)⟩⟩
        · intro _; rfl

/-- Two records on which the claim C31 fails.  The record of the type
`MLOG_8BYTES` with the offset 16383 and the value 1 is accepted, and the page
given is written from 16383 to 16390, past its end at `UNIV_PAGE_SIZE`: the
byte at 16390 becomes 1.  The record of the type 3 with the offset 0 and the
value 0 is reported as a corrupt log, with the offset below `UNIV_PAGE_SIZE`
and a value that fits one byte. -/
theorem C31_write_past_the_page_end_and_type_without_width :
    (∃ out pg', mlog_parse_nbytes MLOG_8BYTES
          (fun a => if a = 0 then 0x3F else if a = 1 then 0xFF else if a = 6 then 1 else 0)
          0 7 (some (fun _ => 0)) = some out
        ∧ out.ptr = some 7 ∧ out.found_corrupt_log = false
        ∧ out.page = some pg' ∧ pg' 16390 = 1 ∧ ¬ (16383 + 8 ≤ UNIV_PAGE_SIZE))
    ∧ (∃ out, mlog_parse_nbytes 3 (fun _ => 0) 0 3 none = some out
        ∧ out.found_corrupt_log = true
        ∧ mach_read_from_2 (fun _ => 0) 0 < UNIV_PAGE_SIZE
        ∧ mach_parse_compressed (fun _ => 0) 2 3 = some (0, 3)) := by
  refine ⟨⟨_, _, rfl, ?_, ?_, rfl, ?_, ?_⟩, ⟨_, rfl, ?_, ?_, ?_⟩⟩ <;> decide

/-- The theorem `C31_mlog_parse_nbytes` at the record of the type `MLOG_2BYTES`
with the offset 16 and the value 258: it is accepted, no corrupt log is
reported, and the page given changes in the bytes 16 and 17 only. -/
theorem C31_mlog_parse_nbytes_witness :
    ∃ out, mlog_parse_nbytes MLOG_2BYTES
        (fun a => if a = 1 then 16 else if a = 2 then 0x81 else if a = 3 then 0x02 else 0)
        0 4 (some (fun _ => 7)) = some out
      ∧ out.ptr = some 4
      ∧ out.found_corrupt_log = false
      ∧ ∃ pg', out.page = some pg' ∧ ∀ x, x < 16 ∨ 18 ≤ x → pg' x = 7 := by
  obtain ⟨out, h, h1, _, _⟩ := C31_mlog_parse_nbytes MLOG_2BYTES
    (fun a => if a = 1 then 16 else if a = 2 then 0x81 else if a = 3 then 0x02 else 0)
    0 4 (some (fun _ => 7)) (by decide)
  have hp : out.ptr = some 4 := by
    have e : (mlog_parse_nbytes MLOG_2BYTES
        (fun a => if a = 1 then 16 else if a = 2 then 0x81 else if a = 3 then 0x02 else 0)
        0 4 (some (fun _ => 7))).map (fun o => o.ptr) = some (some 4) := by
      decide
    rw [h] at e
    simpa using e
  obtain ⟨_, _, _, hc, hpg⟩ := h1 4 hp
  obtain ⟨pg', hpg', hframe⟩ := hpg (fun _ => 7) rfl
  refine ⟨out, h, hp, hc, pg', hpg', ?_⟩
  intro x hx
  have e16 : mach_read_from_2
      (fun a => if a = 1 then 16 else if a = 2 then 0x81 else if a = 3 then 0x02 else 0) 0
      = 16 := by decide
  rw [e16] at hframe
  exact hframe x (by unfold MLOG_2BYTES; omega)

/-! ## Claim C35: the comparison of the weights of two transactions -/

/-- The conversion to `int` of a 64-bit difference of two numbers that are less
than `2 ^ 31` apart is the difference. -/
theorem trx_client.uint64_to_int_sub (x y : Nat)
    (hd : x < y + 2 ^ 31 ∧ y < x + 2 ^ 31) :
    trx_client.uint64_to_int ((x + 2 ^ 64 - y) % 2 ^ 64) = (x : Int) - (y : Int) := by
  unfold trx_client.uint64_to_int
  by_cases hxy : y ≤ x
  · have e : (x + 2 ^ 64 - y) % 2 ^ 64 = x - y := by omega
    rw [e]
    have e2 : (x - y) % 2 ^ 32 = x - y := by omega
    rw [e2, if_pos (by omega)]
    omega
  · have e : (x + 2 ^ 64 - y) % 2 ^ 64 = x + 2 ^ 64 - y := by omega
    rw [e]
    have e2 : (x + 2 ^ 64 - y) % 2 ^ 32 = x + 2 ^ 32 - y := by omega
    rw [e2, if_neg (by omega)]
    omega

/-- Claim C35, as far as it holds, and where it fails: for transactions `a` and
`b` with weights below `2 ^ 64`, when the weights are less than `2 ^ 31` apart
`trx_weight_cmp(a, b)` is their difference, so it is negative if and only if
`a` is lighter than `b`, zero if and only if the weights are equal, and
positive if and only if `a` is heavier; when `a` is heavier than `b` by
`2 ^ 32` the function returns 0, and when `a` is heavier than `b` by `2 ^ 31`
it returns a negative number. -/
theorem C35_trx_weight_cmp (a b : trx_client.trx_t)
    (ha : trx_client.weight a < 2 ^ 64) (hb : trx_client.weight b < 2 ^ 64) :
    (trx_client.weight a < trx_client.weight b + 2 ^ 31
        ∧ trx_client.weight b < trx_client.weight a + 2 ^ 31 →
      trx_client.trx_weight_cmp a b = (trx_client.weight a : Int) - (trx_client.weight b : Int)
        ∧ (trx_client.trx_weight_cmp a b < 0 ↔ trx_client.weight a < trx_client.weight b)
        ∧ (trx_client.trx_weight_cmp a b = 0 ↔ trx_client.weight a = trx_client.weight b)
        ∧ (trx_client.trx_weight_cmp a b > 0 ↔ trx_client.weight a > trx_client.weight b))
    ∧ (trx_client.weight a = trx_client.weight b + 2 ^ 32 → trx_client.trx_weight_cmp a b = 0)
    ∧ (trx_client.weight a = trx_client.weight b + 2 ^ 31 →
        trx_client.trx_weight_cmp a b = -(2 ^ 31)) := by
  have hwa : trx_client.TRX_WEIGHT a = trx_client.weight a := by
    unfold trx_client.TRX_WEIGHT trx_client.weight trx_client.UT_LIST_GET_LEN at *
    exact Nat.mod_eq_of_lt ha
  have hwb : trx_client.TRX_WEIGHT b = trx_client.weight b := by
    unfold trx_client.TRX_WEIGHT trx_client.weight trx_client.UT_LIST_GET_LEN at *
    exact Nat.mod_eq_of_lt hb
  refine ⟨?_, ?_, ?_⟩
  · intro hd
    have h : trx_client.trx_weight_cmp a b
        = (trx_client.weight a : Int) - (trx_client.weight b : Int) := by
      unfold trx_client.trx_weight_cmp
      rw [hwa, hwb]
      exact trx_client.uint64_to_int_sub _ _ hd
    refine ⟨h, ?_, ?_, ?_⟩ <;> rw [h] <;> omega
  · intro h
    unfold trx_client.trx_weight_cmp trx_client.uint64_to_int
    rw [hwa, hwb, h]
    have e : (trx_client.weight b + 2 ^ 32 + 2 ^ 64 - trx_client.weight b) % 2 ^ 64 % 2 ^ 32
        = 0 := by omega
    rw [e]
    simp
  · intro h
    unfold trx_client.trx_weight_cmp trx_client.uint64_to_int
    rw [hwa, hwb, h]
    have e : (trx_client.weight b + 2 ^ 31 + 2 ^ 64 - trx_client.weight b) % 2 ^ 64 % 2 ^ 32
        = 2 ^ 31 := by omega
    rw [e]
    simp

/-- The theorem `C35_trx_weight_cmp` at a transaction with `2 ^ 32` undo
entries and no lock and one with no undo entry and no lock: the first one is
the heavier one, and `trx_weight_cmp` returns 0. -/
theorem C35_trx_weight_cmp_witness :
    trx_client.weight (trx_client.sample_trx (2 ^ 32) [])
        > trx_client.weight (trx_client.sample_trx 0 [])
      ∧ trx_client.trx_weight_cmp (trx_client.sample_trx (2 ^ 32) [])
          (trx_client.sample_trx 0 []) = 0 :=
  ⟨by decide,
    (C35_trx_weight_cmp (trx_client.sample_trx (2 ^ 32) []) (trx_client.sample_trx 0 [])
      (by decide) (by decide)).2.1 (by decide)⟩

/-! ## Claim C38: freeing a transaction that was never started -/

/-- The function `trx_free`, when it returns, leaves the counter, the list and
the allocator as they are. -/
theorem trx_client.trx_free_frame (st st' : trx_client.client_state) (trx : Nat)
    (h : trx_client.trx_free st trx = some st') :
    st'.trx_n_transactions = st.trx_n_transactions
      ∧ st'.client_trx_list = st.client_trx_list
      ∧ st'.heap_top = st.heap_top := by
  unfold trx_client.trx_free at h
  cases hr : trx_client.trx_free_object trx (st.trxs trx) st.freed with
  | none => rw [hr] at h; cases h
  | some r =>
    rw [hr] at h
    injection h with h
    subst h
    exact ⟨rfl, rfl, rfl⟩

/-- The function `trx_free_for_client`, when it returns, removes the
transaction from the list and lowers the counter, which was positive, by
one. -/
theorem trx_client.trx_free_for_client_effect (st st' : trx_client.client_state) (trx : Nat)
    (h : trx_client.trx_free_for_client st trx = some st') :
    st'.client_trx_list = st.client_trx_list.erase trx
      ∧ 0 < st.trx_n_transactions
      ∧ st'.trx_n_transactions = st.trx_n_transactions - 1
      ∧ st'.heap_top = st.heap_top := by
  unfold trx_client.trx_free_for_client at h
  simp only at h
  cases hf : trx_client.trx_free
      { st with client_trx_list := UT_LIST_REMOVE st.client_trx_list trx } trx with
  | none => rw [hf] at h; cases h
  | some s =>
    rw [hf] at h
    obtain ⟨h1, h2, h3⟩ := trx_client.trx_free_frame _ _ _ hf
    simp only at h
    split_ifs at h with hn
    injection h with h
    subst h
    simp only at h1 h2 h3
    refine ⟨?_, ?_, ?_, ?_⟩
    · simp only [h2, UT_LIST_REMOVE]
    · omega
    · simp only [h1]
    · exact h3

/-- In a state that a run reaches, the counter `trx_n_transactions` is the
number of the transactions of `client_trx_list`, no transaction is in the list
twice, and the transactions of the list are below the next address of the
allocator. -/
theorem trx_client.client_reachable_inv (st : trx_client.client_state)
    (h : trx_client.client_reachable st) :
    st.trx_n_transactions = st.client_trx_list.length
      ∧ st.client_trx_list.Nodup
      ∧ ∀ t ∈ st.client_trx_list, t < st.heap_top := by
  induction h with
  | init trxs heap_top freed => exact ⟨rfl, List.nodup_nil, fun t ht => by cases ht⟩
  | allocate st _ hw ih =>
    obtain ⟨h1, h2, h3⟩ := ih
    simp only [trx_client.trx_allocate_for_client, trx_client.trx_create,
      trx_client.client_state.set_trx, UT_LIST_ADD_FIRST]
    refine ⟨?_, ?_, ?_⟩
    · rw [Nat.mod_eq_of_lt hw, h1]
      simp
    · rw [List.nodup_cons]
      refine ⟨fun hm => ?_, h2⟩
      have := h3 _ hm
      omega
    · intro t ht
      rcases List.mem_cons.mp ht with e | hm
      · omega
      · have := h3 t hm
        omega
  | change st trxs _ ih => exact ih
  | free st st' trx _ hmem hfree ih =>
    obtain ⟨h1, h2, h3⟩ := ih
    obtain ⟨e1, e2, e3, e4⟩ := trx_client.trx_free_for_client_effect st st' trx hfree
    refine ⟨?_, ?_, ?_⟩
    · rw [e3, e1, List.length_erase_of_mem hmem, h1]
    · rw [e1]
      exact h2.erase trx
    · intro t ht
      rw [e1] at ht
      rw [e4]
      exact h3 t (List.mem_of_mem_erase ht)

/-- Claim C38: in a state that a run reaches, a transaction of
`client_trx_list` whose object is as `trx_create` built it, with an empty lock
list, passes every assertion of `trx_free`, so `trx_free_for_client` returns;
it removes the transaction from `client_trx_list` and lowers
`trx_n_transactions`, which was positive, by one. -/
theorem C38_trx_free_for_client (st st0 : trx_client.client_state) (trx : Nat)
    (hreach : trx_client.client_reachable st)
    (hmem : trx ∈ st.client_trx_list)
    (hobj : st.trxs trx = (trx_client.trx_create st0).2.trxs (trx_client.trx_create st0).1) :
    (st.trxs trx).magic_n = trx_client.TRX_MAGIC_N
      ∧ (st.trxs trx).conc_state = TRX_NOT_STARTED
      ∧ (st.trxs trx).insert_undo = none ∧ (st.trxs trx).update_undo = none
      ∧ (st.trxs trx).signals = [] ∧ (st.trxs trx).reply_signals = []
      ∧ (st.trxs trx).wait_lock = none ∧ (st.trxs trx).wait_thrs = []
      ∧ (st.trxs trx).dict_operation_lock_mode = 0
      ∧ (st.trxs trx).trx_locks = []
      ∧ (st.trxs trx).read_view = none
      ∧ ∃ st', trx_client.trx_free_for_client st trx = some st'
          ∧ st'.client_trx_list = st.client_trx_list.erase trx
          ∧ trx ∉ st'.client_trx_list
          ∧ 0 < st.trx_n_transactions
          ∧ st'.trx_n_transactions = st.trx_n_transactions - 1 := by
  obtain ⟨h1, h2, _⟩ := trx_client.client_reachable_inv st hreach
  have hobj2 : st.trxs trx
      = { magic_n := trx_client.TRX_MAGIC_N, conc_state := TRX_NOT_STARTED,
          n_client_tables_in_use := 0, client_n_tables_locked := 0, undo_no := 0,
          insert_undo := none, update_undo := none, undo_no_arr := none, signals := [],
          reply_signals := [], wait_lock := none, wait_thrs := [],
          lock_heap := some (st0.heap_top + 1), trx_locks := [],
          dict_operation_lock_mode := 0,
          global_read_view_heap := some (st0.heap_top + 2), global_read_view := none,
          read_view := none } := by
    rw [hobj]
    simp [trx_client.trx_create, trx_client.client_state.set_trx]
  have hpos : 0 < st.trx_n_transactions := by
    rw [h1]
    exact List.length_pos_of_mem hmem
  refine ⟨by rw [hobj2], by rw [hobj2], by rw [hobj2], by rw [hobj2], by rw [hobj2],
    by rw [hobj2], by rw [hobj2], by rw [hobj2], by rw [hobj2], by rw [hobj2], by rw [hobj2], ?_⟩
  have hfree : ∃ s, trx_client.trx_free
      { st with client_trx_list := UT_LIST_REMOVE st.client_trx_list trx } trx = some s := by
    have hfo : ∃ r, trx_client.trx_free_object trx (st.trxs trx) st.freed = some r := by
      rw [hobj2]
      simp [trx_client.trx_free_object, trx_client.UT_LIST_GET_LEN]
    obtain ⟨r, hr⟩ := hfo
    refine ⟨{ trx_client.client_state.set_trx
      { st with client_trx_list := UT_LIST_REMOVE st.client_trx_list trx } trx r.1 with
      freed := r.2 }, ?_⟩
    unfold trx_client.trx_free
    show (match trx_client.trx_free_object trx (st.trxs trx) st.freed with
      | none => none
      | some r => some _) = _
    rw [hr]
  obtain ⟨s, hs⟩ := hfree
  obtain ⟨f1, f2, _⟩ := trx_client.trx_free_frame _ _ _ hs
  simp only at f1 f2
  refine ⟨{ s with trx_n_transactions := s.trx_n_transactions - 1 }, ?_, ?_, ?_, hpos, ?_⟩
  · unfold trx_client.trx_free_for_client
    simp only [hs]
    rw [if_neg (by omega)]
  · simp only [f2, UT_LIST_REMOVE]
  · simp only [f2, UT_LIST_REMOVE]
    exact h2.not_mem_erase
  · simp only [f1]

/-- The theorem `C38_trx_free_for_client` at the state after one
`trx_allocate_for_client`, for the transaction allocated: it is freed, the
list is empty again and the counter is 0 again. -/
theorem C38_trx_free_for_client_witness :
    ∃ st', trx_client.trx_free_for_client
          (trx_client.trx_allocate_for_client trx_client.sample_client_state).2 100 = some st'
      ∧ st'.client_trx_list = []
      ∧ st'.trx_n_transactions = 0 := by
  obtain ⟨_, _, _, _, _, _, _, _, _, _, _, st', h, h1, _, _, h2⟩ :=
    C38_trx_free_for_client (trx_client.trx_allocate_for_client trx_client.sample_client_state).2
      trx_client.sample_client_state 100
      (trx_client.client_reachable.allocate _ (trx_client.client_reachable.init _ _ _)
        (by decide))
      (by decide) (by decide)
  exact ⟨st', h, h1, h2⟩

/-! ## Claim C36: what `mlog_parse_string` accepts -/

/-- Claim C36, for a page that is no index page: for every log buffer and a
page that is null or whose type is not `FIL_PAGE_INDEX`, `mlog_parse_string`
returns; it accepts the body exactly when the four bytes of the offset and the
length are there, the offset is below `UNIV_PAGE_SIZE`, the offset plus the
length is at most `UNIV_PAGE_SIZE` and the data bytes are there; it then
returns the pointer past the data, reports no corrupt log, and changes in a
page that is given exactly the bytes from the offset on, as many as the
length, to the data bytes; it reports a corrupt log exactly when the four bytes
are there and the offset or the end is out of range; and when it does not
accept the body the page is as it was. -/
theorem C36_mlog_parse_string (page_get_type : Mem → Nat) (log : Mem) (ptr end_ptr : Nat)
    (page : Option Mem)
    (hpage : ∀ p, page = some p → page_get_type p ≠ FIL_PAGE_INDEX) :
    ∃ out, mlog_parse_string page_get_type log ptr end_ptr page = some out
      ∧ (out.ptr ≠ none ↔
          ptr + 4 ≤ end_ptr
          ∧ mach_read_from_2 log ptr < UNIV_PAGE_SIZE
          ∧ mach_read_from_2 log ptr + mach_read_from_2 log (ptr + 2) ≤ UNIV_PAGE_SIZE
          ∧ ptr + 4 + mach_read_from_2 log (ptr + 2) ≤ end_ptr)
      ∧ (out.ptr ≠ none →
          out.ptr = some (ptr + 4 + mach_read_from_2 log (ptr + 2))
          ∧ out.found_corrupt_log = false
          ∧ ∀ pg, page = some pg →
              ∃ pg', out.page = some pg'
                ∧ (∀ k, k < mach_read_from_2 log (ptr + 2) →
                    pg' (mach_read_from_2 log ptr + k) = log (ptr + 4 + k))
                ∧ ∀ x, x < mach_read_from_2 log ptr
                    ∨ mach_read_from_2 log ptr + mach_read_from_2 log (ptr + 2) ≤ x →
                    pg' x = pg x)
      ∧ (out.found_corrupt_log = true ↔
          ptr + 4 ≤ end_ptr
          ∧ (mach_read_from_2 log ptr ≥ UNIV_PAGE_SIZE
            ∨ mach_read_from_2 log ptr + mach_read_from_2 log (ptr + 2) > UNIV_PAGE_SIZE))
      ∧ (out.ptr = none → out.page = page) := by
  have hassert : mlog_parse_string_asserted page_get_type page = true := by
    unfold mlog_parse_string_asserted
    cases page with
    | none => rfl
    | some p => simpa using hpage p rfl
  unfold mlog_parse_string
  rw [if_neg (by rw [hassert]; decide)]
  by_cases hend : end_ptr < ptr + 4
  · rw [if_pos hend]
    refine ⟨_, rfl, ?_, ?_, ?_, ?_⟩
    · constructor
      · intro h; exact absurd rfl h
      · intro h; omega
    · intro h; exact absurd rfl h
    · constructor
      · intro h; cases h
      · intro h; omega
    · intro _; rfl
  rw [if_neg hend]
  by_cases hrange : mach_read_from_2 log ptr ≥ UNIV_PAGE_SIZE
      ∨ mach_read_from_2 log (ptr + 2) + mach_read_from_2 log ptr > UNIV_PAGE_SIZE
  · rw [if_pos hrange]
    refine ⟨_, rfl, ?_, ?_, ?_, ?_⟩
    · constructor
      · intro h; exact absurd rfl h
      · intro h; omega
    · intro h; exact absurd rfl h
    · constructor
      · intro _; exact ⟨by omega, by omega⟩
      · intro _; rfl
    · intro _; rfl
  rw [if_neg hrange]
  by_cases hdata : end_ptr < ptr + 2 + 2 + mach_read_from_2 log (ptr + 2)
  · rw [if_pos hdata]
    refine ⟨_, rfl, ?_, ?_, ?_, ?_⟩
    · constructor
      · intro h; exact absurd rfl h
      · intro h; omega
    · intro h; exact absurd rfl h
    · constructor
      · intro h; cases h
      · intro h; omega
    · intro _; rfl
  rw [if_neg hdata]
  refine ⟨_, rfl, ?_, ?_, ?_, ?_⟩
  · constructor
    · intro _; exact ⟨by omega, by omega, by omega, by omega⟩
    · intro _ h; cases h
  · intro _
    refine ⟨by simp only [Option.some.injEq], rfl, ?_⟩
    intro pg hpg
    subst hpg
    refine ⟨_, rfl, ?_, ?_⟩
    · intro k hk
      dsimp only
      rw [memcpy_apply, if_pos (by omega)]
      congr 1
      omega
    · intro x hx
      dsimp only
      rw [memcpy_apply, if_neg (by omega)]
  · constructor
    · intro h; cases h
    · intro h; omega
  · intro h; cases h

/-- A body that the claim C36 takes as accepted and the code does not: the
offset 100, the length 1 and one data byte, given with a page whose type is
`FIL_PAGE_INDEX`; the assertion at the head of `mlog_parse_string` fails. -/
theorem C36_index_page_fails_the_assertion :
    mlog_parse_string (fun p => mach_read_from_2 p 24)
        (fun a => if a = 1 then 100 else if a = 3 then 1 else if a = 4 then 7 else 0) 0 5
        (some (fun a => if a = 24 then 0x45 else if a = 25 then 0xBF else 0)) = none
    ∧ mach_read_from_2 (fun a => if a = 24 then 0x45 else if a = 25 then 0xBF else 0) 24
        = FIL_PAGE_INDEX := by
  constructor
  · rfl
  · decide

/-- The theorem `C36_mlog_parse_string` at the body with the offset 100, the
length 2 and the data bytes 7 and 9, given with a page of zeros of the type 0:
the body is accepted, the pointer returned is past the six bytes, and the page
has the bytes 7 and 9 at the offsets 100 and 101. -/
theorem C36_mlog_parse_string_witness :
    ∃ out pg', mlog_parse_string (fun p => mach_read_from_2 p 24)
          (fun a => if a = 1 then 100 else if a = 3 then 2 else if a = 4 then 7
            else if a = 5 then 9 else 0) 0 6 (some (fun _ => 0)) = some out
      ∧ out.ptr = some 6
      ∧ out.found_corrupt_log = false
      ∧ out.page = some pg' ∧ pg' 100 = 7 ∧ pg' 101 = 9 ∧ pg' 102 = 0 := by
  obtain ⟨out, h, h1, h2, _, _⟩ := C36_mlog_parse_string (fun p => mach_read_from_2 p 24)
    (fun a => if a = 1 then 100 else if a = 3 then 2 else if a = 4 then 7
      else if a = 5 then 9 else 0) 0 6 (some (fun _ => 0))
    (by intro p hp; injection hp with hp; subst hp; decide)
  have hacc : out.ptr ≠ none := h1.mpr (by decide)
  obtain ⟨hp, hc, hpg⟩ := h2 hacc
  obtain ⟨pg', hpg', hdata, hframe⟩ := hpg (fun _ => 0) rfl
  refine ⟨out, pg', h, ?_, hc, hpg', ?_, ?_, ?_⟩
  · rw [hp]; decide
  · have := hdata 0 (by decide)
    simpa using this
  · have := hdata 1 (by decide)
    simpa using this
  · have := hframe 102 (Or.inr (by decide))
    simpa using this

/-! ## Claim C34: a record that needs no external storage fits an empty page -/

/-- On an empty page, `page_get_max_insert_size` for one record and for two
records is one less than the free space of an empty page. -/
theorem page_get_max_insert_size_empty (page : Mem) (n_recs : Nat)
    (hempty : page_is_empty_heap page) (hn : n_recs = 1 ∨ n_recs = 2) :
    page_get_max_insert_size page n_recs
      = page_get_free_space_of_empty (page_is_comp page) - 1 := by
  obtain ⟨htop, hheap⟩ := hempty
  have hres : page_dir_calc_reserved_space ((n_recs + 2 + 2 ^ 64 - 2) % 2 ^ 64) = 1 := by
    rcases hn with h | h <;> subst h <;> decide
  unfold page_get_max_insert_size
  rw [htop, hheap, hres]
  by_cases hc : page_is_comp page = 0
  · simp only [hc, ne_eq, not_true_eq_false, if_false]
    decide
  · simp only [hc, ne_eq, not_false_eq_true, if_true]
    have e : page_get_free_space_of_empty (page_is_comp page) = page_get_free_space_of_empty 1 := by
      unfold page_get_free_space_of_empty
      rw [if_pos hc, if_pos (by decide)]
    rw [e]
    decide

/-- Claim C34: for a page of either format that is empty, with the heap top at
the end of the supremum record and two heap records, and every record size `s`
for which `page_rec_needs_ext` is false, `page_get_max_insert_size` for one
record is at least `s`, and for two such sizes `s1` and `s2` the value for two
records is at least `s1 + s2`. -/
theorem C34_record_without_ext_fits_empty_page (REC_MAX_DATA_SIZE : Nat) (page : Mem)
    (hempty : page_is_empty_heap page) :
    (∀ s, page_rec_needs_ext REC_MAX_DATA_SIZE s (page_is_comp page) = false →
        s ≤ page_get_max_insert_size page 1)
    ∧ (∀ s1 s2, page_rec_needs_ext REC_MAX_DATA_SIZE s1 (page_is_comp page) = false →
        page_rec_needs_ext REC_MAX_DATA_SIZE s2 (page_is_comp page) = false →
        s1 + s2 ≤ page_get_max_insert_size page 2) := by
  have hlt : ∀ s, page_rec_needs_ext REC_MAX_DATA_SIZE s (page_is_comp page) = false →
      s < page_get_free_space_of_empty (page_is_comp page) / 2 := by
    intro s hs
    unfold page_rec_needs_ext at hs
    split_ifs at hs with h1
    simpa using hs
  have hfree : page_get_free_space_of_empty (page_is_comp page) = 16252
      ∨ page_get_free_space_of_empty (page_is_comp page) = 16247 := by
    unfold page_get_free_space_of_empty
    by_cases hc : page_is_comp page = 0
    · right; rw [if_neg (by simpa using hc)]; decide
    · left; rw [if_pos hc]; decide
  refine ⟨?_, ?_⟩
  · intro s hs
    have := hlt s hs
    rw [page_get_max_insert_size_empty page 1 hempty (Or.inl rfl)]
    rcases hfree with h | h <;> rw [h] at this ⊢ <;> omega
  · intro s1 s2 hs1 hs2
    have h1 := hlt s1 hs1
    have h2 := hlt s2 hs2
    rw [page_get_max_insert_size_empty page 2 hempty (Or.inr rfl)]
    rcases hfree with h | h <;> rw [h] at h1 h2 ⊢ <;> omega

/-- The theorem `C34_record_without_ext_fits_empty_page` at the empty page of
the compact format and the record size 8125, the largest one that needs no
external storage: the page takes one such record, and two of them. -/
theorem C34_record_without_ext_fits_empty_page_witness :
    page_rec_needs_ext 16384 8125 (page_is_comp sample_empty_comp_page) = false
      ∧ 8125 ≤ page_get_max_insert_size sample_empty_comp_page 1
      ∧ 8125 + 8125 ≤ page_get_max_insert_size sample_empty_comp_page 2 :=
  ⟨by decide,
    (C34_record_without_ext_fits_empty_page 16384 sample_empty_comp_page
      ⟨by decide, by decide⟩).1 8125 (by decide),
    (C34_record_without_ext_fits_empty_page 16384 sample_empty_comp_page
      ⟨by decide, by decide⟩).2 8125 8125 (by decide) (by decide)⟩

/-! ## Claim C33: the doublewrite buffer in memory is bounded -/

/-- A flush of a doublewrite buffer that is in use leaves it in use and empty,
with the page images as they were. -/
theorem buf_flush_buffered_writes_doublewrite (env : flush_env) (st fs : flush_state)
    (dw : trx_doublewrite_t)
    (hdw : st.trx_doublewrite = some dw) (huse : st.srv_use_doublewrite_buf = true)
    (hb : buf_flush_buffered_writes env st = Except.ok fs) :
    fs.srv_use_doublewrite_buf = true
      ∧ fs.trx_doublewrite = some { dw with first_free := 0 } := by
  unfold buf_flush_buffered_writes at hb
  rw [hdw] at hb
  dsimp only at hb
  rw [if_neg (by rw [huse]; decide)] at hb
  by_cases h0 : dw.first_free = 0
  · rw [if_pos h0] at hb
    injection hb with hb
    subst hb
    refine ⟨huse, ?_⟩
    rw [hdw]
    congr 1
    cases dw
    simp only at h0
    subst h0
    rfl
  rw [if_neg h0] at hb
  by_cases c1 : buf_flush_buffered_writes_validate env dw dw.first_free 0 = false
  · rw [if_pos c1] at hb
    exact absurd hb (by simp)
  rw [if_neg c1] at hb
  split_ifs at hb
  all_goals
    injection hb with hb
    rw [← hb]
    exact ⟨huse, rfl⟩

/-- The function `buf_flush_post_to_doublewrite_buf` on a doublewrite buffer
that is in use and not full: one pass is enough, and on return the page image
is in the slot `first_free`, and `first_free` is one more, or 0 after the flush
of the buffer that became full. -/
theorem buf_flush_post_to_doublewrite_buf_not_full (env : batch_env) (bpage k : Nat)
    (st : batch_state) (dw : trx_doublewrite_t)
    (hdw : st.fs.trx_doublewrite = some dw) (huse : st.fs.srv_use_doublewrite_buf = true)
    (hfree : dw.first_free < 2 * TRX_SYS_DOUBLEWRITE_BLOCK_SIZE) :
    buf_flush_post_to_doublewrite_buf env bpage (k + 1) st ≠ flush_run.unfinished
      ∧ ∀ st', buf_flush_post_to_doublewrite_buf env bpage (k + 1) st = flush_run.returns st' →
          st'.fs.srv_use_doublewrite_buf = true
          ∧ ∃ dw', st'.fs.trx_doublewrite = some dw'
              ∧ dw'.write_buf = memcpy dw.write_buf (UNIV_PAGE_SIZE * dw.first_free)
                  (st.pool.pages bpage).frame 0 UNIV_PAGE_SIZE
              ∧ dw'.first_free
                  = (if dw.first_free + 1 ≥ 2 * TRX_SYS_DOUBLEWRITE_BLOCK_SIZE then 0
                    else dw.first_free + 1) := by
  have hB : 2 * TRX_SYS_DOUBLEWRITE_BLOCK_SIZE = 128 := rfl
  have hmod : (dw.first_free + 1) % 2 ^ 64 = dw.first_free + 1 := by
    apply Nat.mod_eq_of_lt
    rw [hB] at hfree
    omega
  unfold buf_flush_post_to_doublewrite_buf
  dsimp only
  rw [hdw]
  dsimp only
  by_cases h1 : env.buf_page_in_file (st.pool.pages bpage) = false
  · rw [if_pos h1]
    exact ⟨by simp, fun st' h => by cases h⟩
  rw [if_neg h1, if_neg (by omega)]
  by_cases h2 : (st.pool.pages bpage).state ≠ BUF_BLOCK_FILE_PAGE
  · rw [if_pos h2]
    exact ⟨by simp, fun st' h => by cases h⟩
  rw [if_neg h2, hmod]
  by_cases h3 : dw.first_free + 1 ≥ 2 * TRX_SYS_DOUBLEWRITE_BLOCK_SIZE
  · rw [if_pos h3]
    split
    · exact ⟨by simp, fun st' h => by cases h⟩
    · next fs hb =>
      obtain ⟨e1, e2⟩ := buf_flush_buffered_writes_doublewrite env.flush _ fs _
        (by exact rfl) (by exact huse) hb
      refine ⟨by simp, ?_⟩
      intro st' h
      injection h with h
      subst h
      exact ⟨e1, _, e2, rfl, by rw [if_pos h3]⟩
  · rw [if_neg h3]
    refine ⟨by simp, ?_⟩
    intro st' h
    injection h with h
    subst h
    exact ⟨huse, _, rfl, rfl, by rw [if_neg h3]⟩

/-- The function `buf_flush_post_to_doublewrite_buf` on a doublewrite buffer
that is in use: two passes are enough; the page image is copied to the slot
`doublewrite_slot`, which is below `2 * TRX_SYS_DOUBLEWRITE_BLOCK_SIZE`, and on
return `first_free` is below `2 * TRX_SYS_DOUBLEWRITE_BLOCK_SIZE`. -/
theorem buf_flush_post_to_doublewrite_buf_spec (env : batch_env) (bpage : Nat)
    (st : batch_state) (dw : trx_doublewrite_t)
    (hdw : st.fs.trx_doublewrite = some dw) (huse : st.fs.srv_use_doublewrite_buf = true) :
    doublewrite_slot dw < 2 * TRX_SYS_DOUBLEWRITE_BLOCK_SIZE
      ∧ buf_flush_post_to_doublewrite_buf env bpage 2 st ≠ flush_run.unfinished
      ∧ ∀ k st', buf_flush_post_to_doublewrite_buf env bpage k st = flush_run.returns st' →
          st'.fs.srv_use_doublewrite_buf = true
          ∧ ∃ dw', st'.fs.trx_doublewrite = some dw'
              ∧ dw'.write_buf = memcpy dw.write_buf (UNIV_PAGE_SIZE * doublewrite_slot dw)
                  (st.pool.pages bpage).frame 0 UNIV_PAGE_SIZE
              ∧ dw'.first_free
                  = (if doublewrite_slot dw + 1 ≥ 2 * TRX_SYS_DOUBLEWRITE_BLOCK_SIZE then 0
                    else doublewrite_slot dw + 1)
              ∧ dw'.first_free < 2 * TRX_SYS_DOUBLEWRITE_BLOCK_SIZE := by
  have hB : 2 * TRX_SYS_DOUBLEWRITE_BLOCK_SIZE = 128 := rfl
  have hlt : ∀ n : Nat, n < 128 → (if n + 1 ≥ 128 then 0 else n + 1) < 128 := by
    intro n hn
    split_ifs <;> omega
  have h0 : (0 : Nat) < 2 * TRX_SYS_DOUBLEWRITE_BLOCK_SIZE := by decide
  by_cases hfull : dw.first_free ≥ 2 * TRX_SYS_DOUBLEWRITE_BLOCK_SIZE
  · -- the buffer is full: it is flushed first
    have hslot : doublewrite_slot dw = 0 := by
      unfold doublewrite_slot
      rw [if_pos hfull]
    rw [hslot]
    have hstep : ∀ k, (buf_flush_post_to_doublewrite_buf env bpage (k + 1) st
        = (match buf_flush_buffered_writes env.flush st.fs with
          | Except.error _ => flush_run.crashes
          | Except.ok fs => buf_flush_post_to_doublewrite_buf env bpage k { st with fs := fs }))
        ∨ buf_flush_post_to_doublewrite_buf env bpage (k + 1) st = flush_run.crashes := by
      intro k
      by_cases h1 : env.buf_page_in_file (st.pool.pages bpage) = false
      · right
        unfold buf_flush_post_to_doublewrite_buf
        dsimp only
        rw [hdw]
        dsimp only
        rw [if_pos h1]
      · left
        conv => lhs; unfold buf_flush_post_to_doublewrite_buf
        dsimp only
        rw [hdw]
        dsimp only
        rw [if_neg h1, if_pos hfull]
        try rfl
    refine ⟨by decide, ?_, ?_⟩
    · rcases hstep 1 with h | h
      · rw [h]
        cases hb : buf_flush_buffered_writes env.flush st.fs with
        | error e => simp
        | ok fs =>
          obtain ⟨e1, e2⟩ := buf_flush_buffered_writes_doublewrite env.flush _ fs _ hdw huse hb
          exact (buf_flush_post_to_doublewrite_buf_not_full env bpage 0 { st with fs := fs }
            { dw with first_free := 0 } e2 e1 h0).1
      · rw [h]; simp
    · intro k st' hret
      cases k with
      | zero => simp [buf_flush_post_to_doublewrite_buf] at hret
      | succ k =>
        rcases hstep k with h | h
        · rw [h] at hret
          cases hb : buf_flush_buffered_writes env.flush st.fs with
          | error e => rw [hb] at hret; cases hret
          | ok fs =>
            rw [hb] at hret
            dsimp only at hret
            obtain ⟨e1, e2⟩ := buf_flush_buffered_writes_doublewrite env.flush _ fs _ hdw huse hb
            cases k with
            | zero => simp [buf_flush_post_to_doublewrite_buf] at hret
            | succ k =>
              obtain ⟨u, dw', d1, d2, d3⟩ :=
                (buf_flush_post_to_doublewrite_buf_not_full env bpage k { st with fs := fs }
                  { dw with first_free := 0 } e2 e1 h0).2 st' hret
              refine ⟨u, dw', d1, d2, d3, ?_⟩
              rw [d3]
              exact hlt 0 (by decide)
        · rw [h] at hret; cases hret
  · -- the buffer is not full
    have hslot : doublewrite_slot dw = dw.first_free := by
      unfold doublewrite_slot
      rw [if_neg hfull]
    rw [hslot]
    have hfree : dw.first_free < 2 * TRX_SYS_DOUBLEWRITE_BLOCK_SIZE := by omega
    refine ⟨hfree, (buf_flush_post_to_doublewrite_buf_not_full env bpage 1 st dw hdw huse
      hfree).1, ?_⟩
    intro k st' hret
    cases k with
    | zero => simp [buf_flush_post_to_doublewrite_buf] at hret
    | succ k =>
      obtain ⟨u, dw', d1, d2, d3⟩ :=
        (buf_flush_post_to_doublewrite_buf_not_full env bpage k st dw hdw huse hfree).2 st' hret
      refine ⟨u, dw', d1, d2, d3, ?_⟩
      rw [d3, hB]
      rw [hB] at hfree
      exact hlt _ hfree

/-- In a state between the calls, the doublewrite buffer is in use and
`first_free` is below `2 * TRX_SYS_DOUBLEWRITE_BLOCK_SIZE`. -/
theorem doublewrite_reachable_inv (env : batch_env) (st : batch_state)
    (h : doublewrite_reachable env st) :
    st.fs.srv_use_doublewrite_buf = true
      ∧ ∃ dw, st.fs.trx_doublewrite = some dw
          ∧ dw.first_free < 2 * TRX_SYS_DOUBLEWRITE_BLOCK_SIZE := by
  induction h with
  | init st dw huse hdw h0 => exact ⟨huse, dw, hdw, by rw [h0]; decide⟩
  | post st st' bpage k _ hret ih =>
    obtain ⟨huse, dw, hdw, _⟩ := ih
    obtain ⟨u, dw', d1, _, _, d4⟩ :=
      (buf_flush_post_to_doublewrite_buf_spec env bpage st dw hdw huse).2.2 k st' hret
    exact ⟨u, dw', d1, d4⟩
  | flush st fs _ hb ih =>
    obtain ⟨huse, dw, hdw, _⟩ := ih
    obtain ⟨e1, e2⟩ := buf_flush_buffered_writes_doublewrite env.flush _ fs _ hdw huse hb
    exact ⟨e1, _, e2, Nat.mul_pos (by decide) (by decide)⟩

theorem buf_block_arr_set_getD (arr : List buf_block_t) (i j : Nat) (block : buf_block_t) :
    (buf_block_arr_set arr i block).getD j ⟨0, 0, 0, fun _ => 0, false⟩
      = if j = i then block else arr.getD j ⟨0, 0, 0, fun _ => 0, false⟩ := by
  unfold buf_block_arr_set
  by_cases h : i < arr.length
  · rw [if_pos h]
    simp only [List.getD_eq_getElem?_getD, List.getElem?_set]
    by_cases e : j = i
    · subst e
      simp [h]
    · rw [if_neg e, if_neg (fun e2 => e e2.symm)]
  · rw [if_neg h]
    simp only [List.getD_eq_getElem?_getD]
    by_cases e : j = i
    · subst e
      rw [if_pos rfl, List.getElem?_append_right (by simp; omega)]
      simp
      have : j - (arr.length + (j - arr.length)) = 0 := by omega
      rw [this]
      rfl
    · rw [if_neg e]
      by_cases c1 : j < arr.length
      · rw [List.append_assoc, List.getElem?_append_left c1]
      · rw [List.getElem?_eq_none (Nat.le_of_not_lt c1)]
        by_cases c2 : j < i
        · rw [List.getElem?_append_left (by simp; omega),
            List.getElem?_append_right (Nat.le_of_not_lt c1)]
          rw [List.getElem?_replicate, if_pos (by omega)]
          rfl
        · rw [List.getElem?_eq_none (by simp; omega)]

theorem trx_doublewrite_t.block_set (dw : trx_doublewrite_t) (wb : Mem) (i j ff : Nat)
    (block : buf_block_t) :
    trx_doublewrite_t.block
        { dw with
          write_buf := wb,
          buf_block_arr := buf_block_arr_set dw.buf_block_arr i block,
          first_free := ff } j
      = if j = i then block else dw.block j := by
  unfold trx_doublewrite_t.block
  exact buf_block_arr_set_getD dw.buf_block_arr i j block

/-- The function `buf_flush_buffered_writes` on a doublewrite buffer in use
returns when every buffered block is a file page that passes the checks of the
function. -/
theorem buf_flush_buffered_writes_returns (env : flush_env) (st : flush_state)
    (dw : trx_doublewrite_t) (hdw : st.trx_doublewrite = some dw)
    (huse : st.srv_use_doublewrite_buf = true)
    (hblocks : ∀ j, j < dw.first_free → (dw.block j).state = BUF_BLOCK_FILE_PAGE
      ∧ env.buf_page_in_file (dw.block j) = true
      ∧ ((dw.block j).check_index_page_at_flush = true →
          env.page_simple_validate_new (dw.block j).frame = true
          ∧ env.page_simple_validate_old (dw.block j).frame = true)) :
    ∃ fs, buf_flush_buffered_writes env st = Except.ok fs := by
  have hv := buf_flush_buffered_writes_validate_total env dw dw.first_free 0
    (fun j _ hj => (hblocks j (by omega)).2.2)
  unfold buf_flush_buffered_writes
  rw [hdw]
  dsimp only
  rw [if_neg (by simp [huse])]
  by_cases h0 : dw.first_free = 0
  · rw [if_pos h0]
    exact ⟨_, rfl⟩
  rw [if_neg h0, if_neg (by simp [hv])]
  rw [if_neg (by
    rw [buf_flush_buffered_writes_post_total env dw dw.first_free 0 _
      (fun j _ hj => ⟨(hblocks j (by omega)).1, (hblocks j (by omega)).2.1⟩)]
    simp)]
  exact ⟨_, rfl⟩

/-- The function `buf_flush_post_to_doublewrite_buf` on a full doublewrite
buffer in use, for a page in a file, when the flush of the buffer returns:
the buffer is flushed first, and the function starts again with the empty
buffer. -/
theorem buf_flush_post_to_doublewrite_buf_full (env : batch_env) (bpage : Nat)
    (st : batch_state) (dw : trx_doublewrite_t) (fs : flush_state)
    (hdw : st.fs.trx_doublewrite = some dw)
    (hfile : env.buf_page_in_file (st.pool.pages bpage) = true)
    (hfull : dw.first_free ≥ 2 * TRX_SYS_DOUBLEWRITE_BLOCK_SIZE)
    (hb : buf_flush_buffered_writes env.flush st.fs = Except.ok fs) (k : Nat) :
    buf_flush_post_to_doublewrite_buf env bpage (k + 1) st
      = buf_flush_post_to_doublewrite_buf env bpage k { st with fs := fs } := by
  conv => lhs; unfold buf_flush_post_to_doublewrite_buf
  dsimp only
  rw [hdw]
  dsimp only
  rw [if_neg (by simp [hfile]), if_pos hfull, hb]

/-- The function `buf_flush_post_to_doublewrite_buf` on a doublewrite buffer
in use that is not full returns in one pass when the page is a file page and,
if the buffer becomes full, the buffered blocks and the page pass the checks
of the flush. -/
theorem buf_flush_post_to_doublewrite_buf_not_full_returns (env : batch_env) (bpage k : Nat)
    (st : batch_state) (dw : trx_doublewrite_t)
    (hdw : st.fs.trx_doublewrite = some dw) (huse : st.fs.srv_use_doublewrite_buf = true)
    (hfree : dw.first_free < 2 * TRX_SYS_DOUBLEWRITE_BLOCK_SIZE)
    (hstate : (st.pool.pages bpage).state = BUF_BLOCK_FILE_PAGE)
    (hfile : env.buf_page_in_file (st.pool.pages bpage) = true)
    (hflush : dw.first_free + 1 ≥ 2 * TRX_SYS_DOUBLEWRITE_BLOCK_SIZE →
      ((st.pool.pages bpage).check_index_page_at_flush = true →
        env.flush.page_simple_validate_new (st.pool.pages bpage).frame = true
        ∧ env.flush.page_simple_validate_old (st.pool.pages bpage).frame = true)
      ∧ ∀ j, j < dw.first_free → (dw.block j).state = BUF_BLOCK_FILE_PAGE
          ∧ env.flush.buf_page_in_file (dw.block j) = true
          ∧ ((dw.block j).check_index_page_at_flush = true →
              env.flush.page_simple_validate_new (dw.block j).frame = true
              ∧ env.flush.page_simple_validate_old (dw.block j).frame = true)) :
    ∃ st', buf_flush_post_to_doublewrite_buf env bpage (k + 1) st = flush_run.returns st' := by
  have hB : 2 * TRX_SYS_DOUBLEWRITE_BLOCK_SIZE = 128 := rfl
  have hmod : (dw.first_free + 1) % 2 ^ 64 = dw.first_free + 1 := by
    apply Nat.mod_eq_of_lt
    rw [hB] at hfree
    omega
  unfold buf_flush_post_to_doublewrite_buf
  dsimp only
  rw [hdw]
  dsimp only
  rw [if_neg (by simp [hfile]), if_neg (by omega), if_neg (by simp [hstate]), hmod]
  by_cases h3 : dw.first_free + 1 ≥ 2 * TRX_SYS_DOUBLEWRITE_BLOCK_SIZE
  · rw [if_pos h3]
    obtain ⟨hpage, hblocks⟩ := hflush h3
    split
    · next e hb =>
      have key : ∀ (fs2 : flush_state) (dw2 : trx_doublewrite_t),
          fs2.trx_doublewrite = some dw2 → fs2.srv_use_doublewrite_buf = true →
          (∀ j, j < dw2.first_free → (dw2.block j).state = BUF_BLOCK_FILE_PAGE
            ∧ env.flush.buf_page_in_file (dw2.block j) = true
            ∧ ((dw2.block j).check_index_page_at_flush = true →
                env.flush.page_simple_validate_new (dw2.block j).frame = true
                ∧ env.flush.page_simple_validate_old (dw2.block j).frame = true)) →
          ∀ e2, buf_flush_buffered_writes env.flush fs2 ≠ Except.error e2 := by
        intro fs2 dw2 a b c e2 he
        obtain ⟨fs, hfs⟩ := buf_flush_buffered_writes_returns env.flush fs2 dw2 a b c
        rw [hfs] at he
        cases he
      refine absurd hb (key _ _ (by exact rfl) (by exact huse) ?_ e)
      intro j hj
      rw [trx_doublewrite_t.block_set]
      by_cases e : j = dw.first_free
      · rw [if_pos e]
        exact ⟨hstate, hfile, hpage⟩
      · rw [if_neg e]
        exact hblocks j (by
          have : j < dw.first_free + 1 := hj
          omega)
    · exact ⟨_, rfl⟩
  · rw [if_neg h3]
    exact ⟨_, rfl⟩

/-- The function `buf_flush_post_to_doublewrite_buf` on a doublewrite buffer
in use returns within two passes when the page is a file page and the buffered
blocks and the page pass the checks of the flush, if one is due. -/
theorem buf_flush_post_to_doublewrite_buf_returns (env : batch_env) (bpage : Nat)
    (st : batch_state) (dw : trx_doublewrite_t)
    (hdw : st.fs.trx_doublewrite = some dw) (huse : st.fs.srv_use_doublewrite_buf = true)
    (hstate : (st.pool.pages bpage).state = BUF_BLOCK_FILE_PAGE)
    (hfile : env.buf_page_in_file (st.pool.pages bpage) = true)
    (hflush : dw.first_free + 1 ≥ 2 * TRX_SYS_DOUBLEWRITE_BLOCK_SIZE →
      ((st.pool.pages bpage).check_index_page_at_flush = true →
        env.flush.page_simple_validate_new (st.pool.pages bpage).frame = true
        ∧ env.flush.page_simple_validate_old (st.pool.pages bpage).frame = true)
      ∧ ∀ j, j < dw.first_free → (dw.block j).state = BUF_BLOCK_FILE_PAGE
          ∧ env.flush.buf_page_in_file (dw.block j) = true
          ∧ ((dw.block j).check_index_page_at_flush = true →
              env.flush.page_simple_validate_new (dw.block j).frame = true
              ∧ env.flush.page_simple_validate_old (dw.block j).frame = true)) :
    (dw.first_free ≥ 2 * TRX_SYS_DOUBLEWRITE_BLOCK_SIZE →
      ∃ fs, buf_flush_buffered_writes env.flush st.fs = Except.ok fs
        ∧ fs.trx_doublewrite = some { dw with first_free := 0 }
        ∧ ∀ k, buf_flush_post_to_doublewrite_buf env bpage (k + 1) st
            = buf_flush_post_to_doublewrite_buf env bpage k { st with fs := fs })
    ∧ ∃ st', buf_flush_post_to_doublewrite_buf env bpage 2 st = flush_run.returns st' := by
  by_cases hfull : dw.first_free ≥ 2 * TRX_SYS_DOUBLEWRITE_BLOCK_SIZE
  · obtain ⟨fs, hfs⟩ := buf_flush_buffered_writes_returns env.flush st.fs dw hdw huse
      (hflush (by omega)).2
    obtain ⟨e1, e2⟩ := buf_flush_buffered_writes_doublewrite env.flush _ fs _ hdw huse hfs
    have hstep := buf_flush_post_to_doublewrite_buf_full env bpage st dw fs hdw hfile hfull hfs
    refine ⟨fun _ => ⟨fs, hfs, e2, hstep⟩, ?_⟩
    rw [hstep 1]
    exact buf_flush_post_to_doublewrite_buf_not_full_returns env bpage 0 { st with fs := fs }
      { dw with first_free := 0 } e2 e1 (Nat.mul_pos (by decide) (by decide)) hstate hfile
      (fun h => absurd h (by
        show ¬ ((0 : Nat) + 1 ≥ 2 * TRX_SYS_DOUBLEWRITE_BLOCK_SIZE)
        decide))
  · refine ⟨fun h => absurd h hfull, ?_⟩
    exact buf_flush_post_to_doublewrite_buf_not_full_returns env bpage 1 st dw hdw huse
      (by omega) hstate hfile hflush

/-- Claim C33: `trx_doublewrite_init` leaves `first_free = 0`; in every state
reached from there through `buf_flush_post_to_doublewrite_buf` and
`buf_flush_buffered_writes`, `first_free` is at most
`2 * TRX_SYS_DOUBLEWRITE_BLOCK_SIZE`; and on a doublewrite buffer that is in
use, whatever its `first_free`, `buf_flush_post_to_doublewrite_buf` comes to an
end within two passes (it returns, or the server is crashed by a failed
assertion), the slot that it copies the page image to is `first_free` when
that is below `2 * TRX_SYS_DOUBLEWRITE_BLOCK_SIZE` and the slot 0 of the
flushed buffer otherwise, so it is below `2 * TRX_SYS_DOUBLEWRITE_BLOCK_SIZE`,
and whenever it returns, the page image is in that slot, the rest of
`write_buf` is as it was, and `first_free` is below
`2 * TRX_SYS_DOUBLEWRITE_BLOCK_SIZE`.  And it does return, within two passes:
whenever the page is a file page (`buf_page_in_file` and the state
`BUF_BLOCK_FILE_PAGE`) and, if a flush is due (the buffer is full on entry, or
becomes full with this page), the buffered blocks and the page pass the checks
of `buf_flush_buffered_writes`; then `first_free` on return is one more than
the slot, or 0 when the buffer became full and was flushed; and a buffer that
is full on entry is flushed first: `buf_flush_buffered_writes` returns with the
buffer empty and the function starts again from there. -/
theorem C33_doublewrite_buffer_bounded (env : batch_env) (bpage : Nat) (st : batch_state)
    (dw : trx_doublewrite_t)
    (hdw : st.fs.trx_doublewrite = some dw) (huse : st.fs.srv_use_doublewrite_buf = true) :
    (∀ page doublewrite write_buf,
        (trx_doublewrite_init page doublewrite write_buf).first_free = 0)
    ∧ (∀ st2, doublewrite_reachable env st2 →
        ∃ dw2, st2.fs.trx_doublewrite = some dw2
          ∧ dw2.first_free ≤ 2 * TRX_SYS_DOUBLEWRITE_BLOCK_SIZE)
    ∧ doublewrite_slot dw < 2 * TRX_SYS_DOUBLEWRITE_BLOCK_SIZE
    ∧ (dw.first_free < 2 * TRX_SYS_DOUBLEWRITE_BLOCK_SIZE → doublewrite_slot dw = dw.first_free)
    ∧ buf_flush_post_to_doublewrite_buf env bpage 2 st ≠ flush_run.unfinished
    ∧ (∀ k st', buf_flush_post_to_doublewrite_buf env bpage k st = flush_run.returns st' →
        ∃ dw', st'.fs.trx_doublewrite = some dw'
          ∧ (∀ i, i < UNIV_PAGE_SIZE →
              dw'.write_buf (UNIV_PAGE_SIZE * doublewrite_slot dw + i)
                = (st.pool.pages bpage).frame i)
          ∧ (∀ x, x < UNIV_PAGE_SIZE * doublewrite_slot dw
                ∨ UNIV_PAGE_SIZE * doublewrite_slot dw + UNIV_PAGE_SIZE ≤ x →
              dw'.write_buf x = dw.write_buf x)
          ∧ dw'.first_free < 2 * TRX_SYS_DOUBLEWRITE_BLOCK_SIZE)
    ∧ ((st.pool.pages bpage).state = BUF_BLOCK_FILE_PAGE →
        env.buf_page_in_file (st.pool.pages bpage) = true →
        (dw.first_free + 1 ≥ 2 * TRX_SYS_DOUBLEWRITE_BLOCK_SIZE →
          ((st.pool.pages bpage).check_index_page_at_flush = true →
            env.flush.page_simple_validate_new (st.pool.pages bpage).frame = true
            ∧ env.flush.page_simple_validate_old (st.pool.pages bpage).frame = true)
          ∧ ∀ j, j < dw.first_free → (dw.block j).state = BUF_BLOCK_FILE_PAGE
              ∧ env.flush.buf_page_in_file (dw.block j) = true
              ∧ ((dw.block j).check_index_page_at_flush = true →
                  env.flush.page_simple_validate_new (dw.block j).frame = true
                  ∧ env.flush.page_simple_validate_old (dw.block j).frame = true)) →
        (dw.first_free ≥ 2 * TRX_SYS_DOUBLEWRITE_BLOCK_SIZE →
          ∃ fs, buf_flush_buffered_writes env.flush st.fs = Except.ok fs
            ∧ fs.trx_doublewrite = some { dw with first_free := 0 }
            ∧ ∀ k, buf_flush_post_to_doublewrite_buf env bpage (k + 1) st
                = buf_flush_post_to_doublewrite_buf env bpage k { st with fs := fs })
        ∧ ∃ st' dw', buf_flush_post_to_doublewrite_buf env bpage 2 st = flush_run.returns st'
            ∧ st'.fs.trx_doublewrite = some dw'
            ∧ (∀ i, i < UNIV_PAGE_SIZE →
                dw'.write_buf (UNIV_PAGE_SIZE * doublewrite_slot dw + i)
                  = (st.pool.pages bpage).frame i)
            ∧ (∀ x, x < UNIV_PAGE_SIZE * doublewrite_slot dw
                  ∨ UNIV_PAGE_SIZE * doublewrite_slot dw + UNIV_PAGE_SIZE ≤ x →
                dw'.write_buf x = dw.write_buf x)
            ∧ dw'.first_free
                = (if doublewrite_slot dw + 1 ≥ 2 * TRX_SYS_DOUBLEWRITE_BLOCK_SIZE then 0
                  else doublewrite_slot dw + 1)
            ∧ dw'.first_free < 2 * TRX_SYS_DOUBLEWRITE_BLOCK_SIZE) := by
  obtain ⟨h1, h2, h3⟩ := buf_flush_post_to_doublewrite_buf_spec env bpage st dw hdw huse
  have himage : ∀ dw' : trx_doublewrite_t,
      dw'.write_buf = memcpy dw.write_buf (UNIV_PAGE_SIZE * doublewrite_slot dw)
        (st.pool.pages bpage).frame 0 UNIV_PAGE_SIZE →
      (∀ i, i < UNIV_PAGE_SIZE →
        dw'.write_buf (UNIV_PAGE_SIZE * doublewrite_slot dw + i)
          = (st.pool.pages bpage).frame i)
      ∧ (∀ x, x < UNIV_PAGE_SIZE * doublewrite_slot dw
            ∨ UNIV_PAGE_SIZE * doublewrite_slot dw + UNIV_PAGE_SIZE ≤ x →
          dw'.write_buf x = dw.write_buf x) := by
    intro dw' d2
    constructor
    · intro i hi
      rw [d2, memcpy_apply, if_pos (by omega)]
      congr 1
      omega
    · intro x hx
      rw [d2, memcpy_apply, if_neg (by omega)]
  refine ⟨fun _ _ _ => rfl, ?_, h1, ?_, h2, ?_, ?_⟩
  · intro st2 hr
    obtain ⟨_, dw2, e1, e2⟩ := doublewrite_reachable_inv env st2 hr
    exact ⟨dw2, e1, Nat.le_of_lt e2⟩
  · intro h
    unfold doublewrite_slot
    rw [if_neg (by omega)]
  · intro k st' hret
    obtain ⟨_, dw', d1, d2, _, d4⟩ := h3 k st' hret
    exact ⟨dw', d1, (himage dw' d2).1, (himage dw' d2).2, d4⟩
  · intro hstate hfile hflush
    obtain ⟨r1, st', hret⟩ := buf_flush_post_to_doublewrite_buf_returns env bpage st dw hdw huse
      hstate hfile hflush
    obtain ⟨_, dw', d1, d2, d3, d4⟩ := h3 2 st' hret
    exact ⟨r1, st', dw', hret, d1, (himage dw' d2).1, (himage dw' d2).2, d3, d4⟩

set_option maxRecDepth 100000 in
/-- The theorem `C33_doublewrite_buffer_bounded` at three states.  With an
empty doublewrite buffer, as after `trx_doublewrite_init`, the call for the
block at address 1 returns in a state reached from `first_free = 0`, with
`first_free = 1` and the bytes of the frame in slot 0.  With 127 page images in
the buffer, the image goes to slot 127 and the call returns with
`first_free = 0`, after the flush of the buffer that became full.  With a full
buffer of 128 page images, the buffer is flushed first, the image goes to slot
0 and the call returns with `first_free = 1`. -/
theorem C33_doublewrite_buffer_bounded_witness :
    (∃ st' dw', buf_flush_post_to_doublewrite_buf sample_batch_env 1 2
          (sample_doublewrite_state_with 0) = flush_run.returns st'
        ∧ doublewrite_reachable sample_batch_env st'
        ∧ st'.fs.trx_doublewrite = some dw'
        ∧ dw'.first_free = 1
        ∧ dw'.write_buf 0 = 1 ∧ dw'.write_buf 300 = 45
        ∧ dw'.write_buf UNIV_PAGE_SIZE = 255)
    ∧ (∃ st' dw', buf_flush_post_to_doublewrite_buf sample_batch_env 1 2
          (sample_doublewrite_state_with 127) = flush_run.returns st'
        ∧ st'.fs.trx_doublewrite = some dw'
        ∧ dw'.first_free = 0
        ∧ dw'.write_buf (UNIV_PAGE_SIZE * 127 + 300) = 45
        ∧ dw'.write_buf 300 = 255)
    ∧ (∃ fs, buf_flush_buffered_writes sample_batch_env.flush
          (sample_doublewrite_state_with 128).fs = Except.ok fs
        ∧ fs.trx_doublewrite = some { sample_doublewrite_with 128 with first_free := 0 })
    ∧ (∃ st' dw', buf_flush_post_to_doublewrite_buf sample_batch_env 1 2
          (sample_doublewrite_state_with 128) = flush_run.returns st'
        ∧ st'.fs.trx_doublewrite = some dw'
        ∧ dw'.first_free = 1
        ∧ dw'.write_buf 300 = 45
        ∧ dw'.write_buf (UNIV_PAGE_SIZE + 300) = 255) :=
  ⟨by
      obtain ⟨st', dw', h1, h2, h3, h4, h5, _⟩ :=
        ((C33_doublewrite_buffer_bounded sample_batch_env 1 (sample_doublewrite_state_with 0)
          (sample_doublewrite_with 0) rfl rfl).2.2.2.2.2.2 (by decide) (by decide)
          (fun h => absurd h (by decide))).2
      exact ⟨st', dw', h1,
        doublewrite_reachable.post _ _ 1 2
          (doublewrite_reachable.init _ (sample_doublewrite_with 0) rfl rfl rfl) h1,
        h2, h5, h3 0 (by decide), h3 300 (by decide), h4 UNIV_PAGE_SIZE (Or.inr (by decide))⟩,
    by
      obtain ⟨st', dw', h1, h2, h3, h4, h5, _⟩ :=
        ((C33_doublewrite_buffer_bounded sample_batch_env 1 (sample_doublewrite_state_with 127)
          (sample_doublewrite_with 127) rfl rfl).2.2.2.2.2.2 (by decide) (by decide)
          (fun _ => by decide)).2
      exact ⟨st', dw', h1, h2, h5, h3 300 (by decide), h4 300 (Or.inl (by decide))⟩,
    by
      obtain ⟨fs, h1, h2, _⟩ :=
        ((C33_doublewrite_buffer_bounded sample_batch_env 1 (sample_doublewrite_state_with 128)
          (sample_doublewrite_with 128) rfl rfl).2.2.2.2.2.2 (by decide) (by decide)
          (fun _ => by decide)).1 (by decide)
      exact ⟨fs, h1, h2⟩,
    by
      obtain ⟨st', dw', h1, h2, h3, h4, h5, _⟩ :=
        ((C33_doublewrite_buffer_bounded sample_batch_env 1 (sample_doublewrite_state_with 128)
          (sample_doublewrite_with 128) rfl rfl).2.2.2.2.2.2 (by decide) (by decide)
          (fun _ => by decide)).2
      exact ⟨st', dw', h1, h2, h5, h3 300 (by decide),
        h4 (UNIV_PAGE_SIZE + 300) (Or.inr (by decide))⟩⟩


/-! ## Claim C39: the size of a compact record and its writer -/

/-- One round of the loop of `rec_convert_dtuple_to_rec_comp` for a field of
the index: where the data, the length bytes and the null flags get to, and that
no byte is written below the length bytes of the field or from the end of its
data on. -/
theorem rec_convert_dtuple_to_rec_comp_field_extent (index : dict_index_t)
    (fields : List dfield_t) (N0 i : Nat) (s : rec_comp_vars)
    (hv : dfield_valid_for (dict_index_get_nth_field index i) (dfield_array_get fields i))
    (hcnt : dict_index_n_nullable_before index (i + 1) ≤ 8 * UT_BITS_IN_BYTES index.n_nullable)
    (hgeo : UT_BITS_IN_BYTES index.n_nullable + rec_comp_lens_size index fields (i + 1) ≤ N0)
    (hs : rec_comp_vars_at index fields N0 i s.end_ s.lens s.nulls s.null_mask) :
    ∀ s1, rec_convert_dtuple_to_rec_comp_field index (dfield_array_get fields i) i s = s1 →
      rec_comp_vars_at index fields N0 (i + 1) s1.end_ s1.lens s1.nulls s1.null_mask
      ∧ (∀ x, (x + UT_BITS_IN_BYTES index.n_nullable + rec_comp_lens_size index fields (i + 1) ≤ N0
            ∨ N0 + 6 + rec_comp_data_offs fields (i + 1) ≤ x) → s1.mem x = s.mem x) := by
  intro s1 hs1
  obtain ⟨he, hl, b, hb, hm, hn, hc⟩ := hs
  have hcs := dict_index_n_nullable_before_succ index i
  have hL := rec_comp_lens_size_succ index fields i
  have hD := rec_comp_data_offs_succ fields i
  unfold rec_convert_dtuple_to_rec_comp_field at hs1
  simp only [dfield_get_type, dtype_get_prtype, hv.2.1] at hs1
  by_cases hN : (dict_index_get_nth_field index i).col.prtype &&& DATA_NOT_NULL = 0
  · have hnl : dict_field_is_nullable (dict_index_get_nth_field index i) = true := by
      simp [dict_field_is_nullable, dict_field_get_col, hN]
    rw [hnl, if_pos rfl] at hcs
    have hpos := rec_null_flag_position_eq N0 s.nulls s.null_mask b
      (dict_index_n_nullable_before index i) (UT_BITS_IN_BYTES index.n_nullable)
      hb hm hn hc (by omega) (by omega)
    have hc8 : dict_index_n_nullable_before index i % 8 < 8 := Nat.mod_lt _ (by omega)
    rw [if_pos hN, hpos] at hs1
    dsimp only at hs1
    rw [shl1_mod _ hc8] at hs1
    by_cases hnull : (dfield_array_get fields i).len = UNIV_SQL_NULL
    · have hnull1 : dfield_is_null (dfield_array_get fields i) = true := by
        simp [dfield_is_null, hnull]
      rw [if_pos hnull1] at hs1
      rw [dfield_data_size, if_pos hnull1] at hD
      rw [rec_comp_field_lens_size, if_pos hnull1] at hL
      subst hs1
      dsimp only
      refine ⟨⟨by omega, by omega, dict_index_n_nullable_before index i % 8 + 1, by omega, rfl,
        by omega, by omega⟩, ?_⟩
      intro x hx
      rw [Mem.put_eq, if_neg (by omega)]
    · have hnull1 : dfield_is_null (dfield_array_get fields i) = false := by
        simp [dfield_is_null, hnull]
      rw [hnull1] at hs1
      simp only [Bool.false_eq_true, if_false] at hs1
      have hfl := rec_comp_field_lens_size_le (dict_index_get_nth_field index i)
        (dfield_array_get fields i)
      rw [dfield_data_size, hnull1] at hD
      simp only [Bool.false_eq_true, if_false, dfield_get_len] at hD
      obtain ⟨a1, a2, a3, a4, _, _, _⟩ :=
        rec_convert_dtuple_to_rec_comp_data_at index fields N0 i
          ⟨s.mem, s.end_, N0 - dict_index_n_nullable_before index i / 8, s.lens,
            2 ^ (dict_index_n_nullable_before index i % 8 + 1)⟩ hv hnull hgeo he hl s1 hs1
      have f5 := (rec_convert_dtuple_to_rec_comp_data_spec index (dfield_array_get fields i) i
          (⟨s.mem, s.end_, N0 - dict_index_n_nullable_before index i / 8, s.lens,
            2 ^ (dict_index_n_nullable_before index i % 8 + 1)⟩ : rec_comp_vars) hv hnull
          (by dsimp only; omega) (by dsimp only; omega)).2.2.2.2.1
      rw [hs1] at f5
      dsimp only at a3 a4 f5
      refine ⟨⟨a1, a2, dict_index_n_nullable_before index i % 8 + 1, by omega, a4,
        by omega, by omega⟩, ?_⟩
      intro x hx
      exact f5 x (by omega) (by omega)
  · have hnl : dict_field_is_nullable (dict_index_get_nth_field index i) = false := by
      simp [dict_field_is_nullable, dict_field_get_col, hN]
    rw [hnl] at hcs
    simp only [Bool.false_eq_true, if_false, Nat.add_zero] at hcs
    have hnull : (dfield_array_get fields i).len ≠ UNIV_SQL_NULL := fun h => hN (hv.2.2.2.1 h)
    have hnull1 : dfield_is_null (dfield_array_get fields i) = false := by
      simp [dfield_is_null, hnull]
    rw [if_neg hN] at hs1
    have hfl := rec_comp_field_lens_size_le (dict_index_get_nth_field index i)
      (dfield_array_get fields i)
    rw [dfield_data_size, hnull1] at hD
    simp only [Bool.false_eq_true, if_false, dfield_get_len] at hD
    obtain ⟨a1, a2, a3, a4, _, _, _⟩ :=
      rec_convert_dtuple_to_rec_comp_data_at index fields N0 i _ hv hnull hgeo he hl s1 hs1
    have f5 := (rec_convert_dtuple_to_rec_comp_data_spec index (dfield_array_get fields i) i
        s hv hnull (by omega) (by omega)).2.2.2.2.1
    rw [hs1] at f5
    refine ⟨⟨a1, a2, b, hb, by rw [a4, hm], by omega, by omega⟩, ?_⟩
    intro x hx
    exact f5 x (by omega) (by omega)

/-- The loop of `rec_convert_dtuple_to_rec_comp` over fields of the index, none
of them the child page number: where the data, the length bytes and the null
flags get to, and that no byte is written below the length bytes or from the
end of the data on. -/
theorem rec_convert_dtuple_to_rec_comp_loop_extent (index : dict_index_t)
    (fields : List dfield_t) (p N0 n : Nat)
    (hv : ∀ i, i < n →
      dfield_valid_for (dict_index_get_nth_field index i) (dfield_array_get fields i))
    (hcnt : dict_index_n_nullable_before index n ≤ 8 * UT_BITS_IN_BYTES index.n_nullable)
    (hgeo : UT_BITS_IN_BYTES index.n_nullable + rec_comp_lens_size index fields n ≤ N0)
    (hp : n ≤ p) :
    ∀ k i s, i + k = n →
      rec_comp_vars_at index fields N0 i s.end_ s.lens s.nulls s.null_mask →
      ∀ s', rec_convert_dtuple_to_rec_comp_loop index fields p k i s = s' →
        rec_comp_vars_at index fields N0 n s'.end_ s'.lens s'.nulls s'.null_mask
        ∧ (∀ x, (x + UT_BITS_IN_BYTES index.n_nullable + rec_comp_lens_size index fields n ≤ N0
              ∨ N0 + 6 + rec_comp_data_offs fields n ≤ x) → s'.mem x = s.mem x) := by
  intro k
  induction k with
  | zero =>
    intro i s hik hs s' hs'
    rw [rec_convert_dtuple_to_rec_comp_loop] at hs'
    subst hs'
    have : i = n := by omega
    subst this
    exact ⟨hs, fun _ _ => rfl⟩
  | succ k ih =>
    intro i s hik hs s' hs'
    rw [rec_convert_dtuple_to_rec_comp_loop] at hs'
    rw [if_neg (by omega)] at hs'
    have hLle := rec_comp_lens_size_le index fields (i + 1) k
    have hNle := dict_index_n_nullable_before_le index (i + 1) k
    have hDle := rec_comp_data_offs_le fields (i + 1) k
    have e1 : i + 1 + k = n := by omega
    rw [e1] at hLle hNle hDle
    obtain ⟨b1, b2⟩ := rec_convert_dtuple_to_rec_comp_field_extent index fields N0 i s
      (hv i (by omega)) (by omega) (by omega) hs _ rfl
    obtain ⟨c1, c2⟩ := ih (i + 1) _ e1 b1 s' hs'
    refine ⟨c1, ?_⟩
    intro x hx
    rw [c2 x hx]
    exact b2 x (by omega)

/-- The loop of `rec_convert_dtuple_to_rec_comp` for a node pointer: the fields
in front of the child page number as in an ordinary record, then the four
bytes of the child page number. -/
theorem rec_convert_dtuple_to_rec_comp_loop_node_ptr (index : dict_index_t)
    (fields : List dfield_t) (n : Nat) :
    ∀ k i s, i + k = n →
      ∀ s', rec_convert_dtuple_to_rec_comp_loop index fields n k i s = s' →
        rec_convert_dtuple_to_rec_comp_loop index fields n (k + 1) i s
          = { s' with
              mem := memcpy_data s'.mem s'.end_ (dfield_get_data (dfield_array_get fields n))
                (dfield_get_len (dfield_array_get fields n)),
              end_ := s'.end_ + 4 } := by
  intro k
  induction k with
  | zero =>
    intro i s hik s' hs'
    rw [rec_convert_dtuple_to_rec_comp_loop] at hs'
    subst hs'
    have : i = n := by omega
    subst this
    rw [rec_convert_dtuple_to_rec_comp_loop]
    rw [if_pos rfl]
  | succ k ih =>
    intro i s hik s' hs'
    rw [rec_convert_dtuple_to_rec_comp_loop] at hs' ⊢
    rw [if_neg (by omega)] at hs' ⊢
    exact ih (i + 1) _ (by omega) s' hs'

/-- The sizes that `rec_get_converted_size_comp` returns for an ordinary record
and for a node pointer, in terms of the layout of the record. -/
theorem rec_get_converted_size_comp_layout (index : dict_index_t) (status : Nat)
    (fields : List dfield_t) (n_fields : Nat)
    (hst : status = REC_STATUS_ORDINARY ∨ status = REC_STATUS_NODE_PTR) :
    rec_get_converted_size_comp index status fields n_fields
      = some ((if status = REC_STATUS_NODE_PTR then REC_NODE_PTR_SIZE else 0)
          + (REC_N_NEW_EXTRA_BYTES + UT_BITS_IN_BYTES index.n_nullable
              + rec_comp_lens_size index fields (rec_comp_n_index_fields status n_fields)
            + rec_comp_data_offs fields (rec_comp_n_index_fields status n_fields)),
        REC_N_NEW_EXTRA_BYTES + UT_BITS_IN_BYTES index.n_nullable
          + rec_comp_lens_size index fields (rec_comp_n_index_fields status n_fields)) := by
  have key : ∀ n, rec_get_converted_size_comp_prefix index fields n
      = (REC_N_NEW_EXTRA_BYTES + UT_BITS_IN_BYTES index.n_nullable
            + rec_comp_lens_size index fields n + rec_comp_data_offs fields n,
          REC_N_NEW_EXTRA_BYTES + UT_BITS_IN_BYTES index.n_nullable
            + rec_comp_lens_size index fields n) := by
    intro n
    have h := rec_get_converted_size_comp_prefix_loop_eq index fields n 0
      (REC_N_NEW_EXTRA_BYTES + UT_BITS_IN_BYTES index.n_nullable) 0
    rw [Nat.zero_add] at h
    have hL0 : rec_comp_lens_size index fields 0 = 0 := rfl
    have hD0 : rec_comp_data_offs fields 0 = 0 := rfl
    rw [hL0, hD0] at h
    unfold rec_get_converted_size_comp_prefix
    dsimp only
    refine Prod.ext ?_ ?_
    · dsimp only; omega
    · dsimp only; omega
  unfold rec_get_converted_size_comp rec_comp_n_index_fields
  rcases hst with h | h
  · have hne : ¬ status = REC_STATUS_NODE_PTR := by rw [h]; decide
    rw [if_pos h, if_neg hne, if_neg hne]
    rw [key]
  · have hne : ¬ status = REC_STATUS_ORDINARY := by rw [h]; decide
    rw [if_neg hne, if_pos h, if_pos h, if_pos h]
    dsimp only
    rw [key]

/-- The record that `rec_convert_dtuple_to_rec_comp` writes for an ordinary
record or a node pointer with five fixed header bytes, in terms of the layout
of the record: the length bytes end where the layout says, the data ends where
the layout says, and no byte is written below the length bytes or from the end
of the data on. -/
theorem rec_convert_dtuple_to_rec_comp_extent (mem : Mem) (N0 : Nat) (index : dict_index_t)
    (status : Nat) (fields : List dfield_t) (n_fields : Nat)
    (hst : status = REC_STATUS_ORDINARY ∨ status = REC_STATUS_NODE_PTR)
    (hpos : 0 < n_fields) (hmax : n_fields ≤ REC_MAX_N_FIELDS)
    (hnullable : dict_index_n_nullable_before index (rec_comp_n_index_fields status n_fields)
      ≤ index.n_nullable)
    (hv : ∀ i, i < rec_comp_n_index_fields status n_fields →
      dfield_valid_for (dict_index_get_nth_field index i) (dfield_array_get fields i))
    (hnode : status = REC_STATUS_NODE_PTR →
      dfield_get_len (dfield_array_get fields (n_fields - 1)) = REC_NODE_PTR_SIZE)
    (hgeo : UT_BITS_IN_BYTES index.n_nullable
      + rec_comp_lens_size index fields (rec_comp_n_index_fields status n_fields) ≤ N0) :
    ∃ s, rec_convert_dtuple_to_rec_comp mem (N0 + 6) REC_N_NEW_EXTRA_BYTES index status fields
        n_fields = some s
      ∧ s.lens + UT_BITS_IN_BYTES index.n_nullable
          + rec_comp_lens_size index fields (rec_comp_n_index_fields status n_fields) = N0
      ∧ s.end_ = N0 + 6 + rec_comp_data_offs fields n_fields
      ∧ (∀ x, (x + UT_BITS_IN_BYTES index.n_nullable
              + rec_comp_lens_size index fields (rec_comp_n_index_fields status n_fields) ≤ N0
            ∨ N0 + 6 + rec_comp_data_offs fields n_fields ≤ x) → s.mem x = mem x) := by
  have e6 : N0 + 6 - (REC_N_NEW_EXTRA_BYTES + 1) = N0 := by
    unfold REC_N_NEW_EXTRA_BYTES; omega
  have hbits : index.n_nullable ≤ 8 * UT_BITS_IN_BYTES index.n_nullable := by
    unfold UT_BITS_IN_BYTES; omega
  have hinit : rec_comp_vars_at index fields N0 0 (N0 + 6)
      (N0 - UT_BITS_IN_BYTES index.n_nullable) N0 1 :=
    ⟨rfl, rfl, 0, by omega, rfl, Nat.le_refl _, by simp [dict_index_n_nullable_before]⟩
  have hmem : ∀ x, (x + UT_BITS_IN_BYTES index.n_nullable ≤ N0 ∨ N0 < x) →
      memset mem (N0 - UT_BITS_IN_BYTES index.n_nullable + 1) 0
        (N0 - (N0 - UT_BITS_IN_BYTES index.n_nullable)) x = mem x := by
    intro x hx
    unfold memset
    rw [if_neg (by omega)]
  unfold rec_convert_dtuple_to_rec_comp
  rw [e6]
  rcases hst with h | h
  · have hne : ¬ status = REC_STATUS_NODE_PTR := by rw [h]; decide
    have hnd : rec_comp_n_index_fields status n_fields = n_fields := by
      unfold rec_comp_n_index_fields; rw [if_neg hne]
    rw [hnd] at hnullable hv hgeo ⊢
    rw [if_pos h]
    dsimp only
    have hp : n_fields ≤ ULINT_UNDEFINED := by
      unfold REC_MAX_N_FIELDS at hmax; unfold ULINT_UNDEFINED; omega
    obtain ⟨⟨a1, a2, _⟩, a3⟩ := rec_convert_dtuple_to_rec_comp_loop_extent index fields
      ULINT_UNDEFINED N0 n_fields hv (by omega) hgeo hp n_fields 0
      ⟨memset mem (N0 - UT_BITS_IN_BYTES index.n_nullable + 1) 0
          (N0 - (N0 - UT_BITS_IN_BYTES index.n_nullable)),
        N0 + 6, N0, N0 - UT_BITS_IN_BYTES index.n_nullable, 1⟩ (by omega) hinit _ rfl
    refine ⟨_, rfl, by omega, a1, ?_⟩
    intro x hx
    rw [a3 x hx]
    exact hmem x (by omega)
  · have hne : ¬ status = REC_STATUS_ORDINARY := by rw [h]; decide
    have hnd : rec_comp_n_index_fields status n_fields = n_fields - 1 := by
      unfold rec_comp_n_index_fields; rw [if_pos h]
    rw [hnd] at hnullable hv hgeo ⊢
    rw [if_neg hne, if_pos h]
    dsimp only
    have hlen := hnode h
    unfold REC_NODE_PTR_SIZE dfield_get_len at hlen
    have hD := rec_comp_data_offs_succ fields (n_fields - 1)
    have e1 : n_fields - 1 + 1 = n_fields := by omega
    rw [e1] at hD
    have hnn : dfield_is_null (dfield_array_get fields (n_fields - 1)) = false := by
      simp [dfield_is_null, hlen, UNIV_SQL_NULL]
    rw [dfield_data_size, hnn] at hD
    simp only [Bool.false_eq_true, if_false, dfield_get_len, hlen] at hD
    obtain ⟨⟨a1, a2, _⟩, a3⟩ := rec_convert_dtuple_to_rec_comp_loop_extent index fields
      (n_fields - 1) N0 (n_fields - 1) hv (by omega) hgeo (Nat.le_refl _) (n_fields - 1) 0
      ⟨memset mem (N0 - UT_BITS_IN_BYTES index.n_nullable + 1) 0
          (N0 - (N0 - UT_BITS_IN_BYTES index.n_nullable)),
        N0 + 6, N0, N0 - UT_BITS_IN_BYTES index.n_nullable, 1⟩ (by omega) hinit _ rfl
    have hstep := rec_convert_dtuple_to_rec_comp_loop_node_ptr index fields (n_fields - 1)
      (n_fields - 1) 0
      ⟨memset mem (N0 - UT_BITS_IN_BYTES index.n_nullable + 1) 0
          (N0 - (N0 - UT_BITS_IN_BYTES index.n_nullable)),
        N0 + 6, N0, N0 - UT_BITS_IN_BYTES index.n_nullable, 1⟩ (by omega) _ rfl
    rw [e1] at hstep
    rw [hstep]
    refine ⟨_, rfl, by dsimp only; omega, by dsimp only; omega, ?_⟩
    intro x hx
    dsimp only
    unfold memcpy_data
    rw [dfield_get_len, hlen, if_neg (by omega)]
    rw [a3 x (by omega)]
    exact hmem x (by omega)

/-- Claim C39: the size computation and the writer of compact records agree.
For a tuple of an ordinary record or a node pointer, with at least one and at
most 1023 fields, whose fields of the index are valid for them, the nullable
ones among these counted in `n_nullable`, the child page number of a node
pointer of four bytes, and a buffer that is no null pointer:
`rec_get_converted_size_comp` returns a total size and an extra size, and
`rec_convert_dtuple_to_rec_comp`, writing at the origin `buf + extra`, ends
with the pointer to the length bytes one below `buf`, so that the header it
writes below the origin has `extra` bytes: the fixed `REC_N_NEW_EXTRA_BYTES`,
the null-flag bytes and the length bytes it has stored; the total size is the
extra size and the sum of the lengths of the fields that are not NULL, and the
data ends at `buf + size`; neither the writer nor
`rec_convert_dtuple_to_rec_new` changes a byte outside `[buf, buf + size)`. -/
theorem C39_converted_size_agrees_with_writer (mem : Mem) (buf : Nat) (index : dict_index_t)
    (dtuple : dtuple_t)
    (hbuf : 0 < buf)
    (hst : dtuple_get_info_bits dtuple &&& REC_NEW_STATUS_MASK = REC_STATUS_ORDINARY
      ∨ dtuple_get_info_bits dtuple &&& REC_NEW_STATUS_MASK = REC_STATUS_NODE_PTR)
    (hpos : 0 < dtuple.n_fields) (hmax : dtuple.n_fields ≤ REC_MAX_N_FIELDS)
    (hnullable : dict_index_n_nullable_before index
        (rec_comp_n_index_fields (dtuple_get_info_bits dtuple &&& REC_NEW_STATUS_MASK)
          dtuple.n_fields)
      ≤ index.n_nullable)
    (hv : ∀ i, i < rec_comp_n_index_fields
        (dtuple_get_info_bits dtuple &&& REC_NEW_STATUS_MASK) dtuple.n_fields →
      dfield_valid_for (dict_index_get_nth_field index i) (dfield_array_get dtuple.fields i))
    (hnode : dtuple_get_info_bits dtuple &&& REC_NEW_STATUS_MASK = REC_STATUS_NODE_PTR →
      dfield_get_len (dfield_array_get dtuple.fields (dtuple.n_fields - 1))
        = REC_NODE_PTR_SIZE) :
    ∃ size extra s m,
      rec_get_converted_size_comp index (dtuple_get_info_bits dtuple &&& REC_NEW_STATUS_MASK)
          dtuple.fields dtuple.n_fields = some (size, extra)
      ∧ rec_convert_dtuple_to_rec_comp mem (buf + extra) REC_N_NEW_EXTRA_BYTES index
          (dtuple_get_info_bits dtuple &&& REC_NEW_STATUS_MASK) dtuple.fields dtuple.n_fields
        = some s
      ∧ buf + extra - (s.lens + 1) = extra
      ∧ extra = REC_N_NEW_EXTRA_BYTES + UT_BITS_IN_BYTES index.n_nullable
          + (buf + extra - (REC_N_NEW_EXTRA_BYTES + 1) - UT_BITS_IN_BYTES index.n_nullable
              - s.lens)
      ∧ size = extra + rec_comp_data_offs dtuple.fields dtuple.n_fields
      ∧ s.end_ = buf + size
      ∧ (∀ x, (x < buf ∨ buf + size ≤ x) → s.mem x = mem x)
      ∧ rec_convert_dtuple_to_rec_new mem buf index dtuple = some (m, buf + extra)
      ∧ (∀ x, (x < buf ∨ buf + size ≤ x) → m x = mem x) := by
  have hsize := rec_get_converted_size_comp_layout index
    (dtuple_get_info_bits dtuple &&& REC_NEW_STATUS_MASK) dtuple.fields dtuple.n_fields hst
  have hrec : buf + (REC_N_NEW_EXTRA_BYTES + UT_BITS_IN_BYTES index.n_nullable
        + rec_comp_lens_size index dtuple.fields
            (rec_comp_n_index_fields (dtuple_get_info_bits dtuple &&& REC_NEW_STATUS_MASK)
              dtuple.n_fields))
      = (buf - 1 + UT_BITS_IN_BYTES index.n_nullable
          + rec_comp_lens_size index dtuple.fields
              (rec_comp_n_index_fields (dtuple_get_info_bits dtuple &&& REC_NEW_STATUS_MASK)
                dtuple.n_fields)) + 6 := by
    unfold REC_N_NEW_EXTRA_BYTES; omega
  obtain ⟨s, hw, h1, h2, h3⟩ := rec_convert_dtuple_to_rec_comp_extent mem
    (buf - 1 + UT_BITS_IN_BYTES index.n_nullable
      + rec_comp_lens_size index dtuple.fields
          (rec_comp_n_index_fields (dtuple_get_info_bits dtuple &&& REC_NEW_STATUS_MASK)
            dtuple.n_fields))
    index (dtuple_get_info_bits dtuple &&& REC_NEW_STATUS_MASK) dtuple.fields dtuple.n_fields
    hst hpos hmax hnullable hv hnode (by omega)
  rw [← hrec] at hw
  have hD : rec_comp_data_offs dtuple.fields dtuple.n_fields
      = (if dtuple_get_info_bits dtuple &&& REC_NEW_STATUS_MASK = REC_STATUS_NODE_PTR
          then REC_NODE_PTR_SIZE else 0)
        + rec_comp_data_offs dtuple.fields
            (rec_comp_n_index_fields (dtuple_get_info_bits dtuple &&& REC_NEW_STATUS_MASK)
              dtuple.n_fields) := by
    unfold rec_comp_n_index_fields
    by_cases h : dtuple_get_info_bits dtuple &&& REC_NEW_STATUS_MASK = REC_STATUS_NODE_PTR
    · rw [if_pos h, if_pos h]
      have hlen := hnode h
      have hDs := rec_comp_data_offs_succ dtuple.fields (dtuple.n_fields - 1)
      have e1 : dtuple.n_fields - 1 + 1 = dtuple.n_fields := by omega
      rw [e1] at hDs
      have hnn : dfield_is_null (dfield_array_get dtuple.fields (dtuple.n_fields - 1))
          = false := by
        unfold dfield_get_len REC_NODE_PTR_SIZE at hlen
        simp [dfield_is_null, hlen, UNIV_SQL_NULL]
      rw [dfield_data_size, hnn] at hDs
      simp only [Bool.false_eq_true, if_false, hlen] at hDs
      omega
    · rw [if_neg h, if_neg h]; omega
  have hx5 : REC_N_NEW_EXTRA_BYTES = 5 := rfl
  refine ⟨_, _, s,
    rec_set_info_and_status_bits s.mem
      (buf + (REC_N_NEW_EXTRA_BYTES + UT_BITS_IN_BYTES index.n_nullable
        + rec_comp_lens_size index dtuple.fields
            (rec_comp_n_index_fields (dtuple_get_info_bits dtuple &&& REC_NEW_STATUS_MASK)
              dtuple.n_fields)))
      (dtuple_get_info_bits dtuple),
    hsize, hw, by omega, by omega, by omega, by omega, ?_, ?_, ?_⟩
  · intro x hx
    exact h3 x (by omega)
  · unfold rec_convert_dtuple_to_rec_new
    dsimp only
    rw [hsize]
    dsimp only
    rw [hw]
  · intro x hx
    rw [rec_set_info_and_status_bits_frame _ _ _ _ (by omega) (by omega)]
    exact h3 x (by omega)

/-- Claim C39 on a node pointer for `three_column_index` with the child page
number 9, built at address 1 of a zeroed memory. -/
theorem C39_converted_size_agrees_with_writer_witness :
    (0 < 1
      ∧ (dtuple_get_info_bits three_column_node_ptr &&& REC_NEW_STATUS_MASK = REC_STATUS_ORDINARY
        ∨ dtuple_get_info_bits three_column_node_ptr &&& REC_NEW_STATUS_MASK
            = REC_STATUS_NODE_PTR)
      ∧ 0 < three_column_node_ptr.n_fields
      ∧ three_column_node_ptr.n_fields ≤ REC_MAX_N_FIELDS
      ∧ dict_index_n_nullable_before three_column_index
          (rec_comp_n_index_fields
            (dtuple_get_info_bits three_column_node_ptr &&& REC_NEW_STATUS_MASK)
            three_column_node_ptr.n_fields)
        ≤ three_column_index.n_nullable
      ∧ (∀ i, i < rec_comp_n_index_fields
          (dtuple_get_info_bits three_column_node_ptr &&& REC_NEW_STATUS_MASK)
          three_column_node_ptr.n_fields →
        dfield_valid_for (dict_index_get_nth_field three_column_index i)
          (dfield_array_get three_column_node_ptr.fields i))
      ∧ (dtuple_get_info_bits three_column_node_ptr &&& REC_NEW_STATUS_MASK
            = REC_STATUS_NODE_PTR →
          dfield_get_len (dfield_array_get three_column_node_ptr.fields
            (three_column_node_ptr.n_fields - 1)) = REC_NODE_PTR_SIZE))
    ∧ ∃ size extra s m,
      rec_get_converted_size_comp three_column_index
          (dtuple_get_info_bits three_column_node_ptr &&& REC_NEW_STATUS_MASK)
          three_column_node_ptr.fields three_column_node_ptr.n_fields = some (size, extra)
      ∧ rec_convert_dtuple_to_rec_comp (fun _ => 0) (1 + extra) REC_N_NEW_EXTRA_BYTES
          three_column_index
          (dtuple_get_info_bits three_column_node_ptr &&& REC_NEW_STATUS_MASK)
          three_column_node_ptr.fields three_column_node_ptr.n_fields
        = some s
      ∧ 1 + extra - (s.lens + 1) = extra
      ∧ extra = REC_N_NEW_EXTRA_BYTES + UT_BITS_IN_BYTES three_column_index.n_nullable
          + (1 + extra - (REC_N_NEW_EXTRA_BYTES + 1)
              - UT_BITS_IN_BYTES three_column_index.n_nullable - s.lens)
      ∧ size = extra + rec_comp_data_offs three_column_node_ptr.fields
          three_column_node_ptr.n_fields
      ∧ s.end_ = 1 + size
      ∧ (∀ x, (x < 1 ∨ 1 + size ≤ x) → s.mem x = (fun _ => 0 : Mem) x)
      ∧ rec_convert_dtuple_to_rec_new (fun _ => 0) 1 three_column_index three_column_node_ptr
        = some (m, 1 + extra)
      ∧ (∀ x, (x < 1 ∨ 1 + size ≤ x) → m x = (fun _ => 0 : Mem) x) :=
  ⟨⟨by decide, by decide, by decide, by decide, by decide, by decide, by decide⟩,
    C39_converted_size_agrees_with_writer (fun _ => 0) 1 three_column_index
      three_column_node_ptr (by decide) (by decide) (by decide) (by decide) (by decide)
      (by decide) (by decide)⟩


/-! ## Lemmas on the undo record of an update or a delete marking -/

theorem undo_modify_extends_refl (tp : Option Nat) (s : undo_modify_vars)
    (h : s.ptr + 18 ≤ 16384) : undo_modify_extends tp s s := by
  unfold undo_modify_extends FIL_PAGE_DATA_END UNIV_PAGE_SIZE
  exact ⟨Nat.le_refl _, by omega, fun p hp => Or.inl hp, fun _ _ _ => rfl⟩

theorem undo_modify_extends_trans (tp : Option Nat) (s s' s'' : undo_modify_vars)
    (h1 : undo_modify_extends tp s s') (h2 : undo_modify_extends tp s' s'') :
    undo_modify_extends tp s s'' := by
  obtain ⟨a1, a2, a3, a4⟩ := h1
  obtain ⟨b1, b2, b3, b4⟩ := h2
  refine ⟨by omega, b2, ?_, ?_⟩
  · intro p hp
    rcases b3 p hp with h | h
    · exact a3 p h
    · exact Or.inr h
  · intro x hx hne
    rw [b4 x (by omega) hne, a4 x (by omega) hne]

theorem undo_modify_extends_mono (tp : Option Nat) (s s' : undo_modify_vars)
    (h : undo_modify_extends none s s') : undo_modify_extends tp s s' := by
  obtain ⟨a1, a2, a3, a4⟩ := h
  exact ⟨a1, a2, a3, fun x hx _ => a4 x hx (by simp)⟩

theorem undo_modify_extends_bound (tp : Option Nat) (s s' : undo_modify_vars)
    (h : undo_modify_extends tp s s') : s'.ptr + 18 ≤ 16384 := by
  have := h.2.1
  unfold FIL_PAGE_DATA_END UNIV_PAGE_SIZE at this
  omega

theorem undo_modify_extends_mk (tp : Option Nat) (s : undo_modify_vars) (page' : Mem)
    (ptr' : Nat) (dm : Bool) (checks' : List Nat)
    (h1 : s.ptr ≤ ptr') (h2 : ptr' + 18 ≤ 16384)
    (h3 : ∀ p ∈ checks', p ∈ s.checks ∨ p + 18 ≤ 16384)
    (h4 : ∀ x, (x < s.ptr ∨ ptr' ≤ x) → some x ≠ tp → page' x = s.undo_page x) :
    undo_modify_extends tp s ⟨page', ptr', dm, checks'⟩ := by
  unfold undo_modify_extends FIL_PAGE_DATA_END UNIV_PAGE_SIZE
  refine ⟨h1, by dsimp only; omega, ?_, h4⟩
  intro p hp
  rcases h3 p hp with h | h
  · exact Or.inl h
  · exact Or.inr (by omega)

theorem mem_checks_append (checks : List Nat) (ptr : Nat) (h : ptr + 18 ≤ 16384) :
    ∀ p ∈ checks ++ [ptr], p ∈ checks ∨ p + 18 ≤ 16384 := by
  intro p hp
  rcases List.mem_append.1 hp with h1 | h1
  · exact Or.inl h1
  · rw [List.mem_singleton] at h1
    subst h1
    exact Or.inr h

theorem trx_undo_left_exact (ptr : Nat) (h : ptr + 18 ≤ 16384) :
    trx_undo_left ptr = 16366 - ptr := by
  rw [trx_undo_left_eq ptr (by unfold UNIV_PAGE_SIZE; omega)]
  unfold UNIV_PAGE_SIZE
  omega

/-- The copy of the data of a column extends the record. -/
theorem trx_undo_page_report_modify_data_extends (srcm : Mem) (field flen : Nat)
    (s : undo_modify_vars) (hs : s.ptr + 18 ≤ 16384) :
    undo_modify_extends none s (trx_undo_page_report_modify_data srcm field flen s).1 := by
  unfold trx_undo_page_report_modify_data
  by_cases hnull : flen ≠ UNIV_SQL_NULL
  · rw [if_pos hnull]
    dsimp only [undo_modify_vars.check]
    rw [trx_undo_left_exact s.ptr hs]
    by_cases hc : 16366 - s.ptr < flen
    · rw [if_pos hc]
      exact undo_modify_extends_mk none s _ _ _ _ (Nat.le_refl _) hs
        (mem_checks_append _ _ hs) (fun _ _ _ => rfl)
    · rw [if_neg hc]
      refine undo_modify_extends_mk none s _ _ _ _ (by omega) (by omega)
        (mem_checks_append _ _ hs) ?_
      intro x hx _
      rw [memcpy_apply, if_neg (by omega)]
  · rw [if_neg hnull]
    exact undo_modify_extends_refl none s hs

/-- The marker and the lengths that `trx_undo_page_report_modify_ext` writes
take at most 15 bytes from `ptr` on. -/
theorem trx_undo_page_report_modify_ext_spec (env : undo_modify_env) (page : Mem) (ptr : Nat)
    (b : Bool) (recm : Mem) (field len : Nat) :
    ∀ e, trx_undo_page_report_modify_ext env page ptr b recm field len = some e →
      ptr ≤ e.ptr ∧ e.ptr ≤ ptr + 15
      ∧ ∀ x, (x < ptr ∨ e.ptr ≤ x) → e.undo_page x = page x := by
  intro e he
  unfold trx_undo_page_report_modify_ext at he
  cases b
  · rw [if_neg (by simp)] at he
    dsimp only at he
    injection he with he
    subst he
    dsimp only
    rw [mach_write_compressed_size]
    have h1 := mach_get_compressed_size_le ((UNIV_EXTERN_STORAGE_FIELD + len) % 2 ^ 64)
    refine ⟨by omega, by omega, ?_⟩
    intro x hx
    exact mach_write_compressed_frame _ _ _ _ (by omega)
  · rw [if_pos rfl] at he
    dsimp only at he
    cases hf : trx_undo_page_fetch_ext env recm field len with
    | none => rw [hf] at he; exact absurd he (by simp)
    | some f =>
      rw [hf] at he
      dsimp only at he
      injection he with he
      subst he
      dsimp only
      simp only [mach_write_compressed_size]
      have h1 := mach_get_compressed_size_le UNIV_EXTERN_STORAGE_FIELD
      have h2 := mach_get_compressed_size_le len
      have h3 := mach_get_compressed_size_le f.2
      refine ⟨by omega, by omega, ?_⟩
      intro x hx
      rw [mach_write_compressed_frame _ _ _ _ (by omega),
        mach_write_compressed_frame _ _ _ _ (by omega),
        mach_write_compressed_frame _ _ _ _ (by omega)]

/-- The loop over the fields that determine the record uniquely extends the
record. -/
theorem trx_undo_page_report_modify_unique_extends (recm : Mem) (rec_ : Nat)
    (offsets : Nat → Nat) :
    ∀ k i s, s.ptr + 18 ≤ 16384 →
      undo_modify_extends none s
        (trx_undo_page_report_modify_unique recm rec_ offsets k i s).1 := by
  intro k
  induction k with
  | zero =>
    intro i s hs
    rw [trx_undo_page_report_modify_unique]
    exact undo_modify_extends_refl none s hs
  | succ k ih =>
    intro i s hs
    rw [trx_undo_page_report_modify_unique]
    dsimp only [undo_modify_vars.check]
    rw [trx_undo_left_exact s.ptr hs]
    by_cases hc : 16366 - s.ptr < 5
    · rw [if_pos hc]
      exact undo_modify_extends_mk none s _ _ _ _ (Nat.le_refl _) hs
        (mem_checks_append _ _ hs) (fun _ _ _ => rfl)
    · rw [if_neg hc]
      have hsz := mach_write_compressed_size s.undo_page s.ptr (rec_get_nth_field rec_ offsets i).2
      have hle := mach_get_compressed_size_le (rec_get_nth_field rec_ offsets i).2
      have e1 : undo_modify_extends none s
          ⟨(mach_write_compressed s.undo_page s.ptr (rec_get_nth_field rec_ offsets i).2).1,
            s.ptr + (mach_write_compressed s.undo_page s.ptr
              (rec_get_nth_field rec_ offsets i).2).2,
            s.del_marks, s.checks ++ [s.ptr]⟩ := by
        refine undo_modify_extends_mk none s _ _ _ _ (by omega) (by omega)
          (mem_checks_append _ _ hs) ?_
        intro x hx _
        exact mach_write_compressed_frame _ _ _ _ (by omega)
      have e2 := trx_undo_page_report_modify_data_extends recm
        (rec_get_nth_field rec_ offsets i).1 (rec_get_nth_field rec_ offsets i).2 _
        (undo_modify_extends_bound _ _ _ e1)
      cases hd : trx_undo_page_report_modify_data recm (rec_get_nth_field rec_ offsets i).1
          (rec_get_nth_field rec_ offsets i).2
          ⟨(mach_write_compressed s.undo_page s.ptr (rec_get_nth_field rec_ offsets i).2).1,
            s.ptr + (mach_write_compressed s.undo_page s.ptr
              (rec_get_nth_field rec_ offsets i).2).2,
            s.del_marks, s.checks ++ [s.ptr]⟩ with
      | mk s2 ok =>
        rw [hd] at e2
        have e3 := undo_modify_extends_trans none _ _ _ e1 e2
        cases ok
        · exact e3
        · exact undo_modify_extends_trans none _ _ _ e3
            (ih (i + 1) s2 (undo_modify_extends_bound _ _ _ e3))

set_option maxRecDepth 100000 in
theorem or_extern_idem (b : Nat) :
    (((b % 256 ||| 128) % 256) % 256 ||| 128) % 256 = (b % 256 ||| 128) % 256 := by
  have key : ∀ c, c < 256 → ((c ||| 128) % 256 % 256 ||| 128) % 256 = (c ||| 128) % 256 := by
    decide
  exact key _ (Nat.mod_lt _ (by decide))

/-- The loop over the fields of the update vector extends the record, but for
the flag `TRX_UNDO_UPD_EXTERN` that it sets in the type byte at
`type_cmpl_ptr`: when the loop goes through, the flag is set if one of the
fields is stored externally, and else the type byte is as it was. -/
theorem trx_undo_page_report_modify_upd_fields_extends (env : undo_modify_env) (recm : Mem)
    (rec_ : Nat) (offsets : Nat → Nat) ( ignore_prefix : Bool) (tp : Nat) (update : upd_t) :
    ∀ k i s, s.ptr + 18 ≤ 16384 → tp < s.ptr →
      ∀ r, trx_undo_page_report_modify_upd_fields env recm rec_ offsets ignore_prefix tp update
          k i s = some r →
        undo_modify_extends (some tp) s r.1
        ∧ (r.2 = true →
            ((∃ j, i ≤ j ∧ j < i + k ∧ rec_offs_nth_extern offsets (update.field_no j) ≠ 0) →
                r.1.undo_page tp = (s.undo_page.byte tp ||| TRX_UNDO_UPD_EXTERN) % 256)
            ∧ ((¬ ∃ j, i ≤ j ∧ j < i + k
                  ∧ rec_offs_nth_extern offsets (update.field_no j) ≠ 0) →
                r.1.undo_page tp = s.undo_page tp)) := by
  intro k
  induction k with
  | zero =>
    intro i s hs htp r hr
    rw [trx_undo_page_report_modify_upd_fields] at hr
    injection hr with hr
    subst hr
    refine ⟨undo_modify_extends_refl _ s hs, fun _ => ⟨?_, fun _ => rfl⟩⟩
    rintro ⟨j, h1, h2, _⟩
    omega
  | succ k ih =>
    intro i s hs htp r hr
    rw [trx_undo_page_report_modify_upd_fields] at hr
    dsimp only [undo_modify_vars.check] at hr
    rw [trx_undo_left_exact s.ptr hs] at hr
    by_cases hc : 16366 - s.ptr < 5
    · rw [if_pos hc] at hr
      injection hr with hr
      subst hr
      exact ⟨undo_modify_extends_mk _ s _ _ _ _ (Nat.le_refl _) hs
        (mem_checks_append _ _ hs) (fun _ _ _ => rfl), fun h => absurd h (by simp)⟩
    rw [if_neg hc] at hr
    have hsz1 := mach_write_compressed_size s.undo_page s.ptr (update.field_no i)
    have hle1 := mach_get_compressed_size_le (update.field_no i)
    have hfr1 := mach_write_compressed_frame s.undo_page s.ptr (update.field_no i)
    generalize mach_write_compressed s.undo_page s.ptr (update.field_no i) = w1 at hr hsz1 hfr1
    rw [trx_undo_left_exact (s.ptr + w1.2) (by omega)] at hr
    have hck : ∀ p ∈ s.checks ++ [s.ptr] ++ [s.ptr + w1.2], p ∈ s.checks ∨ p + 18 ≤ 16384 := by
      intro p hp
      rcases List.mem_append.1 hp with h1 | h1
      · exact mem_checks_append _ _ hs p h1
      · rw [List.mem_singleton] at h1
        subst h1
        exact Or.inr (by omega)
    by_cases hc2 : 16366 - (s.ptr + w1.2) < 15
    · rw [if_pos hc2] at hr
      injection hr with hr
      subst hr
      refine ⟨undo_modify_extends_mk _ s _ _ _ _ (by omega) (by omega) hck ?_,
        fun h => absurd h (by simp)⟩
      intro x hx _
      exact hfr1 x (by omega)
    rw [if_neg hc2] at hr
    by_cases hx : rec_offs_nth_extern offsets (update.field_no i) ≠ 0
    · rw [if_pos hx] at hr
      cases he : trx_undo_page_report_modify_ext env w1.1 (s.ptr + w1.2)
          (env.index_col_ord_part (update.field_no i) && ! ignore_prefix
            && decide ((rec_get_nth_field rec_ offsets (update.field_no i)).2
              < REC_MAX_INDEX_COL_LEN))
          recm (rec_get_nth_field rec_ offsets (update.field_no i)).1
          (rec_get_nth_field rec_ offsets (update.field_no i)).2 with
      | none => rw [he] at hr; exact absurd hr (by simp)
      | some e =>
        rw [he] at hr
        dsimp only at hr
        obtain ⟨x1, x2, x3⟩ := trx_undo_page_report_modify_ext_spec _ _ _ _ _ _ _ e he
        have e1 : undo_modify_extends (some tp) s
            ⟨e.undo_page.put tp (e.undo_page.byte tp ||| TRX_UNDO_UPD_EXTERN), e.ptr, true,
              s.checks ++ [s.ptr] ++ [s.ptr + w1.2]⟩ := by
          refine undo_modify_extends_mk _ s _ _ _ _ (by omega) (by omega) hck ?_
          intro x hx hne
          have hxt : x ≠ tp := fun h => hne (by rw [h])
          rw [Mem.put_apply, if_neg hxt, x3 x (by omega), hfr1 x (by omega)]
        have hb1 := undo_modify_extends_bound _ _ _ e1
        have e2 := trx_undo_page_report_modify_data_extends e.srcm e.field e.len
          ⟨e.undo_page.put tp (e.undo_page.byte tp ||| TRX_UNDO_UPD_EXTERN), e.ptr, true,
            s.checks ++ [s.ptr] ++ [s.ptr + w1.2]⟩ hb1
        cases hd : trx_undo_page_report_modify_data e.srcm e.field e.len
            ⟨e.undo_page.put tp (e.undo_page.byte tp ||| TRX_UNDO_UPD_EXTERN), e.ptr, true,
              s.checks ++ [s.ptr] ++ [s.ptr + w1.2]⟩ with
        | mk s2 ok =>
          rw [hd] at hr e2
          have e3 := undo_modify_extends_trans _ _ _ _ e1
            (undo_modify_extends_mono (some tp) _ _ e2)
          cases ok
          · dsimp only at hr
            injection hr with hr
            subst hr
            exact ⟨e3, fun h => absurd h (by simp)⟩
          · dsimp only at hr
            have hp2 : tp < s2.ptr := by
              have : s.ptr ≤ s2.ptr := e3.1
              omega
            obtain ⟨f1, f2⟩ := ih (i + 1) s2 (undo_modify_extends_bound _ _ _ e3) hp2 r hr
            refine ⟨undo_modify_extends_trans _ _ _ _ e3 f1, fun hok => ?_⟩
            obtain ⟨g1, g2⟩ := f2 hok
            have hs2 : s2.undo_page tp = (s.undo_page.byte tp ||| TRX_UNDO_UPD_EXTERN) % 256 := by
              have := e2.2.2.2 tp (Or.inl (by dsimp only; omega)) (by simp)
              rw [this]
              dsimp only
              rw [Mem.put_apply, if_pos rfl, Mem.byte_eq, Mem.byte_eq, x3 tp (by omega),
                hfr1 tp (by omega)]
            constructor
            · intro _
              by_cases hlater : ∃ j, i + 1 ≤ j ∧ j < i + 1 + k
                  ∧ rec_offs_nth_extern offsets (update.field_no j) ≠ 0
              · rw [g1 hlater, Mem.byte_eq, hs2, Mem.byte_eq]
                unfold TRX_UNDO_UPD_EXTERN
                exact or_extern_idem _
              · rw [g2 hlater, hs2]
            · intro hno
              exact absurd ⟨i, Nat.le_refl _, by omega, hx⟩ hno
    · rw [if_neg hx] at hr
      have hsz2 := mach_write_compressed_size w1.1 (s.ptr + w1.2)
        (rec_get_nth_field rec_ offsets (update.field_no i)).2
      have hle2 := mach_get_compressed_size_le
        (rec_get_nth_field rec_ offsets (update.field_no i)).2
      have hfr2 := mach_write_compressed_frame w1.1 (s.ptr + w1.2)
        (rec_get_nth_field rec_ offsets (update.field_no i)).2
      generalize mach_write_compressed w1.1 (s.ptr + w1.2)
        (rec_get_nth_field rec_ offsets (update.field_no i)).2 = w2 at hr hsz2 hfr2
      have e1 : undo_modify_extends none s
          ⟨w2.1, s.ptr + w1.2 + w2.2, s.del_marks,
            s.checks ++ [s.ptr] ++ [s.ptr + w1.2]⟩ := by
        refine undo_modify_extends_mk _ s _ _ _ _ (by omega) (by omega) hck ?_
        intro x hx _
        rw [hfr2 x (by omega), hfr1 x (by omega)]
      have hb1 := undo_modify_extends_bound _ _ _ e1
      have e2 := trx_undo_page_report_modify_data_extends recm
        (rec_get_nth_field rec_ offsets (update.field_no i)).1
        (rec_get_nth_field rec_ offsets (update.field_no i)).2
        ⟨w2.1, s.ptr + w1.2 + w2.2, s.del_marks, s.checks ++ [s.ptr] ++ [s.ptr + w1.2]⟩ hb1
      cases hd : trx_undo_page_report_modify_data recm
          (rec_get_nth_field rec_ offsets (update.field_no i)).1
          (rec_get_nth_field rec_ offsets (update.field_no i)).2
          ⟨w2.1, s.ptr + w1.2 + w2.2, s.del_marks, s.checks ++ [s.ptr] ++ [s.ptr + w1.2]⟩ with
      | mk s2 ok =>
        rw [hd] at hr e2
        have e3 := undo_modify_extends_trans _ _ _ _ e1 e2
        cases ok
        · dsimp only at hr
          injection hr with hr
          subst hr
          exact ⟨undo_modify_extends_mono _ _ _ e3, fun h => absurd h (by simp)⟩
        · dsimp only at hr
          have hp2 : tp < s2.ptr := by
            have : s.ptr ≤ s2.ptr := e3.1
            omega
          obtain ⟨f1, f2⟩ := ih (i + 1) s2 (undo_modify_extends_bound _ _ _ e3) hp2 r hr
          refine ⟨undo_modify_extends_trans _ _ _ _ (undo_modify_extends_mono _ _ _ e3) f1,
            fun hok => ?_⟩
          obtain ⟨g1, g2⟩ := f2 hok
          have hs2 : s2.undo_page tp = s.undo_page tp := e3.2.2.2 tp (Or.inl htp) (by simp)
          have hiff : (∃ j, i ≤ j ∧ j < i + (k + 1)
                ∧ rec_offs_nth_extern offsets (update.field_no j) ≠ 0)
              ↔ ∃ j, i + 1 ≤ j ∧ j < i + 1 + k
                ∧ rec_offs_nth_extern offsets (update.field_no j) ≠ 0 := by
            constructor
            · rintro ⟨j, h1, h2, h3⟩
              have : j ≠ i := fun h => hx (by rw [← h]; exact h3)
              exact ⟨j, by omega, by omega, h3⟩
            · rintro ⟨j, h1, h2, h3⟩
              exact ⟨j, by omega, by omega, h3⟩
          constructor
          · intro h
            rw [g1 (hiff.1 h), Mem.byte_eq, hs2, Mem.byte_eq]
          · intro h
            rw [g2 (fun h' => h (hiff.2 h')), hs2]

/-- The statements `if (update) { ... }` extend the record, but for the flag
`TRX_UNDO_UPD_EXTERN` in the type byte, which they set, when they go through,
exactly if a field of the update vector is stored externally. -/
theorem trx_undo_page_report_modify_updated_extends (env : undo_modify_env) (recm : Mem)
    (rec_ : Nat) (offsets : Nat → Nat) ( ignore_prefix : Bool) (tp : Nat)
    (update : Option upd_t) (s : undo_modify_vars)
    (hs : s.ptr + 18 ≤ 16384) (htp : tp < s.ptr) :
    ∀ r, trx_undo_page_report_modify_updated env recm rec_ offsets ignore_prefix tp update s
        = some r →
      undo_modify_extends (some tp) s r.1
      ∧ (r.2 = true →
          ((∃ u j, update = some u ∧ j < u.n_fields
              ∧ rec_offs_nth_extern offsets (u.field_no j) ≠ 0) →
                r.1.undo_page tp = (s.undo_page.byte tp ||| TRX_UNDO_UPD_EXTERN) % 256)
          ∧ ((¬ ∃ u j, update = some u ∧ j < u.n_fields
              ∧ rec_offs_nth_extern offsets (u.field_no j) ≠ 0) →
                r.1.undo_page tp = s.undo_page tp)) := by
  intro r hr
  unfold trx_undo_page_report_modify_updated at hr
  cases update with
  | none =>
    dsimp only at hr
    injection hr with hr
    subst hr
    refine ⟨undo_modify_extends_refl _ s hs, fun _ => ⟨?_, fun _ => rfl⟩⟩
    rintro ⟨u, j, h, _⟩
    exact absurd h (by simp)
  | some u =>
    dsimp only [undo_modify_vars.check] at hr
    rw [trx_undo_left_exact s.ptr hs] at hr
    by_cases hc : 16366 - s.ptr < 5
    · rw [if_pos hc] at hr
      injection hr with hr
      subst hr
      exact ⟨undo_modify_extends_mk _ s _ _ _ _ (Nat.le_refl _) hs
        (mem_checks_append _ _ hs) (fun _ _ _ => rfl), fun h => absurd h (by simp)⟩
    rw [if_neg hc] at hr
    have hsz1 := mach_write_compressed_size s.undo_page s.ptr (upd_get_n_fields u)
    have hle1 := mach_get_compressed_size_le (upd_get_n_fields u)
    have hfr1 := mach_write_compressed_frame s.undo_page s.ptr (upd_get_n_fields u)
    generalize mach_write_compressed s.undo_page s.ptr (upd_get_n_fields u) = w1
      at hr hsz1 hfr1
    have e1 : undo_modify_extends none s
        ⟨w1.1, s.ptr + w1.2, s.del_marks, s.checks ++ [s.ptr]⟩ := by
      refine undo_modify_extends_mk _ s _ _ _ _ (by omega) (by omega)
        (mem_checks_append _ _ hs) ?_
      intro x hx _
      exact hfr1 x (by omega)
    obtain ⟨f1, f2⟩ := trx_undo_page_report_modify_upd_fields_extends env recm rec_ offsets
      ignore_prefix tp u (upd_get_n_fields u) 0 _ (undo_modify_extends_bound _ _ _ e1)
      (by dsimp only; omega) r hr
    refine ⟨undo_modify_extends_trans _ _ _ _ (undo_modify_extends_mono _ _ _ e1) f1,
      fun hok => ?_⟩
    obtain ⟨g1, g2⟩ := f2 hok
    have hpg : w1.1 tp = s.undo_page tp := hfr1 tp (Or.inl htp)
    dsimp only at g1 g2
    rw [Mem.byte_eq, hpg, ← Mem.byte_eq] at g1
    rw [hpg] at g2
    have hiff : (∃ u' j, some u = some u' ∧ j < u'.n_fields
          ∧ rec_offs_nth_extern offsets (u'.field_no j) ≠ 0)
        ↔ ∃ j, 0 ≤ j ∧ j < 0 + upd_get_n_fields u
          ∧ rec_offs_nth_extern offsets (u.field_no j) ≠ 0 := by
      unfold upd_get_n_fields
      constructor
      · rintro ⟨u', j, h1, h2, h3⟩
        injection h1 with h1
        subst h1
        exact ⟨j, Nat.zero_le _, by omega, h3⟩
      · rintro ⟨j, _, h2, h3⟩
        exact ⟨u, j, rfl, by omega, h3⟩
    exact ⟨fun h => g1 (hiff.1 h), fun h => g2 (fun h' => h (hiff.2 h'))⟩

/-- The loop over the columns of the table extends the record. -/
theorem trx_undo_page_report_modify_ord_cols_extends (env : undo_modify_env) (recm : Mem)
    (rec_ : Nat) (offsets : Nat → Nat) ( ignore_prefix : Bool) :
    ∀ k c s, s.ptr + 18 ≤ 16384 →
      ∀ r, trx_undo_page_report_modify_ord_cols env recm rec_ offsets ignore_prefix k c s
          = some r →
        undo_modify_extends none s r.1 := by
  intro k
  induction k with
  | zero =>
    intro c s hs r hr
    rw [trx_undo_page_report_modify_ord_cols] at hr
    injection hr with hr
    subst hr
    exact undo_modify_extends_refl _ s hs
  | succ k ih =>
    intro c s hs r hr
    rw [trx_undo_page_report_modify_ord_cols] at hr
    by_cases hord : env.table_col_ord_part c = true
    swap
    · rw [if_neg hord] at hr
      exact ih (c + 1) s hs r hr
    rw [if_pos hord] at hr
    dsimp only [undo_modify_vars.check] at hr
    rw [trx_undo_left_exact s.ptr hs] at hr
    by_cases hc : 16366 - s.ptr < 5 + 15
    · rw [if_pos hc] at hr
      injection hr with hr
      subst hr
      exact undo_modify_extends_mk _ s _ _ _ _ (Nat.le_refl _) hs
        (mem_checks_append _ _ hs) (fun _ _ _ => rfl)
    rw [if_neg hc] at hr
    have hsz1 := mach_write_compressed_size s.undo_page s.ptr
      (env.dict_index_get_nth_col_pos c)
    have hle1 := mach_get_compressed_size_le (env.dict_index_get_nth_col_pos c)
    have hfr1 := mach_write_compressed_frame s.undo_page s.ptr
      (env.dict_index_get_nth_col_pos c)
    generalize mach_write_compressed s.undo_page s.ptr (env.dict_index_get_nth_col_pos c) = w1
      at hr hsz1 hfr1
    by_cases hx : rec_offs_nth_extern offsets (env.dict_index_get_nth_col_pos c) ≠ 0
    · rw [if_pos hx] at hr
      cases he : trx_undo_page_report_modify_ext env w1.1 (s.ptr + w1.2)
          (decide ((rec_get_nth_field rec_ offsets (env.dict_index_get_nth_col_pos c)).2
              < REC_MAX_INDEX_COL_LEN) && ! ignore_prefix)
          recm (rec_get_nth_field rec_ offsets (env.dict_index_get_nth_col_pos c)).1
          (rec_get_nth_field rec_ offsets (env.dict_index_get_nth_col_pos c)).2 with
      | none => rw [he] at hr; exact absurd hr (by simp)
      | some e =>
        rw [he] at hr
        dsimp only at hr
        obtain ⟨x1, x2, x3⟩ := trx_undo_page_report_modify_ext_spec _ _ _ _ _ _ _ e he
        have e1 : undo_modify_extends none s
            ⟨e.undo_page, e.ptr, s.del_marks, s.checks ++ [s.ptr]⟩ := by
          refine undo_modify_extends_mk _ s _ _ _ _ (by omega) (by omega)
            (mem_checks_append _ _ hs) ?_
          intro x hx _
          rw [x3 x (by omega), hfr1 x (by omega)]
        have hb1 := undo_modify_extends_bound _ _ _ e1
        have e2 := trx_undo_page_report_modify_data_extends e.srcm e.field e.len
          ⟨e.undo_page, e.ptr, s.del_marks, s.checks ++ [s.ptr]⟩ hb1
        cases hd : trx_undo_page_report_modify_data e.srcm e.field e.len
            ⟨e.undo_page, e.ptr, s.del_marks, s.checks ++ [s.ptr]⟩ with
        | mk s2 ok =>
          rw [hd] at hr e2
          have e3 := undo_modify_extends_trans _ _ _ _ e1 e2
          cases ok
          · dsimp only at hr
            injection hr with hr
            subst hr
            exact e3
          · dsimp only at hr
            exact undo_modify_extends_trans _ _ _ _ e3
              (ih (c + 1) s2 (undo_modify_extends_bound _ _ _ e3) r hr)
    · rw [if_neg hx] at hr
      have hsz2 := mach_write_compressed_size w1.1 (s.ptr + w1.2)
        (rec_get_nth_field rec_ offsets (env.dict_index_get_nth_col_pos c)).2
      have hle2 := mach_get_compressed_size_le
        (rec_get_nth_field rec_ offsets (env.dict_index_get_nth_col_pos c)).2
      have hfr2 := mach_write_compressed_frame w1.1 (s.ptr + w1.2)
        (rec_get_nth_field rec_ offsets (env.dict_index_get_nth_col_pos c)).2
      generalize mach_write_compressed w1.1 (s.ptr + w1.2)
        (rec_get_nth_field rec_ offsets (env.dict_index_get_nth_col_pos c)).2 = w2
        at hr hsz2 hfr2
      have e1 : undo_modify_extends none s
          ⟨w2.1, s.ptr + w1.2 + w2.2, s.del_marks, s.checks ++ [s.ptr]⟩ := by
        refine undo_modify_extends_mk _ s _ _ _ _ (by omega) (by omega)
          (mem_checks_append _ _ hs) ?_
        intro x hx _
        rw [hfr2 x (by omega), hfr1 x (by omega)]
      have hb1 := undo_modify_extends_bound _ _ _ e1
      have e2 := trx_undo_page_report_modify_data_extends recm
        (rec_get_nth_field rec_ offsets (env.dict_index_get_nth_col_pos c)).1
        (rec_get_nth_field rec_ offsets (env.dict_index_get_nth_col_pos c)).2
        ⟨w2.1, s.ptr + w1.2 + w2.2, s.del_marks, s.checks ++ [s.ptr]⟩ hb1
      cases hd : trx_undo_page_report_modify_data recm
          (rec_get_nth_field rec_ offsets (env.dict_index_get_nth_col_pos c)).1
          (rec_get_nth_field rec_ offsets (env.dict_index_get_nth_col_pos c)).2
          ⟨w2.1, s.ptr + w1.2 + w2.2, s.del_marks, s.checks ++ [s.ptr]⟩ with
      | mk s2 ok =>
        rw [hd] at hr e2
        have e3 := undo_modify_extends_trans _ _ _ _ e1 e2
        cases ok
        · dsimp only at hr
          injection hr with hr
          subst hr
          exact e3
        · dsimp only at hr
          exact undo_modify_extends_trans _ _ _ _ e3
            (ih (c + 1) s2 (undo_modify_extends_bound _ _ _ e3) r hr)

/-- The statements that store the ordering columns extend the record. -/
theorem trx_undo_page_report_modify_ordering_extends (env : undo_modify_env) (recm : Mem)
    (rec_ : Nat) (offsets : Nat → Nat) ( ignore_prefix : Bool) (update : Option upd_t)
    (cmpl_info : Nat) (s : undo_modify_vars) (hs : s.ptr + 18 ≤ 16384) :
    ∀ r, trx_undo_page_report_modify_ordering env recm rec_ offsets ignore_prefix update
        cmpl_info s = some r →
      undo_modify_extends none s r.1 := by
  intro r hr
  unfold trx_undo_page_report_modify_ordering at hr
  by_cases hcond : update.isNone ∨ cmpl_info &&& UPD_NODE_NO_ORD_CHANGE = 0
  swap
  · rw [if_neg hcond] at hr
    injection hr with hr
    subst hr
    exact undo_modify_extends_refl _ s hs
  rw [if_pos hcond] at hr
  dsimp only [undo_modify_vars.check] at hr
  rw [trx_undo_left_exact s.ptr hs] at hr
  by_cases hc : 16366 - s.ptr < 5
  · rw [if_pos hc] at hr
    injection hr with hr
    subst hr
    exact undo_modify_extends_mk _ s _ _ _ _ (Nat.le_refl _) hs
      (mem_checks_append _ _ hs) (fun _ _ _ => rfl)
  rw [if_neg hc] at hr
  have e1 : undo_modify_extends none s ⟨s.undo_page, s.ptr + 2, true, s.checks ++ [s.ptr]⟩ :=
    undo_modify_extends_mk _ s _ _ _ _ (by omega) (by omega)
      (mem_checks_append _ _ hs) (fun _ _ _ => rfl)
  cases hl : trx_undo_page_report_modify_ord_cols env recm rec_ offsets ignore_prefix
      env.dict_table_get_n_cols 0 ⟨s.undo_page, s.ptr + 2, true, s.checks ++ [s.ptr]⟩ with
  | none => rw [hl] at hr; exact absurd hr (by simp)
  | some q =>
    have e2 := trx_undo_page_report_modify_ord_cols_extends env recm rec_ offsets
      ignore_prefix _ _ _ (undo_modify_extends_bound _ _ _ e1) q hl
    have e3 := undo_modify_extends_trans _ _ _ _ e1 e2
    rw [hl] at hr
    obtain ⟨s2, ok⟩ := q
    cases ok
    · dsimp only at hr
      injection hr with hr
      subst hr
      exact e3
    · dsimp only at hr
      injection hr with hr
      subst hr
      obtain ⟨a1, a2, a3, a4⟩ := e3
      have b1 : s.ptr + 2 ≤ s2.ptr := e2.1
      refine ⟨a1, a2, a3, ?_⟩
      intro x hx hne
      dsimp only at hx ⊢
      rw [mach_write_to_2_frame _ _ _ _ (by omega)]
      exact a4 x hx hne

/-- The general parameters take at most 44 bytes and extend the record. -/
theorem trx_undo_page_report_modify_pars_extends (env : undo_modify_env) (trx : trx_t)
    (index : dict_index_t) (recm : Mem) (rec_ : Nat) (offsets : Nat → Nat)
    (update : Option upd_t) (cmpl_info : Nat) (s : undo_modify_vars)
    (hs : s.ptr + 50 ≤ 16366) :
    undo_modify_extends none s
        (trx_undo_page_report_modify_pars env trx index recm rec_ offsets update cmpl_info s).1
    ∧ s.ptr + 2 < (trx_undo_page_report_modify_pars env trx index recm rec_ offsets update
        cmpl_info s).1.ptr := by
  unfold trx_undo_page_report_modify_pars
  dsimp only
  simp only [mach_uint64_write_much_compressed_size, mach_uint64_write_compressed_size]
  have h1 := mach_uint64_get_much_compressed_size_bounds trx.undo_no
  have h2 := mach_uint64_get_much_compressed_size_bounds index.table.id
  have h3 := mach_uint64_get_compressed_size_bounds (trx_read_trx_id recm
    (rec_get_nth_field rec_ offsets (env.dict_index_get_sys_col_pos DATA_TRX_ID)).1)
  have h4 := mach_uint64_get_compressed_size_bounds (trx_read_roll_ptr recm
    (rec_get_nth_field rec_ offsets (env.dict_index_get_sys_col_pos DATA_ROLL_PTR)).1)
  refine ⟨undo_modify_extends_mk _ s _ _ _ _ (by omega) (by omega)
    (fun p hp => Or.inl hp) ?_, by omega⟩
  intro x hx _
  rw [mach_uint64_write_compressed_frame _ _ _ _ (by omega),
    mach_uint64_write_compressed_frame _ _ _ _ (by omega), Mem.put_apply, if_neg (by omega),
    mach_uint64_write_much_compressed_frame _ _ _ _ (by omega),
    mach_uint64_write_much_compressed_frame _ _ _ _ (by omega), Mem.put_apply,
    if_neg (by omega)]

theorem undo_modify_extends_safe (undo_page : Mem) (ff : Nat) (s : undo_modify_vars)
    (hff : ff + 50 ≤ 16366)
    (h : undo_modify_extends (some (ff + 2)) ⟨undo_page, ff, false, [ff]⟩ s) :
    (∀ p ∈ s.checks, p + 18 ≤ 16384)
    ∧ (∀ x, 16366 ≤ x → s.undo_page x = undo_page x)
    ∧ (∀ x, x < ff → s.undo_page x = undo_page x) := by
  obtain ⟨a1, a2, a3, a4⟩ := h
  unfold FIL_PAGE_DATA_END UNIV_PAGE_SIZE at a2 a3
  dsimp only at a1 a3 a4
  refine ⟨?_, ?_, ?_⟩
  · intro p hp
    rcases a3 p hp with h | h
    · rw [List.mem_singleton] at h
      omega
    · omega
  · intro x hx
    exact a4 x (Or.inr (by omega)) (by simp only [ne_eq, Option.some.injEq]; omega)
  · intro x hx
    exact a4 x (Or.inl hx) (by simp only [ne_eq, Option.some.injEq]; omega)

/-- A `return 0` of `trx_undo_page_report_modify` after steps that extend the
record leaves the page header and every byte below the old first free offset
as they were. -/
theorem undo_modify_no_space_spec (undo_page : Mem) (ff : Nat) (s : undo_modify_vars)
    (mtr : mtr_t) (P : Prop) (hlo : 44 ≤ ff) (hff : ff + 50 ≤ 16366)
    (h : undo_modify_extends (some (ff + 2)) ⟨undo_page, ff, false, [ff]⟩ s) :
    (∀ p ∈ (s.no_space mtr).checks, p + 18 ≤ 16384)
    ∧ (∀ x, 16366 ≤ x → (s.no_space mtr).undo_page x = undo_page x)
    ∧ (∀ x, x < ff → x ≠ 42 → x ≠ 43 → (s.no_space mtr).undo_page x = undo_page x)
    ∧ ((s.no_space mtr).ret = 0 →
        (s.no_space mtr).undo_page 42 = undo_page 42
        ∧ (s.no_space mtr).undo_page 43 = undo_page 43)
    ∧ ((s.no_space mtr).ret ≠ 0 → P) := by
  obtain ⟨c1, c2, c3⟩ := undo_modify_extends_safe undo_page ff s hff h
  exact ⟨c1, c2, fun x hx _ _ => c3 x hx, fun _ => ⟨c3 42 (by omega), c3 43 (by omega)⟩,
    fun hne => absurd rfl hne⟩

/-- What `trx_undo_page_report_modify` does to an undo page whose first free
offset lies behind the field `TRX_UNDO_PAGE_FREE` and not behind the place
where `trx_undo_left` is 0: every evaluation of `trx_undo_left` is at such a
place; no byte from that place on and no byte below the first free offset
changes, but for the field `TRX_UNDO_PAGE_FREE`, which changes only when the
offset returned is not 0; and then the offset returned is the old first free
offset, the new one is again no further than that place, the general
parameters are on the page as `trx_undo_page_report_modify_pars` wrote them,
and the type byte has got the flag `TRX_UNDO_UPD_EXTERN` exactly if a field of
the update vector is stored externally. -/
theorem trx_undo_page_report_modify_spec (env : undo_modify_env) (creating : Bool)
    (undo_page : Mem) (trx : trx_t) (index : dict_index_t) (recm : Mem) (rec_ : Nat)
    (offsets : Nat → Nat) (update : Option upd_t) (cmpl_info : Nat) (mtr : mtr_t)
    (r : undo_modify_result) (ff : Nat)
    (hf : mach_read_from_2 undo_page (TRX_UNDO_PAGE_HDR + TRX_UNDO_PAGE_FREE) = ff)
    (hlo : 44 ≤ ff) (hhi : ff + 18 ≤ 16384)
    (hr : trx_undo_page_report_modify env creating undo_page trx index recm rec_ offsets update
      cmpl_info mtr = some r) :
    (∀ p ∈ r.checks, p + 18 ≤ 16384)
    ∧ (∀ x, 16366 ≤ x → r.undo_page x = undo_page x)
    ∧ (∀ x, x < ff → x ≠ 42 → x ≠ 43 → r.undo_page x = undo_page x)
    ∧ (r.ret = 0 → r.undo_page 42 = undo_page 42 ∧ r.undo_page 43 = undo_page 43)
    ∧ (r.ret ≠ 0 →
        r.ret = ff ∧ ff + 50 ≤ 16366
        ∧ mach_read_from_2 r.undo_page 42 + 18 ≤ 16384
        ∧ (∀ x, ff + 3 ≤ x →
            x < (trx_undo_page_report_modify_pars env trx index recm rec_ offsets update
              cmpl_info ⟨undo_page, ff, false, [ff]⟩).1.ptr →
            r.undo_page x = (trx_undo_page_report_modify_pars env trx index recm rec_ offsets
              update cmpl_info ⟨undo_page, ff, false, [ff]⟩).1.undo_page x)
        ∧ ((∃ u j, update = some u ∧ j < u.n_fields
              ∧ rec_offs_nth_extern offsets (u.field_no j) ≠ 0) →
            r.undo_page (ff + 2)
              = ((trx_undo_page_report_modify_pars env trx index recm rec_ offsets update
                  cmpl_info ⟨undo_page, ff, false, [ff]⟩).1.undo_page.byte (ff + 2)
                ||| TRX_UNDO_UPD_EXTERN) % 256)
        ∧ ((¬ ∃ u j, update = some u ∧ j < u.n_fields
              ∧ rec_offs_nth_extern offsets (u.field_no j) ≠ 0) →
            r.undo_page (ff + 2)
              = (trx_undo_page_report_modify_pars env trx index recm rec_ offsets update
                  cmpl_info ⟨undo_page, ff, false, [ff]⟩).1.undo_page (ff + 2))) := by
  unfold trx_undo_page_report_modify at hr
  by_cases hcl : dict_index_is_clust index = false
  · rw [if_pos hcl] at hr
    exact absurd hr (by simp)
  rw [if_neg hcl, hf] at hr
  dsimp only at hr
  rw [trx_undo_left_exact ff hhi] at hr
  by_cases h50 : 16366 - ff < 50
  · rw [if_pos h50] at hr
    injection hr with hr
    subst hr
    dsimp only [undo_modify_vars.no_space]
    refine ⟨?_, fun _ _ => rfl, fun _ _ _ _ => rfl, fun _ => ⟨rfl, rfl⟩,
      fun h => absurd rfl h⟩
    intro p hp
    rw [List.mem_singleton] at hp
    omega
  rw [if_neg h50] at hr
  have hff : ff + 50 ≤ 16366 := by omega
  obtain ⟨ep, hp3⟩ := trx_undo_page_report_modify_pars_extends env trx index recm rec_ offsets
    update cmpl_info ⟨undo_page, ff, false, [ff]⟩ hff
  generalize trx_undo_page_report_modify_pars env trx index recm rec_ offsets update cmpl_info
    ⟨undo_page, ff, false, [ff]⟩ = h at hr ep hp3 ⊢
  dsimp only at hp3
  have eu := trx_undo_page_report_modify_unique_extends recm rec_ offsets
    (dict_index_get_n_unique index) 0 h.1 (undo_modify_extends_bound _ _ _ ep)
  cases hu : trx_undo_page_report_modify_unique recm rec_ offsets
      (dict_index_get_n_unique index) 0 h.1 with
  | mk s2 ok2 =>
    rw [hu] at hr eu
    have e2 := undo_modify_extends_trans _ _ _ _ ep eu
    have hb2 := undo_modify_extends_bound _ _ _ e2
    have hp2 : h.1.ptr ≤ s2.ptr := eu.1
    cases ok2
    · dsimp only at hr
      injection hr with hr
      subst hr
      exact undo_modify_no_space_spec undo_page ff _ mtr _ hlo hff
        (undo_modify_extends_mono _ _ _ e2)
    dsimp only at hr
    cases hq : trx_undo_page_report_modify_updated env recm rec_ offsets h.2 (ff + 2) update
        s2 with
    | none => rw [hq] at hr; exact absurd hr (by simp)
    | some q3 =>
      obtain ⟨e3', fl⟩ := trx_undo_page_report_modify_updated_extends env recm rec_ offsets
        h.2 (ff + 2) update s2 hb2 (by omega) q3 hq
      rw [hq] at hr
      obtain ⟨s3, ok3⟩ := q3
      have e3 := undo_modify_extends_trans _ _ _ _ (undo_modify_extends_mono _ _ _ e2) e3'
      have hb3 := undo_modify_extends_bound _ _ _ e3
      have hp3' : s2.ptr ≤ s3.ptr := e3'.1
      cases ok3
      · dsimp only at hr
        injection hr with hr
        subst hr
        exact undo_modify_no_space_spec undo_page ff _ mtr _ hlo hff e3
      dsimp only at hr
      cases hq4 : trx_undo_page_report_modify_ordering env recm rec_ offsets h.2 update
          cmpl_info s3 with
      | none => rw [hq4] at hr; exact absurd hr (by simp)
      | some q4 =>
        have e4' := trx_undo_page_report_modify_ordering_extends env recm rec_ offsets
          h.2 update cmpl_info s3 hb3 q4 hq4
        rw [hq4] at hr
        obtain ⟨s4, ok4⟩ := q4
        have e4 := undo_modify_extends_trans _ _ _ _ e3 (undo_modify_extends_mono _ _ _ e4')
        have hb4 := undo_modify_extends_bound _ _ _ e4
        have hp4 : s3.ptr ≤ s4.ptr := e4'.1
        cases ok4
        · dsimp only at hr
          injection hr with hr
          subst hr
          exact undo_modify_no_space_spec undo_page ff _ mtr _ hlo hff e4
        dsimp only at hr
        injection hr with hr
        unfold trx_undo_page_report_modify_end at hr
        dsimp only [undo_modify_vars.check] at hr
        rw [trx_undo_left_exact s4.ptr hb4] at hr
        by_cases h2 : 16366 - s4.ptr < 2
        · rw [if_pos h2] at hr
          subst hr
          refine undo_modify_no_space_spec undo_page ff _ mtr _ hlo hff
            (undo_modify_extends_trans _ _ _ _ e4 ?_)
          exact undo_modify_extends_mk _ s4 _ _ _ _ (Nat.le_refl _) hb4
            (mem_checks_append _ _ hb4) (fun _ _ _ => rfl)
        rw [if_neg h2] at hr
        have hH : TRX_UNDO_PAGE_HDR + TRX_UNDO_PAGE_FREE = 42 := rfl
        rw [hH] at hr
        subst hr
        dsimp only
        obtain ⟨c1, c2, c3⟩ := undo_modify_extends_safe undo_page ff s4 hff e4
        have hne : ∀ x, x ≠ ff + 2 → some x ≠ some (ff + 2) := by
          intro x hx
          simp only [ne_eq, Option.some.injEq]
          exact hx
        refine ⟨?_, ?_, ?_, ?_, ?_⟩
        · intro p hp
          rcases List.mem_append.1 hp with h1 | h1
          · exact c1 p h1
          · rw [List.mem_singleton] at h1
            omega
        · intro x hx
          rw [mach_write_to_2_frame _ _ _ _ (by omega), mach_write_to_2_frame _ _ _ _ (by omega),
            mach_write_to_2_frame _ _ _ _ (by omega)]
          exact c2 x hx
        · intro x hx h42 h43
          rw [mach_write_to_2_frame _ _ _ _ (by omega), mach_write_to_2_frame _ _ _ _ (by omega),
            mach_write_to_2_frame _ _ _ _ (by omega)]
          exact c3 x hx
        · intro h0
          omega
        · intro _
          have hs4 : ∀ x, ff + 2 ≤ x → x < s4.ptr →
              mach_write_to_2 (mach_write_to_2 (mach_write_to_2 s4.undo_page s4.ptr ff) ff
                (s4.ptr + 2)) 42 (s4.ptr + 2) x = s4.undo_page x := by
            intro x h1 h2
            rw [mach_write_to_2_frame _ _ _ _ (by omega),
              mach_write_to_2_frame _ _ _ _ (by omega),
              mach_write_to_2_frame _ _ _ _ (by omega)]
          have h43 : s4.undo_page (ff + 2) = s3.undo_page (ff + 2) :=
            e4'.2.2.2 _ (Or.inl (by omega)) (by simp)
          have h32 : s2.undo_page (ff + 2) = h.1.undo_page (ff + 2) :=
            eu.2.2.2 _ (Or.inl (by omega)) (by simp)
          obtain ⟨g1, g2⟩ := fl rfl
          dsimp only at g1 g2
          refine ⟨rfl, hff, ?_, ?_, ?_, ?_⟩
          · rw [mach_read_write_2]
            omega
          · intro x h1 h2
            rw [hs4 x (by omega) (by omega), e4'.2.2.2 x (Or.inl (by omega)) (by simp),
              e3'.2.2.2 x (Or.inl (by omega)) (hne x (by omega)),
              eu.2.2.2 x (Or.inl (by omega)) (by simp)]
          · intro hx
            rw [hs4 _ (Nat.le_refl _) (by omega), h43, g1 hx, Mem.byte_eq, Mem.byte_eq, h32]
          · intro hx
            rw [hs4 _ (Nat.le_refl _) (by omega), h43, g2 hx, h32]


/-! ## Claim C37: the general parameters of an update undo record -/

/-- Reading back a compressed 64-bit value, from any memory that holds the
bytes written. -/
theorem mach_uint64_read_compressed_written (m m' : Mem) (b n : Nat) (hn : n < 2 ^ 64)
    (h : ∀ x, b ≤ x → x < b + mach_uint64_get_compressed_size n →
      m' x = (mach_uint64_write_compressed m b n).1 x) :
    mach_uint64_read_compressed m' b = n := by
  have hb := mach_uint64_get_compressed_size_bounds n
  unfold mach_uint64_get_compressed_size at h hb
  have hhi : mach_read_compressed m' b = n / 2 ^ 32 % 2 ^ 32 := by
    apply mach_read_compressed_written m m' b _ (by omega)
    intro x hx1 hx2
    rw [h x hx1 (by omega)]
    unfold mach_uint64_write_compressed
    simp only [mach_write_compressed_size]
    rw [mach_write_to_4_frame _ _ _ _ (by omega)]
  have hlo : mach_read_from_4 m' (b + mach_get_compressed_size (n / 2 ^ 32 % 2 ^ 32))
      = n % 2 ^ 32 := by
    rw [mach_read_from_4_congr (mach_uint64_write_compressed m b n).1 m' _
      (fun x hx1 hx2 => h x (by omega) (by omega))]
    unfold mach_uint64_write_compressed
    simp only [mach_write_compressed_size]
    rw [mach_read_write_4]
    omega
  unfold mach_uint64_read_compressed
  simp only [hhi, hlo]
  omega

theorem trx_read_trx_id_lt (m : Mem) (ptr : Nat) : trx_read_trx_id m ptr < 2 ^ 64 := by
  unfold trx_read_trx_id mach_read_from_6
  have h1 := mach_read_from_2_lt m ptr
  have h2 := mach_read_from_4_lt m (ptr + 2)
  omega

theorem trx_read_roll_ptr_lt (m : Mem) (ptr : Nat) : trx_read_roll_ptr m ptr < 2 ^ 64 := by
  unfold trx_read_roll_ptr mach_read_from_7 mach_read_from_3
  have h1 := Mem.byte_lt m ptr
  have h2 := Mem.byte_lt m (ptr + 1)
  have h3 := Mem.byte_lt m (ptr + 2)
  have h4 := mach_read_from_4_lt m (ptr + 3)
  omega

theorem rec_get_info_bits_low_lt (m : Mem) (rec_ : Nat) (comp : Bool) :
    rec_get_info_bits_low m rec_ comp < 256 := by
  unfold rec_get_info_bits_low rec_get_bit_field_1 mach_read_from_1 REC_INFO_BITS_SHIFT
  rw [Nat.shiftRight_zero]
  exact Nat.lt_of_le_of_lt Nat.and_le_left (Mem.byte_lt _ _)

/-- The general parameters that `trx_undo_page_report_modify_pars` has written
behind the type byte are read back from any page that holds these bytes. -/
theorem trx_undo_page_report_modify_pars_read (env : undo_modify_env) (trx : trx_t)
    (index : dict_index_t) (recm : Mem) (rec_ : Nat) (offsets : Nat → Nat)
    (update : Option upd_t) (cmpl_info : Nat) (s : undo_modify_vars) (page' : Mem)
    (hno : trx.undo_no < 2 ^ 64) (htid : index.table.id < 2 ^ 64)
    (hag : ∀ x, s.ptr + 3 ≤ x →
      x < (trx_undo_page_report_modify_pars env trx index recm rec_ offsets update cmpl_info
        s).1.ptr →
      page' x = (trx_undo_page_report_modify_pars env trx index recm rec_ offsets update
        cmpl_info s).1.undo_page x) :
    (trx_undo_rec_get_pars page' s.ptr).undo_no = trx.undo_no
    ∧ (trx_undo_rec_get_pars page' s.ptr).table_id = index.table.id
    ∧ (trx_undo_update_rec_get_sys_cols page' (trx_undo_rec_get_pars page' s.ptr).ptr).info_bits
        = rec_get_info_bits_low recm rec_ (dict_table_is_comp index.table)
    ∧ (trx_undo_update_rec_get_sys_cols page' (trx_undo_rec_get_pars page' s.ptr).ptr).trx_id
        = trx_read_trx_id recm
            (rec_get_nth_field rec_ offsets (env.dict_index_get_sys_col_pos DATA_TRX_ID)).1
    ∧ (trx_undo_update_rec_get_sys_cols page' (trx_undo_rec_get_pars page' s.ptr).ptr).roll_ptr
        = trx_read_roll_ptr recm
            (rec_get_nth_field rec_ offsets (env.dict_index_get_sys_col_pos DATA_ROLL_PTR)).1
    ∧ (trx_undo_page_report_modify_pars env trx index recm rec_ offsets update cmpl_info
        s).1.undo_page (s.ptr + 2)
      = ((trx_undo_page_report_modify_type recm rec_ (dict_table_is_comp index.table) update).1
          ||| (cmpl_info * TRX_UNDO_CMPL_INFO_MULT % 2 ^ 64)) % 256 := by
  unfold trx_undo_page_report_modify_pars at hag ⊢
  dsimp only at hag ⊢
  simp only [mach_uint64_write_much_compressed_size, mach_uint64_write_compressed_size]
    at hag ⊢
  have h1 := mach_uint64_get_much_compressed_size_bounds trx.undo_no
  have h2 := mach_uint64_get_much_compressed_size_bounds index.table.id
  have hlt3 := trx_read_trx_id_lt recm
    (rec_get_nth_field rec_ offsets (env.dict_index_get_sys_col_pos DATA_TRX_ID)).1
  have hlt4 := trx_read_roll_ptr_lt recm
    (rec_get_nth_field rec_ offsets (env.dict_index_get_sys_col_pos DATA_ROLL_PTR)).1
  have hib := rec_get_info_bits_low_lt recm rec_ (dict_table_is_comp index.table)
  generalize trx_read_trx_id recm
    (rec_get_nth_field rec_ offsets (env.dict_index_get_sys_col_pos DATA_TRX_ID)).1 = tid
    at hag hlt3 ⊢
  generalize trx_read_roll_ptr recm
    (rec_get_nth_field rec_ offsets (env.dict_index_get_sys_col_pos DATA_ROLL_PTR)).1 = rp
    at hag hlt4 ⊢
  generalize rec_get_info_bits_low recm rec_ (dict_table_is_comp index.table) = ib
    at hag hib ⊢
  generalize (trx_undo_page_report_modify_type recm rec_ (dict_table_is_comp index.table)
    update).1 ||| (cmpl_info * TRX_UNDO_CMPL_INFO_MULT % 2 ^ 64) = tc at hag ⊢
  have h3 := mach_uint64_get_compressed_size_bounds tid
  have h4 := mach_uint64_get_compressed_size_bounds rp
  generalize hpg1 : s.undo_page.put (s.ptr + 2) tc = pg1 at hag ⊢
  generalize hw1 : (mach_uint64_write_much_compressed pg1 (s.ptr + 2 + 1) trx.undo_no).1 = w1
    at hag ⊢
  generalize hw2 : (mach_uint64_write_much_compressed w1
    (s.ptr + 2 + 1 + mach_uint64_get_much_compressed_size trx.undo_no) index.table.id).1 = w2
    at hag ⊢
  generalize hp2 : s.ptr + 2 + 1 + mach_uint64_get_much_compressed_size trx.undo_no
    + mach_uint64_get_much_compressed_size index.table.id = p2 at hag ⊢
  generalize hpg2 : w2.put p2 ib = pg2 at hag ⊢
  generalize hw3 : (mach_uint64_write_compressed pg2 (p2 + 1) tid).1 = w3 at hag ⊢
  generalize hw4 : (mach_uint64_write_compressed w3
    (p2 + 1 + mach_uint64_get_compressed_size tid) rp).1 = w4 at hag ⊢
  have hundo : mach_uint64_read_much_compressed page' (s.ptr + 2 + 1) = trx.undo_no := by
    apply mach_uint64_read_much_compressed_written pg1 page' _ _ hno
    intro x hx1 hx2
    rw [hag x (by omega) (by omega), ← hw4,
      mach_uint64_write_compressed_frame _ _ _ _ (by omega), ← hw3,
      mach_uint64_write_compressed_frame _ _ _ _ (by omega), ← hpg2, Mem.put_apply,
      if_neg (by omega), ← hw2, mach_uint64_write_much_compressed_frame _ _ _ _ (by omega),
      ← hw1]
  have htable : mach_uint64_read_much_compressed page'
      (s.ptr + 2 + 1 + mach_uint64_get_much_compressed_size trx.undo_no)
        = index.table.id := by
    apply mach_uint64_read_much_compressed_written w1 page' _ _ htid
    intro x hx1 hx2
    rw [hag x (by omega) (by omega), ← hw4,
      mach_uint64_write_compressed_frame _ _ _ _ (by omega), ← hw3,
      mach_uint64_write_compressed_frame _ _ _ _ (by omega), ← hpg2, Mem.put_apply,
      if_neg (by omega), ← hw2]
  have hinfo : mach_read_from_1 page' p2 = ib := by
    unfold mach_read_from_1
    rw [Mem.byte_eq, hag p2 (by omega) (by omega), ← hw4,
      mach_uint64_write_compressed_frame _ _ _ _ (by omega), ← hw3,
      mach_uint64_write_compressed_frame _ _ _ _ (by omega), ← hpg2, Mem.put_apply,
      if_pos rfl]
    omega
  have htid' : mach_uint64_read_compressed page' (p2 + 1) = tid := by
    apply mach_uint64_read_compressed_written pg2 page' _ _ hlt3
    intro x hx1 hx2
    rw [hag x (by omega) (by omega), ← hw4,
      mach_uint64_write_compressed_frame _ _ _ _ (by omega), ← hw3]
  have hrp : mach_uint64_read_compressed page'
      (p2 + 1 + mach_uint64_get_compressed_size tid) = rp := by
    apply mach_uint64_read_compressed_written w3 page' _ _ hlt4
    intro x hx1 hx2
    rw [hag x (by omega) (by omega), ← hw4]
  have hptr : (trx_undo_rec_get_pars page' s.ptr).ptr = p2 := by
    unfold trx_undo_rec_get_pars
    simp only [hundo, htable, hp2]
  rw [hptr]
  refine ⟨?_, ?_, ?_, ?_, ?_, ?_⟩
  · unfold trx_undo_rec_get_pars
    simp only [hundo]
  · unfold trx_undo_rec_get_pars
    simp only [hundo, htable]
  · unfold trx_undo_update_rec_get_sys_cols
    simp only [hinfo]
  · unfold trx_undo_update_rec_get_sys_cols
    simp only [htid']
  · unfold trx_undo_update_rec_get_sys_cols
    simp only [htid', hrp]
  · rw [← hw4, mach_uint64_write_compressed_frame _ _ _ _ (by omega), ← hw3,
      mach_uint64_write_compressed_frame _ _ _ _ (by omega), ← hpg2, Mem.put_apply,
      if_neg (by omega), ← hw2, mach_uint64_write_much_compressed_frame _ _ _ _ (by omega),
      ← hw1, mach_uint64_write_much_compressed_frame _ _ _ _ (by omega), ← hpg1,
      Mem.put_apply, if_pos rfl]

set_option maxRecDepth 100000 in
theorem type_cmpl_byte_facts :
    ∀ t, t < 128 →
      t &&& 128 = 0 ∧ (t ||| 128) % 256 = t + 128 ∧ (t + 128) &&& 128 ≠ 0
      ∧ t &&& 15 = t % 16 := by
  decide

set_option maxRecDepth 100000 in
theorem type_cmpl_or_eq :
    ∀ c, c < 8 → ∀ k, k < 16 → (k ||| (c * 16 % 2 ^ 64)) % 256 = k + c * 16 := by
  decide

/-- The type, the compiler info and the flag that `trx_undo_rec_get_pars`
decodes from a type byte, without and with the flag `TRX_UNDO_UPD_EXTERN`. -/
theorem trx_undo_rec_get_pars_type (page : Mem) (undo_rec t : Nat) (ht : t < 128) :
    (mach_read_from_1 page (undo_rec + 2) = t →
        (trx_undo_rec_get_pars page undo_rec).type = t % 16
        ∧ (trx_undo_rec_get_pars page undo_rec).cmpl_info = t / 16
        ∧ undo_rec_pars.updated_extern (trx_undo_rec_get_pars page undo_rec) = false)
    ∧ (mach_read_from_1 page (undo_rec + 2) = t + 128 →
        (trx_undo_rec_get_pars page undo_rec).type = t % 16
        ∧ (trx_undo_rec_get_pars page undo_rec).cmpl_info = t / 16
        ∧ undo_rec_pars.updated_extern (trx_undo_rec_get_pars page undo_rec) = true) := by
  obtain ⟨f1, f2, f3, f4⟩ := type_cmpl_byte_facts t ht
  unfold trx_undo_rec_get_pars
  dsimp only
  unfold TRX_UNDO_UPD_EXTERN TRX_UNDO_CMPL_INFO_MULT
  constructor
  · intro h
    rw [h]
    simp only [f1, ne_eq, not_true_eq_false, decide_False, Bool.false_eq_true, if_false]
    exact ⟨f4, trivial, trivial⟩
  · intro h
    rw [h]
    simp only [f3, ne_eq, not_false_eq_true, decide_True, if_true]
    refine ⟨?_, ?_, trivial⟩
    · rw [show t + 128 - 128 = t from by omega]
      exact f4
    · rw [show t + 128 - 128 = t from by omega]

theorem trx_undo_page_report_modify_type_cases (recm : Mem) (rec_ : Nat) (comp : Bool)
    (update : Option upd_t) :
    (trx_undo_page_report_modify_type recm rec_ comp update).1 = TRX_UNDO_UPD_EXIST_REC
    ∨ (trx_undo_page_report_modify_type recm rec_ comp update).1 = TRX_UNDO_UPD_DEL_REC
    ∨ (trx_undo_page_report_modify_type recm rec_ comp update).1 = TRX_UNDO_DEL_MARK_REC := by
  unfold trx_undo_page_report_modify_type
  cases update with
  | none => exact Or.inr (Or.inr rfl)
  | some u =>
    dsimp only
    split_ifs
    · exact Or.inr (Or.inl rfl)
    · exact Or.inl rfl

/-- Claim C37, with the flag of external storage as the code sets it: the
general parameters of an update undo record round-trip.  On an undo page whose
first free offset lies behind the field `TRX_UNDO_PAGE_FREE` and where
`trx_undo_left` does not wrap around, for an undo number and a table id of 64
bits and a compiler info with `kind + cmpl_info * TRX_UNDO_CMPL_INFO_MULT`
below `TRX_UNDO_UPD_EXTERN`, where `kind` is the type that
`trx_undo_page_report_modify` chooses, one of `TRX_UNDO_UPD_EXIST_REC`,
`TRX_UNDO_UPD_DEL_REC` and `TRX_UNDO_DEL_MARK_REC`: when
`trx_undo_page_report_modify` returns an offset that is not 0,
`trx_undo_rec_get_pars` at this offset, followed by
`trx_undo_update_rec_get_sys_cols`, reads the same kind, the same compiler
info, the undo number of the transaction, the id of the table, and the info
bits, the transaction id and the roll pointer of the record; and
`updated_extern` is true exactly when a field of the update vector is stored
externally. -/
theorem C37_update_undo_record_header_round_trip (env : undo_modify_env) (creating : Bool)
    (undo_page : Mem) (trx : trx_t) (index : dict_index_t) (recm : Mem) (rec_ : Nat)
    (offsets : Nat → Nat) (update : Option upd_t) (cmpl_info : Nat) (mtr : mtr_t)
    (hno : trx.undo_no < 2 ^ 64) (htid : index.table.id < 2 ^ 64)
    (hlo : TRX_UNDO_PAGE_HDR + TRX_UNDO_PAGE_FREE + 2
      ≤ mach_read_from_2 undo_page (TRX_UNDO_PAGE_HDR + TRX_UNDO_PAGE_FREE))
    (hhi : mach_read_from_2 undo_page (TRX_UNDO_PAGE_HDR + TRX_UNDO_PAGE_FREE) + 10
      + FIL_PAGE_DATA_END ≤ UNIV_PAGE_SIZE)
    (hkind : (trx_undo_page_report_modify_type recm rec_ (dict_table_is_comp index.table)
        update).1 + cmpl_info * TRX_UNDO_CMPL_INFO_MULT < TRX_UNDO_UPD_EXTERN)
    (hret : ∃ r, trx_undo_page_report_modify env creating undo_page trx index recm rec_
        offsets update cmpl_info mtr = some r ∧ r.ret ≠ 0) :
    ∃ r, trx_undo_page_report_modify env creating undo_page trx index recm rec_ offsets
        update cmpl_info mtr = some r
      ∧ ((trx_undo_page_report_modify_type recm rec_ (dict_table_is_comp index.table)
            update).1 = TRX_UNDO_UPD_EXIST_REC
          ∨ (trx_undo_page_report_modify_type recm rec_ (dict_table_is_comp index.table)
            update).1 = TRX_UNDO_UPD_DEL_REC
          ∨ (trx_undo_page_report_modify_type recm rec_ (dict_table_is_comp index.table)
            update).1 = TRX_UNDO_DEL_MARK_REC)
      ∧ (trx_undo_rec_get_pars r.undo_page r.ret).type
          = (trx_undo_page_report_modify_type recm rec_ (dict_table_is_comp index.table)
              update).1
      ∧ (trx_undo_rec_get_pars r.undo_page r.ret).cmpl_info = cmpl_info
      ∧ ( undo_rec_pars.updated_extern (trx_undo_rec_get_pars r.undo_page r.ret) = true
          ↔ ∃ u j, update = some u ∧ j < u.n_fields
              ∧ rec_offs_nth_extern offsets (u.field_no j) ≠ 0)
      ∧ (trx_undo_rec_get_pars r.undo_page r.ret).undo_no = trx.undo_no
      ∧ (trx_undo_rec_get_pars r.undo_page r.ret).table_id = index.table.id
      ∧ (trx_undo_update_rec_get_sys_cols r.undo_page
            (trx_undo_rec_get_pars r.undo_page r.ret).ptr).info_bits
          = rec_get_info_bits_low recm rec_ (dict_table_is_comp index.table)
      ∧ (trx_undo_update_rec_get_sys_cols r.undo_page
            (trx_undo_rec_get_pars r.undo_page r.ret).ptr).trx_id
          = trx_read_trx_id recm
              (rec_get_nth_field rec_ offsets (env.dict_index_get_sys_col_pos DATA_TRX_ID)).1
      ∧ (trx_undo_update_rec_get_sys_cols r.undo_page
            (trx_undo_rec_get_pars r.undo_page r.ret).ptr).roll_ptr
          = trx_read_roll_ptr recm
              (rec_get_nth_field rec_ offsets
                (env.dict_index_get_sys_col_pos DATA_ROLL_PTR)).1 := by
  obtain ⟨r, hr, hne⟩ := hret
  have hH : TRX_UNDO_PAGE_HDR + TRX_UNDO_PAGE_FREE = 42 := rfl
  have hps : UNIV_PAGE_SIZE = 16384 := rfl
  have hDE : FIL_PAGE_DATA_END = 8 := rfl
  rw [hH] at hlo hhi
  rw [hps, hDE] at hhi
  generalize hf : mach_read_from_2 undo_page 42 = ff at hlo hhi
  obtain ⟨_, _, _, _, h5⟩ := trx_undo_page_report_modify_spec env creating undo_page trx index
    recm rec_ offsets update cmpl_info mtr r ff (by rw [hH]; exact hf) (by omega) (by omega) hr
  obtain ⟨hreq, hff, _, hag, hfl1, hfl2⟩ := h5 hne
  obtain ⟨p1, p2, p3, p4, p5, p6⟩ := trx_undo_page_report_modify_pars_read env trx index recm
    rec_ offsets update cmpl_info ⟨undo_page, ff, false, [ff]⟩ r.undo_page hno htid hag
  dsimp only at p1 p2 p3 p4 p5 p6
  have hk := trx_undo_page_report_modify_type_cases recm rec_ (dict_table_is_comp index.table)
    update
  unfold TRX_UNDO_CMPL_INFO_MULT TRX_UNDO_UPD_EXTERN at hkind
  generalize (trx_undo_page_report_modify_type recm rec_ (dict_table_is_comp index.table)
    update).1 = kind at hkind hk p6 ⊢
  have hk16 : kind < 16 := by
    unfold TRX_UNDO_UPD_EXIST_REC TRX_UNDO_UPD_DEL_REC TRX_UNDO_DEL_MARK_REC at hk
    omega
  have ht := type_cmpl_or_eq cmpl_info (by omega) kind hk16
  unfold TRX_UNDO_CMPL_INFO_MULT at p6
  rw [ht] at p6
  obtain ⟨d1, d2⟩ := trx_undo_rec_get_pars_type r.undo_page ff (kind + cmpl_info * 16) hkind
  refine ⟨r, hr, hk, ?_⟩
  rw [hreq]
  refine ⟨?_, ?_, ?_, p1, p2, p3, p4, p5⟩
  · by_cases hx : ∃ u j, update = some u ∧ j < u.n_fields
        ∧ rec_offs_nth_extern offsets (u.field_no j) ≠ 0
    · have hb : mach_read_from_1 r.undo_page (ff + 2) = kind + cmpl_info * 16 + 128 := by
        unfold mach_read_from_1
        rw [Mem.byte_eq, hfl1 hx, Mem.byte_eq, p6]
        unfold TRX_UNDO_UPD_EXTERN
        rw [Nat.mod_eq_of_lt (show kind + cmpl_info * 16 < 256 by omega),
          (type_cmpl_byte_facts _ hkind).2.1]
        omega
      rw [(d2 hb).1]
      omega
    · have hb : mach_read_from_1 r.undo_page (ff + 2) = kind + cmpl_info * 16 := by
        unfold mach_read_from_1
        rw [Mem.byte_eq, hfl2 hx, p6]
        omega
      rw [(d1 hb).1]
      omega
  · by_cases hx : ∃ u j, update = some u ∧ j < u.n_fields
        ∧ rec_offs_nth_extern offsets (u.field_no j) ≠ 0
    · have hb : mach_read_from_1 r.undo_page (ff + 2) = kind + cmpl_info * 16 + 128 := by
        unfold mach_read_from_1
        rw [Mem.byte_eq, hfl1 hx, Mem.byte_eq, p6]
        unfold TRX_UNDO_UPD_EXTERN
        rw [Nat.mod_eq_of_lt (show kind + cmpl_info * 16 < 256 by omega),
          (type_cmpl_byte_facts _ hkind).2.1]
        omega
      rw [(d2 hb).2.1]
      omega
    · have hb : mach_read_from_1 r.undo_page (ff + 2) = kind + cmpl_info * 16 := by
        unfold mach_read_from_1
        rw [Mem.byte_eq, hfl2 hx, p6]
        omega
      rw [(d1 hb).2.1]
      omega
  · by_cases hx : ∃ u j, update = some u ∧ j < u.n_fields
        ∧ rec_offs_nth_extern offsets (u.field_no j) ≠ 0
    · have hb : mach_read_from_1 r.undo_page (ff + 2) = kind + cmpl_info * 16 + 128 := by
        unfold mach_read_from_1
        rw [Mem.byte_eq, hfl1 hx, Mem.byte_eq, p6]
        unfold TRX_UNDO_UPD_EXTERN
        rw [Nat.mod_eq_of_lt (show kind + cmpl_info * 16 < 256 by omega),
          (type_cmpl_byte_facts _ hkind).2.1]
        omega
      rw [(d2 hb).2.2]
      exact ⟨fun _ => hx, fun _ => rfl⟩
    · have hb : mach_read_from_1 r.undo_page (ff + 2) = kind + cmpl_info * 16 := by
        unfold mach_read_from_1
        rw [Mem.byte_eq, hfl2 hx, p6]
        omega
      rw [(d1 hb).2.2]
      exact ⟨fun h => absurd h (by simp), fun h => absurd h hx⟩

/-- Claim C37 as stated fails for an externally stored ordering column: in the
delete marking of the record in `sample_clust_rec`, whose BLOB column is stored
externally and is an ordering field of an index,
`trx_undo_page_report_modify` logs the column, with the marker
`UNIV_EXTERN_STORAGE_FIELD` of `trx_undo_page_report_modify_ext` at offset 133
of the page, and `trx_undo_rec_get_pars` reads `updated_extern` as false. -/
theorem C37_extern_ordering_column_logged_without_flag :
    rec_offs_nth_extern sample_clust_rec_offsets
        (sample_undo_modify_env.dict_index_get_nth_col_pos 3) ≠ 0
    ∧ sample_undo_modify_env.table_col_ord_part 3 = true
    ∧ (trx_undo_page_report_modify_type sample_clust_rec 100
        (dict_table_is_comp short_column_index.table) none).1 = TRX_UNDO_DEL_MARK_REC
    ∧ (trx_undo_page_report_modify sample_undo_modify_env false (sample_undo_world.pool 0 7)
        sample_trx short_column_index sample_clust_rec 100 sample_clust_rec_offsets none 0
        mtr_start).map
        (fun r => (r.ret, mach_read_compressed r.undo_page 133,
          undo_rec_pars.updated_extern (trx_undo_rec_get_pars r.undo_page r.ret)))
      = some (100, UNIV_EXTERN_STORAGE_FIELD, false) := by
  decide

/-- Claim C37 on the update of the externally stored BLOB column of the record
in `sample_clust_rec`, with the compiler info `UPD_NODE_NO_ORD_CHANGE`. -/
theorem C37_update_undo_record_header_round_trip_witness :
    (sample_trx.undo_no < 2 ^ 64 ∧ short_column_index.table.id < 2 ^ 64
      ∧ TRX_UNDO_PAGE_HDR + TRX_UNDO_PAGE_FREE + 2
        ≤ mach_read_from_2 (sample_undo_world.pool 0 7) (TRX_UNDO_PAGE_HDR + TRX_UNDO_PAGE_FREE)
      ∧ mach_read_from_2 (sample_undo_world.pool 0 7) (TRX_UNDO_PAGE_HDR + TRX_UNDO_PAGE_FREE)
          + 10 + FIL_PAGE_DATA_END ≤ UNIV_PAGE_SIZE
      ∧ (trx_undo_page_report_modify_type sample_clust_rec 100
          (dict_table_is_comp short_column_index.table) (some sample_upd)).1
          + 1 * TRX_UNDO_CMPL_INFO_MULT < TRX_UNDO_UPD_EXTERN
      ∧ ∃ r, trx_undo_page_report_modify sample_undo_modify_env false
          (sample_undo_world.pool 0 7) sample_trx short_column_index sample_clust_rec 100
          sample_clust_rec_offsets (some sample_upd) 1 mtr_start = some r ∧ r.ret ≠ 0)
    ∧ ∃ r, trx_undo_page_report_modify sample_undo_modify_env false
        (sample_undo_world.pool 0 7) sample_trx short_column_index sample_clust_rec 100
        sample_clust_rec_offsets (some sample_upd) 1 mtr_start = some r
      ∧ ((trx_undo_page_report_modify_type sample_clust_rec 100
            (dict_table_is_comp short_column_index.table) (some sample_upd)).1
            = TRX_UNDO_UPD_EXIST_REC
          ∨ (trx_undo_page_report_modify_type sample_clust_rec 100
            (dict_table_is_comp short_column_index.table) (some sample_upd)).1
            = TRX_UNDO_UPD_DEL_REC
          ∨ (trx_undo_page_report_modify_type sample_clust_rec 100
            (dict_table_is_comp short_column_index.table) (some sample_upd)).1
            = TRX_UNDO_DEL_MARK_REC)
      ∧ (trx_undo_rec_get_pars r.undo_page r.ret).type
          = (trx_undo_page_report_modify_type sample_clust_rec 100
              (dict_table_is_comp short_column_index.table) (some sample_upd)).1
      ∧ (trx_undo_rec_get_pars r.undo_page r.ret).cmpl_info = 1
      ∧ ( undo_rec_pars.updated_extern (trx_undo_rec_get_pars r.undo_page r.ret) = true
          ↔ ∃ u j, some sample_upd = some u ∧ j < u.n_fields
              ∧ rec_offs_nth_extern sample_clust_rec_offsets (u.field_no j) ≠ 0)
      ∧ (trx_undo_rec_get_pars r.undo_page r.ret).undo_no = sample_trx.undo_no
      ∧ (trx_undo_rec_get_pars r.undo_page r.ret).table_id = short_column_index.table.id
      ∧ (trx_undo_update_rec_get_sys_cols r.undo_page
            (trx_undo_rec_get_pars r.undo_page r.ret).ptr).info_bits
          = rec_get_info_bits_low sample_clust_rec 100
              (dict_table_is_comp short_column_index.table)
      ∧ (trx_undo_update_rec_get_sys_cols r.undo_page
            (trx_undo_rec_get_pars r.undo_page r.ret).ptr).trx_id
          = trx_read_trx_id sample_clust_rec
              (rec_get_nth_field 100 sample_clust_rec_offsets
                (sample_undo_modify_env.dict_index_get_sys_col_pos DATA_TRX_ID)).1
      ∧ (trx_undo_update_rec_get_sys_cols r.undo_page
            (trx_undo_rec_get_pars r.undo_page r.ret).ptr).roll_ptr
          = trx_read_roll_ptr sample_clust_rec
              (rec_get_nth_field 100 sample_clust_rec_offsets
                (sample_undo_modify_env.dict_index_get_sys_col_pos DATA_ROLL_PTR)).1 :=
  ⟨⟨by decide, by decide, by decide, by decide, by decide, ⟨_, rfl, by decide⟩⟩,
    C37_update_undo_record_header_round_trip sample_undo_modify_env false
      (sample_undo_world.pool 0 7) sample_trx short_column_index sample_clust_rec 100
      sample_clust_rec_offsets (some sample_upd) 1 mtr_start (by decide) (by decide)
      (by decide) (by decide) (by decide) ⟨_, rfl, by decide⟩⟩


/-! ## Claim C32: the undo record writers stay inside the usable page area -/

/-- The loop of `trx_undo_page_report_insert` with its checks noted is the loop
of `trx_undo_page_report_insert`. -/
theorem trx_undo_page_report_insert_fields_checked_eq (clust_entry : dtuple_t) :
    ∀ k i s,
      trx_undo_page_report_insert_fields clust_entry k i s.undo_page s.ptr
        = ((trx_undo_page_report_insert_fields_checked clust_entry k i s).1.undo_page,
            if (trx_undo_page_report_insert_fields_checked clust_entry k i s).2 = true
              then some (trx_undo_page_report_insert_fields_checked clust_entry k i s).1.ptr
              else none) := by
  intro k
  induction k with
  | zero =>
    intro i s
    rw [trx_undo_page_report_insert_fields, trx_undo_page_report_insert_fields_checked]
    rfl
  | succ k ih =>
    intro i s
    rw [trx_undo_page_report_insert_fields, trx_undo_page_report_insert_fields_checked]
    dsimp only [undo_modify_vars.check]
    by_cases hc : trx_undo_left s.ptr < 5
    · rw [if_pos hc, if_pos hc]
      rfl
    rw [if_neg hc, if_neg hc]
    by_cases hnull : dfield_get_len (dtuple_get_nth_field clust_entry i) ≠ UNIV_SQL_NULL
    · rw [if_pos hnull, if_pos hnull]
      by_cases hc2 : trx_undo_left (s.ptr + (mach_write_compressed s.undo_page s.ptr
          (dfield_get_len (dtuple_get_nth_field clust_entry i))).2)
            < dfield_get_len (dtuple_get_nth_field clust_entry i)
      · rw [if_pos hc2, if_pos hc2]
        rfl
      · rw [if_neg hc2, if_neg hc2]
        exact ih (i + 1) ⟨_, _, _, _⟩
    · rw [if_neg hnull, if_neg hnull]
      exact ih (i + 1) ⟨_, _, _, _⟩

/-- The function `trx_undo_page_report_insert` with its checks noted returns
what `trx_undo_page_report_insert` returns. -/
theorem trx_undo_page_report_insert_checked_eq (creating : Bool) (undo_page : Mem)
    (undo_no : Nat) (index : dict_index_t) (clust_entry : dtuple_t) (mtr : mtr_t) :
    ((trx_undo_page_report_insert_checked creating undo_page undo_no index clust_entry mtr).ret,
      (trx_undo_page_report_insert_checked creating undo_page undo_no index clust_entry
        mtr).undo_page,
      (trx_undo_page_report_insert_checked creating undo_page undo_no index clust_entry
        mtr).mtr)
      = trx_undo_page_report_insert creating undo_page undo_no index clust_entry mtr := by
  unfold trx_undo_page_report_insert_checked trx_undo_page_report_insert
  dsimp only
  by_cases hc : trx_undo_left (mach_read_from_2 undo_page
      (TRX_UNDO_PAGE_HDR + TRX_UNDO_PAGE_FREE)) < 2 + 1 + 11 + 11
  · rw [if_pos hc, if_pos hc]
    rfl
  rw [if_neg hc, if_neg hc]
  rw [trx_undo_page_report_insert_fields_checked_eq clust_entry _ 0
    ⟨(mach_uint64_write_much_compressed
        (mach_uint64_write_much_compressed
          (undo_page.put (mach_read_from_2 undo_page
            (TRX_UNDO_PAGE_HDR + TRX_UNDO_PAGE_FREE) + 2) TRX_UNDO_INSERT_REC)
          (mach_read_from_2 undo_page (TRX_UNDO_PAGE_HDR + TRX_UNDO_PAGE_FREE) + 2 + 1)
          undo_no).1
        (mach_read_from_2 undo_page (TRX_UNDO_PAGE_HDR + TRX_UNDO_PAGE_FREE) + 2 + 1
          + (mach_uint64_write_much_compressed
              (undo_page.put (mach_read_from_2 undo_page
                (TRX_UNDO_PAGE_HDR + TRX_UNDO_PAGE_FREE) + 2) TRX_UNDO_INSERT_REC)
              (mach_read_from_2 undo_page (TRX_UNDO_PAGE_HDR + TRX_UNDO_PAGE_FREE) + 2 + 1)
              undo_no).2)
        index.table.id).1,
      mach_read_from_2 undo_page (TRX_UNDO_PAGE_HDR + TRX_UNDO_PAGE_FREE) + 2 + 1
        + (mach_uint64_write_much_compressed
            (undo_page.put (mach_read_from_2 undo_page
              (TRX_UNDO_PAGE_HDR + TRX_UNDO_PAGE_FREE) + 2) TRX_UNDO_INSERT_REC)
            (mach_read_from_2 undo_page (TRX_UNDO_PAGE_HDR + TRX_UNDO_PAGE_FREE) + 2 + 1)
            undo_no).2
        + (mach_uint64_write_much_compressed
            (mach_uint64_write_much_compressed
              (undo_page.put (mach_read_from_2 undo_page
                (TRX_UNDO_PAGE_HDR + TRX_UNDO_PAGE_FREE) + 2) TRX_UNDO_INSERT_REC)
              (mach_read_from_2 undo_page (TRX_UNDO_PAGE_HDR + TRX_UNDO_PAGE_FREE) + 2 + 1)
              undo_no).1
            (mach_read_from_2 undo_page (TRX_UNDO_PAGE_HDR + TRX_UNDO_PAGE_FREE) + 2 + 1
              + (mach_uint64_write_much_compressed
                  (undo_page.put (mach_read_from_2 undo_page
                    (TRX_UNDO_PAGE_HDR + TRX_UNDO_PAGE_FREE) + 2) TRX_UNDO_INSERT_REC)
                  (mach_read_from_2 undo_page (TRX_UNDO_PAGE_HDR + TRX_UNDO_PAGE_FREE) + 2 + 1)
                  undo_no).2)
            index.table.id).2,
      false, [mach_read_from_2 undo_page (TRX_UNDO_PAGE_HDR + TRX_UNDO_PAGE_FREE)]⟩]
  cases trx_undo_page_report_insert_fields_checked clust_entry (dict_index_get_n_unique index) 0
      _ with
  | mk s2 ok =>
    cases ok
    · rfl
    · rfl

/-- The loop of `trx_undo_page_report_insert` extends the record. -/
theorem trx_undo_page_report_insert_fields_checked_extends (clust_entry : dtuple_t) :
    ∀ k i s, s.ptr + 18 ≤ 16384 →
      undo_modify_extends none s
        (trx_undo_page_report_insert_fields_checked clust_entry k i s).1 := by
  intro k
  induction k with
  | zero =>
    intro i s hs
    rw [trx_undo_page_report_insert_fields_checked]
    exact undo_modify_extends_refl none s hs
  | succ k ih =>
    intro i s hs
    rw [trx_undo_page_report_insert_fields_checked]
    dsimp only [undo_modify_vars.check]
    rw [trx_undo_left_exact s.ptr hs]
    by_cases hc : 16366 - s.ptr < 5
    · rw [if_pos hc]
      exact undo_modify_extends_mk none s _ _ _ _ (Nat.le_refl _) hs
        (mem_checks_append _ _ hs) (fun _ _ _ => rfl)
    rw [if_neg hc]
    have hsz1 := mach_write_compressed_size s.undo_page s.ptr
      (dfield_get_len (dtuple_get_nth_field clust_entry i))
    have hle1 := mach_get_compressed_size_le (dfield_get_len (dtuple_get_nth_field clust_entry i))
    have hfr1 := mach_write_compressed_frame s.undo_page s.ptr
      (dfield_get_len (dtuple_get_nth_field clust_entry i))
    generalize mach_write_compressed s.undo_page s.ptr
      (dfield_get_len (dtuple_get_nth_field clust_entry i)) = w1 at hsz1 hfr1 ⊢
    by_cases hnull : dfield_get_len (dtuple_get_nth_field clust_entry i) ≠ UNIV_SQL_NULL
    · rw [if_pos hnull, trx_undo_left_exact (s.ptr + w1.2) (by omega)]
      have hck : ∀ p ∈ s.checks ++ [s.ptr] ++ [s.ptr + w1.2],
          p ∈ s.checks ∨ p + 18 ≤ 16384 := by
        intro p hp
        rcases List.mem_append.1 hp with h1 | h1
        · exact mem_checks_append _ _ hs p h1
        · rw [List.mem_singleton] at h1
          subst h1
          exact Or.inr (by omega)
      by_cases hc2 : 16366 - (s.ptr + w1.2)
          < dfield_get_len (dtuple_get_nth_field clust_entry i)
      · rw [if_pos hc2]
        refine undo_modify_extends_mk none s _ _ _ _ (by omega) (by omega) hck ?_
        intro x hx _
        exact hfr1 x (by omega)
      · rw [if_neg hc2]
        have e1 : undo_modify_extends none s
            ⟨memcpy_data w1.1 (s.ptr + w1.2) (dtuple_get_nth_field clust_entry i).data
                (dfield_get_len (dtuple_get_nth_field clust_entry i)),
              s.ptr + w1.2 + dfield_get_len (dtuple_get_nth_field clust_entry i),
              s.del_marks, s.checks ++ [s.ptr] ++ [s.ptr + w1.2]⟩ := by
          refine undo_modify_extends_mk none s _ _ _ _ (by omega) (by omega) hck ?_
          intro x hx _
          rw [memcpy_data_apply, if_neg (by omega), hfr1 x (by omega)]
        exact undo_modify_extends_trans none _ _ _ e1
          (ih (i + 1) _ (undo_modify_extends_bound _ _ _ e1))
    · rw [if_neg hnull]
      have e1 : undo_modify_extends none s
          ⟨w1.1, s.ptr + w1.2, s.del_marks, s.checks ++ [s.ptr]⟩ := by
        refine undo_modify_extends_mk none s _ _ _ _ (by omega) (by omega)
          (mem_checks_append _ _ hs) ?_
        intro x hx _
        exact hfr1 x (by omega)
      exact undo_modify_extends_trans none _ _ _ e1
        (ih (i + 1) _ (undo_modify_extends_bound _ _ _ e1))

/-- From the facts on the offsets to the statement that a writer has stayed
inside the usable area of the page. -/
theorem undo_writer_stays_inside_of (undo_page : Mem) (ff : Nat) (r : undo_modify_result)
    (c1 : ∀ p ∈ r.checks, p + 18 ≤ 16384)
    (c2 : ∀ x, 16366 ≤ x → r.undo_page x = undo_page x)
    (c3 : ∀ x, x < ff → x ≠ 42 → x ≠ 43 → r.undo_page x = undo_page x)
    (c4 : r.ret = 0 → r.undo_page 42 = undo_page 42 ∧ r.undo_page 43 = undo_page 43)
    (c5 : r.ret ≠ 0 → r.ret = ff ∧ mach_read_from_2 r.undo_page 42 + 18 ≤ 16384) :
    undo_writer_stays_inside undo_page ff r := by
  have hH : TRX_UNDO_PAGE_HDR + TRX_UNDO_PAGE_FREE = 42 := rfl
  have hps : UNIV_PAGE_SIZE = 16384 := rfl
  have hDE : FIL_PAGE_DATA_END = 8 := rfl
  unfold undo_writer_stays_inside
  rw [hH, hps, hDE]
  refine ⟨fun x hx => c2 x (by omega), ?_, ?_, ?_⟩
  · intro p hp
    have := c1 p hp
    refine ⟨by omega, ?_⟩
    rw [trx_undo_left_exact p this]
    omega
  · intro hne
    obtain ⟨d1, d2⟩ := c5 hne
    exact ⟨d1, by omega⟩
  · intro h0
    obtain ⟨d1, d2⟩ := c4 h0
    refine ⟨?_, d1, d2, ?_⟩
    · apply mach_read_from_2_congr
      intro x h1 h2
      have : x = 42 ∨ x = 43 := by omega
      rcases this with h | h
      · rw [h]; exact d1
      · rw [h]; exact d2
    · intro x hx
      by_cases h42 : x = 42
      · rw [h42]; exact d1
      · by_cases h43 : x = 43
        · rw [h43]; exact d2
        · exact c3 x hx h42 h43

/-- A `return 0` of `trx_undo_page_report_insert` after steps that extend the
record leaves the writer inside the usable area of the page. -/
theorem undo_insert_no_space_inside (undo_page : Mem) (ff : Nat) (s : undo_modify_vars)
    (mtr : mtr_t) (hlo : 44 ≤ ff)
    (h : undo_modify_extends none ⟨undo_page, ff, false, [ff]⟩ s) (hff : ff + 18 ≤ 16384) :
    undo_writer_stays_inside undo_page ff (s.no_space mtr) := by
  obtain ⟨a1, a2, a3, a4⟩ := h
  unfold FIL_PAGE_DATA_END UNIV_PAGE_SIZE at a2 a3
  dsimp only at a1 a3 a4
  apply undo_writer_stays_inside_of
  · intro p hp
    rcases a3 p hp with h | h
    · rw [List.mem_singleton] at h
      omega
    · omega
  · intro x hx
    exact a4 x (Or.inr (by omega)) (by simp)
  · intro x hx _ _
    exact a4 x (Or.inl hx) (by simp)
  · intro _
    exact ⟨a4 42 (Or.inl (by omega)) (by simp), a4 43 (Or.inl (by omega)) (by simp)⟩
  · intro hne
    exact absurd rfl hne

/-- The function `trx_undo_page_report_insert` stays inside the usable area of
an undo page whose first free offset lies behind the field
`TRX_UNDO_PAGE_FREE` and not behind the place where `trx_undo_left` is 0. -/
theorem trx_undo_page_report_insert_checked_inside (creating : Bool) (undo_page : Mem)
    (undo_no : Nat) (index : dict_index_t) (clust_entry : dtuple_t) (mtr : mtr_t) (ff : Nat)
    (hf : mach_read_from_2 undo_page (TRX_UNDO_PAGE_HDR + TRX_UNDO_PAGE_FREE) = ff)
    (hlo : 44 ≤ ff) (hhi : ff + 18 ≤ 16384) :
    undo_writer_stays_inside undo_page ff
      (trx_undo_page_report_insert_checked creating undo_page undo_no index clust_entry
        mtr) := by
  unfold trx_undo_page_report_insert_checked
  rw [hf]
  dsimp only
  rw [trx_undo_left_exact ff hhi]
  by_cases hc : 16366 - ff < 2 + 1 + 11 + 11
  · rw [if_pos hc]
    exact undo_insert_no_space_inside undo_page ff _ mtr hlo
      (undo_modify_extends_refl _ _ hhi) hhi
  rw [if_neg hc]
  simp only [mach_uint64_write_much_compressed_size]
  have h1 := mach_uint64_get_much_compressed_size_bounds undo_no
  have h2 := mach_uint64_get_much_compressed_size_bounds index.table.id
  have e1 : undo_modify_extends none ⟨undo_page, ff, false, [ff]⟩
      ⟨(mach_uint64_write_much_compressed
          (mach_uint64_write_much_compressed (undo_page.put (ff + 2) TRX_UNDO_INSERT_REC)
            (ff + 2 + 1) undo_no).1
          (ff + 2 + 1 + mach_uint64_get_much_compressed_size undo_no) index.table.id).1,
        ff + 2 + 1 + mach_uint64_get_much_compressed_size undo_no
          + mach_uint64_get_much_compressed_size index.table.id, false, [ff]⟩ := by
    refine undo_modify_extends_mk none _ _ _ _ _ (by dsimp only; omega) (by omega)
      (fun p hp => Or.inl hp) ?_
    intro x hx _
    dsimp only at hx ⊢
    rw [mach_uint64_write_much_compressed_frame _ _ _ _ (by omega),
      mach_uint64_write_much_compressed_frame _ _ _ _ (by omega), Mem.put_apply,
      if_neg (by omega)]
  have e2 := trx_undo_page_report_insert_fields_checked_extends clust_entry
    (dict_index_get_n_unique index) 0 _ (undo_modify_extends_bound _ _ _ e1)
  cases hl : trx_undo_page_report_insert_fields_checked clust_entry
      (dict_index_get_n_unique index) 0
      ⟨(mach_uint64_write_much_compressed
          (mach_uint64_write_much_compressed (undo_page.put (ff + 2) TRX_UNDO_INSERT_REC)
            (ff + 2 + 1) undo_no).1
          (ff + 2 + 1 + mach_uint64_get_much_compressed_size undo_no) index.table.id).1,
        ff + 2 + 1 + mach_uint64_get_much_compressed_size undo_no
          + mach_uint64_get_much_compressed_size index.table.id, false, [ff]⟩ with
  | mk s2 ok =>
    rw [hl] at e2
    have e3 := undo_modify_extends_trans none _ _ _ e1 e2
    have hb := undo_modify_extends_bound _ _ _ e3
    cases ok
    · exact undo_insert_no_space_inside undo_page ff _ mtr hlo e3 hhi
    dsimp only [undo_modify_vars.check]
    have hp : ff + 3 ≤ s2.ptr := by
      have q1 : ff + 2 + 1 + mach_uint64_get_much_compressed_size undo_no
          + mach_uint64_get_much_compressed_size index.table.id ≤ s2.ptr := e2.1
      omega
    have hb2 : s2.ptr + 18 ≤ 16384 := hb
    have hH : TRX_UNDO_PAGE_HDR + TRX_UNDO_PAGE_FREE = 42 := rfl
    have hfree : mach_read_from_2 s2.undo_page 42 = ff := by
      rw [mach_read_from_2_congr undo_page s2.undo_page 42
        (fun x _ _ => e3.2.2.2 x (Or.inl (by dsimp only; omega)) (by simp)), ← hH, hf]
    unfold trx_undo_page_set_next_prev_and_add
    dsimp only
    rw [trx_undo_left_exact s2.ptr hb2, hH, hfree]
    by_cases hc2 : 16366 - s2.ptr < 2
    · rw [if_pos hc2]
      exact undo_insert_no_space_inside undo_page ff
        ⟨s2.undo_page, s2.ptr, s2.del_marks, s2.checks ++ [s2.ptr]⟩ mtr hlo
        (undo_modify_extends_trans none _ _ _ e3
          (undo_modify_extends_mk none s2 _ _ _ _ (Nat.le_refl _) hb2
            (mem_checks_append _ _ hb2) (fun _ _ _ => rfl))) hhi
    rw [if_neg hc2]
    dsimp only
    obtain ⟨a1, a2, a3, a4⟩ := e3
    unfold FIL_PAGE_DATA_END UNIV_PAGE_SIZE at a3
    dsimp only at a3 a4
    apply undo_writer_stays_inside_of
    · intro p hp'
      dsimp only at hp'
      rcases List.mem_append.1 hp' with h | h
      · rcases a3 p h with h' | h'
        · rw [List.mem_singleton] at h'
          omega
        · omega
      · rw [List.mem_singleton] at h
        omega
    · intro x hx
      dsimp only
      rw [mach_write_to_2_frame _ _ _ _ (by omega), mach_write_to_2_frame _ _ _ _ (by omega),
        mach_write_to_2_frame _ _ _ _ (by omega)]
      exact a4 x (Or.inr (by omega)) (by simp)
    · intro x hx h42 h43
      dsimp only
      rw [mach_write_to_2_frame _ _ _ _ (by omega), mach_write_to_2_frame _ _ _ _ (by omega),
        mach_write_to_2_frame _ _ _ _ (by omega)]
      exact a4 x (Or.inl hx) (by simp)
    · intro h0
      dsimp only at h0
      omega
    · intro _
      dsimp only
      refine ⟨rfl, ?_⟩
      rw [mach_read_write_2]
      omega

/-- Claim C32: the undo record writers stay inside the usable page area.  On
an undo page whose first free offset lies behind the field
`TRX_UNDO_PAGE_FREE` and is at most
`L = UNIV_PAGE_SIZE - FIL_PAGE_DATA_END - 10`, for all other inputs:
`trx_undo_page_report_insert` (which returns what its version with the checks
noted returns) and `trx_undo_page_report_modify`, when no assertion fails,
change no byte at the offset `L` or behind it; they evaluate `trx_undo_left`
only at pointers for which it does not wrap around; an offset returned that is
not 0 is the old first free offset, and then the new first free offset is at
most `L`; and when they return 0, the field `TRX_UNDO_PAGE_FREE` and every
byte below the old first free offset are as they were. -/
theorem C32_undo_record_writers_stay_inside (env : undo_modify_env) (creating : Bool)
    (undo_page : Mem) (undo_no : Nat) (trx : trx_t) (index : dict_index_t)
    (clust_entry : dtuple_t) (recm : Mem) (rec_ : Nat) (offsets : Nat → Nat)
    (update : Option upd_t) (cmpl_info : Nat) (mtr : mtr_t)
    (hlo : TRX_UNDO_PAGE_HDR + TRX_UNDO_PAGE_FREE + 2
      ≤ mach_read_from_2 undo_page (TRX_UNDO_PAGE_HDR + TRX_UNDO_PAGE_FREE))
    (hhi : mach_read_from_2 undo_page (TRX_UNDO_PAGE_HDR + TRX_UNDO_PAGE_FREE)
      ≤ UNIV_PAGE_SIZE - FIL_PAGE_DATA_END - 10) :
    (((trx_undo_page_report_insert_checked creating undo_page undo_no index clust_entry
          mtr).ret,
        (trx_undo_page_report_insert_checked creating undo_page undo_no index clust_entry
          mtr).undo_page,
        (trx_undo_page_report_insert_checked creating undo_page undo_no index clust_entry
          mtr).mtr)
        = trx_undo_page_report_insert creating undo_page undo_no index clust_entry mtr
      ∧ undo_writer_stays_inside undo_page
          (mach_read_from_2 undo_page (TRX_UNDO_PAGE_HDR + TRX_UNDO_PAGE_FREE))
          (trx_undo_page_report_insert_checked creating undo_page undo_no index clust_entry
            mtr))
    ∧ ∀ r, trx_undo_page_report_modify env creating undo_page trx index recm rec_ offsets
          update cmpl_info mtr = some r →
        undo_writer_stays_inside undo_page
          (mach_read_from_2 undo_page (TRX_UNDO_PAGE_HDR + TRX_UNDO_PAGE_FREE)) r := by
  have hH : TRX_UNDO_PAGE_HDR + TRX_UNDO_PAGE_FREE = 42 := rfl
  have hps : UNIV_PAGE_SIZE = 16384 := rfl
  have hDE : FIL_PAGE_DATA_END = 8 := rfl
  have hlo' : 44 ≤ mach_read_from_2 undo_page (TRX_UNDO_PAGE_HDR + TRX_UNDO_PAGE_FREE) := by
    rw [hH] at hlo ⊢
    omega
  have hhi' : mach_read_from_2 undo_page (TRX_UNDO_PAGE_HDR + TRX_UNDO_PAGE_FREE) + 18
      ≤ 16384 := by
    rw [hps, hDE] at hhi
    omega
  refine ⟨⟨trx_undo_page_report_insert_checked_eq creating undo_page undo_no index clust_entry
    mtr, trx_undo_page_report_insert_checked_inside creating undo_page undo_no index
    clust_entry mtr _ rfl hlo' hhi'⟩, ?_⟩
  intro r hr
  obtain ⟨c1, c2, c3, c4, c5⟩ := trx_undo_page_report_modify_spec env creating undo_page trx
    index recm rec_ offsets update cmpl_info mtr r _ rfl hlo' hhi' hr
  exact undo_writer_stays_inside_of undo_page _ r c1 c2 c3 c4
    (fun hne => ⟨(c5 hne).1, (c5 hne).2.2.1⟩)

/-- Claim C32 on the insert of `short_column_tuple` and on the update of the
BLOB column of the record in `sample_clust_rec`, on an undo page whose first
free offset is 100. -/
theorem C32_undo_record_writers_stay_inside_witness :
    (TRX_UNDO_PAGE_HDR + TRX_UNDO_PAGE_FREE + 2
        ≤ mach_read_from_2 (sample_undo_world.pool 0 7) (TRX_UNDO_PAGE_HDR + TRX_UNDO_PAGE_FREE)
      ∧ mach_read_from_2 (sample_undo_world.pool 0 7) (TRX_UNDO_PAGE_HDR + TRX_UNDO_PAGE_FREE)
        ≤ UNIV_PAGE_SIZE - FIL_PAGE_DATA_END - 10)
    ∧ (((trx_undo_page_report_insert_checked false (sample_undo_world.pool 0 7) 5
            short_column_index short_column_tuple mtr_start).ret,
          (trx_undo_page_report_insert_checked false (sample_undo_world.pool 0 7) 5
            short_column_index short_column_tuple mtr_start).undo_page,
          (trx_undo_page_report_insert_checked false (sample_undo_world.pool 0 7) 5
            short_column_index short_column_tuple mtr_start).mtr)
          = trx_undo_page_report_insert false (sample_undo_world.pool 0 7) 5
              short_column_index short_column_tuple mtr_start
        ∧ undo_writer_stays_inside (sample_undo_world.pool 0 7)
            (mach_read_from_2 (sample_undo_world.pool 0 7)
              (TRX_UNDO_PAGE_HDR + TRX_UNDO_PAGE_FREE))
            (trx_undo_page_report_insert_checked false (sample_undo_world.pool 0 7) 5
              short_column_index short_column_tuple mtr_start))
      ∧ ∀ r, trx_undo_page_report_modify sample_undo_modify_env false
            (sample_undo_world.pool 0 7) sample_trx short_column_index sample_clust_rec 100
            sample_clust_rec_offsets (some sample_upd) 1 mtr_start = some r →
          undo_writer_stays_inside (sample_undo_world.pool 0 7)
            (mach_read_from_2 (sample_undo_world.pool 0 7)
              (TRX_UNDO_PAGE_HDR + TRX_UNDO_PAGE_FREE)) r :=
  ⟨⟨by decide, by decide⟩,
    C32_undo_record_writers_stay_inside sample_undo_modify_env false
      (sample_undo_world.pool 0 7) 5 sample_trx short_column_index short_column_tuple
      sample_clust_rec 100 sample_clust_rec_offsets (some sample_upd) 1 mtr_start
      (by decide) (by decide)⟩

end InnoDB
